import Mathlib

/-!
# thumb-sim: a shallow embedding of the timing simulator

The C++ classes `RegFile`, `Statistics`, `Memory`, `Fetch`, `Decode` and
`Execute` are embedded as Lean structures holding their member variables;
their member functions become functions on an explicit `Processor` state.

Conventions.
* A `uint32_t` is a `Nat`; every arithmetic result is reduced `% 2 ^ 32`
  explicitly (`add32`, `sub32`, `not32`, `shl32`).
* A call of `exit` is an `Except.error`: `Exit.fatal` for `exit(1)` after a
  diagnostic, `Exit.exit im` for the program terminations of BKPT and SVC.
* C arrays are total index maps (`Nat → Nat`); the bound of the array is kept
  next to it (`memSizeWords`, `pipelineSize`, `memAccessWidthWords`).
* The 64-bit statistics counters are unbounded naturals: they are bumped at
  most a few times per simulated cycle.
-/

namespace ThumbSim

/-! ## simulator/utils.h -/

/-- Modulus of `uint32_t` arithmetic. -/
def WORD_MOD : Nat := 4294967296

/-- Number `BYTES_PER_WORD`. -/
def BYTES_PER_WORD : Nat := 4
/-- Number `BITS_PER_BYTE`. -/
def BITS_PER_BYTE : Nat := 8
/-- Number `BITS_PER_WORD`. -/
def BITS_PER_WORD : Nat := 32
/-- Number `BITS_PER_HALFWORD`. -/
def BITS_PER_HALFWORD : Nat := 16
/-- Number `THUMB_INST_BYTES`. -/
def THUMB_INST_BYTES : Nat := 2

/-- Addition of two `uint32_t`. -/
def add32 (a b : Nat) : Nat := (a + b) % 4294967296

/-- Subtraction of two `uint32_t` (wraps below zero). -/
def sub32 (a b : Nat) : Nat := (a % 4294967296 + (4294967296 - b % 4294967296)) % 4294967296

/-- Bitwise complement `~x` of a `uint32_t`. -/
def not32 (x : Nat) : Nat := 4294967295 - x % 4294967296

/-- Left shift `x << n` of a `uint32_t`, the bits shifted out being lost. -/
def shl32 (x n : Nat) : Nat := (x <<< n) % 4294967296

/-- Macro `GET_BYTE_INDEX(addr)`: `addr & (BYTES_PER_WORD - 1)`. -/
def GET_BYTE_INDEX (addr : Nat) : Nat := addr &&& (BYTES_PER_WORD - 1)

/-- Macro `GET_WORD_ADDRESS(addr)`: `addr & ~(BYTES_PER_WORD - 1)`. -/
def GET_WORD_ADDRESS (addr : Nat) : Nat := addr &&& not32 (BYTES_PER_WORD - 1)

/-- Macro `GET_WORD_INDEX(addr)`: `GET_WORD_ADDRESS(addr) >> 2`. -/
def GET_WORD_INDEX (addr : Nat) : Nat := GET_WORD_ADDRESS addr >>> 2

/-- Macro `GET_BIT_AT_POS(val, x)`: `(val >> x) & 0x1`. -/
def GET_BIT_AT_POS (val x : Nat) : Nat := (val >>> x) &&& 1

/-- Macro `NEXT_THUMB_INST(addr)`. -/
def NEXT_THUMB_INST (addr : Nat) : Nat := add32 addr THUMB_INST_BYTES

/-- Macro `PREV_THUMB_INST(addr)`. -/
def PREV_THUMB_INST (addr : Nat) : Nat := sub32 addr THUMB_INST_BYTES

/-- Macro `ALIGN(addr, align)`: `addr & ~(align - 1)`. -/
def ALIGN (addr align : Nat) : Nat := addr &&& not32 (align - 1)

/-- Macro `WORD_TO_BYTE_SIZE(n)`: `n * BYTES_PER_WORD` in `uint32_t`. -/
def WORD_TO_BYTE_SIZE (n : Nat) : Nat := (n * BYTES_PER_WORD) % 4294967296

/-- Ways the simulator process ends: `exit(1)` after a diagnostic on stderr,
or `exit(im)` from BKPT and SVC. -/
inductive Exit where
  | fatal (msg : String)
  | exit (code : Nat)
  deriving DecidableEq, Repr

/-! ## simulator/regfile.h, regfile.cpp -/

/-- Register numbers, `enum class Reg`; `RNONE` (19) is the sentinel. -/
inductive Reg where
  | R0 | R1 | R2 | R3 | R4 | R5 | R6 | R7 | R8 | R9 | R10 | R11 | R12
  | MSP | LR | PC | PSP | XPSR | CONTROL | RNONE
  deriving DecidableEq, Repr

/-- Number `REGFILE_SIZE`. -/
def REGFILE_SIZE : Nat := 19
/-- Number `REGFILE_CORE_REGS_COUNT`. -/
def REGFILE_CORE_REGS_COUNT : Nat := 16

/-- Cast `static_cast<uint32_t>(reg)`. -/
def Reg.toNat : Reg → Nat
  | .R0 => 0 | .R1 => 1 | .R2 => 2 | .R3 => 3 | .R4 => 4 | .R5 => 5 | .R6 => 6
  | .R7 => 7 | .R8 => 8 | .R9 => 9 | .R10 => 10 | .R11 => 11 | .R12 => 12
  | .MSP => 13 | .LR => 14 | .PC => 15 | .PSP => 16 | .XPSR => 17
  | .CONTROL => 18 | .RNONE => 19

/-- Cast `static_cast<Reg>(n)`. -/
def Reg.fromNat : Nat → Reg
  | 0 => .R0 | 1 => .R1 | 2 => .R2 | 3 => .R3 | 4 => .R4 | 5 => .R5 | 6 => .R6
  | 7 => .R7 | 8 => .R8 | 9 => .R9 | 10 => .R10 | 11 => .R11 | 12 => .R12
  | 13 => .MSP | 14 => .LR | 15 => .PC | 16 => .PSP | 17 => .XPSR
  | 18 => .CONTROL | _ => .RNONE

/-- Class `RegFile`: the array `regs[REGFILE_SIZE]`, indexed by register. The
cell of `RNONE` stands for the word behind the array; the callers never write
it. -/
structure RegFile where
  regs : Reg → Nat

namespace RegFile

/-- Method `RegFile::readData(Reg)` (and `RegFile::read`). -/
def readData (rf : RegFile) (reg : Reg) : Nat := rf.regs reg

/-- Method `RegFile::write`. -/
def write (rf : RegFile) (reg : Reg) (data : Nat) : RegFile :=
  { regs := fun r => if r = reg then data else rf.regs r }

/-- Method `RegFile::uint32ToReg`. -/
def uint32ToReg (reg : Nat) : Except Exit Reg :=
  if reg < REGFILE_SIZE then .ok (Reg.fromNat reg)
  else .error (.fatal "Register number out-of-bounds")

/-- Method `RegFile::readData(uint32_t)`: `regs[reg]`. -/
def readDataN (rf : RegFile) (reg : Nat) : Nat := rf.regs (Reg.fromNat reg)

def XPSR_NBIT_INDEX : Nat := 31
def XPSR_ZBIT_INDEX : Nat := 30
def XPSR_CBIT_INDEX : Nat := 29
def XPSR_VBIT_INDEX : Nat := 28
def XPSR_QBIT_INDEX : Nat := 27
def XPSR_TBIT_INDEX : Nat := 24
def CONTROL_PBIT_INDEX : Nat := 0
def CONTROL_SBIT_INDEX : Nat := 1

/-- Macro `MAKE_GET_XPSR_BIT`: `(xpsr >> index) & 0x1`. -/
def getXpsrBit (index xpsr : Nat) : Nat := (xpsr >>> index) &&& 1

/-- Macro `MAKE_SET_XPSR_BIT`:
`(xpsr & ~(0x1 << index)) | ((flag & 0x1) << index)`. -/
def setXpsrBit (index xpsr flag : Nat) : Nat :=
  (xpsr &&& not32 (shl32 1 index)) ||| shl32 (flag &&& 1) index

def getXpsrN (xpsr : Nat) : Nat := getXpsrBit XPSR_NBIT_INDEX xpsr
def getXpsrZ (xpsr : Nat) : Nat := getXpsrBit XPSR_ZBIT_INDEX xpsr
def getXpsrC (xpsr : Nat) : Nat := getXpsrBit XPSR_CBIT_INDEX xpsr
def getXpsrV (xpsr : Nat) : Nat := getXpsrBit XPSR_VBIT_INDEX xpsr
def getXpsrQ (xpsr : Nat) : Nat := getXpsrBit XPSR_QBIT_INDEX xpsr
def getXpsrT (xpsr : Nat) : Nat := getXpsrBit XPSR_TBIT_INDEX xpsr

def setXpsrN (xpsr flag : Nat) : Nat := setXpsrBit XPSR_NBIT_INDEX xpsr flag
def setXpsrZ (xpsr flag : Nat) : Nat := setXpsrBit XPSR_ZBIT_INDEX xpsr flag
def setXpsrC (xpsr flag : Nat) : Nat := setXpsrBit XPSR_CBIT_INDEX xpsr flag
def setXpsrV (xpsr flag : Nat) : Nat := setXpsrBit XPSR_VBIT_INDEX xpsr flag
def setXpsrQ (xpsr flag : Nat) : Nat := setXpsrBit XPSR_QBIT_INDEX xpsr flag
def setXpsrT (xpsr flag : Nat) : Nat := setXpsrBit XPSR_TBIT_INDEX xpsr flag

/-- Macro `MAKE_GET_CONTROL_BIT`: both instances shift by
`CONTROL_SBIT_INDEX`, the macro ignores its `bitName`. -/
def getControlBit (rf : RegFile) : Nat :=
  (rf.regs .CONTROL >>> CONTROL_SBIT_INDEX) &&& 1

def getControlP (rf : RegFile) : Nat := getControlBit rf
def getControlS (rf : RegFile) : Nat := getControlBit rf

/-- Macro `MAKE_SET_CONTROL_BIT`. -/
def setControlBit (index : Nat) (rf : RegFile) (flag : Nat) : RegFile :=
  rf.write .CONTROL
    ((rf.regs .CONTROL &&& not32 (shl32 1 index)) ||| shl32 (flag &&& 1) index)

def setControlP (rf : RegFile) (flag : Nat) : RegFile := setControlBit CONTROL_PBIT_INDEX rf flag
def setControlS (rf : RegFile) (flag : Nat) : RegFile := setControlBit CONTROL_SBIT_INDEX rf flag

/-- Method `RegFile::getActiveSp`. -/
def getActiveSp (rf : RegFile) : Reg :=
  if getControlS rf = 0 then .MSP else .PSP

end RegFile

/-! ## simulator/stats.h, stats.cpp -/

/-- Instruction classes counted by the statistics, `enum class Instruction`. -/
inductive Instruction where
  | ADC | ADD | AND | ASR | B | BIC | BL | BLX | BX | CMN | CMP | EOR | LDMIA
  | LDR | LDRB | LDRH | LDRSB | LDRSH | LSL | LSR | MVN | MOV | MUL | NEG | NOP
  | ORR | REV | REV16 | REVSH | ROR | SBC | PUSH | STMIA | STR | STRB | STRH
  | SUB | SXTB | SXTH | TST | UXTB | UXTH
  deriving DecidableEq, Repr

/-- Class `Statistics`; `instCount` is the unordered map, an absent key
reading as 0. -/
structure Statistics where
  cycles : Nat
  fetchMemCycles : Nat
  executeMemCycles : Nat
  stalledForDecodeCycles : Nat
  programSizeBytes : Nat
  memSizeWords : Nat
  memAccessWidthWords : Nat
  branchTaken : Nat
  branchNotTaken : Nat
  instCount : Instruction → Nat

namespace Statistics

def addCycle (st : Statistics) : Statistics := { st with cycles := st.cycles + 1 }
def addFetchCycle (st : Statistics) : Statistics :=
  { st with fetchMemCycles := st.fetchMemCycles + 1 }
def addExecuteCycle (st : Statistics) : Statistics :=
  { st with executeMemCycles := st.executeMemCycles + 1 }
def addStallForDecodeCycle (st : Statistics) : Statistics :=
  { st with stalledForDecodeCycles := st.stalledForDecodeCycles + 1 }
def addBranchTaken (st : Statistics) : Statistics :=
  { st with branchTaken := st.branchTaken + 1 }
def addBranchNotTaken (st : Statistics) : Statistics :=
  { st with branchNotTaken := st.branchNotTaken + 1 }

/-- Method `Statistics::addInstruction` (macro `MAKE_ADD_TO_UMAP_FUNCTION`). -/
def addInstruction (st : Statistics) (key : Instruction) : Statistics :=
  { st with instCount := fun k => if k = key then st.instCount k + 1 else st.instCount k }

end Statistics

/-! ## simulator/memory.h -/

/-- Enumeration `Component`. -/
inductive Component where
  | FETCH | DECODE | EXECUTE | RESET | NONE
  deriving DecidableEq, Repr

/-- Enumeration `MemoryAccessType`. -/
inductive MemoryAccessType where
  | LOAD | STORE | NONE
  deriving DecidableEq, Repr

/-- Class `MemoryRequest`, one slot of the request ring. `reqData` and
`respData` are arrays of `memAccessWidthWords` words; the array `reqEnable`
is allocated but never read or written and is left out. -/
structure MemoryRequest where
  issuer : Component
  type : MemoryAccessType
  token : Nat
  byteAddr : Nat
  reqData : Nat → Nat
  respData : Nat → Nat

/-- Class `Memory`: the word array `mem[memSizeWords]` and the ring
`pipeline[pipelineSize]`, where `pipelineSize` is the constructor argument
plus one. -/
structure Memory where
  mem : Nat → Nat
  memSizeWords : Nat
  memAccessWidthWords : Nat
  pipeline : Nat → MemoryRequest
  pipelineSize : Nat
  nextReqIndex : Nat
  nextToken : Nat

/-! ## simulator/decode.h -/

/-- Enumeration `DecodedOperation`. -/
inductive DecodedOperation where
  | NOP | ADC | ADD1 | ADD2 | ADD3 | ADD4 | ADD5 | ADD6 | ADD7 | AND | ASR1
  | ASR2 | B1 | B2 | BIC | BKPT | BL | BLX | BX | CMN | CMP1 | CMP2 | CMP3
  | CPS | CPY | EOR | LDMIA | LDR1 | LDR2 | LDR3 | LDR4 | LDRB1 | LDRB2
  | LDRH1 | LDRH2 | LDRSB | LDRSH | LSL1 | LSL2 | LSR1 | LSR2 | MOV1 | MOV2
  | MUL | MVN | NEG | ORR | POP | PUSH | REV | REV16 | REVSH | ROR | SBC
  | STMIA | STR1 | STR2 | STR3 | STRB1 | STRB2 | STRH1 | STRH2 | SUB1 | SUB2
  | SUB3 | SUB4 | SVC | SXTB | SXTH | TST | UXTB | UXTH
  deriving DecidableEq, Repr

/-- Enumeration `DecodedInstRegIndex`, without the count `RCOUNT`. -/
inductive DecodedInstRegIndex where
  | RD | RT | RDN | RM | RN | XPSR
  deriving DecidableEq, Repr

/-- Enumeration `DecodedCondition`, without the count `COUNT`. -/
inductive DecodedCondition where
  | EQ | NE | CS | CC | MI | PL | VS | VC | HI | LS | GE | LT | GT | LE | U0 | U1
  deriving DecidableEq, Repr

/-- Cast `static_cast<DecodedCondition>(n)` for `n < 16`. -/
def DecodedCondition.fromNat : Nat → DecodedCondition
  | 0 => .EQ | 1 => .NE | 2 => .CS | 3 => .CC | 4 => .MI | 5 => .PL | 6 => .VS
  | 7 => .VC | 8 => .HI | 9 => .LS | 10 => .GE | 11 => .LT | 12 => .GT
  | 13 => .LE | 14 => .U0 | _ => .U1

/-- Class `DecodedInst` (the unused member `pending` is left out). -/
structure DecodedInst where
  op : DecodedOperation
  regsNumber : DecodedInstRegIndex → Reg
  regsData : DecodedInstRegIndex → Nat
  im : Nat
  regList : Nat
  cond : DecodedCondition

namespace DecodedInst

/-- Expression `new DecodedInst()`: the object is zero-initialised and then the
member initialisers run; `regsNumber{ Reg::RNONE }` sets only element 0 (RD)
to `RNONE`, the other elements stay `Reg(0)`. -/
def new : DecodedInst :=
  { op := .NOP
    regsNumber := fun i => if i = .RD then .RNONE else .R0
    regsData := fun _ => 0
    im := 0
    regList := 0
    cond := .EQ }

def setOperation (d : DecodedInst) (opIn : DecodedOperation) : DecodedInst := { d with op := opIn }
def setImmediate (d : DecodedInst) (imIn : Nat) : DecodedInst := { d with im := imIn }
def setRegisterList (d : DecodedInst) (regListIn : Nat) : DecodedInst := { d with regList := regListIn }
def getOperation (d : DecodedInst) : DecodedOperation := d.op
def getImmediate (d : DecodedInst) : Nat := d.im
def getRegisterNumber (d : DecodedInst) (index : DecodedInstRegIndex) : Reg := d.regsNumber index
def getRegisterData (d : DecodedInst) (index : DecodedInstRegIndex) : Nat := d.regsData index
def getRegisterList (d : DecodedInst) : Nat := d.regList
def getCondition (d : DecodedInst) : DecodedCondition := d.cond

/-- Method `DecodedInst::setRegister(index, Reg, data)`. -/
def setRegister (d : DecodedInst) (index : DecodedInstRegIndex) (reg : Reg) (data : Nat) :
    DecodedInst :=
  { d with
    regsNumber := fun i => if i = index then reg else d.regsNumber i
    regsData := fun i => if i = index then data else d.regsData i }

/-- Method `DecodedInst::setRegister(index, uint32_t, data)`. -/
def setRegisterN (d : DecodedInst) (index : DecodedInstRegIndex) (reg data : Nat) :
    Except Exit DecodedInst :=
  match RegFile.uint32ToReg reg with
  | .ok r => .ok (d.setRegister index r data)
  | .error e => .error e

/-- Method `DecodedInst::setCondition`. -/
def setCondition (d : DecodedInst) (condIn : Nat) : Except Exit DecodedInst :=
  if condIn ≥ 16 then .error (.fatal "Invalid condition flag")
  else .ok { d with cond := DecodedCondition.fromNat condIn }

end DecodedInst

/-- Class `Decode`, its member variables. -/
structure Decode where
  decodedHalfInst : Bool
  flushPending : Bool
  decodedInst : Option DecodedInst

/-! ## simulator/fetch.h -/

/-- Class `Fetch`, its member variables; `instBuffer` holds
`2 * memAccessWidthWords` halfwords. -/
structure Fetch where
  memToken : Nat
  issuedMemAccess : Bool
  instBuffer : Nat → Nat
  instBufferBaseAddr : Nat
  instBufferValid : Bool
  flushPending : Bool

/-! ## simulator/execute.h -/

/-- Enumeration `ExecuteState`. -/
inductive ExecuteState where
  | NEXT_INST | LOAD_MEM_REQ | LOAD_MEM_RESP | STORE_MEM_REQ | STORE_MEM_RESP
  | MULTIPLE_LOAD_FIRST_MEM_REQ | MULTIPLE_LOAD_MEM_REQ
  | MULTIPLE_STORE_FIRST_MEM_REQ | MULTIPLE_STORE_MEM_REQ | FLUSH_PIPELINE
  deriving DecidableEq, Repr

/-- Enumeration `MemoryInstructionType`. -/
inductive MemoryInstructionType where
  | SBYTE | UBYTE | SHALFWORD | UHALFWORD | WORD
  deriving DecidableEq, Repr

/-- Struct `LoadTemporaries`. -/
structure LoadTemporaries where
  ptr : Nat
  byteOffset : Nat
  type : MemoryInstructionType
  destReg : Reg
  memToken : Nat
  data : Nat

/-- Struct `StoreTemporaries`. -/
structure StoreTemporaries where
  ptr : Nat
  byteOffset : Nat
  type : MemoryInstructionType
  memToken : Nat
  data : Nat
  dataReg : Reg
  addrReg : Reg

/-- Struct `MultipleLoadTemporaries`. -/
structure MultipleLoadTemporaries where
  ptr : Nat
  byteOffset : Nat
  regList : List Reg
  memToken : Nat
  data : Nat
  destReg : Reg
  baseReg : Reg

/-- Struct `MultipleStoreTemporaries`. -/
structure MultipleStoreTemporaries where
  ptr : Nat
  regList : List Reg
  byteOffset : Nat
  data : Nat
  memToken : Nat
  baseReg : Reg
  srcReg : Reg
  op : DecodedOperation

/-- Class `Execute`, its member variables. -/
structure Execute where
  execState : ExecuteState
  curExecState : ExecuteState
  loadTmps : LoadTemporaries
  storeTmps : StoreTemporaries
  mloadTmps : MultipleLoadTemporaries
  mstoreTmps : MultipleStoreTemporaries
  decodedInst : Option DecodedInst

/-! ## simulator/processor.h -/

/-- Class `Processor`: the six components. The pointers the components hold
to each other become accesses to this one state. `output` collects the
characters written by `putchar`. -/
structure Processor where
  stats : Statistics
  regFile : RegFile
  mem : Memory
  fetch : Fetch
  decode : Decode
  execute : Execute
  output : List Nat

/-! ## Constructors -/

/-- Constructor `Memory::Memory`. The size is rounded up to a multiple of the
access width, the words are zeroed, and the ring has `pipelineSizeIn + 1`
slots. The `reqData` and `respData` arrays come from `new[]` without an
initialiser; they are taken as zero. A width of 0 divides by zero in the C++. -/
def Memory.new (memSizeWordsIn memAccessWidthWordsIn pipelineSizeIn : Nat) : Memory :=
  { mem := fun _ => 0
    memSizeWords :=
      if memSizeWordsIn % memAccessWidthWordsIn > 0 then
        sub32 (add32 memSizeWordsIn memAccessWidthWordsIn) (memSizeWordsIn % memAccessWidthWordsIn)
      else memSizeWordsIn
    memAccessWidthWords := memAccessWidthWordsIn
    pipeline := fun _ =>
      { issuer := .NONE, type := .NONE, token := 0, byteAddr := 0
        reqData := fun _ => 0, respData := fun _ => 0 }
    pipelineSize := add32 pipelineSizeIn 1
    nextReqIndex := 0
    nextToken := 0 }

/-- Object `RegFile` after construction: `regs[REGFILE_SIZE]{ 0 }`. -/
def RegFile.new : RegFile := { regs := fun _ => 0 }

/-- Object `Statistics` after construction. -/
def Statistics.new : Statistics :=
  { cycles := 0, fetchMemCycles := 0, executeMemCycles := 0, stalledForDecodeCycles := 0
    programSizeBytes := 0, memSizeWords := 0, memAccessWidthWords := 0
    branchTaken := 0, branchNotTaken := 0, instCount := fun _ => 0 }

/-- Object `Fetch` after construction (the buffer contents are taken as zero). -/
def Fetch.new : Fetch :=
  { memToken := 4294967295, issuedMemAccess := false, instBuffer := fun _ => 0
    instBufferBaseAddr := 0, instBufferValid := false, flushPending := false }

/-- Object `Decode` after construction. -/
def Decode.new : Decode :=
  { decodedHalfInst := false, flushPending := false, decodedInst := none }

/-- Object `Execute` after construction; the temporaries are not initialised by
the C++ and are taken as zero. -/
def Execute.new : Execute :=
  { execState := .NEXT_INST
    curExecState := .NEXT_INST
    loadTmps := { ptr := 0, byteOffset := 0, type := .SBYTE, destReg := .R0, memToken := 0, data := 0 }
    storeTmps := { ptr := 0, byteOffset := 0, type := .SBYTE, memToken := 0, data := 0,
                   dataReg := .R0, addrReg := .R0 }
    mloadTmps := { ptr := 0, byteOffset := 0, regList := [], memToken := 0, data := 0,
                   destReg := .R0, baseReg := .R0 }
    mstoreTmps := { ptr := 0, regList := [], byteOffset := 0, data := 0, memToken := 0,
                    baseReg := .R0, srcReg := .R0, op := .NOP }
    decodedInst := none }

/-- Constructor `Processor::Processor`: the memory pipeline size is 2. -/
def Processor.new (memSizeWordsIn memAccessWidthWordsIn : Nat) : Processor :=
  let mem := Memory.new memSizeWordsIn memAccessWidthWordsIn 2
  { stats := { Statistics.new with
      memSizeWords := mem.memSizeWords, memAccessWidthWords := mem.memAccessWidthWords }
    regFile := RegFile.new
    mem := mem
    fetch := Fetch.new
    decode := Decode.new
    execute := Execute.new
    output := [] }

/-! ## library/alu.cpp: the flag calculus -/

namespace Execute

/-- Method `Execute::calculateXpsrZ`. -/
def calculateXpsrZ (s : Processor) (res : Nat) : Processor :=
  let xpsr := s.regFile.readData .XPSR
  let xpsr := if res = 0 then RegFile.setXpsrZ xpsr 1 else RegFile.setXpsrZ xpsr 0
  { s with regFile := s.regFile.write .XPSR xpsr }

/-- Method `Execute::calculateXpsrN`. -/
def calculateXpsrN (s : Processor) (res bits : Nat) : Processor :=
  if bits > 32 ∨ bits < 1 then s
  else
    let xpsr := s.regFile.readData .XPSR
    let xpsr := if res >>> (bits - 1) = 0 then RegFile.setXpsrN xpsr 0 else RegFile.setXpsrN xpsr 1
    { s with regFile := s.regFile.write .XPSR xpsr }

/-- Method `Execute::calculateXpsrQ`. -/
def calculateXpsrQ (s : Processor) : Processor :=
  let xpsr := s.regFile.readData .XPSR
  let xpsr := RegFile.setXpsrQ xpsr 0
  { s with regFile := s.regFile.write .XPSR xpsr }

/-- Local `mask` of the flag routines: `(bits < 32) ? (0x1 << bits) - 1 : ~0`. -/
def flagMask (bits : Nat) : Nat :=
  if bits < 32 then sub32 (shl32 1 bits) 1 else not32 0

/-- Method `Execute::calculateXpsrC`. -/
def calculateXpsrC (s : Processor) (res op0 op1 cflag bits : Nat) : Processor :=
  let msb := sub32 bits 1
  let mask := flagMask bits
  let mask_msb := mask &&& not32 (shl32 1 msb)
  let xpsr := s.regFile.readData .XPSR
  let op0 := op0 &&& mask
  let op1 := op1 &&& mask
  let _res := res &&& mask
  let tmp0 := add32 (add32 (op0 &&& mask_msb) (op1 &&& mask_msb)) cflag
  let tmp0 := add32 (add32 (op0 >>> msb) (op1 >>> msb)) (tmp0 >>> msb)
  let xpsr := if tmp0 &&& 2 ≠ 0 then RegFile.setXpsrC xpsr 1 else RegFile.setXpsrC xpsr 0
  { s with regFile := s.regFile.write .XPSR xpsr }

/-- Method `Execute::calculateXpsrFlags`. -/
def calculateXpsrFlags (s : Processor) (res op0 op1 cflag bits : Nat) : Processor :=
  if bits > 32 ∨ bits < 1 then s
  else
    let msb := bits - 1
    let mask := flagMask bits
    let mask_msb := mask &&& not32 (shl32 1 msb)
    let s := calculateXpsrZ s res
    let s := calculateXpsrN s res bits
    let s := calculateXpsrQ s
    let xpsr := s.regFile.readData .XPSR
    let op0 := op0 &&& mask
    let op1 := op1 &&& mask
    let _res := res &&& mask
    let tmp0 := add32 (add32 (op0 &&& mask_msb) (op1 &&& mask_msb)) cflag
    let tmp0 := add32 (add32 (op0 >>> msb) (op1 >>> msb)) (tmp0 >>> msb)
    let xpsr := if tmp0 &&& 2 ≠ 0 then RegFile.setXpsrC xpsr 1 else RegFile.setXpsrC xpsr 0
    let tmp0 := (add32 (add32 (op0 &&& mask_msb) (op1 &&& mask_msb)) cflag) >>> msb
    let tmp1 := (add32 (add32 tmp0 (op0 >>> msb)) (op1 >>> msb)) >>> 1
    let xpsr := if (tmp0 ^^^ tmp1) &&& 1 ≠ 0 then RegFile.setXpsrV xpsr 1
      else RegFile.setXpsrV xpsr 0
    { s with regFile := s.regFile.write .XPSR xpsr }

/-- Statement `regFile->write(reg, data)` on the processor state. -/
def writeReg (s : Processor) (reg : Reg) (data : Nat) : Processor :=
  { s with regFile := s.regFile.write reg data }

/-- Statement `stats->addInstruction(inst)` on the processor state. -/
def addInstruction (s : Processor) (inst : Instruction) : Processor :=
  { s with stats := s.stats.addInstruction inst }

/-- Statement `stats->addBranchTaken()` on the processor state. -/
def addBranchTaken (s : Processor) : Processor :=
  { s with stats := s.stats.addBranchTaken }

/-- Statement `stats->addBranchNotTaken()` on the processor state. -/
def addBranchNotTaken (s : Processor) : Processor :=
  { s with stats := s.stats.addBranchNotTaken }

/-- Method `Execute::adc`. -/
def adc (s : Processor) (rdn : Reg) (drdn drm cflag : Nat) : Processor :=
  let dres := add32 (add32 drdn drm) cflag
  let s := calculateXpsrFlags s dres drdn drm cflag BITS_PER_WORD
  let s := writeReg s rdn dres
  addInstruction s .ADC

/-- Method `Execute::add1`. -/
def add1 (s : Processor) (rd : Reg) (drn im : Nat) : Processor :=
  let dres := add32 drn im
  let s := calculateXpsrFlags s dres drn im 0 BITS_PER_WORD
  let s := writeReg s rd dres
  addInstruction s .ADD

/-- Method `Execute::add2`. -/
def add2 (s : Processor) (rdn : Reg) (drdn im : Nat) : Processor :=
  let dres := add32 drdn im
  let s := calculateXpsrFlags s dres drdn im 0 BITS_PER_WORD
  let s := writeReg s rdn dres
  addInstruction s .ADD

/-- Method `Execute::add3`. -/
def add3 (s : Processor) (rd : Reg) (drn drm : Nat) : Processor :=
  let dres := add32 drn drm
  let s := calculateXpsrFlags s dres drn drm 0 BITS_PER_WORD
  let s := writeReg s rd dres
  addInstruction s .ADD

/-- Method `Execute::cmn`. -/
def cmn (s : Processor) (drn drm : Nat) : Processor :=
  let dres := add32 drn drm
  let s := calculateXpsrFlags s dres drn drm 0 BITS_PER_WORD
  addInstruction s .CMN

/-- Method `Execute::cmp1`. -/
def cmp1 (s : Processor) (drn im : Nat) : Processor :=
  let dres := sub32 drn im
  let s := calculateXpsrFlags s dres drn (not32 im) 1 BITS_PER_WORD
  addInstruction s .CMP

/-- Method `Execute::cmp2Cmp3`. -/
def cmp2Cmp3 (s : Processor) (drn drm : Nat) : Processor :=
  let dres := sub32 drn drm
  let s := calculateXpsrFlags s dres drn (not32 drm) 1 BITS_PER_WORD
  addInstruction s .CMP

/-- Method `Execute::sbc`. -/
def sbc (s : Processor) (rdn : Reg) (drdn drm cflag : Nat) : Processor :=
  let cflag := if cflag = 0 then 1 else 0
  let dres := sub32 (sub32 drdn drm) cflag
  let s := calculateXpsrZ s dres
  let s := calculateXpsrN s dres BITS_PER_WORD
  let s := calculateXpsrC s dres drdn (not32 drm) cflag BITS_PER_WORD
  let s := writeReg s rdn dres
  addInstruction s .SBC

/-- Method `Execute::sub1`. -/
def sub1 (s : Processor) (rd : Reg) (drn im : Nat) : Processor :=
  let dres := sub32 drn im
  let s := calculateXpsrFlags s dres drn (not32 im) 1 BITS_PER_WORD
  let s := writeReg s rd dres
  addInstruction s .SUB

/-- Method `Execute::sub2`. -/
def sub2 (s : Processor) (rdn : Reg) (drdn im : Nat) : Processor :=
  let dres := sub32 drdn im
  let s := calculateXpsrFlags s dres drdn (not32 im) 1 BITS_PER_WORD
  let s := writeReg s rdn dres
  addInstruction s .SUB

/-- Method `Execute::sub3`. -/
def sub3 (s : Processor) (rd : Reg) (drm drn : Nat) : Processor :=
  let dres := sub32 drn drm
  let s := calculateXpsrFlags s dres drn (not32 drm) 1 BITS_PER_WORD
  let s := writeReg s rd dres
  addInstruction s .SUB

end Execute

/-! ## library/alu.cpp: the other instructions -/

namespace Execute

/-- Method `Execute::add6Add7`. -/
def add6Add7 (s : Processor) (rd : Reg) (drm im : Nat) : Processor :=
  let im := shl32 im 2
  let dres := add32 drm im
  let s := writeReg s rd dres
  addInstruction s .ADD

/-- Method `Execute::add5`. -/
def add5 (s : Processor) (rd : Reg) (drm im : Nat) : Processor :=
  add6Add7 s rd (ALIGN drm BYTES_PER_WORD) im

/-- Method `Execute::and0`. -/
def and0 (s : Processor) (rdn : Reg) (drdn drm : Nat) : Processor :=
  let dres := drdn &&& drm
  let s := calculateXpsrZ s dres
  let s := calculateXpsrN s dres BITS_PER_WORD
  let s := writeReg s rdn dres
  addInstruction s .AND

/-- Statement `dxpsr = setXpsrC(readData(XPSR), flag); write(XPSR, dxpsr)`. -/
def writeXpsrC (s : Processor) (flag : Nat) : Processor :=
  writeReg s .XPSR (RegFile.setXpsrC (s.regFile.readData .XPSR) flag)

/-- Method `Execute::asr1`. -/
def asr1 (s : Processor) (rd : Reg) (drm im : Nat) : Except Exit Processor :=
  if im ≥ BITS_PER_WORD then .error (.fatal "ASR1 received more than 31 shift immediate")
  else
    let r : Nat × Processor :=
      if im = 0 then (drm, s)
      else
        let dres := drm >>> im
        let dres := if GET_BIT_AT_POS drm (BITS_PER_WORD - 1) = 1 then
          dres ||| shl32 (not32 0) (BITS_PER_WORD - im) else dres
        (dres, writeXpsrC s ((drm >>> (im - 1)) &&& 1))
    let dres := r.1
    let s := calculateXpsrN r.2 dres BITS_PER_WORD
    let s := calculateXpsrZ s dres
    let s := writeReg s rd dres
    .ok (addInstruction s .ASR)

/-- Method `Execute::asr2`. -/
def asr2 (s : Processor) (rdn : Reg) (drdn drm : Nat) : Processor :=
  let dxpsr := s.regFile.readData .XPSR
  let r : Nat × Nat :=
    if drm = 0 then (drdn, dxpsr)
    else if drm < BITS_PER_WORD then
      let dxpsr := RegFile.setXpsrC dxpsr ((drdn >>> (drm - 1)) &&& 1)
      let dres := drdn >>> drm
      let dres := if GET_BIT_AT_POS drdn (BITS_PER_WORD - 1) = 1 then
        dres ||| shl32 (not32 0) (BITS_PER_WORD - drm) else dres
      (dres, dxpsr)
    else if GET_BIT_AT_POS drdn (BITS_PER_WORD - 1) = 1 then
      (not32 0, RegFile.setXpsrC dxpsr 1)
    else (0, RegFile.setXpsrC dxpsr 0)
  let dres := r.1
  let s := writeReg s .XPSR r.2
  let s := calculateXpsrN s dres BITS_PER_WORD
  let s := calculateXpsrZ s dres
  let s := writeReg s rdn dres
  addInstruction s .ASR

/-- Method `Execute::bic`. -/
def bic (s : Processor) (rdn : Reg) (drdn drm : Nat) : Processor :=
  let dres := drdn &&& not32 drm
  let s := calculateXpsrN s dres BITS_PER_WORD
  let s := calculateXpsrZ s dres
  let s := writeReg s rdn dres
  addInstruction s .BIC

/-- Method `Execute::eor`. -/
def eor (s : Processor) (rdn : Reg) (drdn drm : Nat) : Processor :=
  let dres := drdn ^^^ drm
  let s := calculateXpsrZ s dres
  let s := calculateXpsrN s dres BITS_PER_WORD
  let s := writeReg s rdn dres
  addInstruction s .EOR

/-- Method `Execute::lsl1`. -/
def lsl1 (s : Processor) (rd : Reg) (drm im : Nat) : Except Exit Processor :=
  if im ≥ BITS_PER_WORD then .error (.fatal "LSL1 received more than 31 shift immediate")
  else
    let r : Nat × Processor :=
      if im = 0 then (drm, s)
      else
        let s := writeXpsrC s ((drm >>> (BITS_PER_WORD - im)) &&& 1)
        (if im < BITS_PER_WORD then shl32 drm im else drm, s)
    let dres := r.1
    let s := calculateXpsrZ r.2 dres
    let s := calculateXpsrN s dres BITS_PER_WORD
    let s := writeReg s rd dres
    .ok (addInstruction s .LSL)

/-- Method `Execute::lsl2`. -/
def lsl2 (s : Processor) (rdn : Reg) (drdn drm : Nat) : Processor :=
  let r : Nat × Processor :=
    if drm = 0 then (drdn, s)
    else if drm = BITS_PER_WORD then (0, writeXpsrC s (drdn &&& 1))
    else if drm > BITS_PER_WORD then (0, writeXpsrC s 0)
    else (shl32 drdn drm, writeXpsrC s ((drdn >>> (BITS_PER_WORD - drm)) &&& 1))
  let dres := r.1
  let s := calculateXpsrZ r.2 dres
  let s := calculateXpsrN s dres BITS_PER_WORD
  let s := writeReg s rdn dres
  addInstruction s .LSL

/-- Method `Execute::lsr1`. -/
def lsr1 (s : Processor) (rd : Reg) (drm im : Nat) : Except Exit Processor :=
  if im ≥ BITS_PER_WORD then .error (.fatal "LSR1 received more than 31 shift immediate")
  else
    let r : Nat × Processor :=
      if im = 0 then (drm, s)
      else (drm >>> im, writeXpsrC s (GET_BIT_AT_POS drm (im - 1)))
    let dres := r.1
    let s := calculateXpsrZ r.2 dres
    let s := calculateXpsrN s dres BITS_PER_WORD
    let s := writeReg s rd dres
    .ok (addInstruction s .LSR)

/-- Method `Execute::lsr2`. -/
def lsr2 (s : Processor) (rdn : Reg) (drdn drm : Nat) : Processor :=
  let r : Nat × Processor :=
    if drm = 0 then (drdn, s)
    else if drm = BITS_PER_WORD then (0, writeXpsrC s (GET_BIT_AT_POS drdn (BITS_PER_WORD - 1)))
    else if drm > BITS_PER_WORD then (0, writeXpsrC s 0)
    else (drdn >>> drm, writeXpsrC s (GET_BIT_AT_POS drdn (drm - 1)))
  let dres := r.1
  let s := calculateXpsrZ r.2 dres
  let s := calculateXpsrN s dres BITS_PER_WORD
  let s := writeReg s rdn dres
  addInstruction s .LSR

end Execute

namespace Execute

/-- Method `Execute::mov1`. -/
def mov1 (s : Processor) (rd : Reg) (im : Nat) : Processor :=
  let s := writeReg s rd im
  let s := calculateXpsrN s im BITS_PER_WORD
  let s := calculateXpsrZ s im
  addInstruction s .MOV

/-- Method `Execute::mov2`. -/
def mov2 (s : Processor) (rd : Reg) (drm : Nat) : Processor :=
  let s := calculateXpsrN s drm BITS_PER_WORD
  let s := calculateXpsrZ s drm
  let s := writeReg s rd drm
  addInstruction s .MOV

/-- Method `Execute::mul`. -/
def mul (s : Processor) (rdn : Reg) (drdn drn : Nat) : Processor :=
  let dres := (drdn * drn) % 4294967296
  let s := calculateXpsrN s dres BITS_PER_WORD
  let s := calculateXpsrZ s dres
  let s := writeReg s rdn dres
  addInstruction s .MUL

/-- Method `Execute::mvn`. -/
def mvn (s : Processor) (rd : Reg) (drm : Nat) : Processor :=
  let dres := not32 drm
  let s := calculateXpsrN s dres BITS_PER_WORD
  let s := calculateXpsrZ s dres
  let s := writeReg s rd dres
  addInstruction s .MVN

/-- Method `Execute::neg`. -/
def neg (s : Processor) (rd : Reg) (drn im : Nat) : Processor :=
  let dres := sub32 im drn
  let s := calculateXpsrN s dres BITS_PER_WORD
  let s := calculateXpsrZ s dres
  let s := writeReg s rd dres
  addInstruction s .NEG

/-- Method `Execute::nop`. -/
def nop (s : Processor) : Processor := addInstruction s .NOP

/-- Method `Execute::orr`. -/
def orr (s : Processor) (rdn : Reg) (drdn drm : Nat) : Processor :=
  let dres := drm ||| drdn
  let s := calculateXpsrN s dres BITS_PER_WORD
  let s := calculateXpsrZ s dres
  let s := writeReg s rdn dres
  addInstruction s .ORR

/-- Method `Execute::rev`. -/
def rev (s : Processor) (rd : Reg) (drm : Nat) : Processor :=
  let dres := shl32 ((drm >>> 0) &&& 255) 24
  let dres := dres ||| shl32 ((drm >>> 8) &&& 255) 16
  let dres := dres ||| shl32 ((drm >>> 16) &&& 255) 8
  let dres := dres ||| shl32 ((drm >>> 24) &&& 255) 0
  let s := writeReg s rd dres
  addInstruction s .REV

/-- Method `Execute::rev16`. -/
def rev16 (s : Processor) (rd : Reg) (drm : Nat) : Processor :=
  let dres := shl32 ((drm >>> 0) &&& 255) 8
  let dres := dres ||| shl32 ((drm >>> 8) &&& 255) 0
  let dres := dres ||| shl32 ((drm >>> 16) &&& 255) 24
  let dres := dres ||| shl32 ((drm >>> 24) &&& 255) 16
  let s := writeReg s rd dres
  addInstruction s .REV16

/-- Method `Execute::revsh`. -/
def revsh (s : Processor) (rd : Reg) (drm : Nat) : Processor :=
  let dres := shl32 ((drm >>> 0) &&& 255) 8
  let dres := dres ||| shl32 ((drm >>> 8) &&& 255) 0
  let dres := if GET_BIT_AT_POS dres 15 = 1 then dres ||| 4294901760 else dres ||| 65535
  let s := writeReg s rd dres
  addInstruction s .REVSH

/-- Method `Execute::ror`. -/
def ror (s : Processor) (rdn : Reg) (drdn drm : Nat) : Processor :=
  let r : Nat × Processor :=
    if drm = 0 then (drdn, s)
    else
      let drm := drm % BITS_PER_WORD
      let dxpsr := s.regFile.readData .XPSR
      let q : Nat × Nat :=
        if drm = 0 then (drdn, RegFile.setXpsrC dxpsr 1)
        else
          let dxpsr := RegFile.setXpsrC dxpsr (drdn &&& shl32 1 (drm - 1))
          let dres := shl32 drdn (BITS_PER_WORD - drm)
          (dres ||| (drdn >>> drm), dxpsr)
      (q.1, writeReg s .XPSR q.2)
  let dres := r.1
  let s := calculateXpsrZ r.2 dres
  let s := calculateXpsrN s dres BITS_PER_WORD
  let s := writeReg s rdn dres
  addInstruction s .ROR

/-- Method `Execute::sub4`. -/
def sub4 (s : Processor) (rdn : Reg) (drdn im : Nat) : Processor :=
  let im := shl32 im 2
  let dres := sub32 drdn im
  let s := writeReg s rdn dres
  addInstruction s .SUB

/-- Method `Execute::tst`. -/
def tst (s : Processor) (drm drn : Nat) : Processor :=
  let dres := drm &&& drn
  let s := calculateXpsrN s dres BITS_PER_WORD
  let s := calculateXpsrZ s dres
  addInstruction s .TST

/-- Method `Execute::uxtb`. -/
def uxtb (s : Processor) (rd : Reg) (drm : Nat) : Processor :=
  let dres := drm &&& 255
  let s := writeReg s rd dres
  addInstruction s .UXTB

/-- Method `Execute::uxth`. -/
def uxth (s : Processor) (rd : Reg) (drm : Nat) : Processor :=
  let dres := drm &&& 65535
  let s := writeReg s rd dres
  addInstruction s .UXTH

/-- Method `Execute::sxtb`. -/
def sxtb (s : Processor) (rd : Reg) (drm : Nat) : Processor :=
  let dres := drm &&& 255
  let dres := if GET_BIT_AT_POS dres (BITS_PER_BYTE - 1) ≠ 0 then dres ||| 4294967040 else dres
  let s := writeReg s rd dres
  addInstruction s .SXTB

/-- Method `Execute::sxth`. -/
def sxth (s : Processor) (rd : Reg) (drm : Nat) : Processor :=
  let dres := drm &&& 65535
  let dres := if GET_BIT_AT_POS dres (BITS_PER_HALFWORD - 1) ≠ 0 then dres ||| 4294901760
    else dres
  let s := writeReg s rd dres
  addInstruction s .SXTH

end Execute

/-! ## library/branch.cpp -/

namespace Execute

/-- Method `Execute::flushPipeline`: `decode->flush()` and `fetch->flush()`,
each setting its `flushPending`. -/
def flushPipeline (s : Processor) : Processor :=
  { s with
    decode := { s.decode with flushPending := true }
    fetch := { s.fetch with flushPending := true } }

/-- Method `Execute::checkCondition`; the reserved codes are fatal. -/
def checkCondition (cond : DecodedCondition) (xpsr : Nat) : Except Exit Bool :=
  let n := RegFile.getXpsrN xpsr
  let z := RegFile.getXpsrZ xpsr
  let c := RegFile.getXpsrC xpsr
  let v := RegFile.getXpsrV xpsr
  match cond with
  | .EQ => .ok (decide (z = 1))
  | .NE => .ok (decide (z = 0))
  | .CS => .ok (decide (c = 1))
  | .CC => .ok (decide (c = 0))
  | .MI => .ok (decide (n = 1))
  | .PL => .ok (decide (n = 0))
  | .VS => .ok (decide (v = 1))
  | .VC => .ok (decide (v = 0))
  | .HI => .ok (decide (c = 1 ∧ z = 0))
  | .LS => .ok (decide (c = 0 ∨ z = 1))
  | .GE => .ok (decide (n = v))
  | .LT => .ok (decide (n ≠ v))
  | .GT => .ok (decide (z = 0 ∧ n = v))
  | .LE => .ok (decide (z = 1 ∨ n ≠ v))
  | _ => .error (.fatal "Invalid condition")

/-- Method `Execute::b1`. -/
def b1 (s : Processor) (rm : Reg) (drm im dxpsr : Nat) (cond : DecodedCondition) :
    Except Exit Processor :=
  match checkCondition cond dxpsr with
  | .error e => .error e
  | .ok false =>
    let s := addBranchNotTaken s
    .ok (addInstruction s .B)
  | .ok true =>
    let s := addBranchTaken s
    let im := if GET_BIT_AT_POS im 7 = 0 then im else im ||| shl32 (not32 0) 7
    let dres := add32 (shl32 im 1) drm
    let s := writeReg s rm dres
    let s := flushPipeline s
    .ok (addInstruction s .B)

/-- Method `Execute::b2`. -/
def b2 (s : Processor) (rm : Reg) (drm im : Nat) : Processor :=
  let im := if GET_BIT_AT_POS im 10 = 0 then im else im ||| shl32 (not32 0) 10
  let dres := add32 (shl32 im 1) drm
  let s := writeReg s rm dres
  let s := flushPipeline s
  let s := addBranchTaken s
  addInstruction s .B

/-- Method `Execute::bl`. -/
def bl (s : Processor) (rdn : Reg) (drdn im : Nat) : Processor :=
  let im := if GET_BIT_AT_POS im 24 = 0 then im else im ||| shl32 (not32 0) 24
  let dres := add32 im drdn
  let s := writeReg s .LR (drdn ||| 1)
  let s := writeReg s rdn dres
  let s := flushPipeline s
  let s := addInstruction s .BL
  addBranchTaken s

/-- Method `Execute::blx`. -/
def blx (s : Processor) (rdn : Reg) (drdn drm : Nat) : Except Exit Processor :=
  if drm &&& 1 ≠ 1 then .error (.fatal "BLX cannot branch to ARM mode")
  else
    let s := writeReg s rdn (drm &&& not32 1)
    let s := writeReg s .LR (PREV_THUMB_INST drdn ||| 1)
    let s := flushPipeline s
    let s := addInstruction s .BLX
    .ok (addBranchTaken s)

/-- Method `Execute::bx`. -/
def bx (s : Processor) (rdn : Reg) (drm : Nat) : Except Exit Processor :=
  if drm &&& 1 ≠ 1 then .error (.fatal "BX cannot branch to ARM mode")
  else
    let s := writeReg s rdn (drm &&& not32 1)
    let s := flushPipeline s
    let s := addInstruction s .BX
    .ok (addBranchTaken s)

end Execute

/-! ## library/alu.cpp (instructions that branch) and library/misc.cpp -/

namespace Execute

/-- Method `Execute::add4`. -/
def add4 (s : Processor) (rdn : Reg) (drdn drm : Nat) : Except Exit Processor :=
  let dres := add32 drdn drm
  let s := writeReg s rdn dres
  if rdn = Reg.PC then
    if GET_BIT_AT_POS dres 0 ≠ 0 then .error (.fatal "ADD4 branching to unaligned address")
    else
      let s := flushPipeline s
      let s := addBranchTaken s
      .ok (addInstruction s .B)
  else .ok (addInstruction s .ADD)

/-- Method `Execute::cpy`. -/
def cpy (s : Processor) (rd : Reg) (drm : Nat) : Except Exit Processor :=
  if rd = Reg.PC then bx s rd drm
  else
    let s := writeReg s rd drm
    .ok (addInstruction s .MOV)

/-- Method `Statistics::print`, its two sanity checks; the report itself goes to
stdout and is not modelled. -/
def statsPrint (st : Statistics) : Except Exit Unit :=
  if st.cycles < st.executeMemCycles then
    .error (.fatal "Total cycles is less than sum of individual components")
  else
    let branches := st.instCount .B + st.instCount .BL + st.instCount .BLX + st.instCount .BX
    let loads := st.instCount .LDMIA + st.instCount .LDR + st.instCount .LDRB +
      st.instCount .LDRH + st.instCount .LDRSB + st.instCount .LDRSH
    if branches + loads < st.branchTaken + st.branchNotTaken then
      .error (.fatal "Branching information does not match")
    else .ok ()

/-- Method `Execute::bkpt`: prints the statistics and ends with `exit(im)`. -/
def bkpt (s : Processor) (im : Nat) : Except Exit Processor :=
  match statsPrint s.stats with
  | .error e => .error e
  | .ok _ => .error (.exit im)

/-- Method `Execute::svc`: ends with `exit(im)`. -/
def svc (_s : Processor) (im : Nat) : Except Exit Processor :=
  .error (.exit im)

/-- Method `Execute::cps`, repurposed to print the character in `drm`. -/
def cps (s : Processor) (drm : Nat) : Processor :=
  { s with output := s.output ++ [drm &&& 255] }

end Execute

/-- Value of the low `bits` bits of `v` read as a two's-complement number. -/
def signExtend (bits v : Nat) : Int :=
  if v % 2 ^ bits < 2 ^ (bits - 1) then ((v % 2 ^ bits : Nat) : Int)
  else ((v % 2 ^ bits : Nat) : Int) - ((2 ^ bits : Nat) : Int)

/-! ## library/memory.cpp -/

namespace Memory

/-- Expression `BYTES_PER_WORD * memAccessWidthWords - 1` in `uint32_t`. -/
def widthMask (m : Memory) : Nat :=
  sub32 ((BYTES_PER_WORD * m.memAccessWidthWords) % 4294967296) 1

/-- Method `Memory::getMemAccessWidthWordIndex`. -/
def getMemAccessWidthWordIndex (m : Memory) (byteAddr : Nat) : Nat :=
  GET_WORD_INDEX (byteAddr &&& m.widthMask)

/-- Method `Memory::getMemAccessWidthBaseByteAddr`. -/
def getMemAccessWidthBaseByteAddr (m : Memory) (byteAddr : Nat) : Nat :=
  byteAddr &&& not32 m.widthMask

/-- Method `Memory::getMemAccessWidthInstOffset`. -/
def getMemAccessWidthInstOffset (m : Memory) (byteAddr : Nat) : Nat :=
  (byteAddr &&& m.widthMask) / THUMB_INST_BYTES

/-- Assignment to the fields of `pipeline[i]`. -/
def setSlot (m : Memory) (i : Nat) (r : MemoryRequest) : Memory :=
  { m with pipeline := fun j => if j = i then r else m.pipeline j }

/-- Method `Memory::isAvailable`. -/
def isAvailable (m : Memory) : Bool :=
  decide ((m.pipeline m.nextReqIndex).issuer = Component.NONE)

/-- Method `Memory::requestLoad`: `none` is the return code -1 (nothing is
changed), `some (token, m)` is the return code 0 with the token handed out. -/
def requestLoad (m : Memory) (issuer : Component) (byteAddr : Nat) : Option (Nat × Memory) :=
  if (m.pipeline m.nextReqIndex).issuer ≠ Component.NONE then none
  else
    let slot := m.pipeline m.nextReqIndex
    let m1 := m.setSlot m.nextReqIndex
      { slot with issuer := issuer, type := .LOAD, token := m.nextToken, byteAddr := byteAddr }
    some (m.nextToken, { m1 with nextToken := add32 m.nextToken 1 })

/-- Method `Memory::requestStore`, with the result convention of
`requestLoad`. -/
def requestStore (m : Memory) (issuer : Component) (byteAddr data : Nat) :
    Option (Nat × Memory) :=
  if (m.pipeline m.nextReqIndex).issuer ≠ Component.NONE then none
  else
    let slot := m.pipeline m.nextReqIndex
    let m1 := m.setSlot m.nextReqIndex
      { slot with
        issuer := issuer, type := .STORE, token := m.nextToken, byteAddr := byteAddr
        reqData := fun i => if i = 0 then data else slot.reqData i }
    some (m.nextToken, { m1 with nextToken := add32 m.nextToken 1 })

/-- Local `prevRespIndex` of the retrieve methods. -/
def prevRespIndex (m : Memory) : Nat :=
  if m.nextReqIndex = 0 then sub32 m.pipelineSize 1 else m.nextReqIndex - 1

/-- Method `Memory::retrieveLoad`: `none` is the return code -1. -/
def retrieveLoad (m : Memory) (token : Nat) : Option Nat :=
  if (m.pipeline m.prevRespIndex).token = token then
    let wordIndex := m.getMemAccessWidthWordIndex (m.pipeline m.prevRespIndex).byteAddr
    some ((m.pipeline m.prevRespIndex).respData wordIndex)
  else none

/-- Method `Memory::retrieveStore`: `true` is the return code 0. -/
def retrieveStore (m : Memory) (token : Nat) : Bool :=
  decide ((m.pipeline m.prevRespIndex).token = token)

/-- Method `Memory::retrieveWideLoad`: the `memAccessWidthWords` words copied
to the caller, `none` for the return code -1. -/
def retrieveWideLoad (m : Memory) (token : Nat) : Option (List Nat) :=
  if (m.pipeline m.prevRespIndex).token = token then
    some ((List.range m.memAccessWidthWords).map (m.pipeline m.prevRespIndex).respData)
  else none

/-- Method `Memory::run`, one memory tick. -/
def run (m : Memory) : Except Exit Memory :=
  let nextRespIndex := m.nextReqIndex
  let nextReqIndex := add32 m.nextReqIndex 1 % m.pipelineSize
  let m := { m with nextReqIndex := nextReqIndex }
  let m := m.setSlot nextReqIndex
    { m.pipeline nextReqIndex with issuer := .NONE, type := .NONE, token := 0, byteAddr := 0 }
  let req := m.pipeline nextRespIndex
  if req.issuer = Component.NONE then .ok m
  else if GET_WORD_INDEX req.byteAddr ≥ m.memSizeWords then
    .error (.fatal "Out-of-bounds memory access")
  else
    match req.type with
    | .LOAD =>
      let wordBaseAddr := GET_WORD_INDEX (m.getMemAccessWidthBaseByteAddr req.byteAddr)
      .ok (m.setSlot nextRespIndex
        { req with respData := fun i =>
            if i < m.memAccessWidthWords then m.mem (wordBaseAddr + i) else req.respData i })
    | .STORE =>
      .ok { m with mem := fun w =>
              if w = GET_WORD_INDEX req.byteAddr then req.reqData 0 else m.mem w }
    | .NONE => .error (.fatal "Invalid memory access request type")

/-- Method `Memory::loadWord`, the side-band read. -/
def loadWord (m : Memory) (byteAddr : Nat) : Except Exit Nat :=
  if GET_WORD_INDEX byteAddr ≥ m.memSizeWords then .error (.fatal "Out-of-bounds memory access")
  else .ok (m.mem (GET_WORD_INDEX byteAddr))

end Memory

/-! ## library/lsu.cpp and library/execute.cpp: the memory sub-machine -/

namespace Execute

/-- Assignment `execState = st`. -/
def setExecState (s : Processor) (st : ExecuteState) : Processor :=
  { s with execute := { s.execute with execState := st } }

/-- Method `Execute::formatDataForMemLoad`; the result is the new `data`. -/
def formatDataForMemLoad (type : MemoryInstructionType) (data offset : Nat) : Nat :=
  let byteOffset := GET_BYTE_INDEX offset
  match type with
  | .SBYTE =>
    let byteOffset := byteOffset * BITS_PER_BYTE
    let data := (data >>> byteOffset) &&& (shl32 1 BITS_PER_BYTE - 1)
    data ||| (if GET_BIT_AT_POS data 7 = 1 then 4294967040 else 0)
  | .UBYTE =>
    let byteOffset := byteOffset * BITS_PER_BYTE
    (data >>> byteOffset) &&& (shl32 1 BITS_PER_BYTE - 1)
  | .SHALFWORD =>
    let byteOffset := (byteOffset &&& not32 1) * BITS_PER_BYTE
    let data := (data >>> byteOffset) &&& (shl32 1 BITS_PER_HALFWORD - 1)
    data ||| (if GET_BIT_AT_POS data 15 = 1 then 4294901760 else 0)
  | .UHALFWORD =>
    let byteOffset := (byteOffset &&& not32 1) * BITS_PER_BYTE
    (data >>> byteOffset) &&& (shl32 1 BITS_PER_HALFWORD - 1)
  | .WORD => data

/-- Method `Execute::formatDataForMemStore`: `data` is the word now in memory,
`drt` the register value; the result is the new `drt`. -/
def formatDataForMemStore (type : MemoryInstructionType) (data drt offset : Nat) :
    Except Exit Nat :=
  let byteOffset := GET_BYTE_INDEX offset
  match type with
  | .SBYTE => .error (.fatal "Invalid state, signed byte stores not supported")
  | .UBYTE =>
    let byteOffset := byteOffset * BITS_PER_BYTE
    let mask := shl32 1 BITS_PER_BYTE - 1
    let data := data &&& not32 (shl32 mask byteOffset)
    .ok (data ||| shl32 (drt &&& mask) byteOffset)
  | .SHALFWORD => .error (.fatal "Invalid state, signed halftword stores not supported")
  | .UHALFWORD =>
    let byteOffset := (byteOffset &&& not32 1) * BITS_PER_BYTE
    let mask := shl32 1 BITS_PER_HALFWORD - 1
    let data := data &&& not32 (shl32 mask byteOffset)
    .ok (data ||| shl32 (drt &&& mask) byteOffset)
  | .WORD => .ok drt

/-- Method `Execute::executeLoadMemReq`. -/
def executeLoadMemReq (s : Processor) : Except Exit Processor :=
  let byteAddr := add32 s.execute.loadTmps.ptr s.execute.loadTmps.byteOffset
  if ¬ s.mem.isAvailable then .error (.fatal "Unexpected memory unavailable")
  else
    match s.mem.requestLoad .EXECUTE byteAddr with
    | none => .error (.fatal "Memory request failed when available")
    | some (token, mem) =>
      let s := { s with
        mem := mem
        execute := { s.execute with loadTmps := { s.execute.loadTmps with memToken := token } } }
      .ok (setExecState s .LOAD_MEM_RESP)

/-- Method `Execute::executeLoadMemResp`. -/
def executeLoadMemResp (s : Processor) : Except Exit Processor :=
  match s.mem.retrieveLoad s.execute.loadTmps.memToken with
  | none => .error (.fatal "Failed memory response when expected")
  | some data =>
    let data := formatDataForMemLoad s.execute.loadTmps.type data s.execute.loadTmps.byteOffset
    let s := { s with execute := { s.execute with loadTmps := { s.execute.loadTmps with data := data } } }
    if s.execute.loadTmps.destReg = Reg.PC then .error (.fatal "Cannot load into pc")
    else
      let s := writeReg s s.execute.loadTmps.destReg data
      .ok (setExecState s .NEXT_INST)

/-- Method `Execute::executeStoreMemReq`. -/
def executeStoreMemReq (s : Processor) : Except Exit Processor :=
  let byteAddr := add32 s.execute.storeTmps.ptr s.execute.storeTmps.byteOffset
  if ¬ s.mem.isAvailable then .error (.fatal "Unexpected directory or memory unavailable")
  else
    match s.mem.loadWord byteAddr with
    | .error e => .error e
    | .ok prevData =>
      match formatDataForMemStore s.execute.storeTmps.type prevData s.execute.storeTmps.data
          s.execute.storeTmps.byteOffset with
      | .error e => .error e
      | .ok data =>
        match s.mem.requestStore .EXECUTE byteAddr data with
        | none => .error (.fatal "Memory request failed when available")
        | some (token, mem) =>
          let s := { s with
            mem := mem
            execute := { s.execute with
              storeTmps := { s.execute.storeTmps with data := data, memToken := token } } }
          .ok (setExecState s .STORE_MEM_RESP)

/-- Method `Execute::executeStoreMemResp`. -/
def executeStoreMemResp (s : Processor) : Except Exit Processor :=
  if ¬ s.mem.retrieveStore s.execute.storeTmps.memToken then
    .error (.fatal "Failed memory response when expected")
  else .ok (setExecState s .NEXT_INST)

/-- Method `Execute::ldr`. -/
def ldr (s : Processor) (rt : Reg) (drn offset : Nat) (type : MemoryInstructionType) :
    Except Exit Processor :=
  let s := { s with execute := { s.execute with loadTmps := { s.execute.loadTmps with
    ptr := GET_WORD_ADDRESS drn
    byteOffset := add32 (GET_BYTE_INDEX drn) offset
    type := type
    destReg := rt } } }
  executeLoadMemReq s

/-- Method `Execute::str`. -/
def str (s : Processor) (rt : Reg) (drt : Nat) (rn : Reg) (drn offset : Nat)
    (type : MemoryInstructionType) : Except Exit Processor :=
  let s := { s with execute := { s.execute with storeTmps := { s.execute.storeTmps with
    ptr := GET_WORD_ADDRESS drn
    byteOffset := add32 (GET_BYTE_INDEX drn) offset
    type := type
    data := drt
    dataReg := rt
    addrReg := rn } } }
  executeStoreMemReq s

end Execute

namespace Execute

/-- Method `Execute::ldr1Ldr4`. -/
def ldr1Ldr4 (s : Processor) (rt : Reg) (drn im : Nat) : Except Exit Processor :=
  (ldr s rt drn (shl32 im 2) .WORD).map fun s => addInstruction s .LDR

/-- Method `Execute::ldr2`. -/
def ldr2 (s : Processor) (rt : Reg) (drn drm : Nat) : Except Exit Processor :=
  (ldr s rt drn drm .WORD).map fun s => addInstruction s .LDR

/-- Method `Execute::ldr3`. -/
def ldr3 (s : Processor) (rt : Reg) (drn im : Nat) : Except Exit Processor :=
  let drn := ALIGN drn BYTES_PER_WORD
  (ldr s rt drn (shl32 im 2) .WORD).map fun s => addInstruction s .LDR

/-- Method `Execute::ldrb1`. -/
def ldrb1 (s : Processor) (rt : Reg) (drn im : Nat) : Except Exit Processor :=
  (ldr s rt drn im .UBYTE).map fun s => addInstruction s .LDRB

/-- Method `Execute::ldrb2`. -/
def ldrb2 (s : Processor) (rt : Reg) (drn drm : Nat) : Except Exit Processor :=
  (ldr s rt drn drm .UBYTE).map fun s => addInstruction s .LDRB

/-- Method `Execute::ldrh1`. -/
def ldrh1 (s : Processor) (rt : Reg) (drn im : Nat) : Except Exit Processor :=
  (ldr s rt drn (shl32 im 1) .UHALFWORD).map fun s => addInstruction s .LDRH

/-- Method `Execute::ldrh2`. -/
def ldrh2 (s : Processor) (rt : Reg) (drn drm : Nat) : Except Exit Processor :=
  (ldr s rt drn drm .UHALFWORD).map fun s => addInstruction s .LDRH

/-- Method `Execute::ldrsb`. -/
def ldrsb (s : Processor) (rt : Reg) (drn drm : Nat) : Except Exit Processor :=
  (ldr s rt drn drm .SBYTE).map fun s => addInstruction s .LDRSB

/-- Method `Execute::ldrsh`. -/
def ldrsh (s : Processor) (rt : Reg) (drn drm : Nat) : Except Exit Processor :=
  (ldr s rt drn drm .SHALFWORD).map fun s => addInstruction s .LDRSH

/-- Method `Execute::str1Str3`. -/
def str1Str3 (s : Processor) (rt : Reg) (drt : Nat) (rn : Reg) (drn im : Nat) :
    Except Exit Processor :=
  (str s rt drt rn drn (shl32 im 2) .WORD).map fun s => addInstruction s .STR

/-- Method `Execute::str2`. -/
def str2 (s : Processor) (rt : Reg) (drt : Nat) (rn : Reg) (drn drm : Nat) :
    Except Exit Processor :=
  (str s rt drt rn drn drm .WORD).map fun s => addInstruction s .STR

/-- Method `Execute::strb1`. -/
def strb1 (s : Processor) (rt : Reg) (drt : Nat) (rn : Reg) (drn im : Nat) :
    Except Exit Processor :=
  (str s rt drt rn drn im .UBYTE).map fun s => addInstruction s .STRB

/-- Method `Execute::strb2`. -/
def strb2 (s : Processor) (rt : Reg) (drt : Nat) (rn : Reg) (drn drm : Nat) :
    Except Exit Processor :=
  (str s rt drt rn drn drm .UBYTE).map fun s => addInstruction s .STRB

/-- Method `Execute::strh1`. -/
def strh1 (s : Processor) (rt : Reg) (drt : Nat) (rn : Reg) (drn im : Nat) :
    Except Exit Processor :=
  (str s rt drt rn drn (shl32 im 1) .UHALFWORD).map fun s => addInstruction s .STRH

/-- Method `Execute::strh2`. -/
def strh2 (s : Processor) (rt : Reg) (drt : Nat) (rn : Reg) (drn drm : Nat) :
    Except Exit Processor :=
  (str s rt drt rn drn drm .UHALFWORD).map fun s => addInstruction s .STRH

/-- Method `Execute::populateRegisterList`: the registers of the bitmap `rl`
in ascending order, appended to the list, which must come in empty. -/
def populateRegisterList (regList : List Reg) (rl : Nat) : Except Exit (List Reg) :=
  if regList ≠ [] then
    .error (.fatal "Starting multiple memory access without empty register list")
  else
    let regs := ((List.range REGFILE_CORE_REGS_COUNT).filter
      (fun i => GET_BIT_AT_POS rl i ≠ 0)).map Reg.fromNat
    if regs = [] then
      .error (.fatal "Multiple memory access instruction has empty register list")
    else .ok regs

/-- Method `Execute::requestNextStore`. Calling `front()` on an empty list is
undefined in the C++; it is an error here. -/
def requestNextStore (s : Processor) : Except Exit Processor :=
  let byteAddr := add32 s.execute.mstoreTmps.ptr s.execute.mstoreTmps.byteOffset
  match s.execute.mstoreTmps.regList with
  | [] => .error (.fatal "front() of an empty register list")
  | srcReg :: rest =>
    let data := s.regFile.readData srcReg
    match s.mem.requestStore .EXECUTE byteAddr data with
    | none => .error (.fatal "Memory request failed when available")
    | some (token, mem) =>
      .ok { s with
        mem := mem
        execute := { s.execute with mstoreTmps := { s.execute.mstoreTmps with
          srcReg := srcReg
          regList := rest
          data := data
          memToken := token
          byteOffset := add32 s.execute.mstoreTmps.byteOffset BYTES_PER_WORD } } }

/-- Method `Execute::executeMultipleStoreFirstMemReq`. -/
def executeMultipleStoreFirstMemReq (s : Processor) : Except Exit Processor :=
  let regListByteSize := WORD_TO_BYTE_SIZE s.execute.mstoreTmps.regList.length
  if ¬ s.mem.isAvailable then .error (.fatal "Unexpected unavailable memory and directory")
  else
    let r : Except Exit (Nat × Processor) :=
      if s.execute.mstoreTmps.op = DecodedOperation.STMIA then
        .ok (add32 s.execute.mstoreTmps.byteOffset regListByteSize, s)
      else if s.execute.mstoreTmps.op = DecodedOperation.PUSH then
        let endByteOffset := sub32 s.execute.mstoreTmps.byteOffset regListByteSize
        .ok (endByteOffset, { s with execute := { s.execute with
          mstoreTmps := { s.execute.mstoreTmps with byteOffset := endByteOffset } } })
      else .error (.fatal "Inconsistent instruction in executeMultipleStoreFirstMemReq")
    match r with
    | .error e => .error e
    | .ok (endByteOffset, s) =>
      let s := writeReg s s.execute.mstoreTmps.baseReg (add32 s.execute.mstoreTmps.ptr endByteOffset)
      match requestNextStore s with
      | .error e => .error e
      | .ok s => .ok (setExecState s .MULTIPLE_STORE_MEM_REQ)

/-- Method `Execute::executeMultipleStoreMemReq`. -/
def executeMultipleStoreMemReq (s : Processor) : Except Exit Processor :=
  if ¬ s.mem.retrieveStore s.execute.mstoreTmps.memToken then
    .error (.fatal "Failed memory response when expected")
  else if s.execute.mstoreTmps.regList.length > 0 then
    if ¬ s.mem.isAvailable then .error (.fatal "Unexpected unavailable memory")
    else
      match requestNextStore s with
      | .error e => .error e
      | .ok s => .ok (setExecState s .MULTIPLE_STORE_MEM_REQ)
  else .ok (setExecState s .NEXT_INST)

end Execute

namespace Execute

/-- Method `Execute::executeMultipleLoadFirstMemReq`. -/
def executeMultipleLoadFirstMemReq (s : Processor) : Except Exit Processor :=
  let regListByteSize := WORD_TO_BYTE_SIZE s.execute.mloadTmps.regList.length
  let byteAddr := add32 s.execute.mloadTmps.ptr s.execute.mloadTmps.byteOffset
  if ¬ s.mem.isAvailable then .error (.fatal "Unexpected unavailable memory")
  else
    let s := writeReg s s.execute.mloadTmps.baseReg
      (add32 (add32 s.execute.mloadTmps.ptr s.execute.mloadTmps.byteOffset) regListByteSize)
    match s.mem.requestLoad .EXECUTE byteAddr with
    | none => .error (.fatal "Multiple memory request failed when available")
    | some (token, mem) =>
      let s := { s with
        mem := mem
        execute := { s.execute with mloadTmps := { s.execute.mloadTmps with
          memToken := token
          byteOffset := add32 s.execute.mloadTmps.byteOffset BYTES_PER_WORD } } }
      .ok (setExecState s .MULTIPLE_LOAD_MEM_REQ)

/-- Method `Execute::executeMultipleLoadMemReq`. Calling `front()` on an empty
list is undefined in the C++; it is an error here. -/
def executeMultipleLoadMemReq (s : Processor) : Except Exit Processor :=
  let byteAddr := add32 s.execute.mloadTmps.ptr s.execute.mloadTmps.byteOffset
  match s.mem.retrieveLoad s.execute.mloadTmps.memToken with
  | none => .error (.fatal "Memory response not available when expected")
  | some data =>
    match s.execute.mloadTmps.regList with
    | [] => .error (.fatal "front() of an empty register list")
    | destReg :: rest =>
      let s := { s with execute := { s.execute with mloadTmps := { s.execute.mloadTmps with
        data := data, destReg := destReg, regList := rest } } }
      if destReg = Reg.PC then
        let s := writeReg s destReg (data &&& not32 1)
        let s := setExecState s .FLUSH_PIPELINE
        let s := addBranchTaken s
        if rest.length > 0 then
          .error (.fatal "pc is not the last register in multiple memory load")
        else .ok s
      else
        let s := writeReg s destReg data
        if rest.length > 0 then
          if ¬ s.mem.isAvailable then .error (.fatal "Unexpected memory unavailable")
          else
            match s.mem.requestLoad .EXECUTE byteAddr with
            | none => .error (.fatal "Multiple memory request failed when available")
            | some (token, mem) =>
              let s := { s with
                mem := mem
                execute := { s.execute with mloadTmps := { s.execute.mloadTmps with
                  memToken := token
                  byteOffset := add32 s.execute.mloadTmps.byteOffset BYTES_PER_WORD } } }
              .ok (setExecState s .MULTIPLE_LOAD_MEM_REQ)
        else .ok (setExecState s .NEXT_INST)

/-- Method `Execute::executeFlushPipeline`. -/
def executeFlushPipeline (s : Processor) : Processor :=
  setExecState (flushPipeline s) .NEXT_INST

/-- Method `Execute::popLdmia`. -/
def popLdmia (s : Processor) (rn : Reg) (drn rl : Nat) : Except Exit Processor :=
  match populateRegisterList s.execute.mloadTmps.regList rl with
  | .error e => .error e
  | .ok regList =>
    let s := { s with execute := { s.execute with mloadTmps := { s.execute.mloadTmps with
      baseReg := rn, ptr := drn, byteOffset := 0, regList := regList } } }
    (executeMultipleLoadFirstMemReq s).map fun s => addInstruction s .LDMIA

/-- Method `Execute::stmia`. -/
def stmia (s : Processor) (rn : Reg) (drn rl : Nat) : Except Exit Processor :=
  match populateRegisterList s.execute.mstoreTmps.regList rl with
  | .error e => .error e
  | .ok regList =>
    let s := { s with execute := { s.execute with mstoreTmps := { s.execute.mstoreTmps with
      baseReg := rn, ptr := drn, byteOffset := 0, op := .STMIA, regList := regList } } }
    (executeMultipleStoreFirstMemReq s).map fun s => addInstruction s .STMIA

/-- Method `Execute::push`. -/
def push (s : Processor) (rn : Reg) (drn rl : Nat) : Except Exit Processor :=
  match populateRegisterList s.execute.mstoreTmps.regList rl with
  | .error e => .error e
  | .ok regList =>
    let s := { s with execute := { s.execute with mstoreTmps := { s.execute.mstoreTmps with
      baseReg := rn, ptr := drn, byteOffset := 0, op := .PUSH, regList := regList } } }
    (executeMultipleStoreFirstMemReq s).map fun s => addInstruction s .PUSH

/-- Method `Execute::isStalled`. -/
def isStalled (s : Processor) : Bool :=
  if s.execute.execState = ExecuteState.NEXT_INST ∧ s.execute.decodedInst.isNone then false
  else true

end Execute

/-! ## library/execute.cpp: dispatch and the state machine -/

/-- Method `Decode::getNextInst`: hands the complete decoded record over to
execute, if there is one. -/
def Decode.getNextInst (d : Decode) : Option DecodedInst × Decode :=
  if d.decodedHalfInst ∨ d.decodedInst.isNone then (none, d)
  else (d.decodedInst, { d with decodedInst := none })

namespace Execute

/-- The `switch` of `Execute::executeNextInst` over the decoded operation. -/
def executeInst (s : Processor) (inst : DecodedInst) : Except Exit Processor :=
  let rd := inst.getRegisterNumber .RD
  let rt := inst.getRegisterNumber .RT
  let rdn := inst.getRegisterNumber .RDN
  let rm := inst.getRegisterNumber .RM
  let rn := inst.getRegisterNumber .RN
  let drt := inst.getRegisterData .RT
  let drdn := inst.getRegisterData .RDN
  let drm := inst.getRegisterData .RM
  let drn := inst.getRegisterData .RN
  let dxpsr := inst.getRegisterData .XPSR
  let rl := inst.getRegisterList
  let im := inst.getImmediate
  let cond := inst.getCondition
  let cflag := RegFile.getXpsrC dxpsr
  match inst.getOperation with
  | .POP | .LDMIA => popLdmia s rn drn rl
  | .PUSH => push s rn drn rl
  | .STMIA => stmia s rn drn rl
  | .STR1 | .STR3 => str1Str3 s rt drt rn drn im
  | .STR2 => str2 s rt drt rn drn drm
  | .STRB1 => strb1 s rt drt rn drn im
  | .STRB2 => strb2 s rt drt rn drn drm
  | .STRH1 => strh1 s rt drt rn drn im
  | .STRH2 => strh2 s rt drt rn drn drm
  | .LDR1 | .LDR4 => ldr1Ldr4 s rt drn im
  | .LDR2 => ldr2 s rt drn drm
  | .LDR3 => ldr3 s rt drn im
  | .LDRB1 => ldrb1 s rt drn im
  | .LDRB2 => ldrb2 s rt drn drm
  | .LDRH1 => ldrh1 s rt drn im
  | .LDRH2 => ldrh2 s rt drn drm
  | .LDRSB => ldrsb s rt drn drm
  | .LDRSH => ldrsh s rt drn drm
  | .B1 => b1 s rm drm im dxpsr cond
  | .B2 => .ok (b2 s rm drm im)
  | .BL => .ok (bl s rdn drdn im)
  | .BLX => blx s rdn drdn drm
  | .BX => bx s rdn drm
  | .CPY => cpy s rd drm
  | .ADC => .ok (adc s rdn drdn drm cflag)
  | .ADD1 => .ok (add1 s rd drn im)
  | .ADD2 => .ok (add2 s rdn drdn im)
  | .ADD3 => .ok (add3 s rd drn drm)
  | .ADD4 => add4 s rdn drdn drm
  | .ADD5 => .ok (add5 s rd drm im)
  | .ADD6 | .ADD7 => .ok (add6Add7 s rd drm im)
  | .AND => .ok (and0 s rdn drdn drm)
  | .ASR1 => asr1 s rd drm im
  | .ASR2 => .ok (asr2 s rdn drdn drm)
  | .BIC => .ok (bic s rdn drdn drm)
  | .CMN => .ok (cmn s drn drm)
  | .CMP1 => .ok (cmp1 s drn im)
  | .CMP2 | .CMP3 => .ok (cmp2Cmp3 s drn drm)
  | .EOR => .ok (eor s rdn drdn drm)
  | .LSL1 => lsl1 s rd drm im
  | .LSL2 => .ok (lsl2 s rdn drdn drm)
  | .LSR1 => lsr1 s rd drm im
  | .LSR2 => .ok (lsr2 s rdn drdn drm)
  | .MOV1 => .ok (mov1 s rd im)
  | .MOV2 => .ok (mov2 s rd drm)
  | .MUL => .ok (mul s rdn drdn drn)
  | .MVN => .ok (mvn s rd drm)
  | .ORR => .ok (orr s rdn drdn drm)
  | .REV => .ok (rev s rd drm)
  | .REV16 => .ok (rev16 s rd drm)
  | .REVSH => .ok (revsh s rd drm)
  | .ROR => .ok (ror s rdn drdn drm)
  | .NEG => .ok (neg s rd drn im)
  | .NOP => .ok (nop s)
  | .SBC => .ok (sbc s rdn drdn drm cflag)
  | .SUB1 => .ok (sub1 s rd drn im)
  | .SUB2 => .ok (sub2 s rdn drdn im)
  | .SUB3 => .ok (sub3 s rd drm drn)
  | .SUB4 => .ok (sub4 s rdn drdn im)
  | .TST => .ok (tst s drm drn)
  | .UXTB => .ok (uxtb s rd drm)
  | .UXTH => .ok (uxth s rd drm)
  | .SXTB => .ok (sxtb s rd drm)
  | .SXTH => .ok (sxth s rd drm)
  | .BKPT => bkpt s im
  | .SVC => svc s im
  | .CPS => .ok (cps s drm)

/-- Method `Execute::executeNextInst`. -/
def executeNextInst (s : Processor) : Except Exit Processor :=
  if s.execute.decodedInst.isSome then
    .error (.fatal "Trying to executeNextInst() with decodedInst != nullptr")
  else
    match s.decode.getNextInst with
    | (none, decode) =>
      .ok { s with decode := decode, stats := s.stats.addStallForDecodeCycle }
    | (some inst, decode) =>
      let s := { s with decode := decode, execute := { s.execute with decodedInst := some inst } }
      match executeInst s inst with
      | .error e => .error e
      | .ok s => .ok { s with execute := { s.execute with decodedInst := none } }

/-- Method `Execute::calculateExecCycles`. -/
def calculateExecCycles (s : Processor) : Except Exit Processor :=
  match s.execute.curExecState with
  | .NEXT_INST =>
    match s.execute.execState with
    | .NEXT_INST => .ok s
    | .FLUSH_PIPELINE =>
      .error (.fatal "Invalid state transition NEXT_INST -> FLUSH_PIPELINE")
    | _ => .ok { s with stats := s.stats.addExecuteCycle }
  | .FLUSH_PIPELINE => .ok s
  | _ => .ok { s with stats := s.stats.addExecuteCycle }

/-- Method `Execute::run`, one execute tick. -/
def run (s : Processor) : Except Exit Processor :=
  let s := { s with execute := { s.execute with curExecState := s.execute.execState } }
  let r : Except Exit Processor :=
    match s.execute.execState with
    | .NEXT_INST => executeNextInst s
    | .LOAD_MEM_REQ => executeLoadMemReq s
    | .LOAD_MEM_RESP => executeLoadMemResp s
    | .STORE_MEM_REQ => executeStoreMemReq s
    | .STORE_MEM_RESP => executeStoreMemResp s
    | .MULTIPLE_LOAD_FIRST_MEM_REQ => executeMultipleLoadFirstMemReq s
    | .MULTIPLE_LOAD_MEM_REQ => executeMultipleLoadMemReq s
    | .MULTIPLE_STORE_FIRST_MEM_REQ => executeMultipleStoreFirstMemReq s
    | .MULTIPLE_STORE_MEM_REQ => executeMultipleStoreMemReq s
    | .FLUSH_PIPELINE => .ok (executeFlushPipeline s)
  match r with
  | .error e => .error e
  | .ok s => calculateExecCycles s

end Execute

/-! ## library/fetch.cpp, library/decode.cpp: the decode tick -/

/-- Cast `static_cast<uint32_t>(cond)`. -/
def DecodedCondition.toNat : DecodedCondition → Nat
  | .EQ => 0 | .NE => 1 | .CS => 2 | .CC => 3 | .MI => 4 | .PL => 5 | .VS => 6
  | .VC => 7 | .HI => 8 | .LS => 9 | .GE => 10 | .LT => 11 | .GT => 12
  | .LE => 13 | .U0 => 14 | .U1 => 15

/-- Method `Fetch::getNextInst`: the halfword under PC, with PC moved to the
next halfword; `none` stands for the return value -1 (buffer not valid or
flush pending). -/
def Fetch.getNextInst (s : Processor) : Except Exit (Option Nat × Processor) :=
  let pc := s.regFile.readData .PC
  if ¬ s.fetch.instBufferValid ∨ s.fetch.flushPending then .ok (none, s)
  else if s.mem.getMemAccessWidthBaseByteAddr pc ≠ s.fetch.instBufferBaseAddr then
    .error (.fatal "Unpredictable state: instruction buffer is valid and out of sync with pc")
  else
    let inst := s.fetch.instBuffer (s.mem.getMemAccessWidthInstOffset pc)
    .ok (some inst, { s with regFile := s.regFile.write .PC (NEXT_THUMB_INST pc) })

namespace Decode

/-- Method `Decode::getCorrectedFetchAddress`. -/
def getCorrectedFetchAddress (rf : RegFile) : Nat := NEXT_THUMB_INST (rf.readData .PC)

/-- Method `Decode::updateDecodedInstReg`. -/
def updateDecodedInstReg (rf : RegFile) (d : DecodedInst) (regIndex : DecodedInstRegIndex) :
    DecodedInst :=
  let reg := d.getRegisterNumber regIndex
  let reg := if reg = .MSP ∨ reg = .PSP then rf.getActiveSp else reg
  if reg ≠ .RNONE ∧ reg ≠ .PC then d.setRegister regIndex reg (rf.readData reg) else d

/-- Method `Decode::updateDecodedInstRegs`. -/
def updateDecodedInstRegs (rf : RegFile) (d : DecodedInst) : DecodedInst :=
  let d := updateDecodedInstReg rf d .RD
  let d := updateDecodedInstReg rf d .RT
  let d := updateDecodedInstReg rf d .RDN
  let d := updateDecodedInstReg rf d .RM
  let d := updateDecodedInstReg rf d .RN
  updateDecodedInstReg rf d .XPSR

/-- Method `Decode::issuePlaceholderInst`. -/
def issuePlaceholderInst (d : DecodedInst) : DecodedInst :=
  (d.setOperation .SVC).setImmediate 66

/-- Branch `if (decodedHalfInst)` of `Decode::run`: the second halfword of a
32-bit instruction. -/
def decodeSecondHalf (inst : Nat) (d : DecodedInst) : DecodedInst :=
  if inst &&& 0xD000 = 0xD000 then
    let im11 := (inst >>> 0) &&& 0x7FF
    let j1 := (inst >>> 13) &&& 0x1
    let j2 := (inst >>> 11) &&& 0x1
    let im32 := d.getImmediate
    let s := (im32 >>> 24) &&& 0x1
    let i1 := not32 (j1 ^^^ s) &&& 0x1
    let i2 := not32 (j2 ^^^ s) &&& 0x1
    let im32 := im32 ||| (shl32 i1 23 ||| shl32 i2 22 ||| shl32 im11 1)
    d.setImmediate im32
  else issuePlaceholderInst d

/-- Main decoder of `Decode::run`, the patterns from STMIA to UXTH in the order of
the source; a halfword that matches none gets the placeholder. -/
def decodeFromStmia (inst _pc : Nat) (activeSp : Reg) (rf : RegFile) (d : DecodedInst) :
    Except Exit (DecodedInst × Bool) :=
  if inst &&& 0xF800 = 0xC000 then do
    let rn := (inst >>> 8) &&& 0x7
    let rl := (inst >>> 0) &&& 0xFF
    if rl = 0 then do
      let d := issuePlaceholderInst d
      pure (d, false)
    else do
      let ra := rf.readDataN rn
      let d := d.setOperation .STMIA
      let d ← d.setRegisterN .RN rn ra
      let d := d.setRegisterList rl
      pure (d, false)
  else if inst &&& 0xF800 = 0x6000 then do
    let rt := (inst >>> 0) &&& 0x07
    let rn := (inst >>> 3) &&& 0x07
    let im5 := (inst >>> 6) &&& 0x1F
    let ra := rf.readDataN rt
    let rb := rf.readDataN rn
    let d := d.setOperation .STR1
    let d ← d.setRegisterN .RT rt ra
    let d ← d.setRegisterN .RN rn rb
    let d := d.setImmediate im5
    pure (d, false)
  else if inst &&& 0xFE00 = 0x5000 then do
    let rt := (inst >>> 0) &&& 0x7
    let rn := (inst >>> 3) &&& 0x7
    let rm := (inst >>> 6) &&& 0x7
    let ra := rf.readDataN rn
    let rb := rf.readDataN rm
    let rc := rf.readDataN rt
    let d := d.setOperation .STR2
    let d ← d.setRegisterN .RT rt rc
    let d ← d.setRegisterN .RN rn ra
    let d ← d.setRegisterN .RM rm rb
    pure (d, false)
  else if inst &&& 0xF800 = 0x9000 then do
    let rt := (inst >>> 8) &&& 0x07
    let im8 := (inst >>> 0) &&& 0xFF
    let ra := rf.readDataN rt
    let rb := rf.readData activeSp
    let d := d.setOperation .STR3
    let d ← d.setRegisterN .RT rt ra
    let d := d.setRegister .RN activeSp rb
    let d := d.setImmediate im8
    pure (d, false)
  else if inst &&& 0xF800 = 0x7000 then do
    let rt := (inst >>> 0) &&& 0x07
    let rn := (inst >>> 3) &&& 0x07
    let im5 := (inst >>> 6) &&& 0x1F
    let ra := rf.readDataN rt
    let rb := rf.readDataN rn
    let d := d.setOperation .STRB1
    let d ← d.setRegisterN .RT rt ra
    let d ← d.setRegisterN .RN rn rb
    let d := d.setImmediate im5
    pure (d, false)
  else if inst &&& 0xFE00 = 0x5400 then do
    let rt := (inst >>> 0) &&& 0x7
    let rn := (inst >>> 3) &&& 0x7
    let rm := (inst >>> 6) &&& 0x7
    let ra := rf.readDataN rn
    let rb := rf.readDataN rm
    let rc := rf.readDataN rt
    let d := d.setOperation .STRB2
    let d ← d.setRegisterN .RT rt rc
    let d ← d.setRegisterN .RN rn ra
    let d ← d.setRegisterN .RM rm rb
    pure (d, false)
  else if inst &&& 0xF800 = 0x8000 then do
    let rt := (inst >>> 0) &&& 0x07
    let rn := (inst >>> 3) &&& 0x07
    let im5 := (inst >>> 6) &&& 0x1F
    let ra := rf.readDataN rt
    let rb := rf.readDataN rn
    let d := d.setOperation .STRH1
    let d ← d.setRegisterN .RT rt ra
    let d ← d.setRegisterN .RN rn rb
    let d := d.setImmediate im5
    pure (d, false)
  else if inst &&& 0xFE00 = 0x5200 then do
    let rt := (inst >>> 0) &&& 0x7
    let rn := (inst >>> 3) &&& 0x7
    let rm := (inst >>> 6) &&& 0x7
    let ra := rf.readDataN rn
    let rb := rf.readDataN rm
    let rc := rf.readDataN rt
    let d := d.setOperation .STRH2
    let d ← d.setRegisterN .RT rt rc
    let d ← d.setRegisterN .RN rn ra
    let d ← d.setRegisterN .RM rm rb
    pure (d, false)
  else if inst &&& 0xFE00 = 0x1E00 then do
    let rd := (inst >>> 0) &&& 0x7
    let rn := (inst >>> 3) &&& 0x7
    let im3 := (inst >>> 6) &&& 0x7
    let rb := rf.readDataN rn
    let d := d.setOperation .SUB1
    let d ← d.setRegisterN .RD rd 0
    let d ← d.setRegisterN .RN rn rb
    let d := d.setImmediate im3
    pure (d, false)
  else if inst &&& 0xF800 = 0x3800 then do
    let rdn := (inst >>> 8) &&& 0x7
    let im8 := (inst >>> 0) &&& 0xFF
    let ra := rf.readDataN rdn
    let d := d.setOperation .SUB2
    let d ← d.setRegisterN .RDN rdn ra
    let d := d.setImmediate im8
    pure (d, false)
  else if inst &&& 0xFE00 = 0x1A00 then do
    let rd := (inst >>> 0) &&& 0x7
    let rn := (inst >>> 3) &&& 0x7
    let rm := (inst >>> 6) &&& 0x7
    let ra := rf.readDataN rn
    let rb := rf.readDataN rm
    let d := d.setOperation .SUB3
    let d ← d.setRegisterN .RD rd 0
    let d ← d.setRegisterN .RN rn ra
    let d ← d.setRegisterN .RM rm rb
    pure (d, false)
  else if inst &&& 0xFF80 = 0xB080 then do
    let im7 := (inst >>> 0) &&& 0x7F
    let ra := rf.readData activeSp
    let d := d.setOperation .SUB4
    let d := d.setRegister .RDN activeSp ra
    let d := d.setImmediate im7
    pure (d, false)
  else if inst &&& 0xFF00 = 0xDF00 then do
    let im8 := inst &&& 0xFF
    let d := d.setOperation .SVC
    let d := d.setImmediate im8
    pure (d, false)
  else if inst &&& 0xFFC0 = 0xB240 then do
    let rd := (inst >>> 0) &&& 0x7
    let rm := (inst >>> 3) &&& 0x7
    let rb := rf.readDataN rm
    let d := d.setOperation .SXTB
    let d ← d.setRegisterN .RD rd 0
    let d ← d.setRegisterN .RM rm rb
    pure (d, false)
  else if inst &&& 0xFFC0 = 0xB200 then do
    let rd := (inst >>> 0) &&& 0x7
    let rm := (inst >>> 3) &&& 0x7
    let rb := rf.readDataN rm
    let d := d.setOperation .SXTH
    let d ← d.setRegisterN .RD rd 0
    let d ← d.setRegisterN .RM rm rb
    pure (d, false)
  else if inst &&& 0xFFC0 = 0x4200 then do
    let rn := (inst >>> 0) &&& 0x7
    let rm := (inst >>> 3) &&& 0x7
    let ra := rf.readDataN rn
    let rb := rf.readDataN rm
    let d := d.setOperation .TST
    let d ← d.setRegisterN .RN rn ra
    let d ← d.setRegisterN .RM rm rb
    pure (d, false)
  else if inst &&& 0xFFC0 = 0xB2C0 then do
    let rd := (inst >>> 0) &&& 0x7
    let rm := (inst >>> 3) &&& 0x7
    let rb := rf.readDataN rm
    let d := d.setOperation .UXTB
    let d ← d.setRegisterN .RD rd 0
    let d ← d.setRegisterN .RM rm rb
    pure (d, false)
  else if inst &&& 0xFFC0 = 0xB280 then do
    let rd := (inst >>> 0) &&& 0x7
    let rm := (inst >>> 3) &&& 0x7
    let rb := rf.readDataN rm
    let d := d.setOperation .UXTH
    let d ← d.setRegisterN .RD rd 0
    let d ← d.setRegisterN .RM rm rb
    pure (d, false)
  else pure (issuePlaceholderInst d, false)

/-- Main decoder of `Decode::run`, the patterns from MOV1 to SEV in the order of
the source; a halfword that matches none goes on to `decodeFromStmia`. The flag
returned is the new `decodedHalfInst`. -/
def decodeFromMov1 (inst pc : Nat) (activeSp : Reg) (rf : RegFile) (d : DecodedInst) :
    Except Exit (DecodedInst × Bool) :=
  if inst &&& 0xF800 = 0x2000 then do
    let rd := (inst >>> 8) &&& 0x07
    let im8 := (inst >>> 0) &&& 0xFF
    let d := d.setOperation .MOV1
    let d ← d.setRegisterN .RD rd 0
    let d := d.setImmediate im8
    pure (d, false)
  else if inst &&& 0xFFC0 = 0x0000 then do
    let rd := (inst >>> 0) &&& 0x7
    let rm := (inst >>> 3) &&& 0x7
    let rb := rf.readDataN rm
    let d := d.setOperation .MOV2
    let d ← d.setRegisterN .RD rd 0
    let d ← d.setRegisterN .RM rm rb
    pure (d, false)
  else if inst &&& 0xFFC0 = 0x4340 then do
    let rdn := (inst >>> 0) &&& 0x7
    let rn := (inst >>> 3) &&& 0x7
    let ra := rf.readDataN rdn
    let rb := rf.readDataN rn
    let d := d.setOperation .MUL
    let d ← d.setRegisterN .RDN rdn ra
    let d ← d.setRegisterN .RN rn rb
    pure (d, false)
  else if inst &&& 0xFFC0 = 0x43C0 then do
    let rd := (inst >>> 0) &&& 0x7
    let rm := (inst >>> 3) &&& 0x7
    let rb := rf.readDataN rm
    let d := d.setOperation .MVN
    let d ← d.setRegisterN .RD rd 0
    let d ← d.setRegisterN .RM rm rb
    pure (d, false)
  else if inst &&& 0xFFC0 = 0x4240 then do
    let rd := (inst >>> 0) &&& 0x7
    let rn := (inst >>> 3) &&& 0x7
    let rb := rf.readDataN rn
    let d := d.setOperation .NEG
    let d ← d.setRegisterN .RD rd 0
    let d ← d.setRegisterN .RN rn rb
    let d := d.setImmediate 0
    pure (d, false)
  else if inst &&& 0xFFFF = 0xBF00 then do
    let d := d.setOperation .NOP
    pure (d, false)
  else if inst &&& 0xFFC0 = 0x4300 then do
    let rdn := (inst >>> 0) &&& 0x7
    let rm := (inst >>> 3) &&& 0x7
    let ra := rf.readDataN rdn
    let rb := rf.readDataN rm
    let d := d.setOperation .ORR
    let d ← d.setRegisterN .RDN rdn ra
    let d ← d.setRegisterN .RM rm rb
    pure (d, false)
  else if inst &&& 0xFE00 = 0xBC00 then do
    let rl := (inst >>> 0) &&& 0xFF
    let rl := rl ||| shl32 ((inst >>> 8) &&& 0x1) Reg.PC.toNat
    if rl = 0 then do
      let d := issuePlaceholderInst d
      pure (d, false)
    else do
      let ra := rf.readData activeSp
      let d := d.setOperation .POP
      let d := d.setRegister .RN activeSp ra
      let d := d.setRegisterList rl
      pure (d, false)
  else if inst &&& 0xFE00 = 0xB400 then do
    let rl := (inst >>> 0) &&& 0xFF
    let rl := rl ||| shl32 ((inst >>> 8) &&& 0x1) Reg.LR.toNat
    if rl = 0 then do
      let d := issuePlaceholderInst d
      pure (d, false)
    else do
      let ra := rf.readData activeSp
      let d := d.setOperation .PUSH
      let d := d.setRegister .RN activeSp ra
      let d := d.setRegisterList rl
      pure (d, false)
  else if inst &&& 0xFFC0 = 0xBA00 then do
    let rd := (inst >>> 0) &&& 0x7
    let rm := (inst >>> 3) &&& 0x7
    let rb := rf.readDataN rm
    let d := d.setOperation .REV
    let d ← d.setRegisterN .RD rd 0
    let d ← d.setRegisterN .RM rm rb
    pure (d, false)
  else if inst &&& 0xFFC0 = 0xBA40 then do
    let rd := (inst >>> 0) &&& 0x7
    let rm := (inst >>> 3) &&& 0x7
    let rb := rf.readDataN rm
    let d := d.setOperation .REV16
    let d ← d.setRegisterN .RD rd 0
    let d ← d.setRegisterN .RM rm rb
    pure (d, false)
  else if inst &&& 0xFFC0 = 0xBAC0 then do
    let rd := (inst >>> 0) &&& 0x7
    let rm := (inst >>> 3) &&& 0x7
    let rb := rf.readDataN rm
    let d := d.setOperation .REV16
    let d ← d.setRegisterN .RD rd 0
    let d ← d.setRegisterN .RM rm rb
    pure (d, false)
  else if inst &&& 0xFFC0 = 0x41C0 then do
    let rdn := (inst >>> 0) &&& 0x07
    let rm := (inst >>> 3) &&& 0x07
    let ra := rf.readDataN rdn
    let rb := rf.readDataN rm
    let d := d.setOperation .ROR
    let d ← d.setRegisterN .RDN rdn ra
    let d ← d.setRegisterN .RM rm rb
    pure (d, false)
  else if inst &&& 0xFFC0 = 0x4180 then do
    let rdn := (inst >>> 0) &&& 0x07
    let rm := (inst >>> 3) &&& 0x07
    let ra := rf.readDataN rdn
    let rb := rf.readDataN rm
    let xpsr := rf.readData .XPSR
    let d := d.setOperation .SBC
    let d ← d.setRegisterN .RDN rdn ra
    let d ← d.setRegisterN .RM rm rb
    let d := d.setRegister .XPSR .XPSR xpsr
    pure (d, false)
  else if inst &&& 0xFFFF = 0xBF40 then do
    throw (.fatal "Unsupported instruction SEV")
  else decodeFromStmia inst pc activeSp rf d

/-- Main decoder of `Decode::run`, the patterns from LDR1 to LSR2 in the order of
the source; a halfword that matches none goes on to `decodeFromMov1`. The flag
returned is the new `decodedHalfInst`. -/
def decodeFromLdr1 (inst pc : Nat) (activeSp : Reg) (rf : RegFile) (d : DecodedInst) :
    Except Exit (DecodedInst × Bool) :=
  if inst &&& 0xF800 = 0x6800 then do
    let rt := (inst >>> 0) &&& 0x07
    let rn := (inst >>> 3) &&& 0x07
    let im5 := (inst >>> 6) &&& 0x1F
    let rb := rf.readDataN rn
    let d := d.setOperation .LDR1
    let d ← d.setRegisterN .RT rt 0
    let d ← d.setRegisterN .RN rn rb
    let d := d.setImmediate im5
    pure (d, false)
  else if inst &&& 0xFE00 = 0x5800 then do
    let rt := (inst >>> 0) &&& 0x7
    let rn := (inst >>> 3) &&& 0x7
    let rm := (inst >>> 6) &&& 0x7
    let ra := rf.readDataN rn
    let rb := rf.readDataN rm
    let d := d.setOperation .LDR2
    let d ← d.setRegisterN .RT rt 0
    let d ← d.setRegisterN .RN rn ra
    let d ← d.setRegisterN .RM rm rb
    pure (d, false)
  else if inst &&& 0xF800 = 0x4800 then do
    let rt := (inst >>> 8) &&& 0x07
    let im8 := (inst >>> 0) &&& 0xFF
    let d := d.setOperation .LDR3
    let d ← d.setRegisterN .RT rt 0
    let d := d.setRegister .RN .PC pc
    let d := d.setImmediate im8
    pure (d, false)
  else if inst &&& 0xF800 = 0x9800 then do
    let rt := (inst >>> 8) &&& 0x07
    let im8 := (inst >>> 0) &&& 0xFF
    let rb := rf.readData activeSp
    let d := d.setOperation .LDR4
    let d ← d.setRegisterN .RT rt 0
    let d := d.setRegister .RN activeSp rb
    let d := d.setImmediate im8
    pure (d, false)
  else if inst &&& 0xF800 = 0x7800 then do
    let rt := (inst >>> 0) &&& 0x07
    let rn := (inst >>> 3) &&& 0x07
    let im5 := (inst >>> 6) &&& 0x1F
    let rb := rf.readDataN rn
    let d := d.setOperation .LDRB1
    let d ← d.setRegisterN .RT rt 0
    let d ← d.setRegisterN .RN rn rb
    let d := d.setImmediate im5
    pure (d, false)
  else if inst &&& 0xFE00 = 0x5C00 then do
    let rt := (inst >>> 0) &&& 0x7
    let rn := (inst >>> 3) &&& 0x7
    let rm := (inst >>> 6) &&& 0x7
    let ra := rf.readDataN rn
    let rb := rf.readDataN rm
    let d := d.setOperation .LDRB2
    let d ← d.setRegisterN .RT rt 0
    let d ← d.setRegisterN .RN rn ra
    let d ← d.setRegisterN .RM rm rb
    pure (d, false)
  else if inst &&& 0xF800 = 0x8800 then do
    let rt := (inst >>> 0) &&& 0x07
    let rn := (inst >>> 3) &&& 0x07
    let im5 := (inst >>> 6) &&& 0x1F
    let rb := rf.readDataN rn
    let d := d.setOperation .LDRH1
    let d ← d.setRegisterN .RT rt 0
    let d ← d.setRegisterN .RN rn rb
    let d := d.setImmediate im5
    pure (d, false)
  else if inst &&& 0xFE00 = 0x5A00 then do
    let rt := (inst >>> 0) &&& 0x7
    let rn := (inst >>> 3) &&& 0x7
    let rm := (inst >>> 6) &&& 0x7
    let ra := rf.readDataN rn
    let rb := rf.readDataN rm
    let d := d.setOperation .LDRH2
    let d ← d.setRegisterN .RT rt 0
    let d ← d.setRegisterN .RN rn ra
    let d ← d.setRegisterN .RM rm rb
    pure (d, false)
  else if inst &&& 0xFE00 = 0x5600 then do
    let rt := (inst >>> 0) &&& 0x7
    let rn := (inst >>> 3) &&& 0x7
    let rm := (inst >>> 6) &&& 0x7
    let ra := rf.readDataN rn
    let rb := rf.readDataN rm
    let d := d.setOperation .LDRSB
    let d ← d.setRegisterN .RT rt 0
    let d ← d.setRegisterN .RN rn ra
    let d ← d.setRegisterN .RM rm rb
    pure (d, false)
  else if inst &&& 0xFE00 = 0x5E00 then do
    let rt := (inst >>> 0) &&& 0x7
    let rn := (inst >>> 3) &&& 0x7
    let rm := (inst >>> 6) &&& 0x7
    let ra := rf.readDataN rn
    let rb := rf.readDataN rm
    let d := d.setOperation .LDRSH
    let d ← d.setRegisterN .RT rt 0
    let d ← d.setRegisterN .RN rn ra
    let d ← d.setRegisterN .RM rm rb
    pure (d, false)
  else if inst &&& 0xF800 = 0x0000 then do
    let rd := (inst >>> 0) &&& 0x07
    let rm := (inst >>> 3) &&& 0x07
    let im5 := (inst >>> 6) &&& 0x1F
    let rb := rf.readDataN rm
    let d := d.setOperation .LSL1
    let d ← d.setRegisterN .RD rd 0
    let d ← d.setRegisterN .RM rm rb
    let d := d.setImmediate im5
    pure (d, false)
  else if inst &&& 0xFFC0 = 0x4080 then do
    let rdn := (inst >>> 0) &&& 0x7
    let rm := (inst >>> 3) &&& 0x7
    let ra := rf.readDataN rdn
    let rb := rf.readDataN rm
    let d := d.setOperation .LSL2
    let d ← d.setRegisterN .RDN rdn ra
    let d ← d.setRegisterN .RM rm rb
    pure (d, false)
  else if inst &&& 0xF800 = 0x0800 then do
    let rd := (inst >>> 0) &&& 0x07
    let rm := (inst >>> 3) &&& 0x07
    let im5 := (inst >>> 6) &&& 0x1F
    let rb := rf.readDataN rm
    let d := d.setOperation .LSR1
    let d ← d.setRegisterN .RD rd 0
    let d ← d.setRegisterN .RM rm rb
    let d := d.setImmediate im5
    pure (d, false)
  else if inst &&& 0xFFC0 = 0x40C0 then do
    let rdn := (inst >>> 0) &&& 0x7
    let rm := (inst >>> 3) &&& 0x7
    let ra := rf.readDataN rdn
    let rb := rf.readDataN rm
    let d := d.setOperation .LSR2
    let d ← d.setRegisterN .RDN rdn ra
    let d ← d.setRegisterN .RM rm rb
    pure (d, false)
  else decodeFromMov1 inst pc activeSp rf d

/-- Main decoder of `Decode::run`, the patterns from B2 to LDMIA in the order of
the source; a halfword that matches none goes on to `decodeFromLdr1`. The flag
returned is the new `decodedHalfInst`. -/
def decodeFromB2 (inst pc : Nat) (activeSp : Reg) (rf : RegFile) (d : DecodedInst) :
    Except Exit (DecodedInst × Bool) :=
  if inst &&& 0xF800 = 0xE000 then do
    let im11 := (inst >>> 0) &&& 0x7FF
    let d := d.setOperation .B2
    let d := d.setRegister .RM .PC pc
    let d := d.setImmediate im11
    pure (d, false)
  else if inst &&& 0xFFC0 = 0x4380 then do
    let rdn := (inst >>> 0) &&& 0x7
    let rm := (inst >>> 3) &&& 0x7
    let ra := rf.readDataN rdn
    let rb := rf.readDataN rm
    let d := d.setOperation .BIC
    let d ← d.setRegisterN .RDN rdn ra
    let d ← d.setRegisterN .RM rm rb
    pure (d, false)
  else if inst &&& 0xFF00 = 0xBE00 then do
    let im8 := (inst >>> 0) &&& 0xFF
    let d := d.setOperation .BKPT
    let d := d.setImmediate im8
    pure (d, false)
  else if inst &&& 0xF800 = 0xF000 then do
    let im10 := (inst >>> 0) &&& 0x3FF
    let s := (inst >>> 10) &&& 0x1
    let im32 := shl32 im10 12 ||| shl32 s 24
    let d := d.setOperation .BL
    let d := d.setRegister .RDN .PC pc
    let d := d.setImmediate im32
    pure (d, true)
  else if inst &&& 0xFF87 = 0x4780 then do
    let rm := (inst >>> 3) &&& 0xF
    if rm = Reg.PC.toNat then do
      let d := issuePlaceholderInst d
      pure (d, false)
    else do
      let rb := rf.readDataN rm
      let d := d.setOperation .BLX
      let d := d.setRegister .RDN .PC pc
      let d ← d.setRegisterN .RM rm rb
      pure (d, false)
  else if inst &&& 0xFF87 = 0x4700 then do
    let rm := (inst >>> 3) &&& 0xF
    let rb := if rm = Reg.PC.toNat then pc else rf.readDataN rm
    let d := d.setOperation .BX
    let d := d.setRegister .RDN .PC pc
    let d ← d.setRegisterN .RM rm rb
    pure (d, false)
  else if inst &&& 0xFFC0 = 0x42C0 then do
    let rn := (inst >>> 0) &&& 0x7
    let rm := (inst >>> 3) &&& 0x7
    let ra := rf.readDataN rn
    let rb := rf.readDataN rm
    let d := d.setOperation .CMN
    let d ← d.setRegisterN .RN rn ra
    let d ← d.setRegisterN .RM rm rb
    pure (d, false)
  else if inst &&& 0xF800 = 0x2800 then do
    let rn := (inst >>> 8) &&& 0x07
    let im8 := (inst >>> 0) &&& 0xFF
    let ra := rf.readDataN rn
    let d := d.setOperation .CMP1
    let d ← d.setRegisterN .RN rn ra
    let d := d.setImmediate im8
    pure (d, false)
  else if inst &&& 0xFFC0 = 0x4280 then do
    let rn := (inst >>> 0) &&& 0x7
    let rm := (inst >>> 3) &&& 0x7
    let ra := rf.readDataN rn
    let rb := rf.readDataN rm
    let d := d.setOperation .CMP2
    let d ← d.setRegisterN .RN rn ra
    let d ← d.setRegisterN .RM rm rb
    pure (d, false)
  else if inst &&& 0xFF00 = 0x4500 then do
    let rn := (inst >>> 0) &&& 0x7
    let rn := rn ||| ((inst >>> 4) &&& 0x8)
    let rm := (inst >>> 3) &&& 0xF
    if ((inst >>> 6) &&& 0x3) = 0x0 then do
      let d := issuePlaceholderInst d
      pure (d, false)
    else if rn = Reg.PC.toNat ∨ rm = Reg.PC.toNat then do
      let d := issuePlaceholderInst d
      pure (d, false)
    else do
      let ra := rf.readDataN rn
      let rb := rf.readDataN rm
      let d := d.setOperation .CMP3
      let d ← d.setRegisterN .RN rn ra
      let d ← d.setRegisterN .RM rm rb
      pure (d, false)
  else if inst &&& 0xFFEC = 0xB660 then do
    let rm := 0
    let rb := rf.readDataN rm
    let d := d.setOperation .CPS
    let d ← d.setRegisterN .RM rm rb
    pure (d, false)
  else if inst &&& 0xFF00 = 0x4600 then do
    let rd := (inst >>> 0) &&& 0x7
    let rd := rd ||| ((inst >>> 4) &&& 0x8)
    let rm := (inst >>> 3) &&& 0xF
    let rb := if rm = Reg.PC.toNat then pc else rf.readDataN rm
    let d := d.setOperation .CPY
    let d ← d.setRegisterN .RD rd 0
    let d ← d.setRegisterN .RM rm rb
    pure (d, false)
  else if inst &&& 0xFFC0 = 0x4040 then do
    let rdn := (inst >>> 0) &&& 0x7
    let rm := (inst >>> 3) &&& 0x7
    let ra := rf.readDataN rdn
    let rb := rf.readDataN rm
    let d := d.setOperation .EOR
    let d ← d.setRegisterN .RDN rdn ra
    let d ← d.setRegisterN .RM rm rb
    pure (d, false)
  else if inst &&& 0xF800 = 0xC800 then do
    let rn := (inst >>> 8) &&& 0x7
    let rl := (inst >>> 0) &&& 0xFF
    if rl = 0 then do
      let d := issuePlaceholderInst d
      pure (d, false)
    else do
      let ra := rf.readDataN rn
      let d := d.setOperation .LDMIA
      let d ← d.setRegisterN .RN rn ra
      let d := d.setRegisterList rl
      pure (d, false)
  else decodeFromLdr1 inst pc activeSp rf d

/-- Main decoder of `Decode::run`, the patterns from ADC to B1 in the order of
the source; a halfword that matches none goes on to `decodeFromB2`. The flag
returned is the new `decodedHalfInst`. -/
def decodeFromAdc (inst pc : Nat) (activeSp : Reg) (rf : RegFile) (d : DecodedInst) :
    Except Exit (DecodedInst × Bool) :=
  if inst &&& 0xFFC0 = 0x4140 then do
    let rdn := (inst >>> 0) &&& 0x07
    let rm := (inst >>> 3) &&& 0x07
    let ra := rf.readDataN rdn
    let rb := rf.readDataN rm
    let xpsr := rf.readData .XPSR
    let d := d.setOperation .ADC
    let d ← d.setRegisterN .RDN rdn ra
    let d ← d.setRegisterN .RM rm rb
    let d := d.setRegister .XPSR .XPSR xpsr
    pure (d, false)
  else if inst &&& 0xFE00 = 0x1C00 then do
    let rd := (inst >>> 0) &&& 0x7
    let rn := (inst >>> 3) &&& 0x7
    let im3 := (inst >>> 6) &&& 0x7
    let rb := rf.readDataN rn
    let d := d.setOperation .ADD1
    let d ← d.setRegisterN .RD rd 0
    let d ← d.setRegisterN .RN rn rb
    let d := d.setImmediate im3
    pure (d, false)
  else if inst &&& 0xF800 = 0x3000 then do
    let rdn := (inst >>> 8) &&& 0x7
    let im8 := (inst >>> 0) &&& 0xFF
    let ra := rf.readDataN rdn
    let d := d.setOperation .ADD2
    let d ← d.setRegisterN .RDN rdn ra
    let d := d.setImmediate im8
    pure (d, false)
  else if inst &&& 0xFE00 = 0x1800 then do
    let rd := (inst >>> 0) &&& 0x7
    let rn := (inst >>> 3) &&& 0x7
    let rm := (inst >>> 6) &&& 0x7
    let ra := rf.readDataN rn
    let rb := rf.readDataN rm
    let d := d.setOperation .ADD3
    let d ← d.setRegisterN .RD rd 0
    let d ← d.setRegisterN .RN rn ra
    let d ← d.setRegisterN .RM rm rb
    pure (d, false)
  else if inst &&& 0xFF00 = 0x4400 then do
    let rdn := (inst >>> 0) &&& 0x7
    let rdn := rdn ||| ((inst >>> 4) &&& 0x8)
    let rm := (inst >>> 3) &&& 0xF
    if rdn = Reg.PC.toNat ∧ rdn = rm then do
      let d := issuePlaceholderInst d
      pure (d, false)
    else do
      let ra := if rdn = Reg.PC.toNat then pc else rf.readDataN rdn
      let rb := if rm = Reg.PC.toNat then pc else rf.readDataN rm
      let d := d.setOperation .ADD4
      let d ← d.setRegisterN .RDN rdn ra
      let d ← d.setRegisterN .RM rm rb
      pure (d, false)
  else if inst &&& 0xF800 = 0xA000 then do
    let rd := (inst >>> 8) &&& 0x7
    let im8 := (inst >>> 0) &&& 0xFF
    let d := d.setOperation .ADD5
    let d ← d.setRegisterN .RD rd 0
    let d := d.setRegister .RM .PC pc
    let d := d.setImmediate im8
    pure (d, false)
  else if inst &&& 0xF800 = 0xA800 then do
    let rd := (inst >>> 8) &&& 0x7
    let im8 := (inst >>> 0) &&& 0xFF
    let rb := rf.readData activeSp
    let d := d.setOperation .ADD6
    let d ← d.setRegisterN .RD rd 0
    let d := d.setRegister .RM activeSp rb
    let d := d.setImmediate im8
    pure (d, false)
  else if inst &&& 0xFF80 = 0xB000 then do
    let im7 := (inst >>> 0) &&& 0x7F
    let rb := rf.readData activeSp
    let d := d.setOperation .ADD7
    let d := d.setRegister .RD activeSp 0
    let d := d.setRegister .RM activeSp rb
    let d := d.setImmediate im7
    pure (d, false)
  else if inst &&& 0xFFC0 = 0x4000 then do
    let rdn := (inst >>> 0) &&& 0x7
    let rm := (inst >>> 3) &&& 0x7
    let ra := rf.readDataN rdn
    let rb := rf.readDataN rm
    let d := d.setOperation .AND
    let d ← d.setRegisterN .RDN rdn ra
    let d ← d.setRegisterN .RM rm rb
    pure (d, false)
  else if inst &&& 0xF800 = 0x1000 then do
    let rd := (inst >>> 0) &&& 0x07
    let rm := (inst >>> 3) &&& 0x07
    let im5 := (inst >>> 6) &&& 0x1F
    let rb := rf.readDataN rm
    let d := d.setOperation .ASR1
    let d ← d.setRegisterN .RD rd 0
    let d ← d.setRegisterN .RM rm rb
    let d := d.setImmediate im5
    pure (d, false)
  else if inst &&& 0xFFC0 = 0x4100 then do
    let rdn := (inst >>> 0) &&& 0x07
    let rm := (inst >>> 3) &&& 0x07
    let ra := rf.readDataN rdn
    let rb := rf.readDataN rm
    let d := d.setOperation .ASR2
    let d ← d.setRegisterN .RDN rdn ra
    let d ← d.setRegisterN .RM rm rb
    pure (d, false)
  else if inst &&& 0xF000 = 0xD000 then do
    let im8 := (inst >>> 0) &&& 0xFF
    let cond := (inst >>> 8) &&& 0xF
    if cond = DecodedCondition.U0.toNat then do
      let d := issuePlaceholderInst d
      pure (d, false)
    else if cond ≠ DecodedCondition.U1.toNat then do
      let xpsr := rf.readData .XPSR
      let d := d.setOperation .B1
      let d := d.setRegister .RM .PC pc
      let d := d.setRegister .XPSR .XPSR xpsr
      let d := d.setImmediate im8
      let d ← d.setCondition cond
      pure (d, false)
    else decodeFromB2 inst pc activeSp rf d
  else decodeFromB2 inst pc activeSp rf d

/-- Method `Decode::run`, one decode tick. -/
def run (s : Processor) : Except Exit Processor :=
  if s.decode.flushPending then
    .ok { s with decode := { decodedHalfInst := false, flushPending := false, decodedInst := none } }
  else if s.decode.decodedInst.isSome ∧ ¬ s.decode.decodedHalfInst then
    .ok { s with decode := { s.decode with
      decodedInst := s.decode.decodedInst.map (updateDecodedInstRegs s.regFile) } }
  else
    match Fetch.getNextInst s with
    | .error e => .error e
    | .ok (none, s) => .ok s
    | .ok (some inst, s) =>
      let d := match s.decode.decodedInst with
        | none => DecodedInst.new
        | some d => d
      let pc := getCorrectedFetchAddress s.regFile
      let activeSp := s.regFile.getActiveSp
      if s.decode.decodedHalfInst then
        .ok { s with decode := { s.decode with
          decodedHalfInst := false, decodedInst := some (decodeSecondHalf inst d) } }
      else
        match decodeFromAdc inst pc activeSp s.regFile d with
        | .error e => .error e
        | .ok (d, half) =>
          .ok { s with decode := { s.decode with decodedHalfInst := half, decodedInst := some d } }

end Decode

/-! ## library/fetch.cpp: the fetch tick -/

/-- Contents of the instruction buffer after the `memcpy` of the words `ws` on a
little-endian host: word `i` fills the halfwords `2 i` (low half) and `2 i + 1`
(high half); the halfwords behind the copied words keep their value. -/
def Fetch.bufferOfWords (ws : List Nat) (old : Nat → Nat) : Nat → Nat :=
  fun i => if i / 2 < ws.length then (ws.getD (i / 2) 0 >>> (16 * (i % 2))) &&& 0xFFFF else old i

/-- Method `Fetch::run`, one fetch tick. -/
def Fetch.run (s : Processor) : Processor :=
  let f := s.fetch
  let f : Fetch :=
    if f.flushPending then
      { f with
        instBufferValid := false
        instBufferBaseAddr := 0xFFFFFFFF
        instBuffer := fun i => if i < s.mem.memAccessWidthWords * 2 then 0 else f.instBuffer i
        issuedMemAccess := false
        flushPending := false }
    else f
  let pc := s.regFile.readData .PC
  let f : Fetch :=
    if f.issuedMemAccess then
      match s.mem.retrieveWideLoad f.memToken with
      | some ws =>
        { f with
          instBuffer := Fetch.bufferOfWords ws f.instBuffer
          instBufferValid := true
          instBufferBaseAddr := s.mem.getMemAccessWidthBaseByteAddr pc
          issuedMemAccess := false }
      | none => f
    else f
  let pc := if f.instBufferValid then NEXT_THUMB_INST pc else pc
  if ¬ f.instBufferValid ∨
      (¬ Execute.isStalled s ∧ s.mem.getMemAccessWidthBaseByteAddr pc ≠ f.instBufferBaseAddr) then
    match s.mem.requestLoad .FETCH pc with
    | some (token, mem) =>
      { s with
        mem := mem
        fetch := { f with memToken := token, issuedMemAccess := true }
        stats := s.stats.addFetchCycle }
    | none => { s with fetch := f, stats := s.stats.addFetchCycle }
  else { s with fetch := f }

/-! ## library/processor.cpp: the cycle and the reset -/

/-- Method `Processor::simulateCycle`: the execute, decode, fetch and memory
ticks of one cycle, in this order. -/
def Processor.simulateCycle (s : Processor) : Except Exit Processor :=
  match Execute.run { s with stats := s.stats.addCycle } with
  | .error e => .error e
  | .ok s =>
    match Decode.run s with
    | .error e => .error e
    | .ok s =>
      let s := Fetch.run s
      match s.mem.run with
      | .error e => .error e
      | .ok m => .ok { s with mem := m }

/-- Runs `n` cycles, as the loop of `simulator.cpp` does. -/
def Processor.simulateCycles : Nat → Processor → Except Exit Processor
  | 0, s => .ok s
  | n + 1, s =>
    match s.simulateCycle with
    | .error e => .error e
    | .ok s => simulateCycles n s

/-- Byte `i` of the memory after `inBin.read` has copied the bytes of the file
to the start of the word array (little-endian host): a byte of the file, or
the byte the word held before. -/
def Memory.byteAfterLoad (old : Nat → Nat) (bytes : List Nat) (i : Nat) : Nat :=
  if i < bytes.length then bytes.getD i 0 % 256 else (old (i / 4) >>> (8 * (i % 4))) &&& 0xFF

/-- Word array after `inBin.read`, each word assembled from its four bytes. -/
def Memory.wordsAfterLoad (old : Nat → Nat) (bytes : List Nat) : Nat → Nat :=
  fun w =>
    Memory.byteAfterLoad old bytes (4 * w) + 256 * Memory.byteAfterLoad old bytes (4 * w + 1)
      + 65536 * Memory.byteAfterLoad old bytes (4 * w + 2)
      + 16777216 * Memory.byteAfterLoad old bytes (4 * w + 3)

/-- Method `Memory::loadProgram`. The file is given by its bytes, `none` when it
cannot be opened; the read is taken to deliver every byte. The result `none`
is the return code -1, `some (pc, programByteSize, memory)` the return code 0. -/
def Memory.loadProgram (m : Memory) (file : Option (List Nat)) : Option (Nat × Nat × Memory) :=
  match file with
  | none => none
  | some bytes =>
    if bytes.length ≥ WORD_TO_BYTE_SIZE m.memSizeWords then none
    else
      let m : Memory := { m with mem := Memory.wordsAfterLoad m.mem bytes }
      some (m.mem (GET_WORD_INDEX (add32 0 4)), bytes.length, m)

/-- Method `Processor::reset`; `fetch->setExecute` has no counterpart, the
components share the one state. -/
def Processor.reset (s : Processor) (file : Option (List Nat)) : Except Exit Processor :=
  match s.mem.loadProgram file with
  | none => .error (.fatal "Failed to load program binary in memory")
  | some (pcAddr, programByteSize, mem) =>
    if pcAddr &&& 1 = 0 then .error (.fatal "Reset vector contains an ARM address")
    else
      let s : Processor := { s with mem := mem, regFile := s.regFile.write .PC (pcAddr &&& not32 1) }
      match s.mem.loadWord 0 with
      | .error e => .error e
      | .ok sp =>
        .ok { s with
          regFile := s.regFile.write s.regFile.getActiveSp sp
          stats := { s.stats with programSizeBytes := programByteSize } }

/-! ## library/simulator.cpp -/

/-- Method `Simulator::run(programBinFile, memSizeWordsIn, memAccessWidthWordsIn)`
cut off after `n` rounds of its loop: the processor is constructed and reset
on the program file, then `simulateCycle` runs `n` times. -/
def Simulator.run (programBinFile : Option (List Nat)) (memSizeWordsIn memAccessWidthWordsIn : Nat)
    (n : Nat) : Except Exit Processor :=
  match (Processor.new memSizeWordsIn memAccessWidthWordsIn).reset programBinFile with
  | .error e => .error e
  | .ok proc => proc.simulateCycles n

/-! ## Program images of the examples -/

/-- The four bytes of a word in a program file, least significant first. -/
def wordBytes (w : Nat) : List Nat := [w % 256, w / 256 % 256, w / 65536 % 256, w / 16777216 % 256]

/-- The two bytes of a halfword in a program file, least significant first. -/
def halfBytes (h : Nat) : List Nat := [h % 256, h / 256 % 256]

/-- Image with the stack pointer at byte 16, the reset vector at byte 8 and the
code `POP {PC}; MOVS R0, 1; MOVS R1, 2; MOVS R2, 3`; the word at byte 16, which
the POP loads, is `0x0000000C`: the address of `MOVS R1, 2` with bit 0 clear. -/
def popPcImage : List Nat :=
  wordBytes 0x10 ++ wordBytes 9 ++ halfBytes 0xBD00 ++ halfBytes 0x2001 ++ halfBytes 0x2102 ++
    halfBytes 0x2203 ++ wordBytes 0x0C

/-- Image with the stack pointer at byte 256, the reset vector at byte 8 and,
there, the halfword `0xE7FE`: the branch `B .` to itself. -/
def selfLoopImage : List Nat := wordBytes 0x100 ++ wordBytes 9 ++ halfBytes 0xE7FE

/-- Image with the code `MOVS R0, 1; BL .+6; MOVS R1, 2; MOVS R2, 3; BKPT 0` at
byte 8: the BL at byte 10 (halfwords `0xF000`, `0xF801`) skips `MOVS R1, 2` and
lands on `MOVS R2, 3` at byte 16. -/
def blImage : List Nat :=
  wordBytes 0x100 ++ wordBytes 9 ++ halfBytes 0x2001 ++ halfBytes 0xF000 ++ halfBytes 0xF801 ++
    halfBytes 0x2102 ++ halfBytes 0x2203 ++ halfBytes 0xBE00

/-- Image with the stack pointer at byte 20, the code `POP {PC}` at byte 8
followed by the halfword `0xF000` (the first half of a BL), then
`MOVS R0, 1; MOVS R1, 2; MOVS R2, 3; BKPT 0` from byte 12 on; the word at byte
20, which the POP loads, is `0x0000000D`: the address 12 of `MOVS R0, 1`. -/
def popPcBlImage : List Nat :=
  wordBytes 0x14 ++ wordBytes 9 ++ halfBytes 0xBD00 ++ halfBytes 0xF000 ++ halfBytes 0x2001 ++
    halfBytes 0x2102 ++ halfBytes 0x2203 ++ halfBytes 0xBE00 ++ wordBytes 0x0D

/-- Image with the code `LDR R0, [PC, #4]; ADDS R1, R0, #1; BKPT 0` at byte 8 and
the word `0x12345678` at byte 16, which the LDR loads. -/
def ldrUseImage : List Nat :=
  wordBytes 0x100 ++ wordBytes 9 ++ halfBytes 0x4801 ++ halfBytes 0x1C41 ++ halfBytes 0xBE00 ++
    halfBytes 0 ++ wordBytes 0x12345678

/-- Image with the stack pointer at byte 16, the reset vector at byte 8 and the
code `POP {PC}; MOVS R0, 1; MOVS R1, 2; MOVS R2, 3`; the word at byte 16, which
the POP loads, is `0x00000021`: the address 32, five blocks of one word away,
where `MOVS R0, 1; BKPT 0` stand. -/
def popPcFarImage : List Nat :=
  wordBytes 0x10 ++ wordBytes 9 ++ halfBytes 0xBD00 ++ halfBytes 0x2001 ++ halfBytes 0x2102 ++
    halfBytes 0x2203 ++ wordBytes 0x21 ++ wordBytes 0 ++ wordBytes 0 ++ wordBytes 0 ++
    halfBytes 0x2001 ++ halfBytes 0xBE00

/-- Image like `popPcFarImage` with the first half of a BL (`0xF000`) behind
the `POP {PC}`, as when the next function starts with a call. -/
def popPcBlFarImage : List Nat :=
  wordBytes 0x10 ++ wordBytes 9 ++ halfBytes 0xBD00 ++ halfBytes 0xF000 ++ halfBytes 0xF801 ++
    halfBytes 0x2203 ++ wordBytes 0x21 ++ wordBytes 0 ++ wordBytes 0 ++ wordBytes 0 ++
    halfBytes 0x2001 ++ halfBytes 0xBE00

/-! ## The execute and memory ticks of a cycle -/

/-- Execute tick followed by the memory tick: the first and the last step of
`Processor::simulateCycle`, the two that a load or store instruction in
flight takes part in. -/
def tickExecuteMemory (s : Processor) : Except Exit Processor :=
  match Execute.run s with
  | .error e => .error e
  | .ok s =>
    match s.mem.run with
    | .error e => .error e
    | .ok m => .ok { s with mem := m }

/-- Runs `n` execute-and-memory ticks. -/
def runTicks : Nat → Processor → Except Exit Processor
  | 0, s => .ok s
  | n + 1, s =>
    match tickExecuteMemory s with
    | .error e => .error e
    | .ok s => runTicks n s

/-- Registers named by a register-list bitmap, in ascending order: the list
that `populateRegisterList` builds. -/
def registerList (rl : Nat) : List Reg :=
  ((List.range REGFILE_CORE_REGS_COUNT).filter (fun i => GET_BIT_AT_POS rl i ≠ 0)).map Reg.fromNat

/-- Memory state in which a request can be placed and will be served: the
access width is a power of two, the ring has at least two slots, the cursor
is inside the ring and the slot under the cursor is free (as after every
memory tick). -/
def Memory.Ready (m : Memory) : Prop :=
  (∃ k, m.memAccessWidthWords = 2 ^ k) ∧ 2 ≤ m.pipelineSize ∧ m.pipelineSize < 4294967296 ∧
  m.nextReqIndex < m.pipelineSize ∧ (m.pipeline m.nextReqIndex).issuer = Component.NONE

/-- Decoded record of PUSH or POP of the low registers in `rl` as `Decode::run`
fills it: the operation, RN the active stack pointer with the value read from
the register file, and the register list. -/
def decodedStackInst (op : DecodedOperation) (rf : RegFile) (rl : Nat) : DecodedInst :=
  ((DecodedInst.new.setOperation op).setRegister .RN rf.getActiveSp
    (rf.readData rf.getActiveSp)).setRegisterList rl

/-- Fresh processor of 1024 words with R0..R3 holding 1, 2, 3, 4, the main
stack pointer at byte 64 and `PUSH {R0-R3}` decoded. -/
def pushPopStart : Processor :=
  let p := Processor.new 1024 1
  let rf : RegFile := { regs := fun r =>
    match r with
    | .R0 => 1
    | .R1 => 2
    | .R2 => 3
    | .R3 => 4
    | .MSP => 64
    | r => p.regFile.regs r }
  { p with
    regFile := rf
    decode := { p.decode with decodedInst := some (decodedStackInst .PUSH rf 15) } }

/-- State `s` with R0..R3 zeroed and `POP {R0-R3}` decoded. -/
def zeroLowFour (s : Processor) : Processor :=
  let rf : RegFile := { regs := fun r =>
    match r with
    | .R0 | .R1 | .R2 | .R3 => 0
    | r => s.regFile.regs r }
  { s with
    regFile := rf
    decode := { decodedHalfInst := false, flushPending := false,
                decodedInst := some (decodedStackInst .POP rf 15) } }

/-- Fields of a BL with halfwords `h1`, `h2` side by side as the architecture
orders them, S:I1:I2:imm10:imm11:0: S is bit 10 and imm10 bits 0..9 of `h1`,
J1 and J2 are bits 13 and 11 and imm11 bits 0..10 of `h2`, I1 = NOT(J1 xor S)
and I2 = NOT(J2 xor S). -/
def blImmediate (h1 h2 : Nat) : Nat :=
  let S := h1 / 2 ^ 10 % 2
  let I1 := if h2 / 2 ^ 13 % 2 = S then 1 else 0
  let I2 := if h2 / 2 ^ 11 % 2 = S then 1 else 0
  2 ^ 24 * S + (2 ^ 23 * I1 + (2 ^ 22 * I2 + (2 ^ 12 * (h1 % 2 ^ 10) + 2 ^ 1 * (h2 % 2 ^ 11))))

/-- Branch offset of a BL: `blImmediate` read as a 25-bit two's-complement
number. -/
def blOffset (h1 h2 : Nat) : Int := signExtend 25 (blImmediate h1 h2)

/-- Value that `Execute::bl` writes to PC for the BL whose halfwords `h1`, `h2`
lie at the address `A`: the immediate sign-extended at bit 24 plus `A + 4`. -/
def blTarget (A h1 h2 : Nat) : Nat :=
  add32 (if GET_BIT_AT_POS (blImmediate h1 h2) 24 = 0 then blImmediate h1 h2
    else blImmediate h1 h2 ||| shl32 (not32 0) 24) (add32 A 4)

/-- Fresh processor whose instruction buffer holds the two halfwords of
`BL` to its own address 0 (`0xF7FF`, `0xFFFE`), PC at 0. -/
def blStart : Processor :=
  let p := Processor.new 1024 1
  { p with fetch := { p.fetch with
      instBufferValid := true
      instBufferBaseAddr := 0
      instBuffer := fun i => if i = 0 then 0xF7FF else if i = 1 then 0xFFFE else 0 } }

/-- Fresh processor whose memory word 1 (bytes 4..7) holds `0x11223344`. -/
def loadStart : Processor :=
  let p := Processor.new 1024 1
  { p with mem := { p.mem with mem := fun w => if w = 1 then 0x11223344 else 0 } }

/-! ## The patterns of the decoder cascade -/

/-- Masks and values of the comparisons of `decodeFromAdc`, in the order of the
source. -/
def Decode.patternsFromAdc : List (Nat × Nat) :=
  [(0xFFC0, 0x4140), (0xFE00, 0x1C00), (0xF800, 0x3000), (0xFE00, 0x1800), (0xFF00, 0x4400),
   (0xF800, 0xA000), (0xF800, 0xA800), (0xFF80, 0xB000), (0xFFC0, 0x4000), (0xF800, 0x1000),
   (0xFFC0, 0x4100), (0xF000, 0xD000)]

/-- Masks and values of the comparisons of `decodeFromB2`, in the order of the
source. -/
def Decode.patternsFromB2 : List (Nat × Nat) :=
  [(0xF800, 0xE000), (0xFFC0, 0x4380), (0xFF00, 0xBE00), (0xF800, 0xF000), (0xFF87, 0x4780),
   (0xFF87, 0x4700), (0xFFC0, 0x42C0), (0xF800, 0x2800), (0xFFC0, 0x4280), (0xFF00, 0x4500),
   (0xFFEC, 0xB660), (0xFF00, 0x4600), (0xFFC0, 0x4040), (0xF800, 0xC800)]

/-- Masks and values of the comparisons of `decodeFromLdr1`, in the order of the
source. -/
def Decode.patternsFromLdr1 : List (Nat × Nat) :=
  [(0xF800, 0x6800), (0xFE00, 0x5800), (0xF800, 0x4800), (0xF800, 0x9800), (0xF800, 0x7800),
   (0xFE00, 0x5C00), (0xF800, 0x8800), (0xFE00, 0x5A00), (0xFE00, 0x5600), (0xFE00, 0x5E00),
   (0xF800, 0x0000), (0xFFC0, 0x4080), (0xF800, 0x0800), (0xFFC0, 0x40C0)]

/-- Masks and values of the comparisons of `decodeFromMov1`, in the order of the
source. -/
def Decode.patternsFromMov1 : List (Nat × Nat) :=
  [(0xF800, 0x2000), (0xFFC0, 0x0000), (0xFFC0, 0x4340), (0xFFC0, 0x43C0), (0xFFC0, 0x4240),
   (0xFFFF, 0xBF00), (0xFFC0, 0x4300), (0xFE00, 0xBC00), (0xFE00, 0xB400), (0xFFC0, 0xBA00),
   (0xFFC0, 0xBA40), (0xFFC0, 0xBAC0), (0xFFC0, 0x41C0), (0xFFC0, 0x4180), (0xFFFF, 0xBF40)]

/-- Masks and values of the comparisons of `decodeFromStmia`, in the order of the
source. -/
def Decode.patternsFromStmia : List (Nat × Nat) :=
  [(0xF800, 0xC000), (0xF800, 0x6000), (0xFE00, 0x5000), (0xF800, 0x9000), (0xF800, 0x7000),
   (0xFE00, 0x5400), (0xF800, 0x8000), (0xFE00, 0x5200), (0xFE00, 0x1E00), (0xF800, 0x3800),
   (0xFE00, 0x1A00), (0xFF80, 0xB080), (0xFF00, 0xDF00), (0xFFC0, 0xB240), (0xFFC0, 0xB200),
   (0xFFC0, 0x4200), (0xFFC0, 0xB2C0), (0xFFC0, 0xB280)]

/-- The dispatch table of the main decoder: the masks and values of all the
comparisons of `Decode::run`, in the order of the source. -/
def Decode.patterns : List (Nat × Nat) :=
  Decode.patternsFromAdc ++ Decode.patternsFromB2 ++ Decode.patternsFromLdr1 ++
    Decode.patternsFromMov1 ++ Decode.patternsFromStmia

/-! ## Sequences of calls on the memory -/

/-- A call that a client makes on the memory: `requestLoad`, `requestStore`
or the tick `run`. -/
inductive MemoryCall where
  | load (issuer : Component) (byteAddr : Nat)
  | store (issuer : Component) (byteAddr data : Nat)
  | tick

/-- Runs the calls in order and gives the tokens that the successful requests
returned, oldest first, with the final memory. A request that returns -1
changes nothing; a fatal tick ends the run. -/
def Memory.calls : Memory → List MemoryCall → List Nat × Memory
  | m, [] => ([], m)
  | m, .load issuer byteAddr :: cs =>
    match m.requestLoad issuer byteAddr with
    | none => Memory.calls m cs
    | some (token, m1) => (token :: (Memory.calls m1 cs).1, (Memory.calls m1 cs).2)
  | m, .store issuer byteAddr data :: cs =>
    match m.requestStore issuer byteAddr data with
    | none => Memory.calls m cs
    | some (token, m1) => (token :: (Memory.calls m1 cs).1, (Memory.calls m1 cs).2)
  | m, .tick :: cs =>
    match m.run with
    | .error _ => ([], m)
    | .ok m1 => Memory.calls m1 cs

/-- The call is a request whose issuer is a component (not the marker `NONE`
of a free slot). -/
def MemoryCall.isRequest : MemoryCall → Prop
  | .load issuer _ => issuer ≠ Component.NONE
  | .store issuer _ _ => issuer ≠ Component.NONE
  | .tick => False

/-- The calls of `n` cycles in each of which execute requests a load of word 0
and the memory ticks. -/
def requestTicks : Nat → List MemoryCall
  | 0 => []
  | n + 1 => .load .EXECUTE 0 :: .tick :: requestTicks n

/-! ## Reference reading of the flags -/

/-- Signed reading of a 32-bit word (two's complement). -/
def toSigned32 (a : Nat) : Int :=
  if a % 4294967296 < 2147483648 then (a % 4294967296 : Nat) else (a % 4294967296 : Nat) - 4294967296

/-- Flags N, Z, C, V that the 33-bit unsigned sum `a + b + cin` and the signed
sum of `a`, `b` and `cin` imply, as a predicate on an xPSR value `x`. -/
def AddFlags (x a b cin : Nat) : Prop :=
  RegFile.getXpsrZ x = (if (a + b + cin) % 4294967296 = 0 then 1 else 0) ∧
  RegFile.getXpsrN x = (a + b + cin) % 4294967296 / 2147483648 ∧
  RegFile.getXpsrC x = (if 4294967296 ≤ a + b + cin then 1 else 0) ∧
  RegFile.getXpsrV x =
    (if -2147483648 ≤ toSigned32 a + toSigned32 b + (cin : Int) ∧
        toSigned32 a + toSigned32 b + (cin : Int) < 2147483648 then 0 else 1)

/-- Flags of an instruction that sets N and Z from its 32-bit result `res`,
leaves C at `c` and keeps V of the old xPSR `x0`, as a predicate on the new
xPSR `x`. -/
def ResultFlags (res c x0 x : Nat) : Prop :=
  RegFile.getXpsrN x = res / 2147483648 % 2 ∧
  RegFile.getXpsrZ x = (if res = 0 then 1 else 0) ∧
  RegFile.getXpsrC x = c ∧
  RegFile.getXpsrV x = RegFile.getXpsrV x0

/-- The 32-bit two's-complement encoding of `floor(signed(src) / 2^n)`, the
arithmetic shift right of the architecture. -/
def asrValue (src n : Nat) : Nat :=
  (Int.fdiv (toSigned32 src) (2 ^ n) % 4294967296).toNat

/-- Value of REVSH in the words of the specification: the two bytes of the
low halfword of `v` swapped, and that 16-bit value sign-extended to 32 bits. -/
def revshValue (v : Nat) : Nat :=
  (signExtend 16 (v % 256 * 256 + v / 256 % 256) % 4294967296).toNat

/-- The aligned block of `memAccessWidthWords` words around the byte address
`a`: what a wide load of `a` delivers. -/
def Memory.block (m : Memory) (a : Nat) : List Nat :=
  (List.range m.memAccessWidthWords).map
    (fun i => m.mem (m.memAccessWidthWords * (a / (4 * m.memAccessWidthWords)) + i))

/-- The halfword at the byte address `a` of the memory (little-endian words). -/
def Memory.halfwordAt (m : Memory) (a : Nat) : Nat :=
  (m.mem (a / 4) >>> (16 * (a / 2 % 2))) &&& 0xFFFF

/-- State at the end of a cycle that left the pipeline empty and a fetch of the
block around `A` under way: execute idle, decode empty, the instruction buffer
invalid, PC = `A`, and the answer of the memory to the fetch ready to be
retrieved. This is the state after the cycle of a branch and after the first
cycle from reset. -/
def Processor.Refilling (s : Processor) (A : Nat) : Prop :=
  s.execute.execState = .NEXT_INST ∧ s.execute.decodedInst = none ∧
  s.decode.decodedInst = none ∧ s.decode.decodedHalfInst = false ∧
  s.decode.flushPending = false ∧
  s.fetch.instBufferValid = false ∧ s.fetch.flushPending = false ∧
  s.fetch.issuedMemAccess = true ∧
  s.regFile.regs .PC = A ∧ s.mem.Ready ∧
  s.mem.retrieveWideLoad s.fetch.memToken = some (s.mem.block A)

/-- State at the start of a cycle in which execute pulls the record `d`: execute
idle, decode holding `d` complete, no flush pending, the memory ready. -/
def Processor.Holds (s : Processor) (d : DecodedInst) : Prop :=
  s.execute.execState = .NEXT_INST ∧ s.execute.decodedInst = none ∧
  s.decode.decodedInst = some d ∧ s.decode.decodedHalfInst = false ∧
  s.decode.flushPending = false ∧ s.mem.Ready

/-- The components of the state that the arithmetic routines of execute leave
alone: memory, fetch, decode and execute. -/
def Processor.pipe (s : Processor) : Memory × Fetch × Decode × Execute :=
  (s.mem, s.fetch, s.decode, s.execute)

/-- Relation between the states before and after an execute routine that has
issued its one request to the memory: the memory is the one returned by
`requestLoad` or `requestStore` for the issuer EXECUTE, fetch and decode are
untouched, and execute waits in one of the four states of a memory access. -/
def Execute.Issued (s s1 : Processor) : Prop :=
  ((∃ a tok, s.mem.requestLoad .EXECUTE a = some (tok, s1.mem)) ∨
    (∃ a v tok, s.mem.requestStore .EXECUTE a v = some (tok, s1.mem))) ∧
  s1.fetch = s.fetch ∧ s1.decode = s.decode ∧
  s1.execute.decodedInst = s.execute.decodedInst ∧
  s1.execute.curExecState = s.execute.curExecState ∧
  (s1.execute.execState = .LOAD_MEM_RESP ∨ s1.execute.execState = .STORE_MEM_RESP ∨
    s1.execute.execState = .MULTIPLE_LOAD_MEM_REQ ∨
    s1.execute.execState = .MULTIPLE_STORE_MEM_REQ)

/-- What an execute tick from `s` to `s1` does outside the register file and the
statistics: it leaves the buffer of fetch alone and the half flag of decode,
takes at most the record of decode, and then either (quiet) leaves memory and
flush flags alone, or (flush) raises both flush flags and ends in NEXT_INST,
or (issue) hands one request to the memory and ends in another state than
NEXT_INST. -/
def Execute.TickOutcome (s s1 : Processor) : Prop :=
  s1.execute.decodedInst = none ∧
  s1.decode.decodedHalfInst = s.decode.decodedHalfInst ∧
  (s1.decode.decodedInst = s.decode.decodedInst ∨ s1.decode.decodedInst = none) ∧
  s1.fetch = { s.fetch with flushPending := s1.fetch.flushPending } ∧
  ((s1.mem = s.mem ∧ s1.decode.flushPending = s.decode.flushPending ∧
      s1.fetch.flushPending = s.fetch.flushPending) ∨
    (s1.mem = s.mem ∧ s1.decode.flushPending = true ∧ s1.fetch.flushPending = true ∧
      s1.execute.execState = .NEXT_INST) ∨
    (((∃ a tok, s.mem.requestLoad .EXECUTE a = some (tok, s1.mem)) ∨
        (∃ a v tok, s.mem.requestStore .EXECUTE a v = some (tok, s1.mem))) ∧
      s1.decode.flushPending = s.decode.flushPending ∧
      s1.fetch.flushPending = s.fetch.flushPending ∧
      s1.execute.execState ≠ .NEXT_INST)) ∧
  (s.execute.execState = .NEXT_INST →
    (s.decode.decodedInst = none ∨ s.decode.decodedHalfInst = true) →
    s1.execute.execState = .NEXT_INST ∧ s1.mem = s.mem ∧ s1.regFile = s.regFile ∧
      s1.decode = s.decode ∧ s1.fetch = s.fetch)

/-- Slots of the decoded record whose captured data the routine of the
operation receives in `Execute::executeInst` (the XPSR slot for the carry of
ADC and SBC and for the condition of B1). -/
def Execute.readSlots : DecodedOperation → List DecodedInstRegIndex
  | .POP | .LDMIA | .PUSH | .STMIA => [.RN]
  | .STR1 | .STR3 | .STRB1 | .STRH1 => [.RT, .RN]
  | .STR2 | .STRB2 | .STRH2 => [.RT, .RN, .RM]
  | .LDR1 | .LDR4 | .LDR3 | .LDRB1 | .LDRH1 => [.RN]
  | .LDR2 | .LDRB2 | .LDRH2 | .LDRSB | .LDRSH => [.RN, .RM]
  | .B1 => [.RM, .XPSR]
  | .B2 => [.RM]
  | .BL => [.RDN]
  | .BLX => [.RDN, .RM]
  | .BX | .CPY => [.RM]
  | .ADC | .SBC => [.RDN, .RM, .XPSR]
  | .ADD1 | .SUB1 | .CMP1 | .NEG => [.RN]
  | .ADD2 | .SUB2 | .SUB4 => [.RDN]
  | .ADD3 | .SUB3 | .CMN | .CMP2 | .CMP3 | .TST => [.RN, .RM]
  | .ADD4 | .AND | .ASR2 | .BIC | .EOR | .LSL2 | .LSR2 | .ORR | .ROR => [.RDN, .RM]
  | .ADD5 | .ADD6 | .ADD7 | .ASR1 | .LSL1 | .LSR1 | .MOV2 | .MVN | .REV | .REV16 | .REVSH
  | .UXTB | .UXTH | .SXTB | .SXTH | .CPS => [.RM]
  | .MUL => [.RDN, .RN]
  | .MOV1 | .NOP | .BKPT | .SVC => []

/-- The operands of the record `d` are up to date with the register file `rf`:
every slot that the routine of the operation reads names a register, and
either names PC or holds the value of its register in `rf`. For half a
record (`half`) only the first alternative is allowed. -/
def DecodedInst.Fresh (d : DecodedInst) (rf : RegFile) (half : Bool) : Prop :=
  ∀ idx ∈ Execute.readSlots d.op, d.regsNumber idx ≠ .RNONE ∧
    (d.regsNumber idx = .PC ∨ (half = false ∧ d.regsData idx = rf.readData (d.regsNumber idx)))

/-- Result of a decoder whose record, if any, is up to date with `rf`. -/
def Decode.GoodResult (rf : RegFile) (r : Except Exit (DecodedInst × Bool)) : Prop :=
  ∀ d half, r = .ok (d, half) → d.Fresh rf half

/-- State in which the record held by decode, if any, is up to date with the
register file, and execute holds no record of its own. -/
def Processor.OperandsFresh (s : Processor) : Prop :=
  (∀ d, s.decode.decodedInst = some d → d.Fresh s.regFile s.decode.decodedHalfInst) ∧
  s.execute.decodedInst = none

/-- Messages of the fatal exits that execute takes when the memory is not
available for its request, or refuses it. -/
def Execute.unavailableMessages : List String :=
  ["Unexpected memory unavailable", "Unexpected directory or memory unavailable",
   "Unexpected unavailable memory and directory", "Unexpected unavailable memory",
   "Memory request failed when available", "Multiple memory request failed when available"]

/-- Result of an execute routine that is not one of the fatal exits for an
unavailable memory. -/
def Execute.NoUnavailable (r : Except Exit Processor) : Prop :=
  ∀ m ∈ Execute.unavailableMessages, r ≠ .error (.fatal m)

/-- State at a tick boundary in which every request of the coming cycle finds
the memory available: the slot under the cursor is free, no flush is pending,
execute holds no record of its own, and while the instruction buffer is not
valid decode holds no record and execute is in NEXT_INST. -/
def Processor.Available (s : Processor) : Prop :=
  (s.mem.pipeline s.mem.nextReqIndex).issuer = .NONE ∧
  s.fetch.flushPending = false ∧ s.decode.flushPending = false ∧
  s.execute.decodedInst = none ∧
  (s.fetch.instBufferValid = false →
    s.decode.decodedInst = none ∧ s.execute.execState = .NEXT_INST)

/-- State after the execute and decode ticks of cycle `n + 1` on the image
`bytes`, if the run gets there. -/
def Simulator.beforeFetch (bytes : List Nat) (memSizeWordsIn memAccessWidthWordsIn n : Nat) :
    Except Exit Processor :=
  match Simulator.run (some bytes) memSizeWordsIn memAccessWidthWordsIn n with
  | .error e => .error e
  | .ok s =>
    match Execute.run { s with stats := s.stats.addCycle } with
    | .error e => .error e
    | .ok s => Decode.run s

/-- Byte address of a single load or store with base value `drn` and offset
`offset`: `loadTmps.ptr + loadTmps.byteOffset` as `Execute::ldr` and
`Execute::str` stage them. -/
def Execute.accessAddr (drn offset : Nat) : Nat :=
  add32 (GET_WORD_ADDRESS drn) (add32 (GET_BYTE_INDEX drn) offset)

/-- Base value and offset that the routine of a single load or store hands to
`Execute::ldr` or `Execute::str`, and the access type, by operation. -/
def Execute.singleAccess (d : DecodedInst) : Nat × Nat × MemoryInstructionType :=
  match d.op with
  | .LDR1 | .LDR4 | .STR1 | .STR3 => (d.regsData .RN, shl32 d.im 2, .WORD)
  | .LDR2 | .STR2 => (d.regsData .RN, d.regsData .RM, .WORD)
  | .LDR3 => (ALIGN (d.regsData .RN) BYTES_PER_WORD, shl32 d.im 2, .WORD)
  | .LDRB1 | .STRB1 => (d.regsData .RN, d.im, .UBYTE)
  | .LDRB2 | .STRB2 => (d.regsData .RN, d.regsData .RM, .UBYTE)
  | .LDRH1 | .STRH1 => (d.regsData .RN, shl32 d.im 1, .UHALFWORD)
  | .LDRH2 | .STRH2 => (d.regsData .RN, d.regsData .RM, .UHALFWORD)
  | .LDRSB => (d.regsData .RN, d.regsData .RM, .SBYTE)
  | .LDRSH => (d.regsData .RN, d.regsData .RM, .SHALFWORD)
  | _ => (0, 0, .WORD)

/-- Operations of the single loads. -/
def Execute.singleLoads : List DecodedOperation :=
  [.LDR1, .LDR2, .LDR3, .LDR4, .LDRB1, .LDRB2, .LDRH1, .LDRH2, .LDRSB, .LDRSH]

/-- Operations of the single stores. -/
def Execute.singleStores : List DecodedOperation :=
  [.STR1, .STR2, .STR3, .STRB1, .STRB2, .STRH1, .STRH2]

/-- Memory state in which every ring slot without a request carries the
token 0, the value that the constructor and `Memory::run` give a cleared
slot. -/
def Memory.Cleared (m : Memory) : Prop :=
  ∀ i, (m.pipeline i).issuer = Component.NONE → (m.pipeline i).token = 0

/-- Property `Q` of every record that a run of the decoder returns. -/
def Decode.ResultAll (Q : DecodedInst → Prop) (r : Except Exit (DecodedInst × Bool)) : Prop :=
  ∀ d half, r = .ok (d, half) → Q d

/-- Truth of a condition code after a comparison of the 32-bit words `a` and
`b`, in the words of the specification: equality, the unsigned and the signed
order of `a` and `b`, bit 31 of `(a - b) mod 2^32`, and overflow of the signed
subtraction. The two reserved codes have no reading. -/
def cmpConditionSpec (cond : DecodedCondition) (a b : Nat) : Option Bool :=
  match cond with
  | .EQ => some (decide (a = b))
  | .NE => some (decide (a ≠ b))
  | .CS => some (decide (a ≥ b))
  | .CC => some (decide (a < b))
  | .HI => some (decide (a > b))
  | .LS => some (decide (a ≤ b))
  | .GE => some (decide (toSigned32 a ≥ toSigned32 b))
  | .LT => some (decide (toSigned32 a < toSigned32 b))
  | .GT => some (decide (toSigned32 a > toSigned32 b))
  | .LE => some (decide (toSigned32 a ≤ toSigned32 b))
  | .MI => some ((sub32 a b).testBit 31)
  | .PL => some (!(sub32 a b).testBit 31)
  | .VS => some (decide (toSigned32 a - toSigned32 b < -2147483648 ∨
      2147483648 ≤ toSigned32 a - toSigned32 b))
  | .VC => some (decide (-2147483648 ≤ toSigned32 a - toSigned32 b ∧
      toSigned32 a - toSigned32 b < 2147483648))
  | .U0 | .U1 => none

/-- The `switch` of `Execute::run` over the state, before the call of
`calculateExecCycles`. -/
def Execute.dispatch (s : Processor) : Except Exit Processor :=
  match s.execute.execState with
  | .NEXT_INST => executeNextInst s
  | .LOAD_MEM_REQ => executeLoadMemReq s
  | .LOAD_MEM_RESP => executeLoadMemResp s
  | .STORE_MEM_REQ => executeStoreMemReq s
  | .STORE_MEM_RESP => executeStoreMemResp s
  | .MULTIPLE_LOAD_FIRST_MEM_REQ => executeMultipleLoadFirstMemReq s
  | .MULTIPLE_LOAD_MEM_REQ => executeMultipleLoadMemReq s
  | .MULTIPLE_STORE_FIRST_MEM_REQ => executeMultipleStoreFirstMemReq s
  | .MULTIPLE_STORE_MEM_REQ => executeMultipleStoreMemReq s
  | .FLUSH_PIPELINE => .ok (executeFlushPipeline s)

/-- Message of the fatal exit of `calculateExecCycles`. -/
def Execute.invalidTransitionMessages : List String :=
  ["Invalid state transition NEXT_INST -> FLUSH_PIPELINE"]

/-- Result of an execute routine that is not the fatal exit of the transition
check. -/
def Execute.NoInvalidTransition (r : Except Exit Processor) : Prop :=
  ∀ m ∈ Execute.invalidTransitionMessages, r ≠ .error (.fatal m)

/-- States of execute that a tick can end in. -/
def Execute.enteredStates : List ExecuteState :=
  [.NEXT_INST, .LOAD_MEM_RESP, .STORE_MEM_RESP, .MULTIPLE_LOAD_MEM_REQ,
   .MULTIPLE_STORE_MEM_REQ, .FLUSH_PIPELINE]

/-- Count of the executed instructions that a branch event belongs to: B, BL,
BLX, BX and LDMIA (which also counts POP). -/
def Statistics.branchInsts (st : Statistics) : Nat :=
  st.instCount .B + st.instCount .BL + st.instCount .BLX + st.instCount .BX +
    st.instCount .LDMIA

/-- The sum `branches + loads` of `Statistics::print`. -/
def Statistics.branchesAndLoads (st : Statistics) : Nat :=
  st.instCount .B + st.instCount .BL + st.instCount .BLX + st.instCount .BX +
    (st.instCount .LDMIA + st.instCount .LDR + st.instCount .LDRB + st.instCount .LDRH +
      st.instCount .LDRSB + st.instCount .LDRSH)

/-- One while a multiple load is under way (the load of PC, if it comes, will
count a taken branch), zero otherwise. -/
def Execute.pendingLoad (s : Processor) : Nat :=
  if s.execute.execState = ExecuteState.MULTIPLE_LOAD_MEM_REQ then 1 else 0

/-- What a routine of execute does to the statistics: the cycle counters are
left alone, and the branch events grow by no more than the branch
instructions do, the multiple load under way counted as an event to come. -/
def Execute.StatStep (s s1 : Processor) : Prop :=
  s1.stats.cycles = s.stats.cycles ∧ s1.stats.executeMemCycles = s.stats.executeMemCycles ∧
  s1.stats.branchTaken + s1.stats.branchNotTaken + Execute.pendingLoad s1 +
      s.stats.branchInsts ≤
    s1.stats.branchInsts + s.stats.branchTaken + s.stats.branchNotTaken +
      Execute.pendingLoad s

/-- Statistics at a tick boundary that pass the two checks of
`Statistics::print`, with the multiple load under way counted as a branch
event to come. -/
def Processor.StatsSane (s : Processor) : Prop :=
  s.stats.executeMemCycles ≤ s.stats.cycles ∧
  s.stats.branchTaken + s.stats.branchNotTaken + Execute.pendingLoad s ≤ s.stats.branchInsts

/-- The routines of execute that `Execute::executeNextInst` dispatches to and
that return: `Routine s s1` holds when `s1` is the state that one of them
leaves when called on `s` with some operands. -/
inductive Execute.Routine : Processor → Processor → Prop where
  | of_popLdmia (s : Processor) (rn : Reg) (drn rl : Nat) (s1 : Processor)
      (h : popLdmia s rn drn rl = .ok s1) : Routine s s1
  | of_push (s : Processor) (rn : Reg) (drn rl : Nat) (s1 : Processor)
      (h : push s rn drn rl = .ok s1) : Routine s s1
  | of_stmia (s : Processor) (rn : Reg) (drn rl : Nat) (s1 : Processor)
      (h : stmia s rn drn rl = .ok s1) : Routine s s1
  | of_str1Str3 (s : Processor) (rt : Reg) (drt : Nat) (rn : Reg) (drn im : Nat) (s1 : Processor)
      (h : str1Str3 s rt drt rn drn im = .ok s1) : Routine s s1
  | of_str2 (s : Processor) (rt : Reg) (drt : Nat) (rn : Reg) (drn drm : Nat) (s1 : Processor)
      (h : str2 s rt drt rn drn drm = .ok s1) : Routine s s1
  | of_strb1 (s : Processor) (rt : Reg) (drt : Nat) (rn : Reg) (drn im : Nat) (s1 : Processor)
      (h : strb1 s rt drt rn drn im = .ok s1) : Routine s s1
  | of_strb2 (s : Processor) (rt : Reg) (drt : Nat) (rn : Reg) (drn drm : Nat) (s1 : Processor)
      (h : strb2 s rt drt rn drn drm = .ok s1) : Routine s s1
  | of_strh1 (s : Processor) (rt : Reg) (drt : Nat) (rn : Reg) (drn im : Nat) (s1 : Processor)
      (h : strh1 s rt drt rn drn im = .ok s1) : Routine s s1
  | of_strh2 (s : Processor) (rt : Reg) (drt : Nat) (rn : Reg) (drn drm : Nat) (s1 : Processor)
      (h : strh2 s rt drt rn drn drm = .ok s1) : Routine s s1
  | of_ldr1Ldr4 (s : Processor) (rt : Reg) (drn im : Nat) (s1 : Processor)
      (h : ldr1Ldr4 s rt drn im = .ok s1) : Routine s s1
  | of_ldr2 (s : Processor) (rt : Reg) (drn drm : Nat) (s1 : Processor)
      (h : ldr2 s rt drn drm = .ok s1) : Routine s s1
  | of_ldr3 (s : Processor) (rt : Reg) (drn im : Nat) (s1 : Processor)
      (h : ldr3 s rt drn im = .ok s1) : Routine s s1
  | of_ldrb1 (s : Processor) (rt : Reg) (drn im : Nat) (s1 : Processor)
      (h : ldrb1 s rt drn im = .ok s1) : Routine s s1
  | of_ldrb2 (s : Processor) (rt : Reg) (drn drm : Nat) (s1 : Processor)
      (h : ldrb2 s rt drn drm = .ok s1) : Routine s s1
  | of_ldrh1 (s : Processor) (rt : Reg) (drn im : Nat) (s1 : Processor)
      (h : ldrh1 s rt drn im = .ok s1) : Routine s s1
  | of_ldrh2 (s : Processor) (rt : Reg) (drn drm : Nat) (s1 : Processor)
      (h : ldrh2 s rt drn drm = .ok s1) : Routine s s1
  | of_ldrsb (s : Processor) (rt : Reg) (drn drm : Nat) (s1 : Processor)
      (h : ldrsb s rt drn drm = .ok s1) : Routine s s1
  | of_ldrsh (s : Processor) (rt : Reg) (drn drm : Nat) (s1 : Processor)
      (h : ldrsh s rt drn drm = .ok s1) : Routine s s1
  | of_b1 (s : Processor) (rm : Reg) (drm im dxpsr : Nat) (cond : DecodedCondition) (s1 : Processor)
      (h : b1 s rm drm im dxpsr cond = .ok s1) : Routine s s1
  | of_b2 (s : Processor) (rm : Reg) (drm im : Nat) : Routine s (b2 s rm drm im)
  | of_bl (s : Processor) (rdn : Reg) (drdn im : Nat) : Routine s (bl s rdn drdn im)
  | of_blx (s : Processor) (rdn : Reg) (drdn drm : Nat) (s1 : Processor)
      (h : blx s rdn drdn drm = .ok s1) : Routine s s1
  | of_bx (s : Processor) (rdn : Reg) (drm : Nat) (s1 : Processor)
      (h : bx s rdn drm = .ok s1) : Routine s s1
  | of_cpy (s : Processor) (rd : Reg) (drm : Nat) (s1 : Processor)
      (h : cpy s rd drm = .ok s1) : Routine s s1
  | of_adc (s : Processor) (rdn : Reg) (drdn drm cflag : Nat) : Routine s (adc s rdn drdn drm cflag)
  | of_add1 (s : Processor) (rd : Reg) (drn im : Nat) : Routine s (add1 s rd drn im)
  | of_add2 (s : Processor) (rdn : Reg) (drdn im : Nat) : Routine s (add2 s rdn drdn im)
  | of_add3 (s : Processor) (rd : Reg) (drn drm : Nat) : Routine s (add3 s rd drn drm)
  | of_add4 (s : Processor) (rdn : Reg) (drdn drm : Nat) (s1 : Processor)
      (h : add4 s rdn drdn drm = .ok s1) : Routine s s1
  | of_add5 (s : Processor) (rd : Reg) (drm im : Nat) : Routine s (add5 s rd drm im)
  | of_add6Add7 (s : Processor) (rd : Reg) (drm im : Nat) : Routine s (add6Add7 s rd drm im)
  | of_and0 (s : Processor) (rdn : Reg) (drdn drm : Nat) : Routine s (and0 s rdn drdn drm)
  | of_asr1 (s : Processor) (rd : Reg) (drm im : Nat) (s1 : Processor)
      (h : asr1 s rd drm im = .ok s1) : Routine s s1
  | of_asr2 (s : Processor) (rdn : Reg) (drdn drm : Nat) : Routine s (asr2 s rdn drdn drm)
  | of_bic (s : Processor) (rdn : Reg) (drdn drm : Nat) : Routine s (bic s rdn drdn drm)
  | of_cmn (s : Processor) (drn drm : Nat) : Routine s (cmn s drn drm)
  | of_cmp1 (s : Processor) (drn im : Nat) : Routine s (cmp1 s drn im)
  | of_cmp2Cmp3 (s : Processor) (drn drm : Nat) : Routine s (cmp2Cmp3 s drn drm)
  | of_eor (s : Processor) (rdn : Reg) (drdn drm : Nat) : Routine s (eor s rdn drdn drm)
  | of_lsl1 (s : Processor) (rd : Reg) (drm im : Nat) (s1 : Processor)
      (h : lsl1 s rd drm im = .ok s1) : Routine s s1
  | of_lsl2 (s : Processor) (rdn : Reg) (drdn drm : Nat) : Routine s (lsl2 s rdn drdn drm)
  | of_lsr1 (s : Processor) (rd : Reg) (drm im : Nat) (s1 : Processor)
      (h : lsr1 s rd drm im = .ok s1) : Routine s s1
  | of_lsr2 (s : Processor) (rdn : Reg) (drdn drm : Nat) : Routine s (lsr2 s rdn drdn drm)
  | of_mov1 (s : Processor) (rd : Reg) (im : Nat) : Routine s (mov1 s rd im)
  | of_mov2 (s : Processor) (rd : Reg) (drm : Nat) : Routine s (mov2 s rd drm)
  | of_mul (s : Processor) (rdn : Reg) (drdn drn : Nat) : Routine s (mul s rdn drdn drn)
  | of_mvn (s : Processor) (rd : Reg) (drm : Nat) : Routine s (mvn s rd drm)
  | of_orr (s : Processor) (rdn : Reg) (drdn drm : Nat) : Routine s (orr s rdn drdn drm)
  | of_rev (s : Processor) (rd : Reg) (drm : Nat) : Routine s (rev s rd drm)
  | of_rev16 (s : Processor) (rd : Reg) (drm : Nat) : Routine s (rev16 s rd drm)
  | of_revsh (s : Processor) (rd : Reg) (drm : Nat) : Routine s (revsh s rd drm)
  | of_ror (s : Processor) (rdn : Reg) (drdn drm : Nat) : Routine s (ror s rdn drdn drm)
  | of_neg (s : Processor) (rd : Reg) (drn im : Nat) : Routine s (neg s rd drn im)
  | of_nop (s : Processor) : Routine s (nop s)
  | of_sbc (s : Processor) (rdn : Reg) (drdn drm cflag : Nat) : Routine s (sbc s rdn drdn drm cflag)
  | of_sub1 (s : Processor) (rd : Reg) (drn im : Nat) : Routine s (sub1 s rd drn im)
  | of_sub2 (s : Processor) (rdn : Reg) (drdn im : Nat) : Routine s (sub2 s rdn drdn im)
  | of_sub3 (s : Processor) (rd : Reg) (drm drn : Nat) : Routine s (sub3 s rd drm drn)
  | of_sub4 (s : Processor) (rdn : Reg) (drdn im : Nat) : Routine s (sub4 s rdn drdn im)
  | of_tst (s : Processor) (drm drn : Nat) : Routine s (tst s drm drn)
  | of_uxtb (s : Processor) (rd : Reg) (drm : Nat) : Routine s (uxtb s rd drm)
  | of_uxth (s : Processor) (rd : Reg) (drm : Nat) : Routine s (uxth s rd drm)
  | of_sxtb (s : Processor) (rd : Reg) (drm : Nat) : Routine s (sxtb s rd drm)
  | of_sxth (s : Processor) (rd : Reg) (drm : Nat) : Routine s (sxth s rd drm)
  | of_cps (s : Processor) (drm : Nat) : Routine s (cps s drm)

/-- Slots of the decoded record that name the register which the routine of
the operation writes whatever it is, without raising the flush flags: RD or
RDN for the ALU routines, RN for the write-back of the base register of a
multiple load or store. ADD4 and CPY test for PC themselves, the branches
raise the flush flags, and a single load refuses PC in `executeLoadMemResp`. -/
def Execute.writeSlots : DecodedOperation → List DecodedInstRegIndex
  | .POP | .LDMIA | .PUSH | .STMIA => [.RN]
  | .ADC | .ADD2 | .AND | .ASR2 | .BIC | .EOR | .LSL2 | .LSR2 | .MUL | .ORR | .ROR | .SBC
  | .SUB2 | .SUB4 => [.RDN]
  | .ADD1 | .ADD3 | .ADD5 | .ADD6 | .ADD7 | .ASR1 | .LSL1 | .LSR1 | .MOV1 | .MOV2 | .MVN
  | .REV | .REV16 | .REVSH | .NEG | .SUB1 | .SUB3 | .UXTB | .UXTH | .SXTB | .SXTH => [.RD]
  | _ => []

/-- The record `d` names PC in none of the slots `writeSlots` of its
operation. -/
def DecodedInst.KeepsPc (d : DecodedInst) : Prop :=
  ∀ idx ∈ Execute.writeSlots d.op, d.regsNumber idx ≠ .PC

/-- The instruction buffer of fetch, when valid, holds the block of PC or the
block of the halfword before PC. -/
def Processor.InStep (s : Processor) : Prop :=
  s.fetch.instBufferValid = true →
    s.fetch.instBufferBaseAddr = s.mem.getMemAccessWidthBaseByteAddr (s.regFile.regs .PC) ∨
    s.fetch.instBufferBaseAddr =
      s.mem.getMemAccessWidthBaseByteAddr (PREV_THUMB_INST (s.regFile.regs .PC))

/-- Truth of a condition code on a status word `xpsr`, read from its flags
N, Z, C and V (bits 31, 30, 29 and 28) by the condition table of ARMv6-M: what
`the condition holds on the captured xPSR` means in the specification. The two
reserved codes have no reading. -/
def conditionSpec (cond : DecodedCondition) (xpsr : Nat) : Option Bool :=
  let n := xpsr.testBit 31
  let z := xpsr.testBit 30
  let c := xpsr.testBit 29
  let v := xpsr.testBit 28
  match cond with
  | .EQ => some z
  | .NE => some (!z)
  | .CS => some c
  | .CC => some (!c)
  | .MI => some n
  | .PL => some (!n)
  | .VS => some v
  | .VC => some (!v)
  | .HI => some (c && !z)
  | .LS => some (!c || z)
  | .GE => some (n == v)
  | .LT => some (n != v)
  | .GT => some (!z && n == v)
  | .LE => some (z || n != v)
  | .U0 | .U1 => none

/-- Image with the stack pointer at byte 256, the reset vector at byte 8 and
the code `MOVS R1, 0x80; REVSH R0, R1; BKPT 0`. -/
def revshImage : List Nat :=
  wordBytes 0x100 ++ wordBytes 9 ++ halfBytes 0x2180 ++ halfBytes 0xBAC8 ++ halfBytes 0xBE00 ++
    halfBytes 0xBE00

/-- Value a single load writes to Rt, in the words of the specification: `w`
is the memory word containing the byte address `addr`. The byte or halfword
is taken at `addr mod 4` (bit 0 cleared for a halfword) and zero- or
sign-extended to 32 bits. -/
def loadedValue (type : MemoryInstructionType) (w addr : Nat) : Nat :=
  match type with
  | .WORD => w
  | .UBYTE => (w >>> (8 * (addr % 4))) &&& 255
  | .UHALFWORD => (w >>> (8 * (addr % 4 / 2 * 2))) &&& 65535
  | .SBYTE => (signExtend 8 ((w >>> (8 * (addr % 4))) &&& 255) % 4294967296).toNat
  | .SHALFWORD => (signExtend 16 ((w >>> (8 * (addr % 4 / 2 * 2))) &&& 65535) % 4294967296).toNat

/-! # Verification -/

open RegFile Execute

theorem getXpsrBit_eq (i x : Nat) : getXpsrBit i x = (x.testBit i).toNat := by
  unfold getXpsrBit
  rw [Nat.and_one_is_mod, Nat.shiftRight_eq_div_pow, Nat.toNat_testBit]

theorem shl32_one (i : Nat) (hi : i < 32) : shl32 1 i = 2 ^ i := by
  unfold shl32
  rw [Nat.shiftLeft_eq, Nat.one_mul]
  apply Nat.mod_eq_of_lt
  calc 2 ^ i < 2 ^ 32 := Nat.pow_lt_pow_right (by norm_num) hi
    _ = 4294967296 := by norm_num

theorem not32_two_pow_testBit (i j : Nat) (hi : i < 32) :
    (not32 (2 ^ i)).testBit j = (decide (j < 32) && !decide (i = j)) := by
  have h : 2 ^ i < 2 ^ 32 := Nat.pow_lt_pow_right (by norm_num) hi
  have e : not32 (2 ^ i) = 2 ^ 32 - (2 ^ i + 1) := by
    unfold not32
    rw [Nat.mod_eq_of_lt (by omega)]
    omega
  rw [e, Nat.testBit_two_pow_sub_succ h, Nat.testBit_two_pow]

theorem shl32_testBit (x i j : Nat) :
    (shl32 x i).testBit j = (decide (j < 32) && (decide (j ≥ i) && x.testBit (j - i))) := by
  unfold shl32
  rw [show (4294967296 : Nat) = 2 ^ 32 by norm_num, Nat.testBit_mod_two_pow,
    Nat.testBit_shiftLeft]

theorem setXpsrBit_testBit (i x f j : Nat) (hi : i < 32) :
    (setXpsrBit i x f).testBit j =
      if j = i then decide (f % 2 = 1) else (decide (j < 32) && x.testBit j) := by
  unfold setXpsrBit
  rw [Nat.testBit_or, Nat.testBit_and, shl32_one i hi, not32_two_pow_testBit i j hi,
    shl32_testBit, Nat.and_one_is_mod]
  by_cases h : j = i
  · subst h
    simp [Nat.testBit_zero]
    omega
  · simp [h]
    have : i ≠ j := fun e => h e.symm
    simp [this]
    by_cases hle : i ≤ j
    · have hz : (f % 2).testBit (j - i) = false := by
        have : j - i ≠ 0 := by omega
        obtain ⟨k, hk⟩ := Nat.exists_eq_succ_of_ne_zero this
        rw [hk, Nat.testBit_succ]
        have : f % 2 / 2 = 0 := by omega
        simp [this]
      rw [hz]
      simp [Bool.and_comm]
    · simp [hle, Bool.and_comm]

theorem getXpsrBit_setXpsrBit_same (i x f : Nat) (hi : i < 32) :
    getXpsrBit i (setXpsrBit i x f) = f % 2 := by
  rw [getXpsrBit_eq, setXpsrBit_testBit i x f i hi]
  simp
  rcases Nat.mod_two_eq_zero_or_one f with h | h <;> simp [h]

theorem getXpsrBit_setXpsrBit_other (i j x f : Nat) (hi : i < 32) (hj : j < 32) (hij : j ≠ i) :
    getXpsrBit j (setXpsrBit i x f) = getXpsrBit j x := by
  rw [getXpsrBit_eq, getXpsrBit_eq, setXpsrBit_testBit i x f j hi]
  simp [hij, hj]

theorem and_two (x : Nat) : x &&& 2 = 2 * (x / 2 % 2) := by
  have := Nat.and_two_pow x 1
  simp at this
  rw [this, Nat.toNat_testBit]; simp; ring

theorem and_mask32 (a : Nat) : a &&& 4294967295 = a % 4294967296 :=
  Nat.and_pow_two_sub_one_eq_mod a 32

theorem and_mask31 (a : Nat) : a &&& 2147483647 = a % 2147483648 :=
  Nat.and_pow_two_sub_one_eq_mod a 31

theorem xor_and_one (p q : Nat) (hp : p < 2) (hq : q < 2) :
    (p ^^^ q) &&& 1 = if p = q then 0 else 1 := by
  interval_cases p <;> interval_cases q <;> decide

theorem calculateXpsrZ_xpsr (s : Processor) (res : Nat) :
    (calculateXpsrZ s res).regFile.regs .XPSR =
      setXpsrZ (s.regFile.regs .XPSR) (if res = 0 then 1 else 0) := by
  simp only [calculateXpsrZ, RegFile.write, RegFile.readData, if_true]
  split_ifs <;> rfl

theorem calculateXpsrN_xpsr (s : Processor) (res : Nat) :
    (calculateXpsrN s res 32).regFile.regs .XPSR =
      setXpsrN (s.regFile.regs .XPSR) (if res / 2147483648 = 0 then 0 else 1) := by
  have e : res >>> (32 - 1) = res / 2147483648 := by
    rw [Nat.shiftRight_eq_div_pow]
  have hg : ¬ (32 > 32 ∨ 32 < 1) := by decide
  simp only [calculateXpsrN, if_neg hg, RegFile.write, RegFile.readData, e, if_true]
  split_ifs <;> rfl

theorem calculateXpsrQ_xpsr (s : Processor) :
    (calculateXpsrQ s).regFile.regs .XPSR = setXpsrQ (s.regFile.regs .XPSR) 0 := by
  simp only [calculateXpsrQ, RegFile.write, RegFile.readData, if_true]


theorem calculateXpsrFlags_xpsr (s : Processor) (res a b cin : Nat)
    (ha : a < 4294967296) (hb : b < 4294967296) (hc : cin < 2) :
    (calculateXpsrFlags s res a b cin 32).regFile.regs .XPSR =
      setXpsrV (setXpsrC (setXpsrQ (setXpsrN (setXpsrZ (s.regFile.regs .XPSR)
        (if res = 0 then 1 else 0)) (if res / 2147483648 = 0 then 0 else 1)) 0)
        (if 4294967296 ≤ a + b + cin then 1 else 0))
        (if (a % 2147483648 + b % 2147483648 + cin) / 2147483648 = (a + b + cin) / 4294967296
          then 0 else 1) := by
  have hg : ¬ (32 > 32 ∨ 32 < 1) := by decide
  have hmask : flagMask 32 = 4294967295 := by decide
  have hmsb : 4294967295 &&& not32 (shl32 1 (32 - 1)) = 2147483647 := by decide
  have e31 : (2 : Nat) ^ (32 - 1) = 2147483648 := by norm_num
  have hx : ∀ p q : Nat, p < 2 → q < 2 → (((p ^^^ q) &&& 1 ≠ 0) ↔ p ≠ q) := by
    intro p q hp hq
    rw [xor_and_one p q hp hq]
    split_ifs <;> simp_all
  simp only [calculateXpsrFlags, if_neg hg, RegFile.readData, RegFile.write, if_true,
    calculateXpsrQ_xpsr, calculateXpsrN_xpsr, calculateXpsrZ_xpsr, hmask, hmsb, and_mask32,
    and_mask31, Nat.shiftRight_eq_div_pow, and_two, add32, e31, Nat.mod_eq_of_lt ha,
    Nat.mod_eq_of_lt hb, pow_one]
  have h1 : (2 * (((a / 2147483648 + b / 2147483648) % 4294967296 +
      ((a % 2147483648 + b % 2147483648) % 4294967296 + cin) % 4294967296 / 2147483648) %
        4294967296 / 2 % 2) ≠ 0) ↔ 4294967296 ≤ a + b + cin := by omega
  have h2 : ((((a % 2147483648 + b % 2147483648) % 4294967296 + cin) % 4294967296 / 2147483648 ^^^
      ((((a % 2147483648 + b % 2147483648) % 4294967296 + cin) % 4294967296 / 2147483648 +
        a / 2147483648) % 4294967296 + b / 2147483648) % 4294967296 / 2) &&& 1 ≠ 0) ↔
      ¬ ((a % 2147483648 + b % 2147483648 + cin) / 2147483648 = (a + b + cin) / 4294967296) := by
    rw [hx _ _ (by omega) (by omega)]
    omega
  simp only [h1, h2, ite_not]
  split_ifs <;> rfl

theorem toSigned32_lt (a : Nat) (ha : a < 4294967296) :
    toSigned32 a = (a : Int) - 4294967296 * ((a / 2147483648 : Nat) : Int) := by
  unfold toSigned32
  rw [Nat.mod_eq_of_lt ha]
  split_ifs <;> omega

theorem calculateXpsrFlags_addFlags (s : Processor) (a b cin : Nat)
    (ha : a < 4294967296) (hb : b < 4294967296) (hc : cin < 2) :
    AddFlags ((calculateXpsrFlags s ((a + b + cin) % 4294967296) a b cin 32).regFile.regs .XPSR)
      a b cin := by
  rw [calculateXpsrFlags_xpsr s _ a b cin ha hb hc]
  unfold AddFlags getXpsrZ getXpsrN getXpsrC getXpsrV setXpsrZ setXpsrN setXpsrC setXpsrV setXpsrQ
    XPSR_NBIT_INDEX XPSR_ZBIT_INDEX XPSR_CBIT_INDEX XPSR_VBIT_INDEX XPSR_QBIT_INDEX
  refine ⟨?_, ?_, ?_, ?_⟩
  · rw [getXpsrBit_setXpsrBit_other 28 30 _ _ (by norm_num) (by norm_num) (by norm_num),
      getXpsrBit_setXpsrBit_other 29 30 _ _ (by norm_num) (by norm_num) (by norm_num),
      getXpsrBit_setXpsrBit_other 27 30 _ _ (by norm_num) (by norm_num) (by norm_num),
      getXpsrBit_setXpsrBit_other 31 30 _ _ (by norm_num) (by norm_num) (by norm_num),
      getXpsrBit_setXpsrBit_same 30 _ _ (by norm_num)]
    split_ifs <;> rfl
  · rw [getXpsrBit_setXpsrBit_other 28 31 _ _ (by norm_num) (by norm_num) (by norm_num),
      getXpsrBit_setXpsrBit_other 29 31 _ _ (by norm_num) (by norm_num) (by norm_num),
      getXpsrBit_setXpsrBit_other 27 31 _ _ (by norm_num) (by norm_num) (by norm_num),
      getXpsrBit_setXpsrBit_same 31 _ _ (by norm_num)]
    split_ifs <;> omega
  · rw [getXpsrBit_setXpsrBit_other 28 29 _ _ (by norm_num) (by norm_num) (by norm_num),
      getXpsrBit_setXpsrBit_same 29 _ _ (by norm_num)]
    split_ifs <;> rfl
  · rw [getXpsrBit_setXpsrBit_same 28 _ _ (by norm_num), toSigned32_lt a ha, toSigned32_lt b hb]
    split_ifs <;> omega

/-! ## Arithmetic instructions: C1, C2, C3 -/

theorem addInstruction_regs (s : Processor) (i : Instruction) :
    (addInstruction s i).regFile = s.regFile := rfl

theorem writeReg_regs_ne (s : Processor) (rd r : Reg) (d : Nat) (h : r ≠ rd) :
    (writeReg s rd d).regFile.regs r = s.regFile.regs r := by
  simp [writeReg, RegFile.write, h]

theorem writeReg_regs_same (s : Processor) (rd : Reg) (d : Nat) :
    (writeReg s rd d).regFile.regs rd = d := by
  simp [writeReg, RegFile.write]

/-- C1: for 32-bit `a`, `b` and `cin` in {0,1}, `calculateXpsrFlags` applied to
`(a + b + cin) mod 2^32` leaves Z = 1 iff the result is 0, N = bit 31 of the
result, C = 1 iff `a + b + cin >= 2^32` and V = 1 iff the signed sum leaves
`[-2^31, 2^31)`; ADD1, ADD2, ADD3 and CMN use it with carry-in 0 and ADC with
the C bit of the captured xPSR; `0xFFFFFFFF + 1` gives 0 with Z=1, N=0, C=1,
V=0 and `0x7FFFFFFF + 1` gives `0x80000000` with N=1, Z=0, C=0, V=1. -/
theorem C1_add_flag_calculus (s : Processor) (a b cin dxpsr : Nat) (rd : Reg)
    (ha : a < 4294967296) (hb : b < 4294967296) (hc : cin < 2) (hrd : rd ≠ .XPSR) :
    AddFlags ((calculateXpsrFlags s ((a + b + cin) % 4294967296) a b cin 32).regFile.regs .XPSR)
      a b cin ∧
    (AddFlags ((add1 s rd a b).regFile.regs .XPSR) a b 0 ∧
      (add1 s rd a b).regFile.regs rd = (a + b) % 4294967296) ∧
    (AddFlags ((add2 s rd a b).regFile.regs .XPSR) a b 0 ∧
      (add2 s rd a b).regFile.regs rd = (a + b) % 4294967296) ∧
    (AddFlags ((add3 s rd a b).regFile.regs .XPSR) a b 0 ∧
      (add3 s rd a b).regFile.regs rd = (a + b) % 4294967296) ∧
    AddFlags ((cmn s a b).regFile.regs .XPSR) a b 0 ∧
    (AddFlags ((adc s rd a b (getXpsrC dxpsr)).regFile.regs .XPSR) a b (getXpsrC dxpsr) ∧
      (adc s rd a b (getXpsrC dxpsr)).regFile.regs rd = (a + b + getXpsrC dxpsr) % 4294967296) ∧
    ((add3 s .R2 4294967295 1).regFile.regs .R2 = 0 ∧
      getXpsrZ ((add3 s .R2 4294967295 1).regFile.regs .XPSR) = 1 ∧
      getXpsrN ((add3 s .R2 4294967295 1).regFile.regs .XPSR) = 0 ∧
      getXpsrC ((add3 s .R2 4294967295 1).regFile.regs .XPSR) = 1 ∧
      getXpsrV ((add3 s .R2 4294967295 1).regFile.regs .XPSR) = 0) ∧
    ((add3 s .R2 2147483647 1).regFile.regs .R2 = 2147483648 ∧
      getXpsrN ((add3 s .R2 2147483647 1).regFile.regs .XPSR) = 1 ∧
      getXpsrZ ((add3 s .R2 2147483647 1).regFile.regs .XPSR) = 0 ∧
      getXpsrC ((add3 s .R2 2147483647 1).regFile.regs .XPSR) = 0 ∧
      getXpsrV ((add3 s .R2 2147483647 1).regFile.regs .XPSR) = 1) := by
  have hX : Reg.XPSR ≠ rd := fun e => hrd e.symm
  have h0 := calculateXpsrFlags_addFlags s a b 0 ha hb (by norm_num)
  have hq : getXpsrC dxpsr < 2 := by
    unfold getXpsrC getXpsrBit
    rw [Nat.and_one_is_mod]; omega
  have hcq := calculateXpsrFlags_addFlags s a b (getXpsrC dxpsr) ha hb hq
  have key : ∀ (x y : Nat) (r : Reg), r ≠ .XPSR → x < 4294967296 → y < 4294967296 →
      AddFlags ((add3 s r x y).regFile.regs .XPSR) x y 0 := by
    intro x y r hr hx hy
    have h := calculateXpsrFlags_addFlags s x y 0 hx hy (by norm_num)
    simp only [add3, addInstruction_regs, BITS_PER_WORD, add32]
    rw [writeReg_regs_ne _ _ _ _ (fun e => hr e.symm)]
    exact h
  have w1 := key 4294967295 1 .R2 (by decide) (by norm_num) (by norm_num)
  have w2 := key 2147483647 1 .R2 (by decide) (by norm_num) (by norm_num)
  refine ⟨calculateXpsrFlags_addFlags s a b cin ha hb hc, ⟨?_, ?_⟩, ⟨?_, ?_⟩, ⟨?_, ?_⟩, ?_,
    ⟨?_, ?_⟩, ⟨?_, ?_⟩, ⟨?_, ?_⟩⟩
  · simp only [add1, addInstruction_regs, BITS_PER_WORD, add32]
    rw [writeReg_regs_ne _ _ _ _ hX]; exact h0
  · simp only [add1, addInstruction_regs, add32, writeReg_regs_same]
  · simp only [add2, addInstruction_regs, BITS_PER_WORD, add32]
    rw [writeReg_regs_ne _ _ _ _ hX]; exact h0
  · simp only [add2, addInstruction_regs, add32, writeReg_regs_same]
  · exact key a b rd hrd ha hb
  · simp only [add3, addInstruction_regs, add32, writeReg_regs_same]
  · simp only [cmn, addInstruction_regs, BITS_PER_WORD, add32]; exact h0
  · simp only [adc, addInstruction_regs, BITS_PER_WORD, add32]
    rw [writeReg_regs_ne _ _ _ _ hX]
    rw [show ((a + b) % 4294967296 + getXpsrC dxpsr) % 4294967296 =
      (a + b + getXpsrC dxpsr) % 4294967296 by omega]
    exact hcq
  · simp only [adc, addInstruction_regs, add32, writeReg_regs_same]; omega
  · simp only [add3, addInstruction_regs, add32, writeReg_regs_same]
  · obtain ⟨z, n, c, v⟩ := w1
    refine ⟨?_, ?_, ?_, ?_⟩
    · rw [z]; decide
    · rw [n]
    · rw [c]; decide
    · rw [v]; decide
  · simp only [add3, addInstruction_regs, add32, writeReg_regs_same]
  · obtain ⟨z, n, c, v⟩ := w2
    refine ⟨?_, ?_, ?_, ?_⟩
    · rw [n]
    · rw [z]; decide
    · rw [c]; decide
    · rw [v]; decide

/-- Witness of C1 on the freshly constructed processor, for 5 + 7 + 1 into R2. -/
theorem C1_add_flag_calculus_witness :
    AddFlags ((calculateXpsrFlags (Processor.new 1024 1) ((5 + 7 + 1) % 4294967296) 5 7 1
      32).regFile.regs .XPSR) 5 7 1 :=
  (C1_add_flag_calculus (Processor.new 1024 1) 5 7 1 0 .R2 (by norm_num) (by norm_num)
    (by norm_num) (by decide)).1

theorem sub32_eq_add_not (a b : Nat) (ha : a < 4294967296) (hb : b < 4294967296) :
    sub32 a b = (a + not32 b + 1) % 4294967296 := by
  unfold sub32 not32
  rw [Nat.mod_eq_of_lt ha, Nat.mod_eq_of_lt hb]
  congr 1
  omega

theorem not32_lt (b : Nat) : not32 b < 4294967296 := by
  unfold not32; omega

/-- C2: CMP on `(a, b)` leaves the flags of the ADD flag computation for `a`,
`~b` and carry-in 1, so Z = 1 iff `a = b` and C = 1 iff `a >= b` unsigned;
SUB1, SUB2 and SUB3 leave the same flags and write `(a - b) mod 2^32`. -/
theorem C2_cmp_is_add_of_complement (s : Processor) (a b : Nat) (rd : Reg)
    (ha : a < 4294967296) (hb : b < 4294967296) (hrd : rd ≠ .XPSR) :
    (cmp1 s a b).regFile.regs .XPSR =
      (calculateXpsrFlags s ((a + not32 b + 1) % 4294967296) a (not32 b) 1 32).regFile.regs .XPSR ∧
    (cmp2Cmp3 s a b).regFile.regs .XPSR = (cmp1 s a b).regFile.regs .XPSR ∧
    AddFlags ((cmp1 s a b).regFile.regs .XPSR) a (not32 b) 1 ∧
    (getXpsrZ ((cmp1 s a b).regFile.regs .XPSR) = 1 ↔ a = b) ∧
    (getXpsrC ((cmp1 s a b).regFile.regs .XPSR) = 1 ↔ b ≤ a) ∧
    ((sub1 s rd a b).regFile.regs .XPSR = (cmp1 s a b).regFile.regs .XPSR ∧
      (sub1 s rd a b).regFile.regs rd = (a + 4294967296 - b) % 4294967296) ∧
    ((sub2 s rd a b).regFile.regs .XPSR = (cmp1 s a b).regFile.regs .XPSR ∧
      (sub2 s rd a b).regFile.regs rd = (a + 4294967296 - b) % 4294967296) ∧
    ((sub3 s rd b a).regFile.regs .XPSR = (cmp1 s a b).regFile.regs .XPSR ∧
      (sub3 s rd b a).regFile.regs rd = (a + 4294967296 - b) % 4294967296) := by
  have hX : Reg.XPSR ≠ rd := fun e => hrd e.symm
  have e := sub32_eq_add_not a b ha hb
  have hn := not32_lt b
  have hcmp : (cmp1 s a b).regFile.regs .XPSR =
      (calculateXpsrFlags s ((a + not32 b + 1) % 4294967296) a (not32 b) 1 32).regFile.regs
        .XPSR := by
    simp only [cmp1, addInstruction_regs, BITS_PER_WORD, e]
  have hf := calculateXpsrFlags_addFlags s a (not32 b) 1 ha hn (by norm_num)
  rw [← hcmp] at hf
  have hs : sub32 a b = (a + 4294967296 - b) % 4294967296 := by
    unfold sub32
    rw [Nat.mod_eq_of_lt ha, Nat.mod_eq_of_lt hb]
    congr 1
    omega
  refine ⟨hcmp, rfl, hf, ?_, ?_, ⟨?_, ?_⟩, ⟨?_, ?_⟩, ⟨?_, ?_⟩⟩
  · rw [hf.1]
    have hz : (a + not32 b + 1) % 4294967296 = 0 ↔ a = b := by
      unfold not32
      rw [Nat.mod_eq_of_lt hb]
      clear e hn hcmp hf hs
      omega
    by_cases h : a = b
    · rw [if_pos (hz.2 h)]; simp [h]
    · rw [if_neg (mt hz.1 h)]; simp [h]
  · rw [hf.2.2.1]
    have hz : 4294967296 ≤ a + not32 b + 1 ↔ b ≤ a := by
      unfold not32
      rw [Nat.mod_eq_of_lt hb]
      clear e hn hcmp hf hs
      omega
    by_cases h : b ≤ a
    · rw [if_pos (hz.2 h)]; simp [h]
    · rw [if_neg (mt hz.1 h)]; simp [h]
  · simp only [sub1, cmp1, addInstruction_regs]
    rw [writeReg_regs_ne _ _ _ _ hX]
  · simp only [sub1, addInstruction_regs, writeReg_regs_same, hs]
  · simp only [sub2, cmp1, addInstruction_regs]
    rw [writeReg_regs_ne _ _ _ _ hX]
  · simp only [sub2, addInstruction_regs, writeReg_regs_same, hs]
  · simp only [sub3, cmp1, addInstruction_regs]
    rw [writeReg_regs_ne _ _ _ _ hX]
  · simp only [sub3, addInstruction_regs, writeReg_regs_same, hs]

/-- Witness of C2 on the freshly constructed processor: CMP 9, 4. -/
theorem C2_cmp_is_add_of_complement_witness :
    (getXpsrC ((cmp1 (Processor.new 1024 1) 9 4).regFile.regs .XPSR) = 1 ↔ 4 ≤ 9) :=
  (C2_cmp_is_add_of_complement (Processor.new 1024 1) 9 4 .R0 (by norm_num) (by norm_num)
    (by decide)).2.2.2.2.1


theorem calculateXpsrC_xpsr (s : Processor) (res a b cin : Nat) :
    (calculateXpsrC s res a b cin 32).regFile.regs .XPSR =
      setXpsrC (s.regFile.regs .XPSR)
        (if add32 (add32 ((a &&& 4294967295) >>> 31) ((b &&& 4294967295) >>> 31))
            (add32 (add32 ((a &&& 4294967295) &&& 2147483647) ((b &&& 4294967295) &&& 2147483647))
              cin >>> 31) &&& 2 ≠ 0 then 1 else 0) := by
  have hmask : flagMask 32 = 4294967295 := by decide
  have hmsb : 4294967295 &&& not32 (shl32 1 31) = 2147483647 := by decide
  have h31 : sub32 32 1 = 31 := by decide
  simp only [calculateXpsrC, RegFile.write, RegFile.readData, if_true, hmask, hmsb, h31]
  split_ifs <;> rfl

theorem sbc_xpsr (s : Processor) (rdn : Reg) (a b c : Nat) (h : rdn ≠ .XPSR) :
    (sbc s rdn a b c).regFile.regs .XPSR =
      (calculateXpsrC (calculateXpsrN (calculateXpsrZ s
        (sub32 (sub32 a b) (if c = 0 then 1 else 0)))
        (sub32 (sub32 a b) (if c = 0 then 1 else 0)) 32)
        (sub32 (sub32 a b) (if c = 0 then 1 else 0)) a (not32 b) (if c = 0 then 1 else 0)
        32).regFile.regs .XPSR := by
  simp only [sbc, addInstruction_regs, BITS_PER_WORD]
  rw [writeReg_regs_ne _ _ _ _ (fun e => h e.symm)]

/-- C3 (divergence): with equal operands and the captured carry set, SBC
writes the right difference but clears C, where the flag calculus for
`rdn + ~rm + c` sets it; and SBC never writes V. -/
theorem C3_sbc_flags_diverge (s : Processor) :
    (sbc s .R0 0 0 1).regFile.regs .R0 = (0 + not32 0 + 1) % 4294967296 ∧
    getXpsrC ((sbc s .R0 0 0 1).regFile.regs .XPSR) = 0 ∧
    4294967296 ≤ 0 + not32 0 + 1 ∧
    ¬ AddFlags ((sbc s .R0 0 0 1).regFile.regs .XPSR) 0 (not32 0) 1 ∧
    (sbc s .R0 2147483648 1 1).regFile.regs .R0 = 2147483647 ∧
    getXpsrV ((sbc s .R0 2147483648 1 1).regFile.regs .XPSR) = getXpsrV (s.regFile.regs .XPSR) ∧
    (getXpsrV (s.regFile.regs .XPSR) = 0 →
      ¬ AddFlags ((sbc s .R0 2147483648 1 1).regFile.regs .XPSR) 2147483648 (not32 1) 1) := by
  have hc : getXpsrC ((sbc s .R0 0 0 1).regFile.regs .XPSR) = 0 := by
    rw [sbc_xpsr s .R0 0 0 1 (by decide), calculateXpsrC_xpsr]
    simp only [getXpsrC, setXpsrC, XPSR_CBIT_INDEX]
    rw [getXpsrBit_setXpsrBit_same 29 _ _ (by norm_num)]
    decide
  have hv : getXpsrV ((sbc s .R0 2147483648 1 1).regFile.regs .XPSR) =
      getXpsrV (s.regFile.regs .XPSR) := by
    rw [sbc_xpsr s .R0 _ _ 1 (by decide), calculateXpsrC_xpsr, calculateXpsrN_xpsr,
      calculateXpsrZ_xpsr]
    simp only [getXpsrV, setXpsrC, setXpsrN, setXpsrZ, XPSR_VBIT_INDEX, XPSR_CBIT_INDEX,
      XPSR_NBIT_INDEX, XPSR_ZBIT_INDEX]
    rw [getXpsrBit_setXpsrBit_other 29 28 _ _ (by norm_num) (by norm_num) (by norm_num),
      getXpsrBit_setXpsrBit_other 31 28 _ _ (by norm_num) (by norm_num) (by norm_num),
      getXpsrBit_setXpsrBit_other 30 28 _ _ (by norm_num) (by norm_num) (by norm_num)]
  refine ⟨?_, hc, by decide, ?_, ?_, hv, ?_⟩
  · simp only [sbc, addInstruction_regs, writeReg_regs_same]; decide
  · intro h
    have := h.2.2.1
    rw [hc] at this
    revert this; decide
  · simp only [sbc, addInstruction_regs, writeReg_regs_same]; decide
  · intro h0 h
    have := h.2.2.2
    rw [hv, h0] at this
    revert this; decide


/-! ## Branches: C5, C6 -/

/-- Or-ing sign bits `2^k * c` (with bit `k` among them) onto a value whose
top bit is bit `k`. -/
theorem or_signbits (k c x : Nat) (hx1 : 2 ^ k ≤ x) (hx2 : x < 2 ^ (k + 1))
    (hc : 2 ^ k ||| 2 ^ k * c = 2 ^ k * c) : x ||| 2 ^ k * c = 2 ^ k * c + (x - 2 ^ k) := by
  have hl : x - 2 ^ k < 2 ^ k := by
    rw [pow_succ] at hx2; omega
  have hx : x = 2 ^ k * 1 + (x - 2 ^ k) := by omega
  have e1 := Nat.mul_add_lt_is_or hl 1
  have e2 := Nat.mul_add_lt_is_or hl c
  rw [e2]
  conv_lhs => rw [hx, e1]
  rw [Nat.or_assoc, Nat.or_comm (x - 2 ^ k), ← Nat.or_assoc, Nat.mul_one, hc]

theorem getBit_eq (v i : Nat) : GET_BIT_AT_POS v i = v / 2 ^ i % 2 := by
  unfold GET_BIT_AT_POS
  rw [Nat.and_one_is_mod, Nat.shiftRight_eq_div_pow]

theorem shl32_eq (x n : Nat) : shl32 x n = x * 2 ^ n % 4294967296 := by
  unfold shl32; rw [Nat.shiftLeft_eq]

theorem checkCondition_ok (cond : DecodedCondition) (xpsr : Nat)
    (h0 : cond ≠ .U0) (h1 : cond ≠ .U1) : ∃ t, checkCondition cond xpsr = .ok t := by
  cases cond <;> first | exact ⟨_, rfl⟩ | exact absurd rfl h0 | exact absurd rfl h1

theorem b1_target (pc imm : Nat) (himm : imm < 256) :
    ((add32 (shl32 (if GET_BIT_AT_POS imm 7 = 0 then imm else imm ||| shl32 (not32 0) 7) 1) pc
      : Nat) : Int) = ((pc : Int) + 2 * signExtend 8 imm) % 4294967296 := by
  have hm : shl32 (not32 0) 7 = 2 ^ 7 * 33554431 := by decide
  rw [getBit_eq, shl32_eq, add32, signExtend]
  have e8 : (2 : Nat) ^ 8 = 256 := by norm_num
  have e7 : (2 : Nat) ^ 7 = 128 := by norm_num
  have e1 : (2 : Nat) ^ 1 = 2 := by norm_num
  have e81 : (2 : Nat) ^ (8 - 1) = 128 := by norm_num
  by_cases h : imm < 128
  · have hb : imm / 2 ^ 7 % 2 = 0 := by rw [e7]; omega
    rw [if_pos hb, e8, e81, Nat.mod_eq_of_lt himm, if_pos h, e1]
    omega
  · have hb : ¬ imm / 2 ^ 7 % 2 = 0 := by rw [e7]; omega
    have ho := or_signbits 7 33554431 imm (by rw [e7]; omega) (by norm_num; omega) (by decide)
    rw [if_neg hb, hm, ho, e8, e81, Nat.mod_eq_of_lt himm, if_neg h, e1]
    push_cast
    omega


/-- Masking off the low `k` bits of a 32-bit value. -/
theorem and_high_mask (x k : Nat) (hk : k ≤ 32) (hx : x < 4294967296) :
    x &&& (4294967296 - 2 ^ k) = 2 ^ k * (x / 2 ^ k) := by
  apply Nat.eq_of_testBit_eq
  intro i
  have hlt : 2 ^ k - 1 < 2 ^ 32 := by
    have : 2 ^ k ≤ 2 ^ 32 := Nat.pow_le_pow_right (by norm_num) hk
    have : 0 < 2 ^ k := Nat.two_pow_pos k
    omega
  have e : 4294967296 - 2 ^ k = 2 ^ 32 - ((2 ^ k - 1) + 1) := by
    have : 0 < 2 ^ k := Nat.two_pow_pos k
    have : (2 : Nat) ^ 32 = 4294967296 := by norm_num
    omega
  rw [Nat.testBit_and, e, Nat.testBit_two_pow_sub_succ hlt, Nat.testBit_two_pow_sub_one,
    Nat.testBit_mul_pow_two, ← Nat.shiftRight_eq_div_pow, Nat.testBit_shiftRight]
  by_cases h1 : i < 32
  · by_cases h2 : i < k
    · simp [h1, h2]
    · have : k + (i - k) = i := by omega
      simp [h1, h2, this]; omega
  · have : x.testBit i = false := by
      apply Nat.testBit_lt_two_pow
      calc x < 2 ^ 32 := by simpa using hx
        _ ≤ 2 ^ i := Nat.pow_le_pow_right (by norm_num) (by omega)
    by_cases h2 : k ≤ i
    · have e2 : k + (i - k) = i := by omega
      simp [this, h2, e2]
    · simp [this, h2]


theorem and_not32_one (rm : Nat) (h : rm < 4294967296) : rm &&& not32 1 = rm - rm % 2 := by
  have e : not32 1 = 4294967296 - 2 ^ 1 := by decide
  rw [e, and_high_mask rm 1 (by norm_num) h]
  omega

/-- C6: `bx` and `blx` end fatally iff bit 0 of the Rm value is 0; otherwise
both write `PC = rm & ~1`, request a pipeline flush and count a taken branch;
`bx` writes no other register and `blx` also writes `LR = (pc - 2) | 1`. -/
theorem C6_bx_blx_thumb_bit (s : Processor) (pc rm : Nat) (hrm : rm < 4294967296) :
    ((∃ m, bx s .PC rm = .error (.fatal m)) ↔ rm % 2 = 0) ∧
    ((∃ m, blx s .PC pc rm = .error (.fatal m)) ↔ rm % 2 = 0) ∧
    (rm % 2 = 1 → ∃ s', bx s .PC rm = .ok s' ∧
      s'.regFile.regs .PC = rm - 1 ∧
      (∀ r, r ≠ .PC → s'.regFile.regs r = s.regFile.regs r) ∧
      s'.decode.flushPending = true ∧ s'.fetch.flushPending = true ∧
      s'.stats.branchTaken = s.stats.branchTaken + 1) ∧
    (rm % 2 = 1 → ∃ s', blx s .PC pc rm = .ok s' ∧
      s'.regFile.regs .PC = rm - 1 ∧
      s'.regFile.regs .LR = (pc % 4294967296 + 4294967294) % 4294967296 ||| 1 ∧
      (∀ r, r ≠ .PC → r ≠ .LR → s'.regFile.regs r = s.regFile.regs r) ∧
      s'.decode.flushPending = true ∧ s'.fetch.flushPending = true ∧
      s'.stats.branchTaken = s.stats.branchTaken + 1) := by
  have hb : rm &&& 1 = rm % 2 := Nat.and_one_is_mod rm
  have hm := and_not32_one rm hrm
  refine ⟨?_, ?_, ?_, ?_⟩
  · unfold bx
    rw [hb]
    constructor
    · rintro ⟨m, h⟩
      split_ifs at h with h1
      · omega
    · intro h
      rw [if_pos (by omega)]
      exact ⟨_, rfl⟩
  · unfold blx
    rw [hb]
    constructor
    · rintro ⟨m, h⟩
      split_ifs at h with h1
      · omega
    · intro h
      rw [if_pos (by omega)]
      exact ⟨_, rfl⟩
  · intro h
    refine ⟨_, by unfold bx; rw [hb, if_neg (by omega)], ?_, ?_, ?_, ?_, ?_⟩
    · simp [addBranchTaken, addInstruction, flushPipeline, writeReg, RegFile.write, hm, h]
    · intro r hr
      simp [addBranchTaken, addInstruction, flushPipeline, writeReg, RegFile.write, hr]
    · simp [addBranchTaken, addInstruction, flushPipeline, writeReg]
    · simp [addBranchTaken, addInstruction, flushPipeline, writeReg]
    · simp [addBranchTaken, addInstruction, flushPipeline, writeReg, Statistics.addInstruction,
        Statistics.addBranchTaken]
  · intro h
    refine ⟨_, by unfold blx; rw [hb, if_neg (by omega)], ?_, ?_, ?_, ?_, ?_, ?_⟩
    · simp [addBranchTaken, addInstruction, flushPipeline, writeReg, RegFile.write, hm, h]
    · simp [addBranchTaken, addInstruction, flushPipeline, writeReg, RegFile.write,
        PREV_THUMB_INST, sub32, THUMB_INST_BYTES]
    · intro r hr hl
      simp [addBranchTaken, addInstruction, flushPipeline, writeReg, RegFile.write, hr, hl]
    · simp [addBranchTaken, addInstruction, flushPipeline, writeReg]
    · simp [addBranchTaken, addInstruction, flushPipeline, writeReg]
    · simp [addBranchTaken, addInstruction, flushPipeline, writeReg, Statistics.addInstruction,
        Statistics.addBranchTaken]

/-- Witness of C6: BX to the Thumb address 0x101 on the fresh processor. -/
theorem C6_bx_blx_thumb_bit_witness :
    ∃ s', bx (Processor.new 1024 1) .PC 257 = .ok s' ∧ s'.regFile.regs .PC = 257 - 1 := by
  obtain ⟨s', h1, h2, _⟩ := (C6_bx_blx_thumb_bit (Processor.new 1024 1) 8 257
    (by norm_num)).2.2.1 (by norm_num)
  exact ⟨s', h1, h2⟩



/-! ## Memory: C10 -/

theorem and_low_mask (x j : Nat) : x &&& (2 ^ j - 1) = x % 2 ^ j :=
  Nat.and_pow_two_sub_one_eq_mod x j

theorem getWordIndex_eq (x : Nat) (hx : x < 4294967296) : GET_WORD_INDEX x = x / 4 := by
  unfold GET_WORD_INDEX GET_WORD_ADDRESS
  have e : not32 (BYTES_PER_WORD - 1) = 4294967296 - 2 ^ 2 := by decide
  rw [e, and_high_mask x 2 (by norm_num) hx, Nat.shiftRight_eq_div_pow]
  omega

theorem getByteIndex_eq (x : Nat) : GET_BYTE_INDEX x = x % 4 := by
  unfold GET_BYTE_INDEX
  exact Nat.and_pow_two_sub_one_eq_mod x 2

/-- The access-width mask of a memory whose width is `2^k` (any `k`): on 32-bit
addresses it selects the offset inside the aligned block of `4 * 2^k` bytes. -/
theorem widthMask_spec (m : Memory) (k a : Nat) (hw : m.memAccessWidthWords = 2 ^ k)
    (ha : a < 4294967296) :
    a &&& m.widthMask = a % (4 * m.memAccessWidthWords) ∧
    a &&& not32 m.widthMask = 4 * m.memAccessWidthWords * (a / (4 * m.memAccessWidthWords)) := by
  have h4 : 4 * m.memAccessWidthWords = 2 ^ (k + 2) := by rw [hw, pow_add]; ring
  have e32 : (2 : Nat) ^ 32 = 4294967296 := by norm_num
  by_cases hk : k + 2 < 32
  · have hlt : 2 ^ (k + 2) < 4294967296 := by
      rw [← e32]; exact Nat.pow_lt_pow_right (by norm_num) hk
    have hpos : 0 < 2 ^ (k + 2) := Nat.two_pow_pos _
    have hmask : m.widthMask = 2 ^ (k + 2) - 1 := by
      unfold Memory.widthMask sub32 BYTES_PER_WORD
      rw [h4, Nat.mod_eq_of_lt hlt, Nat.mod_eq_of_lt hlt]
      omega
    have hnot : not32 m.widthMask = 4294967296 - 2 ^ (k + 2) := by
      unfold not32; rw [hmask]; omega
    rw [hnot, hmask, and_low_mask, and_high_mask a (k + 2) (by omega) ha, h4]
    exact ⟨rfl, rfl⟩
  · have hge : 4294967296 ≤ 2 ^ (k + 2) := by
      rw [← e32]; exact Nat.pow_le_pow_right (by norm_num) (by omega)
    have hdvd : 2 ^ (k + 2) % 4294967296 = 0 := by
      rw [← e32]
      exact Nat.mod_eq_zero_of_dvd (pow_dvd_pow 2 (by omega))
    have hmask : m.widthMask = 2 ^ 32 - 1 := by
      unfold Memory.widthMask sub32 BYTES_PER_WORD
      rw [h4, hdvd]
      norm_num
    have hnot : not32 m.widthMask = 0 := by
      unfold not32; rw [hmask]; norm_num
    rw [hnot, hmask, and_low_mask, h4, e32, Nat.mod_eq_of_lt ha, Nat.mod_eq_of_lt (by omega),
      Nat.div_eq_of_lt (by omega)]
    simp


theorem prevRespIndex_after_tick (n size : Nat) (hs : 1 ≤ size) (hs32 : size < 4294967296)
    (hn : n < size) :
    (if add32 n 1 % size = 0 then sub32 size 1 else add32 n 1 % size - 1) = n := by
  unfold add32 sub32
  rw [Nat.mod_eq_of_lt (by omega : n + 1 < 4294967296)]
  by_cases h : n + 1 = size
  · rw [h, Nat.mod_self, if_pos rfl, Nat.mod_eq_of_lt hs32]
    omega
  · rw [Nat.mod_eq_of_lt (by omega : n + 1 < size), if_neg (by omega)]
    omega

theorem next_ne_self (n size : Nat) (hs : 2 ≤ size) (hs32 : size < 4294967296) (hn : n < size) :
    add32 n 1 % size ≠ n := by
  unfold add32
  rw [Nat.mod_eq_of_lt (by omega : n + 1 < 4294967296)]
  by_cases h : n + 1 = size
  · rw [h, Nat.mod_self]; omega
  · rw [Nat.mod_eq_of_lt (by omega : n + 1 < size)]; omega

/-- One request then one tick, LOAD: the shape of the memory afterwards. -/
theorem memory_load_served (m : Memory) (issuer : Component) (a k : Nat)
    (hw : m.memAccessWidthWords = 2 ^ k)
    (hp : 2 ≤ m.pipelineSize) (hp32 : m.pipelineSize < 4294967296)
    (hidx : m.nextReqIndex < m.pipelineSize)
    (hfree : (m.pipeline m.nextReqIndex).issuer = .NONE)
    (hissuer : issuer ≠ .NONE)
    (ha : a < 4294967296) (hin : a / 4 < m.memSizeWords) :
    ∃ m1, m.requestLoad issuer a = some (m.nextToken, m1) ∧ ∃ m2, m1.run = .ok m2 ∧
      m2.mem = m.mem ∧ m2.memSizeWords = m.memSizeWords ∧
      m2.memAccessWidthWords = m.memAccessWidthWords ∧
      m2.pipelineSize = m.pipelineSize ∧ m2.nextReqIndex < m2.pipelineSize ∧
      (m2.pipeline m2.nextReqIndex).issuer = .NONE ∧
      m2.retrieveWideLoad m.nextToken = some ((List.range m.memAccessWidthWords).map
        (fun i => m.mem (m.memAccessWidthWords * (a / (4 * m.memAccessWidthWords)) + i))) ∧
      m2.retrieveLoad m.nextToken = some (m.mem (a / 4)) := by
  have hprev := prevRespIndex_after_tick m.nextReqIndex m.pipelineSize (by omega) hp32 hidx
  have hne := next_ne_self m.nextReqIndex m.pipelineSize hp hp32 hidx
  have hne' : m.nextReqIndex ≠ add32 m.nextReqIndex 1 % m.pipelineSize := fun e => hne e.symm
  have hgw := getWordIndex_eq a ha
  have hnb : ¬ GET_WORD_INDEX a ≥ m.memSizeWords := by rw [hgw]; omega
  obtain ⟨hlow, hhigh⟩ := widthMask_spec m k a hw ha
  have hwpos : 0 < m.memAccessWidthWords := by rw [hw]; exact Nat.two_pow_pos k
  have hbase : GET_WORD_INDEX (a &&& not32 m.widthMask) =
      m.memAccessWidthWords * (a / (4 * m.memAccessWidthWords)) := by
    rw [getWordIndex_eq _ (lt_of_le_of_lt Nat.and_le_left ha), hhigh, Nat.mul_assoc,
      Nat.mul_div_cancel_left _ (by norm_num : 0 < 4)]
  have hoff : GET_WORD_INDEX (a &&& m.widthMask) = a % (4 * m.memAccessWidthWords) / 4 := by
    rw [getWordIndex_eq _ (lt_of_le_of_lt Nat.and_le_left ha), hlow]
  have hdm := Nat.div_add_mod a (4 * m.memAccessWidthWords)
  have hmod := Nat.mod_lt a (by omega : 0 < 4 * m.memAccessWidthWords)
  have hsum : m.memAccessWidthWords * (a / (4 * m.memAccessWidthWords)) +
      a % (4 * m.memAccessWidthWords) / 4 = a / 4 := by
    rw [Nat.mul_assoc] at hdm
    generalize m.memAccessWidthWords * (a / (4 * m.memAccessWidthWords)) = t at hdm ⊢
    omega
  have hmodlt : add32 m.nextReqIndex 1 % m.pipelineSize < m.pipelineSize :=
    Nat.mod_lt _ (by omega)
  simp only [Memory.widthMask] at hbase hoff
  simp only [Memory.requestLoad, hfree, ne_eq, not_true_eq_false, if_false]
  refine ⟨_, rfl, ?_⟩
  simp only [Memory.run, Memory.setSlot, if_neg hne', if_pos, if_true, hissuer, hnb, if_false,
    Memory.getMemAccessWidthBaseByteAddr, Memory.widthMask]
  refine ⟨_, rfl, rfl, rfl, rfl, rfl, hmodlt, ?_, ?_, ?_⟩
  · simp [hne]
  · simp only [Memory.retrieveWideLoad, Memory.prevRespIndex, hprev, if_true, hbase]
    congr 1
    apply List.map_congr_left
    intro i hi
    rw [List.mem_range] at hi
    rw [if_pos hi]
  · simp only [Memory.retrieveLoad, Memory.prevRespIndex, hprev, if_true,
      Memory.getMemAccessWidthWordIndex, Memory.widthMask] at hoff ⊢
    have hlt : a % (4 * m.memAccessWidthWords) / 4 < m.memAccessWidthWords := by omega
    rw [hoff, if_pos hlt, hbase, hsum]

/-- One request then one tick, STORE: the shape of the memory afterwards. -/
theorem memory_store_served (m : Memory) (issuer : Component) (a d : Nat)
    (hp : 2 ≤ m.pipelineSize) (hp32 : m.pipelineSize < 4294967296)
    (hidx : m.nextReqIndex < m.pipelineSize)
    (hfree : (m.pipeline m.nextReqIndex).issuer = .NONE)
    (hissuer : issuer ≠ .NONE)
    (ha : a < 4294967296) (hin : a / 4 < m.memSizeWords) :
    ∃ m1, m.requestStore issuer a d = some (m.nextToken, m1) ∧ ∃ m2, m1.run = .ok m2 ∧
      m2.mem = (fun w => if w = a / 4 then d else m.mem w) ∧
      m2.memSizeWords = m.memSizeWords ∧
      m2.memAccessWidthWords = m.memAccessWidthWords ∧
      m2.pipelineSize = m.pipelineSize ∧ m2.nextReqIndex < m2.pipelineSize ∧
      (m2.pipeline m2.nextReqIndex).issuer = .NONE ∧
      m2.retrieveStore m.nextToken = true := by
  have hprev := prevRespIndex_after_tick m.nextReqIndex m.pipelineSize (by omega) hp32 hidx
  have hne := next_ne_self m.nextReqIndex m.pipelineSize hp hp32 hidx
  have hne' : m.nextReqIndex ≠ add32 m.nextReqIndex 1 % m.pipelineSize := fun e => hne e.symm
  have hgw := getWordIndex_eq a ha
  have hnb : ¬ GET_WORD_INDEX a ≥ m.memSizeWords := by rw [hgw]; omega
  have hmodlt : add32 m.nextReqIndex 1 % m.pipelineSize < m.pipelineSize :=
    Nat.mod_lt _ (by omega)
  simp only [Memory.requestStore, hfree, ne_eq, not_true_eq_false, if_false]
  refine ⟨_, rfl, ?_⟩
  have hnb' : ¬ a / 4 ≥ m.memSizeWords := by omega
  simp only [Memory.run, Memory.setSlot, if_neg hne', if_pos, if_true, hissuer, hnb, if_false,
    hgw, hnb']
  refine ⟨_, rfl, rfl, rfl, rfl, rfl, hmodlt, ?_, ?_⟩
  · simp [hne]
  · simp only [Memory.retrieveStore, Memory.prevRespIndex, hprev, if_true, if_neg hne',
      decide_True]

/-- The aligned block of `memAccessWidthWords` words around an in-bounds
address lies inside a memory whose size is a multiple of the width. -/
theorem wide_block_in_bounds (m : Memory) (a i : Nat)
    (hsz : m.memSizeWords % m.memAccessWidthWords = 0)
    (hin : a / 4 < m.memSizeWords) (hi : i < m.memAccessWidthWords) :
    m.memAccessWidthWords * (a / (4 * m.memAccessWidthWords)) + i < m.memSizeWords := by
  have hwpos : 0 < m.memAccessWidthWords := by omega
  obtain ⟨q, hq⟩ := Nat.dvd_of_mod_eq_zero hsz
  have hdm := Nat.div_add_mod a (4 * m.memAccessWidthWords)
  have hmod := Nat.mod_lt a (by omega : 0 < 4 * m.memAccessWidthWords)
  have ht : m.memAccessWidthWords * (a / (4 * m.memAccessWidthWords)) ≤ a / 4 := by
    rw [Nat.mul_assoc] at hdm
    generalize m.memAccessWidthWords * (a / (4 * m.memAccessWidthWords)) = t at hdm ⊢
    omega
  have h1 : a / (4 * m.memAccessWidthWords) < q := by
    by_contra hcon
    have hqle : q ≤ a / (4 * m.memAccessWidthWords) := by omega
    have := Nat.mul_le_mul_left m.memAccessWidthWords hqle
    rw [← hq] at this
    omega
  have h2 : m.memAccessWidthWords * (a / (4 * m.memAccessWidthWords) + 1) ≤
      m.memAccessWidthWords * q := Nat.mul_le_mul_left _ h1
  rw [← hq, Nat.mul_add, Nat.mul_one] at h2
  omega

/-- C10: on a memory whose access width is a power of two, after a successful
`requestLoad` for an in-bounds byte address `a` and one tick,
`retrieveWideLoad` yields the `memAccessWidthWords` memory words of the
aligned block containing `a` and `retrieveLoad` the word at index `a / 4`;
the LOAD changes no memory word, and a STORE changes only the word at index
`a / 4`, to the stored data. -/
theorem C10_memory_tick_serves_request (m : Memory) (issuer : Component) (a d k : Nat)
    (hw : m.memAccessWidthWords = 2 ^ k)
    (hsz : m.memSizeWords % m.memAccessWidthWords = 0)
    (hp : 2 ≤ m.pipelineSize) (hp32 : m.pipelineSize < 4294967296)
    (hidx : m.nextReqIndex < m.pipelineSize)
    (hissuer : issuer ≠ .NONE)
    (ha : a < 4294967296) (hin : a / 4 < m.memSizeWords) :
    (∀ tok m1, m.requestLoad issuer a = some (tok, m1) →
      ∃ m2, m1.run = .ok m2 ∧ m2.mem = m.mem ∧
        m2.retrieveWideLoad tok = some ((List.range m.memAccessWidthWords).map
          (fun i => m.mem (m.memAccessWidthWords * (a / (4 * m.memAccessWidthWords)) + i))) ∧
        (∀ i, i < m.memAccessWidthWords →
          m.memAccessWidthWords * (a / (4 * m.memAccessWidthWords)) + i < m.memSizeWords) ∧
        m2.retrieveLoad tok = some (m.mem (a / 4))) ∧
    (∀ tok m1, m.requestStore issuer a d = some (tok, m1) →
      ∃ m2, m1.run = .ok m2 ∧ m2.mem (a / 4) = d ∧ ∀ w, w ≠ a / 4 → m2.mem w = m.mem w) := by
  refine ⟨?_, ?_⟩
  · intro tok m1 h
    have hfree : (m.pipeline m.nextReqIndex).issuer = .NONE := by
      by_contra hcon
      simp [Memory.requestLoad, hcon] at h
    obtain ⟨m1', h1, m2, h2, h3, _, _, _, _, _, h4, h5⟩ :=
      memory_load_served m issuer a k hw hp hp32 hidx hfree hissuer ha hin
    rw [h1] at h
    simp only [Option.some.injEq, Prod.mk.injEq] at h
    obtain ⟨rfl, rfl⟩ := h
    exact ⟨m2, h2, h3, h4, fun i hi => wide_block_in_bounds m a i hsz hin hi, h5⟩
  · intro tok m1 h
    have hfree : (m.pipeline m.nextReqIndex).issuer = .NONE := by
      by_contra hcon
      simp [Memory.requestStore, hcon] at h
    obtain ⟨m1', h1, m2, h2, h3, _⟩ :=
      memory_store_served m issuer a d hp hp32 hidx hfree hissuer ha hin
    rw [h1] at h
    simp only [Option.some.injEq, Prod.mk.injEq] at h
    obtain ⟨rfl, rfl⟩ := h
    refine ⟨m2, h2, ?_, ?_⟩
    · rw [h3]; simp
    · intro w hw'
      rw [h3]; simp [hw']

/-- Witness of C10: a store of 7 to byte address 20 on a fresh memory of 16
words, width 2 and pipeline size 2. -/
theorem C10_memory_tick_serves_request_witness :
    ∃ tok m1, (Memory.new 16 2 2).requestStore .EXECUTE 20 7 = some (tok, m1) ∧
      ∃ m2, m1.run = .ok m2 ∧ m2.mem (20 / 4) = 7 := by
  refine ⟨_, _, rfl, ?_⟩
  obtain ⟨m2, h1, h2, _⟩ := (C10_memory_tick_serves_request (Memory.new 16 2 2) .EXECUTE 20 7 1
    (by decide) (by decide) (by decide) (by decide) (by decide) (by decide) (by norm_num)
    (by decide)).2 _ _ rfl
  exact ⟨m2, h1, h2⟩


/-! ## Single loads and stores: C8, C9 -/

theorem getWordAddress_eq (x : Nat) (hx : x < 4294967296) : GET_WORD_ADDRESS x = 4 * (x / 4) := by
  unfold GET_WORD_ADDRESS
  have e : not32 (BYTES_PER_WORD - 1) = 4294967296 - 2 ^ 2 := by decide
  rw [e, and_high_mask x 2 (by norm_num) hx]
  norm_num

/-- Effective address staged by `ldr` and `str`: pointer plus byte offset is
`(drn + offset) mod 2^32`, and the byte index of the staged offset is that of
the effective address. -/
theorem effective_address (drn offset : Nat) (hdrn : drn < 4294967296) :
    add32 (GET_WORD_ADDRESS drn) (add32 (GET_BYTE_INDEX drn) offset) =
      (drn + offset) % 4294967296 ∧
    GET_BYTE_INDEX (add32 (GET_BYTE_INDEX drn) offset) = (drn + offset) % 4294967296 % 4 := by
  rw [getWordAddress_eq drn hdrn, getByteIndex_eq, getByteIndex_eq]
  unfold add32
  constructor <;> omega

theorem not32_testBit (x i : Nat) (hx : x < 4294967296) :
    (not32 x).testBit i = (decide (i < 32) && !x.testBit i) := by
  have e : not32 x = 2 ^ 32 - (x + 1) := by
    unfold not32; rw [Nat.mod_eq_of_lt hx]; norm_num; omega
  rw [e, Nat.testBit_two_pow_sub_succ (by simpa using hx)]

theorem shl32_lt (x n : Nat) : shl32 x n < 4294967296 := by
  unfold shl32; omega

/-- Bits of the word that `formatDataForMemStore` merges: a field of `n` bits
at bit `off` comes from `drt`, the other bits from `data`. -/
theorem merge_testBit (data drt off n i : Nat) (hi : i < 32) :
    ((data &&& not32 (shl32 (2 ^ n - 1) off)) ||| shl32 (drt &&& (2 ^ n - 1)) off).testBit i =
      if off ≤ i ∧ i < off + n then drt.testBit (i - off) else data.testBit i := by
  rw [Nat.testBit_or, Nat.testBit_and, not32_testBit _ _ (shl32_lt _ _), shl32_testBit,
    shl32_testBit, Nat.testBit_and, Nat.testBit_two_pow_sub_one]
  by_cases h1 : off ≤ i
  · by_cases h2 : i < off + n
    · have h3 : i - off < n := by omega
      simp [hi, h1, h2, h3]
    · have h3 : ¬ i - off < n := by omega
      simp [hi, h1, h2, h3]
  · simp [hi, h1]

theorem merge_lt (data drt off n : Nat) :
    (data &&& not32 (shl32 (2 ^ n - 1) off)) ||| shl32 (drt &&& (2 ^ n - 1)) off < 4294967296 := by
  have h1 : data &&& not32 (shl32 (2 ^ n - 1) off) < 2 ^ 32 :=
    Nat.and_lt_two_pow _ (by unfold not32; omega)
  have h2 : shl32 (drt &&& (2 ^ n - 1)) off < 2 ^ 32 := by simpa using shl32_lt _ _
  simpa using Nat.or_lt_two_pow h1 h2


theorem str_unfold (s : Processor) (rt rn : Reg) (drt drn offset data : Nat)
    (ty : MemoryInstructionType) (hdrn : drn < 4294967296) (havail : s.mem.isAvailable = true)
    (hin : (drn + offset) % 4294967296 / 4 < s.mem.memSizeWords)
    (hf : formatDataForMemStore ty (s.mem.mem ((drn + offset) % 4294967296 / 4)) drt
      (add32 (GET_BYTE_INDEX drn) offset) = .ok data) :
    ∃ s', str s rt drt rn drn offset ty = .ok s' ∧
      s'.execute.execState = .STORE_MEM_RESP ∧
      s'.regFile = s.regFile ∧
      (s'.mem.pipeline s.mem.nextReqIndex).issuer = .EXECUTE ∧
      (s'.mem.pipeline s.mem.nextReqIndex).type = .STORE ∧
      (s'.mem.pipeline s.mem.nextReqIndex).byteAddr = (drn + offset) % 4294967296 ∧
      (s'.mem.pipeline s.mem.nextReqIndex).reqData 0 = data := by
  obtain ⟨hea, _⟩ := effective_address drn offset hdrn
  have hlt : (drn + offset) % 4294967296 < 4294967296 := Nat.mod_lt _ (by norm_num)
  have hfree : (s.mem.pipeline s.mem.nextReqIndex).issuer = Component.NONE := by
    simpa [Memory.isAvailable] using havail
  have hlw : s.mem.loadWord ((drn + offset) % 4294967296) =
      .ok (s.mem.mem ((drn + offset) % 4294967296 / 4)) := by
    unfold Memory.loadWord
    rw [getWordIndex_eq _ hlt, if_neg (by omega)]
  simp only [str, executeStoreMemReq, hea, havail, hlw, hf, Memory.requestStore, hfree,
    not_true_eq_false, if_false, ne_eq, setExecState, Memory.setSlot]
  exact ⟨_, rfl, rfl, rfl, by simp, by simp, by simp, by simp⟩


/-- C9: for STRB and STRH to the effective address
`addr = (Rn + offset) mod 2^32` the word handed to `requestStore` is the
memory word at `addr` with only the addressed byte (bits `8*(addr mod 4)` and
the 7 above) or the addressed halfword replaced by the low 8 or 16 bits of Rt;
for STR it is the Rt value itself; the request is addressed to `addr`. -/
theorem C9_store_merges_subword (s : Processor) (rt rn : Reg) (drt drn offset : Nat)
    (hdrn : drn < 4294967296) (havail : s.mem.isAvailable = true)
    (hin : (drn + offset) % 4294967296 / 4 < s.mem.memSizeWords) :
    (∃ s', str s rt drt rn drn offset .UBYTE = .ok s' ∧
      strb1 s rt drt rn drn offset = .ok (addInstruction s' .STRB) ∧
      strb2 s rt drt rn drn offset = .ok (addInstruction s' .STRB) ∧
      s'.execute.execState = .STORE_MEM_RESP ∧
      (s'.mem.pipeline s.mem.nextReqIndex).type = .STORE ∧
      (s'.mem.pipeline s.mem.nextReqIndex).byteAddr = (drn + offset) % 4294967296 ∧
      (s'.mem.pipeline s.mem.nextReqIndex).reqData 0 < 4294967296 ∧
      ∀ i, i < 32 → ((s'.mem.pipeline s.mem.nextReqIndex).reqData 0).testBit i =
        if 8 * ((drn + offset) % 4294967296 % 4) ≤ i ∧
            i < 8 * ((drn + offset) % 4294967296 % 4) + 8 then
          drt.testBit (i - 8 * ((drn + offset) % 4294967296 % 4))
        else (s.mem.mem ((drn + offset) % 4294967296 / 4)).testBit i) ∧
    (∃ s', str s rt drt rn drn offset .UHALFWORD = .ok s' ∧
      strh2 s rt drt rn drn offset = .ok (addInstruction s' .STRH) ∧
      s'.execute.execState = .STORE_MEM_RESP ∧
      (s'.mem.pipeline s.mem.nextReqIndex).type = .STORE ∧
      (s'.mem.pipeline s.mem.nextReqIndex).byteAddr = (drn + offset) % 4294967296 ∧
      (s'.mem.pipeline s.mem.nextReqIndex).reqData 0 < 4294967296 ∧
      ∀ i, i < 32 → ((s'.mem.pipeline s.mem.nextReqIndex).reqData 0).testBit i =
        if 16 * ((drn + offset) % 4294967296 % 4 / 2) ≤ i ∧
            i < 16 * ((drn + offset) % 4294967296 % 4 / 2) + 16 then
          drt.testBit (i - 16 * ((drn + offset) % 4294967296 % 4 / 2))
        else (s.mem.mem ((drn + offset) % 4294967296 / 4)).testBit i) ∧
    (∃ s', str s rt drt rn drn offset .WORD = .ok s' ∧
      str2 s rt drt rn drn offset = .ok (addInstruction s' .STR) ∧
      s'.execute.execState = .STORE_MEM_RESP ∧
      (s'.mem.pipeline s.mem.nextReqIndex).type = .STORE ∧
      (s'.mem.pipeline s.mem.nextReqIndex).byteAddr = (drn + offset) % 4294967296 ∧
      (s'.mem.pipeline s.mem.nextReqIndex).reqData 0 = drt) := by
  obtain ⟨_, hbi⟩ := effective_address drn offset hdrn
  have hb4 : (drn + offset) % 4294967296 % 4 < 4 := Nat.mod_lt _ (by norm_num)
  have m8 : shl32 1 8 - 1 = 2 ^ 8 - 1 := by decide
  have m16 : shl32 1 16 - 1 = 2 ^ 16 - 1 := by decide
  refine ⟨?_, ?_, ?_⟩
  · have hf : formatDataForMemStore .UBYTE (s.mem.mem ((drn + offset) % 4294967296 / 4)) drt
        (add32 (GET_BYTE_INDEX drn) offset) = .ok
        ((s.mem.mem ((drn + offset) % 4294967296 / 4) &&&
          not32 (shl32 (2 ^ 8 - 1) ((drn + offset) % 4294967296 % 4 * 8))) |||
          shl32 (drt &&& (2 ^ 8 - 1)) ((drn + offset) % 4294967296 % 4 * 8)) := by
      simp only [formatDataForMemStore, hbi, BITS_PER_BYTE, m8]
    obtain ⟨s', h1, h2, _, _, h4, h5, h6⟩ :=
      str_unfold s rt rn drt drn offset _ .UBYTE hdrn havail hin hf
    refine ⟨s', h1, by simp [strb1, h1, Except.map], by simp [strb2, h1, Except.map], h2, h4,
      h5, ?_, ?_⟩
    · rw [h6]; exact merge_lt _ _ _ _
    · intro i hi
      rw [h6, merge_testBit _ _ _ _ _ hi, Nat.mul_comm]
  · have hh : ((drn + offset) % 4294967296 % 4 &&& not32 1) * 8 =
        16 * ((drn + offset) % 4294967296 % 4 / 2) := by
      rw [and_not32_one _ (by omega)]; omega
    have hf : formatDataForMemStore .UHALFWORD (s.mem.mem ((drn + offset) % 4294967296 / 4)) drt
        (add32 (GET_BYTE_INDEX drn) offset) = .ok
        ((s.mem.mem ((drn + offset) % 4294967296 / 4) &&&
          not32 (shl32 (2 ^ 16 - 1) (16 * ((drn + offset) % 4294967296 % 4 / 2)))) |||
          shl32 (drt &&& (2 ^ 16 - 1)) (16 * ((drn + offset) % 4294967296 % 4 / 2))) := by
      simp only [formatDataForMemStore, hbi, BITS_PER_BYTE, BITS_PER_HALFWORD, m16, hh]
    obtain ⟨s', h1, h2, _, _, h4, h5, h6⟩ :=
      str_unfold s rt rn drt drn offset _ .UHALFWORD hdrn havail hin hf
    refine ⟨s', h1, by simp [strh2, h1, Except.map], h2, h4, h5, ?_, ?_⟩
    · rw [h6]; exact merge_lt _ _ _ _
    · intro i hi
      rw [h6, merge_testBit _ _ _ _ _ hi]
  · have hf : formatDataForMemStore .WORD (s.mem.mem ((drn + offset) % 4294967296 / 4)) drt
        (add32 (GET_BYTE_INDEX drn) offset) = .ok drt := rfl
    obtain ⟨s', h1, h2, _, _, h4, h5, h6⟩ :=
      str_unfold s rt rn drt drn offset _ .WORD hdrn havail hin hf
    exact ⟨s', h1, by simp [str2, h1, Except.map], h2, h4, h5, h6⟩

/-- Witness of C9: STRB of 0x1234 to byte address 5 on the fresh processor. -/
theorem C9_store_merges_subword_witness :
    ∃ s', str (Processor.new 1024 1) .R0 4660 .R1 4 1 .UBYTE = .ok s' ∧
      (s'.mem.pipeline (Processor.new 1024 1).mem.nextReqIndex).byteAddr = (4 + 1) % 4294967296 := by
  obtain ⟨s', h1, _, _, _, _, h2, _⟩ := (C9_store_merges_subword (Processor.new 1024 1) .R0 .R1
    4660 4 1 (by norm_num) (by decide) (by decide)).1
  exact ⟨s', h1, h2⟩


theorem and_mask8 (a : Nat) : a &&& 255 = a % 256 :=
  Nat.and_pow_two_sub_one_eq_mod a 8

theorem and_mask16 (a : Nat) : a &&& 65535 = a % 65536 :=
  Nat.and_pow_two_sub_one_eq_mod a 16

theorem or_high_disjoint (b c n : Nat) (hb : b < 2 ^ n) : b ||| 2 ^ n * c = 2 ^ n * c + b := by
  rw [Nat.or_comm, Nat.mul_add_lt_is_or hb c]

theorem sext_byte (b : Nat) (hb : b < 256) :
    b ||| (if GET_BIT_AT_POS b 7 = 1 then 4294967040 else 0) =
      (signExtend 8 b % 4294967296).toNat := by
  rw [getBit_eq]
  have e7 : (2 : Nat) ^ 7 = 128 := by norm_num
  have e8 : (2 : Nat) ^ 8 = 256 := by norm_num
  have e81 : (2 : Nat) ^ (8 - 1) = 128 := by norm_num
  unfold signExtend
  simp only [e7, e8, e81, Nat.mod_eq_of_lt hb]
  by_cases h : b < 128
  · rw [if_neg (by omega), if_pos h, Nat.or_zero]
    omega
  · have ho := or_high_disjoint b 16777215 8 (by omega)
    rw [if_pos (by omega), if_neg h, show (4294967040 : Nat) = 2 ^ 8 * 16777215 by norm_num, ho]
    push_cast
    omega

theorem sext_half (b : Nat) (hb : b < 65536) :
    b ||| (if GET_BIT_AT_POS b 15 = 1 then 4294901760 else 0) =
      (signExtend 16 b % 4294967296).toNat := by
  rw [getBit_eq]
  have e7 : (2 : Nat) ^ 15 = 32768 := by norm_num
  have e8 : (2 : Nat) ^ 16 = 65536 := by norm_num
  have e81 : (2 : Nat) ^ (16 - 1) = 32768 := by norm_num
  unfold signExtend
  simp only [e7, e8, e81, Nat.mod_eq_of_lt hb]
  by_cases h : b < 32768
  · rw [if_neg (by omega), if_pos h, Nat.or_zero]
    omega
  · have ho := or_high_disjoint b 65535 16 (by omega)
    rw [if_pos (by omega), if_neg h, show (4294901760 : Nat) = 2 ^ 16 * 65535 by norm_num, ho]
    push_cast
    omega

theorem formatDataForMemLoad_spec (ty : MemoryInstructionType) (w off addr : Nat)
    (hoff : GET_BYTE_INDEX off = addr % 4) :
    formatDataForMemLoad ty w off = loadedValue ty w addr := by
  have hb4 : addr % 4 < 4 := Nat.mod_lt _ (by norm_num)
  have m8 : shl32 1 8 - 1 = 255 := by decide
  have m16 : shl32 1 16 - 1 = 65535 := by decide
  have hh : (addr % 4 &&& not32 1) = addr % 4 / 2 * 2 := by
    rw [and_not32_one _ (by omega)]; omega
  cases ty with
  | WORD => rfl
  | UBYTE =>
    simp only [formatDataForMemLoad, loadedValue, hoff, BITS_PER_BYTE, m8, Nat.mul_comm]
  | UHALFWORD =>
    simp only [formatDataForMemLoad, loadedValue, hoff, BITS_PER_BYTE, BITS_PER_HALFWORD, m16, hh,
      Nat.mul_comm]
  | SBYTE =>
    simp only [formatDataForMemLoad, loadedValue, hoff, BITS_PER_BYTE, m8, Nat.mul_comm 8]
    exact sext_byte _ (by rw [and_mask8]; exact Nat.mod_lt _ (by norm_num))
  | SHALFWORD =>
    simp only [formatDataForMemLoad, loadedValue, hoff, BITS_PER_BYTE, BITS_PER_HALFWORD, m16, hh,
      Nat.mul_comm 8]
    exact sext_half _ (by rw [and_mask16]; exact Nat.mod_lt _ (by norm_num))


/-- C8: a single load of effective address `addr = (Rn + offset) mod 2^32`
issues its request in the tick that stages it; after the memory tick, the
LOAD_MEM_RESP tick writes to Rt the word `w` containing `addr` (LDR), its
addressed byte or halfword zero-extended (LDRB, LDRH) or sign-extended
(LDRSB, LDRSH), writes no other register and returns to NEXT_INST. -/
theorem C8_single_load_formats_word (s : Processor) (rt : Reg) (drn offset k : Nat)
    (ty : MemoryInstructionType)
    (hdrn : drn < 4294967296) (hrt : rt ≠ .PC)
    (hw : s.mem.memAccessWidthWords = 2 ^ k)
    (hp : 2 ≤ s.mem.pipelineSize) (hp32 : s.mem.pipelineSize < 4294967296)
    (hidx : s.mem.nextReqIndex < s.mem.pipelineSize)
    (havail : s.mem.isAvailable = true)
    (hin : (drn + offset) % 4294967296 / 4 < s.mem.memSizeWords) :
    ∃ s1, ldr s rt drn offset ty = .ok s1 ∧
      (ty = .WORD → ldr2 s rt drn offset = .ok (addInstruction s1 .LDR)) ∧
      (ty = .UBYTE → ldrb1 s rt drn offset = .ok (addInstruction s1 .LDRB) ∧
        ldrb2 s rt drn offset = .ok (addInstruction s1 .LDRB)) ∧
      (ty = .UHALFWORD → ldrh2 s rt drn offset = .ok (addInstruction s1 .LDRH)) ∧
      (ty = .SBYTE → ldrsb s rt drn offset = .ok (addInstruction s1 .LDRSB)) ∧
      (ty = .SHALFWORD → ldrsh s rt drn offset = .ok (addInstruction s1 .LDRSH)) ∧
      s1.execute.execState = .LOAD_MEM_RESP ∧ s1.regFile = s.regFile ∧
      ∃ m2, s1.mem.run = .ok m2 ∧ m2.mem = s.mem.mem ∧
        ∀ s2 : Processor, s2.mem = m2 → s2.execute = s1.execute →
          ∃ s3, executeLoadMemResp s2 = .ok s3 ∧
            s3.execute.execState = .NEXT_INST ∧
            s3.regFile.regs rt = loadedValue ty
              (s.mem.mem ((drn + offset) % 4294967296 / 4)) ((drn + offset) % 4294967296) ∧
            ∀ r, r ≠ rt → s3.regFile.regs r = s2.regFile.regs r := by
  obtain ⟨hea, hbi⟩ := effective_address drn offset hdrn
  have hlt : (drn + offset) % 4294967296 < 4294967296 := Nat.mod_lt _ (by norm_num)
  have hfree : (s.mem.pipeline s.mem.nextReqIndex).issuer = Component.NONE := by
    simpa [Memory.isAvailable] using havail
  obtain ⟨m1, hreq, m2, hrun, hmem, _, _, _, _, _, _, hret⟩ :=
    memory_load_served s.mem .EXECUTE ((drn + offset) % 4294967296) k hw hp hp32 hidx hfree
      (by decide) hlt hin
  have hldr : ldr s rt drn offset ty = .ok
      (setExecState { s with
        mem := m1
        execute := { s.execute with loadTmps := { s.execute.loadTmps with
          ptr := GET_WORD_ADDRESS drn
          byteOffset := add32 (GET_BYTE_INDEX drn) offset
          type := ty
          destReg := rt
          memToken := s.mem.nextToken } } } .LOAD_MEM_RESP) := by
    simp only [ldr, executeLoadMemReq, hea, havail, hreq, not_true_eq_false, if_false]
  refine ⟨_, hldr, ?_, ?_, ?_, ?_, ?_, rfl, rfl, m2, hrun, hmem, ?_⟩
  · intro h; subst h; simp only [ldr2, hldr, Except.map]
  · intro h; subst h; simp only [ldrb1, ldrb2, hldr, Except.map, and_self]
  · intro h; subst h; simp only [ldrh2, hldr, Except.map]
  · intro h; subst h; simp only [ldrsb, hldr, Except.map]
  · intro h; subst h; simp only [ldrsh, hldr, Except.map]
  · intro s2 hm he
    have hfmt := formatDataForMemLoad_spec ty (s.mem.mem ((drn + offset) % 4294967296 / 4))
      (add32 (GET_BYTE_INDEX drn) offset) ((drn + offset) % 4294967296) hbi
    simp only [executeLoadMemResp, hm, he, setExecState, hret, hfmt, if_neg hrt]
    refine ⟨_, rfl, rfl, ?_, ?_⟩
    · simp [writeReg, RegFile.write]
    · intro r hr
      simp [writeReg, RegFile.write, hr]

/-- Witness of C8: LDRB from byte address 5 of a memory whose word 1 is
`0x11223344`: the request is issued, the memory tick serves it and the
LOAD_MEM_RESP tick writes `0x33` to R0 and returns to NEXT_INST. -/
theorem C8_single_load_formats_word_witness :
    ∃ s1 m2 s3, ldr loadStart .R0 4 1 .UBYTE = .ok s1 ∧ s1.mem.run = .ok m2 ∧
      executeLoadMemResp { s1 with mem := m2 } = .ok s3 ∧
      s3.regFile.regs .R0 = 0x33 ∧ s3.execute.execState = .NEXT_INST := by
  obtain ⟨s1, h1, _, _, _, _, _, _, _, m2, hrun, _, hresp⟩ :=
    C8_single_load_formats_word loadStart .R0 4 1 0 .UBYTE (by norm_num) (by decide) (by decide)
      (by decide) (by decide) (by decide) (by decide) (by decide)
  obtain ⟨s3, h3, hs, hv, _⟩ := hresp { s1 with mem := m2 } rfl rfl
  exact ⟨s1, m2, s3, h1, hrun, h3, by rw [hv]; decide, hs⟩


/-! ## PUSH and POP: C7 -/

theorem ready_load (m : Memory) (a : Nat) (hr : m.Ready) (ha : a < 4294967296)
    (hin : a / 4 < m.memSizeWords) :
    ∃ m1, m.requestLoad .EXECUTE a = some (m.nextToken, m1) ∧ ∃ m2, m1.run = .ok m2 ∧
      m2.mem = m.mem ∧ m2.memSizeWords = m.memSizeWords ∧ m2.Ready ∧
      m2.retrieveLoad m.nextToken = some (m.mem (a / 4)) := by
  obtain ⟨⟨k, hk⟩, hp, hp32, hidx, hfree⟩ := hr
  obtain ⟨m1, h1, m2, h2, h3, h4, h5, h6, h7, h8, _, h9⟩ :=
    memory_load_served m .EXECUTE a k hk hp hp32 hidx hfree (by decide) ha hin
  exact ⟨m1, h1, m2, h2, h3, h4, ⟨⟨k, by rw [h5, hk]⟩, by rw [h6]; exact hp,
    by rw [h6]; exact hp32, h7, h8⟩, h9⟩

theorem ready_store (m : Memory) (a d : Nat) (hr : m.Ready) (ha : a < 4294967296)
    (hin : a / 4 < m.memSizeWords) :
    ∃ m1, m.requestStore .EXECUTE a d = some (m.nextToken, m1) ∧ ∃ m2, m1.run = .ok m2 ∧
      m2.mem = (fun w => if w = a / 4 then d else m.mem w) ∧
      m2.memSizeWords = m.memSizeWords ∧ m2.Ready ∧
      m2.retrieveStore m.nextToken = true := by
  obtain ⟨⟨k, hk⟩, hp, hp32, hidx, hfree⟩ := hr
  obtain ⟨m1, h1, m2, h2, h3, h4, h5, h6, h7, h8, h9⟩ :=
    memory_store_served m .EXECUTE a d hp hp32 hidx hfree (by decide) ha hin
  exact ⟨m1, h1, m2, h2, h3, h4, ⟨⟨k, by rw [h5, hk]⟩, by rw [h6]; exact hp,
    by rw [h6]; exact hp32, h7, h8⟩, h9⟩

/-- A memory tick with no request placed changes no word and frees the next
slot. -/
theorem ready_idle (m : Memory) (hr : m.Ready) :
    ∃ m2, m.run = .ok m2 ∧ m2.mem = m.mem ∧ m2.memSizeWords = m.memSizeWords ∧ m2.Ready := by
  obtain ⟨⟨k, hk⟩, hp, hp32, hidx, hfree⟩ := hr
  have hne := next_ne_self m.nextReqIndex m.pipelineSize hp hp32 hidx
  have hne' : m.nextReqIndex ≠ add32 m.nextReqIndex 1 % m.pipelineSize := fun e => hne e.symm
  have hmodlt : add32 m.nextReqIndex 1 % m.pipelineSize < m.pipelineSize :=
    Nat.mod_lt _ (by omega)
  simp only [Memory.run, Memory.setSlot, if_neg hne', hfree, if_true]
  refine ⟨_, rfl, rfl, rfl, ⟨k, hk⟩, hp, hp32, hmodlt, ?_⟩
  simp

theorem ready_available (m : Memory) (hr : m.Ready) : m.isAvailable = true := by
  simp [Memory.isAvailable, hr.2.2.2.2]


theorem add32_lt (a b : Nat) : add32 a b < 4294967296 := by
  unfold add32; omega

theorem runTicks_succ (n : Nat) (s s1 : Processor) (h : tickExecuteMemory s = .ok s1) :
    runTicks (n + 1) s = runTicks n s1 := by
  rw [runTicks, h]

/-- One tick in MULTIPLE_STORE_MEM_REQ with registers left: the next register
is stored to the word at `ptr + byteOffset`. -/
theorem tick_store_next (s : Processor) (r : Reg) (rest : List Reg)
    (hst : s.execute.execState = .MULTIPLE_STORE_MEM_REQ)
    (hl : s.execute.mstoreTmps.regList = r :: rest)
    (hin : add32 s.execute.mstoreTmps.ptr s.execute.mstoreTmps.byteOffset / 4 <
      s.mem.memSizeWords)
    (hret : s.mem.retrieveStore s.execute.mstoreTmps.memToken = true)
    (hr : s.mem.Ready) :
    ∃ s1, tickExecuteMemory s = .ok s1 ∧
      s1.execute.execState = .MULTIPLE_STORE_MEM_REQ ∧ s1.regFile = s.regFile ∧
      s1.execute.mstoreTmps.regList = rest ∧
      s1.execute.mstoreTmps.ptr = s.execute.mstoreTmps.ptr ∧
      s1.execute.mstoreTmps.byteOffset = add32 s.execute.mstoreTmps.byteOffset 4 ∧
      s1.mem.mem = (fun w =>
        if w = add32 s.execute.mstoreTmps.ptr s.execute.mstoreTmps.byteOffset / 4
        then s.regFile.regs r else s.mem.mem w) ∧
      s1.mem.memSizeWords = s.mem.memSizeWords ∧ s1.mem.Ready ∧
      s1.mem.retrieveStore s1.execute.mstoreTmps.memToken = true ∧
      s1.execute.decodedInst = s.execute.decodedInst ∧
      s1.execute.mloadTmps = s.execute.mloadTmps := by
  obtain ⟨m1, h1, m2, h2, h3, h4, h5, h6⟩ := ready_store s.mem
    (add32 s.execute.mstoreTmps.ptr s.execute.mstoreTmps.byteOffset) (s.regFile.regs r) hr
    (add32_lt _ _) hin
  simp only [tickExecuteMemory, Execute.run, hst, executeMultipleStoreMemReq, hret, hl,
    not_true_eq_false, if_false, List.length_cons, gt_iff_lt, Nat.zero_lt_succ, if_true,
    ready_available _ hr, requestNextStore, RegFile.readData, h1, setExecState,
    calculateExecCycles, h2]
  exact ⟨_, rfl, rfl, rfl, rfl, rfl, rfl, h3, h4, h5, h6, rfl, rfl⟩

/-- The last tick in MULTIPLE_STORE_MEM_REQ: no register left, back to
NEXT_INST. -/
theorem tick_store_done (s : Processor)
    (hst : s.execute.execState = .MULTIPLE_STORE_MEM_REQ)
    (hl : s.execute.mstoreTmps.regList = [])
    (hret : s.mem.retrieveStore s.execute.mstoreTmps.memToken = true)
    (hr : s.mem.Ready) :
    ∃ s1, tickExecuteMemory s = .ok s1 ∧
      s1.execute.execState = .NEXT_INST ∧ s1.regFile = s.regFile ∧
      s1.mem.mem = s.mem.mem ∧ s1.mem.memSizeWords = s.mem.memSizeWords ∧ s1.mem.Ready ∧
      s1.execute.decodedInst = s.execute.decodedInst ∧
      s1.execute.mloadTmps = s.execute.mloadTmps := by
  obtain ⟨m2, h2, h3, h4, h5⟩ := ready_idle s.mem hr
  simp only [tickExecuteMemory, Execute.run, hst, executeMultipleStoreMemReq, hret, hl,
    not_true_eq_false, if_false, List.length_nil, gt_iff_lt, Nat.lt_irrefl, setExecState,
    calculateExecCycles, h2]
  exact ⟨_, rfl, rfl, rfl, h3, h4, h5, rfl, rfl⟩

/-- The store loop of PUSH and STMIA: from MULTIPLE_STORE_MEM_REQ with the
previous store served, `rest.length + 1` ticks store the remaining registers
to consecutive words and end in NEXT_INST. -/
theorem store_loop (rest : List Reg) : ∀ (s : Processor),
    s.execute.execState = .MULTIPLE_STORE_MEM_REQ →
    s.execute.mstoreTmps.regList = rest →
    add32 s.execute.mstoreTmps.ptr s.execute.mstoreTmps.byteOffset + 4 * rest.length <
      4294967296 →
    add32 s.execute.mstoreTmps.ptr s.execute.mstoreTmps.byteOffset / 4 + rest.length ≤
      s.mem.memSizeWords →
    s.mem.retrieveStore s.execute.mstoreTmps.memToken = true →
    s.mem.Ready →
    ∃ s', runTicks (rest.length + 1) s = .ok s' ∧
      s'.execute.execState = .NEXT_INST ∧ s'.regFile = s.regFile ∧
      (∀ i, i < rest.length →
        s'.mem.mem (add32 s.execute.mstoreTmps.ptr s.execute.mstoreTmps.byteOffset / 4 + i) =
          s.regFile.regs (rest.getD i .RNONE)) ∧
      (∀ w, (w < add32 s.execute.mstoreTmps.ptr s.execute.mstoreTmps.byteOffset / 4 ∨
          add32 s.execute.mstoreTmps.ptr s.execute.mstoreTmps.byteOffset / 4 + rest.length ≤ w) →
        s'.mem.mem w = s.mem.mem w) ∧
      s'.mem.memSizeWords = s.mem.memSizeWords ∧ s'.mem.Ready ∧
      s'.execute.decodedInst = s.execute.decodedInst ∧
      s'.execute.mloadTmps = s.execute.mloadTmps := by
  induction rest with
  | nil =>
    intro s hst hl _ _ hret hr
    obtain ⟨s1, h1, h2, h3, h4, h5, h6, h7, h8⟩ := tick_store_done s hst hl hret hr
    refine ⟨s1, ?_, h2, h3, ?_, ?_, h5, h6, h7, h8⟩
    · rw [List.length_nil, runTicks_succ 0 s s1 h1]; rfl
    · intro i hi; simp at hi
    · intro w _; rw [h4]
  | cons r rest ih =>
    intro s hst hl hlt hin hret hr
    simp only [List.length_cons] at hlt hin
    obtain ⟨s1, h1, hst1, hrf1, hl1, hp1, hb1, hm1, hsz1, hr1, hret1, hdi1, hml1⟩ :=
      tick_store_next s r rest hst hl (by omega) hret hr
    have hbase : add32 s1.execute.mstoreTmps.ptr s1.execute.mstoreTmps.byteOffset =
        add32 s.execute.mstoreTmps.ptr s.execute.mstoreTmps.byteOffset + 4 := by
      rw [hp1, hb1]
      unfold add32 at *
      omega
    obtain ⟨s', hrun, hst', hrf, hmem, hframe, hsz, hrdy, hdi, hml⟩ := ih s1 hst1 hl1
      (by rw [hbase]; omega) (by rw [hbase, hsz1]; omega) hret1 hr1
    rw [hbase] at hmem hframe
    refine ⟨s', ?_, hst', by rw [hrf, hrf1], ?_, ?_, by rw [hsz, hsz1], hrdy,
      by rw [hdi, hdi1], by rw [hml, hml1]⟩
    · rw [List.length_cons, runTicks_succ _ s s1 h1, hrun]
    · intro i hi
      simp only [List.length_cons] at hi
      cases i with
      | zero =>
        rw [hframe _ (Or.inl (by omega)), hm1]
        simp only [Nat.add_zero, if_true, List.getD_cons_zero]
      | succ j =>
        have := hmem j (by omega)
        simp only [List.getD_cons_succ]
        rw [← hrf1, ← this]
        congr 1
        omega
    · intro w hw
      simp only [List.length_cons] at hw
      rw [hframe w (by omega), hm1]
      simp only
      rw [if_neg (by omega)]


/-- One tick in MULTIPLE_LOAD_MEM_REQ with registers left after this one: the
loaded word goes to the front register and the next word is requested. -/
theorem tick_load_next (s : Processor) (r r' : Reg) (rest : List Reg) (v : Nat)
    (hst : s.execute.execState = .MULTIPLE_LOAD_MEM_REQ)
    (hl : s.execute.mloadTmps.regList = r :: r' :: rest)
    (hpc : r ≠ .PC)
    (hin : add32 s.execute.mloadTmps.ptr s.execute.mloadTmps.byteOffset / 4 <
      s.mem.memSizeWords)
    (hret : s.mem.retrieveLoad s.execute.mloadTmps.memToken = some v)
    (hr : s.mem.Ready) :
    ∃ s1, tickExecuteMemory s = .ok s1 ∧
      s1.execute.execState = .MULTIPLE_LOAD_MEM_REQ ∧
      s1.regFile.regs = (fun x => if x = r then v else s.regFile.regs x) ∧
      s1.execute.mloadTmps.regList = r' :: rest ∧
      s1.execute.mloadTmps.ptr = s.execute.mloadTmps.ptr ∧
      s1.execute.mloadTmps.byteOffset = add32 s.execute.mloadTmps.byteOffset 4 ∧
      s1.mem.mem = s.mem.mem ∧
      s1.mem.memSizeWords = s.mem.memSizeWords ∧ s1.mem.Ready ∧
      s1.mem.retrieveLoad s1.execute.mloadTmps.memToken =
        some (s.mem.mem (add32 s.execute.mloadTmps.ptr s.execute.mloadTmps.byteOffset / 4)) := by
  obtain ⟨m1, h1, m2, h2, h3, h4, h5, h6⟩ := ready_load s.mem
    (add32 s.execute.mloadTmps.ptr s.execute.mloadTmps.byteOffset) hr (add32_lt _ _) hin
  simp only [tickExecuteMemory, Execute.run, hst, executeMultipleLoadMemReq, hret, hl,
    if_neg hpc, not_true_eq_false, if_false, List.length_cons, gt_iff_lt, Nat.zero_lt_succ,
    if_true, writeReg, ready_available _ hr, h1, setExecState, calculateExecCycles, h2]
  exact ⟨_, rfl, rfl, rfl, rfl, rfl, rfl, h3, h4, h5, h6⟩

/-- The last tick in MULTIPLE_LOAD_MEM_REQ: the loaded word goes to the last
register, back to NEXT_INST. -/
theorem tick_load_done (s : Processor) (r : Reg) (v : Nat)
    (hst : s.execute.execState = .MULTIPLE_LOAD_MEM_REQ)
    (hl : s.execute.mloadTmps.regList = [r])
    (hpc : r ≠ .PC)
    (hret : s.mem.retrieveLoad s.execute.mloadTmps.memToken = some v)
    (hr : s.mem.Ready) :
    ∃ s1, tickExecuteMemory s = .ok s1 ∧
      s1.execute.execState = .NEXT_INST ∧
      s1.regFile.regs = (fun x => if x = r then v else s.regFile.regs x) ∧
      s1.mem.mem = s.mem.mem ∧ s1.mem.memSizeWords = s.mem.memSizeWords ∧ s1.mem.Ready := by
  obtain ⟨m2, h2, h3, h4, h5⟩ := ready_idle s.mem hr
  simp only [tickExecuteMemory, Execute.run, hst, executeMultipleLoadMemReq, hret, hl,
    if_neg hpc, not_true_eq_false, if_false, List.length_nil, gt_iff_lt, Nat.lt_irrefl,
    writeReg, setExecState, calculateExecCycles, h2]
  exact ⟨_, rfl, rfl, rfl, h3, h4, h5⟩

/-- The load loop of POP and LDMIA: from MULTIPLE_LOAD_MEM_REQ with the word
for the front register retrievable, `rest.length + 1` ticks load the
registers from consecutive words and end in NEXT_INST. -/
theorem load_loop (rest : List Reg) : ∀ (r : Reg) (v : Nat) (s : Processor),
    s.execute.execState = .MULTIPLE_LOAD_MEM_REQ →
    s.execute.mloadTmps.regList = r :: rest →
    s.mem.retrieveLoad s.execute.mloadTmps.memToken = some v →
    add32 s.execute.mloadTmps.ptr s.execute.mloadTmps.byteOffset + 4 * rest.length <
      4294967296 →
    add32 s.execute.mloadTmps.ptr s.execute.mloadTmps.byteOffset / 4 + rest.length ≤
      s.mem.memSizeWords →
    (r :: rest).Nodup → (∀ x, x ∈ r :: rest → x ≠ .PC) →
    s.mem.Ready →
    ∃ s', runTicks (rest.length + 1) s = .ok s' ∧
      s'.execute.execState = .NEXT_INST ∧
      s'.regFile.regs r = v ∧
      (∀ i, i < rest.length → s'.regFile.regs (rest.getD i .RNONE) =
        s.mem.mem (add32 s.execute.mloadTmps.ptr s.execute.mloadTmps.byteOffset / 4 + i)) ∧
      (∀ x, x ∉ r :: rest → s'.regFile.regs x = s.regFile.regs x) ∧
      s'.mem.mem = s.mem.mem ∧ s'.mem.Ready := by
  induction rest with
  | nil =>
    intro r v s hst hl hret _ _ _ hpc hr
    obtain ⟨s1, h1, h2, h3, h4, _, h6⟩ :=
      tick_load_done s r v hst hl (hpc r (List.mem_cons_self _ _)) hret hr
    refine ⟨s1, ?_, h2, ?_, ?_, ?_, h4, h6⟩
    · rw [List.length_nil, runTicks_succ 0 s s1 h1]; rfl
    · rw [h3]; simp
    · intro i hi; simp at hi
    · intro x hx
      rw [h3]
      simp only [List.mem_singleton] at hx
      simp [hx]
  | cons r' rest ih =>
    intro r v s hst hl hret hlt hin hnd hpc hr
    simp only [List.length_cons] at hlt hin
    obtain ⟨s1, h1, hst1, hrf1, hl1, hp1, hb1, hm1, hsz1, hr1, hret1⟩ :=
      tick_load_next s r r' rest v hst hl (hpc r (List.mem_cons_self _ _)) (by omega) hret hr
    have hbase : add32 s1.execute.mloadTmps.ptr s1.execute.mloadTmps.byteOffset =
        add32 s.execute.mloadTmps.ptr s.execute.mloadTmps.byteOffset + 4 := by
      rw [hp1, hb1]
      unfold add32 at *
      omega
    have hnd' : (r' :: rest).Nodup := (List.nodup_cons.1 hnd).2
    have hr_notin : r ∉ r' :: rest := (List.nodup_cons.1 hnd).1
    obtain ⟨s', hrun, hst', hv', hregs, hframe, hmem, hrdy⟩ := ih r' _ s1 hst1 hl1 hret1
      (by rw [hbase]; omega) (by rw [hbase, hsz1]; omega) hnd'
      (fun x hx => hpc x (List.mem_cons_of_mem _ hx)) hr1
    rw [hbase] at hregs
    refine ⟨s', ?_, hst', ?_, ?_, ?_, by rw [hmem, hm1], hrdy⟩
    · rw [List.length_cons, runTicks_succ _ s s1 h1, hrun]
    · rw [hframe r hr_notin, hrf1]; simp
    · intro i hi
      simp only [List.length_cons] at hi
      cases i with
      | zero =>
        simp only [List.getD_cons_zero, Nat.add_zero]
        exact hv'
      | succ j =>
        have := hregs j (by omega)
        simp only [List.getD_cons_succ]
        rw [this, hm1]
        congr 1
        omega
    · intro x hx
      have hx' : x ∉ r' :: rest := fun h => hx (List.mem_cons_of_mem _ h)
      have hxr : x ≠ r := fun h => hx (h ▸ List.mem_cons_self _ _)
      rw [hframe x hx', hrf1]
      simp [hxr]


theorem fromNat_injective_lt (i j : Nat) (hi : i < 16) (hj : j < 16)
    (h : Reg.fromNat i = Reg.fromNat j) : i = j := by
  interval_cases i <;> interval_cases j <;> first | rfl | (exact absurd h (by decide))

theorem registerList_nodup (rl : Nat) : (registerList rl).Nodup := by
  unfold registerList
  apply List.Nodup.map_on
  · intro x hx y hy h
    rw [List.mem_filter, List.mem_range] at hx hy
    exact fromNat_injective_lt x y hx.1 hy.1 h
  · exact (List.nodup_range _).filter _

theorem registerList_low (rl : Nat) (hrl : rl < 256) (r : Reg) (hr : r ∈ registerList rl) :
    ∃ i, i < 8 ∧ r = Reg.fromNat i := by
  unfold registerList at hr
  rw [List.mem_map] at hr
  obtain ⟨i, hi, rfl⟩ := hr
  rw [List.mem_filter, List.mem_range] at hi
  refine ⟨i, ?_, rfl⟩
  by_contra hcon
  have h8 : 8 ≤ i := by omega
  have hz : GET_BIT_AT_POS rl i = 0 := by
    rw [getBit_eq]
    have : rl < 2 ^ i := lt_of_lt_of_le (by simpa using hrl) (Nat.pow_le_pow_right (by norm_num) h8)
    rw [Nat.div_eq_of_lt this]
  simp [hz] at hi

theorem registerList_ne (rl : Nat) (hrl : rl < 256) (r : Reg) (hr : r ∈ registerList rl) :
    r ≠ .PC ∧ r ≠ .MSP ∧ r ≠ .PSP := by
  obtain ⟨i, hi, rfl⟩ := registerList_low rl hrl r hr
  interval_cases i <;> decide

theorem registerList_ne_nil (rl : Nat) (h0 : 0 < rl) (hrl : rl < 256) : registerList rl ≠ [] := by
  have hex : ∃ i, i < 8 ∧ rl / 2 ^ i % 2 ≠ 0 := by
    by_contra hcon
    push_neg at hcon
    have b0 := hcon 0 (by norm_num)
    have b1 := hcon 1 (by norm_num)
    have b2 := hcon 2 (by norm_num)
    have b3 := hcon 3 (by norm_num)
    have b4 := hcon 4 (by norm_num)
    have b5 := hcon 5 (by norm_num)
    have b6 := hcon 6 (by norm_num)
    have b7 := hcon 7 (by norm_num)
    norm_num at b0 b1 b2 b3 b4 b5 b6 b7
    omega
  obtain ⟨i, hi, hb⟩ := hex
  intro hnil
  have hmem : Reg.fromNat i ∈ registerList rl := by
    unfold registerList
    rw [List.mem_map]
    refine ⟨i, ?_, rfl⟩
    rw [List.mem_filter, List.mem_range]
    refine ⟨by unfold REGFILE_CORE_REGS_COUNT; omega, ?_⟩
    simpa [getBit_eq] using hb
  rw [hnil] at hmem
  simp at hmem

theorem populateRegisterList_eq (rl : Nat) (h : registerList rl ≠ []) :
    populateRegisterList [] rl = .ok (registerList rl) := by
  unfold registerList at h
  simp only [populateRegisterList, ne_eq, not_true_eq_false, if_false, h, registerList]


theorem executeInst_push (s : Processor) (inst : DecodedInst) (h : inst.op = .PUSH) :
    executeInst s inst = push s (inst.regsNumber .RN) (inst.regsData .RN) inst.regList := by
  simp only [executeInst, DecodedInst.getOperation, h, DecodedInst.getRegisterNumber,
    DecodedInst.getRegisterData, DecodedInst.getRegisterList]

theorem executeInst_pop (s : Processor) (inst : DecodedInst) (h : inst.op = .POP) :
    executeInst s inst = popLdmia s (inst.regsNumber .RN) (inst.regsData .RN) inst.regList := by
  simp only [executeInst, DecodedInst.getOperation, h, DecodedInst.getRegisterNumber,
    DecodedInst.getRegisterData, DecodedInst.getRegisterList]

theorem push_base (sp0 n : Nat) (h32 : sp0 < 4294967296) (hlo : 4 * n ≤ sp0) :
    add32 sp0 (sub32 0 (WORD_TO_BYTE_SIZE n)) = sp0 - 4 * n := by
  unfold add32 sub32 WORD_TO_BYTE_SIZE BYTES_PER_WORD
  omega

/-- The first tick of PUSH: the base register drops by four bytes per listed
register and the first register is stored at the new base. -/
theorem tick_push_first (s : Processor) (inst : DecodedInst) (sp r : Reg) (rest : List Reg)
    (hst : s.execute.execState = .NEXT_INST) (hnone : s.execute.decodedInst = none)
    (hl : s.execute.mstoreTmps.regList = [])
    (hdec : s.decode.decodedInst = some inst) (hhalf : s.decode.decodedHalfInst = false)
    (hop : inst.op = .PUSH) (hrn : inst.regsNumber .RN = sp)
    (hlist : registerList inst.regList = r :: rest) (hne : r ≠ sp)
    (h32 : inst.regsData .RN < 4294967296)
    (hlo : 4 * (rest.length + 1) ≤ inst.regsData .RN)
    (hin : (inst.regsData .RN - 4 * (rest.length + 1)) / 4 < s.mem.memSizeWords)
    (hr : s.mem.Ready) :
    ∃ s1, tickExecuteMemory s = .ok s1 ∧
      s1.execute.execState = .MULTIPLE_STORE_MEM_REQ ∧
      s1.regFile.regs sp = inst.regsData .RN - 4 * (rest.length + 1) ∧
      (∀ x, x ≠ sp → s1.regFile.regs x = s.regFile.regs x) ∧
      s1.execute.mstoreTmps.regList = rest ∧
      add32 s1.execute.mstoreTmps.ptr s1.execute.mstoreTmps.byteOffset =
        inst.regsData .RN - 4 * (rest.length + 1) + 4 ∧
      s1.mem.mem = (fun w =>
        if w = (inst.regsData .RN - 4 * (rest.length + 1)) / 4
        then s.regFile.regs r else s.mem.mem w) ∧
      s1.mem.memSizeWords = s.mem.memSizeWords ∧ s1.mem.Ready ∧
      s1.mem.retrieveStore s1.execute.mstoreTmps.memToken = true ∧
      s1.execute.decodedInst = none ∧ s1.execute.mloadTmps = s.execute.mloadTmps := by
  obtain ⟨m1, h1, m2, h2, h3, h4, h5, h6⟩ := ready_store s.mem
    (inst.regsData .RN - 4 * (rest.length + 1)) (s.regFile.regs r) hr (by omega) hin
  have hpop : populateRegisterList [] inst.regList = .ok (r :: rest) := by
    rw [← hlist]; exact populateRegisterList_eq _ (by rw [hlist]; simp)
  have hb := push_base (inst.regsData .RN) (rest.length + 1) h32 hlo
  have hsome : (some inst).isNone = false := rfl
  simp only [tickExecuteMemory, Execute.run, hst, executeNextInst, hnone, Option.isSome_none,
    Bool.false_eq_true, if_false, Decode.getNextInst, hdec, hhalf, hsome, or_self,
    executeInst_push _ _ hop, push, hl, hpop, hrn, executeMultipleStoreFirstMemReq,
    ready_available _ hr, not_true_eq_false, List.length_cons, writeReg, requestNextStore,
    RegFile.readData, RegFile.write, hne, hb, h1, setExecState, Except.map, addInstruction,
    calculateExecCycles, h2, reduceCtorEq, if_true]
  refine ⟨_, rfl, rfl, ?_, ?_, rfl, ?_, h3, h4, h5, h6, rfl, rfl⟩
  · simp
  · intro x hx; simp [hx]
  · simp only []
    unfold add32 sub32 WORD_TO_BYTE_SIZE BYTES_PER_WORD
    omega


/-- The first tick of POP: the base register rises by four bytes per listed
register and the word at the old base is requested and served. -/
theorem tick_pop_first (s : Processor) (inst : DecodedInst) (sp r : Reg) (rest : List Reg)
    (hst : s.execute.execState = .NEXT_INST) (hnone : s.execute.decodedInst = none)
    (hl : s.execute.mloadTmps.regList = [])
    (hdec : s.decode.decodedInst = some inst) (hhalf : s.decode.decodedHalfInst = false)
    (hop : inst.op = .POP) (hrn : inst.regsNumber .RN = sp)
    (hlist : registerList inst.regList = r :: rest)
    (h32 : inst.regsData .RN + 4 * (rest.length + 1) < 4294967296)
    (hin : inst.regsData .RN / 4 < s.mem.memSizeWords)
    (hr : s.mem.Ready) :
    ∃ s1, tickExecuteMemory s = .ok s1 ∧
      s1.execute.execState = .MULTIPLE_LOAD_MEM_REQ ∧
      s1.regFile.regs sp = inst.regsData .RN + 4 * (rest.length + 1) ∧
      (∀ x, x ≠ sp → s1.regFile.regs x = s.regFile.regs x) ∧
      s1.execute.mloadTmps.regList = r :: rest ∧
      add32 s1.execute.mloadTmps.ptr s1.execute.mloadTmps.byteOffset =
        inst.regsData .RN + 4 ∧
      s1.mem.retrieveLoad s1.execute.mloadTmps.memToken =
        some (s.mem.mem (inst.regsData .RN / 4)) ∧
      s1.mem.mem = s.mem.mem ∧
      s1.mem.memSizeWords = s.mem.memSizeWords ∧ s1.mem.Ready := by
  have hb0 : add32 (inst.regsData .RN) 0 = inst.regsData .RN := by
    unfold add32; omega
  obtain ⟨m1, h1, m2, h2, h3, h4, h5, h6⟩ := ready_load s.mem
    (inst.regsData .RN) hr (by omega) hin
  have hpop : populateRegisterList [] inst.regList = .ok (r :: rest) := by
    rw [← hlist]; exact populateRegisterList_eq _ (by rw [hlist]; simp)
  have hsome : (some inst).isNone = false := rfl
  simp only [tickExecuteMemory, Execute.run, hst, executeNextInst, hnone, Option.isSome_none,
    Bool.false_eq_true, if_false, Decode.getNextInst, hdec, hhalf, hsome, or_self,
    executeInst_pop _ _ hop, popLdmia, hl, hpop, hrn, executeMultipleLoadFirstMemReq,
    ready_available _ hr, not_true_eq_false, List.length_cons, writeReg,
    RegFile.write, hb0, h1, setExecState, Except.map, addInstruction,
    calculateExecCycles, h2, reduceCtorEq, if_true]
  refine ⟨_, rfl, rfl, ?_, ?_, rfl, ?_, h6, h3, h4, h5⟩
  · simp only [if_true]
    unfold add32 WORD_TO_BYTE_SIZE BYTES_PER_WORD
    omega
  · intro x hx; simp [hx]
  · simp only []
    unfold add32 BYTES_PER_WORD
    omega


/-- PUSH run to completion: one tick per listed register and one more; the
base register drops by four bytes per register and the registers lie in
ascending order in the words from the new base upwards. -/
theorem push_completes (s : Processor) (inst : DecodedInst) (sp r : Reg) (rest : List Reg)
    (hst : s.execute.execState = .NEXT_INST) (hnone : s.execute.decodedInst = none)
    (hl : s.execute.mstoreTmps.regList = [])
    (hdec : s.decode.decodedInst = some inst) (hhalf : s.decode.decodedHalfInst = false)
    (hop : inst.op = .PUSH) (hrn : inst.regsNumber .RN = sp)
    (hlist : registerList inst.regList = r :: rest) (hne : ∀ x, x ∈ r :: rest → x ≠ sp)
    (h32 : inst.regsData .RN < 4294967296)
    (hlo : 4 * (rest.length + 1) ≤ inst.regsData .RN)
    (hhi : inst.regsData .RN ≤ 4 * s.mem.memSizeWords)
    (hr : s.mem.Ready) :
    ∃ s1, runTicks (rest.length + 2) s = .ok s1 ∧
      s1.execute.execState = .NEXT_INST ∧
      s1.regFile.regs sp = inst.regsData .RN - 4 * (rest.length + 1) ∧
      (∀ x, x ≠ sp → s1.regFile.regs x = s.regFile.regs x) ∧
      s1.mem.mem ((inst.regsData .RN - 4 * (rest.length + 1)) / 4) = s.regFile.regs r ∧
      (∀ i, i < rest.length →
        s1.mem.mem ((inst.regsData .RN - 4 * (rest.length + 1)) / 4 + 1 + i) =
          s.regFile.regs (rest.getD i .RNONE)) ∧
      (∀ w, (w < (inst.regsData .RN - 4 * (rest.length + 1)) / 4 ∨
          (inst.regsData .RN - 4 * (rest.length + 1)) / 4 + (rest.length + 1) ≤ w) →
        s1.mem.mem w = s.mem.mem w) ∧
      s1.mem.memSizeWords = s.mem.memSizeWords ∧ s1.mem.Ready ∧
      s1.execute.decodedInst = none ∧ s1.execute.mloadTmps = s.execute.mloadTmps := by
  obtain ⟨s1, ht, hst1, hsp1, hfr1, hl1, hb1, hm1, hsz1, hr1, hret1, hdi1, hml1⟩ :=
    tick_push_first s inst sp r rest hst hnone hl hdec hhalf hop hrn hlist
      (hne r (List.mem_cons_self _ _)) h32 hlo (by omega) hr
  have hq : (inst.regsData .RN - 4 * (rest.length + 1) + 4) / 4 =
      (inst.regsData .RN - 4 * (rest.length + 1)) / 4 + 1 := by omega
  obtain ⟨s', hrun, hst', hrf, hmem, hframe, hsz, hrdy, hdi, hml⟩ := store_loop rest s1 hst1 hl1
    (by rw [hb1]; omega) (by rw [hb1, hsz1]; omega) hret1 hr1
  rw [hb1, hq] at hmem hframe
  refine ⟨s', ?_, hst', ?_, ?_, ?_, ?_, ?_, by rw [hsz, hsz1], hrdy, by rw [hdi, hdi1],
    by rw [hml, hml1]⟩
  · rw [runTicks_succ _ s s1 ht]; exact hrun
  · rw [hrf]; exact hsp1
  · intro x hx; rw [hrf]; exact hfr1 x hx
  · rw [hframe _ (Or.inl (by omega)), hm1]; simp
  · intro i hi
    rw [hmem i hi]
    refine hfr1 _ (hne _ (List.mem_cons_of_mem _ ?_))
    rw [List.getD_eq_getElem _ _ hi]
    exact List.getElem_mem _
  · intro w hw
    rw [hframe w (by omega), hm1]
    have : w ≠ (inst.regsData .RN - 4 * (rest.length + 1)) / 4 := by omega
    simp [this]

/-- POP (without PC in the list) run to completion: one tick per listed
register and one more; the base register rises by four bytes per register
and the registers are loaded in ascending order from the words at the old
base upwards. -/
theorem pop_completes (s : Processor) (inst : DecodedInst) (sp r : Reg) (rest : List Reg)
    (hst : s.execute.execState = .NEXT_INST) (hnone : s.execute.decodedInst = none)
    (hl : s.execute.mloadTmps.regList = [])
    (hdec : s.decode.decodedInst = some inst) (hhalf : s.decode.decodedHalfInst = false)
    (hop : inst.op = .POP) (hrn : inst.regsNumber .RN = sp)
    (hlist : registerList inst.regList = r :: rest)
    (hne : ∀ x, x ∈ r :: rest → x ≠ sp) (hpc : ∀ x, x ∈ r :: rest → x ≠ .PC)
    (h32 : inst.regsData .RN + 4 * (rest.length + 1) < 4294967296)
    (hhi : inst.regsData .RN / 4 + (rest.length + 1) ≤ s.mem.memSizeWords)
    (hr : s.mem.Ready) :
    ∃ s1, runTicks (rest.length + 2) s = .ok s1 ∧
      s1.execute.execState = .NEXT_INST ∧
      s1.regFile.regs sp = inst.regsData .RN + 4 * (rest.length + 1) ∧
      s1.regFile.regs r = s.mem.mem (inst.regsData .RN / 4) ∧
      (∀ i, i < rest.length →
        s1.regFile.regs (rest.getD i .RNONE) = s.mem.mem (inst.regsData .RN / 4 + 1 + i)) ∧
      (∀ x, x ∉ r :: rest → x ≠ sp → s1.regFile.regs x = s.regFile.regs x) ∧
      s1.mem.mem = s.mem.mem ∧ s1.mem.Ready := by
  obtain ⟨s1, ht, hst1, hsp1, hfr1, hl1, hb1, hret1, hm1, hsz1, hr1⟩ :=
    tick_pop_first s inst sp r rest hst hnone hl hdec hhalf hop hrn hlist h32 (by omega) hr
  have hq : (inst.regsData .RN + 4) / 4 = inst.regsData .RN / 4 + 1 := by omega
  have hnd : (r :: rest).Nodup := by rw [← hlist]; exact registerList_nodup _
  obtain ⟨s', hrun, hst', hr0, hregs, hframe, hmem, hrdy⟩ := load_loop rest r _ s1 hst1 hl1 hret1
    (by rw [hb1]; omega) (by rw [hb1, hsz1]; omega) hnd hpc hr1
  rw [hb1, hq, hm1] at hregs
  refine ⟨s', ?_, hst', ?_, hr0, hregs, ?_, by rw [hmem, hm1], hrdy⟩
  · rw [runTicks_succ _ s s1 ht]; exact hrun
  · rw [hframe sp (fun h => hne sp h rfl)]; exact hsp1
  · intro x hx hxs; rw [hframe x hx]; exact hfr1 x hxs


theorem getActiveSp_stack (rf : RegFile) : rf.getActiveSp = .MSP ∨ rf.getActiveSp = .PSP := by
  unfold RegFile.getActiveSp
  split_ifs
  · exact Or.inl rfl
  · exact Or.inr rfl

/-- C7: with `PUSH L` decoded (L a non-empty list of low registers, bitmap
`rl`) and the words between SP - 4|L| and SP inside memory, |L| + 1 ticks
complete the PUSH: SP has dropped by 4|L| and no other register changed.
From every idle state that decodes `POP L`, has the same stack active, the SP
the PUSH left and the pushed words untouched (every other register
arbitrary), |L| + 1 ticks complete the POP: every register of L holds the
value it had before the PUSH, SP holds its value before the PUSH and the
registers outside L and SP are those the POP started with. -/
theorem C7_push_pop_round_trip (s0 : Processor) (rl : Nat)
    (hrl0 : 0 < rl) (hrl : rl < 256)
    (hst : s0.execute.execState = .NEXT_INST) (hnone : s0.execute.decodedInst = none)
    (hl : s0.execute.mstoreTmps.regList = [])
    (hdec : s0.decode.decodedInst = some (decodedStackInst .PUSH s0.regFile rl))
    (hhalf : s0.decode.decodedHalfInst = false)
    (h32 : s0.regFile.regs s0.regFile.getActiveSp < 4294967296)
    (hlo : 4 * (registerList rl).length ≤ s0.regFile.regs s0.regFile.getActiveSp)
    (hhi : s0.regFile.regs s0.regFile.getActiveSp ≤ 4 * s0.mem.memSizeWords)
    (hr : s0.mem.Ready) :
    ∃ s1, runTicks ((registerList rl).length + 1) s0 = .ok s1 ∧
      s1.execute.execState = .NEXT_INST ∧ s1.execute.decodedInst = none ∧
      s1.execute.mloadTmps = s0.execute.mloadTmps ∧
      s1.regFile.regs s0.regFile.getActiveSp =
        s0.regFile.regs s0.regFile.getActiveSp - 4 * (registerList rl).length ∧
      (∀ x, x ≠ s0.regFile.getActiveSp → s1.regFile.regs x = s0.regFile.regs x) ∧
      s1.mem.memSizeWords = s0.mem.memSizeWords ∧ s1.mem.Ready ∧
      ∀ s2 : Processor,
        s2.execute.execState = .NEXT_INST → s2.execute.decodedInst = none →
        s2.execute.mloadTmps.regList = [] →
        s2.decode.decodedInst = some (decodedStackInst .POP s2.regFile rl) →
        s2.decode.decodedHalfInst = false →
        s2.regFile.getActiveSp = s0.regFile.getActiveSp →
        s2.regFile.regs s0.regFile.getActiveSp = s1.regFile.regs s0.regFile.getActiveSp →
        (∀ i, i < (registerList rl).length →
          s2.mem.mem (s1.regFile.regs s0.regFile.getActiveSp / 4 + i) =
            s1.mem.mem (s1.regFile.regs s0.regFile.getActiveSp / 4 + i)) →
        s2.mem.memSizeWords = s1.mem.memSizeWords → s2.mem.Ready →
        ∃ s3, runTicks ((registerList rl).length + 1) s2 = .ok s3 ∧
          s3.execute.execState = .NEXT_INST ∧
          (∀ r, r ∈ registerList rl → s3.regFile.regs r = s0.regFile.regs r) ∧
          s3.regFile.regs s0.regFile.getActiveSp = s0.regFile.regs s0.regFile.getActiveSp ∧
          ∀ x, x ∉ registerList rl → x ≠ s0.regFile.getActiveSp →
            s3.regFile.regs x = s2.regFile.regs x := by
  have hnil := registerList_ne_nil rl hrl0 hrl
  have hlow := registerList_ne rl hrl
  generalize hsp : s0.regFile.getActiveSp = sp at *
  have hspc : sp = .MSP ∨ sp = .PSP := by rw [← hsp]; exact getActiveSp_stack _
  cases hL : registerList rl with
  | nil => exact absurd hL hnil
  | cons r rest =>
    rw [hL] at hlo hlow
    simp only [List.length_cons] at hlo ⊢
    have hne : ∀ x, x ∈ r :: rest → x ≠ sp := by
      intro x hx hxs
      obtain ⟨_, h2, h3⟩ := hlow x hx
      rcases hspc with h | h
      · exact h2 (by rw [hxs, h])
      · exact h3 (by rw [hxs, h])
    have hpc : ∀ x, x ∈ r :: rest → x ≠ .PC := fun x hx => (hlow x hx).1
    have hd0 : (decodedStackInst .PUSH s0.regFile rl).regsData .RN = s0.regFile.regs sp := by
      simp [decodedStackInst, DecodedInst.setRegisterList, DecodedInst.setRegister,
        RegFile.readData, hsp]
    obtain ⟨s1, hrun1, hst1, hsp1, hfr1, hw0, hws, _, hsz1, hr1, hdi1, hml1⟩ :=
      push_completes s0 (decodedStackInst .PUSH s0.regFile rl) sp r rest hst hnone hl hdec hhalf
        rfl (by simp [decodedStackInst, DecodedInst.setRegisterList, DecodedInst.setRegister, hsp])
        hL hne (by rw [hd0]; exact h32) (by rw [hd0]; exact hlo) (by rw [hd0]; exact hhi) hr
    rw [hd0] at hsp1 hw0 hws
    refine ⟨s1, hrun1, hst1, hdi1, hml1, hsp1, hfr1, hsz1, hr1, ?_⟩
    intro s2 hst2 hnone2 hl2 hdec2 hhalf2 hsp2 hspv hwords hsz2 hr2
    have hd2 : (decodedStackInst .POP s2.regFile rl).regsData .RN =
        s0.regFile.regs sp - 4 * (rest.length + 1) := by
      simp [decodedStackInst, DecodedInst.setRegisterList, DecodedInst.setRegister,
        RegFile.readData, hsp2, hspv, hsp1]
    rw [hsp1] at hwords
    obtain ⟨s3, hrun3, hst3, hsp3, hr0, hrs, hfr3, _, _⟩ :=
      pop_completes s2 (decodedStackInst .POP s2.regFile rl) sp r rest hst2 hnone2 hl2 hdec2
        hhalf2 rfl
        (by simp [decodedStackInst, DecodedInst.setRegisterList, DecodedInst.setRegister, hsp2])
        hL hne hpc (by rw [hd2]; omega) (by rw [hd2, hsz2, hsz1]; omega) hr2
    rw [hd2] at hsp3 hr0 hrs
    refine ⟨s3, hrun3, hst3, ?_, by rw [hsp3]; omega, hfr3⟩
    intro x hx
    rcases List.mem_cons.mp hx with h | h
    · rw [h, hr0, ← hw0]
      have := hwords 0 (by omega)
      simpa using this
    · obtain ⟨i, hi, rfl⟩ := List.getElem_of_mem h
      have e := hrs i hi
      rw [List.getD_eq_getElem _ _ hi] at e
      rw [e]
      have e2 := hws i hi
      rw [List.getD_eq_getElem _ _ hi] at e2
      rw [← e2]
      have := hwords (1 + i) (by omega)
      rw [← Nat.add_assoc] at this
      exact this


/-- Witness of C7: `PUSH {R0-R3}` with R0..R3 = 1, 2, 3, 4 and SP = 64, the
four registers zeroed, then `POP {R0-R3}`: the registers hold 1, 2, 3, 4
again and SP is 64. -/
theorem C7_push_pop_round_trip_witness :
    ∃ s1, runTicks 5 pushPopStart = .ok s1 ∧
      ∃ s3, runTicks 5 (zeroLowFour s1) = .ok s3 ∧
        s3.regFile.regs .R0 = 1 ∧ s3.regFile.regs .R1 = 2 ∧ s3.regFile.regs .R2 = 3 ∧
        s3.regFile.regs .R3 = 4 ∧ s3.regFile.regs .MSP = 64 := by
  have hact : pushPopStart.regFile.getActiveSp = .MSP := by decide
  have hlen : (registerList 15).length + 1 = 5 := by decide
  obtain ⟨s1, h1, hst1, hdi1, hml1, hsp1, hfr1, hsz1, hr1, hpop⟩ :=
    C7_push_pop_round_trip pushPopStart 15 (by decide) (by decide) rfl rfl rfl rfl rfl
      (by decide) (by decide) (by decide) ⟨⟨0, rfl⟩, by decide, by decide, by decide, by decide⟩
  rw [hact] at hsp1 hfr1 hpop
  have hc : (zeroLowFour s1).regFile.regs .CONTROL = pushPopStart.regFile.regs .CONTROL :=
    hfr1 .CONTROL (by decide)
  obtain ⟨s3, h3, _, hregs, hsp3, _⟩ := hpop (zeroLowFour s1) hst1 hdi1
    (by rw [show (zeroLowFour s1).execute = s1.execute from rfl, hml1]; rfl) rfl rfl
    (by
      simp only [RegFile.getActiveSp, RegFile.getControlS, RegFile.getControlBit,
        RegFile.readData, hc]
      decide)
    rfl (fun i _ => rfl) rfl hr1
  rw [hlen] at h1 h3
  refine ⟨s1, h1, s3, h3, ?_, ?_, ?_, ?_, hsp3⟩
  · exact hregs .R0 (by decide)
  · exact hregs .R1 (by decide)
  · exact hregs .R2 (by decide)
  · exact hregs .R3 (by decide)


/-- A bit of the mask is a bit on which a masked comparison pins the value. -/
theorem and_eq_testBit (h m v i : Nat) (e : h &&& m = v) (hm : m.testBit i = true) :
    h.testBit i = v.testBit i := by
  have := congrArg (fun x => x.testBit i) e
  simpa [Nat.testBit_and, hm] using this

/-- Two masked comparisons that disagree on a bit common to both masks exclude
each other. -/
theorem pattern_excludes (h m1 v1 m2 v2 i : Nat) (e : h &&& m1 = v1)
    (h1 : m1.testBit i = true) (h2 : m2.testBit i = true)
    (hd : v1.testBit i ≠ v2.testBit i) : h &&& m2 ≠ v2 := by
  intro e2
  have a := and_eq_testBit h m1 v1 i e h1
  have b := and_eq_testBit h m2 v2 i e2 h2
  exact hd (a.symm.trans b)

/-- The first halfword of BL matches none of the patterns that precede it in
the decoder and is decoded as the first half of BL. -/
theorem decodeFromAdc_bl (inst pc : Nat) (activeSp : Reg) (rf : RegFile) (d : DecodedInst)
    (h : inst &&& 0xF800 = 0xF000) :
    Decode.decodeFromAdc inst pc activeSp rf d = .ok
      (((d.setOperation .BL).setRegister .RDN .PC pc).setImmediate
        (shl32 ((inst >>> 0) &&& 0x3FF) 12 ||| shl32 ((inst >>> 10) &&& 0x1) 24), true) := by
  have p1 : inst &&& 0xFFC0 ≠ 0x4140 := pattern_excludes inst _ _ _ _ 15 h (by decide) (by decide) (by decide)
  have p2 : inst &&& 0xFE00 ≠ 0x1C00 := pattern_excludes inst _ _ _ _ 15 h (by decide) (by decide) (by decide)
  have p3 : inst &&& 0xF800 ≠ 0x3000 := pattern_excludes inst _ _ _ _ 15 h (by decide) (by decide) (by decide)
  have p4 : inst &&& 0xFE00 ≠ 0x1800 := pattern_excludes inst _ _ _ _ 15 h (by decide) (by decide) (by decide)
  have p5 : inst &&& 0xFF00 ≠ 0x4400 := pattern_excludes inst _ _ _ _ 15 h (by decide) (by decide) (by decide)
  have p6 : inst &&& 0xF800 ≠ 0xA000 := pattern_excludes inst _ _ _ _ 14 h (by decide) (by decide) (by decide)
  have p7 : inst &&& 0xF800 ≠ 0xA800 := pattern_excludes inst _ _ _ _ 14 h (by decide) (by decide) (by decide)
  have p8 : inst &&& 0xFF80 ≠ 0xB000 := pattern_excludes inst _ _ _ _ 14 h (by decide) (by decide) (by decide)
  have p9 : inst &&& 0xFFC0 ≠ 0x4000 := pattern_excludes inst _ _ _ _ 15 h (by decide) (by decide) (by decide)
  have p10 : inst &&& 0xF800 ≠ 0x1000 := pattern_excludes inst _ _ _ _ 15 h (by decide) (by decide) (by decide)
  have p11 : inst &&& 0xFFC0 ≠ 0x4100 := pattern_excludes inst _ _ _ _ 15 h (by decide) (by decide) (by decide)
  have p12 : inst &&& 0xF000 ≠ 0xD000 := pattern_excludes inst _ _ _ _ 13 h (by decide) (by decide) (by decide)
  have p13 : inst &&& 0xF800 ≠ 0xE000 := pattern_excludes inst _ _ _ _ 12 h (by decide) (by decide) (by decide)
  have p14 : inst &&& 0xFFC0 ≠ 0x4380 := pattern_excludes inst _ _ _ _ 15 h (by decide) (by decide) (by decide)
  have p15 : inst &&& 0xFF00 ≠ 0xBE00 := pattern_excludes inst _ _ _ _ 14 h (by decide) (by decide) (by decide)
  have e1 : Decode.decodeFromAdc inst pc activeSp rf d = Decode.decodeFromB2 inst pc activeSp rf d := by
    unfold Decode.decodeFromAdc
    simp only [p1, p2, p3, p4, p5, p6, p7, p8, p9, p10, p11, p12, if_false]
  rw [e1]
  unfold Decode.decodeFromB2
  simp only [p13, p14, p15, h, if_false, if_true]
  rfl


/-- Value `~(j ^ s) & 1` of two bits: 1 iff they are equal. -/
theorem not_xor_bit (j s : Nat) (hj : j < 2) (hs : s < 2) :
    not32 (j ^^^ s) &&& 1 = if j = s then 1 else 0 := by
  interval_cases j <;> interval_cases s <;> decide

/-- The immediate staged by the first halfword of BL: `imm10` at bits 12..21
and `S` at bit 24. -/
theorem bl_first_immediate (h1 : Nat) :
    shl32 ((h1 >>> 0) &&& 0x3FF) 12 ||| shl32 ((h1 >>> 10) &&& 0x1) 24 =
      2 ^ 24 * (h1 / 2 ^ 10 % 2) + 2 ^ 12 * (h1 % 2 ^ 10) := by
  have e1 : (h1 >>> 0) &&& 0x3FF = h1 % 2 ^ 10 := by
    rw [Nat.shiftRight_zero]; exact Nat.and_pow_two_sub_one_eq_mod h1 10
  have e2 : (h1 >>> 10) &&& 0x1 = h1 / 2 ^ 10 % 2 := by
    rw [Nat.and_one_is_mod, Nat.shiftRight_eq_div_pow]
  rw [e1, e2, shl32_eq, shl32_eq]
  have ha : h1 % 2 ^ 10 < 1024 := Nat.mod_lt _ (by norm_num)
  have hs : h1 / 2 ^ 10 % 2 < 2 := Nat.mod_lt _ (by norm_num)
  generalize h1 % 2 ^ 10 = a at ha ⊢
  generalize h1 / 2 ^ 10 % 2 = s at hs ⊢
  have m1 : a * 2 ^ 12 % 4294967296 = 2 ^ 12 * a := by omega
  have m2 : s * 2 ^ 24 % 4294967296 = 2 ^ 24 * s := by omega
  rw [m1, m2, Nat.or_comm]
  exact (Nat.mul_add_lt_is_or (by omega) s).symm

/-- Fields at disjoint bit positions: the bitwise Or of the BL fields is their
sum. -/
theorem bl_or_sum (s i1 i2 a b : Nat) (h1 : i1 < 2) (h2 : i2 < 2)
    (ha : a < 1024) (hb : b < 2048) :
    (2 ^ 24 * s + 2 ^ 12 * a) ||| (shl32 i1 23 ||| shl32 i2 22 ||| shl32 b 1) =
      2 ^ 24 * s + (2 ^ 23 * i1 + (2 ^ 22 * i2 + (2 ^ 12 * a + 2 ^ 1 * b))) := by
  have m1 : shl32 i1 23 = 2 ^ 23 * i1 := by rw [shl32_eq]; omega
  have m2 : shl32 i2 22 = 2 ^ 22 * i2 := by rw [shl32_eq]; omega
  have m3 : shl32 b 1 = 2 ^ 1 * b := by rw [shl32_eq]; omega
  rw [m1, m2, m3]
  have r1 : 2 ^ 12 * a + 2 ^ 1 * b = 2 ^ 12 * a ||| 2 ^ 1 * b :=
    Nat.mul_add_lt_is_or (by omega) a
  have r2 : 2 ^ 22 * i2 + (2 ^ 12 * a ||| 2 ^ 1 * b) = 2 ^ 22 * i2 ||| (2 ^ 12 * a ||| 2 ^ 1 * b) :=
    Nat.mul_add_lt_is_or (by rw [← r1]; omega) i2
  have r3 : 2 ^ 23 * i1 + (2 ^ 22 * i2 ||| (2 ^ 12 * a ||| 2 ^ 1 * b)) =
      2 ^ 23 * i1 ||| (2 ^ 22 * i2 ||| (2 ^ 12 * a ||| 2 ^ 1 * b)) :=
    Nat.mul_add_lt_is_or (by rw [← r2, ← r1]; omega) i1
  have r4 : 2 ^ 24 * s + (2 ^ 23 * i1 ||| (2 ^ 22 * i2 ||| (2 ^ 12 * a ||| 2 ^ 1 * b))) =
      2 ^ 24 * s ||| (2 ^ 23 * i1 ||| (2 ^ 22 * i2 ||| (2 ^ 12 * a ||| 2 ^ 1 * b))) :=
    Nat.mul_add_lt_is_or (by rw [← r3, ← r2, ← r1]; omega) s
  have r5 : 2 ^ 24 * s + 2 ^ 12 * a = 2 ^ 24 * s ||| 2 ^ 12 * a :=
    Nat.mul_add_lt_is_or (by omega) s
  rw [r1, r2, r3, r4, r5]
  ac_rfl

/-- The immediate after the second halfword of BL: the fields S, I1, I2,
imm10 and imm11 side by side, bit 0 clear. -/
theorem bl_second_immediate (h1 h2 : Nat) (d : DecodedInst)
    (hd : d.im = 2 ^ 24 * (h1 / 2 ^ 10 % 2) + 2 ^ 12 * (h1 % 2 ^ 10))
    (hp : h2 &&& 0xD000 = 0xD000) :
    Decode.decodeSecondHalf h2 d = d.setImmediate
      (2 ^ 24 * (h1 / 2 ^ 10 % 2) +
        (2 ^ 23 * (if h2 / 2 ^ 13 % 2 = h1 / 2 ^ 10 % 2 then 1 else 0) +
          (2 ^ 22 * (if h2 / 2 ^ 11 % 2 = h1 / 2 ^ 10 % 2 then 1 else 0) +
            (2 ^ 12 * (h1 % 2 ^ 10) + 2 ^ 1 * (h2 % 2 ^ 11))))) := by
  have ha : h1 % 2 ^ 10 < 1024 := Nat.mod_lt _ (by norm_num)
  have hs : h1 / 2 ^ 10 % 2 < 2 := Nat.mod_lt _ (by norm_num)
  have hb : h2 % 2 ^ 11 < 2048 := Nat.mod_lt _ (by norm_num)
  have hj1 : h2 / 2 ^ 13 % 2 < 2 := Nat.mod_lt _ (by norm_num)
  have hj2 : h2 / 2 ^ 11 % 2 < 2 := Nat.mod_lt _ (by norm_num)
  have e1 : (h2 >>> 0) &&& 0x7FF = h2 % 2 ^ 11 := by
    rw [Nat.shiftRight_zero]; exact Nat.and_pow_two_sub_one_eq_mod h2 11
  have e2 : (h2 >>> 13) &&& 0x1 = h2 / 2 ^ 13 % 2 := by
    rw [Nat.and_one_is_mod, Nat.shiftRight_eq_div_pow]
  have e3 : (h2 >>> 11) &&& 0x1 = h2 / 2 ^ 11 % 2 := by
    rw [Nat.and_one_is_mod, Nat.shiftRight_eq_div_pow]
  have e4 : ((2 ^ 24 * (h1 / 2 ^ 10 % 2) + 2 ^ 12 * (h1 % 2 ^ 10)) >>> 24) &&& 0x1 =
      h1 / 2 ^ 10 % 2 := by
    rw [Nat.and_one_is_mod, Nat.shiftRight_eq_div_pow]
    omega
  have hi1 : (if h2 / 2 ^ 13 % 2 = h1 / 2 ^ 10 % 2 then 1 else 0) < 2 := by split_ifs <;> omega
  have hi2 : (if h2 / 2 ^ 11 % 2 = h1 / 2 ^ 10 % 2 then 1 else 0) < 2 := by split_ifs <;> omega
  simp only [Decode.decodeSecondHalf, hp, if_true, DecodedInst.getImmediate, hd, e1, e2, e3, e4,
    not_xor_bit _ _ hj1 hs, not_xor_bit _ _ hj2 hs, bl_or_sum _ _ _ _ _ hi1 hi2 ha hb]

/-- Sign extension at bit 24 and the addition of `bl`, read as integers. -/
theorem bl_target (pc im : Nat) (him : im < 2 ^ 25) :
    ((add32 (if GET_BIT_AT_POS im 24 = 0 then im else im ||| shl32 (not32 0) 24) pc : Nat) : Int) =
      ((pc : Int) + signExtend 25 im) % 4294967296 := by
  have hm : shl32 (not32 0) 24 = 2 ^ 24 * 255 := by decide
  rw [getBit_eq, add32, signExtend]
  have e25 : (2 : Nat) ^ 25 = 33554432 := by norm_num
  have e24 : (2 : Nat) ^ 24 = 16777216 := by norm_num
  have e251 : (2 : Nat) ^ (25 - 1) = 16777216 := by norm_num
  rw [e25] at him
  by_cases h : im < 16777216
  · have hb : im / 2 ^ 24 % 2 = 0 := by rw [e24]; omega
    rw [if_pos hb, e25, e251, Nat.mod_eq_of_lt him, if_pos h]
    omega
  · have hb : ¬ im / 2 ^ 24 % 2 = 0 := by rw [e24]; omega
    have ho := or_signbits 24 255 im (by rw [e24]; omega) (by norm_num; omega) (by decide)
    rw [if_neg hb, hm, ho, e25, e251, Nat.mod_eq_of_lt him, if_neg h]
    push_cast
    omega


theorem next_next (a : Nat) : NEXT_THUMB_INST (NEXT_THUMB_INST a) = add32 a 4 := by
  unfold NEXT_THUMB_INST THUMB_INST_BYTES add32
  omega

theorem blImmediate_lt (h1 h2 : Nat) : blImmediate h1 h2 < 2 ^ 25 := by
  unfold blImmediate
  have ha : h1 % 2 ^ 10 < 1024 := Nat.mod_lt _ (by norm_num)
  have hs : h1 / 2 ^ 10 % 2 < 2 := Nat.mod_lt _ (by norm_num)
  have hb : h2 % 2 ^ 11 < 2048 := Nat.mod_lt _ (by norm_num)
  have hi1 : (if h2 / 2 ^ 13 % 2 = h1 / 2 ^ 10 % 2 then 1 else 0) < 2 := by split_ifs <;> omega
  have hi2 : (if h2 / 2 ^ 11 % 2 = h1 / 2 ^ 10 % 2 then 1 else 0) < 2 := by split_ifs <;> omega
  simp only []
  omega

/-- The decode tick that takes the first halfword of BL from address `A`. -/
theorem decode_bl_first (s0 : Processor) (A h1 : Nat)
    (hA : s0.regFile.regs .PC = A)
    (hflush : s0.decode.flushPending = false) (hnone : s0.decode.decodedInst = none)
    (hhalf : s0.decode.decodedHalfInst = false)
    (hvalid : s0.fetch.instBufferValid = true) (hfl : s0.fetch.flushPending = false)
    (hsync : s0.mem.getMemAccessWidthBaseByteAddr A = s0.fetch.instBufferBaseAddr)
    (hh1 : s0.fetch.instBuffer (s0.mem.getMemAccessWidthInstOffset A) = h1)
    (hp1 : h1 &&& 0xF800 = 0xF000) :
    Decode.run s0 = .ok { s0 with
      regFile := s0.regFile.write .PC (NEXT_THUMB_INST A)
      decode := { s0.decode with
        decodedHalfInst := true
        decodedInst := some (((DecodedInst.new.setOperation .BL).setRegister .RDN .PC
          (add32 A 4)).setImmediate (2 ^ 24 * (h1 / 2 ^ 10 % 2) + 2 ^ 12 * (h1 % 2 ^ 10))) } } := by
  simp only [Decode.run, hflush, hnone, hhalf, Option.isSome_none, Bool.false_eq_true, if_false,
    false_and, Fetch.getNextInst, hvalid, hfl, not_true_eq_false, or_self, RegFile.readData, hA,
    hsync, ne_eq, hh1, Decode.getCorrectedFetchAddress, RegFile.write, if_true,
    decodeFromAdc_bl _ _ _ _ _ hp1, bl_first_immediate, next_next]

/-- The decode tick that takes the second halfword of BL. -/
theorem decode_bl_second (s1 : Processor) (P h1 h2 : Nat) (d : DecodedInst)
    (hP : s1.regFile.regs .PC = P)
    (hflush : s1.decode.flushPending = false) (hsome : s1.decode.decodedInst = some d)
    (hhalf : s1.decode.decodedHalfInst = true)
    (hd : d.im = 2 ^ 24 * (h1 / 2 ^ 10 % 2) + 2 ^ 12 * (h1 % 2 ^ 10))
    (hvalid : s1.fetch.instBufferValid = true) (hfl : s1.fetch.flushPending = false)
    (hsync : s1.mem.getMemAccessWidthBaseByteAddr P = s1.fetch.instBufferBaseAddr)
    (hh2 : s1.fetch.instBuffer (s1.mem.getMemAccessWidthInstOffset P) = h2)
    (hp2 : h2 &&& 0xD000 = 0xD000) :
    Decode.run s1 = .ok { s1 with
      regFile := s1.regFile.write .PC (NEXT_THUMB_INST P)
      decode := { s1.decode with
        decodedHalfInst := false
        decodedInst := some (d.setImmediate (blImmediate h1 h2)) } } := by
  simp only [Decode.run, hflush, hsome, hhalf, Option.isSome_some, Bool.false_eq_true, if_false,
    not_true_eq_false, and_false, Fetch.getNextInst, hvalid, hfl, or_self, RegFile.readData, hP,
    hsync, ne_eq, hh2, if_true, bl_second_immediate h1 h2 d hd hp2, blImmediate]

/-- The execute tick that pulls a decoded BL. -/
theorem execute_bl (s : Processor) (d : DecodedInst) (pc : Nat)
    (hst : s.execute.execState = .NEXT_INST) (hnone : s.execute.decodedInst = none)
    (hdec : s.decode.decodedInst = some d) (hhalf : s.decode.decodedHalfInst = false)
    (hop : d.op = .BL) (hrdn : d.regsNumber .RDN = .PC) (hdrdn : d.regsData .RDN = pc) :
    Execute.run s = .ok
      { bl { s with decode := { s.decode with decodedInst := none }
                    execute := { s.execute with curExecState := .NEXT_INST
                                                decodedInst := some d } } .PC pc d.im with
        execute := { s.execute with curExecState := .NEXT_INST, decodedInst := none } } := by
  have hsome : (some d).isNone = false := rfl
  simp only [Execute.run, hst, executeNextInst, hnone, Option.isSome_none, Bool.false_eq_true,
    if_false, Decode.getNextInst, hdec, hhalf, hsome, or_self, executeInst,
    DecodedInst.getOperation, hop, DecodedInst.getRegisterNumber, hrdn,
    DecodedInst.getRegisterData, hdrdn, DecodedInst.getImmediate, calculateExecCycles]
  rfl


/-- C4: a decode tick that takes `h1` (first halfword of BL) from address `A`
stages the BL and asks for the second halfword; the next decode tick that
takes `h2` (second halfword) completes the record with the immediate
S:I1:I2:imm10:imm11:0; the execute tick that pulls it writes
LR = ((A + 4) mod 2^32) | 1 and PC = (A + 4 + offset) mod 2^32, offset being
that immediate read as a 25-bit two's-complement number, changes no other
register, sets both flush requests and counts one BL and one taken branch.
Between the ticks the other stages may run: each later tick starts from any
state that kept what the earlier tick left in the decode stage. -/
theorem C4_bl_decode_execute (s0 : Processor) (A h1 h2 : Nat)
    (hA : s0.regFile.regs .PC = A)
    (hflush : s0.decode.flushPending = false) (hnone : s0.decode.decodedInst = none)
    (hhalf : s0.decode.decodedHalfInst = false)
    (hvalid : s0.fetch.instBufferValid = true) (hfl : s0.fetch.flushPending = false)
    (hsync : s0.mem.getMemAccessWidthBaseByteAddr A = s0.fetch.instBufferBaseAddr)
    (hh1 : s0.fetch.instBuffer (s0.mem.getMemAccessWidthInstOffset A) = h1)
    (hp1 : h1 &&& 0xF800 = 0xF000) (hp2 : h2 &&& 0xD000 = 0xD000) :
    ∃ s1, Decode.run s0 = .ok s1 ∧ s1.decode.decodedHalfInst = true ∧
      s1.regFile.regs .PC = add32 A 2 ∧
      s1.fetch = s0.fetch ∧ s1.mem = s0.mem ∧ s1.execute = s0.execute ∧ s1.stats = s0.stats ∧
      ∀ t1 : Processor, t1.decode = s1.decode → t1.regFile.regs .PC = add32 A 2 →
        t1.fetch.instBufferValid = true → t1.fetch.flushPending = false →
        t1.mem.getMemAccessWidthBaseByteAddr (add32 A 2) = t1.fetch.instBufferBaseAddr →
        t1.fetch.instBuffer (t1.mem.getMemAccessWidthInstOffset (add32 A 2)) = h2 →
        ∃ s2 d, Decode.run t1 = .ok s2 ∧ s2.decode.decodedHalfInst = false ∧
          s2.decode.decodedInst = some d ∧ d.op = .BL ∧ d.im = blImmediate h1 h2 ∧
          s2.fetch = t1.fetch ∧ s2.mem = t1.mem ∧ s2.execute = t1.execute ∧
          s2.stats = t1.stats ∧
          ∀ t2 : Processor, t2.decode = s2.decode →
            t2.execute.execState = .NEXT_INST → t2.execute.decodedInst = none →
            ∃ s3, Execute.run t2 = .ok s3 ∧
              s3.regFile.regs .LR = add32 A 4 ||| 1 ∧
              ((s3.regFile.regs .PC : Nat) : Int) =
                (((add32 A 4 : Nat) : Int) + blOffset h1 h2) % 4294967296 ∧
              (∀ r, r ≠ .PC → r ≠ .LR → s3.regFile.regs r = t2.regFile.regs r) ∧
              s3.decode.flushPending = true ∧ s3.fetch.flushPending = true ∧
              s3.stats.instCount .BL = t2.stats.instCount .BL + 1 ∧
              (∀ i, i ≠ .BL → s3.stats.instCount i = t2.stats.instCount i) ∧
              s3.stats.branchTaken = t2.stats.branchTaken + 1 ∧
              s3.stats.branchNotTaken = t2.stats.branchNotTaken := by
  have h1run := decode_bl_first s0 A h1 hA hflush hnone hhalf hvalid hfl hsync hh1 hp1
  refine ⟨_, h1run, rfl, ?_, rfl, rfl, rfl, rfl, ?_⟩
  · simp [RegFile.write, NEXT_THUMB_INST, THUMB_INST_BYTES]
  intro t1 hdec hpc hvalid1 hfl1 hsync1 hh2
  have h2run := decode_bl_second t1 (add32 A 2) h1 h2
    (((DecodedInst.new.setOperation .BL).setRegister .RDN .PC (add32 A 4)).setImmediate
      (2 ^ 24 * (h1 / 2 ^ 10 % 2) + 2 ^ 12 * (h1 % 2 ^ 10)))
    hpc (by rw [hdec]; exact hflush) (by rw [hdec]) (by rw [hdec]) rfl hvalid1 hfl1 hsync1 hh2 hp2
  refine ⟨_, _, h2run, rfl, rfl, rfl, rfl, rfl, rfl, rfl, rfl, ?_⟩
  intro t2 hdec2 hst2 hnone2
  have h3run := execute_bl t2
    ((((DecodedInst.new.setOperation .BL).setRegister .RDN .PC (add32 A 4)).setImmediate
      (2 ^ 24 * (h1 / 2 ^ 10 % 2) + 2 ^ 12 * (h1 % 2 ^ 10))).setImmediate (blImmediate h1 h2))
    (add32 A 4) hst2 hnone2 (by rw [hdec2]) (by rw [hdec2]) rfl rfl rfl
  refine ⟨_, h3run, ?_, ?_, ?_, rfl, rfl, ?_, ?_, ?_, ?_⟩
  · simp [bl, writeReg, RegFile.write, flushPipeline, addInstruction, addBranchTaken]
  · have ht := bl_target (add32 A 4) (blImmediate h1 h2) (blImmediate_lt h1 h2)
    rw [blOffset, ← ht]
    simp [bl, writeReg, RegFile.write, flushPipeline, addInstruction, addBranchTaken,
      DecodedInst.setImmediate]
  · intro r hr1 hr2
    simp [bl, writeReg, RegFile.write, flushPipeline, addInstruction, addBranchTaken, hr1, hr2]
  · simp [bl, writeReg, flushPipeline, addInstruction, addBranchTaken,
      Statistics.addInstruction, Statistics.addBranchTaken]
  · intro i hi
    simp [bl, writeReg, flushPipeline, addInstruction, addBranchTaken,
      Statistics.addInstruction, Statistics.addBranchTaken, hi]
  · simp [bl, writeReg, flushPipeline, addInstruction, addBranchTaken,
      Statistics.addInstruction, Statistics.addBranchTaken]
  · simp [bl, writeReg, flushPipeline, addInstruction, addBranchTaken,
      Statistics.addInstruction, Statistics.addBranchTaken]


/-- Witness of C4: the halfwords `0xF7FF`, `0xFFFE` at address 0 (a BL to its
own address, offset -4): after the two decode ticks and the execute tick LR
is 5, PC is 0, both flush requests are set and one BL and one taken branch
are counted. -/
theorem C4_bl_decode_execute_witness :
    ∃ s1 s2 s3, Decode.run blStart = .ok s1 ∧ Decode.run s1 = .ok s2 ∧
      Execute.run s2 = .ok s3 ∧
      s3.regFile.regs .LR = 5 ∧ s3.regFile.regs .PC = 0 ∧
      s3.decode.flushPending = true ∧ s3.fetch.flushPending = true ∧
      s3.stats.instCount .BL = 1 ∧ s3.stats.branchTaken = 1 := by
  obtain ⟨s1, hr1, _, hpc1, hf1, hm1, he1, hs1, hnext⟩ :=
    C4_bl_decode_execute blStart 0 0xF7FF 0xFFFE rfl rfl rfl rfl rfl rfl (by decide) (by decide)
      (by decide) (by decide)
  obtain ⟨s2, d, hr2, _, _, _, _, hf2, hm2, he2, hs2, hexec⟩ := hnext s1 rfl hpc1
    (by rw [hf1]; rfl) (by rw [hf1]; rfl) (by rw [hf1, hm1]; decide) (by rw [hf1, hm1]; decide)
  obtain ⟨s3, hr3, hlr, hpc, _, hdf, hff, hbl, _, hbt, _⟩ := hexec s2 rfl
    (by rw [he2, he1]; rfl) (by rw [he2, he1]; rfl)
  have hoff : blOffset 0xF7FF 0xFFFE = -4 := by decide
  refine ⟨s1, s2, s3, hr1, hr2, hr3, ?_, ?_, hdf, hff, ?_, ?_⟩
  · rw [hlr]; decide
  · rw [hoff] at hpc
    have h4 : add32 0 4 = 4 := by decide
    rw [h4] at hpc
    norm_num at hpc
    exact hpc
  · rw [hbl, hs2, hs1]; rfl
  · rw [hbt, hs2, hs1]; rfl


/-- What every successful memory tick does to the ring: the cursor moves on
by one slot, the slot under the new cursor is cleared (no issuer, token 0),
no other slot changes its issuer, token, address or type, and the token
counter stays. -/
theorem run_ring (m m2 : Memory) (h : m.run = .ok m2) :
    m2.nextReqIndex = add32 m.nextReqIndex 1 % m.pipelineSize ∧
    m2.pipelineSize = m.pipelineSize ∧ m2.nextToken = m.nextToken ∧
    m2.memSizeWords = m.memSizeWords ∧ m2.memAccessWidthWords = m.memAccessWidthWords ∧
    (m2.pipeline m2.nextReqIndex).issuer = .NONE ∧
    (m2.pipeline m2.nextReqIndex).token = 0 ∧
    ∀ j, j ≠ m2.nextReqIndex →
      (m2.pipeline j).issuer = (m.pipeline j).issuer ∧
      (m2.pipeline j).token = (m.pipeline j).token ∧
      (m2.pipeline j).byteAddr = (m.pipeline j).byteAddr ∧
      (m2.pipeline j).type = (m.pipeline j).type := by
  unfold Memory.run at h
  simp only [Memory.setSlot] at h
  by_cases he : m.nextReqIndex = add32 m.nextReqIndex 1 % m.pipelineSize
  · rw [if_pos he] at h
    simp only [if_true] at h
    cases h
    refine ⟨rfl, rfl, rfl, rfl, rfl, ?_, ?_, ?_⟩
    · simp
    · simp
    · intro j hj
      simp only [] at hj
      simp [hj]
  · rw [if_neg he] at h
    by_cases h1 : (m.pipeline m.nextReqIndex).issuer = Component.NONE
    · rw [if_pos h1] at h
      cases h
      refine ⟨rfl, rfl, rfl, rfl, rfl, ?_, ?_, ?_⟩
      · simp
      · simp
      · intro j hj
        simp only [] at hj
        simp [hj]
    · rw [if_neg h1] at h
      split_ifs at h with h2
      split at h
      · cases h
        refine ⟨rfl, rfl, rfl, rfl, rfl, ?_, ?_, ?_⟩
        · simp [Memory.setSlot, Ne.symm he]
        · simp [Memory.setSlot, Ne.symm he]
        · intro j hj
          simp only [] at hj
          by_cases hji : j = m.nextReqIndex
          · subst hji
            simp [Memory.setSlot, he]
          · simp [Memory.setSlot, hj, hji]
      · cases h
        refine ⟨rfl, rfl, rfl, rfl, rfl, ?_, ?_, ?_⟩
        · simp
        · simp
        · intro j hj
          simp only [] at hj
          simp [hj]
      · cases h


/-- A successful `requestLoad`: the slot under the cursor was free, it takes
the request with the current token, the counter moves on by one and nothing
else changes. -/
theorem requestLoad_some (m m1 : Memory) (issuer : Component) (a tok : Nat)
    (h : m.requestLoad issuer a = some (tok, m1)) :
    tok = m.nextToken ∧ (m.pipeline m.nextReqIndex).issuer = .NONE ∧
    m1.nextReqIndex = m.nextReqIndex ∧ m1.pipelineSize = m.pipelineSize ∧
    m1.nextToken = add32 m.nextToken 1 ∧ m1.memSizeWords = m.memSizeWords ∧
    m1.mem = m.mem ∧
    (m1.pipeline m.nextReqIndex).token = tok ∧ (m1.pipeline m.nextReqIndex).issuer = issuer ∧
    (m1.pipeline m.nextReqIndex).byteAddr = a ∧ (m1.pipeline m.nextReqIndex).type = .LOAD ∧
    ∀ j, j ≠ m.nextReqIndex → m1.pipeline j = m.pipeline j := by
  unfold Memory.requestLoad at h
  split_ifs at h with h1
  simp only [Option.some.injEq, Prod.mk.injEq] at h
  obtain ⟨rfl, rfl⟩ := h
  refine ⟨rfl, by simpa using h1, rfl, rfl, rfl, rfl, rfl, ?_, ?_, ?_, ?_, ?_⟩
  · simp [Memory.setSlot]
  · simp [Memory.setSlot]
  · simp [Memory.setSlot]
  · simp [Memory.setSlot]
  · intro j hj; simp [Memory.setSlot, hj]

/-- A successful `requestStore`, as `requestLoad_some`. -/
theorem requestStore_some (m m1 : Memory) (issuer : Component) (a d tok : Nat)
    (h : m.requestStore issuer a d = some (tok, m1)) :
    tok = m.nextToken ∧ (m.pipeline m.nextReqIndex).issuer = .NONE ∧
    m1.nextReqIndex = m.nextReqIndex ∧ m1.pipelineSize = m.pipelineSize ∧
    m1.nextToken = add32 m.nextToken 1 ∧ m1.memSizeWords = m.memSizeWords ∧
    m1.mem = m.mem ∧
    (m1.pipeline m.nextReqIndex).token = tok ∧ (m1.pipeline m.nextReqIndex).issuer = issuer ∧
    (m1.pipeline m.nextReqIndex).byteAddr = a ∧ (m1.pipeline m.nextReqIndex).type = .STORE ∧
    ∀ j, j ≠ m.nextReqIndex → m1.pipeline j = m.pipeline j := by
  unfold Memory.requestStore at h
  split_ifs at h with h1
  simp only [Option.some.injEq, Prod.mk.injEq] at h
  obtain ⟨rfl, rfl⟩ := h
  refine ⟨rfl, by simpa using h1, rfl, rfl, rfl, rfl, rfl, ?_, ?_, ?_, ?_, ?_⟩
  · simp [Memory.setSlot]
  · simp [Memory.setSlot]
  · simp [Memory.setSlot]
  · simp [Memory.setSlot]
  · intro j hj; simp [Memory.setSlot, hj]

/-- A tick on a memory whose slot under the cursor holds a request for an
address inside the memory is not fatal. -/
theorem run_ok_of_request (m : Memory) (hty : (m.pipeline m.nextReqIndex).type ≠ .NONE)
    (ha : (m.pipeline m.nextReqIndex).byteAddr < 4294967296)
    (hin : (m.pipeline m.nextReqIndex).byteAddr / 4 < m.memSizeWords)
    (hp : 2 ≤ m.pipelineSize) (hp32 : m.pipelineSize < 4294967296)
    (hidx : m.nextReqIndex < m.pipelineSize) : ∃ m2, m.run = .ok m2 := by
  have hne := next_ne_self m.nextReqIndex m.pipelineSize hp hp32 hidx
  have hne' : m.nextReqIndex ≠ add32 m.nextReqIndex 1 % m.pipelineSize := fun e => hne e.symm
  have hb : ¬ GET_WORD_INDEX (m.pipeline m.nextReqIndex).byteAddr ≥ m.memSizeWords := by
    rw [getWordIndex_eq _ ha]; omega
  unfold Memory.run
  simp only [Memory.setSlot, if_neg hne', hb, if_false]
  split_ifs
  · exact ⟨_, rfl⟩
  · split
    · exact ⟨_, rfl⟩
    · exact ⟨_, rfl⟩
    · rename_i hn
      exact absurd hn hty

/-- While no tick intervenes after a successful request, every further
request returns busy: the calls return no token and the memory is as the
first request left it. -/
theorem calls_busy (cs : List MemoryCall) (m : Memory)
    (hbusy : (m.pipeline m.nextReqIndex).issuer ≠ .NONE)
    (hnt : ∀ c, c ∈ cs → c ≠ .tick) : m.calls cs = ([], m) := by
  induction cs with
  | nil => rfl
  | cons c cs ih =>
    have ih' := ih (fun c hc => hnt c (List.mem_cons_of_mem _ hc))
    cases c with
    | load issuer a =>
      have : m.requestLoad issuer a = none := by simp [Memory.requestLoad, hbusy]
      simp only [Memory.calls, this, ih']
    | store issuer a d =>
      have : m.requestStore issuer a d = none := by simp [Memory.requestStore, hbusy]
      simp only [Memory.calls, this, ih']
    | tick => exact absurd rfl (hnt .tick (List.mem_cons_self _ _))

/-- Requests of components between two ticks: at most one token is handed
out. -/
theorem calls_requests_le_one (cs : List MemoryCall) (m : Memory)
    (hreq : ∀ c, c ∈ cs → c.isRequest) : (m.calls cs).1.length ≤ 1 := by
  have hnt : ∀ (l : List MemoryCall), (∀ c, c ∈ l → c.isRequest) → ∀ c, c ∈ l → c ≠ .tick := by
    intro l hl c hc e
    have := hl c hc
    rw [e] at this
    exact this
  induction cs with
  | nil => simp [Memory.calls]
  | cons c cs ih =>
    have hreq' : ∀ c, c ∈ cs → c.isRequest := fun c hc => hreq c (List.mem_cons_of_mem _ hc)
    have hc := hreq c (List.mem_cons_self _ _)
    cases c with
    | load issuer a =>
      simp only [Memory.calls]
      cases hr : m.requestLoad issuer a with
      | none => exact ih hreq'
      | some r =>
        obtain ⟨tok, m1⟩ := r
        obtain ⟨_, _, hi1, _, _, _, _, _, his, _⟩ := requestLoad_some m m1 issuer a tok hr
        have hb : (m1.pipeline m1.nextReqIndex).issuer ≠ .NONE := by
          rw [hi1, his]; exact hc
        simp [calls_busy cs m1 hb (hnt cs hreq')]
    | store issuer a d =>
      simp only [Memory.calls]
      cases hr : m.requestStore issuer a d with
      | none => exact ih hreq'
      | some r =>
        obtain ⟨tok, m1⟩ := r
        obtain ⟨_, _, hi1, _, _, _, _, _, his, _⟩ := requestStore_some m m1 issuer a d tok hr
        have hb : (m1.pipeline m1.nextReqIndex).issuer ≠ .NONE := by
          rw [hi1, his]; exact hc
        simp [calls_busy cs m1 hb (hnt cs hreq')]
    | tick => exact absurd hc (by simp [MemoryCall.isRequest])

/-- C12: after a request of a component succeeds, every further request
before the next tick returns busy and leaves the memory (ring and token
counter) as it is; so the requests between two ticks, or before the first
tick, get at most one token; and after each tick the slot under the cursor
is free, so that the next request succeeds. -/
theorem C12_one_request_per_tick (m : Memory) (issuer : Component) (a d : Nat)
    (hissuer : issuer ≠ .NONE) :
    (∀ tok m1, (m.requestLoad issuer a = some (tok, m1) ∨
        m.requestStore issuer a d = some (tok, m1)) →
      ∀ cs : List MemoryCall, (∀ c, c ∈ cs → c ≠ .tick) → m1.calls cs = ([], m1)) ∧
    (∀ cs : List MemoryCall, (∀ c, c ∈ cs → c.isRequest) → (m.calls cs).1.length ≤ 1) ∧
    (∀ m2, m.run = .ok m2 → m2.isAvailable = true ∧
      (m2.requestLoad issuer a).isSome = true ∧ (m2.requestStore issuer a d).isSome = true) := by
  refine ⟨?_, ?_, ?_⟩
  · intro tok m1 h cs hnt
    have hb : (m1.pipeline m1.nextReqIndex).issuer ≠ .NONE := by
      rcases h with h | h
      · obtain ⟨_, _, hi1, _, _, _, _, _, his, _⟩ := requestLoad_some m m1 issuer a tok h
        rw [hi1, his]; exact hissuer
      · obtain ⟨_, _, hi1, _, _, _, _, _, his, _⟩ := requestStore_some m m1 issuer a d tok h
        rw [hi1, his]; exact hissuer
    exact calls_busy cs m1 hb hnt
  · intro cs hreq
    exact calls_requests_le_one cs m hreq
  · intro m2 hrun
    obtain ⟨_, _, _, _, _, hf, _⟩ := run_ring m m2 hrun
    refine ⟨by simp [Memory.isAvailable, hf], by simp [Memory.requestLoad, hf],
      by simp [Memory.requestStore, hf]⟩

/-- Witness of C12: on the fresh memory of pipeline size 2 the first of three
requests gets token 0, the other two return busy; after the tick the slot
under the cursor is free. -/
theorem C12_one_request_per_tick_witness :
    ((Memory.new 16 1 2).calls
      [.load .EXECUTE 0, .load .FETCH 4, .store .EXECUTE 8 1]).1 = [0] ∧
    ((Memory.new 16 1 2).calls
      [.load .EXECUTE 0, .load .FETCH 4, .store .EXECUTE 8 1]).1.length ≤ 1 ∧
    (Memory.new 16 1 2).isAvailable = true ∧
    ∃ m2, (Memory.new 16 1 2).run = .ok m2 ∧ m2.isAvailable = true := by
  have h := C12_one_request_per_tick (Memory.new 16 1 2) .EXECUTE 0 0 (by decide)
  refine ⟨by decide, h.2.1 _ ?_, by decide, _, rfl, (h.2.2 _ rfl).1⟩
  intro c hc
  simp only [List.mem_cons, List.mem_singleton, List.mem_nil_iff, or_false] at hc
  rcases hc with rfl | rfl | rfl <;> simp [MemoryCall.isRequest]


theorem range_succ_map (f : Nat → Nat) (n : Nat) :
    (List.range (n + 1)).map f = f 0 :: (List.range n).map (fun i => f (i + 1)) := by
  rw [List.range_succ_eq_map, List.map_cons, List.map_map]
  rfl

/-- The tokens that a run of calls hands out are consecutive modulo 2^32,
starting at the token counter, which ends advanced by their number: a failed
request and a tick consume no token. -/
theorem calls_tokens (cs : List MemoryCall) : ∀ (m : Memory), m.nextToken < 4294967296 →
    (m.calls cs).1 = (List.range (m.calls cs).1.length).map
      (fun i => (m.nextToken + i) % 4294967296) ∧
    (m.calls cs).2.nextToken = (m.nextToken + (m.calls cs).1.length) % 4294967296 := by
  induction cs with
  | nil =>
    intro m hm
    simp only [Memory.calls, List.length_nil, List.range_zero, List.map_nil, Nat.add_zero,
      true_and]
    omega
  | cons c cs ih =>
    intro m hm
    have step : ∀ (tok : Nat) (m1 : Memory), tok = m.nextToken →
        m1.nextToken = add32 m.nextToken 1 →
        (tok :: (m1.calls cs).1) = (List.range ((m1.calls cs).1.length + 1)).map
          (fun i => (m.nextToken + i) % 4294967296) ∧
        (m1.calls cs).2.nextToken =
          (m.nextToken + ((m1.calls cs).1.length + 1)) % 4294967296 := by
      intro tok m1 htok hnt
      obtain ⟨e1, e2⟩ := ih m1 (by rw [hnt]; exact add32_lt _ _)
      refine ⟨?_, ?_⟩
      · rw [range_succ_map]
        conv_lhs => rw [e1]
        rw [htok, hnt]
        congr 1
        · simp only [Nat.add_zero]; omega
        · apply List.map_congr_left
          intro i _
          unfold add32
          omega
      · rw [e2, hnt]
        unfold add32
        omega
    cases c with
    | load issuer a =>
      simp only [Memory.calls]
      cases hr : m.requestLoad issuer a with
      | none => exact ih m hm
      | some r =>
        obtain ⟨tok, m1⟩ := r
        obtain ⟨htok, _, _, _, hnt, _⟩ := requestLoad_some m m1 issuer a tok hr
        simpa using step tok m1 htok hnt
    | store issuer a d =>
      simp only [Memory.calls]
      cases hr : m.requestStore issuer a d with
      | none => exact ih m hm
      | some r =>
        obtain ⟨tok, m1⟩ := r
        obtain ⟨htok, _, _, _, hnt, _⟩ := requestStore_some m m1 issuer a d tok hr
        simpa using step tok m1 htok hnt
    | tick =>
      simp only [Memory.calls]
      cases hr : m.run with
      | error e =>
        simp only [List.length_nil, List.range_zero, List.map_nil, Nat.add_zero, true_and]
        omega
      | ok m1 =>
        obtain ⟨_, _, hnt, _⟩ := run_ring m m1 hr
        have := ih m1 (by rw [hnt]; exact hm)
        rw [hnt] at this
        exact this

/-- In `n` cycles of one request and one tick, on a memory whose slot under
the cursor is free, every request succeeds: `n` tokens are handed out. -/
theorem calls_requestTicks_length (n : Nat) : ∀ (m : Memory), 2 ≤ m.pipelineSize →
    m.pipelineSize < 4294967296 → m.nextReqIndex < m.pipelineSize →
    (m.pipeline m.nextReqIndex).issuer = .NONE → 0 < m.memSizeWords →
    (m.calls (requestTicks n)).1.length = n := by
  induction n with
  | zero => intro m _ _ _ _ _; rfl
  | succ n ih =>
    intro m hp hp32 hidx hfree hsz
    have hreq : m.requestLoad .EXECUTE 0 = some (m.nextToken,
        { m.setSlot m.nextReqIndex { m.pipeline m.nextReqIndex with
            issuer := .EXECUTE, type := .LOAD, token := m.nextToken, byteAddr := 0 } with
          nextToken := add32 m.nextToken 1 }) := by
      simp [Memory.requestLoad, hfree]
    obtain ⟨_, _, hi1, hs1, _, hsz1, _, _, _, ha1, hty1, _⟩ := requestLoad_some m _ _ _ _ hreq
    obtain ⟨m2, hrun⟩ := run_ok_of_request _ (by rw [hi1, hty1]; decide)
      (by rw [hi1, ha1]; decide) (by rw [hi1, ha1, hsz1]; simpa using hsz)
      (by rw [hs1]; exact hp) (by rw [hs1]; exact hp32) (by rw [hi1, hs1]; exact hidx)
    obtain ⟨h1, h2, _, hsz2, _, hf2, _⟩ := run_ring _ m2 hrun
    have hidx2 : m2.nextReqIndex < m2.pipelineSize := by
      rw [h1, h2]; exact Nat.mod_lt _ (by rw [hs1]; omega)
    have := ih m2 (by rw [h2, hs1]; exact hp) (by rw [h2, hs1]; exact hp32) hidx2 hf2
      (by rw [hsz2, hsz1]; exact hsz)
    simp only [requestTicks, Memory.calls, hreq, hrun, List.length_cons, this]


/-- C13, counterexample: 2^32 + 1 cycles of one load request and one tick on
the memory as constructed hand out 2^32 + 1 tokens; the token counter is a
`uint32_t`, so the last token is 0 again, below the token before it. -/
theorem C13_tokens_wrap_counterexample :
    ¬ ((Memory.new 16 1 2).calls (requestTicks 4294967297)).1.Pairwise (fun a b => a < b) := by
  intro hpw
  have hlen := calls_requestTicks_length 4294967297 (Memory.new 16 1 2) (by decide) (by decide)
    (by decide) (by decide) (by decide)
  have htok := (calls_tokens (requestTicks 4294967297) (Memory.new 16 1 2) (by decide)).1
  rw [hlen] at htok
  rw [htok, List.pairwise_map] at hpw
  have hr := List.pairwise_iff_getElem.mp hpw 4294967295 4294967296
    (by rw [List.length_range]; omega) (by rw [List.length_range]; omega) (by omega)
  rw [List.getElem_range, List.getElem_range] at hr
  have h0 : (Memory.new 16 1 2).nextToken = 0 := rfl
  rw [h0] at hr
  omega

/-- C13, amended: the tokens that the successful requests of any run of calls
return are consecutive modulo 2^32, starting at the token counter, and the
counter ends advanced by exactly their number (a failed request consumes no
token); as long as the counter does not pass 2^32 they are strictly
increasing. -/
theorem C13_tokens_consecutive (m : Memory) (cs : List MemoryCall)
    (hm : m.nextToken < 4294967296) :
    (m.calls cs).1 = (List.range (m.calls cs).1.length).map
      (fun i => (m.nextToken + i) % 4294967296) ∧
    (m.calls cs).2.nextToken = (m.nextToken + (m.calls cs).1.length) % 4294967296 ∧
    (m.nextToken + (m.calls cs).1.length ≤ 4294967296 →
      (m.calls cs).1.Pairwise (fun a b => a < b)) := by
  obtain ⟨h1, h2⟩ := calls_tokens cs m hm
  refine ⟨h1, h2, ?_⟩
  intro hb
  rw [h1, List.pairwise_map]
  refine List.Pairwise.imp_of_mem ?_ (List.pairwise_lt_range _)
  intro a b ha hb' hab
  rw [List.mem_range] at ha hb'
  rw [Nat.mod_eq_of_lt (by omega), Nat.mod_eq_of_lt (by omega)]
  omega

/-- Witness of C13 (amended): on the fresh memory, a load, a second load in
the same cycle (busy), a tick, a store, a tick and a load return the tokens
0, 1, 2. -/
theorem C13_tokens_consecutive_witness :
    ((Memory.new 16 1 2).calls [.load .EXECUTE 0, .load .FETCH 4, .tick,
      .store .EXECUTE 8 5, .tick, .load .FETCH 4]).1 = [0, 1, 2] ∧
    ((Memory.new 16 1 2).calls [.load .EXECUTE 0, .load .FETCH 4, .tick,
      .store .EXECUTE 8 5, .tick, .load .FETCH 4]).1.Pairwise (fun a b => a < b) := by
  have h := C13_tokens_consecutive (Memory.new 16 1 2) [.load .EXECUTE 0, .load .FETCH 4, .tick,
      .store .EXECUTE 8 5, .tick, .load .FETCH 4] (by decide)
  exact ⟨by decide, h.2.2 (by decide)⟩


/-! ## Shifts, rotations and logic: C14 to C20 -/

/-- N and Z written from the result (Z first), C and V untouched. -/
theorem resultFlags_zn (x res : Nat) (hres : res < 4294967296) :
    ResultFlags res (getXpsrC x) x
      (setXpsrN (setXpsrZ x (if res = 0 then 1 else 0))
        (if res / 2147483648 = 0 then 0 else 1)) := by
  unfold ResultFlags getXpsrZ getXpsrN getXpsrC getXpsrV setXpsrZ setXpsrN
    XPSR_NBIT_INDEX XPSR_ZBIT_INDEX XPSR_CBIT_INDEX XPSR_VBIT_INDEX
  refine ⟨?_, ?_, ?_, ?_⟩
  · rw [getXpsrBit_setXpsrBit_same 31 _ _ (by norm_num)]
    split_ifs <;> omega
  · rw [getXpsrBit_setXpsrBit_other 31 30 _ _ (by norm_num) (by norm_num) (by norm_num),
      getXpsrBit_setXpsrBit_same 30 _ _ (by norm_num)]
    split_ifs <;> rfl
  · rw [getXpsrBit_setXpsrBit_other 31 29 _ _ (by norm_num) (by norm_num) (by norm_num),
      getXpsrBit_setXpsrBit_other 30 29 _ _ (by norm_num) (by norm_num) (by norm_num)]
  · rw [getXpsrBit_setXpsrBit_other 31 28 _ _ (by norm_num) (by norm_num) (by norm_num),
      getXpsrBit_setXpsrBit_other 30 28 _ _ (by norm_num) (by norm_num) (by norm_num)]

/-- N and Z written from the result (N first), C and V untouched. -/
theorem resultFlags_nz (x res : Nat) (hres : res < 4294967296) :
    ResultFlags res (getXpsrC x) x
      (setXpsrZ (setXpsrN x (if res / 2147483648 = 0 then 0 else 1))
        (if res = 0 then 1 else 0)) := by
  unfold ResultFlags getXpsrZ getXpsrN getXpsrC getXpsrV setXpsrZ setXpsrN
    XPSR_NBIT_INDEX XPSR_ZBIT_INDEX XPSR_CBIT_INDEX XPSR_VBIT_INDEX
  refine ⟨?_, ?_, ?_, ?_⟩
  · rw [getXpsrBit_setXpsrBit_other 30 31 _ _ (by norm_num) (by norm_num) (by norm_num),
      getXpsrBit_setXpsrBit_same 31 _ _ (by norm_num)]
    split_ifs <;> omega
  · rw [getXpsrBit_setXpsrBit_same 30 _ _ (by norm_num)]
    split_ifs <;> rfl
  · rw [getXpsrBit_setXpsrBit_other 30 29 _ _ (by norm_num) (by norm_num) (by norm_num),
      getXpsrBit_setXpsrBit_other 31 29 _ _ (by norm_num) (by norm_num) (by norm_num)]
  · rw [getXpsrBit_setXpsrBit_other 30 28 _ _ (by norm_num) (by norm_num) (by norm_num),
      getXpsrBit_setXpsrBit_other 31 28 _ _ (by norm_num) (by norm_num) (by norm_num)]

/-- The flags when C was written just before N and Z. -/
theorem resultFlags_after_c (res x0 f x : Nat)
    (h : ResultFlags res (getXpsrC (setXpsrC x0 f)) (setXpsrC x0 f) x) :
    ResultFlags res (f % 2) x0 x := by
  obtain ⟨h1, h2, h3, h4⟩ := h
  refine ⟨h1, h2, ?_, ?_⟩
  · rw [h3]
    unfold getXpsrC setXpsrC XPSR_CBIT_INDEX
    exact getXpsrBit_setXpsrBit_same 29 _ _ (by norm_num)
  · rw [h4]
    unfold getXpsrV setXpsrC XPSR_CBIT_INDEX XPSR_VBIT_INDEX
    exact getXpsrBit_setXpsrBit_other 29 28 _ _ (by norm_num) (by norm_num) (by norm_num)

/-- The common tail of the shift and logic routines, Z computed first. -/
theorem tail_zn (s : Processor) (rd : Reg) (res : Nat) (i : Instruction) (hrd : rd ≠ .XPSR) :
    (addInstruction (writeReg (calculateXpsrN (calculateXpsrZ s res) res 32) rd res)
      i).regFile.regs rd = res ∧
    (addInstruction (writeReg (calculateXpsrN (calculateXpsrZ s res) res 32) rd res)
      i).regFile.regs .XPSR =
      setXpsrN (setXpsrZ (s.regFile.regs .XPSR) (if res = 0 then 1 else 0))
        (if res / 2147483648 = 0 then 0 else 1) := by
  refine ⟨?_, ?_⟩
  · rw [addInstruction_regs, writeReg_regs_same]
  · rw [addInstruction_regs, writeReg_regs_ne _ _ _ _ (Ne.symm hrd)]
    rw [calculateXpsrN_xpsr, calculateXpsrZ_xpsr]

/-- The common tail of the shift and logic routines, N computed first. -/
theorem tail_nz (s : Processor) (rd : Reg) (res : Nat) (i : Instruction) (hrd : rd ≠ .XPSR) :
    (addInstruction (writeReg (calculateXpsrZ (calculateXpsrN s res 32) res) rd res)
      i).regFile.regs rd = res ∧
    (addInstruction (writeReg (calculateXpsrZ (calculateXpsrN s res 32) res) rd res)
      i).regFile.regs .XPSR =
      setXpsrZ (setXpsrN (s.regFile.regs .XPSR) (if res / 2147483648 = 0 then 0 else 1))
        (if res = 0 then 1 else 0) := by
  refine ⟨?_, ?_⟩
  · rw [addInstruction_regs, writeReg_regs_same]
  · rw [addInstruction_regs, writeReg_regs_ne _ _ _ _ (Ne.symm hrd)]
    rw [calculateXpsrZ_xpsr, calculateXpsrN_xpsr]

theorem writeXpsrC_xpsr (s : Processor) (f : Nat) :
    (writeXpsrC s f).regFile.regs .XPSR = setXpsrC (s.regFile.regs .XPSR) f := by
  simp [writeXpsrC, writeReg, RegFile.write, RegFile.readData]


theorem shr_and_one_mod (x k : Nat) : ((x >>> k) &&& 1) % 2 = x / 2 ^ k % 2 := by
  rw [Nat.and_one_is_mod, Nat.shiftRight_eq_div_pow, Nat.mod_mod]

/-- C14: LSL by `n` of a 32-bit `src`. For 0 < n < 32 (LSL1 and LSL2) the
destination gets `(src << n) mod 2^32` and C becomes bit `32 - n` of `src`;
LSL2 by 32 gives 0 with C = bit 0 of `src`, by more than 32 gives 0 with
C = 0; in every case N and Z come from the result and V is unchanged. -/
theorem C14_lsl_result_and_carry (s : Processor) (rd : Reg) (src n : Nat)
    (hrd : rd ≠ .XPSR) :
    (0 < n → n < 32 →
      (∃ s', lsl1 s rd src n = .ok s' ∧ s'.regFile.regs rd = src * 2 ^ n % 4294967296 ∧
        ResultFlags (src * 2 ^ n % 4294967296) (src / 2 ^ (32 - n) % 2)
          (s.regFile.regs .XPSR) (s'.regFile.regs .XPSR)) ∧
      (lsl2 s rd src n).regFile.regs rd = src * 2 ^ n % 4294967296 ∧
      ResultFlags (src * 2 ^ n % 4294967296) (src / 2 ^ (32 - n) % 2)
        (s.regFile.regs .XPSR) ((lsl2 s rd src n).regFile.regs .XPSR)) ∧
    (n = 32 → (lsl2 s rd src n).regFile.regs rd = 0 ∧
      ResultFlags 0 (src % 2) (s.regFile.regs .XPSR) ((lsl2 s rd src n).regFile.regs .XPSR)) ∧
    (32 < n → (lsl2 s rd src n).regFile.regs rd = 0 ∧
      ResultFlags 0 0 (s.regFile.regs .XPSR) ((lsl2 s rd src n).regFile.regs .XPSR)) := by
  have hlt : ∀ x : Nat, x % 4294967296 < 4294967296 := fun x => Nat.mod_lt _ (by norm_num)
  refine ⟨?_, ?_, ?_⟩
  · intro h0 h32
    have hn0 : n ≠ 0 := by omega
    have hge : ¬ n ≥ 32 := by omega
    have hne : ¬ n = 32 := by omega
    have hgt : ¬ n > 32 := by omega
    have hfl := resultFlags_after_c (src * 2 ^ n % 4294967296) (s.regFile.regs .XPSR)
      ((src >>> (32 - n)) &&& 1) _ (resultFlags_zn _ _ (hlt _))
    rw [shr_and_one_mod] at hfl
    have e1 : lsl1 s rd src n = .ok (addInstruction (writeReg (calculateXpsrN (calculateXpsrZ
        (writeXpsrC s ((src >>> (32 - n)) &&& 1)) (src * 2 ^ n % 4294967296))
        (src * 2 ^ n % 4294967296) 32) rd (src * 2 ^ n % 4294967296)) .LSL) := by
      simp only [lsl1, BITS_PER_WORD, hge, hn0, h32, if_false, if_true, shl32_eq]
    have e2 : lsl2 s rd src n = addInstruction (writeReg (calculateXpsrN (calculateXpsrZ
        (writeXpsrC s ((src >>> (32 - n)) &&& 1)) (src * 2 ^ n % 4294967296))
        (src * 2 ^ n % 4294967296) 32) rd (src * 2 ^ n % 4294967296)) .LSL := by
      simp only [lsl2, BITS_PER_WORD, hn0, hne, hgt, if_false, shl32_eq]
    have hx := (tail_zn (writeXpsrC s ((src >>> (32 - n)) &&& 1)) rd
      (src * 2 ^ n % 4294967296) .LSL hrd)
    rw [writeXpsrC_xpsr] at hx
    rw [e2]
    refine ⟨⟨_, e1, hx.1, ?_⟩, hx.1, ?_⟩
    · rw [hx.2]; exact hfl
    · rw [hx.2]; exact hfl
  · intro h32
    subst h32
    have hfl := resultFlags_after_c 0 (s.regFile.regs .XPSR) (src &&& 1) _
      (resultFlags_zn _ _ (by norm_num))
    rw [Nat.and_one_is_mod, Nat.mod_mod] at hfl
    refine ⟨?_, ?_⟩
    · simp only [lsl2, BITS_PER_WORD, if_true, if_false, OfNat.ofNat_ne_zero]
      exact (tail_zn _ rd _ .LSL hrd).1
    · simp only [lsl2, BITS_PER_WORD, if_true, if_false, OfNat.ofNat_ne_zero]
      rw [(tail_zn _ rd _ .LSL hrd).2, writeXpsrC_xpsr, Nat.and_one_is_mod]
      exact hfl
  · intro h32
    have hn0 : n ≠ 0 := by omega
    have hne : ¬ n = 32 := by omega
    have hfl := resultFlags_after_c 0 (s.regFile.regs .XPSR) 0 _
      (resultFlags_zn _ _ (by norm_num))
    refine ⟨?_, ?_⟩
    · simp only [lsl2, BITS_PER_WORD, hn0, hne, h32, gt_iff_lt, if_true, if_false]
      exact (tail_zn _ rd _ .LSL hrd).1
    · simp only [lsl2, BITS_PER_WORD, hn0, hne, h32, gt_iff_lt, if_true, if_false]
      rw [(tail_zn _ rd _ .LSL hrd).2, writeXpsrC_xpsr]
      exact hfl

/-- Witness of C14: `0xC0000001 << 1` is `0x80000002` with C = 1 (bit 31 of
the source), N = 1 and Z = 0. -/
theorem C14_lsl_result_and_carry_witness :
    ∃ s', lsl1 (Processor.new 1024 1) .R0 0xC0000001 1 = .ok s' ∧
      s'.regFile.regs .R0 = 0x80000002 ∧
      getXpsrC (s'.regFile.regs .XPSR) = 1 ∧ getXpsrN (s'.regFile.regs .XPSR) = 1 ∧
      getXpsrZ (s'.regFile.regs .XPSR) = 0 := by
  obtain ⟨s', h1, h2, h3, h4, h5, _⟩ := ((C14_lsl_result_and_carry (Processor.new 1024 1) .R0
    0xC0000001 1 (by decide)).1 (by norm_num) (by norm_num)).1
  exact ⟨s', h1, by rw [h2]; norm_num, by rw [h5]; norm_num, by rw [h3]; norm_num,
    by rw [h4]; norm_num⟩


theorem pow_split32 (n : Nat) (h32 : n ≤ 32) : 2 ^ (32 - n) * 2 ^ n = 4294967296 := by
  rw [← pow_add]
  have : 32 - n + n = 32 := by omega
  rw [this]
  norm_num

/-- The sign fill of ASR: the logical shift with the top `n` bits set is the
shifted value plus `2^32 - 2^(32-n)`. -/
theorem asr_fill (src n : Nat) (hsrc : src < 4294967296) (h0 : 0 < n) (h32 : n < 32) :
    (src >>> n) ||| shl32 (not32 0) (32 - n) = src / 2 ^ n + (4294967296 - 2 ^ (32 - n)) := by
  have hAB := pow_split32 n (by omega)
  have hB : 1 ≤ 2 ^ (32 - n) := Nat.one_le_two_pow
  have hB32 : 2 ^ (32 - n) ≤ 4294967296 := by
    calc 2 ^ (32 - n) ≤ 2 ^ 32 := Nat.pow_le_pow_right (by norm_num) (by omega)
      _ = 4294967296 := by norm_num
  have hq : src / 2 ^ n < 2 ^ (32 - n) := by
    rw [Nat.div_lt_iff_lt_mul (by positivity), hAB]
    exact hsrc
  have h1 : not32 0 = 4294967295 := by decide
  rw [h1, shl32_eq, Nat.shiftRight_eq_div_pow]
  have e1 : 4294967295 * 2 ^ (32 - n) % 4294967296 = 4294967296 - 2 ^ (32 - n) := by omega
  have e2 : 4294967296 - 2 ^ (32 - n) = 2 ^ (32 - n) * (2 ^ n - 1) := by
    rw [Nat.mul_sub, Nat.mul_one, hAB]
  rw [e1, e2, Nat.or_comm, ← Nat.mul_add_lt_is_or hq (2 ^ n - 1)]
  omega

/-- Floor division of the signed reading by `2^n`, encoded in 32 bits. -/
theorem asr_floor (src n : Nat) (hsrc : src < 4294967296) (h0 : 0 < n) (h32 : n < 32) :
    (((src / 2 ^ n + (if 2147483648 ≤ src then 4294967296 - 2 ^ (32 - n) else 0) : Nat)) : Int) =
      (Int.fdiv (toSigned32 src) (2 ^ n)) % 4294967296 := by
  have hAB := pow_split32 n (by omega)
  have hpos : (0 : Int) < 2 ^ n := by positivity
  have hB32 : 2 ^ (32 - n) ≤ 4294967296 := by
    calc 2 ^ (32 - n) ≤ 2 ^ 32 := Nat.pow_le_pow_right (by norm_num) (by omega)
      _ = 4294967296 := by norm_num
  have hB : 1 ≤ 2 ^ (32 - n) := Nat.one_le_two_pow
  have hq : src / 2 ^ n < 2 ^ (32 - n) := by
    rw [Nat.div_lt_iff_lt_mul (by positivity), hAB]
    exact hsrc
  rw [Int.fdiv_eq_ediv _ (le_of_lt hpos), toSigned32, Nat.mod_eq_of_lt hsrc]
  have hcast : ((src : Nat) : Int) / (2 : Int) ^ n = ((src / 2 ^ n : Nat) : Int) := by
    push_cast; rfl
  by_cases hs : src < 2147483648
  · rw [if_pos hs, if_neg (by omega), hcast]
    generalize src / 2 ^ n = q at *
    omega
  · rw [if_neg hs, if_pos (by omega)]
    have e : ((src : Nat) : Int) - 4294967296 =
        (src : Int) + (-((2 ^ (32 - n) : Nat) : Int)) * (2 : Int) ^ n := by
      have : ((2 ^ (32 - n) * 2 ^ n : Nat) : Int) = 4294967296 := by rw [hAB]; rfl
      push_cast at this ⊢
      linarith
    rw [e, Int.add_mul_ediv_right _ _ (ne_of_gt hpos), hcast]
    generalize src / 2 ^ n = q at *
    generalize 2 ^ (32 - n) = B at *
    omega


theorem asrValue_eq (src n : Nat) (hsrc : src < 4294967296) (h0 : 0 < n) (h32 : n < 32) :
    asrValue src n =
      src / 2 ^ n + (if 2147483648 ≤ src then 4294967296 - 2 ^ (32 - n) else 0) := by
  unfold asrValue
  rw [← asr_floor src n hsrc h0 h32]
  exact Int.toNat_natCast _

theorem asrValue_lt (src n : Nat) : asrValue src n < 4294967296 := by
  unfold asrValue
  have h := Int.emod_lt_of_pos (Int.fdiv (toSigned32 src) (2 ^ n)) (by norm_num : (0 : Int) < 4294967296)
  have h0 := Int.emod_nonneg (Int.fdiv (toSigned32 src) (2 ^ n)) (by norm_num : (4294967296 : Int) ≠ 0)
  omega

theorem bit31_eq (src : Nat) (hsrc : src < 4294967296) :
    (GET_BIT_AT_POS src 31 = 1) ↔ 2147483648 ≤ src := by
  rw [getBit_eq]
  have : (2 : Nat) ^ 31 = 2147483648 := by norm_num
  rw [this]
  omega

/-- The value that `asr1` and `asr2` compute for a shift by 0 < n < 32. -/
theorem asr_code_value (src n : Nat) (hsrc : src < 4294967296) (h0 : 0 < n) (h32 : n < 32) :
    (if GET_BIT_AT_POS src 31 = 1 then (src >>> n) ||| shl32 (not32 0) (32 - n)
      else src >>> n) = asrValue src n := by
  rw [asrValue_eq src n hsrc h0 h32]
  by_cases h : 2147483648 ≤ src
  · rw [if_pos ((bit31_eq src hsrc).2 h), if_pos h, asr_fill src n hsrc h0 h32]
  · rw [if_neg (fun e => h ((bit31_eq src hsrc).1 e)), if_neg h, Nat.shiftRight_eq_div_pow]
    rfl

theorem writeReg_xpsr (s : Processor) (x : Nat) :
    (writeReg s .XPSR x).regFile.regs .XPSR = x := writeReg_regs_same s .XPSR x

/-- C15: ASR by `n` of a 32-bit `src`. For 0 < n < 32 (ASR1 and ASR2) the
destination gets the 32-bit encoding of `floor(signed(src) / 2^n)`, which is
the logical shift with the top `n` bits filled with bit 31 of `src`, and C
becomes bit `n - 1` of `src`; ASR2 by 32 or more gives `0xFFFFFFFF` when bit
31 of `src` is set and 0 otherwise, with C = bit 31 of `src`. N and Z come
from the result and V is unchanged. -/
theorem C15_asr_result_and_carry (s : Processor) (rd : Reg) (src n : Nat)
    (hrd : rd ≠ .XPSR) (hsrc : src < 4294967296) :
    (0 < n → n < 32 →
      asrValue src n =
        src / 2 ^ n + (if 2147483648 ≤ src then 4294967296 - 2 ^ (32 - n) else 0) ∧
      (∃ s', asr1 s rd src n = .ok s' ∧ s'.regFile.regs rd = asrValue src n ∧
        ResultFlags (asrValue src n) (src / 2 ^ (n - 1) % 2)
          (s.regFile.regs .XPSR) (s'.regFile.regs .XPSR)) ∧
      (asr2 s rd src n).regFile.regs rd = asrValue src n ∧
      ResultFlags (asrValue src n) (src / 2 ^ (n - 1) % 2)
        (s.regFile.regs .XPSR) ((asr2 s rd src n).regFile.regs .XPSR)) ∧
    (32 ≤ n →
      (asr2 s rd src n).regFile.regs rd = (if 2147483648 ≤ src then 4294967295 else 0) ∧
      ResultFlags (if 2147483648 ≤ src then 4294967295 else 0) (src / 2147483648)
        (s.regFile.regs .XPSR) ((asr2 s rd src n).regFile.regs .XPSR)) := by
  refine ⟨?_, ?_⟩
  · intro h0 h32
    have hn0 : n ≠ 0 := by omega
    have hge : ¬ n ≥ 32 := by omega
    have hv := asr_code_value src n hsrc h0 h32
    have hfl := resultFlags_after_c (asrValue src n) (s.regFile.regs .XPSR)
      ((src >>> (n - 1)) &&& 1) _ (resultFlags_nz _ _ (asrValue_lt src n))
    rw [shr_and_one_mod] at hfl
    have e1 : asr1 s rd src n = .ok (addInstruction (writeReg (calculateXpsrZ (calculateXpsrN
        (writeXpsrC s ((src >>> (n - 1)) &&& 1)) (asrValue src n) 32) (asrValue src n))
        rd (asrValue src n)) .ASR) := by
      simp only [asr1, BITS_PER_WORD, hge, hn0, if_false, Nat.add_one_sub_one, hv]
    have e2 : asr2 s rd src n = addInstruction (writeReg (calculateXpsrZ (calculateXpsrN
        (writeXpsrC s ((src >>> (n - 1)) &&& 1)) (asrValue src n) 32) (asrValue src n))
        rd (asrValue src n)) .ASR := by
      simp only [asr2, BITS_PER_WORD, hn0, h32, if_false, if_true, Nat.add_one_sub_one, hv,
        writeXpsrC]
    have hx := (tail_nz (writeXpsrC s ((src >>> (n - 1)) &&& 1)) rd (asrValue src n) .ASR hrd)
    rw [writeXpsrC_xpsr] at hx
    rw [e2]
    refine ⟨asrValue_eq src n hsrc h0 h32, ⟨_, e1, hx.1, ?_⟩, hx.1, ?_⟩
    · rw [hx.2]; exact hfl
    · rw [hx.2]; exact hfl
  · intro h32
    have hn0 : n ≠ 0 := by omega
    have hlt : ¬ n < 32 := by omega
    by_cases h : 2147483648 ≤ src
    · have hb := (bit31_eq src hsrc).2 h
      have e2 : asr2 s rd src n = addInstruction (writeReg (calculateXpsrZ (calculateXpsrN
          (writeXpsrC s 1) 4294967295 32) 4294967295) rd 4294967295) .ASR := by
        simp only [asr2, BITS_PER_WORD, hn0, hlt, if_false, Nat.add_one_sub_one, hb, if_true,
          writeXpsrC]
        rfl
      have hx := (tail_nz (writeXpsrC s 1) rd 4294967295 .ASR hrd)
      rw [writeXpsrC_xpsr] at hx
      have hfl := resultFlags_after_c 4294967295 (s.regFile.regs .XPSR) 1 _
        (resultFlags_nz _ _ (by norm_num))
      have hc : src / 2147483648 = 1 % 2 := by omega
      rw [e2, if_pos h, hc]
      refine ⟨hx.1, ?_⟩
      rw [hx.2]; exact hfl
    · have hb : ¬ GET_BIT_AT_POS src 31 = 1 := fun e => h ((bit31_eq src hsrc).1 e)
      have e2 : asr2 s rd src n = addInstruction (writeReg (calculateXpsrZ (calculateXpsrN
          (writeXpsrC s 0) 0 32) 0) rd 0) .ASR := by
        simp only [asr2, BITS_PER_WORD, hn0, hlt, if_false, Nat.add_one_sub_one, hb,
          writeXpsrC]
      have hx := (tail_nz (writeXpsrC s 0) rd 0 .ASR hrd)
      rw [writeXpsrC_xpsr] at hx
      have hfl := resultFlags_after_c 0 (s.regFile.regs .XPSR) 0 _
        (resultFlags_nz _ _ (by norm_num))
      have hc : src / 2147483648 = 0 % 2 := by omega
      rw [e2, if_neg h, hc]
      refine ⟨hx.1, ?_⟩
      rw [hx.2]; exact hfl

/-- Witness of C15: `0x80000005 >> 2` arithmetically is `0xE0000001`, with
C = 0 (bit 1 of the source) and N = 1. -/
theorem C15_asr_result_and_carry_witness :
    ∃ s', asr1 (Processor.new 1024 1) .R0 0x80000005 2 = .ok s' ∧
      s'.regFile.regs .R0 = 0xE0000001 ∧
      getXpsrC (s'.regFile.regs .XPSR) = 0 ∧ getXpsrN (s'.regFile.regs .XPSR) = 1 := by
  obtain ⟨hv, ⟨s', h1, h2, h3, _, h5, _⟩, _⟩ := (C15_asr_result_and_carry (Processor.new 1024 1)
    .R0 0x80000005 2 (by decide) (by norm_num)).1 (by norm_num) (by norm_num)
  rw [hv] at h2 h3
  exact ⟨s', h1, by rw [h2]; norm_num, by rw [h5]; norm_num, by rw [h3]; norm_num⟩


/-- The value `ror` computes for a rotation by 0 < k < 32: the low `k` bits of
`src` move to the top. -/
theorem ror_value (src k : Nat) (hsrc : src < 4294967296) (h0 : 0 < k) (h32 : k < 32) :
    shl32 src (32 - k) ||| (src >>> k) = src / 2 ^ k + src % 2 ^ k * 2 ^ (32 - k) := by
  have hAB := pow_split32 k (by omega)
  have hApos : 0 < 2 ^ k := by positivity
  have hq : src / 2 ^ k < 2 ^ (32 - k) := by
    rw [Nat.div_lt_iff_lt_mul hApos, hAB]
    exact hsrc
  have hr : src % 2 ^ k < 2 ^ k := Nat.mod_lt _ hApos
  have hmul : src * 2 ^ (32 - k) =
      src % 2 ^ k * 2 ^ (32 - k) + (2 ^ (32 - k) * 2 ^ k) * (src / 2 ^ k) := by
    conv_lhs => rw [← Nat.div_add_mod src (2 ^ k)]
    ring
  have hrB : src % 2 ^ k * 2 ^ (32 - k) < 4294967296 := by
    rw [← hAB, Nat.mul_comm]
    exact Nat.mul_lt_mul_of_pos_left hr (by positivity)
  rw [shl32_eq, Nat.shiftRight_eq_div_pow, hmul, hAB, Nat.add_mul_mod_self_left,
    Nat.mod_eq_of_lt hrB, Nat.mul_comm (src % 2 ^ k), ← Nat.mul_add_lt_is_or hq]
  omega

/-- Bit 0 of a value masked with a single bit above bit 0 is clear. -/
theorem and_pow_even (src j : Nat) (hj : 0 < j) : (src &&& 2 ^ j) % 2 = 0 := by
  rw [Nat.and_two_pow]
  obtain ⟨i, rfl⟩ : ∃ i, j = i + 1 := ⟨j - 1, by omega⟩
  rw [pow_succ, ← Nat.mul_assoc]
  exact Nat.mul_mod_left _ _

theorem getXpsrC_zn (x z n : Nat) : getXpsrC (setXpsrN (setXpsrZ x z) n) = getXpsrC x := by
  unfold getXpsrC setXpsrZ setXpsrN XPSR_NBIT_INDEX XPSR_ZBIT_INDEX XPSR_CBIT_INDEX
  rw [getXpsrBit_setXpsrBit_other 31 29 _ _ (by norm_num) (by norm_num) (by norm_num),
    getXpsrBit_setXpsrBit_other 30 29 _ _ (by norm_num) (by norm_num) (by norm_num)]

theorem getXpsrC_setXpsrC (x f : Nat) : getXpsrC (setXpsrC x f) = f % 2 := by
  unfold getXpsrC setXpsrC XPSR_CBIT_INDEX
  exact getXpsrBit_setXpsrBit_same 29 _ _ (by norm_num)

/-- C16: ROR of a 32-bit `src` by `n` with `n mod 32` nonzero writes `src`
rotated right by `n mod 32` to Rdn, but leaves C at bit 0 of `src` when
`n mod 32 = 1` and at 0 otherwise: for `n mod 32 >= 2` the flag is not the
last bit rotated out, bit `(n mod 32) - 1` of `src`, whenever that bit is 1. -/
theorem C16_ror_carry_diverges (s : Processor) (rd : Reg) (src n : Nat)
    (hrd : rd ≠ .XPSR) (hsrc : src < 4294967296) (hn : n % 32 ≠ 0) :
    (ror s rd src n).regFile.regs rd =
      src / 2 ^ (n % 32) + src % 2 ^ (n % 32) * 2 ^ (32 - n % 32) ∧
    getXpsrC ((ror s rd src n).regFile.regs .XPSR) = (if n % 32 = 1 then src % 2 else 0) ∧
    (2 ≤ n % 32 → src / 2 ^ (n % 32 - 1) % 2 = 1 →
      getXpsrC ((ror s rd src n).regFile.regs .XPSR) ≠ src / 2 ^ (n % 32 - 1) % 2) := by
  have hn0 : n ≠ 0 := by intro e; rw [e] at hn; exact hn rfl
  have hk32 : n % 32 < 32 := Nat.mod_lt _ (by norm_num)
  have hv := ror_value src (n % 32) hsrc (by omega) hk32
  have e : ror s rd src n = addInstruction (writeReg (calculateXpsrN (calculateXpsrZ
      (writeReg s .XPSR (setXpsrC (s.regFile.regs .XPSR) (src &&& shl32 1 (n % 32 - 1))))
      (src / 2 ^ (n % 32) + src % 2 ^ (n % 32) * 2 ^ (32 - n % 32)))
      (src / 2 ^ (n % 32) + src % 2 ^ (n % 32) * 2 ^ (32 - n % 32)) 32) rd
      (src / 2 ^ (n % 32) + src % 2 ^ (n % 32) * 2 ^ (32 - n % 32))) .ROR := by
    simp only [ror, BITS_PER_WORD, hn0, hn, if_false, hv, RegFile.readData]
  have hx := tail_zn (writeReg s .XPSR (setXpsrC (s.regFile.regs .XPSR)
    (src &&& shl32 1 (n % 32 - 1)))) rd
    (src / 2 ^ (n % 32) + src % 2 ^ (n % 32) * 2 ^ (32 - n % 32)) .ROR hrd
  rw [writeReg_xpsr] at hx
  have hc : getXpsrC ((ror s rd src n).regFile.regs .XPSR) =
      (if n % 32 = 1 then src % 2 else 0) := by
    rw [e, hx.2, getXpsrC_zn, getXpsrC_setXpsrC, shl32_one _ (by omega)]
    by_cases h1 : n % 32 = 1
    · rw [if_pos h1, h1]
      simp [Nat.and_one_is_mod]
    · rw [if_neg h1]
      exact and_pow_even src _ (by omega)
  refine ⟨by rw [e]; exact hx.1, hc, ?_⟩
  intro h2 hbit
  rw [hc, if_neg (by omega), hbit]
  norm_num

/-- Witness of C16: ROR of 2 by 2 gives `0x80000000`; the last bit rotated
out (bit 1 of the source) is 1, the C flag is left at 0. -/
theorem C16_ror_carry_diverges_witness :
    (ror (Processor.new 1024 1) .R0 2 2).regFile.regs .R0 = 0x80000000 ∧
    GET_BIT_AT_POS 2 (2 - 1) = 1 ∧
    getXpsrC ((ror (Processor.new 1024 1) .R0 2 2).regFile.regs .XPSR) = 0 := by
  obtain ⟨h1, h2, _⟩ := C16_ror_carry_diverges (Processor.new 1024 1) .R0 2 2 (by decide)
    (by norm_num) (by norm_num)
  exact ⟨by rw [h1]; norm_num, by decide, by rw [h2]; norm_num⟩


theorem writeReg_xpsr_self (s : Processor) :
    writeReg s .XPSR (s.regFile.regs .XPSR) = s := by
  have : s.regFile.write .XPSR (s.regFile.regs .XPSR) = s.regFile := by
    unfold RegFile.write
    congr 1
    funext r
    by_cases h : r = .XPSR
    · rw [if_pos h, h]
    · rw [if_neg h]
  unfold writeReg
  rw [this]

/-- C17: a shift by 0 (LSL1, LSR1, ASR1 with immediate 0; LSL2, LSR2, ASR2
with Rm value 0) writes the 32-bit `v` unchanged to the destination and
leaves C and V as they were; N and Z are set from `v`. -/
theorem C17_shift_by_zero (s : Processor) (rd : Reg) (v : Nat)
    (hrd : rd ≠ .XPSR) (hv : v < 4294967296) :
    (∀ t, (lsl1 s rd v 0 = .ok t ∨ lsr1 s rd v 0 = .ok t ∨ asr1 s rd v 0 = .ok t ∨
        t = lsl2 s rd v 0 ∨ t = lsr2 s rd v 0 ∨ t = asr2 s rd v 0) →
      t.regFile.regs rd = v ∧
      ResultFlags v (getXpsrC (s.regFile.regs .XPSR)) (s.regFile.regs .XPSR)
        (t.regFile.regs .XPSR)) ∧
    (∃ t1 t2 t3, lsl1 s rd v 0 = .ok t1 ∧ lsr1 s rd v 0 = .ok t2 ∧ asr1 s rd v 0 = .ok t3) := by
  have hzn := tail_zn s rd v
  have hnz := tail_nz s rd v
  have fzn := resultFlags_zn (s.regFile.regs .XPSR) v hv
  have fnz := resultFlags_nz (s.regFile.regs .XPSR) v hv
  have e1 : lsl1 s rd v 0 = .ok (addInstruction (writeReg (calculateXpsrN (calculateXpsrZ s v)
      v 32) rd v) .LSL) := by
    simp only [lsl1, BITS_PER_WORD, ge_iff_le, Nat.le_zero_eq, OfNat.ofNat_ne_zero, if_false,
      if_true]
  have e2 : lsr1 s rd v 0 = .ok (addInstruction (writeReg (calculateXpsrN (calculateXpsrZ s v)
      v 32) rd v) .LSR) := by
    simp only [lsr1, BITS_PER_WORD, ge_iff_le, Nat.le_zero_eq, OfNat.ofNat_ne_zero, if_false,
      if_true]
  have e3 : asr1 s rd v 0 = .ok (addInstruction (writeReg (calculateXpsrZ (calculateXpsrN s v
      32) v) rd v) .ASR) := by
    simp only [asr1, BITS_PER_WORD, ge_iff_le, Nat.le_zero_eq, OfNat.ofNat_ne_zero, if_false,
      if_true]
  have e4 : lsl2 s rd v 0 = addInstruction (writeReg (calculateXpsrN (calculateXpsrZ s v)
      v 32) rd v) .LSL := by
    simp only [lsl2, BITS_PER_WORD, if_true]
  have e5 : lsr2 s rd v 0 = addInstruction (writeReg (calculateXpsrN (calculateXpsrZ s v)
      v 32) rd v) .LSR := by
    simp only [lsr2, BITS_PER_WORD, if_true]
  have e6 : asr2 s rd v 0 = addInstruction (writeReg (calculateXpsrZ (calculateXpsrN s v
      32) v) rd v) .ASR := by
    simp only [asr2, BITS_PER_WORD, if_true, RegFile.readData, writeReg_xpsr_self]
  refine ⟨?_, _, _, _, e1, e2, e3⟩
  intro t ht
  rcases ht with h | h | h | h | h | h
  · rw [e1] at h; cases h
    exact ⟨(hzn .LSL hrd).1, by rw [(hzn .LSL hrd).2]; exact fzn⟩
  · rw [e2] at h; cases h
    exact ⟨(hzn .LSR hrd).1, by rw [(hzn .LSR hrd).2]; exact fzn⟩
  · rw [e3] at h; cases h
    exact ⟨(hnz .ASR hrd).1, by rw [(hnz .ASR hrd).2]; exact fnz⟩
  · rw [h, e4]
    exact ⟨(hzn .LSL hrd).1, by rw [(hzn .LSL hrd).2]; exact fzn⟩
  · rw [h, e5]
    exact ⟨(hzn .LSR hrd).1, by rw [(hzn .LSR hrd).2]; exact fzn⟩
  · rw [h, e6]
    exact ⟨(hnz .ASR hrd).1, by rw [(hnz .ASR hrd).2]; exact fnz⟩

/-- Witness of C17: LSR by 0 of `0x80000001` on the fresh processor writes the
value back and leaves C = 0, V = 0. -/
theorem C17_shift_by_zero_witness :
    (lsr2 (Processor.new 1024 1) .R1 0x80000001 0).regFile.regs .R1 = 0x80000001 ∧
    getXpsrC ((lsr2 (Processor.new 1024 1) .R1 0x80000001 0).regFile.regs .XPSR) = 0 ∧
    getXpsrV ((lsr2 (Processor.new 1024 1) .R1 0x80000001 0).regFile.regs .XPSR) = 0 := by
  obtain ⟨h1, _, _, h3, h4⟩ := (C17_shift_by_zero (Processor.new 1024 1) .R1 0x80000001
    (by decide) (by norm_num)).1 _ (Or.inr (Or.inr (Or.inr (Or.inr (Or.inl rfl)))))
  exact ⟨h1, by rw [h3]; decide, by rw [h4]; decide⟩


/-- Or-ing sixteen ones onto a 16-bit value gives sixteen ones. -/
theorem or_ones16 (x : Nat) (hx : x < 65536) : x ||| 65535 = 65535 := by
  apply Nat.eq_of_testBit_eq
  intro i
  have e : (65535 : Nat) = 2 ^ 16 - 1 := by norm_num
  rw [Nat.testBit_or, e, Nat.testBit_two_pow_sub_one]
  by_cases hi : i < 16
  · simp [hi]
  · have : x.testBit i = false := by
      apply Nat.testBit_lt_two_pow
      calc x < 2 ^ 16 := by simpa using hx
        _ ≤ 2 ^ i := Nat.pow_le_pow_right (by norm_num) (by omega)
    simp [hi, this]

/-- The byte swap that `revsh` builds before the extension. -/
theorem revsh_swap (v : Nat) :
    shl32 ((v >>> 0) &&& 255) 8 ||| shl32 ((v >>> 8) &&& 255) 0 =
      v % 256 * 256 + v / 256 % 256 := by
  have ha : v % 256 < 256 := Nat.mod_lt _ (by norm_num)
  have hb : v / 256 % 256 < 256 := Nat.mod_lt _ (by norm_num)
  have e1 : (v >>> 0) &&& 255 = v % 256 := by rw [Nat.shiftRight_zero, and_mask8]
  have e2 : (v >>> 8) &&& 255 = v / 256 % 256 := by
    rw [and_mask8, Nat.shiftRight_eq_div_pow]
  rw [e1, e2, shl32_eq, shl32_eq]
  have m1 : v % 256 * 2 ^ 8 % 4294967296 = 2 ^ 8 * (v % 256) := by omega
  have m2 : v / 256 % 256 * 2 ^ 0 % 4294967296 = v / 256 % 256 := by omega
  rw [m1, m2, ← Nat.mul_add_lt_is_or (by omega)]
  omega

/-! ## The decoder cascade: C19 -/

/-- A masked comparison pinned by `e` excludes every pattern of a list that
disagrees with it on a bit common to both masks. -/
theorem matches_none_of (inst m0 v0 : Nat) (l : List (Nat × Nat)) (e : inst &&& m0 = v0)
    (hd : ∀ p, p ∈ l → ∃ i, i < 16 ∧ m0.testBit i = true ∧ p.1.testBit i = true ∧
      v0.testBit i ≠ p.2.testBit i) : ∀ p, p ∈ l → inst &&& p.1 ≠ p.2 := by
  intro p hp
  obtain ⟨i, _, h1, h2, h3⟩ := hd p hp
  exact pattern_excludes inst m0 v0 p.1 p.2 i e h1 h2 h3

/-- A halfword that matches none of the patterns of `decodeFromAdc` is passed
on to `decodeFromB2`. -/
theorem decodeFromAdc_skip (inst pc : Nat) (activeSp : Reg) (rf : RegFile) (d : DecodedInst)
    (h : ∀ p, p ∈ Decode.patternsFromAdc → inst &&& p.1 ≠ p.2) :
    Decode.decodeFromAdc inst pc activeSp rf d = Decode.decodeFromB2 inst pc activeSp rf d := by
  have p0 : inst &&& 0xFFC0 ≠ 0x4140 := h (0xFFC0, 0x4140) (by simp [Decode.patternsFromAdc])
  have p1 : inst &&& 0xFE00 ≠ 0x1C00 := h (0xFE00, 0x1C00) (by simp [Decode.patternsFromAdc])
  have p2 : inst &&& 0xF800 ≠ 0x3000 := h (0xF800, 0x3000) (by simp [Decode.patternsFromAdc])
  have p3 : inst &&& 0xFE00 ≠ 0x1800 := h (0xFE00, 0x1800) (by simp [Decode.patternsFromAdc])
  have p4 : inst &&& 0xFF00 ≠ 0x4400 := h (0xFF00, 0x4400) (by simp [Decode.patternsFromAdc])
  have p5 : inst &&& 0xF800 ≠ 0xA000 := h (0xF800, 0xA000) (by simp [Decode.patternsFromAdc])
  have p6 : inst &&& 0xF800 ≠ 0xA800 := h (0xF800, 0xA800) (by simp [Decode.patternsFromAdc])
  have p7 : inst &&& 0xFF80 ≠ 0xB000 := h (0xFF80, 0xB000) (by simp [Decode.patternsFromAdc])
  have p8 : inst &&& 0xFFC0 ≠ 0x4000 := h (0xFFC0, 0x4000) (by simp [Decode.patternsFromAdc])
  have p9 : inst &&& 0xF800 ≠ 0x1000 := h (0xF800, 0x1000) (by simp [Decode.patternsFromAdc])
  have p10 : inst &&& 0xFFC0 ≠ 0x4100 := h (0xFFC0, 0x4100) (by simp [Decode.patternsFromAdc])
  have p11 : inst &&& 0xF000 ≠ 0xD000 := h (0xF000, 0xD000) (by simp [Decode.patternsFromAdc])
  unfold Decode.decodeFromAdc
  simp only [p0, p1, p2, p3, p4, p5, p6, p7, p8, p9, p10, p11,
    if_false]

/-- A halfword that matches none of the patterns of `decodeFromB2` is passed
on to `decodeFromLdr1`. -/
theorem decodeFromB2_skip (inst pc : Nat) (activeSp : Reg) (rf : RegFile) (d : DecodedInst)
    (h : ∀ p, p ∈ Decode.patternsFromB2 → inst &&& p.1 ≠ p.2) :
    Decode.decodeFromB2 inst pc activeSp rf d = Decode.decodeFromLdr1 inst pc activeSp rf d := by
  have p0 : inst &&& 0xF800 ≠ 0xE000 := h (0xF800, 0xE000) (by simp [Decode.patternsFromB2])
  have p1 : inst &&& 0xFFC0 ≠ 0x4380 := h (0xFFC0, 0x4380) (by simp [Decode.patternsFromB2])
  have p2 : inst &&& 0xFF00 ≠ 0xBE00 := h (0xFF00, 0xBE00) (by simp [Decode.patternsFromB2])
  have p3 : inst &&& 0xF800 ≠ 0xF000 := h (0xF800, 0xF000) (by simp [Decode.patternsFromB2])
  have p4 : inst &&& 0xFF87 ≠ 0x4780 := h (0xFF87, 0x4780) (by simp [Decode.patternsFromB2])
  have p5 : inst &&& 0xFF87 ≠ 0x4700 := h (0xFF87, 0x4700) (by simp [Decode.patternsFromB2])
  have p6 : inst &&& 0xFFC0 ≠ 0x42C0 := h (0xFFC0, 0x42C0) (by simp [Decode.patternsFromB2])
  have p7 : inst &&& 0xF800 ≠ 0x2800 := h (0xF800, 0x2800) (by simp [Decode.patternsFromB2])
  have p8 : inst &&& 0xFFC0 ≠ 0x4280 := h (0xFFC0, 0x4280) (by simp [Decode.patternsFromB2])
  have p9 : inst &&& 0xFF00 ≠ 0x4500 := h (0xFF00, 0x4500) (by simp [Decode.patternsFromB2])
  have p10 : inst &&& 0xFFEC ≠ 0xB660 := h (0xFFEC, 0xB660) (by simp [Decode.patternsFromB2])
  have p11 : inst &&& 0xFF00 ≠ 0x4600 := h (0xFF00, 0x4600) (by simp [Decode.patternsFromB2])
  have p12 : inst &&& 0xFFC0 ≠ 0x4040 := h (0xFFC0, 0x4040) (by simp [Decode.patternsFromB2])
  have p13 : inst &&& 0xF800 ≠ 0xC800 := h (0xF800, 0xC800) (by simp [Decode.patternsFromB2])
  unfold Decode.decodeFromB2
  simp only [p0, p1, p2, p3, p4, p5, p6, p7, p8, p9, p10, p11, p12, p13,
    if_false]

/-- A halfword that matches none of the patterns of `decodeFromLdr1` is passed
on to `decodeFromMov1`. -/
theorem decodeFromLdr1_skip (inst pc : Nat) (activeSp : Reg) (rf : RegFile) (d : DecodedInst)
    (h : ∀ p, p ∈ Decode.patternsFromLdr1 → inst &&& p.1 ≠ p.2) :
    Decode.decodeFromLdr1 inst pc activeSp rf d = Decode.decodeFromMov1 inst pc activeSp rf d := by
  have p0 : inst &&& 0xF800 ≠ 0x6800 := h (0xF800, 0x6800) (by simp [Decode.patternsFromLdr1])
  have p1 : inst &&& 0xFE00 ≠ 0x5800 := h (0xFE00, 0x5800) (by simp [Decode.patternsFromLdr1])
  have p2 : inst &&& 0xF800 ≠ 0x4800 := h (0xF800, 0x4800) (by simp [Decode.patternsFromLdr1])
  have p3 : inst &&& 0xF800 ≠ 0x9800 := h (0xF800, 0x9800) (by simp [Decode.patternsFromLdr1])
  have p4 : inst &&& 0xF800 ≠ 0x7800 := h (0xF800, 0x7800) (by simp [Decode.patternsFromLdr1])
  have p5 : inst &&& 0xFE00 ≠ 0x5C00 := h (0xFE00, 0x5C00) (by simp [Decode.patternsFromLdr1])
  have p6 : inst &&& 0xF800 ≠ 0x8800 := h (0xF800, 0x8800) (by simp [Decode.patternsFromLdr1])
  have p7 : inst &&& 0xFE00 ≠ 0x5A00 := h (0xFE00, 0x5A00) (by simp [Decode.patternsFromLdr1])
  have p8 : inst &&& 0xFE00 ≠ 0x5600 := h (0xFE00, 0x5600) (by simp [Decode.patternsFromLdr1])
  have p9 : inst &&& 0xFE00 ≠ 0x5E00 := h (0xFE00, 0x5E00) (by simp [Decode.patternsFromLdr1])
  have p10 : inst &&& 0xF800 ≠ 0x0000 := h (0xF800, 0x0000) (by simp [Decode.patternsFromLdr1])
  have p11 : inst &&& 0xFFC0 ≠ 0x4080 := h (0xFFC0, 0x4080) (by simp [Decode.patternsFromLdr1])
  have p12 : inst &&& 0xF800 ≠ 0x0800 := h (0xF800, 0x0800) (by simp [Decode.patternsFromLdr1])
  have p13 : inst &&& 0xFFC0 ≠ 0x40C0 := h (0xFFC0, 0x40C0) (by simp [Decode.patternsFromLdr1])
  unfold Decode.decodeFromLdr1
  simp only [p0, p1, p2, p3, p4, p5, p6, p7, p8, p9, p10, p11, p12, p13,
    if_false]

/-- A halfword that matches none of the patterns of `decodeFromMov1` is passed
on to `decodeFromStmia`. -/
theorem decodeFromMov1_skip (inst pc : Nat) (activeSp : Reg) (rf : RegFile) (d : DecodedInst)
    (h : ∀ p, p ∈ Decode.patternsFromMov1 → inst &&& p.1 ≠ p.2) :
    Decode.decodeFromMov1 inst pc activeSp rf d = Decode.decodeFromStmia inst pc activeSp rf d := by
  have p0 : inst &&& 0xF800 ≠ 0x2000 := h (0xF800, 0x2000) (by simp [Decode.patternsFromMov1])
  have p1 : inst &&& 0xFFC0 ≠ 0x0000 := h (0xFFC0, 0x0000) (by simp [Decode.patternsFromMov1])
  have p2 : inst &&& 0xFFC0 ≠ 0x4340 := h (0xFFC0, 0x4340) (by simp [Decode.patternsFromMov1])
  have p3 : inst &&& 0xFFC0 ≠ 0x43C0 := h (0xFFC0, 0x43C0) (by simp [Decode.patternsFromMov1])
  have p4 : inst &&& 0xFFC0 ≠ 0x4240 := h (0xFFC0, 0x4240) (by simp [Decode.patternsFromMov1])
  have p5 : inst &&& 0xFFFF ≠ 0xBF00 := h (0xFFFF, 0xBF00) (by simp [Decode.patternsFromMov1])
  have p6 : inst &&& 0xFFC0 ≠ 0x4300 := h (0xFFC0, 0x4300) (by simp [Decode.patternsFromMov1])
  have p7 : inst &&& 0xFE00 ≠ 0xBC00 := h (0xFE00, 0xBC00) (by simp [Decode.patternsFromMov1])
  have p8 : inst &&& 0xFE00 ≠ 0xB400 := h (0xFE00, 0xB400) (by simp [Decode.patternsFromMov1])
  have p9 : inst &&& 0xFFC0 ≠ 0xBA00 := h (0xFFC0, 0xBA00) (by simp [Decode.patternsFromMov1])
  have p10 : inst &&& 0xFFC0 ≠ 0xBA40 := h (0xFFC0, 0xBA40) (by simp [Decode.patternsFromMov1])
  have p11 : inst &&& 0xFFC0 ≠ 0xBAC0 := h (0xFFC0, 0xBAC0) (by simp [Decode.patternsFromMov1])
  have p12 : inst &&& 0xFFC0 ≠ 0x41C0 := h (0xFFC0, 0x41C0) (by simp [Decode.patternsFromMov1])
  have p13 : inst &&& 0xFFC0 ≠ 0x4180 := h (0xFFC0, 0x4180) (by simp [Decode.patternsFromMov1])
  have p14 : inst &&& 0xFFFF ≠ 0xBF40 := h (0xFFFF, 0xBF40) (by simp [Decode.patternsFromMov1])
  unfold Decode.decodeFromMov1
  simp only [p0, p1, p2, p3, p4, p5, p6, p7, p8, p9, p10, p11, p12, p13, p14,
    if_false]


theorem setRegisterN_ok (d : DecodedInst) (index : DecodedInstRegIndex) (reg data : Nat)
    (h : reg < 19) : d.setRegisterN index reg data = .ok (d.setRegister index (Reg.fromNat reg) data) := by
  simp [DecodedInst.setRegisterN, RegFile.uint32ToReg, REGFILE_SIZE, h]

theorem and_seven_lt (x : Nat) : x &&& 7 < 19 :=
  lt_of_le_of_lt Nat.and_le_right (by norm_num)

/-- Narrowing a masked comparison to a part of its mask. -/
theorem and_narrow (inst m v m' : Nat) (e : inst &&& m = v) (hm : m &&& m' = m') :
    inst &&& m' = v &&& m' := by
  rw [← e, Nat.and_assoc, hm]

/-- A halfword whose top byte is `0xBA` passes the decoder up to the REV
pattern. -/
theorem decode_reach_rev (inst pc : Nat) (activeSp : Reg) (rf : RegFile) (d : DecodedInst)
    (e : inst &&& 0xFF00 = 0xBA00) :
    Decode.decodeFromAdc inst pc activeSp rf d = Decode.decodeFromMov1 inst pc activeSp rf d ∧
    ∀ p, p ∈ Decode.patternsFromMov1.take 9 → inst &&& p.1 ≠ p.2 := by
  refine ⟨?_, matches_none_of inst _ _ _ e (by decide)⟩
  rw [decodeFromAdc_skip _ _ _ _ _ (matches_none_of inst _ _ _ e (by decide)),
    decodeFromB2_skip _ _ _ _ _ (matches_none_of inst _ _ _ e (by decide)),
    decodeFromLdr1_skip _ _ _ _ _ (matches_none_of inst _ _ _ e (by decide))]

/-- C19: a halfword with `(h & 0xFFC0) = 0xBA00` decodes to REV and one with
`0xBA40` to REV16, with RD = bits 0..2 and RM = bits 3..5 carrying the value
of Rm; a halfword with `(h & 0xFFC0) = 0xBAC0` decodes to REV16 as well, not
to REVSH. -/
theorem C19_revsh_decodes_as_rev16 (inst pc : Nat) (activeSp : Reg) (rf : RegFile)
    (d : DecodedInst) :
    (inst &&& 0xFFC0 = 0xBA00 →
      Decode.decodeFromAdc inst pc activeSp rf d = .ok
        (((d.setOperation .REV).setRegister .RD (Reg.fromNat ((inst >>> 0) &&& 7)) 0).setRegister
          .RM (Reg.fromNat ((inst >>> 3) &&& 7)) (rf.regs (Reg.fromNat ((inst >>> 3) &&& 7))),
          false)) ∧
    (inst &&& 0xFFC0 = 0xBA40 →
      Decode.decodeFromAdc inst pc activeSp rf d = .ok
        (((d.setOperation .REV16).setRegister .RD (Reg.fromNat ((inst >>> 0) &&& 7))
          0).setRegister
          .RM (Reg.fromNat ((inst >>> 3) &&& 7)) (rf.regs (Reg.fromNat ((inst >>> 3) &&& 7))),
          false)) ∧
    (inst &&& 0xFFC0 = 0xBAC0 →
      Decode.decodeFromAdc inst pc activeSp rf d = .ok
        (((d.setOperation .REV16).setRegister .RD (Reg.fromNat ((inst >>> 0) &&& 7))
          0).setRegister
          .RM (Reg.fromNat ((inst >>> 3) &&& 7)) (rf.regs (Reg.fromNat ((inst >>> 3) &&& 7))),
          false)) := by
  have key : ∀ v : Nat, inst &&& 0xFFC0 = v → v &&& 0xFF00 = 0xBA00 →
      Decode.decodeFromAdc inst pc activeSp rf d = Decode.decodeFromMov1 inst pc activeSp rf d ∧
      ∀ p, p ∈ Decode.patternsFromMov1.take 9 → inst &&& p.1 ≠ p.2 := by
    intro v e hv
    have e' := and_narrow inst 0xFFC0 v 0xFF00 e (by decide)
    rw [hv] at e'
    exact decode_reach_rev inst pc activeSp rf d e'
  refine ⟨?_, ?_, ?_⟩
  · intro e
    obtain ⟨h1, h2⟩ := key _ e (by decide)
    have p0 : inst &&& 0xF800 ≠ 0x2000 := h2 (0xF800, 0x2000) (by decide)
    have p1 : inst &&& 0xFFC0 ≠ 0x0000 := h2 (0xFFC0, 0x0000) (by decide)
    have p2 : inst &&& 0xFFC0 ≠ 0x4340 := h2 (0xFFC0, 0x4340) (by decide)
    have p3 : inst &&& 0xFFC0 ≠ 0x43C0 := h2 (0xFFC0, 0x43C0) (by decide)
    have p4 : inst &&& 0xFFC0 ≠ 0x4240 := h2 (0xFFC0, 0x4240) (by decide)
    have p5 : inst &&& 0xFFFF ≠ 0xBF00 := h2 (0xFFFF, 0xBF00) (by decide)
    have p6 : inst &&& 0xFFC0 ≠ 0x4300 := h2 (0xFFC0, 0x4300) (by decide)
    have p7 : inst &&& 0xFE00 ≠ 0xBC00 := h2 (0xFE00, 0xBC00) (by decide)
    have p8 : inst &&& 0xFE00 ≠ 0xB400 := h2 (0xFE00, 0xB400) (by decide)
    rw [h1]
    unfold Decode.decodeFromMov1
    simp only [p0, p1, p2, p3, p4, p5, p6, p7, p8, e, if_false, if_true,
      setRegisterN_ok _ _ _ _ (and_seven_lt _), bind, Except.bind, pure, Except.pure,
      RegFile.readDataN, Nat.reduceEqDiff]
  · intro e
    obtain ⟨h1, h2⟩ := key _ e (by decide)
    have p0 : inst &&& 0xF800 ≠ 0x2000 := h2 (0xF800, 0x2000) (by decide)
    have p1 : inst &&& 0xFFC0 ≠ 0x0000 := h2 (0xFFC0, 0x0000) (by decide)
    have p2 : inst &&& 0xFFC0 ≠ 0x4340 := h2 (0xFFC0, 0x4340) (by decide)
    have p3 : inst &&& 0xFFC0 ≠ 0x43C0 := h2 (0xFFC0, 0x43C0) (by decide)
    have p4 : inst &&& 0xFFC0 ≠ 0x4240 := h2 (0xFFC0, 0x4240) (by decide)
    have p5 : inst &&& 0xFFFF ≠ 0xBF00 := h2 (0xFFFF, 0xBF00) (by decide)
    have p6 : inst &&& 0xFFC0 ≠ 0x4300 := h2 (0xFFC0, 0x4300) (by decide)
    have p7 : inst &&& 0xFE00 ≠ 0xBC00 := h2 (0xFE00, 0xBC00) (by decide)
    have p8 : inst &&& 0xFE00 ≠ 0xB400 := h2 (0xFE00, 0xB400) (by decide)
    rw [h1]
    unfold Decode.decodeFromMov1
    simp only [p0, p1, p2, p3, p4, p5, p6, p7, p8, e, if_false, if_true,
      setRegisterN_ok _ _ _ _ (and_seven_lt _), bind, Except.bind, pure, Except.pure,
      RegFile.readDataN, Nat.reduceEqDiff]
  · intro e
    obtain ⟨h1, h2⟩ := key _ e (by decide)
    have p0 : inst &&& 0xF800 ≠ 0x2000 := h2 (0xF800, 0x2000) (by decide)
    have p1 : inst &&& 0xFFC0 ≠ 0x0000 := h2 (0xFFC0, 0x0000) (by decide)
    have p2 : inst &&& 0xFFC0 ≠ 0x4340 := h2 (0xFFC0, 0x4340) (by decide)
    have p3 : inst &&& 0xFFC0 ≠ 0x43C0 := h2 (0xFFC0, 0x43C0) (by decide)
    have p4 : inst &&& 0xFFC0 ≠ 0x4240 := h2 (0xFFC0, 0x4240) (by decide)
    have p5 : inst &&& 0xFFFF ≠ 0xBF00 := h2 (0xFFFF, 0xBF00) (by decide)
    have p6 : inst &&& 0xFFC0 ≠ 0x4300 := h2 (0xFFC0, 0x4300) (by decide)
    have p7 : inst &&& 0xFE00 ≠ 0xBC00 := h2 (0xFE00, 0xBC00) (by decide)
    have p8 : inst &&& 0xFE00 ≠ 0xB400 := h2 (0xFE00, 0xB400) (by decide)
    rw [h1]
    unfold Decode.decodeFromMov1
    simp only [p0, p1, p2, p3, p4, p5, p6, p7, p8, e, if_false, if_true,
      setRegisterN_ok _ _ _ _ (and_seven_lt _), bind, Except.bind, pure, Except.pure,
      RegFile.readDataN, Nat.reduceEqDiff]

/-- Witness for C19: the halfword 0xBAC8 (REVSH r0, r1) decodes to REV16 with
RD = R0 and RM = R1. -/
theorem C19_revsh_decodes_as_rev16_witness :
    (0xBAC8 : Nat) &&& 0xFFC0 = 0xBAC0 ∧
    ∃ r, Decode.decodeFromAdc 0xBAC8 0 .MSP RegFile.new DecodedInst.new = .ok (r, false) ∧
      r.op = .REV16 ∧ r.op ≠ .REVSH ∧ r.regsNumber .RD = .R0 ∧ r.regsNumber .RM = .R1 :=
  ⟨by decide, _,
    (C19_revsh_decodes_as_rev16 0xBAC8 0 .MSP RegFile.new DecodedInst.new).2.2 (by decide),
    rfl, by decide, by decide, by decide⟩


/-! ## Logic, move and byte-reverse instructions: C20 -/

/-- The tail of `mov1`, which writes Rd before it computes N and Z. -/
theorem tail_mov1 (s : Processor) (rd : Reg) (res : Nat) (i : Instruction) (hrd : rd ≠ .XPSR) :
    (addInstruction (calculateXpsrZ (calculateXpsrN (writeReg s rd res) res 32) res)
      i).regFile.regs rd = res ∧
    (addInstruction (calculateXpsrZ (calculateXpsrN (writeReg s rd res) res 32) res)
      i).regFile.regs .XPSR =
      setXpsrZ (setXpsrN (s.regFile.regs .XPSR) (if res / 2147483648 = 0 then 0 else 1))
        (if res = 0 then 1 else 0) := by
  refine ⟨?_, ?_⟩
  · rw [addInstruction_regs]
    simp [calculateXpsrZ, calculateXpsrN, writeReg, RegFile.write, RegFile.readData, hrd]
  · rw [addInstruction_regs, calculateXpsrZ_xpsr, calculateXpsrN_xpsr,
      writeReg_regs_ne _ _ _ _ (Ne.symm hrd)]

theorem and_lt32 (a b : Nat) (ha : a < 4294967296) : a &&& b < 4294967296 :=
  lt_of_le_of_lt Nat.and_le_left ha

theorem xor_lt32 (a b : Nat) (ha : a < 4294967296) (hb : b < 4294967296) :
    a ^^^ b < 4294967296 :=
  Nat.xor_lt_two_pow (n := 32) ha hb

theorem or_lt32 (a b : Nat) (ha : a < 4294967296) (hb : b < 4294967296) :
    a ||| b < 4294967296 :=
  Nat.or_lt_two_pow (n := 32) ha hb

theorem sub32_lt (a b : Nat) : sub32 a b < 4294967296 := by
  unfold sub32
  exact Nat.mod_lt _ (by norm_num)

/-- The byte-reverse routines write Rd and the statistics only. -/
theorem rev_family_xpsr (s : Processor) (rd : Reg) (v : Nat) (hrd : rd ≠ .XPSR) :
    (rev s rd v).regFile.regs .XPSR = s.regFile.regs .XPSR ∧
    (rev16 s rd v).regFile.regs .XPSR = s.regFile.regs .XPSR ∧
    (revsh s rd v).regFile.regs .XPSR = s.regFile.regs .XPSR := by
  refine ⟨?_, ?_, ?_⟩
  · unfold rev
    simp only []
    rw [addInstruction_regs, writeReg_regs_ne _ _ _ _ (Ne.symm hrd)]
  · unfold rev16
    simp only []
    rw [addInstruction_regs, writeReg_regs_ne _ _ _ _ (Ne.symm hrd)]
  · unfold revsh
    simp only []
    rw [addInstruction_regs, writeReg_regs_ne _ _ _ _ (Ne.symm hrd)]

/-- C20 (amended): for 32-bit operands and a destination other than xPSR, each
of AND, BIC, EOR, ORR, MVN, MOV1, MOV2, MUL and NEG writes its result to the
destination, sets N to bit 31 of the result and Z to 1 iff the result is 0,
and leaves C and V as they were; REV, REV16 and REVSH leave the whole xPSR,
N and Z included, as it was. -/
theorem C20_logic_flags_rev_none (s : Processor) (rd : Reg) (a b : Nat)
    (hrd : rd ≠ .XPSR) (ha : a < 4294967296) (hb : b < 4294967296) :
    (∀ p : Processor × Nat,
      p ∈ [(and0 s rd a b, a &&& b), (bic s rd a b, a &&& not32 b), (eor s rd a b, a ^^^ b),
        (orr s rd a b, b ||| a), (mvn s rd a, not32 a), (mov1 s rd a, a), (mov2 s rd a, a),
        (mul s rd a b, a * b % 4294967296), (neg s rd a b, sub32 b a)] →
      p.1.regFile.regs rd = p.2 ∧
      ResultFlags p.2 (getXpsrC (s.regFile.regs .XPSR)) (s.regFile.regs .XPSR)
        (p.1.regFile.regs .XPSR)) ∧
    (∀ s', s' ∈ [rev s rd a, rev16 s rd a, revsh s rd a] →
      s'.regFile.regs .XPSR = s.regFile.regs .XPSR) := by
  have hzn : ∀ (res : Nat) (i : Instruction), res < 4294967296 →
      (addInstruction (writeReg (calculateXpsrN (calculateXpsrZ s res) res 32) rd res)
        i).regFile.regs rd = res ∧
      ResultFlags res (getXpsrC (s.regFile.regs .XPSR)) (s.regFile.regs .XPSR)
        ((addInstruction (writeReg (calculateXpsrN (calculateXpsrZ s res) res 32) rd res)
          i).regFile.regs .XPSR) := by
    intro res i hres
    refine ⟨(tail_zn s rd res i hrd).1, ?_⟩
    rw [(tail_zn s rd res i hrd).2]
    exact resultFlags_zn _ _ hres
  have hnz : ∀ (res : Nat) (i : Instruction), res < 4294967296 →
      (addInstruction (writeReg (calculateXpsrZ (calculateXpsrN s res 32) res) rd res)
        i).regFile.regs rd = res ∧
      ResultFlags res (getXpsrC (s.regFile.regs .XPSR)) (s.regFile.regs .XPSR)
        ((addInstruction (writeReg (calculateXpsrZ (calculateXpsrN s res 32) res) rd res)
          i).regFile.regs .XPSR) := by
    intro res i hres
    refine ⟨(tail_nz s rd res i hrd).1, ?_⟩
    rw [(tail_nz s rd res i hrd).2]
    exact resultFlags_nz _ _ hres
  refine ⟨?_, ?_⟩
  · intro p hp
    simp only [List.mem_cons, List.mem_singleton, List.not_mem_nil, or_false] at hp
    rcases hp with h | h | h | h | h | h | h | h | h <;> subst h
    · exact hzn _ .AND (and_lt32 a b ha)
    · exact hnz _ .BIC (and_lt32 a _ ha)
    · exact hzn _ .EOR (xor_lt32 a b ha hb)
    · exact hnz _ .ORR (or_lt32 b a hb ha)
    · exact hnz _ .MVN (not32_lt a)
    · refine ⟨(tail_mov1 s rd a .MOV hrd).1, ?_⟩
      show ResultFlags a _ _ ((addInstruction (calculateXpsrZ (calculateXpsrN (writeReg s rd a)
        a 32) a) .MOV).regFile.regs .XPSR)
      rw [(tail_mov1 s rd a .MOV hrd).2]
      exact resultFlags_nz _ _ ha
    · exact hnz _ .MOV ha
    · exact hnz _ .MUL (Nat.mod_lt _ (by norm_num))
    · exact hnz _ .NEG (sub32_lt b a)
  · intro s' hs
    simp only [List.mem_cons, List.mem_singleton, List.not_mem_nil, or_false] at hs
    rcases hs with h | h | h <;> subst h
    · exact (rev_family_xpsr s rd a hrd).1
    · exact (rev_family_xpsr s rd a hrd).2.1
    · exact (rev_family_xpsr s rd a hrd).2.2

/-- Witness of C20: AND of `0x80000000` and `0xFFFFFFFF` on the fresh processor
gives `0x80000000` with N = 1 and Z = 0, and REV keeps the xPSR. -/
theorem C20_logic_flags_rev_none_witness :
    (and0 (Processor.new 1024 1) .R0 0x80000000 0xFFFFFFFF).regFile.regs .R0 = 0x80000000 ∧
    getXpsrN ((and0 (Processor.new 1024 1) .R0 0x80000000 0xFFFFFFFF).regFile.regs .XPSR) = 1 ∧
    getXpsrZ ((and0 (Processor.new 1024 1) .R0 0x80000000 0xFFFFFFFF).regFile.regs .XPSR) = 0 ∧
    (rev (Processor.new 1024 1) .R0 0x80000000).regFile.regs .XPSR =
      (Processor.new 1024 1).regFile.regs .XPSR := by
  have h := C20_logic_flags_rev_none (Processor.new 1024 1) .R0 0x80000000 0xFFFFFFFF
    (by decide) (by norm_num) (by norm_num)
  obtain ⟨h1, h2, h3, _, _⟩ := h.1 (and0 (Processor.new 1024 1) .R0 0x80000000 0xFFFFFFFF,
    0x80000000 &&& 0xFFFFFFFF) (List.mem_cons_self _ _)
  exact ⟨by rw [h1]; decide, by rw [h2]; decide, by rw [h3]; decide,
    h.2 _ (List.mem_cons_self _ _)⟩

/-- Counterexample to C20 as stated: on the fresh processor REV of 0 writes 0
and leaves Z = 0, and REV of `0x80` writes `0x80000000` and leaves N = 0. -/
theorem C20_rev_flags_counterexample :
    (rev (Processor.new 1024 1) .R0 0).regFile.regs .R0 = 0 ∧
    getXpsrZ ((rev (Processor.new 1024 1) .R0 0).regFile.regs .XPSR) = 0 ∧
    (rev (Processor.new 1024 1) .R0 0x80).regFile.regs .R0 = 0x80000000 ∧
    getXpsrN ((rev (Processor.new 1024 1) .R0 0x80).regFile.regs .XPSR) = 0 ∧
    ¬ ResultFlags ((rev (Processor.new 1024 1) .R0 0).regFile.regs .R0)
      (getXpsrC ((Processor.new 1024 1).regFile.regs .XPSR))
      ((Processor.new 1024 1).regFile.regs .XPSR)
      ((rev (Processor.new 1024 1) .R0 0).regFile.regs .XPSR) := by
  refine ⟨by decide, by decide, by decide, by decide, ?_⟩
  intro h
  exact absurd h.2.1 (by decide)


/-! ## The decoder cascade: C21, C22, C23 -/

/-- A halfword that matches none of the patterns of `decodeFromStmia` gets the
placeholder. -/
theorem decodeFromStmia_skip (inst pc : Nat) (activeSp : Reg) (rf : RegFile) (d : DecodedInst)
    (h : ∀ p, p ∈ Decode.patternsFromStmia → inst &&& p.1 ≠ p.2) :
    Decode.decodeFromStmia inst pc activeSp rf d = .ok (Decode.issuePlaceholderInst d, false) := by
  have p0 : inst &&& 0xF800 ≠ 0xC000 := h (0xF800, 0xC000) (by simp [Decode.patternsFromStmia])
  have p1 : inst &&& 0xF800 ≠ 0x6000 := h (0xF800, 0x6000) (by simp [Decode.patternsFromStmia])
  have p2 : inst &&& 0xFE00 ≠ 0x5000 := h (0xFE00, 0x5000) (by simp [Decode.patternsFromStmia])
  have p3 : inst &&& 0xF800 ≠ 0x9000 := h (0xF800, 0x9000) (by simp [Decode.patternsFromStmia])
  have p4 : inst &&& 0xF800 ≠ 0x7000 := h (0xF800, 0x7000) (by simp [Decode.patternsFromStmia])
  have p5 : inst &&& 0xFE00 ≠ 0x5400 := h (0xFE00, 0x5400) (by simp [Decode.patternsFromStmia])
  have p6 : inst &&& 0xF800 ≠ 0x8000 := h (0xF800, 0x8000) (by simp [Decode.patternsFromStmia])
  have p7 : inst &&& 0xFE00 ≠ 0x5200 := h (0xFE00, 0x5200) (by simp [Decode.patternsFromStmia])
  have p8 : inst &&& 0xFE00 ≠ 0x1E00 := h (0xFE00, 0x1E00) (by simp [Decode.patternsFromStmia])
  have p9 : inst &&& 0xF800 ≠ 0x3800 := h (0xF800, 0x3800) (by simp [Decode.patternsFromStmia])
  have p10 : inst &&& 0xFE00 ≠ 0x1A00 := h (0xFE00, 0x1A00) (by simp [Decode.patternsFromStmia])
  have p11 : inst &&& 0xFF80 ≠ 0xB080 := h (0xFF80, 0xB080) (by simp [Decode.patternsFromStmia])
  have p12 : inst &&& 0xFF00 ≠ 0xDF00 := h (0xFF00, 0xDF00) (by simp [Decode.patternsFromStmia])
  have p13 : inst &&& 0xFFC0 ≠ 0xB240 := h (0xFFC0, 0xB240) (by simp [Decode.patternsFromStmia])
  have p14 : inst &&& 0xFFC0 ≠ 0xB200 := h (0xFFC0, 0xB200) (by simp [Decode.patternsFromStmia])
  have p15 : inst &&& 0xFFC0 ≠ 0x4200 := h (0xFFC0, 0x4200) (by simp [Decode.patternsFromStmia])
  have p16 : inst &&& 0xFFC0 ≠ 0xB2C0 := h (0xFFC0, 0xB2C0) (by simp [Decode.patternsFromStmia])
  have p17 : inst &&& 0xFFC0 ≠ 0xB280 := h (0xFFC0, 0xB280) (by simp [Decode.patternsFromStmia])
  unfold Decode.decodeFromStmia
  rw [if_neg p0, if_neg p1, if_neg p2, if_neg p3, if_neg p4, if_neg p5, if_neg p6, if_neg p7, if_neg p8, if_neg p9, if_neg p10, if_neg p11, if_neg p12, if_neg p13, if_neg p14, if_neg p15, if_neg p16, if_neg p17]
  rfl


/-- The decoder on a halfword with `(h & 0xFF00) = 0x4400`: the block of ADD4. -/
theorem decodeAt_ADD4 (inst pc : Nat) (activeSp : Reg) (rf : RegFile) (d : DecodedInst)
    (e : inst &&& 0xFF00 = 0x4400) :
    Decode.decodeFromAdc inst pc activeSp rf d = ((do
      let rdn := (inst >>> 0) &&& 0x7
      let rdn := rdn ||| ((inst >>> 4) &&& 0x8)
      let rm := (inst >>> 3) &&& 0xF
      if rdn = Reg.PC.toNat ∧ rdn = rm then do
        let d := Decode.issuePlaceholderInst d
        pure (d, false)
      else do
        let ra := if rdn = Reg.PC.toNat then pc else rf.readDataN rdn
        let rb := if rm = Reg.PC.toNat then pc else rf.readDataN rm
        let d := d.setOperation .ADD4
        let d ← d.setRegisterN .RDN rdn ra
        let d ← d.setRegisterN .RM rm rb
        pure (d, false)) : Except Exit (DecodedInst × Bool)) := by
  have h2 := matches_none_of inst 0xFF00 0x4400 (Decode.patternsFromAdc.take 4) e (by decide)
  have p0 : inst &&& 0xFFC0 ≠ 0x4140 := h2 (0xFFC0, 0x4140) (by decide)
  have p1 : inst &&& 0xFE00 ≠ 0x1C00 := h2 (0xFE00, 0x1C00) (by decide)
  have p2 : inst &&& 0xF800 ≠ 0x3000 := h2 (0xF800, 0x3000) (by decide)
  have p3 : inst &&& 0xFE00 ≠ 0x1800 := h2 (0xFE00, 0x1800) (by decide)
  unfold Decode.decodeFromAdc
  rw [if_neg p0, if_neg p1, if_neg p2, if_neg p3, if_pos e]

/-- The decoder on a halfword with `(h & 0xF000) = 0xD000`: the block of B1. -/
theorem decodeAt_B1 (inst pc : Nat) (activeSp : Reg) (rf : RegFile) (d : DecodedInst)
    (e : inst &&& 0xF000 = 0xD000) :
    Decode.decodeFromAdc inst pc activeSp rf d = ((do
      let im8 := (inst >>> 0) &&& 0xFF
      let cond := (inst >>> 8) &&& 0xF
      if cond = DecodedCondition.U0.toNat then do
        let d := Decode.issuePlaceholderInst d
        pure (d, false)
      else if cond ≠ DecodedCondition.U1.toNat then do
        let xpsr := rf.readData .XPSR
        let d := d.setOperation .B1
        let d := d.setRegister .RM .PC pc
        let d := d.setRegister .XPSR .XPSR xpsr
        let d := d.setImmediate im8
        let d ← d.setCondition cond
        pure (d, false)
      else Decode.decodeFromB2 inst pc activeSp rf d) : Except Exit (DecodedInst × Bool)) := by
  have h2 := matches_none_of inst 0xF000 0xD000 (Decode.patternsFromAdc.take 11) e (by decide)
  have p0 : inst &&& 0xFFC0 ≠ 0x4140 := h2 (0xFFC0, 0x4140) (by decide)
  have p1 : inst &&& 0xFE00 ≠ 0x1C00 := h2 (0xFE00, 0x1C00) (by decide)
  have p2 : inst &&& 0xF800 ≠ 0x3000 := h2 (0xF800, 0x3000) (by decide)
  have p3 : inst &&& 0xFE00 ≠ 0x1800 := h2 (0xFE00, 0x1800) (by decide)
  have p4 : inst &&& 0xFF00 ≠ 0x4400 := h2 (0xFF00, 0x4400) (by decide)
  have p5 : inst &&& 0xF800 ≠ 0xA000 := h2 (0xF800, 0xA000) (by decide)
  have p6 : inst &&& 0xF800 ≠ 0xA800 := h2 (0xF800, 0xA800) (by decide)
  have p7 : inst &&& 0xFF80 ≠ 0xB000 := h2 (0xFF80, 0xB000) (by decide)
  have p8 : inst &&& 0xFFC0 ≠ 0x4000 := h2 (0xFFC0, 0x4000) (by decide)
  have p9 : inst &&& 0xF800 ≠ 0x1000 := h2 (0xF800, 0x1000) (by decide)
  have p10 : inst &&& 0xFFC0 ≠ 0x4100 := h2 (0xFFC0, 0x4100) (by decide)
  unfold Decode.decodeFromAdc
  rw [if_neg p0, if_neg p1, if_neg p2, if_neg p3, if_neg p4, if_neg p5, if_neg p6, if_neg p7,
    if_neg p8, if_neg p9, if_neg p10, if_pos e]

/-- The decoder on a halfword with `(h & 0xFF87) = 0x4780`: the block of BLX. -/
theorem decodeAt_BLX (inst pc : Nat) (activeSp : Reg) (rf : RegFile) (d : DecodedInst)
    (e : inst &&& 0xFF87 = 0x4780) :
    Decode.decodeFromAdc inst pc activeSp rf d = ((do
      let rm := (inst >>> 3) &&& 0xF
      if rm = Reg.PC.toNat then do
        let d := Decode.issuePlaceholderInst d
        pure (d, false)
      else do
        let rb := rf.readDataN rm
        let d := d.setOperation .BLX
        let d := d.setRegister .RDN .PC pc
        let d ← d.setRegisterN .RM rm rb
        pure (d, false)) : Except Exit (DecodedInst × Bool)) := by
  rw [decodeFromAdc_skip _ _ _ _ _ (matches_none_of inst _ _ _ e (by decide))]
  have h2 := matches_none_of inst 0xFF87 0x4780 (Decode.patternsFromB2.take 4) e (by decide)
  have p0 : inst &&& 0xF800 ≠ 0xE000 := h2 (0xF800, 0xE000) (by decide)
  have p1 : inst &&& 0xFFC0 ≠ 0x4380 := h2 (0xFFC0, 0x4380) (by decide)
  have p2 : inst &&& 0xFF00 ≠ 0xBE00 := h2 (0xFF00, 0xBE00) (by decide)
  have p3 : inst &&& 0xF800 ≠ 0xF000 := h2 (0xF800, 0xF000) (by decide)
  unfold Decode.decodeFromB2
  rw [if_neg p0, if_neg p1, if_neg p2, if_neg p3, if_pos e]

/-- The decoder on a halfword with `(h & 0xFF00) = 0x4500`: the block of CMP3. -/
theorem decodeAt_CMP3 (inst pc : Nat) (activeSp : Reg) (rf : RegFile) (d : DecodedInst)
    (e : inst &&& 0xFF00 = 0x4500) :
    Decode.decodeFromAdc inst pc activeSp rf d = ((do
      let rn := (inst >>> 0) &&& 0x7
      let rn := rn ||| ((inst >>> 4) &&& 0x8)
      let rm := (inst >>> 3) &&& 0xF
      if ((inst >>> 6) &&& 0x3) = 0x0 then do
        let d := Decode.issuePlaceholderInst d
        pure (d, false)
      else if rn = Reg.PC.toNat ∨ rm = Reg.PC.toNat then do
        let d := Decode.issuePlaceholderInst d
        pure (d, false)
      else do
        let ra := rf.readDataN rn
        let rb := rf.readDataN rm
        let d := d.setOperation .CMP3
        let d ← d.setRegisterN .RN rn ra
        let d ← d.setRegisterN .RM rm rb
        pure (d, false)) : Except Exit (DecodedInst × Bool)) := by
  rw [decodeFromAdc_skip _ _ _ _ _ (matches_none_of inst _ _ _ e (by decide))]
  have h2 := matches_none_of inst 0xFF00 0x4500 (Decode.patternsFromB2.take 9) e (by decide)
  have p0 : inst &&& 0xF800 ≠ 0xE000 := h2 (0xF800, 0xE000) (by decide)
  have p1 : inst &&& 0xFFC0 ≠ 0x4380 := h2 (0xFFC0, 0x4380) (by decide)
  have p2 : inst &&& 0xFF00 ≠ 0xBE00 := h2 (0xFF00, 0xBE00) (by decide)
  have p3 : inst &&& 0xF800 ≠ 0xF000 := h2 (0xF800, 0xF000) (by decide)
  have p4 : inst &&& 0xFF87 ≠ 0x4780 := h2 (0xFF87, 0x4780) (by decide)
  have p5 : inst &&& 0xFF87 ≠ 0x4700 := h2 (0xFF87, 0x4700) (by decide)
  have p6 : inst &&& 0xFFC0 ≠ 0x42C0 := h2 (0xFFC0, 0x42C0) (by decide)
  have p7 : inst &&& 0xF800 ≠ 0x2800 := h2 (0xF800, 0x2800) (by decide)
  have p8 : inst &&& 0xFFC0 ≠ 0x4280 := h2 (0xFFC0, 0x4280) (by decide)
  unfold Decode.decodeFromB2
  rw [if_neg p0, if_neg p1, if_neg p2, if_neg p3, if_neg p4, if_neg p5, if_neg p6, if_neg p7,
    if_neg p8, if_pos e]

/-- The decoder on a halfword with `(h & 0xF800) = 0xC800`: the block of LDMIA. -/
theorem decodeAt_LDMIA (inst pc : Nat) (activeSp : Reg) (rf : RegFile) (d : DecodedInst)
    (e : inst &&& 0xF800 = 0xC800) :
    Decode.decodeFromAdc inst pc activeSp rf d = ((do
      let rn := (inst >>> 8) &&& 0x7
      let rl := (inst >>> 0) &&& 0xFF
      if rl = 0 then do
        let d := Decode.issuePlaceholderInst d
        pure (d, false)
      else do
        let ra := rf.readDataN rn
        let d := d.setOperation .LDMIA
        let d ← d.setRegisterN .RN rn ra
        let d := d.setRegisterList rl
        pure (d, false)) : Except Exit (DecodedInst × Bool)) := by
  rw [decodeFromAdc_skip _ _ _ _ _ (matches_none_of inst _ _ _ e (by decide))]
  have h2 := matches_none_of inst 0xF800 0xC800 (Decode.patternsFromB2.take 13) e (by decide)
  have p0 : inst &&& 0xF800 ≠ 0xE000 := h2 (0xF800, 0xE000) (by decide)
  have p1 : inst &&& 0xFFC0 ≠ 0x4380 := h2 (0xFFC0, 0x4380) (by decide)
  have p2 : inst &&& 0xFF00 ≠ 0xBE00 := h2 (0xFF00, 0xBE00) (by decide)
  have p3 : inst &&& 0xF800 ≠ 0xF000 := h2 (0xF800, 0xF000) (by decide)
  have p4 : inst &&& 0xFF87 ≠ 0x4780 := h2 (0xFF87, 0x4780) (by decide)
  have p5 : inst &&& 0xFF87 ≠ 0x4700 := h2 (0xFF87, 0x4700) (by decide)
  have p6 : inst &&& 0xFFC0 ≠ 0x42C0 := h2 (0xFFC0, 0x42C0) (by decide)
  have p7 : inst &&& 0xF800 ≠ 0x2800 := h2 (0xF800, 0x2800) (by decide)
  have p8 : inst &&& 0xFFC0 ≠ 0x4280 := h2 (0xFFC0, 0x4280) (by decide)
  have p9 : inst &&& 0xFF00 ≠ 0x4500 := h2 (0xFF00, 0x4500) (by decide)
  have p10 : inst &&& 0xFFEC ≠ 0xB660 := h2 (0xFFEC, 0xB660) (by decide)
  have p11 : inst &&& 0xFF00 ≠ 0x4600 := h2 (0xFF00, 0x4600) (by decide)
  have p12 : inst &&& 0xFFC0 ≠ 0x4040 := h2 (0xFFC0, 0x4040) (by decide)
  unfold Decode.decodeFromB2
  rw [if_neg p0, if_neg p1, if_neg p2, if_neg p3, if_neg p4, if_neg p5, if_neg p6, if_neg p7,
    if_neg p8, if_neg p9, if_neg p10, if_neg p11, if_neg p12, if_pos e]

/-- The decoder on a halfword with `(h & 0xFE00) = 0xBC00`: the block of POP. -/
theorem decodeAt_POP (inst pc : Nat) (activeSp : Reg) (rf : RegFile) (d : DecodedInst)
    (e : inst &&& 0xFE00 = 0xBC00) :
    Decode.decodeFromAdc inst pc activeSp rf d = ((do
      let rl := (inst >>> 0) &&& 0xFF
      let rl := rl ||| shl32 ((inst >>> 8) &&& 0x1) Reg.PC.toNat
      if rl = 0 then do
        let d := Decode.issuePlaceholderInst d
        pure (d, false)
      else do
        let ra := rf.readData activeSp
        let d := d.setOperation .POP
        let d := d.setRegister .RN activeSp ra
        let d := d.setRegisterList rl
        pure (d, false)) : Except Exit (DecodedInst × Bool)) := by
  rw [decodeFromAdc_skip _ _ _ _ _ (matches_none_of inst _ _ _ e (by decide)),
    decodeFromB2_skip _ _ _ _ _ (matches_none_of inst _ _ _ e (by decide)),
    decodeFromLdr1_skip _ _ _ _ _ (matches_none_of inst _ _ _ e (by decide))]
  have h2 := matches_none_of inst 0xFE00 0xBC00 (Decode.patternsFromMov1.take 7) e (by decide)
  have p0 : inst &&& 0xF800 ≠ 0x2000 := h2 (0xF800, 0x2000) (by decide)
  have p1 : inst &&& 0xFFC0 ≠ 0x0000 := h2 (0xFFC0, 0x0000) (by decide)
  have p2 : inst &&& 0xFFC0 ≠ 0x4340 := h2 (0xFFC0, 0x4340) (by decide)
  have p3 : inst &&& 0xFFC0 ≠ 0x43C0 := h2 (0xFFC0, 0x43C0) (by decide)
  have p4 : inst &&& 0xFFC0 ≠ 0x4240 := h2 (0xFFC0, 0x4240) (by decide)
  have p5 : inst &&& 0xFFFF ≠ 0xBF00 := h2 (0xFFFF, 0xBF00) (by decide)
  have p6 : inst &&& 0xFFC0 ≠ 0x4300 := h2 (0xFFC0, 0x4300) (by decide)
  unfold Decode.decodeFromMov1
  rw [if_neg p0, if_neg p1, if_neg p2, if_neg p3, if_neg p4, if_neg p5, if_neg p6, if_pos e]

/-- The decoder on a halfword with `(h & 0xFE00) = 0xB400`: the block of PUSH. -/
theorem decodeAt_PUSH (inst pc : Nat) (activeSp : Reg) (rf : RegFile) (d : DecodedInst)
    (e : inst &&& 0xFE00 = 0xB400) :
    Decode.decodeFromAdc inst pc activeSp rf d = ((do
      let rl := (inst >>> 0) &&& 0xFF
      let rl := rl ||| shl32 ((inst >>> 8) &&& 0x1) Reg.LR.toNat
      if rl = 0 then do
        let d := Decode.issuePlaceholderInst d
        pure (d, false)
      else do
        let ra := rf.readData activeSp
        let d := d.setOperation .PUSH
        let d := d.setRegister .RN activeSp ra
        let d := d.setRegisterList rl
        pure (d, false)) : Except Exit (DecodedInst × Bool)) := by
  rw [decodeFromAdc_skip _ _ _ _ _ (matches_none_of inst _ _ _ e (by decide)),
    decodeFromB2_skip _ _ _ _ _ (matches_none_of inst _ _ _ e (by decide)),
    decodeFromLdr1_skip _ _ _ _ _ (matches_none_of inst _ _ _ e (by decide))]
  have h2 := matches_none_of inst 0xFE00 0xB400 (Decode.patternsFromMov1.take 8) e (by decide)
  have p0 : inst &&& 0xF800 ≠ 0x2000 := h2 (0xF800, 0x2000) (by decide)
  have p1 : inst &&& 0xFFC0 ≠ 0x0000 := h2 (0xFFC0, 0x0000) (by decide)
  have p2 : inst &&& 0xFFC0 ≠ 0x4340 := h2 (0xFFC0, 0x4340) (by decide)
  have p3 : inst &&& 0xFFC0 ≠ 0x43C0 := h2 (0xFFC0, 0x43C0) (by decide)
  have p4 : inst &&& 0xFFC0 ≠ 0x4240 := h2 (0xFFC0, 0x4240) (by decide)
  have p5 : inst &&& 0xFFFF ≠ 0xBF00 := h2 (0xFFFF, 0xBF00) (by decide)
  have p6 : inst &&& 0xFFC0 ≠ 0x4300 := h2 (0xFFC0, 0x4300) (by decide)
  have p7 : inst &&& 0xFE00 ≠ 0xBC00 := h2 (0xFE00, 0xBC00) (by decide)
  unfold Decode.decodeFromMov1
  rw [if_neg p0, if_neg p1, if_neg p2, if_neg p3, if_neg p4, if_neg p5, if_neg p6, if_neg p7,
    if_pos e]

/-- The decoder on a halfword with `(h & 0xF800) = 0xC000`: the block of STMIA. -/
theorem decodeAt_STMIA (inst pc : Nat) (activeSp : Reg) (rf : RegFile) (d : DecodedInst)
    (e : inst &&& 0xF800 = 0xC000) :
    Decode.decodeFromAdc inst pc activeSp rf d = ((do
      let rn := (inst >>> 8) &&& 0x7
      let rl := (inst >>> 0) &&& 0xFF
      if rl = 0 then do
        let d := Decode.issuePlaceholderInst d
        pure (d, false)
      else do
        let ra := rf.readDataN rn
        let d := d.setOperation .STMIA
        let d ← d.setRegisterN .RN rn ra
        let d := d.setRegisterList rl
        pure (d, false)) : Except Exit (DecodedInst × Bool)) := by
  rw [decodeFromAdc_skip _ _ _ _ _ (matches_none_of inst _ _ _ e (by decide)),
    decodeFromB2_skip _ _ _ _ _ (matches_none_of inst _ _ _ e (by decide)),
    decodeFromLdr1_skip _ _ _ _ _ (matches_none_of inst _ _ _ e (by decide)),
    decodeFromMov1_skip _ _ _ _ _ (matches_none_of inst _ _ _ e (by decide))]
  unfold Decode.decodeFromStmia
  rw [if_pos e]

/-- A field of a halfword that lies inside the mask of a pinned comparison. -/
theorem field_of_masked (inst m v k c : Nat) (e : inst &&& m = v) (hc : (m >>> k) &&& c = c) :
    (inst >>> k) &&& c = (v >>> k) &&& c := by
  apply Nat.eq_of_testBit_eq
  intro i
  have h := congrArg (fun x => x.testBit i) hc
  simp only [Nat.testBit_and, Nat.testBit_shiftRight] at h
  rw [← e]
  simp only [Nat.testBit_and, Nat.testBit_shiftRight]
  cases hci : c.testBit i
  · simp
  · rw [hci] at h
    simp only [Bool.and_true] at h
    simp [h]

/-- The decoder on a halfword with `(h & 0xFF00) = 0xDF00`: the block of B1
falls through (condition 15) and the block of SVC is reached. -/
theorem decodeAt_SVC (inst pc : Nat) (activeSp : Reg) (rf : RegFile) (d : DecodedInst)
    (e : inst &&& 0xFF00 = 0xDF00) :
    Decode.decodeFromAdc inst pc activeSp rf d =
      .ok ((d.setOperation .SVC).setImmediate (inst &&& 0xFF), false) := by
  have e1 : inst &&& 0xF000 = 0xD000 := and_narrow inst 0xFF00 0xDF00 0xF000 e (by decide)
  have hc : (inst >>> 8) &&& 0xF = 15 := field_of_masked inst 0xFF00 0xDF00 8 0xF e (by decide)
  rw [decodeAt_B1 inst pc activeSp rf d e1]
  simp only [hc, DecodedCondition.toNat, Nat.reduceEqDiff, if_false, ne_eq, not_true_eq_false]
  rw [decodeFromB2_skip _ _ _ _ _ (matches_none_of inst _ _ _ e (by decide)),
    decodeFromLdr1_skip _ _ _ _ _ (matches_none_of inst _ _ _ e (by decide)),
    decodeFromMov1_skip _ _ _ _ _ (matches_none_of inst _ _ _ e (by decide))]
  have h2 := matches_none_of inst 0xFF00 0xDF00 (Decode.patternsFromStmia.take 12) e (by decide)
  have p0 : inst &&& 0xF800 ≠ 0xC000 := h2 (0xF800, 0xC000) (by decide)
  have p1 : inst &&& 0xF800 ≠ 0x6000 := h2 (0xF800, 0x6000) (by decide)
  have p2 : inst &&& 0xFE00 ≠ 0x5000 := h2 (0xFE00, 0x5000) (by decide)
  have p3 : inst &&& 0xF800 ≠ 0x9000 := h2 (0xF800, 0x9000) (by decide)
  have p4 : inst &&& 0xF800 ≠ 0x7000 := h2 (0xF800, 0x7000) (by decide)
  have p5 : inst &&& 0xFE00 ≠ 0x5400 := h2 (0xFE00, 0x5400) (by decide)
  have p6 : inst &&& 0xF800 ≠ 0x8000 := h2 (0xF800, 0x8000) (by decide)
  have p7 : inst &&& 0xFE00 ≠ 0x5200 := h2 (0xFE00, 0x5200) (by decide)
  have p8 : inst &&& 0xFE00 ≠ 0x1E00 := h2 (0xFE00, 0x1E00) (by decide)
  have p9 : inst &&& 0xF800 ≠ 0x3800 := h2 (0xF800, 0x3800) (by decide)
  have p10 : inst &&& 0xFE00 ≠ 0x1A00 := h2 (0xFE00, 0x1A00) (by decide)
  have p11 : inst &&& 0xFF80 ≠ 0xB080 := h2 (0xFF80, 0xB080) (by decide)
  unfold Decode.decodeFromStmia
  rw [if_neg p0, if_neg p1, if_neg p2, if_neg p3, if_neg p4, if_neg p5, if_neg p6, if_neg p7,
    if_neg p8, if_neg p9, if_neg p10, if_neg p11, if_pos e]
  rfl

/-- A halfword that matches no pattern of the dispatch table gets the
placeholder. -/
theorem decode_no_match (inst pc : Nat) (activeSp : Reg) (rf : RegFile) (d : DecodedInst)
    (h : ∀ p, p ∈ Decode.patterns → inst &&& p.1 ≠ p.2) :
    Decode.decodeFromAdc inst pc activeSp rf d = .ok (Decode.issuePlaceholderInst d, false) := by
  have h' : ∀ l : List (Nat × Nat), (∀ p, p ∈ l → p ∈ Decode.patterns) → ∀ p, p ∈ l → inst &&& p.1 ≠ p.2 :=
    fun l hl p hp => h p (hl p hp)
  rw [decodeFromAdc_skip _ _ _ _ _ (h' _ (fun p hp => by simp only [Decode.patterns, List.mem_append]; tauto)),
    decodeFromB2_skip _ _ _ _ _ (h' _ (fun p hp => by simp only [Decode.patterns, List.mem_append]; tauto)),
    decodeFromLdr1_skip _ _ _ _ _ (h' _ (fun p hp => by simp only [Decode.patterns, List.mem_append]; tauto)),
    decodeFromMov1_skip _ _ _ _ _ (h' _ (fun p hp => by simp only [Decode.patterns, List.mem_append]; tauto)),
    decodeFromStmia_skip _ _ _ _ _ (h' _ (fun p hp => by simp only [Decode.patterns, List.mem_append]; tauto))]

/-- C21: the main decoder of `Decode::run` produces the placeholder record
(operation SVC, immediate 66, the rest of the record untouched) for ADD4 with
Rdn = Rm = PC, for BLX with Rm = PC, for CMP3 with Rn = PC or Rm = PC, for a
conditional branch with condition 0xE, and for a halfword that matches no
pattern of the dispatch table; a conditional branch with condition 0xF decodes
to SVC with the low byte of the halfword as immediate. -/
theorem C21_placeholder_encodings (inst pc : Nat) (activeSp : Reg) (rf : RegFile)
    (d : DecodedInst) :
    (inst &&& 0xFF00 = 0x4400 → ((inst >>> 0) &&& 0x7) ||| ((inst >>> 4) &&& 0x8) = 15 →
      (inst >>> 3) &&& 0xF = 15 →
      Decode.decodeFromAdc inst pc activeSp rf d = .ok (Decode.issuePlaceholderInst d, false)) ∧
    (inst &&& 0xFF87 = 0x4780 → (inst >>> 3) &&& 0xF = 15 →
      Decode.decodeFromAdc inst pc activeSp rf d = .ok (Decode.issuePlaceholderInst d, false)) ∧
    (inst &&& 0xFF00 = 0x4500 →
      (((inst >>> 0) &&& 0x7) ||| ((inst >>> 4) &&& 0x8) = 15 ∨ (inst >>> 3) &&& 0xF = 15) →
      Decode.decodeFromAdc inst pc activeSp rf d = .ok (Decode.issuePlaceholderInst d, false)) ∧
    (inst &&& 0xFF00 = 0xDE00 →
      Decode.decodeFromAdc inst pc activeSp rf d = .ok (Decode.issuePlaceholderInst d, false)) ∧
    ((∀ p, p ∈ Decode.patterns → inst &&& p.1 ≠ p.2) →
      Decode.decodeFromAdc inst pc activeSp rf d = .ok (Decode.issuePlaceholderInst d, false)) ∧
    (inst &&& 0xFF00 = 0xDF00 →
      Decode.decodeFromAdc inst pc activeSp rf d =
        .ok ((d.setOperation .SVC).setImmediate (inst &&& 0xFF), false)) ∧
    (Decode.issuePlaceholderInst d).op = .SVC ∧ (Decode.issuePlaceholderInst d).im = 66 := by
  refine ⟨?_, ?_, ?_, ?_, decode_no_match inst pc activeSp rf d, ?_, rfl, rfl⟩
  · intro e h1 h2
    rw [decodeAt_ADD4 inst pc activeSp rf d e]
    simp only [h1, h2, Reg.toNat, and_self, if_true]
    rfl
  · intro e h1
    rw [decodeAt_BLX inst pc activeSp rf d e]
    simp only [h1, Reg.toNat, if_true]
    rfl
  · intro e h
    rw [decodeAt_CMP3 inst pc activeSp rf d e]
    by_cases h0 : (inst >>> 6) &&& 0x3 = 0x0
    · simp only [h0, if_true]
      rfl
    · simp only [h0, h, Reg.toNat, if_false, if_true]
      rfl
  · intro e
    have e1 : inst &&& 0xF000 = 0xD000 := and_narrow inst 0xFF00 0xDE00 0xF000 e (by decide)
    have h1 : (inst >>> 8) &&& 0xF = 14 := field_of_masked inst 0xFF00 0xDE00 8 0xF e (by decide)
    rw [decodeAt_B1 inst pc activeSp rf d e1]
    simp only [h1, DecodedCondition.toNat, if_true]
    rfl
  · exact decodeAt_SVC inst pc activeSp rf d

/-- Witness of C21: `0x44FF` (ADD PC, PC), `0x47F8` (BLX PC), `0xDE00` and
`0xBA80`, which matches no pattern, decode to the placeholder; `0xDF05`
decodes to SVC 5. -/
theorem C21_placeholder_encodings_witness :
    Decode.decodeFromAdc 0x44FF 0 .MSP RegFile.new DecodedInst.new =
      .ok (Decode.issuePlaceholderInst DecodedInst.new, false) ∧
    Decode.decodeFromAdc 0x47F8 0 .MSP RegFile.new DecodedInst.new =
      .ok (Decode.issuePlaceholderInst DecodedInst.new, false) ∧
    Decode.decodeFromAdc 0xDE00 0 .MSP RegFile.new DecodedInst.new =
      .ok (Decode.issuePlaceholderInst DecodedInst.new, false) ∧
    Decode.decodeFromAdc 0xBA80 0 .MSP RegFile.new DecodedInst.new =
      .ok (Decode.issuePlaceholderInst DecodedInst.new, false) ∧
    Decode.decodeFromAdc 0xDF05 0 .MSP RegFile.new DecodedInst.new =
      .ok ((DecodedInst.new.setOperation .SVC).setImmediate 5, false) :=
  ⟨(C21_placeholder_encodings 0x44FF 0 .MSP RegFile.new DecodedInst.new).1
      (by decide) (by decide) (by decide),
    (C21_placeholder_encodings 0x47F8 0 .MSP RegFile.new DecodedInst.new).2.1
      (by decide) (by decide),
    (C21_placeholder_encodings 0xDE00 0 .MSP RegFile.new DecodedInst.new).2.2.2.1 (by decide),
    (C21_placeholder_encodings 0xBA80 0 .MSP RegFile.new DecodedInst.new).2.2.2.2.1 (by decide),
    (C21_placeholder_encodings 0xDF05 0 .MSP RegFile.new DecodedInst.new).2.2.2.2.2.1
      (by decide)⟩

/-- The register list that the blocks of POP and PUSH assemble: bits 0..7 of
the halfword, and bit `b` (15 or 14) copied from bit 8. -/
theorem stack_list_eq (inst b : Nat) (hb : 8 ≤ b) (hb' : b < 32) :
    ((inst >>> 0) &&& 0xFF) ||| shl32 ((inst >>> 8) &&& 0x1) b =
      inst % 256 + 2 ^ b * (inst / 256 % 2) := by
  have h1 : (inst >>> 0) &&& 0xFF = inst % 256 := by
    rw [Nat.shiftRight_zero]
    exact and_mask8 inst
  have h2 : (inst >>> 8) &&& 0x1 = inst / 256 % 2 := by
    rw [Nat.and_one_is_mod, Nat.shiftRight_eq_div_pow]
  have hp : (2 : Nat) ^ b < 4294967296 := by
    have : (2 : Nat) ^ b < 2 ^ 32 := Nat.pow_lt_pow_right (by norm_num) hb'
    simpa using this
  have h3 : shl32 (inst / 256 % 2) b = 2 ^ b * (inst / 256 % 2) := by
    rw [shl32_eq, Nat.mul_comm]
    apply Nat.mod_eq_of_lt
    have : inst / 256 % 2 < 2 := Nat.mod_lt _ (by norm_num)
    have h4 : inst / 256 % 2 = 0 ∨ inst / 256 % 2 = 1 := by omega
    rcases h4 with h4 | h4 <;> rw [h4] <;> omega
  rw [h1, h2, h3]
  have hlt : inst % 256 < 2 ^ b :=
    lt_of_lt_of_le (Nat.mod_lt _ (by norm_num))
      (le_trans (by norm_num : 256 ≤ 2 ^ 8) (Nat.pow_le_pow_right (by norm_num) hb))
  rw [or_high_disjoint _ _ _ hlt, Nat.add_comm]

theorem and_fifteen_lt (x : Nat) : x &&& 0xF < 19 :=
  lt_of_le_of_lt Nat.and_le_right (by norm_num)

theorem high_field_lt (x y : Nat) : (x &&& 0x7) ||| (y &&& 0x8) < 19 := by
  have h1 : x &&& 0x7 < 2 ^ 4 := lt_of_le_of_lt Nat.and_le_right (by norm_num)
  have h2 : y &&& 0x8 < 2 ^ 4 := lt_of_le_of_lt Nat.and_le_right (by norm_num)
  have := Nat.or_lt_two_pow h1 h2
  omega

/-- A run that evaluates to a state with the projection `v` has returned. -/
theorem ok_of_map {α : Type} (r : Except Exit Processor) (f : Processor → α) (v : α)
    (h : r.toOption.map f = some v) : ∃ s, r = .ok s ∧ f s = v := by
  cases r with
  | error e => simp [Except.toOption] at h
  | ok s => exact ⟨s, rfl, by simpa [Except.toOption] using h⟩

/-- C24: the tick of a multiple load that delivers the word `w` for PC (PC is
the last register of the list). Whatever bit 0 of `w` is, the tick returns:
PC receives `w` with bit 0 cleared, execute goes to FLUSH_PIPELINE, the branch
is counted as taken and no other register changes. In particular a word with
bit 0 clear does not end the simulation. -/
theorem C24_pop_pc_bit0_unchecked (s : Processor) (w : Nat)
    (hst : s.execute.execState = .MULTIPLE_LOAD_MEM_REQ)
    (hl : s.execute.mloadTmps.regList = [.PC])
    (hresp : s.mem.retrieveLoad s.execute.mloadTmps.memToken = some w) :
    ∃ s1, Execute.run s = .ok s1 ∧
      s1.regFile.regs .PC = w &&& not32 1 ∧
      (∀ x, x ≠ .PC → s1.regFile.regs x = s.regFile.regs x) ∧
      s1.execute.execState = .FLUSH_PIPELINE ∧
      s1.stats.branchTaken = s.stats.branchTaken + 1 ∧
      s1.decode = s.decode ∧ s1.fetch = s.fetch ∧ s1.mem = s.mem := by
  simp only [Execute.run, hst, executeMultipleLoadMemReq, hresp, hl, if_true, writeReg,
    RegFile.write, setExecState, addBranchTaken, List.length_nil, gt_iff_lt, lt_self_iff_false,
    if_false, calculateExecCycles, Statistics.addBranchTaken, Statistics.addExecuteCycle]
  refine ⟨_, rfl, ?_, ?_, rfl, rfl, rfl, rfl, rfl⟩
  · simp
  · intro x hx
    simp [hx]

/-- Witness of C24: the image `popPcImage` on a memory of 64 words reaches,
after four cycles, the tick in which `POP {PC}` receives the word `0x0000000C`,
whose bit 0 is clear; the tick returns with PC = 12. -/
theorem C24_pop_pc_bit0_unchecked_witness :
    ∃ s s1, Simulator.run (some popPcImage) 64 1 4 = .ok s ∧
      s.mem.retrieveLoad s.execute.mloadTmps.memToken = some 0x0C ∧
      Execute.run s = .ok s1 ∧ s1.regFile.regs .PC = 12 ∧
      s1.execute.execState = .FLUSH_PIPELINE := by
  obtain ⟨s, hs, hp⟩ := ok_of_map (Simulator.run (some popPcImage) 64 1 4)
    (fun s => (s.execute.execState, s.execute.mloadTmps.regList,
      s.mem.retrieveLoad s.execute.mloadTmps.memToken))
    (.MULTIPLE_LOAD_MEM_REQ, [.PC], some 0x0C) (by decide)
  simp only [Prod.mk.injEq] at hp
  obtain ⟨s1, h1, h2, _, h4, _⟩ := C24_pop_pc_bit0_unchecked s 0x0C hp.1 hp.2.1 hp.2.2
  exact ⟨s, s1, hs, hp.2.2, h1, by rw [h2]; decide, h4⟩


/-! ## Reset: C25 -/

/-- What a successful `Memory::loadProgram` returns. -/
theorem loadProgram_some (m : Memory) (bytes : List Nat) (pcAddr size : Nat) (m1 : Memory)
    (h : m.loadProgram (some bytes) = some (pcAddr, size, m1)) :
    bytes.length < WORD_TO_BYTE_SIZE m.memSizeWords ∧
    pcAddr = m1.mem 1 ∧ size = bytes.length ∧
    m1 = { m with mem := Memory.wordsAfterLoad m.mem bytes } := by
  unfold Memory.loadProgram at h
  by_cases hb : bytes.length ≥ WORD_TO_BYTE_SIZE m.memSizeWords
  · simp [hb] at h
  · simp only [hb, if_false, Option.some.injEq, Prod.mk.injEq] at h
    obtain ⟨h1, h2, h3⟩ := h
    refine ⟨by omega, ?_, h2.symm, h3.symm⟩
    rw [← h1, ← h3]
    rfl

/-- A word of the loaded memory that lies inside the file is made of the four
bytes of the file at its offset. -/
theorem wordsAfterLoad_inside (old : Nat → Nat) (bytes : List Nat) (w : Nat)
    (h : 4 * w + 4 ≤ bytes.length) :
    Memory.wordsAfterLoad old bytes w =
      bytes.getD (4 * w) 0 % 256 + 256 * (bytes.getD (4 * w + 1) 0 % 256)
        + 65536 * (bytes.getD (4 * w + 2) 0 % 256)
        + 16777216 * (bytes.getD (4 * w + 3) 0 % 256) := by
  unfold Memory.wordsAfterLoad Memory.byteAfterLoad
  rw [if_pos (by omega), if_pos (by omega), if_pos (by omega), if_pos (by omega)]

/-- C25: `Processor::reset` on an image that `Memory::loadProgram` accepts. The
reset ends fatally exactly when the word at byte offset 4 of the loaded memory
has bit 0 clear; otherwise PC is that word with bit 0 cleared, the active stack
pointer is the word at byte offset 0 and no other register changes. For an image
of at least eight bytes the two words are the first two words of the image. -/
theorem C25_reset_vector (s : Processor) (bytes : List Nat) (pcAddr size : Nat) (m1 : Memory)
    (hload : s.mem.loadProgram (some bytes) = some (pcAddr, size, m1)) :
    pcAddr = m1.mem 1 ∧
    ((∃ e, s.reset (some bytes) = .error e) ↔ pcAddr &&& 1 = 0) ∧
    (pcAddr &&& 1 = 0 →
      s.reset (some bytes) = .error (.fatal "Reset vector contains an ARM address")) ∧
    (pcAddr &&& 1 ≠ 0 → ∃ s1, s.reset (some bytes) = .ok s1 ∧
      s1.regFile.regs .PC = pcAddr &&& not32 1 ∧
      s1.regFile.regs s.regFile.getActiveSp = m1.mem 0 ∧
      (∀ r, r ≠ .PC → r ≠ s.regFile.getActiveSp → s1.regFile.regs r = s.regFile.regs r) ∧
      s1.mem = m1 ∧ s1.stats.programSizeBytes = bytes.length) ∧
    (8 ≤ bytes.length →
      m1.mem 0 = bytes.getD 0 0 % 256 + 256 * (bytes.getD 1 0 % 256)
        + 65536 * (bytes.getD 2 0 % 256) + 16777216 * (bytes.getD 3 0 % 256) ∧
      m1.mem 1 = bytes.getD 4 0 % 256 + 256 * (bytes.getD 5 0 % 256)
        + 65536 * (bytes.getD 6 0 % 256) + 16777216 * (bytes.getD 7 0 % 256)) := by
  obtain ⟨hlen, hpc, hsize, hm1⟩ := loadProgram_some _ _ _ _ _ hload
  have hsz : m1.memSizeWords = s.mem.memSizeWords := by rw [hm1]
  have hpos : 0 < s.mem.memSizeWords := by
    unfold WORD_TO_BYTE_SIZE at hlen
    rcases Nat.eq_zero_or_pos s.mem.memSizeWords with h0 | h0
    · rw [h0] at hlen
      simp at hlen
    · exact h0
  have hw0 : ¬ (0 ≥ m1.memSizeWords) := by
    rw [hsz]
    omega
  have hg0 : GET_WORD_INDEX 0 = 0 := by decide
  have hsp : (s.regFile.write .PC (pcAddr &&& not32 1)).getActiveSp = s.regFile.getActiveSp := by
    simp [RegFile.getActiveSp, RegFile.getControlS, RegFile.getControlBit, RegFile.write]
  have hspne : s.regFile.getActiveSp ≠ .PC := by
    rcases getActiveSp_stack s.regFile with h | h <;> rw [h] <;> decide
  have hok : pcAddr &&& 1 ≠ 0 → ∃ s1, s.reset (some bytes) = .ok s1 ∧
      s1.regFile.regs .PC = pcAddr &&& not32 1 ∧
      s1.regFile.regs s.regFile.getActiveSp = m1.mem 0 ∧
      (∀ r, r ≠ .PC → r ≠ s.regFile.getActiveSp → s1.regFile.regs r = s.regFile.regs r) ∧
      s1.mem = m1 ∧ s1.stats.programSizeBytes = bytes.length := by
    intro hbit
    simp only [Processor.reset, hload, hbit, if_false, Memory.loadWord, hg0, hw0, hsp]
    refine ⟨_, rfl, ?_, ?_, ?_, rfl, hsize⟩
    · simp [RegFile.write, Ne.symm hspne]
    · simp [RegFile.write]
    · intro r h1 h2
      simp [RegFile.write, h1, h2]
  have herr : pcAddr &&& 1 = 0 →
      s.reset (some bytes) = .error (.fatal "Reset vector contains an ARM address") := by
    intro hbit
    simp only [Processor.reset, hload, hbit, if_true]
  refine ⟨hpc, ⟨?_, fun h => ⟨_, herr h⟩⟩, herr, hok, ?_⟩
  · rintro ⟨e, he⟩
    by_contra hbit
    obtain ⟨s1, h1, _⟩ := hok hbit
    rw [h1] at he
    exact Except.noConfusion he
  · intro h8
    rw [hm1]
    exact ⟨wordsAfterLoad_inside _ _ 0 (by omega), wordsAfterLoad_inside _ _ 1 (by omega)⟩

/-- Witness of C25: on the fresh processor of 64 words the image `popPcImage`,
whose second word is 9, resets with PC = 8 and MSP = 16. -/
theorem C25_reset_vector_witness :
    ∃ m1 s1, (Processor.new 64 1).mem.loadProgram (some popPcImage) = some (9, 20, m1) ∧
      (Processor.new 64 1).reset (some popPcImage) = .ok s1 ∧
      s1.regFile.regs .PC = 8 ∧ s1.regFile.regs .MSP = 16 := by
  have hl : ∃ m1, (Processor.new 64 1).mem.loadProgram (some popPcImage) = some (9, 20, m1) :=
    ⟨_, rfl⟩
  obtain ⟨m1, hm⟩ := hl
  obtain ⟨_, _, _, hok, h8⟩ := C25_reset_vector (Processor.new 64 1) popPcImage 9 20 m1 hm
  obtain ⟨s1, h1, h2, h3, _⟩ := hok (by decide)
  have hsp : (Processor.new 64 1).regFile.getActiveSp = .MSP := by decide
  rw [hsp] at h3
  refine ⟨m1, s1, hm, h1, by rw [h2]; decide, ?_⟩
  rw [h3, (h8 (by decide)).1]
  decide


/-! ## The stages of a cycle -/

/-- A fetch request on a ready memory followed by the memory tick. -/
theorem ready_fetch (m : Memory) (a : Nat) (hr : m.Ready) (ha : a < 4294967296)
    (hin : a / 4 < m.memSizeWords) :
    ∃ m1, m.requestLoad .FETCH a = some (m.nextToken, m1) ∧ ∃ m2, m1.run = .ok m2 ∧
      m2.mem = m.mem ∧ m2.memSizeWords = m.memSizeWords ∧
      m2.memAccessWidthWords = m.memAccessWidthWords ∧ m2.Ready ∧
      m2.retrieveWideLoad m.nextToken = some (m.block a) := by
  obtain ⟨⟨k, hk⟩, hp, hp32, hidx, hfree⟩ := hr
  obtain ⟨m1, h1, m2, h2, h3, h4, h5, h6, h7, h8, h9, _⟩ :=
    memory_load_served m .FETCH a k hk hp hp32 hidx hfree (by decide) ha hin
  exact ⟨m1, h1, m2, h2, h3, h4, h5, ⟨⟨k, by rw [h5, hk]⟩, by rw [h6]; exact hp,
    by rw [h6]; exact hp32, h7, h8⟩, h9⟩

/-- The halfword that decode finds under `a` in a buffer filled with the block
around `a`. -/
theorem buffer_halfword (m : Memory) (a k : Nat) (old : Nat → Nat)
    (hw : m.memAccessWidthWords = 2 ^ k) (ha : a < 4294967296) :
    Fetch.bufferOfWords (m.block a) old (m.getMemAccessWidthInstOffset a) = m.halfwordAt a := by
  obtain ⟨hlow, _⟩ := widthMask_spec m k a hw ha
  have hwpos : 0 < m.memAccessWidthWords := by rw [hw]; exact Nat.two_pow_pos k
  unfold Memory.getMemAccessWidthInstOffset Fetch.bufferOfWords Memory.block Memory.halfwordAt
    THUMB_INST_BYTES
  rw [hlow]
  have hdm := Nat.div_add_mod a (4 * m.memAccessWidthWords)
  have hmod := Nat.mod_lt a (by omega : 0 < 4 * m.memAccessWidthWords)
  rw [Nat.mul_assoc] at hdm
  have hj : a % (4 * m.memAccessWidthWords) / 2 / 2 < m.memAccessWidthWords := by omega
  have hidx : m.memAccessWidthWords * (a / (4 * m.memAccessWidthWords)) +
      a % (4 * m.memAccessWidthWords) / 2 / 2 = a / 4 := by
    generalize m.memAccessWidthWords * (a / (4 * m.memAccessWidthWords)) = t at hdm ⊢
    omega
  have hpar : a % (4 * m.memAccessWidthWords) / 2 % 2 = a / 2 % 2 := by
    generalize m.memAccessWidthWords * (a / (4 * m.memAccessWidthWords)) = t at hdm
    omega
  simp only [List.length_map, List.length_range, hj, if_true, hpar]
  rw [List.getD_eq_getElem?_getD, List.getElem?_map, List.getElem?_range hj]
  simp only [Option.map_some', Option.getD_some, hidx]

/-- A cycle put together from its four ticks. -/
theorem simulateCycle_ok (s s1 s2 : Processor) (m : Memory)
    (hE : Execute.run { s with stats := s.stats.addCycle } = .ok s1)
    (hD : Decode.run s1 = .ok s2) (hM : (Fetch.run s2).mem.run = .ok m) :
    s.simulateCycle = .ok { Fetch.run s2 with mem := m } := by
  simp only [Processor.simulateCycle, hE, hD, hM]

/-- The execute tick with nothing to pull: decode holds no record or half of
one. The tick counts a stall for decode. -/
theorem execute_stall (s : Processor)
    (hst : s.execute.execState = .NEXT_INST) (hnone : s.execute.decodedInst = none)
    (hd : s.decode.decodedHalfInst = true ∨ s.decode.decodedInst = none) :
    Execute.run s = .ok { s with
      execute := { s.execute with curExecState := .NEXT_INST }
      stats := s.stats.addStallForDecodeCycle } := by
  have hg : s.decode.getNextInst = (none, s.decode) := by
    unfold Decode.getNextInst
    rcases hd with h | h
    · simp [h]
    · simp [h]
  simp only [Execute.run, hst, executeNextInst, hnone, Option.isSome_none, Bool.false_eq_true,
    if_false, hg, calculateExecCycles]

/-- The decode tick with a flush pending. -/
theorem decode_flush (s : Processor) (h : s.decode.flushPending = true) :
    Decode.run s = .ok { s with
      decode := { decodedHalfInst := false, flushPending := false, decodedInst := none } } := by
  simp only [Decode.run, h, if_true]

/-- The decode tick that finds no valid instruction buffer. -/
theorem decode_starved (s : Processor) (hflush : s.decode.flushPending = false)
    (hd : s.decode.decodedHalfInst = true ∨ s.decode.decodedInst = none)
    (hinv : s.fetch.instBufferValid = false) : Decode.run s = .ok s := by
  have hc : ¬ (s.decode.decodedInst.isSome = true ∧ ¬ s.decode.decodedHalfInst = true) := by
    rcases hd with h | h
    · simp [h]
    · simp [h]
  simp only [Decode.run, hflush, Bool.false_eq_true, if_false, hc, Fetch.getNextInst, hinv,
    not_false_eq_true, true_or, if_true]

/-- The decode tick that takes the halfword `h` under PC into a new record. -/
theorem decode_fresh (s : Processor) (P h : Nat) (d : DecodedInst) (half : Bool)
    (hP : s.regFile.regs .PC = P)
    (hflush : s.decode.flushPending = false) (hnone : s.decode.decodedInst = none)
    (hhalf : s.decode.decodedHalfInst = false)
    (hvalid : s.fetch.instBufferValid = true) (hfl : s.fetch.flushPending = false)
    (hsync : s.mem.getMemAccessWidthBaseByteAddr P = s.fetch.instBufferBaseAddr)
    (hh : s.fetch.instBuffer (s.mem.getMemAccessWidthInstOffset P) = h)
    (hdec : Decode.decodeFromAdc h
      (Decode.getCorrectedFetchAddress (s.regFile.write .PC (NEXT_THUMB_INST P)))
      (s.regFile.write .PC (NEXT_THUMB_INST P)).getActiveSp
      (s.regFile.write .PC (NEXT_THUMB_INST P)) DecodedInst.new = .ok (d, half)) :
    Decode.run s = .ok { s with
      regFile := s.regFile.write .PC (NEXT_THUMB_INST P)
      decode := { s.decode with decodedHalfInst := half, decodedInst := some d } } := by
  simp only [Decode.run, hflush, hnone, hhalf, Option.isSome_none, Bool.false_eq_true, if_false,
    false_and, Fetch.getNextInst, hvalid, hfl, not_true_eq_false, or_self, RegFile.readData, hP,
    hsync, ne_eq, hh, hdec]

/-- What a fetch tick leaves alone, in every state: the registers, the decode
and execute stages, the output and every counter but `fetchMemCycles`; no
flush is pending afterwards; the memory is untouched or has taken one load
request of fetch for the address under PC or the next halfword. -/
theorem fetch_frame (s : Processor) :
    (Fetch.run s).regFile = s.regFile ∧ (Fetch.run s).decode = s.decode ∧
    (Fetch.run s).execute = s.execute ∧ (Fetch.run s).output = s.output ∧
    (Fetch.run s).fetch.flushPending = false ∧
    (Fetch.run s).stats.cycles = s.stats.cycles ∧
    (Fetch.run s).stats.executeMemCycles = s.stats.executeMemCycles ∧
    (Fetch.run s).stats.stalledForDecodeCycles = s.stats.stalledForDecodeCycles ∧
    (Fetch.run s).stats.branchTaken = s.stats.branchTaken ∧
    (Fetch.run s).stats.branchNotTaken = s.stats.branchNotTaken ∧
    (Fetch.run s).stats.instCount = s.stats.instCount ∧
    ((Fetch.run s).mem = s.mem ∨
      (∃ t, s.mem.requestLoad .FETCH (s.regFile.regs .PC) = some (t, (Fetch.run s).mem)) ∨
      (∃ t, s.mem.requestLoad .FETCH (NEXT_THUMB_INST (s.regFile.regs .PC)) =
        some (t, (Fetch.run s).mem))) := by
  unfold Fetch.run
  simp only [RegFile.readData]
  split_ifs <;> (try split) <;>
    simp_all [Statistics.addFetchCycle] <;> (try split) <;> simp_all

/-- The memory tick after a fetch tick, on a memory that was ready before the
fetch tick: it is not fatal when the next halfword lies inside the memory, and
it leaves the memory ready with its contents unchanged. -/
theorem fetch_mem_run (s : Processor) (hr : s.mem.Ready)
    (h32 : s.regFile.regs .PC + 2 < 4294967296)
    (hin : (s.regFile.regs .PC + 2) / 4 < s.mem.memSizeWords) :
    ∃ m, (Fetch.run s).mem.run = .ok m ∧ m.Ready ∧ m.mem = s.mem.mem ∧
      m.memSizeWords = s.mem.memSizeWords ∧
      m.memAccessWidthWords = s.mem.memAccessWidthWords ∧
      (∀ t, (Fetch.run s).mem ≠ s.mem →
        (Fetch.run s).mem.nextToken = add32 s.mem.nextToken 1 ∧
        (t = s.mem.nextToken → ∃ a, (a = s.regFile.regs .PC ∨ a = s.regFile.regs .PC + 2) ∧
          s.mem.requestLoad .FETCH a = some (t, (Fetch.run s).mem) ∧
          m.retrieveWideLoad t = some (s.mem.block a))) := by
  have hnext : NEXT_THUMB_INST (s.regFile.regs .PC) = s.regFile.regs .PC + 2 := by
    unfold NEXT_THUMB_INST THUMB_INST_BYTES add32
    omega
  have hreq : ∀ a t, (a = s.regFile.regs .PC ∨ a = s.regFile.regs .PC + 2) →
      s.mem.requestLoad .FETCH a = some (t, (Fetch.run s).mem) →
      ∃ m, (Fetch.run s).mem.run = .ok m ∧ m.Ready ∧ m.mem = s.mem.mem ∧
        m.memSizeWords = s.mem.memSizeWords ∧
        m.memAccessWidthWords = s.mem.memAccessWidthWords ∧
        (∀ t', (Fetch.run s).mem ≠ s.mem →
          (Fetch.run s).mem.nextToken = add32 s.mem.nextToken 1 ∧
          (t' = s.mem.nextToken → ∃ a, (a = s.regFile.regs .PC ∨ a = s.regFile.regs .PC + 2) ∧
            s.mem.requestLoad .FETCH a = some (t', (Fetch.run s).mem) ∧
            m.retrieveWideLoad t' = some (s.mem.block a))) := by
    intro a t ha hq
    obtain ⟨m1, h1, m2, h2, h3, h4, h5, h6, h7⟩ := ready_fetch s.mem a hr
      (by rcases ha with h | h <;> rw [h] <;> omega)
      (by rcases ha with h | h <;> rw [h] <;> omega)
    rw [hq] at h1
    simp only [Option.some.injEq, Prod.mk.injEq] at h1
    obtain ⟨ht, hm⟩ := h1
    rw [← hm] at h2
    refine ⟨m2, h2, h6, h3, h4, h5, ?_⟩
    intro t' _
    refine ⟨(requestLoad_some _ _ _ _ _ hq).2.2.2.2.1, ?_⟩
    intro ht'
    refine ⟨a, ha, ?_, by rw [ht']; exact h7⟩
    rw [ht', ← ht]
    exact hq
  rcases (fetch_frame s).2.2.2.2.2.2.2.2.2.2.2 with h | ⟨t, h⟩ | ⟨t, h⟩
  · obtain ⟨m2, h2, h3, h4, h5⟩ := ready_idle s.mem hr
    rw [← h] at h2
    refine ⟨m2, h2, h5, h3, h4, ?_, ?_⟩
    · obtain ⟨_, _, _, _, hw, _⟩ := run_ring _ _ h2
      rw [hw, h]
    · intro t hne
      exact absurd h hne
  · exact hreq _ t (Or.inl rfl) h
  · rw [hnext] at h
    exact hreq _ t (Or.inr rfl) h


/-! ## Cycles of the pipeline -/

/-- The fetch tick that retrieves the answer to its request: the buffer becomes
valid, based at the block of PC, and holds the words of the answer. -/
theorem fetch_retrieve (s : Processor) (ws : List Nat)
    (hfl : s.fetch.flushPending = false) (hiss : s.fetch.issuedMemAccess = true)
    (hret : s.mem.retrieveWideLoad s.fetch.memToken = some ws) :
    (Fetch.run s).fetch.instBufferValid = true ∧
    (Fetch.run s).fetch.instBufferBaseAddr =
      s.mem.getMemAccessWidthBaseByteAddr (s.regFile.regs .PC) ∧
    (Fetch.run s).fetch.instBuffer = Fetch.bufferOfWords ws s.fetch.instBuffer := by
  unfold Fetch.run
  simp only [hfl, Bool.false_eq_true, if_false, hiss, if_true, hret, RegFile.readData,
    not_true_eq_false, false_or]
  split_ifs <;> (try split) <;> simp

/-- The fetch tick with a flush pending, on a ready memory: the buffer is
dropped and the block under PC is requested. -/
theorem fetch_flush (s : Processor) (T : Nat) (hfl : s.fetch.flushPending = true)
    (hT : s.regFile.regs .PC = T) (hr : s.mem.Ready) (h32 : T < 4294967296)
    (hin : T / 4 < s.mem.memSizeWords) :
    ∃ m, (Fetch.run s).mem.run = .ok m ∧ m.Ready ∧ m.mem = s.mem.mem ∧
      m.memSizeWords = s.mem.memSizeWords ∧
      m.memAccessWidthWords = s.mem.memAccessWidthWords ∧
      (Fetch.run s).fetch.instBufferValid = false ∧
      (Fetch.run s).fetch.issuedMemAccess = true ∧
      m.retrieveWideLoad (Fetch.run s).fetch.memToken = some (s.mem.block T) ∧
      (Fetch.run s).stats = s.stats.addFetchCycle := by
  obtain ⟨m1, h1, m2, h2, h3, h4, h5, h6, h7⟩ := ready_fetch s.mem T hr h32 hin
  have e : Fetch.run s = { s with
      mem := m1
      fetch := { s.fetch with
        instBufferValid := false
        instBufferBaseAddr := 0xFFFFFFFF
        instBuffer := fun i => if i < s.mem.memAccessWidthWords * 2 then 0 else s.fetch.instBuffer i
        flushPending := false
        memToken := s.mem.nextToken, issuedMemAccess := true }
      stats := s.stats.addFetchCycle } := by
    unfold Fetch.run
    simp only [hfl, if_true, Bool.false_eq_true, if_false, RegFile.readData, hT,
      not_false_eq_true, true_or, h1]
  rw [e]
  exact ⟨m2, h2, h6, h3, h4, h5, rfl, rfl, h7, rfl⟩

/-- The fetch tick from an invalid buffer with no request under way, on a ready
memory: the block under PC is requested. -/
theorem fetch_starved (s : Processor) (T : Nat) (hfl : s.fetch.flushPending = false)
    (hinv : s.fetch.instBufferValid = false) (hiss : s.fetch.issuedMemAccess = false)
    (hT : s.regFile.regs .PC = T) (hr : s.mem.Ready) (h32 : T < 4294967296)
    (hin : T / 4 < s.mem.memSizeWords) :
    ∃ m, (Fetch.run s).mem.run = .ok m ∧ m.Ready ∧ m.mem = s.mem.mem ∧
      m.memSizeWords = s.mem.memSizeWords ∧
      m.memAccessWidthWords = s.mem.memAccessWidthWords ∧
      (Fetch.run s).fetch.instBufferValid = false ∧
      (Fetch.run s).fetch.issuedMemAccess = true ∧
      m.retrieveWideLoad (Fetch.run s).fetch.memToken = some (s.mem.block T) ∧
      (Fetch.run s).stats = s.stats.addFetchCycle := by
  obtain ⟨m1, h1, m2, h2, h3, h4, h5, h6, h7⟩ := ready_fetch s.mem T hr h32 hin
  have e : Fetch.run s = { s with
      mem := m1
      fetch := { s.fetch with memToken := s.mem.nextToken, issuedMemAccess := true }
      stats := s.stats.addFetchCycle } := by
    unfold Fetch.run
    simp only [hfl, Bool.false_eq_true, if_false, hiss, RegFile.readData, hT, hinv,
      not_false_eq_true, true_or, if_true, h1]
  rw [e]
  exact ⟨m2, h2, h6, h3, h4, h5, hinv, rfl, h7, rfl⟩

/-- The block around an address depends on the contents and the width of the
memory only. -/
theorem block_congr (m m' : Memory) (a : Nat) (h1 : m'.mem = m.mem)
    (h2 : m'.memAccessWidthWords = m.memAccessWidthWords) : m'.block a = m.block a := by
  unfold Memory.block
  rw [h1, h2]

/-- The cycle of an instruction that requests a flush and makes no memory
request, as the branches do: decode is emptied, the instruction buffer is
dropped and the block around the new PC is requested and served. -/
theorem flush_cycle (s s1 : Processor) (T : Nat)
    (hE : Execute.run { s with stats := s.stats.addCycle } = .ok s1)
    (hfd : s1.decode.flushPending = true) (hff : s1.fetch.flushPending = true)
    (hm : s1.mem = s.mem) (hst : s1.execute.execState = .NEXT_INST)
    (hnone : s1.execute.decodedInst = none)
    (hT : s1.regFile.regs .PC = T) (hr : s.mem.Ready) (h32 : T < 4294967296)
    (hin : T / 4 < s.mem.memSizeWords) :
    ∃ s', s.simulateCycle = .ok s' ∧ s'.Refilling T ∧ s'.regFile = s1.regFile ∧
      s'.mem.mem = s.mem.mem ∧ s'.mem.memSizeWords = s.mem.memSizeWords ∧
      s'.mem.memAccessWidthWords = s.mem.memAccessWidthWords ∧
      s'.stats = s1.stats.addFetchCycle ∧ s'.output = s1.output := by
  obtain ⟨s2, hs2⟩ : ∃ s2 : Processor, s2 = { s1 with
      decode := { decodedHalfInst := false, flushPending := false, decodedInst := none } } :=
    ⟨_, rfl⟩
  have hD : Decode.run s1 = .ok s2 := by rw [hs2]; exact decode_flush s1 hfd
  have e1 : s2.mem = s.mem := by rw [hs2]; exact hm
  have e2 : s2.fetch = s1.fetch := by rw [hs2]
  have e3 : s2.regFile = s1.regFile := by rw [hs2]
  have e4 : s2.execute = s1.execute := by rw [hs2]
  have e5 : s2.stats = s1.stats := by rw [hs2]
  have e6 : s2.output = s1.output := by rw [hs2]
  have e7 : s2.decode =
      { decodedHalfInst := false, flushPending := false, decodedInst := none } := by rw [hs2]
  obtain ⟨m, hM, h1, h2, h3, h4, h5, h6, h7, h8⟩ := fetch_flush s2 T (by rw [e2]; exact hff)
    (by rw [e3]; exact hT) (by rw [e1]; exact hr) h32 (by rw [e1]; exact hin)
  obtain ⟨f1, f2, f3, f4, f5, _⟩ := fetch_frame s2
  refine ⟨_, simulateCycle_ok s s1 s2 m hE hD hM, ?_, ?_, ?_, ?_, ?_, ?_, ?_⟩
  · refine ⟨?_, ?_, ?_, ?_, ?_, h5, f5, h6, ?_, h1, ?_⟩
    · show (Fetch.run s2).execute.execState = _
      rw [f3, e4]; exact hst
    · show (Fetch.run s2).execute.decodedInst = _
      rw [f3, e4]; exact hnone
    · show (Fetch.run s2).decode.decodedInst = _
      rw [f2, e7]
    · show (Fetch.run s2).decode.decodedHalfInst = _
      rw [f2, e7]
    · show (Fetch.run s2).decode.flushPending = _
      rw [f2, e7]
    · show (Fetch.run s2).regFile.regs .PC = _
      rw [f1, e3]; exact hT
    · show m.retrieveWideLoad (Fetch.run s2).fetch.memToken = some (m.block T)
      rw [h7]
      congr 1
      exact (block_congr _ _ T h2 h4).symm
  · show (Fetch.run s2).regFile = _
    rw [f1, e3]
  · show m.mem = _
    rw [h2, e1]
  · show m.memSizeWords = _
    rw [h3, e1]
  · show m.memAccessWidthWords = _
    rw [h4, e1]
  · show (Fetch.run s2).stats = _
    rw [h8, e5]
  · show (Fetch.run s2).output = _
    rw [f4, e6]

/-- The first cycle from an empty pipeline with an invalid instruction buffer
and no fetch under way, as after reset: execute and decode stall and fetch
requests the block around PC. -/
theorem starved_cycle (s : Processor) (A : Nat)
    (hst : s.execute.execState = .NEXT_INST) (hnone : s.execute.decodedInst = none)
    (hdn : s.decode.decodedInst = none) (hdh : s.decode.decodedHalfInst = false)
    (hdf : s.decode.flushPending = false)
    (hinv : s.fetch.instBufferValid = false) (hfl : s.fetch.flushPending = false)
    (hiss : s.fetch.issuedMemAccess = false)
    (hA : s.regFile.regs .PC = A) (hr : s.mem.Ready) (h32 : A < 4294967296)
    (hin : A / 4 < s.mem.memSizeWords) :
    ∃ s', s.simulateCycle = .ok s' ∧ s'.Refilling A ∧ s'.regFile = s.regFile ∧
      s'.mem.mem = s.mem.mem ∧ s'.mem.memSizeWords = s.mem.memSizeWords ∧
      s'.mem.memAccessWidthWords = s.mem.memAccessWidthWords ∧
      s'.stats = ((s.stats.addCycle).addStallForDecodeCycle).addFetchCycle ∧
      s'.output = s.output := by
  obtain ⟨s1, hs1⟩ : ∃ s1 : Processor, s1 = { s with
      execute := { s.execute with curExecState := .NEXT_INST }
      stats := (s.stats.addCycle).addStallForDecodeCycle } := ⟨_, rfl⟩
  have hE : Execute.run { s with stats := s.stats.addCycle } = .ok s1 := by
    rw [hs1]
    exact execute_stall { s with stats := s.stats.addCycle } hst hnone (Or.inr hdn)
  have e1 : s1.mem = s.mem := by rw [hs1]
  have e2 : s1.fetch = s.fetch := by rw [hs1]
  have e3 : s1.regFile = s.regFile := by rw [hs1]
  have e5 : s1.stats = (s.stats.addCycle).addStallForDecodeCycle := by rw [hs1]
  have e6 : s1.output = s.output := by rw [hs1]
  have e7 : s1.decode = s.decode := by rw [hs1]
  have e8 : s1.execute.execState = .NEXT_INST := by rw [hs1]; exact hst
  have e9 : s1.execute.decodedInst = none := by rw [hs1]; exact hnone
  have hD : Decode.run s1 = .ok s1 :=
    decode_starved s1 (by rw [e7]; exact hdf) (Or.inr (by rw [e7]; exact hdn))
      (by rw [e2]; exact hinv)
  obtain ⟨m, hM, h1, h2, h3, h4, h5, h6, h7, h8⟩ := fetch_starved s1 A (by rw [e2]; exact hfl)
    (by rw [e2]; exact hinv) (by rw [e2]; exact hiss) (by rw [e3]; exact hA)
    (by rw [e1]; exact hr) h32 (by rw [e1]; exact hin)
  obtain ⟨f1, f2, f3, f4, f5, _⟩ := fetch_frame s1
  refine ⟨_, simulateCycle_ok s s1 s1 m hE hD hM, ?_, ?_, ?_, ?_, ?_, ?_, ?_⟩
  · refine ⟨?_, ?_, ?_, ?_, ?_, h5, f5, h6, ?_, h1, ?_⟩
    · show (Fetch.run s1).execute.execState = _
      rw [f3]; exact e8
    · show (Fetch.run s1).execute.decodedInst = _
      rw [f3]; exact e9
    · show (Fetch.run s1).decode.decodedInst = _
      rw [f2, e7]; exact hdn
    · show (Fetch.run s1).decode.decodedHalfInst = _
      rw [f2, e7]; exact hdh
    · show (Fetch.run s1).decode.flushPending = _
      rw [f2, e7]; exact hdf
    · show (Fetch.run s1).regFile.regs .PC = _
      rw [f1, e3]; exact hA
    · show m.retrieveWideLoad (Fetch.run s1).fetch.memToken = some (m.block A)
      rw [h7]
      congr 1
      exact (block_congr _ _ A h2 h4).symm
  · show (Fetch.run s1).regFile = _
    rw [f1, e3]
  · show m.mem = _
    rw [h2, e1]
  · show m.memSizeWords = _
    rw [h3, e1]
  · show m.memAccessWidthWords = _
    rw [h4, e1]
  · show (Fetch.run s1).stats = _
    rw [h8, e5]
  · show (Fetch.run s1).output = _
    rw [f4, e6]

/-- The offset of an address inside the instruction buffer and the base of its
block depend on the width of the memory only. -/
theorem width_congr (m m' : Memory) (a : Nat)
    (h : m'.memAccessWidthWords = m.memAccessWidthWords) :
    m'.getMemAccessWidthInstOffset a = m.getMemAccessWidthInstOffset a ∧
    m'.getMemAccessWidthBaseByteAddr a = m.getMemAccessWidthBaseByteAddr a := by
  unfold Memory.getMemAccessWidthInstOffset Memory.getMemAccessWidthBaseByteAddr
    Memory.widthMask
  rw [h]
  exact ⟨rfl, rfl⟩

/-- The two cycles that refill the pipeline: in the first fetch retrieves the
block around `A`, in the second decode takes the halfword at `A` into the
record `d`. Execute stalls for decode in both. -/
theorem refill_cycles (s : Processor) (A : Nat) (d : DecodedInst) (half : Bool)
    (hs : s.Refilling A) (h32 : A + 4 < 4294967296) (hin : (A + 4) / 4 < s.mem.memSizeWords)
    (hdec : Decode.decodeFromAdc (s.mem.halfwordAt A)
      (Decode.getCorrectedFetchAddress (s.regFile.write .PC (NEXT_THUMB_INST A)))
      (s.regFile.write .PC (NEXT_THUMB_INST A)).getActiveSp
      (s.regFile.write .PC (NEXT_THUMB_INST A)) DecodedInst.new = .ok (d, half)) :
    ∃ s2, s.simulateCycles 2 = .ok s2 ∧
      s2.execute.execState = .NEXT_INST ∧ s2.execute.decodedInst = none ∧
      s2.decode.decodedInst = some d ∧ s2.decode.decodedHalfInst = half ∧
      s2.decode.flushPending = false ∧ s2.fetch.flushPending = false ∧ s2.mem.Ready ∧
      s2.regFile = s.regFile.write .PC (NEXT_THUMB_INST A) ∧
      s2.mem.mem = s.mem.mem ∧ s2.mem.memSizeWords = s.mem.memSizeWords ∧
      s2.mem.memAccessWidthWords = s.mem.memAccessWidthWords ∧
      s2.stats.cycles = s.stats.cycles + 2 ∧
      s2.stats.stalledForDecodeCycles = s.stats.stalledForDecodeCycles + 2 ∧
      s2.stats.executeMemCycles = s.stats.executeMemCycles ∧
      s2.stats.branchTaken = s.stats.branchTaken ∧
      s2.stats.branchNotTaken = s.stats.branchNotTaken ∧
      s2.stats.instCount = s.stats.instCount ∧ s2.output = s.output := by
  obtain ⟨hst, hnone, hdn, hdh, hdf, hinv, hfl, hiss, hA, hr, hret⟩ := hs
  obtain ⟨k, hk⟩ := hr.1
  -- first cycle
  obtain ⟨s1, hs1⟩ : ∃ s1 : Processor, s1 = { s with
      execute := { s.execute with curExecState := .NEXT_INST }
      stats := (s.stats.addCycle).addStallForDecodeCycle } := ⟨_, rfl⟩
  have hE : Execute.run { s with stats := s.stats.addCycle } = .ok s1 := by
    rw [hs1]
    exact execute_stall { s with stats := s.stats.addCycle } hst hnone (Or.inr hdn)
  have e1 : s1.mem = s.mem := by rw [hs1]
  have e2 : s1.fetch = s.fetch := by rw [hs1]
  have e3 : s1.regFile = s.regFile := by rw [hs1]
  have e5 : s1.stats = (s.stats.addCycle).addStallForDecodeCycle := by rw [hs1]
  have e6 : s1.output = s.output := by rw [hs1]
  have e7 : s1.decode = s.decode := by rw [hs1]
  have e8 : s1.execute.execState = .NEXT_INST := by rw [hs1]; exact hst
  have e9 : s1.execute.decodedInst = none := by rw [hs1]; exact hnone
  have hD : Decode.run s1 = .ok s1 :=
    decode_starved s1 (by rw [e7]; exact hdf) (Or.inr (by rw [e7]; exact hdn))
      (by rw [e2]; exact hinv)
  obtain ⟨m, hM, g1, g2, g3, g4, _⟩ := fetch_mem_run s1 (by rw [e1]; exact hr)
    (by rw [e3, hA]; omega) (by rw [e3, hA, e1]; omega)
  obtain ⟨r1, r2, r3⟩ := fetch_retrieve s1 (s.mem.block A) (by rw [e2]; exact hfl)
    (by rw [e2]; exact hiss) (by rw [e1, e2]; exact hret)
  obtain ⟨f1, f2, f3, f4, f5, f6, f7, f8, f9, f10, f11, _⟩ := fetch_frame s1
  obtain ⟨t1, ht1⟩ : ∃ t1 : Processor, t1 = { Fetch.run s1 with mem := m } := ⟨_, rfl⟩
  have hc1 : s.simulateCycle = .ok t1 := by
    rw [ht1]; exact simulateCycle_ok s s1 s1 m hE hD hM
  have a1 : t1.mem = m := by rw [ht1]
  have a2 : t1.fetch = (Fetch.run s1).fetch := by rw [ht1]
  have a3 : t1.regFile = s.regFile := by rw [ht1]; show (Fetch.run s1).regFile = _; rw [f1, e3]
  have a4 : t1.decode = s.decode := by rw [ht1]; show (Fetch.run s1).decode = _; rw [f2, e7]
  have a5 : t1.execute = s1.execute := by rw [ht1]; exact f3
  have a6 : t1.output = s.output := by rw [ht1]; show (Fetch.run s1).output = _; rw [f4, e6]
  have a7 : t1.stats = (Fetch.run s1).stats := by rw [ht1]
  -- second cycle
  obtain ⟨s3, hs3⟩ : ∃ s3 : Processor, s3 = { t1 with
      execute := { t1.execute with curExecState := .NEXT_INST }
      stats := (t1.stats.addCycle).addStallForDecodeCycle } := ⟨_, rfl⟩
  have hE2 : Execute.run { t1 with stats := t1.stats.addCycle } = .ok s3 := by
    rw [hs3]
    exact execute_stall { t1 with stats := t1.stats.addCycle } (by rw [a5]; exact e8)
      (by rw [a5]; exact e9) (Or.inr (by rw [a4]; exact hdn))
  have b1 : s3.mem = m := by rw [hs3]; exact a1
  have b2 : s3.fetch = (Fetch.run s1).fetch := by rw [hs3]; exact a2
  have b3 : s3.regFile = s.regFile := by rw [hs3]; exact a3
  have b4 : s3.decode = s.decode := by rw [hs3]; exact a4
  have b5 : s3.execute.execState = .NEXT_INST := by rw [hs3]; show t1.execute.execState = _; rw [a5]; exact e8
  have b6 : s3.execute.decodedInst = none := by rw [hs3]; show t1.execute.decodedInst = _; rw [a5]; exact e9
  have b7 : s3.output = s.output := by rw [hs3]; exact a6
  have b8 : s3.stats = (t1.stats.addCycle).addStallForDecodeCycle := by rw [hs3]
  obtain ⟨w1, w2⟩ := width_congr s.mem m A (by rw [g4, e1])
  have hbuf : s3.fetch.instBuffer (s3.mem.getMemAccessWidthInstOffset A) = s.mem.halfwordAt A := by
    rw [b2, r3, b1, w1]
    exact buffer_halfword s.mem A k _ hk (by omega)
  obtain ⟨s4, hs4⟩ : ∃ s4 : Processor, s4 = { s3 with
      regFile := s3.regFile.write .PC (NEXT_THUMB_INST A)
      decode := { s3.decode with decodedHalfInst := half, decodedInst := some d } } := ⟨_, rfl⟩
  have hD2 : Decode.run s3 = .ok s4 := by
    rw [hs4]
    refine decode_fresh s3 A (s.mem.halfwordAt A) d half (by rw [b3]; exact hA)
      (by rw [b4]; exact hdf) (by rw [b4]; exact hdn) (by rw [b4]; exact hdh)
      (by rw [b2]; exact r1) (by rw [b2]; exact f5) ?_ hbuf (by rw [b3]; exact hdec)
    rw [b2, r2, b1, w2, e3, hA, e1]
  have c1 : s4.mem = m := by rw [hs4]; exact b1
  have c3 : s4.regFile = s.regFile.write .PC (NEXT_THUMB_INST A) := by rw [hs4, b3]
  have hnext : NEXT_THUMB_INST A = A + 2 := by
    unfold NEXT_THUMB_INST THUMB_INST_BYTES add32
    omega
  have hpc4 : s4.regFile.regs .PC = A + 2 := by
    rw [c3, hnext]
    simp [RegFile.write]
  obtain ⟨m', hM2, q1, q2, q3, q4, _⟩ := fetch_mem_run s4 (by rw [c1]; exact g1)
    (by rw [hpc4]; omega)
    (by rw [hpc4, c1, g3, e1, show A + 2 + 2 = A + 4 from rfl]; exact hin)
  obtain ⟨p1, p2, p3, p4, p5, p6, p7, p8, p9, p10, p11, _⟩ := fetch_frame s4
  obtain ⟨t2, ht2⟩ : ∃ t2 : Processor, t2 = { Fetch.run s4 with mem := m' } := ⟨_, rfl⟩
  have hc2 : t1.simulateCycle = .ok t2 := by
    rw [ht2]; exact simulateCycle_ok t1 s3 s4 m' hE2 hD2 hM2
  refine ⟨t2, by simp only [Processor.simulateCycles, hc1, hc2], ?_, ?_, ?_, ?_, ?_, ?_, ?_, ?_,
    ?_, ?_, ?_, ?_, ?_, ?_, ?_, ?_, ?_, ?_⟩ <;> rw [ht2]
  · show (Fetch.run s4).execute.execState = _
    rw [p3, hs4]; exact b5
  · show (Fetch.run s4).execute.decodedInst = _
    rw [p3, hs4]; exact b6
  · show (Fetch.run s4).decode.decodedInst = _
    rw [p2, hs4]
  · show (Fetch.run s4).decode.decodedHalfInst = _
    rw [p2, hs4]
  · show (Fetch.run s4).decode.flushPending = _
    rw [p2, hs4]; show s3.decode.flushPending = _; rw [b4]; exact hdf
  · exact p5
  · exact q1
  · show (Fetch.run s4).regFile = _
    rw [p1, c3]
  · show m'.mem = _
    rw [q2, c1, g2, e1]
  · show m'.memSizeWords = _
    rw [q3, c1, g3, e1]
  · show m'.memAccessWidthWords = _
    rw [q4, c1, g4, e1]
  · show (Fetch.run s4).stats.cycles = _
    rw [p6, hs4]; show s3.stats.cycles = _
    rw [b8, a7]; show (Fetch.run s1).stats.cycles + 1 = _
    rw [f6, e5]; rfl
  · show (Fetch.run s4).stats.stalledForDecodeCycles = _
    rw [p8, hs4]; show s3.stats.stalledForDecodeCycles = _
    rw [b8, a7]; show (Fetch.run s1).stats.stalledForDecodeCycles + 1 = _
    rw [f8, e5]; rfl
  · show (Fetch.run s4).stats.executeMemCycles = _
    rw [p7, hs4]; show s3.stats.executeMemCycles = _
    rw [b8, a7]; show (Fetch.run s1).stats.executeMemCycles = _
    rw [f7, e5]; rfl
  · show (Fetch.run s4).stats.branchTaken = _
    rw [p9, hs4]; show s3.stats.branchTaken = _
    rw [b8, a7]; show (Fetch.run s1).stats.branchTaken = _
    rw [f9, e5]; rfl
  · show (Fetch.run s4).stats.branchNotTaken = _
    rw [p10, hs4]; show s3.stats.branchNotTaken = _
    rw [b8, a7]; show (Fetch.run s1).stats.branchNotTaken = _
    rw [f10, e5]; rfl
  · show (Fetch.run s4).stats.instCount = _
    rw [p11, hs4]; show s3.stats.instCount = _
    rw [b8, a7]; show (Fetch.run s1).stats.instCount = _
    rw [f11, e5]; rfl
  · show (Fetch.run s4).output = _
    rw [p4, hs4]; exact b7


/-- The decoder on a halfword with `(h & 0xF800) = 0xE000`: the block of B2. -/
theorem decodeAt_B2 (inst pc : Nat) (activeSp : Reg) (rf : RegFile) (d : DecodedInst)
    (e : inst &&& 0xF800 = 0xE000) :
    Decode.decodeFromAdc inst pc activeSp rf d = ((do
      let im11 := (inst >>> 0) &&& 0x7FF
      let d := d.setOperation .B2
      let d := d.setRegister .RM .PC pc
      let d := d.setImmediate im11
      pure (d, false)) : Except Exit (DecodedInst × Bool)) := by
  rw [decodeFromAdc_skip _ _ _ _ _ (matches_none_of inst _ _ _ e (by decide))]
  unfold Decode.decodeFromB2
  rw [if_pos e]

/-- Cycles run one after the other. -/
theorem simulateCycles_add (a b : Nat) : ∀ (s s' : Processor), s.simulateCycles a = .ok s' →
    s.simulateCycles (a + b) = s'.simulateCycles b := by
  induction a with
  | zero =>
    intro s s' h
    simp only [Processor.simulateCycles, Except.ok.injEq] at h
    rw [Nat.zero_add, h]
  | succ a ih =>
    intro s s' h
    rw [show a + 1 + b = (a + b) + 1 from by omega]
    simp only [Processor.simulateCycles] at h ⊢
    cases hc : s.simulateCycle with
    | error e => rw [hc] at h; exact Except.noConfusion h
    | ok t =>
      rw [hc] at h
      simp only [] at h ⊢
      exact ih t s' h

theorem simulateCycles_one (s : Processor) : s.simulateCycles 1 = s.simulateCycle := by
  simp only [Processor.simulateCycles]
  cases s.simulateCycle <;> rfl

/-- The execute tick that pulls a decoded B2. -/
theorem execute_b2 (s : Processor) (d : DecodedInst) (pc : Nat)
    (hst : s.execute.execState = .NEXT_INST) (hnone : s.execute.decodedInst = none)
    (hdec : s.decode.decodedInst = some d) (hhalf : s.decode.decodedHalfInst = false)
    (hop : d.op = .B2) (hrm : d.regsNumber .RM = .PC) (hdrm : d.regsData .RM = pc) :
    Execute.run s = .ok
      { b2 { s with decode := { s.decode with decodedInst := none }
                    execute := { s.execute with curExecState := .NEXT_INST
                                                decodedInst := some d } } .PC pc d.im with
        execute := { s.execute with curExecState := .NEXT_INST, decodedInst := none } } := by
  have hsome : (some d).isNone = false := rfl
  simp only [Execute.run, hst, executeNextInst, hnone, Option.isSome_none, Bool.false_eq_true,
    if_false, Decode.getNextInst, hdec, hhalf, hsome, or_self, executeInst,
    DecodedInst.getOperation, hop, DecodedInst.getRegisterNumber, hrm,
    DecodedInst.getRegisterData, hdrm, DecodedInst.getImmediate, calculateExecCycles]
  rfl

/-- Target of `B` with the immediate `0x7FE` (offset -4) from the halfword at
`A`: the halfword itself. -/
theorem b2_self_target (A : Nat) (h32 : A + 4 < 4294967296) :
    add32 (shl32 (if GET_BIT_AT_POS 0x7FE 10 = 0 then 0x7FE
      else 0x7FE ||| shl32 (not32 0) 10) 1) (A + 4) = A := by
  have e : shl32 (if GET_BIT_AT_POS 0x7FE 10 = 0 then 0x7FE
      else 0x7FE ||| shl32 (not32 0) 10) 1 = 4294967292 := by decide
  rw [e]
  unfold add32
  omega

/-- One turn of the loop `B .` (halfword `0xE7FE` branching to itself): from the
state in which the fetch of the block around `A` is under way, two cycles
refill the pipeline and the third executes the branch, which leaves the same
kind of state; three cycles and one taken branch are counted. -/
theorem self_loop_turn (s : Processor) (A : Nat) (hs : s.Refilling A)
    (hh : s.mem.halfwordAt A = 0xE7FE)
    (h32 : A + 4 < 4294967296) (hin : (A + 4) / 4 < s.mem.memSizeWords) :
    ∃ s2 s3, s.simulateCycles 2 = .ok s2 ∧ s2.simulateCycle = .ok s3 ∧
      s2.stats.cycles = s.stats.cycles + 2 ∧ s2.stats.branchTaken = s.stats.branchTaken ∧
      s2.stats.instCount = s.stats.instCount ∧
      s3.Refilling A ∧ s3.mem.mem = s.mem.mem ∧ s3.mem.memSizeWords = s.mem.memSizeWords ∧
      s3.stats.cycles = s.stats.cycles + 3 ∧
      s3.stats.branchTaken = s.stats.branchTaken + 1 ∧
      s3.stats.instCount .B = s.stats.instCount .B + 1 := by
  have hnn : Decode.getCorrectedFetchAddress (s.regFile.write .PC (NEXT_THUMB_INST A)) =
      A + 4 := by
    unfold Decode.getCorrectedFetchAddress
    simp only [RegFile.readData, RegFile.write, if_true]
    rw [next_next]
    unfold add32
    omega
  obtain ⟨dB, hdB⟩ : ∃ dB : DecodedInst, dB =
      ((DecodedInst.new.setOperation .B2).setRegister .RM .PC (A + 4)).setImmediate 0x7FE :=
    ⟨_, rfl⟩
  have hdec : Decode.decodeFromAdc (s.mem.halfwordAt A)
      (Decode.getCorrectedFetchAddress (s.regFile.write .PC (NEXT_THUMB_INST A)))
      (s.regFile.write .PC (NEXT_THUMB_INST A)).getActiveSp
      (s.regFile.write .PC (NEXT_THUMB_INST A)) DecodedInst.new = .ok (dB, false) := by
    rw [hh, hnn, decodeAt_B2 _ _ _ _ _ (by decide), hdB]
    rfl
  obtain ⟨s2, hc2, x1, x2, x3, x4, x5, x6, x7, x8, x9, x10, x11, x12, x13, x14, x15, x16, x17,
    x18⟩ := refill_cycles s A dB false hs h32 hin hdec
  have hE := execute_b2 { s2 with stats := s2.stats.addCycle } dB (A + 4) x1 x2 x3 x4
    (by rw [hdB]; rfl) (by rw [hdB]; rfl) (by rw [hdB]; rfl)
  have him : dB.im = 0x7FE := by rw [hdB]; rfl
  rw [him] at hE
  obtain ⟨s3, hc3, y1, y2, y3, y4, y5, y6, y7⟩ := flush_cycle s2 _ A hE rfl rfl rfl x1 rfl
    (by
      simp only [b2, writeReg, RegFile.write, flushPipeline, addBranchTaken, addInstruction,
        if_true]
      exact b2_self_target A h32)
    x7 (by omega) (by rw [x10]; omega)
  refine ⟨s2, s3, hc2, hc3, x12, x15, x17, y1, by rw [y3, x9], by rw [y4, x10], ?_, ?_, ?_⟩
  · rw [y6]
    simp only [b2, writeReg, flushPipeline, addBranchTaken, addInstruction,
      Statistics.addFetchCycle, Statistics.addBranchTaken, Statistics.addInstruction,
      Statistics.addCycle]
    omega
  · rw [y6]
    simp only [b2, writeReg, flushPipeline, addBranchTaken, addInstruction,
      Statistics.addFetchCycle, Statistics.addBranchTaken, Statistics.addInstruction,
      Statistics.addCycle]
    omega
  · rw [y6]
    simp only [b2, writeReg, flushPipeline, addBranchTaken, addInstruction,
      Statistics.addFetchCycle, Statistics.addBranchTaken, Statistics.addInstruction,
      Statistics.addCycle, if_true]
    rw [x17]


/-! ## The loop of a branch to itself: C27 -/

/-- Turns of the loop `B .`: after `3 n` cycles from a state in which the fetch
of the branch is under way, `n` branches have been taken. -/
theorem self_loop_turns (A : Nat) (h32 : A + 4 < 4294967296) (n : Nat) :
    ∀ s : Processor, s.Refilling A → s.mem.halfwordAt A = 0xE7FE →
      (A + 4) / 4 < s.mem.memSizeWords →
      ∃ sn, s.simulateCycles (3 * n) = .ok sn ∧ sn.Refilling A ∧
        sn.mem.halfwordAt A = 0xE7FE ∧ sn.mem.memSizeWords = s.mem.memSizeWords ∧
        sn.stats.cycles = s.stats.cycles + 3 * n ∧
        sn.stats.branchTaken = s.stats.branchTaken + n ∧
        sn.stats.instCount .B = s.stats.instCount .B + n := by
  induction n with
  | zero =>
    intro s hs hh _
    exact ⟨s, rfl, hs, hh, rfl, rfl, rfl, rfl⟩
  | succ n ih =>
    intro s hs hh hin
    obtain ⟨s2, s3, c2, c3, _, _, _, r3, m3, z3, y1, y2, y3⟩ := self_loop_turn s A hs hh h32 hin
    have hh3 : s3.mem.halfwordAt A = 0xE7FE := by
      unfold Memory.halfwordAt at hh ⊢
      rw [m3]; exact hh
    obtain ⟨sn, cn, rn, hn, zn, w1, w2, w3⟩ := ih s3 r3 hh3 (by rw [z3]; exact hin)
    have c : s.simulateCycles 3 = .ok s3 := by
      rw [show 3 = 2 + 1 from rfl, simulateCycles_add 2 1 s s2 c2, simulateCycles_one, c3]
    refine ⟨sn, ?_, rn, hn, by rw [zn, z3], by rw [w1, y1]; omega, by rw [w2, y2]; omega,
      by rw [w3, y3]; omega⟩
    rw [show 3 * (n + 1) = 3 + 3 * n from by omega, simulateCycles_add 3 (3 * n) s s3 c, cn]

/-- What `Processor::reset` leaves alone: the three stages, the output, the
ring of the memory and the counters. -/
theorem reset_frame (s s0 : Processor) (file : Option (List Nat)) (h : s.reset file = .ok s0) :
    s0.execute = s.execute ∧ s0.decode = s.decode ∧ s0.fetch = s.fetch ∧
    s0.output = s.output ∧ s0.mem.pipeline = s.mem.pipeline ∧
    s0.mem.pipelineSize = s.mem.pipelineSize ∧ s0.mem.nextReqIndex = s.mem.nextReqIndex ∧
    s0.mem.nextToken = s.mem.nextToken ∧
    s0.mem.memAccessWidthWords = s.mem.memAccessWidthWords ∧
    s0.mem.memSizeWords = s.mem.memSizeWords ∧
    s0.stats.cycles = s.stats.cycles ∧ s0.stats.branchTaken = s.stats.branchTaken ∧
    s0.stats.instCount = s.stats.instCount := by
  unfold Processor.reset at h
  cases file with
  | none => simp [Memory.loadProgram] at h
  | some bytes =>
    cases hl : s.mem.loadProgram (some bytes) with
    | none => rw [hl] at h; simp at h
    | some r =>
      obtain ⟨pcAddr, size, m1⟩ := r
      obtain ⟨_, _, _, hm1⟩ := loadProgram_some _ _ _ _ _ hl
      rw [hl] at h
      simp only [] at h
      split_ifs at h
      split at h
      · exact Except.noConfusion h
      · simp only [Except.ok.injEq] at h
        rw [← h, hm1]
        exact ⟨rfl, rfl, rfl, rfl, rfl, rfl, rfl, rfl, rfl, rfl, rfl, rfl, rfl⟩

/-- The state after the first cycle from the reset of a new processor with an
access width `2^k`: the fetch of the block around the reset PC is under
way. -/
theorem reset_first_cycle (n w k : Nat) (file : Option (List Nat)) (s0 : Processor)
    (hw : w = 2 ^ k) (h : (Processor.new n w).reset file = .ok s0)
    (h32 : s0.regFile.regs .PC < 4294967296)
    (hin : s0.regFile.regs .PC / 4 < s0.mem.memSizeWords) :
    ∃ s1, s0.simulateCycle = .ok s1 ∧ s1.Refilling (s0.regFile.regs .PC) ∧
      s1.mem.mem = s0.mem.mem ∧ s1.mem.memSizeWords = s0.mem.memSizeWords ∧
      s1.stats.cycles = 1 ∧ s1.stats.branchTaken = 0 ∧ s1.stats.instCount = fun _ => 0 := by
  obtain ⟨f1, f2, f3, f4, f5, f6, f7, f8, f9, f10, f11, f12, f13⟩ := reset_frame _ _ _ h
  have hr : s0.mem.Ready := by
    have hps : (Processor.new n w).mem.pipelineSize = 3 := rfl
    have hni : (Processor.new n w).mem.nextReqIndex = 0 := rfl
    refine ⟨⟨k, by rw [f9]; exact hw⟩, by rw [f6, hps]; norm_num, by rw [f6, hps]; norm_num,
      by rw [f7, f6, hps, hni]; norm_num, ?_⟩
    rw [f5, f7]
    rfl
  obtain ⟨s1, c1, r1, _, m1, z1, _, st, _⟩ := starved_cycle s0 _ (by rw [f1]; rfl)
    (by rw [f1]; rfl) (by rw [f2]; rfl) (by rw [f2]; rfl) (by rw [f2]; rfl) (by rw [f3]; rfl)
    (by rw [f3]; rfl) (by rw [f3]; rfl) rfl hr h32 hin
  refine ⟨s1, c1, r1, m1, z1, ?_, ?_, ?_⟩
  · rw [st]
    show s0.stats.cycles + 1 = 1
    rw [f11]; rfl
  · rw [st]
    show s0.stats.branchTaken = 0
    rw [f12]; rfl
  · rw [st]
    show s0.stats.instCount = _
    rw [f13]; rfl

/-- C27 (amended): a program whose reset PC holds the halfword `0xE7FE`, the
branch to itself, on a new processor of access width `2^k`. Every turn of the
loop takes three cycles, one to execute the branch and flush, one to retrieve
the fetched block and one to decode: for every `i`, after `3 i + 3` cycles `i`
branches have been taken, and cycle `3 i + 4` executes the next one. The sixth
branch is executed in cycle 19 = 1 + 6 * 3. -/
theorem C27_self_loop_three_cycles (bytes : List Nat) (n w k : Nat) (s0 : Processor)
    (hw : w = 2 ^ k) (hreset : (Processor.new n w).reset (some bytes) = .ok s0)
    (hh : s0.mem.halfwordAt (s0.regFile.regs .PC) = 0xE7FE)
    (h32 : s0.regFile.regs .PC + 4 < 4294967296)
    (hin : (s0.regFile.regs .PC + 4) / 4 < s0.mem.memSizeWords) (i : Nat) :
    ∃ s s', Simulator.run (some bytes) n w (3 * i + 3) = .ok s ∧
      s.stats.branchTaken = i ∧ s.stats.instCount .B = i ∧ s.stats.cycles = 3 * i + 3 ∧
      Simulator.run (some bytes) n w (3 * i + 4) = .ok s' ∧
      s'.stats.branchTaken = i + 1 ∧ s'.stats.instCount .B = i + 1 ∧
      s'.stats.cycles = 3 * i + 4 := by
  obtain ⟨s1, c1, r1, m1, z1, a1, a2, a3⟩ := reset_first_cycle n w k _ s0 hw hreset (by omega)
    (by omega)
  have hh1 : s1.mem.halfwordAt (s0.regFile.regs .PC) = 0xE7FE := by
    unfold Memory.halfwordAt at hh ⊢
    rw [m1]; exact hh
  obtain ⟨sn, cn, rn, hn, zn, w1, w2, w3⟩ := self_loop_turns _ h32 i s1 r1 hh1
    (by rw [z1]; exact hin)
  obtain ⟨s2, s3, c2, c3, x1, x2, x3, _, _, _, y1, y2, y3⟩ := self_loop_turn sn _ rn hn h32
    (by rw [zn, z1]; exact hin)
  have e1 : s0.simulateCycles (1 + 3 * i) = .ok sn := by
    rw [simulateCycles_add 1 (3 * i) s0 s1 (by rw [simulateCycles_one]; exact c1), cn]
  have e2 : s0.simulateCycles (3 * i + 3) = .ok s2 := by
    rw [show 3 * i + 3 = (1 + 3 * i) + 2 from by omega, simulateCycles_add _ 2 s0 sn e1, c2]
  have e3 : s0.simulateCycles (3 * i + 4) = .ok s3 := by
    rw [show 3 * i + 4 = (3 * i + 3) + 1 from by omega, simulateCycles_add _ 1 s0 s2 e2,
      simulateCycles_one, c3]
  refine ⟨s2, s3, by simp only [Simulator.run, hreset, e2], ?_, ?_, ?_,
    by simp only [Simulator.run, hreset, e3], ?_, ?_, ?_⟩
  · rw [x2, w2, a2]; omega
  · rw [x3, w3, a3]; simp
  · rw [x1, w1, a1]; omega
  · rw [y2, w2, a2]; omega
  · rw [y3, w3, a3]; simp
  · rw [y1, w1, a1]; omega

/-- Witness of C27 (amended): the image `selfLoopImage` on a memory of 64 words
of width 1 has taken five branches after 18 cycles and the sixth in cycle
19. -/
theorem C27_self_loop_three_cycles_witness :
    ∃ s s', Simulator.run (some selfLoopImage) 64 1 18 = .ok s ∧ s.stats.branchTaken = 5 ∧
      s.stats.cycles = 18 ∧ Simulator.run (some selfLoopImage) 64 1 19 = .ok s' ∧
      s'.stats.branchTaken = 6 ∧ s'.stats.cycles = 19 := by
  obtain ⟨s0, hs0, hp⟩ := ok_of_map ((Processor.new 64 1).reset (some selfLoopImage))
    (fun s => (s.regFile.regs .PC, s.mem.halfwordAt 8, s.mem.memSizeWords))
    (8, 0xE7FE, 64) (by decide)
  simp only [Prod.mk.injEq] at hp
  obtain ⟨p1, p2, p3⟩ := hp
  obtain ⟨s, s', h1, h2, _, h4, h5, h6, _, h8⟩ := C27_self_loop_three_cycles selfLoopImage 64 1 0
    s0 rfl hs0 (by rw [p1]; exact p2) (by rw [p1]; norm_num) (by rw [p1, p3]; norm_num) 5
  exact ⟨s, s', h1, h2, h4, h5, h6, h8⟩

/-- Counterexample to C27 as stated: on the image `selfLoopImage` the sixth turn
of the branch is executed in cycle 19 (after 18 cycles five branches have been
taken), and 19 is less than 6 * (1 + 3). -/
theorem C27_cycles_counterexample :
    ∃ s s', Simulator.run (some selfLoopImage) 64 1 18 = .ok s ∧ s.stats.branchTaken = 5 ∧
      Simulator.run (some selfLoopImage) 64 1 19 = .ok s' ∧ s'.stats.branchTaken = 6 ∧
      s'.stats.cycles = 19 ∧ ¬ (s'.stats.cycles ≥ 6 * (1 + 3)) := by
  obtain ⟨s, hs, hp⟩ := ok_of_map (Simulator.run (some selfLoopImage) 64 1 18)
    (fun s => s.stats.branchTaken) 5 (by decide)
  obtain ⟨s', hs', hp'⟩ := ok_of_map (Simulator.run (some selfLoopImage) 64 1 19)
    (fun s => (s.stats.branchTaken, s.stats.cycles)) (6, 19) (by decide)
  simp only [Prod.mk.injEq] at hp'
  exact ⟨s, s', hs, hp, hs', hp'.1, hp'.2, by rw [hp'.2]; norm_num⟩


/-! ## The timing of BL: C26 -/

/-- The decoder on a halfword with `(h & 0xF800) = 0x2000`: the block of MOV1. -/
theorem decodeAt_MOV1 (inst pc : Nat) (activeSp : Reg) (rf : RegFile) (d : DecodedInst)
    (e : inst &&& 0xF800 = 0x2000) :
    Decode.decodeFromAdc inst pc activeSp rf d = ((do
      let rd := (inst >>> 8) &&& 0x07
      let im8 := (inst >>> 0) &&& 0xFF
      let d := d.setOperation .MOV1
      let d ← d.setRegisterN .RD rd 0
      let d := d.setImmediate im8
      pure (d, false)) : Except Exit (DecodedInst × Bool)) := by
  rw [decodeFromAdc_skip _ _ _ _ _ (matches_none_of inst _ _ _ e (by decide)),
    decodeFromB2_skip _ _ _ _ _ (matches_none_of inst _ _ _ e (by decide)),
    decodeFromLdr1_skip _ _ _ _ _ (matches_none_of inst _ _ _ e (by decide))]
  unfold Decode.decodeFromMov1
  rw [if_pos e]

/-- The pull of `Execute::executeNextInst` from a decode stage that holds a
complete record. -/
theorem getNextInst_complete (dc : Decode) (d : DecodedInst) (h1 : dc.decodedInst = some d)
    (h2 : dc.decodedHalfInst = false) :
    dc.getNextInst = (some d, { dc with decodedInst := none }) := by
  unfold Decode.getNextInst
  simp [h1, h2]

/-- C26: the four ticks of a BL. At the start of tick t+1 execute is idle (the
instruction before the BL took the single tick t, in which decode took the
first halfword of the BL at `A`), decode holds the first half and the buffer
holds the second halfword `h2` under PC = `A + 2`. Then in tick t+1 execute
stalls for decode (no instruction is counted) while decode completes the BL; in
tick t+2 the BL executes (PC = target, LR = (A + 4) | 1); in ticks t+3 and t+4
no instruction executes; and at the start of tick t+5 decode holds the record
of the halfword at the target, which execute pulls in that tick. -/
theorem C26_bl_four_ticks (s : Processor) (A h1 h2 : Nat) (d1 : DecodedInst)
    (hst : s.execute.execState = .NEXT_INST) (hnone : s.execute.decodedInst = none)
    (hd : s.decode.decodedInst = some d1) (hhalf : s.decode.decodedHalfInst = true)
    (hdf : s.decode.flushPending = false)
    (hop : d1.op = .BL) (hrdn : d1.regsNumber .RDN = .PC) (hdrdn : d1.regsData .RDN = A + 4)
    (him : d1.im = 2 ^ 24 * (h1 / 2 ^ 10 % 2) + 2 ^ 12 * (h1 % 2 ^ 10))
    (hP : s.regFile.regs .PC = A + 2)
    (hvalid : s.fetch.instBufferValid = true) (hfl : s.fetch.flushPending = false)
    (hsync : s.mem.getMemAccessWidthBaseByteAddr (A + 2) = s.fetch.instBufferBaseAddr)
    (hh2 : s.fetch.instBuffer (s.mem.getMemAccessWidthInstOffset (A + 2)) = h2)
    (hp2 : h2 &&& 0xD000 = 0xD000)
    (hr : s.mem.Ready) (hA : A + 6 < 4294967296) (hinA : (A + 6) / 4 < s.mem.memSizeWords)
    (hT : blTarget A h1 h2 + 4 < 4294967296)
    (hinT : (blTarget A h1 h2 + 4) / 4 < s.mem.memSizeWords) :
    ∃ t1 t2, s.simulateCycle = .ok t1 ∧
      t1.stats.stalledForDecodeCycles = s.stats.stalledForDecodeCycles + 1 ∧
      t1.stats.instCount = s.stats.instCount ∧
      t1.simulateCycle = .ok t2 ∧
      t2.stats.instCount .BL = s.stats.instCount .BL + 1 ∧
      (∀ i, i ≠ .BL → t2.stats.instCount i = s.stats.instCount i) ∧
      t2.stats.branchTaken = s.stats.branchTaken + 1 ∧
      t2.stats.stalledForDecodeCycles = s.stats.stalledForDecodeCycles + 1 ∧
      t2.regFile.regs .PC = blTarget A h1 h2 ∧
      ((blTarget A h1 h2 : Nat) : Int) = ((A : Int) + 4 + blOffset h1 h2) % 4294967296 ∧
      t2.regFile.regs .LR = (A + 4) ||| 1 ∧
      (∀ r, r ≠ .PC → r ≠ .LR → t2.regFile.regs r = s.regFile.regs r) ∧
      t2.mem.mem = s.mem.mem ∧
      ∀ (d' : DecodedInst) (half' : Bool),
        Decode.decodeFromAdc (s.mem.halfwordAt (blTarget A h1 h2))
          (Decode.getCorrectedFetchAddress
            (t2.regFile.write .PC (NEXT_THUMB_INST (blTarget A h1 h2))))
          (t2.regFile.write .PC (NEXT_THUMB_INST (blTarget A h1 h2))).getActiveSp
          (t2.regFile.write .PC (NEXT_THUMB_INST (blTarget A h1 h2))) DecodedInst.new =
          .ok (d', half') →
        ∃ t4, t2.simulateCycles 2 = .ok t4 ∧
          t4.stats.instCount = t2.stats.instCount ∧
          t4.stats.cycles = s.stats.cycles + 4 ∧
          t4.stats.stalledForDecodeCycles = s.stats.stalledForDecodeCycles + 3 ∧
          t4.execute.execState = .NEXT_INST ∧ t4.execute.decodedInst = none ∧
          t4.decode.decodedInst = some d' ∧ t4.decode.decodedHalfInst = half' ∧
          (half' = false →
            t4.decode.getNextInst = (some d', { t4.decode with decodedInst := none })) := by
  have hn2 : NEXT_THUMB_INST (A + 2) = A + 4 := by
    unfold NEXT_THUMB_INST THUMB_INST_BYTES add32; omega
  have ha4 : add32 A 4 = A + 4 := by unfold add32; omega
  -- tick t+1
  obtain ⟨e1, he1⟩ : ∃ e1 : Processor, e1 = { s with
      execute := { s.execute with curExecState := .NEXT_INST }
      stats := (s.stats.addCycle).addStallForDecodeCycle } := ⟨_, rfl⟩
  have hE1 : Execute.run { s with stats := s.stats.addCycle } = .ok e1 := by
    rw [he1]
    exact execute_stall { s with stats := s.stats.addCycle } hst hnone (Or.inl hhalf)
  obtain ⟨d2, hd2⟩ : ∃ d2 : DecodedInst, d2 = d1.setImmediate (blImmediate h1 h2) := ⟨_, rfl⟩
  obtain ⟨e2, he2⟩ : ∃ e2 : Processor, e2 = { e1 with
      regFile := e1.regFile.write .PC (NEXT_THUMB_INST (A + 2))
      decode := { e1.decode with decodedHalfInst := false, decodedInst := some d2 } } :=
    ⟨_, rfl⟩
  have hD1 : Decode.run e1 = .ok e2 := by
    rw [he2, hd2]
    exact decode_bl_second e1 (A + 2) h1 h2 d1 (by rw [he1]; exact hP) (by rw [he1]; exact hdf)
      (by rw [he1]; exact hd) (by rw [he1]; exact hhalf) him (by rw [he1]; exact hvalid)
      (by rw [he1]; exact hfl) (by rw [he1]; exact hsync) (by rw [he1]; exact hh2) hp2
  have hpc2 : e2.regFile.regs .PC = A + 4 := by
    rw [he2, hn2]; simp [RegFile.write]
  have hm2 : e2.mem = s.mem := by rw [he2, he1]
  obtain ⟨m1, hM1, g1, g2, g3, g4, _⟩ := fetch_mem_run e2 (by rw [hm2]; exact hr)
    (by rw [hpc2]; omega) (by rw [hpc2, hm2]; exact hinA)
  obtain ⟨f1, f2, f3, f4, f5, f6, f7, f8, f9, f10, f11, _⟩ := fetch_frame e2
  obtain ⟨t1, ht1⟩ : ∃ t1 : Processor, t1 = { Fetch.run e2 with mem := m1 } := ⟨_, rfl⟩
  have hc1 : s.simulateCycle = .ok t1 := by
    rw [ht1]; exact simulateCycle_ok s e1 e2 m1 hE1 hD1 hM1
  have a1 : t1.execute.execState = .NEXT_INST := by
    rw [ht1]; show (Fetch.run e2).execute.execState = _; rw [f3, he2, he1]; exact hst
  have a2 : t1.execute.decodedInst = none := by
    rw [ht1]; show (Fetch.run e2).execute.decodedInst = _; rw [f3, he2, he1]; exact hnone
  have a3 : t1.decode.decodedInst = some d2 := by
    rw [ht1]; show (Fetch.run e2).decode.decodedInst = _; rw [f2, he2]
  have a4 : t1.decode.decodedHalfInst = false := by
    rw [ht1]; show (Fetch.run e2).decode.decodedHalfInst = _; rw [f2, he2]
  have a5 : t1.mem = m1 := by rw [ht1]
  have a6 : t1.regFile = s.regFile.write .PC (A + 4) := by
    rw [ht1]; show (Fetch.run e2).regFile = _; rw [f1, he2, he1, hn2]
  have a7 : t1.stats.stalledForDecodeCycles = s.stats.stalledForDecodeCycles + 1 := by
    rw [ht1]; show (Fetch.run e2).stats.stalledForDecodeCycles = _; rw [f8, he2, he1]; rfl
  have a8 : t1.stats.instCount = s.stats.instCount := by
    rw [ht1]; show (Fetch.run e2).stats.instCount = _; rw [f11, he2, he1]; rfl
  have a9 : t1.stats.branchTaken = s.stats.branchTaken := by
    rw [ht1]; show (Fetch.run e2).stats.branchTaken = _; rw [f9, he2, he1]; rfl
  have a10 : t1.stats.cycles = s.stats.cycles + 1 := by
    rw [ht1]; show (Fetch.run e2).stats.cycles = _; rw [f6, he2, he1]; rfl
  -- tick t+2
  have hE2 := execute_bl { t1 with stats := t1.stats.addCycle } d2 (A + 4) a1 a2 a3 a4
    (by rw [hd2]; exact hop) (by rw [hd2]; exact hrdn) (by rw [hd2]; exact hdrdn)
  have him2 : d2.im = blImmediate h1 h2 := by rw [hd2]; rfl
  rw [him2] at hE2
  have hT' : blTarget A h1 h2 < 4294967296 := by omega
  obtain ⟨t2, hc2, y1, y2, y3, y4, y5, y6, y7⟩ := flush_cycle t1 _ (blTarget A h1 h2) hE2 rfl rfl
    rfl a1 rfl
    (by
      simp only [bl, writeReg, RegFile.write, flushPipeline, addBranchTaken, addInstruction,
        if_true, blTarget, ha4])
    (by rw [a5]; exact g1) hT' (by rw [a5, g3, hm2]; omega)
  have hmm : t2.mem.mem = s.mem.mem := by rw [y3, a5, g2, hm2]
  have hms : t2.mem.memSizeWords = s.mem.memSizeWords := by rw [y4, a5, g3, hm2]
  have hbt := bl_target (add32 A 4) (blImmediate h1 h2) (blImmediate_lt h1 h2)
  refine ⟨t1, t2, hc1, a7, a8, hc2, ?_, ?_, ?_, ?_, y1.2.2.2.2.2.2.2.2.1, ?_, ?_, ?_, hmm, ?_⟩
  · rw [y6]
    simp only [bl, writeReg, flushPipeline, addBranchTaken, addInstruction,
      Statistics.addFetchCycle, Statistics.addBranchTaken, Statistics.addInstruction,
      Statistics.addCycle, if_true]
    rw [a8]
  · intro i hi
    rw [y6]
    simp only [bl, writeReg, flushPipeline, addBranchTaken, addInstruction,
      Statistics.addFetchCycle, Statistics.addBranchTaken, Statistics.addInstruction,
      Statistics.addCycle, hi, if_false]
    rw [a8]
  · rw [y6]
    simp only [bl, writeReg, flushPipeline, addBranchTaken, addInstruction,
      Statistics.addFetchCycle, Statistics.addBranchTaken, Statistics.addInstruction,
      Statistics.addCycle]
    rw [a9]
  · rw [y6]
    simp only [bl, writeReg, flushPipeline, addBranchTaken, addInstruction,
      Statistics.addFetchCycle, Statistics.addBranchTaken, Statistics.addInstruction,
      Statistics.addCycle]
    exact a7
  · unfold blTarget
    rw [hbt, ha4, blOffset]
    push_cast
    rfl
  · rw [y2]
    simp only [bl, writeReg, RegFile.write, flushPipeline, addBranchTaken, addInstruction]
    simp
  · intro r h1' h2'
    rw [y2]
    simp only [bl, writeReg, RegFile.write, flushPipeline, addBranchTaken, addInstruction]
    rw [a6]
    simp [RegFile.write, h1', h2']
  · intro d' half' hdec'
    have hha : t2.mem.halfwordAt (blTarget A h1 h2) = s.mem.halfwordAt (blTarget A h1 h2) := by
      unfold Memory.halfwordAt
      rw [hmm]
    obtain ⟨t4, c4, x1, x2, x3, x4, x5, x6, x7, x8, x9, x10, x11, x12, x13, x14, x15, x16, x17,
      x18⟩ := refill_cycles t2 (blTarget A h1 h2) d' half' y1 hT (by rw [hms]; exact hinT)
        (by rw [hha]; exact hdec')
    refine ⟨t4, c4, x17, ?_, ?_, x1, x2, x3, x4, ?_⟩
    · rw [x12, y6]
      simp only [bl, writeReg, flushPipeline, addBranchTaken, addInstruction,
        Statistics.addFetchCycle, Statistics.addBranchTaken, Statistics.addInstruction,
        Statistics.addCycle]
      rw [a10]
    · rw [x13, y6]
      simp only [bl, writeReg, flushPipeline, addBranchTaken, addInstruction,
        Statistics.addFetchCycle, Statistics.addBranchTaken, Statistics.addInstruction,
        Statistics.addCycle]
      rw [a7]
    · intro hf
      exact getNextInst_complete _ _ x3 (by rw [x4]; exact hf)

/-- Witness of C26 on the image `blImage`: after four cycles (MOVS executed in
cycle 4) the BL executes in cycle 6 and decode holds `MOVS R2, 3`, the
instruction at the target 16, after cycle 8. -/
theorem C26_bl_four_ticks_witness :
    ∃ s t1 t2 t4, Simulator.run (some blImage) 64 1 4 = .ok s ∧
      s.stats.instCount .MOV = 1 ∧ s.stats.cycles = 4 ∧
      s.simulateCycle = .ok t1 ∧ t1.stats.instCount = s.stats.instCount ∧
      t1.simulateCycle = .ok t2 ∧ t2.stats.instCount .BL = s.stats.instCount .BL + 1 ∧
      t2.regFile.regs .PC = 16 ∧ t2.regFile.regs .LR = 15 ∧
      t2.simulateCycles 2 = .ok t4 ∧ t4.stats.instCount = t2.stats.instCount ∧
      t4.stats.cycles = 8 ∧
      t4.decode.decodedInst.map (fun d => (d.op, d.im)) = some (.MOV1, 3) := by
  obtain ⟨s, hs, hp⟩ := ok_of_map (Simulator.run (some blImage) 64 1 4)
    (fun s => (s.execute.execState, s.execute.decodedInst.isNone,
      s.decode.decodedHalfInst, s.decode.flushPending, s.regFile.regs .PC))
    (.NEXT_INST, true, true, false, 12) (by decide)
  obtain ⟨s1, hs1, p3⟩ := ok_of_map (Simulator.run (some blImage) 64 1 4)
    (fun s => s.decode.decodedInst.map
      (fun d => (d.op, d.regsNumber .RDN, d.regsData .RDN, d.im)))
    (some (.BL, .PC, 14, 0)) (by decide)
  obtain ⟨s2, hs2, hq⟩ := ok_of_map (Simulator.run (some blImage) 64 1 4)
    (fun s => (s.fetch.instBufferValid, s.fetch.flushPending,
      s.mem.getMemAccessWidthBaseByteAddr 12, s.fetch.instBufferBaseAddr,
      s.fetch.instBuffer (s.mem.getMemAccessWidthInstOffset 12)))
    (true, false, 12, 12, 0xF801) (by decide)
  obtain ⟨s3, hs3, hr⟩ := ok_of_map (Simulator.run (some blImage) 64 1 4)
    (fun s => (s.mem.memAccessWidthWords, s.mem.pipelineSize, s.mem.nextReqIndex,
      (s.mem.pipeline s.mem.nextReqIndex).issuer))
    (1, 3, 1, Component.NONE) (by decide)
  obtain ⟨s4, hs4, hu⟩ := ok_of_map (Simulator.run (some blImage) 64 1 4)
    (fun s => (s.mem.memSizeWords, s.mem.halfwordAt 16, s.stats.instCount .MOV,
      s.stats.cycles))
    (64, 0x2203, 1, 4) (by decide)
  obtain rfl : s = s1 := Except.ok.inj (hs.symm.trans hs1)
  obtain rfl : s = s2 := Except.ok.inj (hs.symm.trans hs2)
  obtain rfl : s = s3 := Except.ok.inj (hs.symm.trans hs3)
  obtain rfl : s = s4 := Except.ok.inj (hs.symm.trans hs4)
  simp only [Prod.mk.injEq] at hp hq hr hu
  obtain ⟨p1, p2, p4, p5, p6⟩ := hp
  obtain ⟨q1, q2, q3, q4, q5⟩ := hq
  obtain ⟨r1, r2, r3, r4⟩ := hr
  obtain ⟨r5, r6, r7, r8⟩ := hu
  have hnone : s.execute.decodedInst = none := by
    cases h : s.execute.decodedInst with
    | none => rfl
    | some d => rw [h] at p2; exact Bool.noConfusion p2
  obtain ⟨d1, hd1, hf⟩ : ∃ d1, s.decode.decodedInst = some d1 ∧
      (d1.op, d1.regsNumber .RDN, d1.regsData .RDN, d1.im) = (.BL, .PC, 14, 0) := by
    cases h : s.decode.decodedInst with
    | none => rw [h] at p3; exact absurd p3 (by decide)
    | some d => rw [h] at p3; exact ⟨d, rfl, Option.some.inj p3⟩
  simp only [Prod.mk.injEq] at hf
  have ht : blTarget 10 0xF000 0xF801 = 16 := by decide
  obtain ⟨t1, t2, c1, _, c3, c4, c5, _, _, _, c9, _, c11, _, _, hnext⟩ :=
    C26_bl_four_ticks s 10 0xF000 0xF801 d1 p1 hnone hd1 p4 p5 hf.1 hf.2.1 hf.2.2.1
      (by rw [hf.2.2.2]; decide) p6 q1 q2 (by rw [q3, q4]) q5 (by decide)
      ⟨⟨0, r1⟩, by rw [r2]; decide, by rw [r2]; decide, by rw [r3, r2]; decide,
        by rw [r3] at r4; rw [r3]; exact r4⟩
      (by decide) (by rw [r5]; decide) (by rw [ht]; decide) (by rw [ht, r5]; decide)
  rw [ht] at hnext c9
  obtain ⟨t4, e1, e2, e3, _, _, _, e7, _⟩ := hnext
    ((DecodedInst.new.setOperation .MOV1).setRegister .RD .R2 0 |>.setImmediate 3) false
    (by rw [r6, decodeAt_MOV1 _ _ _ _ _ (by decide)]; rfl)
  refine ⟨s, t1, t2, t4, hs, r7, r8, c1, c3, c4, c5, c9, c11, e1, e2, ?_, ?_⟩
  · rw [e3, r8]
  · rw [e7]; rfl


/-! ## The deferred flush of POP with PC: C28 -/

/-- A run whose exit code evaluates to `c` has ended the simulation with
`exit(c)`. -/
theorem exit_of_code (r : Except Exit Processor) (c : Nat)
    (h : (match r with
      | .error (.exit k) => some k
      | _ => none) = some c) : r = .error (.exit c) := by
  cases r with
  | ok s => simp at h
  | error e =>
    cases e with
    | fatal m => simp at h
    | exit k =>
      simp only [Option.some.injEq] at h
      rw [h]

/-- C28, the case of POP with PC: the execute tick of the multiple load that
delivers the word `w` for PC writes PC and goes to FLUSH_PIPELINE without
raising the flush flags of decode and fetch. The decode tick of the same cycle
is therefore not a flush: when decode holds the first half of a 32-bit
instruction (taken from the fall-through path) and the buffer is valid, it
either takes the halfword at the written PC as the second half and moves PC
past the target, or, the buffer being out of sync with the written PC, ends the
simulation with a fatal error. -/
theorem C28_pop_pc_flush_deferred (s : Processor) (w : Nat) (d : DecodedInst)
    (hst : s.execute.execState = .MULTIPLE_LOAD_MEM_REQ)
    (hl : s.execute.mloadTmps.regList = [.PC])
    (hresp : s.mem.retrieveLoad s.execute.mloadTmps.memToken = some w)
    (hd : s.decode.decodedInst = some d) (hhalf : s.decode.decodedHalfInst = true)
    (hdf : s.decode.flushPending = false)
    (hvalid : s.fetch.instBufferValid = true) (hfl : s.fetch.flushPending = false) :
    ∃ s1, Execute.run s = .ok s1 ∧
      s1.regFile.regs .PC = w &&& not32 1 ∧
      s1.execute.execState = .FLUSH_PIPELINE ∧
      s1.decode.flushPending = false ∧ s1.fetch.flushPending = false ∧
      (s.mem.getMemAccessWidthBaseByteAddr (w &&& not32 1) = s.fetch.instBufferBaseAddr →
        ∃ s2, Decode.run s1 = .ok s2 ∧
          s2.regFile.regs .PC = NEXT_THUMB_INST (w &&& not32 1) ∧
          s2.decode.decodedHalfInst = false ∧
          s2.decode.decodedInst = some (Decode.decodeSecondHalf
            (s.fetch.instBuffer (s.mem.getMemAccessWidthInstOffset (w &&& not32 1))) d)) ∧
      (s.mem.getMemAccessWidthBaseByteAddr (w &&& not32 1) ≠ s.fetch.instBufferBaseAddr →
        Decode.run s1 = .error (.fatal
          "Unpredictable state: instruction buffer is valid and out of sync with pc")) := by
  simp only [Execute.run, hst, executeMultipleLoadMemReq, hresp, hl, if_true, writeReg,
    RegFile.write, setExecState, addBranchTaken, List.length_nil, gt_iff_lt, lt_self_iff_false,
    if_false, calculateExecCycles, Statistics.addBranchTaken, Statistics.addExecuteCycle]
  refine ⟨_, rfl, ?_, rfl, hdf, hfl, ?_, ?_⟩
  · simp
  · intro hsync
    simp only [Decode.run, hdf, hd, hhalf, Option.isSome_some, Bool.false_eq_true, if_false,
      not_true_eq_false, and_false, Fetch.getNextInst, hvalid, hfl, or_self, RegFile.readData,
      if_true, hsync, ne_eq, not_true_eq_false, RegFile.write]
    refine ⟨_, rfl, ?_, rfl, rfl⟩
    simp
  · intro hsync
    simp only [Decode.run, hdf, hd, hhalf, Option.isSome_some, Bool.false_eq_true, if_false,
      not_true_eq_false, and_false, Fetch.getNextInst, hvalid, hfl, or_self, RegFile.readData,
      if_true, hsync, ne_eq, not_false_eq_true]

/-- Witness of C28 on the image `popPcBlImage`: after four cycles `POP {PC}`
receives the word `0x0000000D` while decode holds the halfword `0xF000` of the
fall-through path as the first half of a BL. In cycle 5 decode takes the
halfword at the target 12 (`MOVS R0, 1`) as a second half and PC stands at 14;
`MOVS R0, 1` is never executed: the program ends in cycle 11 with `BKPT 0`, and
after cycle 10 two MOVS have executed with R0 = 0, R1 = 2, R2 = 3. -/
theorem C28_pop_pc_flush_deferred_witness :
    ∃ s s1 s2 s5 s10, Simulator.run (some popPcBlImage) 64 1 4 = .ok s ∧
      Execute.run s = .ok s1 ∧ s1.regFile.regs .PC = 12 ∧
      Decode.run s1 = .ok s2 ∧ s2.regFile.regs .PC = 14 ∧
      Simulator.run (some popPcBlImage) 64 1 5 = .ok s5 ∧ s5.regFile.regs .PC = 14 ∧
      s5.execute.execState = .FLUSH_PIPELINE ∧
      Simulator.run (some popPcBlImage) 64 1 10 = .ok s10 ∧
      s10.stats.instCount .MOV = 2 ∧ s10.regFile.regs .R0 = 0 ∧ s10.regFile.regs .R1 = 2 ∧
      s10.regFile.regs .R2 = 3 ∧
      Simulator.run (some popPcBlImage) 64 1 11 = .error (.exit 0) := by
  obtain ⟨s, hs, hp⟩ := ok_of_map (Simulator.run (some popPcBlImage) 64 1 4)
    (fun s => (s.execute.execState, s.execute.mloadTmps.regList,
      s.mem.retrieveLoad s.execute.mloadTmps.memToken))
    (.MULTIPLE_LOAD_MEM_REQ, [.PC], some 0x0D) (by decide)
  obtain ⟨t, ht, hq⟩ := ok_of_map (Simulator.run (some popPcBlImage) 64 1 4)
    (fun s => (s.decode.decodedInst.isSome, s.decode.decodedHalfInst, s.decode.flushPending,
      s.fetch.instBufferValid, s.fetch.flushPending))
    (true, true, false, true, false) (by decide)
  obtain ⟨u, hu, hr⟩ := ok_of_map (Simulator.run (some popPcBlImage) 64 1 4)
    (fun s => (s.mem.getMemAccessWidthBaseByteAddr 12, s.fetch.instBufferBaseAddr))
    (12, 12) (by decide)
  obtain rfl : s = t := Except.ok.inj (hs.symm.trans ht)
  obtain rfl : s = u := Except.ok.inj (hs.symm.trans hu)
  simp only [Prod.mk.injEq] at hp hq hr
  obtain ⟨d, hd⟩ : ∃ d, s.decode.decodedInst = some d := by
    cases h : s.decode.decodedInst with
    | none => rw [h] at hq; exact Bool.noConfusion hq.1
    | some d => exact ⟨d, rfl⟩
  have hw : (0x0D : Nat) &&& not32 1 = 12 := by decide
  obtain ⟨s1, h1, h2, _, _, _, hsync, _⟩ := C28_pop_pc_flush_deferred s 0x0D d hp.1 hp.2.1
    hp.2.2 hd hq.2.1 hq.2.2.1 hq.2.2.2.1 hq.2.2.2.2
  rw [hw] at h2 hsync
  obtain ⟨s2, g1, g2, _⟩ := hsync (by rw [hr.1, hr.2])
  obtain ⟨s5, hs5, hp5⟩ := ok_of_map (Simulator.run (some popPcBlImage) 64 1 5)
    (fun s => (s.regFile.regs .PC, s.execute.execState)) (14, .FLUSH_PIPELINE) (by decide)
  obtain ⟨s10, hs10, hp10⟩ := ok_of_map (Simulator.run (some popPcBlImage) 64 1 10)
    (fun s => (s.stats.instCount .MOV, s.regFile.regs .R0, s.regFile.regs .R1,
      s.regFile.regs .R2)) (2, 0, 2, 3) (by decide)
  simp only [Prod.mk.injEq] at hp5 hp10
  exact ⟨s, s1, s2, s5, s10, hs, h1, h2, g1, by rw [g2]; decide, hs5, hp5.1, hp5.2, hs10,
    hp10.1, hp10.2.1, hp10.2.2.1, hp10.2.2.2,
    exit_of_code _ 0 (by decide)⟩


/-! ## The execute tick and the freshness of operands: C29, C30 -/




@[simp] theorem pipe_writeReg (s : Processor) (r : Reg) (v : Nat) :
    (writeReg s r v).pipe = s.pipe := rfl

@[simp] theorem pipe_addInstruction (s : Processor) (i : Instruction) :
    (addInstruction s i).pipe = s.pipe := rfl

@[simp] theorem pipe_addBranchTaken (s : Processor) : (addBranchTaken s).pipe = s.pipe := rfl

@[simp] theorem pipe_addBranchNotTaken (s : Processor) : (addBranchNotTaken s).pipe = s.pipe := rfl

@[simp] theorem pipe_calculateXpsrZ (s : Processor) (res : Nat) :
    (calculateXpsrZ s res).pipe = s.pipe := rfl

@[simp] theorem pipe_calculateXpsrN (s : Processor) (res bits : Nat) :
    (calculateXpsrN s res bits).pipe = s.pipe := by
  unfold calculateXpsrN
  split <;> rfl

@[simp] theorem pipe_calculateXpsrQ (s : Processor) : (calculateXpsrQ s).pipe = s.pipe := rfl

@[simp] theorem pipe_calculateXpsrC (s : Processor) (res a b c bits : Nat) :
    (calculateXpsrC s res a b c bits).pipe = s.pipe := rfl

@[simp] theorem pipe_calculateXpsrFlags (s : Processor) (res a b c bits : Nat) :
    (calculateXpsrFlags s res a b c bits).pipe = s.pipe := by
  unfold calculateXpsrFlags
  split
  · rfl
  · change (calculateXpsrQ (calculateXpsrN (calculateXpsrZ s res) res bits)).pipe = s.pipe
    simp

@[simp] theorem pipe_writeXpsrC (s : Processor) (f : Nat) : (writeXpsrC s f).pipe = s.pipe := rfl

@[simp] theorem pipe_cps (s : Processor) (v : Nat) : (cps s v).pipe = s.pipe := rfl

/-- The flush request commutes with the routines that touch only registers and
statistics. -/
theorem pipe_flush_congr (s t : Processor) (h : t.pipe = s.pipe) :
    (flushPipeline t).pipe = (flushPipeline s).pipe := by
  simp only [Processor.pipe, Prod.mk.injEq] at h
  simp only [Processor.pipe, flushPipeline, h.1, h.2.1, h.2.2.1, h.2.2.2]

/-- The arithmetic, logic, shift, extend and compare routines leave memory,
fetch, decode and execute alone. -/
theorem pipe_alu (s : Processor) :
    (∀ rd a b c, (adc s rd a b c).pipe = s.pipe) ∧ (∀ rd a b, (add1 s rd a b).pipe = s.pipe) ∧
    (∀ rd a b, (add2 s rd a b).pipe = s.pipe) ∧ (∀ rd a b, (add3 s rd a b).pipe = s.pipe) ∧
    (∀ rd a b, (add5 s rd a b).pipe = s.pipe) ∧ (∀ rd a b, (add6Add7 s rd a b).pipe = s.pipe) ∧
    (∀ rd a b, (and0 s rd a b).pipe = s.pipe) ∧ (∀ rd a b, (asr2 s rd a b).pipe = s.pipe) ∧
    (∀ rd a b, (bic s rd a b).pipe = s.pipe) ∧ (∀ a b, (cmn s a b).pipe = s.pipe) ∧
    (∀ a b, (cmp1 s a b).pipe = s.pipe) ∧ (∀ a b, (cmp2Cmp3 s a b).pipe = s.pipe) ∧
    (∀ rd a b, (eor s rd a b).pipe = s.pipe) ∧ (∀ rd a b, (lsl2 s rd a b).pipe = s.pipe) ∧
    (∀ rd a b, (lsr2 s rd a b).pipe = s.pipe) ∧ (∀ rd a, (mov1 s rd a).pipe = s.pipe) ∧
    (∀ rd a, (mov2 s rd a).pipe = s.pipe) ∧ (∀ rd a b, (mul s rd a b).pipe = s.pipe) ∧
    (∀ rd a, (mvn s rd a).pipe = s.pipe) ∧ (∀ rd a b, (orr s rd a b).pipe = s.pipe) ∧
    (∀ rd a, (rev s rd a).pipe = s.pipe) ∧ (∀ rd a, (rev16 s rd a).pipe = s.pipe) ∧
    (∀ rd a, (revsh s rd a).pipe = s.pipe) ∧ (∀ rd a b, (ror s rd a b).pipe = s.pipe) ∧
    (∀ rd a b, (neg s rd a b).pipe = s.pipe) ∧ (nop s).pipe = s.pipe ∧
    (∀ rd a b c, (sbc s rd a b c).pipe = s.pipe) ∧ (∀ rd a b, (sub1 s rd a b).pipe = s.pipe) ∧
    (∀ rd a b, (sub2 s rd a b).pipe = s.pipe) ∧ (∀ rd a b, (sub3 s rd a b).pipe = s.pipe) ∧
    (∀ rd a b, (sub4 s rd a b).pipe = s.pipe) ∧ (∀ a b, (tst s a b).pipe = s.pipe) ∧
    (∀ rd a, (uxtb s rd a).pipe = s.pipe) ∧ (∀ rd a, (uxth s rd a).pipe = s.pipe) ∧
    (∀ rd a, (sxtb s rd a).pipe = s.pipe) ∧ (∀ rd a, (sxth s rd a).pipe = s.pipe) := by
  refine ⟨?_, ?_, ?_, ?_, ?_, ?_, ?_, ?_, ?_, ?_, ?_, ?_, ?_, ?_, ?_, ?_, ?_, ?_, ?_, ?_, ?_, ?_,
    ?_, ?_, ?_, ?_, ?_, ?_, ?_, ?_, ?_, ?_, ?_, ?_, ?_, ?_⟩
  all_goals
    intros
    first
    | rfl
    | (simp [adc, add1, add2, add3, add5, add6Add7, and0, asr2, bic, cmn, cmp1, cmp2Cmp3, eor,
        lsl2, lsr2, mov1, mov2, mul, mvn, orr, rev, rev16, revsh, ror, neg, nop, sbc, sub1, sub2,
        sub3, sub4, tst, uxtb, uxth, sxtb, sxth]; done)
    | (simp only [lsl2, lsr2, ror, pipe_addInstruction, pipe_writeReg, pipe_calculateXpsrN,
        pipe_calculateXpsrZ]
       split_ifs <;> simp)

/-- The immediate shifts, when they return, leave memory, fetch, decode and
execute alone. -/
theorem pipe_shift_imm (s s1 : Processor) (rd : Reg) (a b : Nat) :
    (asr1 s rd a b = .ok s1 → s1.pipe = s.pipe) ∧ (lsl1 s rd a b = .ok s1 → s1.pipe = s.pipe) ∧
    (lsr1 s rd a b = .ok s1 → s1.pipe = s.pipe) := by
  refine ⟨?_, ?_, ?_⟩
  all_goals
    intro h
    simp only [asr1, lsl1, lsr1] at h
    split_ifs at h
    all_goals
      simp only [Except.ok.injEq] at h
      rw [← h]
      simp

/-- The routines that may write PC, when they return, either leave memory,
fetch, decode and execute alone or only raise the two flush flags. -/
theorem pipe_branch (s s1 : Processor) (rd : Reg) (a b c : Nat) (cond : DecodedCondition) :
    (add4 s rd a b = .ok s1 → s1.pipe = s.pipe ∨ s1.pipe = (flushPipeline s).pipe) ∧
    (cpy s rd a = .ok s1 → s1.pipe = s.pipe ∨ s1.pipe = (flushPipeline s).pipe) ∧
    (b1 s rd a b c cond = .ok s1 → s1.pipe = s.pipe ∨ s1.pipe = (flushPipeline s).pipe) ∧
    (blx s rd a b = .ok s1 → s1.pipe = (flushPipeline s).pipe) ∧
    (bx s rd a = .ok s1 → s1.pipe = (flushPipeline s).pipe) ∧
    (b2 s rd a b).pipe = (flushPipeline s).pipe ∧
    (bl s rd a b).pipe = (flushPipeline s).pipe := by
  have hbx : bx s rd a = .ok s1 → s1.pipe = (flushPipeline s).pipe := by
    intro h
    simp only [bx] at h
    split_ifs at h
    simp only [Except.ok.injEq] at h
    rw [← h]
    simp only [pipe_addBranchTaken, pipe_addInstruction]
    exact pipe_flush_congr _ _ (by simp)
  refine ⟨?_, ?_, ?_, ?_, hbx, ?_, ?_⟩
  · intro h
    simp only [add4] at h
    split_ifs at h
    · simp only [Except.ok.injEq] at h
      rw [← h]
      simp only [pipe_addBranchTaken, pipe_addInstruction]
      exact Or.inr (pipe_flush_congr _ _ (by simp))
    · simp only [Except.ok.injEq] at h
      rw [← h]
      simp
  · intro h
    simp only [cpy] at h
    split_ifs at h
    · exact Or.inr (hbx h)
    · simp only [Except.ok.injEq] at h
      rw [← h]
      simp
  · intro h
    simp only [b1] at h
    split at h
    · exact Except.noConfusion h
    · simp only [Except.ok.injEq] at h
      rw [← h]
      simp
    · simp only [Except.ok.injEq] at h
      rw [← h]
      simp only [pipe_addBranchTaken, pipe_addInstruction]
      exact Or.inr (pipe_flush_congr _ _ (by simp))
  · intro h
    simp only [blx] at h
    split_ifs at h
    simp only [Except.ok.injEq] at h
    rw [← h]
    simp only [pipe_addBranchTaken, pipe_addInstruction]
    exact pipe_flush_congr _ _ (by simp)
  · simp only [b2, pipe_addBranchTaken, pipe_addInstruction]
    exact pipe_flush_congr _ _ (by simp)
  · simp only [bl, pipe_addBranchTaken, pipe_addInstruction]
    exact pipe_flush_congr _ _ (by simp)

/-- The relation `Issued` looks only at the memory, fetch, decode and the two
fields `decodedInst`, `curExecState` of the state before. -/
theorem issued_congr (s t s1 : Processor) (hm : t.mem = s.mem) (hf : t.fetch = s.fetch)
    (hd : t.decode = s.decode) (he : t.execute.decodedInst = s.execute.decodedInst)
    (hc : t.execute.curExecState = s.execute.curExecState) (h : Issued t s1) : Issued s s1 := by
  unfold Issued at h ⊢
  rw [hm, hf, hd, he, hc] at h
  exact h

/-- Counting the instruction keeps the relation `Issued`. -/
theorem issued_map (s : Processor) (r : Except Exit Processor) (i : Instruction) (s1 : Processor)
    (hr : ∀ t, r = .ok t → Issued s t) (h : (r.map fun s => addInstruction s i) = .ok s1) :
    Issued s s1 := by
  cases r with
  | error e => exact Except.noConfusion h
  | ok t =>
    simp only [Except.map, Except.ok.injEq] at h
    rw [← h]
    exact hr t rfl

theorem issued_loadMemReq (s s1 : Processor) (h : executeLoadMemReq s = .ok s1) :
    Issued s s1 := by
  simp only [executeLoadMemReq] at h
  split_ifs at h
  split at h
  · exact Except.noConfusion h
  · rename_i tok mem hreq
    simp only [Except.ok.injEq] at h
    rw [← h]
    exact ⟨Or.inl ⟨_, tok, hreq⟩, rfl, rfl, rfl, rfl, Or.inl rfl⟩

theorem issued_storeMemReq (s s1 : Processor) (h : executeStoreMemReq s = .ok s1) :
    Issued s s1 := by
  simp only [executeStoreMemReq] at h
  split_ifs at h
  split at h
  · exact Except.noConfusion h
  · split at h
    · exact Except.noConfusion h
    · split at h
      · exact Except.noConfusion h
      · rename_i tok mem hreq
        simp only [Except.ok.injEq] at h
        rw [← h]
        exact ⟨Or.inr ⟨_, _, tok, hreq⟩, rfl, rfl, rfl, rfl, Or.inr (Or.inl rfl)⟩

theorem issued_ldr (s s1 : Processor) (rt : Reg) (drn offset : Nat) (ty : MemoryInstructionType)
    (h : ldr s rt drn offset ty = .ok s1) : Issued s s1 := by
  unfold ldr at h
  have h1 := issued_loadMemReq _ s1 h
  exact issued_congr s _ s1 rfl rfl rfl rfl rfl h1

theorem issued_str (s s1 : Processor) (rt rn : Reg) (drt drn offset : Nat)
    (ty : MemoryInstructionType) (h : str s rt drt rn drn offset ty = .ok s1) : Issued s s1 := by
  unfold str at h
  have h1 := issued_storeMemReq _ s1 h
  exact issued_congr s _ s1 rfl rfl rfl rfl rfl h1

theorem issued_mloadFirst (s s1 : Processor) (h : executeMultipleLoadFirstMemReq s = .ok s1) :
    Issued s s1 := by
  simp only [executeMultipleLoadFirstMemReq] at h
  split_ifs at h
  split at h
  · exact Except.noConfusion h
  · rename_i tok mem hreq
    simp only [Except.ok.injEq] at h
    rw [← h]
    exact ⟨Or.inl ⟨_, tok, hreq⟩, rfl, rfl, rfl, rfl, Or.inr (Or.inr (Or.inl rfl))⟩

/-- What a successful `requestNextStore` changes. -/
theorem requestNextStore_ok (s s1 : Processor) (h : requestNextStore s = .ok s1) :
    (∃ a v tok, s.mem.requestStore .EXECUTE a v = some (tok, s1.mem)) ∧
    s1.fetch = s.fetch ∧ s1.decode = s.decode ∧
    s1.execute.decodedInst = s.execute.decodedInst ∧
    s1.execute.curExecState = s.execute.curExecState ∧
    s1.execute.execState = s.execute.execState ∧ s1.regFile = s.regFile ∧
    s1.stats = s.stats ∧ s1.output = s.output := by
  simp only [requestNextStore] at h
  split at h
  · exact Except.noConfusion h
  · split at h
    · exact Except.noConfusion h
    · rename_i tok mem hreq
      simp only [Except.ok.injEq] at h
      rw [← h]
      exact ⟨⟨_, _, tok, hreq⟩, rfl, rfl, rfl, rfl, rfl, rfl, rfl, rfl⟩

theorem issued_mstoreFirst (s s1 : Processor) (h : executeMultipleStoreFirstMemReq s = .ok s1) :
    Issued s s1 := by
  simp only [executeMultipleStoreFirstMemReq] at h
  split_ifs at h
  all_goals
    first
    | exact Except.noConfusion h
    | (simp only [] at h
       split at h
       · exact Except.noConfusion h
       · rename_i t hreq
         simp only [Except.ok.injEq] at h
         rw [← h]
         obtain ⟨q1, q2, q3, q4, q5, _⟩ := requestNextStore_ok _ _ hreq
         exact ⟨Or.inr q1, q2, q3, q4, q5, Or.inr (Or.inr (Or.inr rfl))⟩)

theorem issued_popLdmia (s s1 : Processor) (rn : Reg) (drn rl : Nat)
    (h : popLdmia s rn drn rl = .ok s1) : Issued s s1 := by
  simp only [popLdmia] at h
  split at h
  · exact Except.noConfusion h
  · refine issued_map s _ _ s1 ?_ h
    intro t ht
    have h1 := issued_mloadFirst _ t ht
    exact issued_congr s _ t rfl rfl rfl rfl rfl h1

theorem issued_push_stmia (s s1 : Processor) (rn : Reg) (drn rl : Nat) :
    (push s rn drn rl = .ok s1 → Issued s s1) ∧ (stmia s rn drn rl = .ok s1 → Issued s s1) := by
  refine ⟨?_, ?_⟩
  all_goals
    intro h
    simp only [push, stmia] at h
    split at h
    · exact Except.noConfusion h
    · refine issued_map s _ _ s1 ?_ h
      intro t ht
      have h1 := issued_mstoreFirst _ t ht
      exact issued_congr s _ t rfl rfl rfl rfl rfl h1

/-- The single loads and stores, when they return, have issued their request. -/
theorem issued_single (s s1 : Processor) (rt rn : Reg) (a b c : Nat) :
    (ldr1Ldr4 s rt a b = .ok s1 → Issued s s1) ∧ (ldr2 s rt a b = .ok s1 → Issued s s1) ∧
    (ldr3 s rt a b = .ok s1 → Issued s s1) ∧ (ldrb1 s rt a b = .ok s1 → Issued s s1) ∧
    (ldrb2 s rt a b = .ok s1 → Issued s s1) ∧ (ldrh1 s rt a b = .ok s1 → Issued s s1) ∧
    (ldrh2 s rt a b = .ok s1 → Issued s s1) ∧ (ldrsb s rt a b = .ok s1 → Issued s s1) ∧
    (ldrsh s rt a b = .ok s1 → Issued s s1) ∧
    (str1Str3 s rt a rn b c = .ok s1 → Issued s s1) ∧
    (str2 s rt a rn b c = .ok s1 → Issued s s1) ∧
    (strb1 s rt a rn b c = .ok s1 → Issued s s1) ∧
    (strb2 s rt a rn b c = .ok s1 → Issued s s1) ∧
    (strh1 s rt a rn b c = .ok s1 → Issued s s1) ∧
    (strh2 s rt a rn b c = .ok s1 → Issued s s1) := by
  refine ⟨?_, ?_, ?_, ?_, ?_, ?_, ?_, ?_, ?_, ?_, ?_, ?_, ?_, ?_, ?_⟩
  all_goals
    intro h
    first
    | exact issued_map s _ _ s1 (fun t ht => issued_ldr s t _ _ _ _ ht) h
    | exact issued_map s _ _ s1 (fun t ht => issued_str s t _ _ _ _ _ _ ht) h

/-- An execute routine that returns has done one of three things to memory,
fetch, decode and execute: nothing, raised the two flush flags, or issued one
request to the memory. -/
theorem executeInst_frame (s : Processor) (d : DecodedInst) (s1 : Processor)
    (h : executeInst s d = .ok s1) :
    s1.pipe = s.pipe ∨ s1.pipe = (flushPipeline s).pipe ∨ Issued s s1 := by
  cases hop : d.op with
  | NOP =>
    simp only [executeInst, DecodedInst.getOperation, hop] at h
    obtain rfl := Except.ok.inj h; exact Or.inl ((pipe_alu s).2.2.2.2.2.2.2.2.2.2.2.2.2.2.2.2.2.2.2.2.2.2.2.2.2.1)
  | ADC =>
    simp only [executeInst, DecodedInst.getOperation, hop] at h
    obtain rfl := Except.ok.inj h; exact Or.inl ((pipe_alu s).1 _ _ _ _)
  | ADD1 =>
    simp only [executeInst, DecodedInst.getOperation, hop] at h
    obtain rfl := Except.ok.inj h; exact Or.inl ((pipe_alu s).2.1 _ _ _)
  | ADD2 =>
    simp only [executeInst, DecodedInst.getOperation, hop] at h
    obtain rfl := Except.ok.inj h; exact Or.inl ((pipe_alu s).2.2.1 _ _ _)
  | ADD3 =>
    simp only [executeInst, DecodedInst.getOperation, hop] at h
    obtain rfl := Except.ok.inj h; exact Or.inl ((pipe_alu s).2.2.2.1 _ _ _)
  | ADD4 =>
    simp only [executeInst, DecodedInst.getOperation, hop] at h
    exact or_assoc.mp (Or.inl ((pipe_branch s s1 _ _ _ 0 .EQ).1 h))
  | ADD5 =>
    simp only [executeInst, DecodedInst.getOperation, hop] at h
    obtain rfl := Except.ok.inj h; exact Or.inl ((pipe_alu s).2.2.2.2.1 _ _ _)
  | ADD6 =>
    simp only [executeInst, DecodedInst.getOperation, hop] at h
    obtain rfl := Except.ok.inj h; exact Or.inl ((pipe_alu s).2.2.2.2.2.1 _ _ _)
  | ADD7 =>
    simp only [executeInst, DecodedInst.getOperation, hop] at h
    obtain rfl := Except.ok.inj h; exact Or.inl ((pipe_alu s).2.2.2.2.2.1 _ _ _)
  | AND =>
    simp only [executeInst, DecodedInst.getOperation, hop] at h
    obtain rfl := Except.ok.inj h; exact Or.inl ((pipe_alu s).2.2.2.2.2.2.1 _ _ _)
  | ASR1 =>
    simp only [executeInst, DecodedInst.getOperation, hop] at h
    exact Or.inl ((pipe_shift_imm s s1 _ _ _).1 h)
  | ASR2 =>
    simp only [executeInst, DecodedInst.getOperation, hop] at h
    obtain rfl := Except.ok.inj h; exact Or.inl ((pipe_alu s).2.2.2.2.2.2.2.1 _ _ _)
  | B1 =>
    simp only [executeInst, DecodedInst.getOperation, hop] at h
    exact or_assoc.mp (Or.inl ((pipe_branch s s1 _ _ _ _ _).2.2.1 h))
  | B2 =>
    simp only [executeInst, DecodedInst.getOperation, hop] at h
    obtain rfl := Except.ok.inj h; exact Or.inr (Or.inl ((pipe_branch s s _ _ _ 0 .EQ).2.2.2.2.2.1))
  | BIC =>
    simp only [executeInst, DecodedInst.getOperation, hop] at h
    obtain rfl := Except.ok.inj h; exact Or.inl ((pipe_alu s).2.2.2.2.2.2.2.2.1 _ _ _)
  | BKPT =>
    simp only [executeInst, DecodedInst.getOperation, hop] at h
    simp only [bkpt] at h; split at h <;> exact Except.noConfusion h
  | BL =>
    simp only [executeInst, DecodedInst.getOperation, hop] at h
    obtain rfl := Except.ok.inj h; exact Or.inr (Or.inl ((pipe_branch s s _ _ _ 0 .EQ).2.2.2.2.2.2))
  | BLX =>
    simp only [executeInst, DecodedInst.getOperation, hop] at h
    exact Or.inr (Or.inl ((pipe_branch s s1 _ _ _ 0 .EQ).2.2.2.1 h))
  | BX =>
    simp only [executeInst, DecodedInst.getOperation, hop] at h
    exact Or.inr (Or.inl ((pipe_branch s s1 _ _ 0 0 .EQ).2.2.2.2.1 h))
  | CMN =>
    simp only [executeInst, DecodedInst.getOperation, hop] at h
    obtain rfl := Except.ok.inj h; exact Or.inl ((pipe_alu s).2.2.2.2.2.2.2.2.2.1 _ _)
  | CMP1 =>
    simp only [executeInst, DecodedInst.getOperation, hop] at h
    obtain rfl := Except.ok.inj h; exact Or.inl ((pipe_alu s).2.2.2.2.2.2.2.2.2.2.1 _ _)
  | CMP2 =>
    simp only [executeInst, DecodedInst.getOperation, hop] at h
    obtain rfl := Except.ok.inj h; exact Or.inl ((pipe_alu s).2.2.2.2.2.2.2.2.2.2.2.1 _ _)
  | CMP3 =>
    simp only [executeInst, DecodedInst.getOperation, hop] at h
    obtain rfl := Except.ok.inj h; exact Or.inl ((pipe_alu s).2.2.2.2.2.2.2.2.2.2.2.1 _ _)
  | CPS =>
    simp only [executeInst, DecodedInst.getOperation, hop] at h
    obtain rfl := Except.ok.inj h; exact Or.inl (pipe_cps _ _)
  | CPY =>
    simp only [executeInst, DecodedInst.getOperation, hop] at h
    exact or_assoc.mp (Or.inl ((pipe_branch s s1 _ _ 0 0 .EQ).2.1 h))
  | EOR =>
    simp only [executeInst, DecodedInst.getOperation, hop] at h
    obtain rfl := Except.ok.inj h; exact Or.inl ((pipe_alu s).2.2.2.2.2.2.2.2.2.2.2.2.1 _ _ _)
  | LDMIA =>
    simp only [executeInst, DecodedInst.getOperation, hop] at h
    exact Or.inr (Or.inr (issued_popLdmia s s1 _ _ _ h))
  | LDR1 =>
    simp only [executeInst, DecodedInst.getOperation, hop] at h
    exact Or.inr (Or.inr ((issued_single s s1 _ .R0 _ _ 0).1 h))
  | LDR2 =>
    simp only [executeInst, DecodedInst.getOperation, hop] at h
    exact Or.inr (Or.inr ((issued_single s s1 _ .R0 _ _ 0).2.1 h))
  | LDR3 =>
    simp only [executeInst, DecodedInst.getOperation, hop] at h
    exact Or.inr (Or.inr ((issued_single s s1 _ .R0 _ _ 0).2.2.1 h))
  | LDR4 =>
    simp only [executeInst, DecodedInst.getOperation, hop] at h
    exact Or.inr (Or.inr ((issued_single s s1 _ .R0 _ _ 0).1 h))
  | LDRB1 =>
    simp only [executeInst, DecodedInst.getOperation, hop] at h
    exact Or.inr (Or.inr ((issued_single s s1 _ .R0 _ _ 0).2.2.2.1 h))
  | LDRB2 =>
    simp only [executeInst, DecodedInst.getOperation, hop] at h
    exact Or.inr (Or.inr ((issued_single s s1 _ .R0 _ _ 0).2.2.2.2.1 h))
  | LDRH1 =>
    simp only [executeInst, DecodedInst.getOperation, hop] at h
    exact Or.inr (Or.inr ((issued_single s s1 _ .R0 _ _ 0).2.2.2.2.2.1 h))
  | LDRH2 =>
    simp only [executeInst, DecodedInst.getOperation, hop] at h
    exact Or.inr (Or.inr ((issued_single s s1 _ .R0 _ _ 0).2.2.2.2.2.2.1 h))
  | LDRSB =>
    simp only [executeInst, DecodedInst.getOperation, hop] at h
    exact Or.inr (Or.inr ((issued_single s s1 _ .R0 _ _ 0).2.2.2.2.2.2.2.1 h))
  | LDRSH =>
    simp only [executeInst, DecodedInst.getOperation, hop] at h
    exact Or.inr (Or.inr ((issued_single s s1 _ .R0 _ _ 0).2.2.2.2.2.2.2.2.1 h))
  | LSL1 =>
    simp only [executeInst, DecodedInst.getOperation, hop] at h
    exact Or.inl ((pipe_shift_imm s s1 _ _ _).2.1 h)
  | LSL2 =>
    simp only [executeInst, DecodedInst.getOperation, hop] at h
    obtain rfl := Except.ok.inj h; exact Or.inl ((pipe_alu s).2.2.2.2.2.2.2.2.2.2.2.2.2.1 _ _ _)
  | LSR1 =>
    simp only [executeInst, DecodedInst.getOperation, hop] at h
    exact Or.inl ((pipe_shift_imm s s1 _ _ _).2.2 h)
  | LSR2 =>
    simp only [executeInst, DecodedInst.getOperation, hop] at h
    obtain rfl := Except.ok.inj h; exact Or.inl ((pipe_alu s).2.2.2.2.2.2.2.2.2.2.2.2.2.2.1 _ _ _)
  | MOV1 =>
    simp only [executeInst, DecodedInst.getOperation, hop] at h
    obtain rfl := Except.ok.inj h; exact Or.inl ((pipe_alu s).2.2.2.2.2.2.2.2.2.2.2.2.2.2.2.1 _ _)
  | MOV2 =>
    simp only [executeInst, DecodedInst.getOperation, hop] at h
    obtain rfl := Except.ok.inj h; exact Or.inl ((pipe_alu s).2.2.2.2.2.2.2.2.2.2.2.2.2.2.2.2.1 _ _)
  | MUL =>
    simp only [executeInst, DecodedInst.getOperation, hop] at h
    obtain rfl := Except.ok.inj h; exact Or.inl ((pipe_alu s).2.2.2.2.2.2.2.2.2.2.2.2.2.2.2.2.2.1 _ _ _)
  | MVN =>
    simp only [executeInst, DecodedInst.getOperation, hop] at h
    obtain rfl := Except.ok.inj h; exact Or.inl ((pipe_alu s).2.2.2.2.2.2.2.2.2.2.2.2.2.2.2.2.2.2.1 _ _)
  | NEG =>
    simp only [executeInst, DecodedInst.getOperation, hop] at h
    obtain rfl := Except.ok.inj h; exact Or.inl ((pipe_alu s).2.2.2.2.2.2.2.2.2.2.2.2.2.2.2.2.2.2.2.2.2.2.2.2.1 _ _ _)
  | ORR =>
    simp only [executeInst, DecodedInst.getOperation, hop] at h
    obtain rfl := Except.ok.inj h; exact Or.inl ((pipe_alu s).2.2.2.2.2.2.2.2.2.2.2.2.2.2.2.2.2.2.2.1 _ _ _)
  | POP =>
    simp only [executeInst, DecodedInst.getOperation, hop] at h
    exact Or.inr (Or.inr (issued_popLdmia s s1 _ _ _ h))
  | PUSH =>
    simp only [executeInst, DecodedInst.getOperation, hop] at h
    exact Or.inr (Or.inr ((issued_push_stmia s s1 _ _ _).1 h))
  | REV =>
    simp only [executeInst, DecodedInst.getOperation, hop] at h
    obtain rfl := Except.ok.inj h; exact Or.inl ((pipe_alu s).2.2.2.2.2.2.2.2.2.2.2.2.2.2.2.2.2.2.2.2.1 _ _)
  | REV16 =>
    simp only [executeInst, DecodedInst.getOperation, hop] at h
    obtain rfl := Except.ok.inj h; exact Or.inl ((pipe_alu s).2.2.2.2.2.2.2.2.2.2.2.2.2.2.2.2.2.2.2.2.2.1 _ _)
  | REVSH =>
    simp only [executeInst, DecodedInst.getOperation, hop] at h
    obtain rfl := Except.ok.inj h; exact Or.inl ((pipe_alu s).2.2.2.2.2.2.2.2.2.2.2.2.2.2.2.2.2.2.2.2.2.2.1 _ _)
  | ROR =>
    simp only [executeInst, DecodedInst.getOperation, hop] at h
    obtain rfl := Except.ok.inj h; exact Or.inl ((pipe_alu s).2.2.2.2.2.2.2.2.2.2.2.2.2.2.2.2.2.2.2.2.2.2.2.1 _ _ _)
  | SBC =>
    simp only [executeInst, DecodedInst.getOperation, hop] at h
    obtain rfl := Except.ok.inj h; exact Or.inl ((pipe_alu s).2.2.2.2.2.2.2.2.2.2.2.2.2.2.2.2.2.2.2.2.2.2.2.2.2.2.1 _ _ _ _)
  | STMIA =>
    simp only [executeInst, DecodedInst.getOperation, hop] at h
    exact Or.inr (Or.inr ((issued_push_stmia s s1 _ _ _).2 h))
  | STR1 =>
    simp only [executeInst, DecodedInst.getOperation, hop] at h
    exact Or.inr (Or.inr ((issued_single s s1 _ _ _ _ _).2.2.2.2.2.2.2.2.2.1 h))
  | STR2 =>
    simp only [executeInst, DecodedInst.getOperation, hop] at h
    exact Or.inr (Or.inr ((issued_single s s1 _ _ _ _ _).2.2.2.2.2.2.2.2.2.2.1 h))
  | STR3 =>
    simp only [executeInst, DecodedInst.getOperation, hop] at h
    exact Or.inr (Or.inr ((issued_single s s1 _ _ _ _ _).2.2.2.2.2.2.2.2.2.1 h))
  | STRB1 =>
    simp only [executeInst, DecodedInst.getOperation, hop] at h
    exact Or.inr (Or.inr ((issued_single s s1 _ _ _ _ _).2.2.2.2.2.2.2.2.2.2.2.1 h))
  | STRB2 =>
    simp only [executeInst, DecodedInst.getOperation, hop] at h
    exact Or.inr (Or.inr ((issued_single s s1 _ _ _ _ _).2.2.2.2.2.2.2.2.2.2.2.2.1 h))
  | STRH1 =>
    simp only [executeInst, DecodedInst.getOperation, hop] at h
    exact Or.inr (Or.inr ((issued_single s s1 _ _ _ _ _).2.2.2.2.2.2.2.2.2.2.2.2.2.1 h))
  | STRH2 =>
    simp only [executeInst, DecodedInst.getOperation, hop] at h
    exact Or.inr (Or.inr ((issued_single s s1 _ _ _ _ _).2.2.2.2.2.2.2.2.2.2.2.2.2.2 h))
  | SUB1 =>
    simp only [executeInst, DecodedInst.getOperation, hop] at h
    obtain rfl := Except.ok.inj h; exact Or.inl ((pipe_alu s).2.2.2.2.2.2.2.2.2.2.2.2.2.2.2.2.2.2.2.2.2.2.2.2.2.2.2.1 _ _ _)
  | SUB2 =>
    simp only [executeInst, DecodedInst.getOperation, hop] at h
    obtain rfl := Except.ok.inj h; exact Or.inl ((pipe_alu s).2.2.2.2.2.2.2.2.2.2.2.2.2.2.2.2.2.2.2.2.2.2.2.2.2.2.2.2.1 _ _ _)
  | SUB3 =>
    simp only [executeInst, DecodedInst.getOperation, hop] at h
    obtain rfl := Except.ok.inj h; exact Or.inl ((pipe_alu s).2.2.2.2.2.2.2.2.2.2.2.2.2.2.2.2.2.2.2.2.2.2.2.2.2.2.2.2.2.1 _ _ _)
  | SUB4 =>
    simp only [executeInst, DecodedInst.getOperation, hop] at h
    obtain rfl := Except.ok.inj h; exact Or.inl ((pipe_alu s).2.2.2.2.2.2.2.2.2.2.2.2.2.2.2.2.2.2.2.2.2.2.2.2.2.2.2.2.2.2.1 _ _ _)
  | SVC =>
    simp only [executeInst, DecodedInst.getOperation, hop] at h
    exact Except.noConfusion h
  | SXTB =>
    simp only [executeInst, DecodedInst.getOperation, hop] at h
    obtain rfl := Except.ok.inj h; exact Or.inl ((pipe_alu s).2.2.2.2.2.2.2.2.2.2.2.2.2.2.2.2.2.2.2.2.2.2.2.2.2.2.2.2.2.2.2.2.2.2.1 _ _)
  | SXTH =>
    simp only [executeInst, DecodedInst.getOperation, hop] at h
    obtain rfl := Except.ok.inj h; exact Or.inl ((pipe_alu s).2.2.2.2.2.2.2.2.2.2.2.2.2.2.2.2.2.2.2.2.2.2.2.2.2.2.2.2.2.2.2.2.2.2.2 _ _)
  | TST =>
    simp only [executeInst, DecodedInst.getOperation, hop] at h
    obtain rfl := Except.ok.inj h; exact Or.inl ((pipe_alu s).2.2.2.2.2.2.2.2.2.2.2.2.2.2.2.2.2.2.2.2.2.2.2.2.2.2.2.2.2.2.2.1 _ _)
  | UXTB =>
    simp only [executeInst, DecodedInst.getOperation, hop] at h
    obtain rfl := Except.ok.inj h; exact Or.inl ((pipe_alu s).2.2.2.2.2.2.2.2.2.2.2.2.2.2.2.2.2.2.2.2.2.2.2.2.2.2.2.2.2.2.2.2.1 _ _)
  | UXTH =>
    simp only [executeInst, DecodedInst.getOperation, hop] at h
    obtain rfl := Except.ok.inj h; exact Or.inl ((pipe_alu s).2.2.2.2.2.2.2.2.2.2.2.2.2.2.2.2.2.2.2.2.2.2.2.2.2.2.2.2.2.2.2.2.2.1 _ _)






/-- The routine of an operation receives the captured data of the slots
`readSlots` only: two records that differ in the data of the other slots are
executed alike. -/
theorem executeInst_congr (s : Processor) (d d' : DecodedInst) (hop : d'.op = d.op)
    (hn : d'.regsNumber = d.regsNumber) (him : d'.im = d.im) (hl : d'.regList = d.regList)
    (hc : d'.cond = d.cond)
    (hdata : ∀ idx ∈ readSlots d.op, d'.regsData idx = d.regsData idx) :
    executeInst s d' = executeInst s d := by
  obtain ⟨op, rn, rd, im, rl, c⟩ := d
  obtain ⟨op', rn', rd', im', rl', c'⟩ := d'
  simp only at hop hn him hl hc hdata
  subst hop hn him hl hc
  cases op' <;>
    simp only [readSlots, List.mem_cons, List.mem_singleton, forall_eq_or_imp, forall_eq,
      List.not_mem_nil, false_implies, implies_true, and_true, List.mem_nil_iff] at hdata <;>
    simp only [executeInst, DecodedInst.getOperation, DecodedInst.getRegisterNumber,
      DecodedInst.getRegisterData, DecodedInst.getImmediate, DecodedInst.getRegisterList,
      DecodedInst.getCondition, hdata]


theorem fromNat_ne_rnone (n : Nat) (h : n < 19) : Reg.fromNat n ≠ .RNONE := by
  interval_cases n <;> decide

theorem good_bind (rf : RegFile) (d : DecodedInst) (idx : DecodedInstRegIndex) (n v : Nat)
    (f : DecodedInst → Except Exit (DecodedInst × Bool))
    (h : n < 19 → Decode.GoodResult rf (f (d.setRegister idx (Reg.fromNat n) v))) :
    Decode.GoodResult rf (d.setRegisterN idx n v >>= f) := by
  unfold DecodedInst.setRegisterN uint32ToReg
  by_cases hn : n < REGFILE_SIZE
  · simp only [hn, if_true]
    exact h hn
  · simp only [hn, if_false]
    intro d' half h'
    exact Except.noConfusion h'

theorem good_bind_cond (rf : RegFile) (d : DecodedInst) (c : Nat)
    (f : DecodedInst → Except Exit (DecodedInst × Bool))
    (h : ∀ c', Decode.GoodResult rf (f { d with cond := c' })) :
    Decode.GoodResult rf (d.setCondition c >>= f) := by
  unfold DecodedInst.setCondition
  by_cases hn : c ≥ 16
  · simp only [hn, if_true]
    intro d' half h'
    exact Except.noConfusion h'
  · simp only [hn, if_false]
    exact h _

theorem good_pure (rf : RegFile) (d : DecodedInst) (half : Bool) (h : d.Fresh rf half) :
    Decode.GoodResult rf (pure (d, half)) := by
  intro d' half' h'
  simp only [pure, Except.pure, Except.ok.injEq, Prod.mk.injEq] at h'
  rw [← h'.1, ← h'.2]
  exact h

theorem good_placeholder (rf : RegFile) (d : DecodedInst) (half : Bool) :
    (Decode.issuePlaceholderInst d).Fresh rf half := by
  intro idx hidx
  simp [Decode.issuePlaceholderInst, DecodedInst.setOperation, DecodedInst.setImmediate,
    readSlots] at hidx

theorem fromNat_field_ne (x y : Nat) :
    Reg.fromNat (x &&& 7) ≠ .RNONE ∧ Reg.fromNat (x &&& 15) ≠ .RNONE ∧
    Reg.fromNat ((x &&& 7) ||| (y &&& 8)) ≠ .RNONE :=
  ⟨fromNat_ne_rnone _ (and_seven_lt x), fromNat_ne_rnone _ (and_fifteen_lt x),
    fromNat_ne_rnone _ (high_field_lt x y)⟩

theorem good_ite (rf : RegFile) (c : Prop) [Decidable c]
    (a b : Except Exit (DecodedInst × Bool))
    (ha : c → Decode.GoodResult rf a) (hb : ¬ c → Decode.GoodResult rf b) :
    Decode.GoodResult rf (if c then a else b) := by
  by_cases h : c
  · rw [if_pos h]
    exact ha h
  · rw [if_neg h]
    exact hb h

theorem fromNat_pc_guard (n : Nat) (p : Prop) :
    Reg.fromNat n = .PC ∨ (n = Reg.PC.toNat → p) := by
  by_cases h : n = Reg.PC.toNat
  · left
    rw [h]
    rfl
  · right
    intro h'
    exact absurd h' h

theorem good_throw (rf : RegFile) (e : Exit) : Decode.GoodResult rf (throw e) := by
  intro d half h
  exact Except.noConfusion h

theorem good_fromStmia (inst pc : Nat) (activeSp : Reg) (rf : RegFile)
    (hsp : activeSp ≠ .RNONE) :
    Decode.GoodResult rf (Decode.decodeFromStmia inst pc activeSp rf DecodedInst.new) := by
  unfold Decode.decodeFromStmia
  repeat' (with_reducible apply good_ite <;> intro _)
  all_goals repeat (with_reducible apply good_bind; intro _)
  all_goals with_reducible apply good_pure
  all_goals first
    | exact good_placeholder _ _ _
    | simp [DecodedInst.Fresh, DecodedInst.setOperation, DecodedInst.setImmediate,
        DecodedInst.setRegisterList, DecodedInst.setRegister, readSlots,
        (fromNat_field_ne _ 0).1, (fromNat_field_ne _ 0).2.1, (fromNat_field_ne _ _).2.2,
        readDataN, readData, DecodedInst.new, hsp]

theorem good_fromMov1 (inst pc : Nat) (activeSp : Reg) (rf : RegFile)
    (hsp : activeSp ≠ .RNONE) :
    Decode.GoodResult rf (Decode.decodeFromMov1 inst pc activeSp rf DecodedInst.new) := by
  unfold Decode.decodeFromMov1
  repeat' (with_reducible apply good_ite <;> intro _)
  all_goals repeat (first
    | (with_reducible apply good_bind; intro _)
    | (with_reducible apply good_bind_cond; intro _))
  all_goals first
    | exact good_fromStmia inst pc activeSp rf hsp
    | exact good_throw _ _
    | with_reducible apply good_pure
  all_goals first
    | exact good_placeholder _ _ _
    | (simp [DecodedInst.Fresh, DecodedInst.setOperation, DecodedInst.setImmediate,
        DecodedInst.setRegisterList, DecodedInst.setRegister, readSlots,
        (fromNat_field_ne _ 0).1, (fromNat_field_ne _ 0).2.1, (fromNat_field_ne _ _).2.2,
        readDataN, readData, DecodedInst.new, hsp, fromNat_ne_rnone 0 (by decide),
        fromNat_pc_guard]; done)

theorem good_fromLdr1 (inst pc : Nat) (activeSp : Reg) (rf : RegFile)
    (hsp : activeSp ≠ .RNONE) :
    Decode.GoodResult rf (Decode.decodeFromLdr1 inst pc activeSp rf DecodedInst.new) := by
  unfold Decode.decodeFromLdr1
  repeat' (with_reducible apply good_ite <;> intro _)
  all_goals repeat (first
    | (with_reducible apply good_bind; intro _)
    | (with_reducible apply good_bind_cond; intro _))
  all_goals first
    | exact good_fromMov1 inst pc activeSp rf hsp
    | exact good_throw _ _
    | with_reducible apply good_pure
  all_goals first
    | exact good_placeholder _ _ _
    | (simp [DecodedInst.Fresh, DecodedInst.setOperation, DecodedInst.setImmediate,
        DecodedInst.setRegisterList, DecodedInst.setRegister, readSlots,
        (fromNat_field_ne _ 0).1, (fromNat_field_ne _ 0).2.1, (fromNat_field_ne _ _).2.2,
        readDataN, readData, DecodedInst.new, hsp, fromNat_ne_rnone 0 (by decide),
        fromNat_pc_guard]; done)

theorem good_fromB2 (inst pc : Nat) (activeSp : Reg) (rf : RegFile)
    (hsp : activeSp ≠ .RNONE) :
    Decode.GoodResult rf (Decode.decodeFromB2 inst pc activeSp rf DecodedInst.new) := by
  unfold Decode.decodeFromB2
  repeat' (with_reducible apply good_ite <;> intro _)
  all_goals repeat (first
    | (with_reducible apply good_bind; intro _)
    | (with_reducible apply good_bind_cond; intro _))
  all_goals first
    | exact good_fromLdr1 inst pc activeSp rf hsp
    | exact good_throw _ _
    | with_reducible apply good_pure
  all_goals first
    | exact good_placeholder _ _ _
    | (simp [DecodedInst.Fresh, DecodedInst.setOperation, DecodedInst.setImmediate,
        DecodedInst.setRegisterList, DecodedInst.setRegister, readSlots,
        (fromNat_field_ne _ 0).1, (fromNat_field_ne _ 0).2.1, (fromNat_field_ne _ _).2.2,
        readDataN, readData, DecodedInst.new, hsp, fromNat_ne_rnone 0 (by decide),
        fromNat_pc_guard]; done)

theorem good_fromAdc (inst pc : Nat) (activeSp : Reg) (rf : RegFile)
    (hsp : activeSp ≠ .RNONE) :
    Decode.GoodResult rf (Decode.decodeFromAdc inst pc activeSp rf DecodedInst.new) := by
  unfold Decode.decodeFromAdc
  repeat' (with_reducible apply good_ite <;> intro _)
  all_goals repeat (first
    | (with_reducible apply good_bind; intro _)
    | (with_reducible apply good_bind_cond; intro _))
  all_goals first
    | exact good_fromB2 inst pc activeSp rf hsp
    | exact good_throw _ _
    | with_reducible apply good_pure
  all_goals first
    | exact good_placeholder _ _ _
    | (simp [DecodedInst.Fresh, DecodedInst.setOperation, DecodedInst.setImmediate,
        DecodedInst.setRegisterList, DecodedInst.setRegister, readSlots,
        (fromNat_field_ne _ 0).1, (fromNat_field_ne _ 0).2.1, (fromNat_field_ne _ _).2.2,
        readDataN, readData, DecodedInst.new, hsp, fromNat_ne_rnone 0 (by decide),
        fromNat_pc_guard]; done)




/-- One slot after `Decode::updateDecodedInstReg` on it: a slot that names
neither RNONE nor PC holds the current value of the register it names. -/
theorem updateReg_slot (rf : RegFile) (d : DecodedInst) (i : DecodedInstRegIndex) :
    (Decode.updateDecodedInstReg rf d i).op = d.op ∧
    (Decode.updateDecodedInstReg rf d i).im = d.im ∧
    (Decode.updateDecodedInstReg rf d i).regList = d.regList ∧
    (Decode.updateDecodedInstReg rf d i).cond = d.cond ∧
    (∀ j, j ≠ i → (Decode.updateDecodedInstReg rf d i).regsNumber j = d.regsNumber j ∧
      (Decode.updateDecodedInstReg rf d i).regsData j = d.regsData j) ∧
    ((Decode.updateDecodedInstReg rf d i).regsNumber i = .RNONE ↔ d.regsNumber i = .RNONE) ∧
    ((Decode.updateDecodedInstReg rf d i).regsNumber i = .PC ↔ d.regsNumber i = .PC) ∧
    ((Decode.updateDecodedInstReg rf d i).regsNumber i ≠ .RNONE →
      (Decode.updateDecodedInstReg rf d i).regsNumber i ≠ .PC →
      (Decode.updateDecodedInstReg rf d i).regsData i =
        rf.readData ((Decode.updateDecodedInstReg rf d i).regsNumber i)) := by
  have hsp := getActiveSp_stack rf
  unfold Decode.updateDecodedInstReg
  simp only [DecodedInst.getRegisterNumber]
  by_cases h1 : d.regsNumber i = .MSP ∨ d.regsNumber i = .PSP
  · have h2 : rf.getActiveSp ≠ .RNONE ∧ rf.getActiveSp ≠ .PC := by
      rcases hsp with h | h <;> rw [h] <;> decide
    have h3 : d.regsNumber i ≠ .RNONE ∧ d.regsNumber i ≠ .PC := by
      rcases h1 with h | h <;> rw [h] <;> decide
    rw [if_pos h1, if_pos h2]
    refine ⟨rfl, rfl, rfl, rfl, ?_, ?_, ?_, ?_⟩
    · intro j hj
      simp [DecodedInst.setRegister, hj]
    · simp [DecodedInst.setRegister, h2.1, h3.1]
    · simp [DecodedInst.setRegister, h2.2, h3.2]
    · intro _ _
      simp [DecodedInst.setRegister]
  · rw [if_neg h1]
    by_cases h2 : d.regsNumber i ≠ .RNONE ∧ d.regsNumber i ≠ .PC
    · rw [if_pos h2]
      refine ⟨rfl, rfl, rfl, rfl, ?_, ?_, ?_, ?_⟩
      · intro j hj
        simp [DecodedInst.setRegister, hj]
      · simp [DecodedInst.setRegister]
      · simp [DecodedInst.setRegister]
      · intro _ _
        simp [DecodedInst.setRegister]
    · rw [if_neg h2]
      refine ⟨rfl, rfl, rfl, rfl, ?_, Iff.rfl, Iff.rfl, ?_⟩
      · intro j _
        exact ⟨rfl, rfl⟩
      · intro ha hb
        exact absurd ⟨ha, hb⟩ h2

/-- The record after `Decode::updateDecodedInstRegs`: the operation, immediate,
register list and condition are kept, and every slot that names neither RNONE
nor PC holds the current value of the register it names. -/
theorem updateRegs_slots (rf : RegFile) (d : DecodedInst) :
    (Decode.updateDecodedInstRegs rf d).op = d.op ∧
    (Decode.updateDecodedInstRegs rf d).im = d.im ∧
    (Decode.updateDecodedInstRegs rf d).regList = d.regList ∧
    (Decode.updateDecodedInstRegs rf d).cond = d.cond ∧
    ∀ i, ((Decode.updateDecodedInstRegs rf d).regsNumber i = .RNONE ↔ d.regsNumber i = .RNONE) ∧
      ((Decode.updateDecodedInstRegs rf d).regsNumber i = .PC ↔ d.regsNumber i = .PC) ∧
      ((Decode.updateDecodedInstRegs rf d).regsNumber i ≠ .RNONE →
        (Decode.updateDecodedInstRegs rf d).regsNumber i ≠ .PC →
        (Decode.updateDecodedInstRegs rf d).regsData i =
          rf.readData ((Decode.updateDecodedInstRegs rf d).regsNumber i)) := by
  unfold Decode.updateDecodedInstRegs
  obtain ⟨d1, hd1⟩ : ∃ d1, d1 = Decode.updateDecodedInstReg rf d .RD := ⟨_, rfl⟩
  obtain ⟨d2, hd2⟩ : ∃ d2, d2 = Decode.updateDecodedInstReg rf d1 .RT := ⟨_, rfl⟩
  obtain ⟨d3, hd3⟩ : ∃ d3, d3 = Decode.updateDecodedInstReg rf d2 .RDN := ⟨_, rfl⟩
  obtain ⟨d4, hd4⟩ : ∃ d4, d4 = Decode.updateDecodedInstReg rf d3 .RM := ⟨_, rfl⟩
  obtain ⟨d5, hd5⟩ : ∃ d5, d5 = Decode.updateDecodedInstReg rf d4 .RN := ⟨_, rfl⟩
  obtain ⟨d6, hd6⟩ : ∃ d6, d6 = Decode.updateDecodedInstReg rf d5 .XPSR := ⟨_, rfl⟩
  simp only [← hd1, ← hd2, ← hd3, ← hd4, ← hd5, ← hd6]
  obtain ⟨a1, a2, a3, a4, a5, a6, a7, a8⟩ := updateReg_slot rf d .RD
  obtain ⟨b1, b2, b3, b4, b5, b6, b7, b8⟩ := updateReg_slot rf d1 .RT
  obtain ⟨c1, c2, c3, c4, c5, c6, c7, c8⟩ := updateReg_slot rf d2 .RDN
  obtain ⟨e1, e2, e3, e4, e5, e6, e7, e8⟩ := updateReg_slot rf d3 .RM
  obtain ⟨f1, f2, f3, f4, f5, f6, f7, f8⟩ := updateReg_slot rf d4 .RN
  obtain ⟨g1, g2, g3, g4, g5, g6, g7, g8⟩ := updateReg_slot rf d5 .XPSR
  rw [← hd1] at a1 a2 a3 a4 a5 a6 a7 a8
  rw [← hd2] at b1 b2 b3 b4 b5 b6 b7 b8
  rw [← hd3] at c1 c2 c3 c4 c5 c6 c7 c8
  rw [← hd4] at e1 e2 e3 e4 e5 e6 e7 e8
  rw [← hd5] at f1 f2 f3 f4 f5 f6 f7 f8
  rw [← hd6] at g1 g2 g3 g4 g5 g6 g7 g8
  refine ⟨by rw [g1, f1, e1, c1, b1, a1], by rw [g2, f2, e2, c2, b2, a2],
    by rw [g3, f3, e3, c3, b3, a3], by rw [g4, f4, e4, c4, b4, a4], ?_⟩
  intro i
  cases i
  · rw [(g5 .RD (by decide)).1, (g5 .RD (by decide)).2, (f5 .RD (by decide)).1,
      (f5 .RD (by decide)).2, (e5 .RD (by decide)).1, (e5 .RD (by decide)).2,
      (c5 .RD (by decide)).1, (c5 .RD (by decide)).2, (b5 .RD (by decide)).1,
      (b5 .RD (by decide)).2]
    exact ⟨a6, a7, a8⟩
  · rw [(g5 .RT (by decide)).1, (g5 .RT (by decide)).2, (f5 .RT (by decide)).1,
      (f5 .RT (by decide)).2, (e5 .RT (by decide)).1, (e5 .RT (by decide)).2,
      (c5 .RT (by decide)).1, (c5 .RT (by decide)).2, ← (a5 .RT (by decide)).1]
    exact ⟨b6, b7, b8⟩
  · rw [(g5 .RDN (by decide)).1, (g5 .RDN (by decide)).2, (f5 .RDN (by decide)).1,
      (f5 .RDN (by decide)).2, (e5 .RDN (by decide)).1, (e5 .RDN (by decide)).2,
      ← (a5 .RDN (by decide)).1, ← (b5 .RDN (by decide)).1]
    exact ⟨c6, c7, c8⟩
  · rw [(g5 .RM (by decide)).1, (g5 .RM (by decide)).2, (f5 .RM (by decide)).1,
      (f5 .RM (by decide)).2, ← (a5 .RM (by decide)).1, ← (b5 .RM (by decide)).1,
      ← (c5 .RM (by decide)).1]
    exact ⟨e6, e7, e8⟩
  · rw [(g5 .RN (by decide)).1, (g5 .RN (by decide)).2, ← (a5 .RN (by decide)).1,
      ← (b5 .RN (by decide)).1, ← (c5 .RN (by decide)).1, ← (e5 .RN (by decide)).1]
    exact ⟨f6, f7, f8⟩
  · rw [← (a5 .XPSR (by decide)).1, ← (b5 .XPSR (by decide)).1, ← (c5 .XPSR (by decide)).1,
      ← (e5 .XPSR (by decide)).1, ← (f5 .XPSR (by decide)).1]
    exact ⟨g6, g7, g8⟩



/-- The statistics step at the end of an execute tick changes the statistics
only. -/
theorem calculateExecCycles_ok (t s1 : Processor) (h : calculateExecCycles t = .ok s1) :
    s1.pipe = t.pipe ∧ s1.regFile = t.regFile ∧ s1.output = t.output := by
  unfold calculateExecCycles at h
  split at h
  · split at h
    · simp only [Except.ok.injEq] at h
      rw [← h]
      exact ⟨rfl, rfl, rfl⟩
    · exact Except.noConfusion h
    · simp only [Except.ok.injEq] at h
      rw [← h]
      exact ⟨rfl, rfl, rfl⟩
  · simp only [Except.ok.injEq] at h
    rw [← h]
    exact ⟨rfl, rfl, rfl⟩
  · simp only [Except.ok.injEq] at h
    rw [← h]
    exact ⟨rfl, rfl, rfl⟩

/-- An execute tick in the state NEXT_INST. -/
theorem executeNextInst_outcome (s t : Processor) (hst : s.execute.execState = .NEXT_INST)
    (h : executeNextInst s = .ok t) : TickOutcome s t := by
  unfold executeNextInst at h
  split_ifs at h with hsome
  by_cases hg : s.decode.decodedHalfInst = true ∨ s.decode.decodedInst.isNone = true
  · have hget : s.decode.getNextInst = (none, s.decode) := by
      unfold Decode.getNextInst
      rw [if_pos hg]
    rw [hget] at h
    simp only [Except.ok.injEq] at h
    have hn : s.execute.decodedInst = none := by
      cases hx : s.execute.decodedInst with
      | none => rfl
      | some x => rw [hx] at hsome; exact absurd rfl hsome
    rw [← h]
    exact ⟨hn, rfl, Or.inl rfl, rfl, Or.inl ⟨rfl, rfl, rfl⟩,
      fun _ _ => ⟨hst, rfl, rfl, rfl, rfl⟩⟩
  · have hhalf : s.decode.decodedHalfInst = false := by
      cases hx : s.decode.decodedHalfInst with
      | false => rfl
      | true => exact absurd (Or.inl hx) hg
    obtain ⟨d, hd⟩ : ∃ d, s.decode.decodedInst = some d := by
      cases hx : s.decode.decodedInst with
      | none => rw [hx] at hg; exact absurd (Or.inr rfl) hg
      | some d => exact ⟨d, rfl⟩
    have hget : s.decode.getNextInst = (some d, { s.decode with decodedInst := none }) := by
      unfold Decode.getNextInst
      rw [if_neg hg, hd]
    rw [hget] at h
    simp only [] at h
    split at h
    · exact Except.noConfusion h
    · rename_i u hu
      simp only [Except.ok.injEq] at h
      have hno : ¬ (s.decode.decodedInst = none ∨ s.decode.decodedHalfInst = true) := by
        rw [hd, hhalf]
        simp
      rcases executeInst_frame _ _ _ hu with hq | hf | hi
      · simp only [Processor.pipe, Prod.mk.injEq] at hq
        obtain ⟨q1, q2, q3, q4⟩ := hq
        rw [← h]
        refine ⟨rfl, ?_, Or.inr ?_, ?_, Or.inl ⟨q1, ?_, ?_⟩, fun _ hx => absurd hx hno⟩
        · show u.decode.decodedHalfInst = _
          rw [q3]
        · show u.decode.decodedInst = _
          rw [q3]
        · show u.fetch = _
          rw [q2]
        · show u.decode.flushPending = _
          rw [q3]
        · show u.fetch.flushPending = _
          rw [q2]
      · simp only [Processor.pipe, Prod.mk.injEq, flushPipeline] at hf
        obtain ⟨q1, q2, q3, q4⟩ := hf
        rw [← h]
        refine ⟨rfl, ?_, Or.inr ?_, ?_, Or.inr (Or.inl ⟨q1, ?_, ?_, ?_⟩),
          fun _ hx => absurd hx hno⟩
        · show u.decode.decodedHalfInst = _
          rw [q3]
        · show u.decode.decodedInst = _
          rw [q3]
        · show u.fetch = _
          rw [q2]
        · show u.decode.flushPending = _
          rw [q3]
        · show u.fetch.flushPending = _
          rw [q2]
        · show u.execute.execState = _
          rw [q4]
          exact hst
      · obtain ⟨q1, q2, q3, q4, q5, q6⟩ := hi
        rw [← h]
        refine ⟨rfl, ?_, Or.inr ?_, ?_, Or.inr (Or.inr ⟨q1, ?_, ?_, ?_⟩),
          fun _ hx => absurd hx hno⟩
        · show u.decode.decodedHalfInst = _
          rw [q3]
        · show u.decode.decodedInst = _
          rw [q3]
        · show u.fetch = _
          rw [q2]
        · show u.decode.flushPending = _
          rw [q3]
        · show u.fetch.flushPending = _
          rw [q2]
        · show u.execute.execState ≠ _
          rcases q6 with e | e | e | e <;> rw [e] <;> decide



/-- A handler that has issued a request, seen as the outcome of a tick in a
state other than NEXT_INST. -/
theorem outcome_of_issued (s t : Processor) (hnone : s.execute.decodedInst = none)
    (hst : s.execute.execState ≠ .NEXT_INST) (h : Issued s t) : TickOutcome s t := by
  obtain ⟨q1, q2, q3, q4, q5, q6⟩ := h
  refine ⟨by rw [q4, hnone], by rw [q3], Or.inl (by rw [q3]), by rw [q2],
    Or.inr (Or.inr ⟨q1, by rw [q3], by rw [q2], ?_⟩), fun hx => absurd hx hst⟩
  rcases q6 with e | e | e | e <;> rw [e] <;> decide

/-- A handler that has left memory, fetch and decode alone, seen as the outcome
of a tick in a state other than NEXT_INST. -/
theorem outcome_of_quiet (s t : Processor) (hnone : s.execute.decodedInst = none)
    (hst : s.execute.execState ≠ .NEXT_INST) (hm : t.mem = s.mem) (hf : t.fetch = s.fetch)
    (hd : t.decode = s.decode) (he : t.execute.decodedInst = s.execute.decodedInst) :
    TickOutcome s t :=
  ⟨by rw [he, hnone], by rw [hd], Or.inl (by rw [hd]), by rw [hf],
    Or.inl ⟨hm, by rw [hd], by rw [hf]⟩, fun hx => absurd hx hst⟩

/-- The outcome of a tick looks at memory, fetch, decode, the register file and
the two fields `decodedInst`, `execState` of execute only. -/
theorem outcome_congr (s t u : Processor) (h : TickOutcome s t) (hp : u.pipe = t.pipe)
    (hr : u.regFile = t.regFile) : TickOutcome s u := by
  simp only [Processor.pipe, Prod.mk.injEq] at hp
  obtain ⟨p1, p2, p3, p4⟩ := hp
  unfold TickOutcome at h ⊢
  rw [p1, p2, p3, p4, hr]
  exact h

/-- The outcome of a tick does not look at the field `curExecState` nor at the
statistics of the state before. -/
theorem outcome_congr_left (s s' t : Processor) (h : TickOutcome s' t) (hm : s'.mem = s.mem)
    (hf : s'.fetch = s.fetch) (hd : s'.decode = s.decode) (hr : s'.regFile = s.regFile)
    (he : s'.execute.execState = s.execute.execState) : TickOutcome s t := by
  unfold TickOutcome at h ⊢
  rw [hm, hf, hd, hr, he] at h
  exact h

/-- Every execute tick that returns, from a state in which execute holds no
record of its own, has one of the three outcomes. -/
theorem execute_tick (s s1 : Processor) (hnone : s.execute.decodedInst = none)
    (h : Execute.run s = .ok s1) : TickOutcome s s1 := by
  unfold Execute.run at h
  simp only [] at h
  split at h
  · exact Except.noConfusion h
  · rename_i t ht
    obtain ⟨c1, c2, _⟩ := calculateExecCycles_ok _ _ h
    refine outcome_congr s t s1 ?_ c1 c2
    obtain ⟨s', hs'⟩ : ∃ s' : Processor,
        s' = { s with execute := { s.execute with curExecState := s.execute.execState } } :=
      ⟨_, rfl⟩
    rw [← hs'] at ht
    have e1 : s'.execute.execState = s.execute.execState := by rw [hs']
    have e2 : s'.execute.decodedInst = none := by rw [hs']; exact hnone
    refine outcome_congr_left s s' t ?_ (by rw [hs']) (by rw [hs']) (by rw [hs']) (by rw [hs']) e1
    cases hst0 : s.execute.execState with
    | NEXT_INST =>
      rw [hst0] at ht
      simp only [] at ht
      have hst := e1.trans hst0
      exact executeNextInst_outcome s' t hst ht
    | LOAD_MEM_REQ =>
      rw [hst0] at ht
      simp only [] at ht
      have hst := e1.trans hst0
      exact outcome_of_issued s' t e2 (by rw [hst]; decide) (issued_loadMemReq _ _ ht)
    | LOAD_MEM_RESP =>
      rw [hst0] at ht
      simp only [] at ht
      have hst := e1.trans hst0
      simp only [executeLoadMemResp] at ht
      split at ht
      · exact Except.noConfusion ht
      · split_ifs at ht
        simp only [Except.ok.injEq] at ht
        rw [← ht]
        exact outcome_of_quiet s' _ e2 (by rw [hst]; decide) rfl rfl rfl rfl
    | STORE_MEM_REQ =>
      rw [hst0] at ht
      simp only [] at ht
      have hst := e1.trans hst0
      exact outcome_of_issued s' t e2 (by rw [hst]; decide) (issued_storeMemReq _ _ ht)
    | STORE_MEM_RESP =>
      rw [hst0] at ht
      simp only [] at ht
      have hst := e1.trans hst0
      simp only [executeStoreMemResp] at ht
      split_ifs at ht
      simp only [Except.ok.injEq] at ht
      rw [← ht]
      exact outcome_of_quiet s' _ e2 (by rw [hst]; decide) rfl rfl rfl rfl
    | MULTIPLE_LOAD_FIRST_MEM_REQ =>
      rw [hst0] at ht
      simp only [] at ht
      have hst := e1.trans hst0
      exact outcome_of_issued s' t e2 (by rw [hst]; decide) (issued_mloadFirst _ _ ht)
    | MULTIPLE_LOAD_MEM_REQ =>
      rw [hst0] at ht
      simp only [] at ht
      have hst := e1.trans hst0
      simp only [executeMultipleLoadMemReq] at ht
      split at ht
      · exact Except.noConfusion ht
      · split at ht
        · exact Except.noConfusion ht
        · split_ifs at ht
          · simp only [Except.ok.injEq] at ht
            rw [← ht]
            exact outcome_of_quiet s' _ e2 (by rw [hst]; decide) rfl rfl rfl rfl
          · split at ht
            · exact Except.noConfusion ht
            · rename_i tok mem hreq
              simp only [Except.ok.injEq] at ht
              rw [← ht]
              exact outcome_of_issued s' _ e2 (by rw [hst]; decide)
                ⟨Or.inl ⟨_, tok, hreq⟩, rfl, rfl, rfl, rfl, Or.inr (Or.inr (Or.inl rfl))⟩
          · simp only [Except.ok.injEq] at ht
            rw [← ht]
            exact outcome_of_quiet s' _ e2 (by rw [hst]; decide) rfl rfl rfl rfl
    | MULTIPLE_STORE_FIRST_MEM_REQ =>
      rw [hst0] at ht
      simp only [] at ht
      have hst := e1.trans hst0
      exact outcome_of_issued s' t e2 (by rw [hst]; decide) (issued_mstoreFirst _ _ ht)
    | MULTIPLE_STORE_MEM_REQ =>
      rw [hst0] at ht
      simp only [] at ht
      have hst := e1.trans hst0
      simp only [executeMultipleStoreMemReq] at ht
      split_ifs at ht
      · split at ht
        · exact Except.noConfusion ht
        · rename_i u hu
          simp only [Except.ok.injEq] at ht
          rw [← ht]
          obtain ⟨q1, q2, q3, q4, q5, _⟩ := requestNextStore_ok _ _ hu
          exact outcome_of_issued s' _ e2 (by rw [hst]; decide)
            ⟨Or.inr q1, q2, q3, q4, q5, Or.inr (Or.inr (Or.inr rfl))⟩
      · simp only [Except.ok.injEq] at ht
        rw [← ht]
        exact outcome_of_quiet s' _ e2 (by rw [hst]; decide) rfl rfl rfl rfl
    | FLUSH_PIPELINE =>
      rw [hst0] at ht
      simp only [] at ht
      have hst := e1.trans hst0
      simp only [Except.ok.injEq] at ht
      rw [← ht]
      exact ⟨e2, rfl, Or.inl rfl, rfl, Or.inr (Or.inl ⟨rfl, rfl, rfl, rfl⟩),
        fun hx => absurd hx (by rw [hst]; decide)⟩


/-- Half a record is up to date with every register file, as half or complete
record. -/
theorem fresh_of_half (d : DecodedInst) (rf rf' : RegFile) (b : Bool) (h : d.Fresh rf true) :
    d.Fresh rf' b := by
  intro idx hidx
  obtain ⟨h1, h2⟩ := h idx hidx
  refine ⟨h1, ?_⟩
  rcases h2 with h2 | h2
  · exact Or.inl h2
  · exact absurd h2.1 (by decide)

/-- A record whose read slots name registers is up to date after the refresh
of a stalled decode tick. -/
theorem fresh_update (rf rf0 : RegFile) (d : DecodedInst) (b : Bool) (h : d.Fresh rf0 b) :
    (Decode.updateDecodedInstRegs rf d).Fresh rf false := by
  obtain ⟨u1, _, _, _, u5⟩ := updateRegs_slots rf d
  intro idx hidx
  rw [u1] at hidx
  obtain ⟨a1, a2, a3⟩ := u5 idx
  have hne : (Decode.updateDecodedInstRegs rf d).regsNumber idx ≠ .RNONE := by
    intro hx
    exact (h idx hidx).1 (a1.mp hx)
  refine ⟨hne, ?_⟩
  by_cases hpc : (Decode.updateDecodedInstRegs rf d).regsNumber idx = .PC
  · exact Or.inl hpc
  · exact Or.inr ⟨rfl, a3 hne hpc⟩

/-- The second half of a 32-bit instruction completes a record that is up to
date. -/
theorem fresh_second_half (inst : Nat) (d : DecodedInst) (rf rf' : RegFile)
    (h : d.Fresh rf true) : (Decode.decodeSecondHalf inst d).Fresh rf' false := by
  unfold Decode.decodeSecondHalf
  split_ifs
  · exact fresh_of_half _ rf rf' false h
  · exact good_placeholder _ _ _

theorem fresh_new (rf : RegFile) (b : Bool) : DecodedInst.new.Fresh rf b := by
  intro idx hidx
  simp [DecodedInst.new, readSlots] at hidx

/-- After every decode tick that returns, the record held by decode is up to
date with the register file, whatever the execute tick before it has written,
provided the record it started from named its registers (and, as half a
record, only PC). -/
theorem decode_tick_fresh (s s' : Processor) (rf0 : RegFile)
    (hpre : ∀ d, s.decode.decodedInst = some d → d.Fresh rf0 s.decode.decodedHalfInst)
    (h : Decode.run s = .ok s') :
    (∀ d, s'.decode.decodedInst = some d → d.Fresh s'.regFile s'.decode.decodedHalfInst) ∧
    s'.execute = s.execute := by
  unfold Decode.run at h
  split_ifs at h with hfl hstall
  · simp only [Except.ok.injEq] at h
    rw [← h]
    exact ⟨fun d hd => Option.noConfusion hd, rfl⟩
  · simp only [Except.ok.injEq] at h
    rw [← h]
    refine ⟨?_, rfl⟩
    intro d hd
    simp only [Option.map_eq_some'] at hd
    obtain ⟨d0, hd0, hd1⟩ := hd
    have hh : s.decode.decodedHalfInst = false := by
      cases hx : s.decode.decodedHalfInst with
      | false => rfl
      | true => exact absurd hx hstall.2
    rw [← hd1]
    show (Decode.updateDecodedInstRegs s.regFile d0).Fresh s.regFile s.decode.decodedHalfInst
    rw [hh]
    exact fresh_update _ rf0 _ _ (hpre d0 hd0)
  · have hcase : s.decode.decodedInst = none ∨ s.decode.decodedHalfInst = true := by
      cases hx : s.decode.decodedInst with
      | none => exact Or.inl rfl
      | some d =>
        right
        cases hy : s.decode.decodedHalfInst with
        | true => rfl
        | false =>
          rw [hx, hy] at hstall
          exact absurd ⟨rfl, by simp⟩ hstall
    unfold Fetch.getNextInst at h
    simp only [] at h
    split_ifs at h with hstarved hsync
    · simp only [Except.ok.injEq] at h
      rw [← h]
      refine ⟨?_, rfl⟩
      intro d hd
      rcases hcase with hc | hc
      · rw [hc] at hd
        exact Option.noConfusion hd
      · have := hpre d hd
        rw [hc] at this ⊢
        exact fresh_of_half _ rf0 _ _ this
    · simp only [] at h
      split_ifs at h with hhalf
      · simp only [Except.ok.injEq] at h
        rw [← h]
        refine ⟨?_, rfl⟩
        intro d hd
        simp only [Option.some.injEq] at hd
        rw [← hd]
        cases hx : s.decode.decodedInst with
        | none => exact fresh_second_half _ _ rf0 _ (fresh_new _ _)
        | some d0 =>
          have := hpre d0 hx
          rw [hhalf] at this
          exact fresh_second_half _ _ rf0 _ this
      · have hnone : s.decode.decodedInst = none := by
          rcases hcase with hc | hc
          · exact hc
          · exact absurd hc hhalf
        rw [hnone] at h
        simp only [] at h
        split at h
        · exact Except.noConfusion h
        · rename_i d half hdec
          simp only [Except.ok.injEq] at h
          rw [← h]
          refine ⟨?_, rfl⟩
          intro d' hd'
          simp only [Option.some.injEq] at hd'
          rw [← hd']
          have hsp : (s.regFile.write .PC (NEXT_THUMB_INST (s.regFile.readData .PC))).getActiveSp
              ≠ .RNONE := by
            rcases getActiveSp_stack
              (s.regFile.write .PC (NEXT_THUMB_INST (s.regFile.readData .PC))) with e | e <;>
              rw [e] <;> decide
          exact good_fromAdc _ _ _ _ hsp d half hdec


/-- A cycle keeps the operands of the record in decode up to date. -/
theorem cycle_operands_fresh (s s' : Processor) (hs : s.OperandsFresh)
    (h : s.simulateCycle = .ok s') : s'.OperandsFresh := by
  unfold Processor.simulateCycle at h
  split at h
  · exact Except.noConfusion h
  · rename_i s1 hE
    split at h
    · exact Except.noConfusion h
    · rename_i s2 hD
      simp only [] at h
      split at h
      · exact Except.noConfusion h
      · rename_i m hM
        simp only [Except.ok.injEq] at h
        obtain ⟨t1, t2, t3, _⟩ := execute_tick { s with stats := s.stats.addCycle } s1 hs.2 hE
        have hpre : ∀ d, s1.decode.decodedInst = some d →
            d.Fresh s.regFile s1.decode.decodedHalfInst := by
          intro d hd
          rw [t2]
          rcases t3 with e | e
          · rw [e] at hd
            exact hs.1 d hd
          · rw [e] at hd
            exact Option.noConfusion hd
        obtain ⟨g1, g2⟩ := decode_tick_fresh s1 s2 s.regFile hpre hD
        obtain ⟨f1, f2, f3, _⟩ := fetch_frame s2
        rw [← h]
        refine ⟨?_, ?_⟩
        · intro d hd
          show d.Fresh (Fetch.run s2).regFile (Fetch.run s2).decode.decodedHalfInst
          rw [f1, f2]
          exact g1 d (by rw [← f2]; exact hd)
        · show (Fetch.run s2).execute.decodedInst = none
          rw [f3, g2]
          exact t1

/-- Cycles keep the operands of the record in decode up to date. -/
theorem cycles_operands_fresh (n : Nat) : ∀ (s s' : Processor), s.OperandsFresh →
    s.simulateCycles n = .ok s' → s'.OperandsFresh := by
  induction n with
  | zero =>
    intro s s' hs h
    simp only [Processor.simulateCycles, Except.ok.injEq] at h
    rw [← h]
    exact hs
  | succ n ih =>
    intro s s' hs h
    simp only [Processor.simulateCycles] at h
    split at h
    · exact Except.noConfusion h
    · rename_i s1 h1
      exact ih s1 s' (cycle_operands_fresh s s1 hs h1) h

/-- Every state that the simulator reaches holds up-to-date operands. -/
theorem run_operands_fresh (file : Option (List Nat)) (n w t : Nat) (s : Processor)
    (h : Simulator.run file n w t = .ok s) : s.OperandsFresh := by
  unfold Simulator.run at h
  split at h
  · exact Except.noConfusion h
  · rename_i s0 h0
    obtain ⟨r1, r2, _⟩ := reset_frame _ _ _ h0
    refine cycles_operands_fresh t s0 s ⟨?_, ?_⟩ h
    · intro d hd
      rw [r2] at hd
      exact Option.noConfusion hd
    · rw [r1]
      rfl

/-- The execute tick that pulls the complete record `d` from decode runs the
routine of `d` on the state of the tick. -/
theorem execute_pull (s : Processor) (d : DecodedInst)
    (hst : s.execute.execState = .NEXT_INST) (hnone : s.execute.decodedInst = none)
    (hd : s.decode.decodedInst = some d) (hhalf : s.decode.decodedHalfInst = false) :
    Execute.run s =
      match executeInst { s with
          decode := { s.decode with decodedInst := none }
          execute := { s.execute with curExecState := .NEXT_INST, decodedInst := some d } } d with
      | .error e => .error e
      | .ok u => calculateExecCycles { u with execute := { u.execute with decodedInst := none } } := by
  have hsome : (some d).isNone = false := rfl
  simp only [Execute.run, hst, executeNextInst, hnone, Option.isSome_none, Bool.false_eq_true,
    if_false, Decode.getNextInst, hd, hhalf, hsome, or_self]
  split <;> rename_i hx <;> split at hx <;> simp_all

/-- C29: in every state that the simulator reaches, when execute is about to
pull the complete record `d` from decode, the execute tick runs the routine of
`d` on the current register file, every slot that the routine reads names a
register, and every such slot that does not name PC holds the current value of
its register; the slots outside `readSlots` do not reach the routine. -/
theorem C29_operands_fresh (file : Option (List Nat)) (n w t : Nat) (s : Processor)
    (d : DecodedInst) (hrun : Simulator.run file n w t = .ok s)
    (hst : s.execute.execState = .NEXT_INST)
    (hd : s.decode.decodedInst = some d) (hhalf : s.decode.decodedHalfInst = false) :
    (Execute.run { s with stats := s.stats.addCycle } =
      match executeInst { s with
          stats := s.stats.addCycle
          decode := { s.decode with decodedInst := none }
          execute := { s.execute with curExecState := .NEXT_INST, decodedInst := some d } } d with
      | .error e => .error e
      | .ok u =>
        calculateExecCycles { u with execute := { u.execute with decodedInst := none } }) ∧
    (∀ idx ∈ readSlots d.op, d.regsNumber idx ≠ .RNONE ∧
      (d.regsNumber idx ≠ .PC → d.regsData idx = s.regFile.readData (d.regsNumber idx))) ∧
    (∀ d' : DecodedInst, d'.op = d.op → d'.regsNumber = d.regsNumber → d'.im = d.im →
      d'.regList = d.regList → d'.cond = d.cond →
      (∀ idx ∈ readSlots d.op, d'.regsData idx = d.regsData idx) →
      ∀ u, executeInst u d' = executeInst u d) := by
  obtain ⟨hf, hn⟩ := run_operands_fresh file n w t s hrun
  refine ⟨execute_pull _ d hst hn hd hhalf, ?_, ?_⟩
  · intro idx hidx
    obtain ⟨a1, a2⟩ := hf d hd idx hidx
    refine ⟨a1, fun hpc => ?_⟩
    rcases a2 with a2 | a2
    · exact absurd a2 hpc
    · exact a2.2
  · intro d' h1 h2 h3 h4 h5 h6 u
    exact executeInst_congr u d d' h1 h2 h3 h4 h5 h6

/-- Witness of C29 on the image `ldrUseImage`: after five cycles the LDR has
written `0x12345678` to R0 and `ADDS R1, R0, #1`, decoded two cycles before
while R0 still held 0, is about to be pulled; its RN slot holds the loaded
value. -/
theorem C29_operands_fresh_witness :
    ∃ s d, Simulator.run (some ldrUseImage) 64 1 5 = .ok s ∧
      s.execute.execState = .NEXT_INST ∧ s.decode.decodedInst = some d ∧ d.op = .ADD1 ∧
      d.regsNumber .RN = .R0 ∧ s.regFile.regs .R0 = 0x12345678 ∧
      d.regsData .RN = 0x12345678 := by
  obtain ⟨s, hs, hp⟩ := ok_of_map (Simulator.run (some ldrUseImage) 64 1 5)
    (fun s => (s.execute.execState, s.decode.decodedHalfInst, s.regFile.regs .R0,
      s.decode.decodedInst.map (fun d => (d.op, d.regsNumber .RN))))
    (.NEXT_INST, false, 0x12345678, some (.ADD1, .R0)) (by decide)
  simp only [Prod.mk.injEq] at hp
  obtain ⟨p1, p2, p3, p4⟩ := hp
  obtain ⟨d, hd, hf⟩ : ∃ d, s.decode.decodedInst = some d ∧
      (d.op, d.regsNumber .RN) = (.ADD1, .R0) := by
    cases h : s.decode.decodedInst with
    | none => rw [h] at p4; exact Option.noConfusion p4
    | some d => rw [h] at p4; exact ⟨d, rfl, Option.some.inj p4⟩
  simp only [Prod.mk.injEq] at hf
  obtain ⟨_, h2, _⟩ := C29_operands_fresh (some ldrUseImage) 64 1 5 s d hs p1 hd p2
  have h3 := (h2 .RN (by rw [hf.1]; decide)).2 (by rw [hf.2]; decide)
  rw [hf.2] at h3
  exact ⟨s, d, hs, p1, hd, hf.1, hf.2, p3, by rw [h3]; exact p3⟩


/-! ## Availability of the memory: C30 -/

theorem noUnavailable_ok (s : Processor) : NoUnavailable (.ok s) := by
  intro m _ h
  exact Except.noConfusion h

theorem noUnavailable_exit (c : Nat) : NoUnavailable (.error (.exit c)) := by
  intro m _ h
  simp at h

theorem noUnavailable_fatal (m : String) (h : m ∉ unavailableMessages) :
    NoUnavailable (.error (.fatal m)) := by
  intro m' hm' heq
  simp only [Except.error.injEq, Exit.fatal.injEq] at heq
  rw [heq] at h
  exact h hm'

theorem noUnavailable_map (r : Except Exit Processor) (f : Processor → Processor)
    (h : NoUnavailable r) : NoUnavailable (r.map f) := by
  cases r with
  | ok s => exact noUnavailable_ok _
  | error e => exact h

/-- A free slot under the cursor grants the request. -/
theorem request_of_free (m : Memory) (hfree : (m.pipeline m.nextReqIndex).issuer = .NONE) :
    m.isAvailable = true ∧ (∀ c a, ∃ r, m.requestLoad c a = some r) ∧
    (∀ c a v, ∃ r, m.requestStore c a v = some r) := by
  refine ⟨?_, ?_, ?_⟩
  · simp [Memory.isAvailable, hfree]
  · intro c a
    simp [Memory.requestLoad, hfree]
  · intro c a v
    simp [Memory.requestStore, hfree]

theorem noUnavailable_loadMemReq (s : Processor)
    (hfree : (s.mem.pipeline s.mem.nextReqIndex).issuer = .NONE) :
    NoUnavailable (executeLoadMemReq s) := by
  obtain ⟨h1, h2, _⟩ := request_of_free s.mem hfree
  unfold executeLoadMemReq
  simp only [h1, not_true_eq_false, if_false]
  obtain ⟨r, hr⟩ := h2 .EXECUTE (add32 s.execute.loadTmps.ptr s.execute.loadTmps.byteOffset)
  rw [hr]
  exact noUnavailable_ok _

theorem noUnavailable_storeMemReq (s : Processor)
    (hfree : (s.mem.pipeline s.mem.nextReqIndex).issuer = .NONE) :
    NoUnavailable (executeStoreMemReq s) := by
  obtain ⟨h1, _, h3⟩ := request_of_free s.mem hfree
  unfold executeStoreMemReq
  simp only [h1, not_true_eq_false, if_false]
  split
  · rename_i e he
    unfold Memory.loadWord at he
    split_ifs at he
    simp only [Except.error.injEq] at he
    rw [← he]
    exact noUnavailable_fatal _ (by decide)
  · split
    · rename_i e he
      unfold formatDataForMemStore at he
      split at he <;> first
        | exact Except.noConfusion he
        | (simp only [Except.error.injEq] at he
           rw [← he]
           exact noUnavailable_fatal _ (by decide))
    · rename_i data _
      obtain ⟨r, hr⟩ := h3 .EXECUTE
        (add32 s.execute.storeTmps.ptr s.execute.storeTmps.byteOffset) data
      rw [hr]
      exact noUnavailable_ok _

theorem noUnavailable_ldr (s : Processor) (rt : Reg) (drn offset : Nat)
    (ty : MemoryInstructionType) (hfree : (s.mem.pipeline s.mem.nextReqIndex).issuer = .NONE) :
    NoUnavailable (ldr s rt drn offset ty) := by
  unfold ldr
  exact noUnavailable_loadMemReq _ hfree

theorem noUnavailable_str (s : Processor) (rt rn : Reg) (drt drn offset : Nat)
    (ty : MemoryInstructionType) (hfree : (s.mem.pipeline s.mem.nextReqIndex).issuer = .NONE) :
    NoUnavailable (str s rt drt rn drn offset ty) := by
  unfold str
  exact noUnavailable_storeMemReq _ hfree

theorem noUnavailable_mloadFirst (s : Processor)
    (hfree : (s.mem.pipeline s.mem.nextReqIndex).issuer = .NONE) :
    NoUnavailable (executeMultipleLoadFirstMemReq s) := by
  obtain ⟨h1, h2, _⟩ := request_of_free s.mem hfree
  unfold executeMultipleLoadFirstMemReq
  simp only [h1, not_true_eq_false, if_false, writeReg]
  obtain ⟨r, hr⟩ := h2 .EXECUTE (add32 s.execute.mloadTmps.ptr s.execute.mloadTmps.byteOffset)
  rw [hr]
  exact noUnavailable_ok _

theorem noUnavailable_nextStore (s : Processor)
    (hfree : (s.mem.pipeline s.mem.nextReqIndex).issuer = .NONE) :
    ∀ m ∈ unavailableMessages, requestNextStore s ≠ .error (.fatal m) := by
  obtain ⟨_, _, h3⟩ := request_of_free s.mem hfree
  unfold requestNextStore
  simp only []
  split
  · intro m hm
    exact noUnavailable_fatal _ (by decide) m hm
  · rename_i r rest _
    obtain ⟨x, hx⟩ := h3 .EXECUTE
      (add32 s.execute.mstoreTmps.ptr s.execute.mstoreTmps.byteOffset) (s.regFile.readData r)
    rw [hx]
    intro m _ h
    exact Except.noConfusion h

theorem noUnavailable_of_nextStore (s : Processor)
    (hfree : (s.mem.pipeline s.mem.nextReqIndex).issuer = .NONE) :
    NoUnavailable (match requestNextStore s with
      | .error e => .error e
      | .ok s => .ok (setExecState s .MULTIPLE_STORE_MEM_REQ)) := by
  have h := noUnavailable_nextStore s hfree
  split
  · rename_i e he
    rw [he] at h
    exact h
  · exact noUnavailable_ok _

theorem noUnavailable_mstoreFirst (s : Processor)
    (hfree : (s.mem.pipeline s.mem.nextReqIndex).issuer = .NONE) :
    NoUnavailable (executeMultipleStoreFirstMemReq s) := by
  obtain ⟨h1, _, _⟩ := request_of_free s.mem hfree
  unfold executeMultipleStoreFirstMemReq
  simp only [h1, not_true_eq_false, if_false]
  split_ifs
  · exact noUnavailable_of_nextStore _ hfree
  · exact noUnavailable_of_nextStore _ hfree
  · exact noUnavailable_fatal _ (by decide)

theorem noUnavailable_populate (l : List Reg) (rl : Nat) (e : Exit)
    (h : populateRegisterList l rl = .error e) : NoUnavailable (.error e) := by
  unfold populateRegisterList at h
  split at h
  · simp only [Except.error.injEq] at h
    subst h
    exact noUnavailable_fatal _ (by decide)
  · simp only [] at h
    split at h
    · simp only [Except.error.injEq] at h
      subst h
      exact noUnavailable_fatal _ (by decide)
    · exact Except.noConfusion h

theorem noUnavailable_statsPrint (st : Statistics) (e : Exit)
    (h : statsPrint st = .error e) :
    NoUnavailable (.error e) := by
  unfold statsPrint at h
  split at h
  · simp only [Except.error.injEq] at h
    subst h
    exact noUnavailable_fatal _ (by decide)
  · simp only [] at h
    split at h
    · simp only [Except.error.injEq] at h
      subst h
      exact noUnavailable_fatal _ (by decide)
    · exact Except.noConfusion h

theorem noUnavailable_checkCondition (c : DecodedCondition) (x : Nat) (e : Exit)
    (h : checkCondition c x = .error e) : NoUnavailable (.error e) := by
  unfold checkCondition at h
  simp only [] at h
  split at h <;> first
    | exact Except.noConfusion h
    | (simp only [Except.error.injEq] at h
       subst h
       exact noUnavailable_fatal _ (by decide))

theorem noUnavailable_popLdmia (s : Processor) (rn : Reg) (drn rl : Nat)
    (hfree : (s.mem.pipeline s.mem.nextReqIndex).issuer = .NONE) :
    NoUnavailable (popLdmia s rn drn rl) := by
  unfold popLdmia
  split
  · rename_i e he
    exact noUnavailable_populate _ _ e he
  · exact noUnavailable_map _ _ (noUnavailable_mloadFirst _ hfree)

theorem noUnavailable_push_stmia (s : Processor) (rn : Reg) (drn rl : Nat)
    (hfree : (s.mem.pipeline s.mem.nextReqIndex).issuer = .NONE) :
    NoUnavailable (push s rn drn rl) ∧ NoUnavailable (stmia s rn drn rl) := by
  refine ⟨?_, ?_⟩
  · unfold push
    split
    · rename_i e he
      exact noUnavailable_populate _ _ e he
    · exact noUnavailable_map _ _ (noUnavailable_mstoreFirst _ hfree)
  · unfold stmia
    split
    · rename_i e he
      exact noUnavailable_populate _ _ e he
    · exact noUnavailable_map _ _ (noUnavailable_mstoreFirst _ hfree)

theorem noUnavailable_bx (s : Processor) (rd : Reg) (a : Nat) : NoUnavailable (bx s rd a) := by
  unfold bx
  split_ifs
  · exact noUnavailable_fatal _ (by decide)
  · exact noUnavailable_ok _

/-- No execute routine, started on a memory whose slot under the cursor is free,
takes one of the fatal exits for an unavailable memory. -/
theorem executeInst_noUnavailable (s : Processor) (d : DecodedInst)
    (hfree : (s.mem.pipeline s.mem.nextReqIndex).issuer = .NONE) :
    NoUnavailable (executeInst s d) := by
  cases hop : d.op with
  | NOP =>
    simp only [executeInst, DecodedInst.getOperation, hop]
    exact noUnavailable_ok _
  | ADC =>
    simp only [executeInst, DecodedInst.getOperation, hop]
    exact noUnavailable_ok _
  | ADD1 =>
    simp only [executeInst, DecodedInst.getOperation, hop]
    exact noUnavailable_ok _
  | ADD2 =>
    simp only [executeInst, DecodedInst.getOperation, hop]
    exact noUnavailable_ok _
  | ADD3 =>
    simp only [executeInst, DecodedInst.getOperation, hop]
    exact noUnavailable_ok _
  | ADD4 =>
    simp only [executeInst, DecodedInst.getOperation, hop]
    unfold add4
    simp only []
    split_ifs
    · exact noUnavailable_fatal _ (by decide)
    · exact noUnavailable_ok _
    · exact noUnavailable_ok _
  | ADD5 =>
    simp only [executeInst, DecodedInst.getOperation, hop]
    exact noUnavailable_ok _
  | ADD6 =>
    simp only [executeInst, DecodedInst.getOperation, hop]
    exact noUnavailable_ok _
  | ADD7 =>
    simp only [executeInst, DecodedInst.getOperation, hop]
    exact noUnavailable_ok _
  | AND =>
    simp only [executeInst, DecodedInst.getOperation, hop]
    exact noUnavailable_ok _
  | ASR1 =>
    simp only [executeInst, DecodedInst.getOperation, hop]
    unfold asr1
    split
    · exact noUnavailable_fatal _ (by decide)
    · exact noUnavailable_ok _
  | ASR2 =>
    simp only [executeInst, DecodedInst.getOperation, hop]
    exact noUnavailable_ok _
  | B1 =>
    simp only [executeInst, DecodedInst.getOperation, hop]
    unfold b1
    split
    · rename_i e he
      exact noUnavailable_checkCondition _ _ e he
    · exact noUnavailable_ok _
    · exact noUnavailable_ok _
  | B2 =>
    simp only [executeInst, DecodedInst.getOperation, hop]
    exact noUnavailable_ok _
  | BIC =>
    simp only [executeInst, DecodedInst.getOperation, hop]
    exact noUnavailable_ok _
  | BKPT =>
    simp only [executeInst, DecodedInst.getOperation, hop]
    unfold bkpt
    split
    · rename_i e he
      exact noUnavailable_statsPrint _ e he
    · exact noUnavailable_exit _
  | BL =>
    simp only [executeInst, DecodedInst.getOperation, hop]
    exact noUnavailable_ok _
  | BLX =>
    simp only [executeInst, DecodedInst.getOperation, hop]
    unfold blx
    split_ifs
    · exact noUnavailable_fatal _ (by decide)
    · exact noUnavailable_ok _
  | BX =>
    simp only [executeInst, DecodedInst.getOperation, hop]
    exact noUnavailable_bx s _ _
  | CMN =>
    simp only [executeInst, DecodedInst.getOperation, hop]
    exact noUnavailable_ok _
  | CMP1 =>
    simp only [executeInst, DecodedInst.getOperation, hop]
    exact noUnavailable_ok _
  | CMP2 =>
    simp only [executeInst, DecodedInst.getOperation, hop]
    exact noUnavailable_ok _
  | CMP3 =>
    simp only [executeInst, DecodedInst.getOperation, hop]
    exact noUnavailable_ok _
  | CPS =>
    simp only [executeInst, DecodedInst.getOperation, hop]
    exact noUnavailable_ok _
  | CPY =>
    simp only [executeInst, DecodedInst.getOperation, hop]
    unfold cpy
    split_ifs
    · exact noUnavailable_bx s _ _
    · exact noUnavailable_ok _
  | EOR =>
    simp only [executeInst, DecodedInst.getOperation, hop]
    exact noUnavailable_ok _
  | LDMIA =>
    simp only [executeInst, DecodedInst.getOperation, hop]
    exact noUnavailable_popLdmia s _ _ _ hfree
  | LDR1 =>
    simp only [executeInst, DecodedInst.getOperation, hop]
    unfold ldr1Ldr4
    exact noUnavailable_map _ _ (noUnavailable_ldr s _ _ _ _ hfree)
  | LDR2 =>
    simp only [executeInst, DecodedInst.getOperation, hop]
    unfold ldr2
    exact noUnavailable_map _ _ (noUnavailable_ldr s _ _ _ _ hfree)
  | LDR3 =>
    simp only [executeInst, DecodedInst.getOperation, hop]
    unfold ldr3
    exact noUnavailable_map _ _ (noUnavailable_ldr s _ _ _ _ hfree)
  | LDR4 =>
    simp only [executeInst, DecodedInst.getOperation, hop]
    unfold ldr1Ldr4
    exact noUnavailable_map _ _ (noUnavailable_ldr s _ _ _ _ hfree)
  | LDRB1 =>
    simp only [executeInst, DecodedInst.getOperation, hop]
    unfold ldrb1
    exact noUnavailable_map _ _ (noUnavailable_ldr s _ _ _ _ hfree)
  | LDRB2 =>
    simp only [executeInst, DecodedInst.getOperation, hop]
    unfold ldrb2
    exact noUnavailable_map _ _ (noUnavailable_ldr s _ _ _ _ hfree)
  | LDRH1 =>
    simp only [executeInst, DecodedInst.getOperation, hop]
    unfold ldrh1
    exact noUnavailable_map _ _ (noUnavailable_ldr s _ _ _ _ hfree)
  | LDRH2 =>
    simp only [executeInst, DecodedInst.getOperation, hop]
    unfold ldrh2
    exact noUnavailable_map _ _ (noUnavailable_ldr s _ _ _ _ hfree)
  | LDRSB =>
    simp only [executeInst, DecodedInst.getOperation, hop]
    unfold ldrsb
    exact noUnavailable_map _ _ (noUnavailable_ldr s _ _ _ _ hfree)
  | LDRSH =>
    simp only [executeInst, DecodedInst.getOperation, hop]
    unfold ldrsh
    exact noUnavailable_map _ _ (noUnavailable_ldr s _ _ _ _ hfree)
  | LSL1 =>
    simp only [executeInst, DecodedInst.getOperation, hop]
    unfold lsl1
    split
    · exact noUnavailable_fatal _ (by decide)
    · exact noUnavailable_ok _
  | LSL2 =>
    simp only [executeInst, DecodedInst.getOperation, hop]
    exact noUnavailable_ok _
  | LSR1 =>
    simp only [executeInst, DecodedInst.getOperation, hop]
    unfold lsr1
    split
    · exact noUnavailable_fatal _ (by decide)
    · exact noUnavailable_ok _
  | LSR2 =>
    simp only [executeInst, DecodedInst.getOperation, hop]
    exact noUnavailable_ok _
  | MOV1 =>
    simp only [executeInst, DecodedInst.getOperation, hop]
    exact noUnavailable_ok _
  | MOV2 =>
    simp only [executeInst, DecodedInst.getOperation, hop]
    exact noUnavailable_ok _
  | MUL =>
    simp only [executeInst, DecodedInst.getOperation, hop]
    exact noUnavailable_ok _
  | MVN =>
    simp only [executeInst, DecodedInst.getOperation, hop]
    exact noUnavailable_ok _
  | NEG =>
    simp only [executeInst, DecodedInst.getOperation, hop]
    exact noUnavailable_ok _
  | ORR =>
    simp only [executeInst, DecodedInst.getOperation, hop]
    exact noUnavailable_ok _
  | POP =>
    simp only [executeInst, DecodedInst.getOperation, hop]
    exact noUnavailable_popLdmia s _ _ _ hfree
  | PUSH =>
    simp only [executeInst, DecodedInst.getOperation, hop]
    exact (noUnavailable_push_stmia s _ _ _ hfree).1
  | REV =>
    simp only [executeInst, DecodedInst.getOperation, hop]
    exact noUnavailable_ok _
  | REV16 =>
    simp only [executeInst, DecodedInst.getOperation, hop]
    exact noUnavailable_ok _
  | REVSH =>
    simp only [executeInst, DecodedInst.getOperation, hop]
    exact noUnavailable_ok _
  | ROR =>
    simp only [executeInst, DecodedInst.getOperation, hop]
    exact noUnavailable_ok _
  | SBC =>
    simp only [executeInst, DecodedInst.getOperation, hop]
    exact noUnavailable_ok _
  | STMIA =>
    simp only [executeInst, DecodedInst.getOperation, hop]
    exact (noUnavailable_push_stmia s _ _ _ hfree).2
  | STR1 =>
    simp only [executeInst, DecodedInst.getOperation, hop]
    unfold str1Str3
    exact noUnavailable_map _ _ (noUnavailable_str s _ _ _ _ _ _ hfree)
  | STR2 =>
    simp only [executeInst, DecodedInst.getOperation, hop]
    unfold str2
    exact noUnavailable_map _ _ (noUnavailable_str s _ _ _ _ _ _ hfree)
  | STR3 =>
    simp only [executeInst, DecodedInst.getOperation, hop]
    unfold str1Str3
    exact noUnavailable_map _ _ (noUnavailable_str s _ _ _ _ _ _ hfree)
  | STRB1 =>
    simp only [executeInst, DecodedInst.getOperation, hop]
    unfold strb1
    exact noUnavailable_map _ _ (noUnavailable_str s _ _ _ _ _ _ hfree)
  | STRB2 =>
    simp only [executeInst, DecodedInst.getOperation, hop]
    unfold strb2
    exact noUnavailable_map _ _ (noUnavailable_str s _ _ _ _ _ _ hfree)
  | STRH1 =>
    simp only [executeInst, DecodedInst.getOperation, hop]
    unfold strh1
    exact noUnavailable_map _ _ (noUnavailable_str s _ _ _ _ _ _ hfree)
  | STRH2 =>
    simp only [executeInst, DecodedInst.getOperation, hop]
    unfold strh2
    exact noUnavailable_map _ _ (noUnavailable_str s _ _ _ _ _ _ hfree)
  | SUB1 =>
    simp only [executeInst, DecodedInst.getOperation, hop]
    exact noUnavailable_ok _
  | SUB2 =>
    simp only [executeInst, DecodedInst.getOperation, hop]
    exact noUnavailable_ok _
  | SUB3 =>
    simp only [executeInst, DecodedInst.getOperation, hop]
    exact noUnavailable_ok _
  | SUB4 =>
    simp only [executeInst, DecodedInst.getOperation, hop]
    exact noUnavailable_ok _
  | SVC =>
    simp only [executeInst, DecodedInst.getOperation, hop]
    exact noUnavailable_exit _
  | SXTB =>
    simp only [executeInst, DecodedInst.getOperation, hop]
    exact noUnavailable_ok _
  | SXTH =>
    simp only [executeInst, DecodedInst.getOperation, hop]
    exact noUnavailable_ok _
  | TST =>
    simp only [executeInst, DecodedInst.getOperation, hop]
    exact noUnavailable_ok _
  | UXTB =>
    simp only [executeInst, DecodedInst.getOperation, hop]
    exact noUnavailable_ok _
  | UXTH =>
    simp only [executeInst, DecodedInst.getOperation, hop]
    exact noUnavailable_ok _



theorem noUnavailable_calc (s : Processor) : NoUnavailable (calculateExecCycles s) := by
  unfold calculateExecCycles
  split
  · split
    · exact noUnavailable_ok _
    · exact noUnavailable_fatal _ (by decide)
    · exact noUnavailable_ok _
  · exact noUnavailable_ok _
  · exact noUnavailable_ok _

theorem noUnavailable_nextInst (s : Processor)
    (hfree : (s.mem.pipeline s.mem.nextReqIndex).issuer = .NONE) :
    NoUnavailable (executeNextInst s) := by
  unfold executeNextInst
  split_ifs
  · exact noUnavailable_fatal _ (by decide)
  · split
    · exact noUnavailable_ok _
    · rename_i inst dc _
      have h := executeInst_noUnavailable
        { s with decode := dc, execute := { s.execute with decodedInst := some inst } } inst hfree
      simp only []
      split
      · rename_i e he
        rw [he] at h
        exact h
      · exact noUnavailable_ok _

theorem noUnavailable_mloadReq (s : Processor)
    (hfree : (s.mem.pipeline s.mem.nextReqIndex).issuer = .NONE) :
    NoUnavailable (executeMultipleLoadMemReq s) := by
  obtain ⟨h1, h2, _⟩ := request_of_free s.mem hfree
  unfold executeMultipleLoadMemReq
  simp only []
  split
  · exact noUnavailable_fatal _ (by decide)
  · split
    · exact noUnavailable_fatal _ (by decide)
    · simp only [writeReg, h1, not_true_eq_false, if_false]
      split_ifs
      · exact noUnavailable_fatal _ (by decide)
      · exact noUnavailable_ok _
      · obtain ⟨r, hr⟩ := h2 .EXECUTE
          (add32 s.execute.mloadTmps.ptr s.execute.mloadTmps.byteOffset)
        rw [hr]
        exact noUnavailable_ok _
      · exact noUnavailable_ok _

theorem noUnavailable_mstoreReq (s : Processor)
    (hfree : (s.mem.pipeline s.mem.nextReqIndex).issuer = .NONE) :
    NoUnavailable (executeMultipleStoreMemReq s) := by
  obtain ⟨h1, _, _⟩ := request_of_free s.mem hfree
  unfold executeMultipleStoreMemReq
  simp only [h1, not_true_eq_false, if_false]
  split_ifs <;> first
    | exact noUnavailable_of_nextStore _ hfree
    | exact noUnavailable_ok _
    | exact noUnavailable_fatal _ (by decide)

theorem noUnavailable_loadMemResp (s : Processor) : NoUnavailable (executeLoadMemResp s) := by
  unfold executeLoadMemResp
  split
  · exact noUnavailable_fatal _ (by decide)
  · simp only []
    split_ifs <;> first
      | exact noUnavailable_ok _
      | exact noUnavailable_fatal _ (by decide)

theorem noUnavailable_storeMemResp (s : Processor) : NoUnavailable (executeStoreMemResp s) := by
  unfold executeStoreMemResp
  split_ifs <;> first
    | exact noUnavailable_ok _
    | exact noUnavailable_fatal _ (by decide)

/-- No execute tick, started on a memory whose slot under the cursor is free,
takes one of the fatal exits for an unavailable memory. -/
theorem run_noUnavailable (s : Processor)
    (hfree : (s.mem.pipeline s.mem.nextReqIndex).issuer = .NONE) :
    NoUnavailable (Execute.run s) := by
  intro m hm heq
  unfold Execute.run at heq
  simp only [] at heq
  split at heq
  · rename_i e he
    simp only [Except.error.injEq] at heq
    rw [heq] at he
    cases hst : s.execute.execState <;> rw [hst] at he <;> simp only [] at he
    · refine absurd he (noUnavailable_nextInst _ ?_ m hm)
      exact hfree
    · refine absurd he (noUnavailable_loadMemReq _ ?_ m hm)
      exact hfree
    · exact noUnavailable_loadMemResp _ m hm he
    · refine absurd he (noUnavailable_storeMemReq _ ?_ m hm)
      exact hfree
    · exact noUnavailable_storeMemResp _ m hm he
    · refine absurd he (noUnavailable_mloadFirst _ ?_ m hm)
      exact hfree
    · refine absurd he (noUnavailable_mloadReq _ ?_ m hm)
      exact hfree
    · refine absurd he (noUnavailable_mstoreFirst _ ?_ m hm)
      exact hfree
    · refine absurd he (noUnavailable_mstoreReq _ ?_ m hm)
      exact hfree
    · exact Except.noConfusion he
  · exact noUnavailable_calc _ m hm heq

/-- What a decode tick that returns leaves alone, and when it ends without a
record. -/
theorem decode_tick_frame (s s' : Processor) (h : Decode.run s = .ok s') :
    s'.mem = s.mem ∧ s'.fetch = s.fetch ∧ s'.execute = s.execute ∧ s'.stats = s.stats ∧
    s'.decode.flushPending = false ∧
    (s.decode.flushPending = true → s'.decode.decodedInst = none) ∧
    (s.decode.flushPending = false → s.fetch.instBufferValid = false →
      s.decode.decodedInst = none → s'.decode.decodedInst = none) := by
  unfold Decode.run at h
  split_ifs at h with hfl hstall
  · simp only [Except.ok.injEq] at h
    rw [← h]
    exact ⟨rfl, rfl, rfl, rfl, rfl, fun _ => rfl, fun hx => absurd hfl (by rw [hx]; decide)⟩
  · simp only [Except.ok.injEq] at h
    rw [← h]
    have hf : s.decode.flushPending = false := by
      cases hx : s.decode.flushPending with
      | false => rfl
      | true => exact absurd hx hfl
    refine ⟨rfl, rfl, rfl, rfl, hf, fun hx => absurd hx hfl, fun _ _ hn => ?_⟩
    rw [hn] at hstall
    exact absurd hstall.1 (by decide)
  · have hf : s.decode.flushPending = false := by
      cases hx : s.decode.flushPending with
      | false => rfl
      | true => exact absurd hx hfl
    unfold Fetch.getNextInst at h
    simp only [] at h
    split_ifs at h with hstarved hsync
    · simp only [Except.ok.injEq] at h
      rw [← h]
      exact ⟨rfl, rfl, rfl, rfl, hf, fun hx => absurd hx hfl, fun _ _ hn => hn⟩
    · have hv : s.fetch.instBufferValid = true := by
        cases hx : s.fetch.instBufferValid with
        | true => rfl
        | false => exact absurd (Or.inl (by rw [hx]; decide)) hstarved
      simp only [] at h
      split_ifs at h with hhalf
      · simp only [Except.ok.injEq] at h
        rw [← h]
        exact ⟨rfl, rfl, rfl, rfl, hf, fun hx => absurd hx hfl,
          fun _ hx => absurd hv (by rw [hx]; decide)⟩
      · split at h
        · exact Except.noConfusion h
        · simp only [Except.ok.injEq] at h
          rw [← h]
          exact ⟨rfl, rfl, rfl, rfl, hf, fun hx => absurd hx hfl,
            fun _ hx => absurd hv (by rw [hx]; decide)⟩

/-- The fetch tick: the buffer is not valid afterwards only if it was flushed
or was not valid before; a tick on a valid buffer with execute stalled and no
flush pending attempts no request; and an attempt (a fetch cycle is counted)
on a memory whose slot under the cursor is free is granted. -/
theorem fetch_tick (s : Processor) :
    ((Fetch.run s).fetch.instBufferValid = false →
      s.fetch.flushPending = true ∨ s.fetch.instBufferValid = false) ∧
    (s.fetch.flushPending = false → s.fetch.instBufferValid = true → isStalled s = true →
      (Fetch.run s).stats = s.stats ∧ (Fetch.run s).mem = s.mem) ∧
    ((Fetch.run s).stats.fetchMemCycles = s.stats.fetchMemCycles + 1 →
      (s.mem.pipeline s.mem.nextReqIndex).issuer = .NONE →
      ∃ a tok, s.mem.requestLoad .FETCH a = some (tok, (Fetch.run s).mem)) := by
  refine ⟨?_, ?_, ?_⟩
  · unfold Fetch.run
    simp only [RegFile.readData]
    cases hfl : s.fetch.flushPending <;> cases hiss : s.fetch.issuedMemAccess <;>
      cases hret : s.mem.retrieveWideLoad s.fetch.memToken <;>
      simp only [Bool.false_eq_true, if_false, if_true] <;>
      split_ifs <;> (try split) <;> simp_all
  · intro h1 h2 h3
    unfold Fetch.run
    simp only [RegFile.readData, h1, Bool.false_eq_true, if_false]
    cases hiss : s.fetch.issuedMemAccess <;>
      cases hret : s.mem.retrieveWideLoad s.fetch.memToken <;>
      simp [h2, h3]
  · intro h1 h2
    have hl : ∀ a, s.mem.requestLoad .FETCH a ≠ none := by
      intro a h
      obtain ⟨r, hr⟩ := (request_of_free s.mem h2).2.1 .FETCH a
      rw [hr] at h
      exact Option.noConfusion h
    unfold Fetch.run at h1 ⊢
    simp only [RegFile.readData] at h1 ⊢
    cases hfl : s.fetch.flushPending <;> cases hiss : s.fetch.issuedMemAccess <;>
      cases hret : s.mem.retrieveWideLoad s.fetch.memToken <;>
      simp only [hfl, hiss, hret, Bool.false_eq_true, if_false, if_true] at h1 ⊢ <;>
      split_ifs at h1 ⊢ <;> (try split at h1) <;> (try split) <;>
      first
      | exact ⟨_, _, by assumption⟩
      | simp_all [Statistics.addFetchCycle]



/-- A request that has been granted leaves the slot under the cursor taken. -/
theorem stalled_of_state (s : Processor) (h : s.execute.execState ≠ .NEXT_INST) :
    isStalled s = true := by
  unfold isStalled
  rw [if_neg (fun hx => h hx.1)]

/-- Between the execute tick and the fetch tick of a cycle that starts in an
available state: either the memory is as at the start of the cycle (its slot
under the cursor free), or execute has issued a request and fetch will not
attempt one. -/
theorem cycle_mid (s s1 s2 : Processor) (hs : s.Available)
    (hE : Execute.run { s with stats := s.stats.addCycle } = .ok s1)
    (hD : Decode.run s1 = .ok s2) :
    ((s2.mem.pipeline s2.mem.nextReqIndex).issuer = .NONE ∨
      ((Fetch.run s2).stats = s2.stats ∧ (Fetch.run s2).mem = s2.mem)) ∧
    (Fetch.run s2).execute.decodedInst = none ∧
    (Fetch.run s2).fetch.flushPending = false ∧ (Fetch.run s2).decode.flushPending = false ∧
    ((Fetch.run s2).fetch.instBufferValid = false →
      (Fetch.run s2).decode.decodedInst = none ∧
      (Fetch.run s2).execute.execState = .NEXT_INST) := by
  obtain ⟨a1, a2, a3, a4, a5⟩ := hs
  obtain ⟨t1, t2, t3, t4, t5, t6⟩ := execute_tick { s with stats := s.stats.addCycle } s1 a4 hE
  obtain ⟨d1, d2, d3, d4, d5, d6, d7⟩ := decode_tick_frame s1 s2 hD
  obtain ⟨f1, f2, f3, f4, f5, _⟩ := fetch_frame s2
  obtain ⟨g1, g2, _⟩ := fetch_tick s2
  have hvalid1 : s1.fetch.instBufferValid = s.fetch.instBufferValid := by rw [t4]
  refine ⟨?_, by rw [f3, d3]; exact t1, f5, by rw [f2]; exact d5, ?_⟩
  · rcases t5 with ⟨q1, _, _⟩ | ⟨q1, _, _, _⟩ | ⟨_, q2, q3, q4⟩
    · left
      rw [d1, q1]
      exact a1
    · left
      rw [d1, q1]
      exact a1
    · right
      have hv : s.fetch.instBufferValid = true := by
        cases hx : s.fetch.instBufferValid with
        | true => rfl
        | false =>
          obtain ⟨b1, b2⟩ := a5 hx
          exact absurd (t6 b2 (Or.inl b1)).1 q4
      refine g2 (by rw [d2, q3]; exact a2) (by rw [d2, hvalid1]; exact hv) ?_
      exact stalled_of_state s2 (by rw [d3]; exact q4)
  · intro hinv
    rw [f2, f3, d3]
    rcases g1 hinv with hfl | hnv
    · rw [d2] at hfl
      rcases t5 with ⟨_, _, q3⟩ | ⟨_, q2, _, q4⟩ | ⟨_, _, q3, _⟩
      · rw [q3] at hfl
        exact absurd (hfl.symm.trans a2) (by decide)
      · exact ⟨d6 q2, q4⟩
      · rw [q3] at hfl
        exact absurd (hfl.symm.trans a2) (by decide)
    · rw [d2, hvalid1] at hnv
      obtain ⟨b1, b2⟩ := a5 hnv
      obtain ⟨c1, _, _, c4, c5⟩ := t6 b2 (Or.inl b1)
      refine ⟨d7 ?_ ?_ ?_, c1⟩
      · rw [c4]
        exact a3
      · rw [c5]
        exact hnv
      · rw [c4]
        exact b1

/-- A cycle that returns from an available state ends in an available state. -/
theorem cycle_available (s s' : Processor) (hs : s.Available)
    (h : s.simulateCycle = .ok s') : s'.Available := by
  unfold Processor.simulateCycle at h
  split at h
  · exact Except.noConfusion h
  · rename_i s1 hE
    split at h
    · exact Except.noConfusion h
    · rename_i s2 hD
      simp only [] at h
      split at h
      · exact Except.noConfusion h
      · rename_i m hM
        simp only [Except.ok.injEq] at h
        obtain ⟨_, c2, c3, c4, c5⟩ := cycle_mid s s1 s2 hs hE hD
        obtain ⟨_, _, _, _, _, r6, _⟩ := run_ring _ _ hM
        rw [← h]
        exact ⟨r6, c3, c4, c2, c5⟩

/-- Cycles that return from an available state end in an available state. -/
theorem cycles_available (n : Nat) : ∀ (s s' : Processor), s.Available →
    s.simulateCycles n = .ok s' → s'.Available := by
  induction n with
  | zero =>
    intro s s' hs h
    simp only [Processor.simulateCycles, Except.ok.injEq] at h
    rw [← h]
    exact hs
  | succ n ih =>
    intro s s' hs h
    simp only [Processor.simulateCycles] at h
    split at h
    · exact Except.noConfusion h
    · rename_i s1 h1
      exact ih s1 s' (cycle_available s s1 hs h1) h

/-- Every state that the simulator reaches is available. -/
theorem run_available (file : Option (List Nat)) (n w t : Nat) (s : Processor)
    (h : Simulator.run file n w t = .ok s) : s.Available := by
  unfold Simulator.run at h
  split at h
  · exact Except.noConfusion h
  · rename_i s0 h0
    obtain ⟨r1, r2, r3, _, r5, _, r7, _⟩ := reset_frame _ _ _ h0
    refine cycles_available t s0 s ⟨?_, ?_, ?_, ?_, ?_⟩ h
    · rw [r5, r7]
      rfl
    · rw [r3]
      rfl
    · rw [r2]
      rfl
    · rw [r1]
      rfl
    · intro _
      rw [r2, r1]
      exact ⟨rfl, rfl⟩

/-- C30: in every state that the simulator reaches, the slot under the cursor
of the memory is free, so `isAvailable` holds and a request would be granted;
the execute tick of the next cycle takes none of the fatal exits for an
unavailable memory; and after the execute and decode ticks of that cycle,
either the slot is still free or the fetch tick attempts no request (it counts
no fetch cycle and leaves the memory alone), so that a fetch tick that counts
a fetch cycle has had its request granted. -/
theorem C30_memory_available (file : Option (List Nat)) (n w t : Nat) (s : Processor)
    (hrun : Simulator.run file n w t = .ok s) :
    s.mem.isAvailable = true ∧
    (∀ c a, ∃ r, s.mem.requestLoad c a = some r) ∧
    (∀ c a v, ∃ r, s.mem.requestStore c a v = some r) ∧
    (∀ m ∈ unavailableMessages,
      Execute.run { s with stats := s.stats.addCycle } ≠ .error (.fatal m)) ∧
    "Unexpected memory unavailable" ∈ unavailableMessages ∧
    "Memory request failed when available" ∈ unavailableMessages ∧
    ∀ s1 s2, Execute.run { s with stats := s.stats.addCycle } = .ok s1 →
      Decode.run s1 = .ok s2 →
      ((s2.mem.pipeline s2.mem.nextReqIndex).issuer = .NONE ∨
        ((Fetch.run s2).stats = s2.stats ∧ (Fetch.run s2).mem = s2.mem)) ∧
      ((Fetch.run s2).stats.fetchMemCycles = s2.stats.fetchMemCycles + 1 →
        ∃ a tok, s2.mem.requestLoad .FETCH a = some (tok, (Fetch.run s2).mem)) := by
  have hs := run_available file n w t s hrun
  obtain ⟨h1, h2, h3⟩ := request_of_free s.mem hs.1
  refine ⟨h1, h2, h3, ?_, by decide, by decide, ?_⟩
  · refine run_noUnavailable _ ?_
    exact hs.1
  · intro s1 s2 hE hD
    obtain ⟨c1, _⟩ := cycle_mid s s1 s2 hs hE hD
    refine ⟨c1, fun hcount => ?_⟩
    rcases c1 with c | c
    · exact (fetch_tick s2).2.2 hcount c
    · rw [c.1] at hcount
      omega

/-- Witness of C30 on the image `ldrUseImage`: after three cycles the memory is
available and decode holds the LDR; in the fourth cycle execute issues the load
(it ends in LOAD_MEM_RESP) and the fetch tick attempts no request. -/
theorem C30_memory_available_witness :
    ∃ s s1 s2, Simulator.run (some ldrUseImage) 64 1 3 = .ok s ∧
      s.mem.isAvailable = true ∧
      Execute.run { s with stats := s.stats.addCycle } = .ok s1 ∧
      s1.execute.execState = .LOAD_MEM_RESP ∧ Decode.run s1 = .ok s2 ∧
      ((s2.mem.pipeline s2.mem.nextReqIndex).issuer = .NONE ∨
        ((Fetch.run s2).stats = s2.stats ∧ (Fetch.run s2).mem = s2.mem)) := by
  obtain ⟨s, hs, hp⟩ := ok_of_map (Simulator.run (some ldrUseImage) 64 1 3)
    (fun s => ((Execute.run { s with stats := s.stats.addCycle }).toOption.map
      (fun s1 => (s1.execute.execState, (Decode.run s1).toOption.isSome))))
    (some (.LOAD_MEM_RESP, true)) (by decide)
  obtain ⟨h1, _, _, _, _, _, h7⟩ := C30_memory_available (some ldrUseImage) 64 1 3 s hs
  cases hE : Execute.run { s with stats := s.stats.addCycle } with
  | error e => rw [hE] at hp; exact Option.noConfusion hp
  | ok s1 =>
    rw [hE] at hp
    simp only [Except.toOption, Option.map_some', Option.some.injEq, Prod.mk.injEq] at hp
    cases hD : Decode.run s1 with
    | error e => rw [hD] at hp; exact Bool.noConfusion hp.2
    | ok s2 => exact ⟨s, s1, s2, hs, h1, hE, hp.1, hD, (h7 s1 s2 hE hD).1⟩


/-! ## The CONTROL register: C40 -/

/-- The getter of a CONTROL bit is the getter of an xPSR bit at index 1, the
setter at `index` the setter of an xPSR bit, on the value of CONTROL. -/
theorem control_as_xpsr (rf : RegFile) (index f : Nat) :
    getControlBit rf = getXpsrBit 1 (rf.regs .CONTROL) ∧
    (setControlBit index rf f).regs .CONTROL = setXpsrBit index (rf.regs .CONTROL) f ∧
    ∀ r, r ≠ .CONTROL → (setControlBit index rf f).regs r = rf.regs r := by
  refine ⟨rfl, ?_, ?_⟩
  · simp [setControlBit, RegFile.write, setXpsrBit]
  · intro r hr
    simp [setControlBit, RegFile.write, hr]

/-- C40, as the code has it: `setControlS` followed by `getControlS` returns
`f & 1`, and each setter leaves the other CONTROL bit and every other register
unchanged (the P bit is bit 0, the S bit is bit 1 of CONTROL). But
`getControlP` reads bit 1, the S bit, like `getControlS`: after `setControlP f`
it returns the S bit that CONTROL had before, not `f & 1`; on a new register
file `setControlP 1` followed by `getControlP` gives 0. -/
theorem C40_getControlP_reads_s_bit (rf : RegFile) (f : Nat) :
    getControlS (setControlS rf f) = f &&& 1 ∧
    getXpsrBit 0 ((setControlS rf f).regs .CONTROL) = getXpsrBit 0 (rf.regs .CONTROL) ∧
    (∀ r, r ≠ .CONTROL → (setControlS rf f).regs r = rf.regs r) ∧
    getXpsrBit 0 ((setControlP rf f).regs .CONTROL) = f &&& 1 ∧
    getControlS (setControlP rf f) = getControlS rf ∧
    (∀ r, r ≠ .CONTROL → (setControlP rf f).regs r = rf.regs r) ∧
    getControlP rf = getControlS rf ∧
    getControlP (setControlP rf f) = (rf.regs .CONTROL >>> 1) &&& 1 ∧
    getControlP (setControlP RegFile.new 1) = 0 ∧ (1 : Nat) &&& 1 = 1 := by
  obtain ⟨s1, s2, s3⟩ := control_as_xpsr rf CONTROL_SBIT_INDEX f
  obtain ⟨p1, p2, p3⟩ := control_as_xpsr rf CONTROL_PBIT_INDEX f
  have hs := (control_as_xpsr (setControlBit CONTROL_SBIT_INDEX rf f) 0 0).1
  have hp := (control_as_xpsr (setControlBit CONTROL_PBIT_INDEX rf f) 0 0).1
  have e1 : getControlS (setControlP rf f) = getControlS rf := by
    unfold getControlS setControlP
    rw [hp, s1, p2]
    exact getXpsrBit_setXpsrBit_other 0 1 _ _ (by decide) (by decide) (by decide)
  refine ⟨?_, ?_, s3, ?_, e1, p3, rfl, ?_, by decide, by decide⟩
  · unfold getControlS setControlS
    rw [hs, s2, Nat.and_one_is_mod]
    exact getXpsrBit_setXpsrBit_same 1 _ _ (by decide)
  · unfold setControlS
    rw [s2]
    exact getXpsrBit_setXpsrBit_other 1 0 _ _ (by decide) (by decide) (by decide)
  · unfold setControlP
    rw [p2, Nat.and_one_is_mod]
    exact getXpsrBit_setXpsrBit_same 0 _ _ (by decide)
  · have : getControlP (setControlP rf f) = getControlS (setControlP rf f) := rfl
    rw [this, e1]
    rfl


/-! ## The refresh of a stalled record: C32 -/

/-- The slot `i` after `Decode::updateDecodedInstReg` on it, by the register it
named before. -/
theorem updateReg_exact (rf : RegFile) (d : DecodedInst) (i : DecodedInstRegIndex) :
    (d.regsNumber i = .RNONE ∨ d.regsNumber i = .PC →
      (Decode.updateDecodedInstReg rf d i).regsNumber i = d.regsNumber i ∧
      (Decode.updateDecodedInstReg rf d i).regsData i = d.regsData i) ∧
    (d.regsNumber i = .MSP ∨ d.regsNumber i = .PSP →
      (Decode.updateDecodedInstReg rf d i).regsNumber i = rf.getActiveSp ∧
      (Decode.updateDecodedInstReg rf d i).regsData i = rf.regs rf.getActiveSp) ∧
    (d.regsNumber i ≠ .RNONE → d.regsNumber i ≠ .PC → d.regsNumber i ≠ .MSP →
      d.regsNumber i ≠ .PSP →
      (Decode.updateDecodedInstReg rf d i).regsNumber i = d.regsNumber i ∧
      (Decode.updateDecodedInstReg rf d i).regsData i = rf.regs (d.regsNumber i)) := by
  have hsp := getActiveSp_stack rf
  have h2 : rf.getActiveSp ≠ .RNONE ∧ rf.getActiveSp ≠ .PC := by
    rcases hsp with h | h <;> rw [h] <;> decide
  unfold Decode.updateDecodedInstReg
  simp only [DecodedInst.getRegisterNumber]
  refine ⟨?_, ?_, ?_⟩
  · intro h
    have h1 : ¬ (d.regsNumber i = .MSP ∨ d.regsNumber i = .PSP) := by
      rcases h with h | h <;> rw [h] <;> decide
    have h3 : ¬ (d.regsNumber i ≠ .RNONE ∧ d.regsNumber i ≠ .PC) := by
      rcases h with h | h <;> rw [h] <;> decide
    rw [if_neg h1, if_neg h3]
    exact ⟨rfl, rfl⟩
  · intro h
    rw [if_pos h, if_pos h2]
    simp [DecodedInst.setRegister, RegFile.readData]
  · intro a b c e
    have h1 : ¬ (d.regsNumber i = .MSP ∨ d.regsNumber i = .PSP) := by
      intro h
      rcases h with h | h
      · exact c h
      · exact e h
    rw [if_neg h1, if_pos ⟨a, b⟩]
    simp [DecodedInst.setRegister, RegFile.readData]

/-- Every slot after `Decode::updateDecodedInstRegs`, by the register it named
before. -/
theorem updateRegs_exact (rf : RegFile) (d : DecodedInst) (i : DecodedInstRegIndex) :
    (d.regsNumber i = .RNONE ∨ d.regsNumber i = .PC →
      (Decode.updateDecodedInstRegs rf d).regsNumber i = d.regsNumber i ∧
      (Decode.updateDecodedInstRegs rf d).regsData i = d.regsData i) ∧
    (d.regsNumber i = .MSP ∨ d.regsNumber i = .PSP →
      (Decode.updateDecodedInstRegs rf d).regsNumber i = rf.getActiveSp ∧
      (Decode.updateDecodedInstRegs rf d).regsData i = rf.regs rf.getActiveSp) ∧
    (d.regsNumber i ≠ .RNONE → d.regsNumber i ≠ .PC → d.regsNumber i ≠ .MSP →
      d.regsNumber i ≠ .PSP →
      (Decode.updateDecodedInstRegs rf d).regsNumber i = d.regsNumber i ∧
      (Decode.updateDecodedInstRegs rf d).regsData i = rf.regs (d.regsNumber i)) := by
  unfold Decode.updateDecodedInstRegs
  obtain ⟨d1, hd1⟩ : ∃ d1, d1 = Decode.updateDecodedInstReg rf d .RD := ⟨_, rfl⟩
  obtain ⟨d2, hd2⟩ : ∃ d2, d2 = Decode.updateDecodedInstReg rf d1 .RT := ⟨_, rfl⟩
  obtain ⟨d3, hd3⟩ : ∃ d3, d3 = Decode.updateDecodedInstReg rf d2 .RDN := ⟨_, rfl⟩
  obtain ⟨d4, hd4⟩ : ∃ d4, d4 = Decode.updateDecodedInstReg rf d3 .RM := ⟨_, rfl⟩
  obtain ⟨d5, hd5⟩ : ∃ d5, d5 = Decode.updateDecodedInstReg rf d4 .RN := ⟨_, rfl⟩
  obtain ⟨d6, hd6⟩ : ∃ d6, d6 = Decode.updateDecodedInstReg rf d5 .XPSR := ⟨_, rfl⟩
  simp only [← hd1, ← hd2, ← hd3, ← hd4, ← hd5, ← hd6]
  have a5 := (updateReg_slot rf d .RD).2.2.2.2.1
  have b5 := (updateReg_slot rf d1 .RT).2.2.2.2.1
  have c5 := (updateReg_slot rf d2 .RDN).2.2.2.2.1
  have e5 := (updateReg_slot rf d3 .RM).2.2.2.2.1
  have f5 := (updateReg_slot rf d4 .RN).2.2.2.2.1
  have g5 := (updateReg_slot rf d5 .XPSR).2.2.2.2.1
  rw [← hd1] at a5
  rw [← hd2] at b5
  rw [← hd3] at c5
  rw [← hd4] at e5
  rw [← hd5] at f5
  rw [← hd6] at g5
  cases i
  · have x := updateReg_exact rf d .RD
    rw [← hd1] at x
    rw [(g5 .RD (by decide)).1, (g5 .RD (by decide)).2, (f5 .RD (by decide)).1,
      (f5 .RD (by decide)).2, (e5 .RD (by decide)).1, (e5 .RD (by decide)).2,
      (c5 .RD (by decide)).1, (c5 .RD (by decide)).2, (b5 .RD (by decide)).1,
      (b5 .RD (by decide)).2]
    exact x
  · have x := updateReg_exact rf d1 .RT
    rw [← hd2, (a5 .RT (by decide)).1, (a5 .RT (by decide)).2] at x
    rw [(g5 .RT (by decide)).1, (g5 .RT (by decide)).2, (f5 .RT (by decide)).1,
      (f5 .RT (by decide)).2, (e5 .RT (by decide)).1, (e5 .RT (by decide)).2,
      (c5 .RT (by decide)).1, (c5 .RT (by decide)).2]
    exact x
  · have x := updateReg_exact rf d2 .RDN
    rw [← hd3, (b5 .RDN (by decide)).1, (b5 .RDN (by decide)).2, (a5 .RDN (by decide)).1,
      (a5 .RDN (by decide)).2] at x
    rw [(g5 .RDN (by decide)).1, (g5 .RDN (by decide)).2, (f5 .RDN (by decide)).1,
      (f5 .RDN (by decide)).2, (e5 .RDN (by decide)).1, (e5 .RDN (by decide)).2]
    exact x
  · have x := updateReg_exact rf d3 .RM
    rw [← hd4, (c5 .RM (by decide)).1, (c5 .RM (by decide)).2, (b5 .RM (by decide)).1,
      (b5 .RM (by decide)).2, (a5 .RM (by decide)).1, (a5 .RM (by decide)).2] at x
    rw [(g5 .RM (by decide)).1, (g5 .RM (by decide)).2, (f5 .RM (by decide)).1,
      (f5 .RM (by decide)).2]
    exact x
  · have x := updateReg_exact rf d4 .RN
    rw [← hd5, (e5 .RN (by decide)).1, (e5 .RN (by decide)).2, (c5 .RN (by decide)).1,
      (c5 .RN (by decide)).2, (b5 .RN (by decide)).1, (b5 .RN (by decide)).2,
      (a5 .RN (by decide)).1, (a5 .RN (by decide)).2] at x
    rw [(g5 .RN (by decide)).1, (g5 .RN (by decide)).2]
    exact x
  · have x := updateReg_exact rf d5 .XPSR
    rw [← hd6, (f5 .XPSR (by decide)).1, (f5 .XPSR (by decide)).2, (e5 .XPSR (by decide)).1,
      (e5 .XPSR (by decide)).2, (c5 .XPSR (by decide)).1, (c5 .XPSR (by decide)).2,
      (b5 .XPSR (by decide)).1, (b5 .XPSR (by decide)).2, (a5 .XPSR (by decide)).1,
      (a5 .XPSR (by decide)).2] at x
    exact x

/-- C32: a decode tick with no flush pending on a complete record `d` returns
with the register file (PC included), fetch, memory and execute untouched, and
with the record refreshed: operation, immediate, register list and condition
are kept; a slot naming RNONE or PC is kept; a slot naming MSP or PSP names the
active stack pointer and holds its current value; every other slot keeps its
register and holds the current value of it. -/
theorem C32_stall_refresh (s : Processor) (d : DecodedInst)
    (hfl : s.decode.flushPending = false) (hd : s.decode.decodedInst = some d)
    (hhalf : s.decode.decodedHalfInst = false) :
    ∃ d', Decode.run s = .ok { s with decode := { s.decode with decodedInst := some d' } } ∧
      d'.op = d.op ∧ d'.im = d.im ∧ d'.regList = d.regList ∧ d'.cond = d.cond ∧
      ∀ i,
        (d.regsNumber i = .RNONE ∨ d.regsNumber i = .PC →
          d'.regsNumber i = d.regsNumber i ∧ d'.regsData i = d.regsData i) ∧
        (d.regsNumber i = .MSP ∨ d.regsNumber i = .PSP →
          d'.regsNumber i = s.regFile.getActiveSp ∧
          d'.regsData i = s.regFile.regs s.regFile.getActiveSp) ∧
        (d.regsNumber i ≠ .RNONE → d.regsNumber i ≠ .PC → d.regsNumber i ≠ .MSP →
          d.regsNumber i ≠ .PSP →
          d'.regsNumber i = d.regsNumber i ∧
          d'.regsData i = s.regFile.regs (d.regsNumber i)) := by
  obtain ⟨u1, u2, u3, u4, _⟩ := updateRegs_slots s.regFile d
  refine ⟨Decode.updateDecodedInstRegs s.regFile d, ?_, u1, u2, u3, u4,
    fun i => updateRegs_exact s.regFile d i⟩
  simp [Decode.run, hfl, hd, hhalf]

/-- Witness of C32 on the image `ldrUseImage`: after four cycles the LDR waits
for its word and decode holds `ADDS R1, R0, #1`; the decode tick keeps PC and
leaves the RN slot naming R0. -/
theorem C32_stall_refresh_witness :
    ∃ s d d', Simulator.run (some ldrUseImage) 64 1 4 = .ok s ∧
      s.decode.decodedInst = some d ∧ d.regsNumber .RN = .R0 ∧
      Decode.run s = .ok { s with decode := { s.decode with decodedInst := some d' } } ∧
      d'.op = d.op ∧ d'.regsNumber .RN = .R0 ∧ d'.regsData .RN = s.regFile.regs .R0 := by
  obtain ⟨s, hs, hp⟩ := ok_of_map (Simulator.run (some ldrUseImage) 64 1 4)
    (fun s => (s.decode.flushPending, s.decode.decodedHalfInst,
      s.decode.decodedInst.map (fun d => d.regsNumber .RN)))
    (false, false, some .R0) (by decide)
  simp only [Prod.mk.injEq] at hp
  obtain ⟨p1, p2, p3⟩ := hp
  obtain ⟨d, hd, hf⟩ : ∃ d, s.decode.decodedInst = some d ∧ d.regsNumber .RN = .R0 := by
    cases h : s.decode.decodedInst with
    | none => rw [h] at p3; exact Option.noConfusion p3
    | some d => rw [h] at p3; exact ⟨d, rfl, Option.some.inj p3⟩
  obtain ⟨d', h1, h2, _, _, _, h6⟩ := C32_stall_refresh s d p1 hd p2
  obtain ⟨q1, q2⟩ := (h6 .RN).2.2 (by rw [hf]; decide) (by rw [hf]; decide)
    (by rw [hf]; decide) (by rw [hf]; decide)
  rw [hf] at q1 q2
  exact ⟨s, d, d', hs, hd, hf, h1, h2, q1, q2⟩


/-! ## The fetch tick with a flush pending: C33 -/

/-- C33, amended: a fetch tick that begins with `flushPending` set invalidates
the buffer (base `0xFFFFFFFF`, halfwords zeroed), forgets the pending request
and clears `flushPending`, and then, in the same tick, attempts the request of
the block under PC and counts a fetch cycle: when the slot under the cursor of
the memory is free the request is granted and is under way after the tick. -/
theorem C33_flush_then_request (s : Processor) (hfl : s.fetch.flushPending = true) :
    (Fetch.run s).fetch.instBufferValid = false ∧
    (Fetch.run s).fetch.instBufferBaseAddr = 0xFFFFFFFF ∧
    (∀ i, i < s.mem.memAccessWidthWords * 2 → (Fetch.run s).fetch.instBuffer i = 0) ∧
    (Fetch.run s).fetch.flushPending = false ∧
    (Fetch.run s).stats = s.stats.addFetchCycle ∧
    (Fetch.run s).stats.fetchMemCycles = s.stats.fetchMemCycles + 1 ∧
    (s.mem.requestLoad .FETCH (s.regFile.regs .PC) = none →
      (Fetch.run s).mem = s.mem ∧ (Fetch.run s).fetch.issuedMemAccess = false) ∧
    (∀ tok m, s.mem.requestLoad .FETCH (s.regFile.regs .PC) = some (tok, m) →
      (Fetch.run s).mem = m ∧ (Fetch.run s).fetch.issuedMemAccess = true ∧
      (Fetch.run s).fetch.memToken = tok) ∧
    ((s.mem.pipeline s.mem.nextReqIndex).issuer = .NONE →
      (Fetch.run s).fetch.issuedMemAccess = true ∧
      (Fetch.run s).fetch.memToken = s.mem.nextToken ∧
      ((Fetch.run s).mem.pipeline s.mem.nextReqIndex).issuer = .FETCH ∧
      ((Fetch.run s).mem.pipeline s.mem.nextReqIndex).byteAddr = s.regFile.regs .PC) := by
  cases hreq : s.mem.requestLoad .FETCH (s.regFile.regs .PC) with
  | none =>
    have e : Fetch.run s = { s with
        fetch := { s.fetch with
          instBufferValid := false
          instBufferBaseAddr := 0xFFFFFFFF
          instBuffer := fun i =>
            if i < s.mem.memAccessWidthWords * 2 then 0 else s.fetch.instBuffer i
          flushPending := false
          issuedMemAccess := false }
        stats := s.stats.addFetchCycle } := by
      unfold Fetch.run
      simp only [hfl, if_true, Bool.false_eq_true, if_false, RegFile.readData,
        not_false_eq_true, true_or, hreq]
    rw [e]
    refine ⟨rfl, rfl, ?_, rfl, rfl, rfl, fun _ => ⟨rfl, rfl⟩, ?_, ?_⟩
    · intro i hi
      simp [hi]
    · intro tok m h
      exact Option.noConfusion h
    · intro hfree
      unfold Memory.requestLoad at hreq
      simp [hfree] at hreq
  | some r =>
    obtain ⟨tok, m⟩ := r
    have e : Fetch.run s = { s with
        mem := m
        fetch := { s.fetch with
          instBufferValid := false
          instBufferBaseAddr := 0xFFFFFFFF
          instBuffer := fun i =>
            if i < s.mem.memAccessWidthWords * 2 then 0 else s.fetch.instBuffer i
          flushPending := false
          memToken := tok, issuedMemAccess := true }
        stats := s.stats.addFetchCycle } := by
      unfold Fetch.run
      simp only [hfl, if_true, Bool.false_eq_true, if_false, RegFile.readData,
        not_false_eq_true, true_or, hreq]
    rw [e]
    refine ⟨rfl, rfl, ?_, rfl, rfl, rfl, ?_, ?_, ?_⟩
    · intro i hi
      simp [hi]
    · intro h
      exact Option.noConfusion h
    · intro tok' m' h
      simp only [Option.some.injEq, Prod.mk.injEq] at h
      exact ⟨h.2, rfl, h.1⟩
    · intro hfree
      unfold Memory.requestLoad at hreq
      simp only [hfree, ne_eq, not_true_eq_false, if_false, Option.some.injEq,
        Prod.mk.injEq] at hreq
      obtain ⟨h1, h2⟩ := hreq
      refine ⟨rfl, h1.symm, ?_, ?_⟩
      · show (m.pipeline s.mem.nextReqIndex).issuer = _
        rw [← h2]
        simp [Memory.setSlot]
      · show (m.pipeline s.mem.nextReqIndex).byteAddr = _
        rw [← h2]
        simp [Memory.setSlot]

/-- Witness of C33 on the image `selfLoopImage`: in the fourth cycle the branch
executes and raises the flush; the fetch tick of that cycle drops the buffer
and has its request granted. -/
theorem C33_flush_then_request_witness :
    ∃ s, Simulator.beforeFetch selfLoopImage 64 1 3 = .ok s ∧
      s.fetch.flushPending = true ∧ s.fetch.instBufferValid = true ∧
      (Fetch.run s).fetch.instBufferValid = false ∧
      (Fetch.run s).fetch.issuedMemAccess = true ∧
      (Fetch.run s).stats.fetchMemCycles = s.stats.fetchMemCycles + 1 := by
  obtain ⟨s, hs, hp⟩ := ok_of_map (Simulator.beforeFetch selfLoopImage 64 1 3)
    (fun s => (s.fetch.flushPending, s.fetch.instBufferValid,
      (s.mem.pipeline s.mem.nextReqIndex).issuer))
    (true, true, Component.NONE) (by decide)
  simp only [Prod.mk.injEq] at hp
  obtain ⟨h1, _, _, _, _, h6, _, _, h9⟩ := C33_flush_then_request s hp.1
  exact ⟨s, hs, hp.1, hp.2.1, h1, (h9 hp.2.2).1, h6⟩

/-- Counterexample to C33 as stated: on the image `selfLoopImage`, in the fetch
tick of the fourth cycle, which begins with `flushPending` set, a fetch cycle
is counted and a request is handed to the memory. -/
theorem C33_flush_tick_counterexample :
    ∃ s, Simulator.beforeFetch selfLoopImage 64 1 3 = .ok s ∧
      s.fetch.flushPending = true ∧
      ¬ ((Fetch.run s).stats.fetchMemCycles = s.stats.fetchMemCycles ∧
        (Fetch.run s).mem.nextToken = s.mem.nextToken) := by
  obtain ⟨s, hs, hp⟩ := ok_of_map (Simulator.beforeFetch selfLoopImage 64 1 3)
    (fun s => (s.fetch.flushPending, s.stats.fetchMemCycles,
      (Fetch.run s).stats.fetchMemCycles, s.mem.nextToken, (Fetch.run s).mem.nextToken))
    (true, 2, 3, 2, 3) (by decide)
  simp only [Prod.mk.injEq] at hp
  refine ⟨s, hs, hp.1, ?_⟩
  rw [hp.2.1, hp.2.2.1]
  omega


/-! ## Single loads and stores issue their request at once: C34 -/

/-- `Execute::ldr` on a memory whose slot under the cursor is free: the
temporaries are staged and the request is issued in the same call. -/
theorem ldr_ok (s : Processor) (rt : Reg) (drn offset : Nat) (ty : MemoryInstructionType)
    (hfree : (s.mem.pipeline s.mem.nextReqIndex).issuer = .NONE) :
    ∃ s1, ldr s rt drn offset ty = .ok s1 ∧
      s1.execute.execState = .LOAD_MEM_RESP ∧
      s.mem.requestLoad .EXECUTE (accessAddr drn offset) = some (s.mem.nextToken, s1.mem) ∧
      s1.execute.loadTmps.memToken = s.mem.nextToken ∧
      s1.execute.loadTmps.destReg = rt ∧ s1.execute.loadTmps.type = ty ∧
      s1.execute.curExecState = s.execute.curExecState ∧
      s1.execute.decodedInst = s.execute.decodedInst ∧
      s1.regFile = s.regFile ∧ s1.fetch = s.fetch ∧ s1.decode = s.decode := by
  have hA : s.mem.isAvailable = true := by simp [Memory.isAvailable, hfree]
  unfold ldr executeLoadMemReq
  simp only [hA, not_true_eq_false, if_false, Memory.requestLoad, hfree, ne_eq, setExecState]
  exact ⟨_, rfl, rfl, rfl, rfl, rfl, rfl, rfl, rfl, rfl, rfl, rfl⟩

/-- `Execute::str` on a memory whose slot under the cursor is free, for an
address inside the memory and an unsigned access type: the temporaries are
staged and the request is issued in the same call. -/
theorem str_ok (s : Processor) (rt rn : Reg) (drt drn offset : Nat)
    (ty : MemoryInstructionType)
    (hfree : (s.mem.pipeline s.mem.nextReqIndex).issuer = .NONE)
    (hin : GET_WORD_INDEX (accessAddr drn offset) < s.mem.memSizeWords)
    (hty : ty = .WORD ∨ ty = .UBYTE ∨ ty = .UHALFWORD) :
    ∃ s1 v, str s rt drt rn drn offset ty = .ok s1 ∧
      s1.execute.execState = .STORE_MEM_RESP ∧
      s.mem.requestStore .EXECUTE (accessAddr drn offset) v = some (s.mem.nextToken, s1.mem) ∧
      s1.execute.storeTmps.memToken = s.mem.nextToken ∧
      s1.execute.curExecState = s.execute.curExecState ∧
      s1.execute.decodedInst = s.execute.decodedInst ∧
      s1.regFile = s.regFile ∧ s1.fetch = s.fetch ∧ s1.decode = s.decode := by
  have hA : s.mem.isAvailable = true := by simp [Memory.isAvailable, hfree]
  have hL : s.mem.loadWord (accessAddr drn offset) =
      .ok (s.mem.mem (GET_WORD_INDEX (accessAddr drn offset))) := by
    unfold Memory.loadWord
    rw [if_neg (by omega)]
  unfold accessAddr at hL
  unfold str executeStoreMemReq
  simp only [hA, not_true_eq_false, if_false, hL]
  rcases hty with h | h | h <;> subst h <;>
    simp only [formatDataForMemStore, Memory.requestStore, hfree, ne_eq, not_true_eq_false,
      if_false, setExecState] <;>
    exact ⟨_, _, rfl, rfl, rfl, rfl, rfl, rfl, rfl, rfl, rfl⟩

/-- The routine of a single load, on a memory whose slot under the cursor is
free: it returns with the request issued and execute in LOAD_MEM_RESP. -/
theorem executeInst_load (s : Processor) (d : DecodedInst) (hop : d.op ∈ singleLoads)
    (hfree : (s.mem.pipeline s.mem.nextReqIndex).issuer = .NONE) :
    ∃ s1, executeInst s d = .ok s1 ∧
      s1.execute.execState = .LOAD_MEM_RESP ∧
      s.mem.requestLoad .EXECUTE (accessAddr (singleAccess d).1 (singleAccess d).2.1) =
        some (s.mem.nextToken, s1.mem) ∧
      s1.execute.loadTmps.memToken = s.mem.nextToken ∧
      s1.execute.loadTmps.destReg = d.regsNumber .RT ∧
      s1.execute.loadTmps.type = (singleAccess d).2.2 ∧
      s1.execute.curExecState = s.execute.curExecState ∧
      s1.execute.decodedInst = s.execute.decodedInst ∧
      s1.regFile = s.regFile ∧ s1.fetch = s.fetch ∧ s1.decode = s.decode := by
  simp only [singleLoads, List.mem_cons, List.mem_singleton, List.mem_nil_iff, or_false] at hop
  rcases hop with h | h | h | h | h | h | h | h | h | h
  · obtain ⟨s1, e, q⟩ := ldr_ok s (d.regsNumber .RT) (d.regsData .RN) (shl32 d.im 2) .WORD hfree
    refine ⟨addInstruction s1 .LDR, ?_, ?_⟩
    · simp only [executeInst, DecodedInst.getOperation, h, ldr1Ldr4, DecodedInst.getRegisterNumber,
        DecodedInst.getRegisterData, DecodedInst.getImmediate, e, Except.map]
    · simp only [singleAccess, h]
      exact q
  · obtain ⟨s1, e, q⟩ := ldr_ok s (d.regsNumber .RT) (d.regsData .RN) (d.regsData .RM) .WORD hfree
    refine ⟨addInstruction s1 .LDR, ?_, ?_⟩
    · simp only [executeInst, DecodedInst.getOperation, h, ldr2, DecodedInst.getRegisterNumber,
        DecodedInst.getRegisterData, DecodedInst.getImmediate, e, Except.map]
    · simp only [singleAccess, h]
      exact q
  · obtain ⟨s1, e, q⟩ := ldr_ok s (d.regsNumber .RT) (ALIGN (d.regsData .RN) BYTES_PER_WORD) (shl32 d.im 2) .WORD hfree
    refine ⟨addInstruction s1 .LDR, ?_, ?_⟩
    · simp only [executeInst, DecodedInst.getOperation, h, ldr3, DecodedInst.getRegisterNumber,
        DecodedInst.getRegisterData, DecodedInst.getImmediate, e, Except.map]
    · simp only [singleAccess, h]
      exact q
  · obtain ⟨s1, e, q⟩ := ldr_ok s (d.regsNumber .RT) (d.regsData .RN) (shl32 d.im 2) .WORD hfree
    refine ⟨addInstruction s1 .LDR, ?_, ?_⟩
    · simp only [executeInst, DecodedInst.getOperation, h, ldr1Ldr4, DecodedInst.getRegisterNumber,
        DecodedInst.getRegisterData, DecodedInst.getImmediate, e, Except.map]
    · simp only [singleAccess, h]
      exact q
  · obtain ⟨s1, e, q⟩ := ldr_ok s (d.regsNumber .RT) (d.regsData .RN) d.im .UBYTE hfree
    refine ⟨addInstruction s1 .LDRB, ?_, ?_⟩
    · simp only [executeInst, DecodedInst.getOperation, h, ldrb1, DecodedInst.getRegisterNumber,
        DecodedInst.getRegisterData, DecodedInst.getImmediate, e, Except.map]
    · simp only [singleAccess, h]
      exact q
  · obtain ⟨s1, e, q⟩ := ldr_ok s (d.regsNumber .RT) (d.regsData .RN) (d.regsData .RM) .UBYTE hfree
    refine ⟨addInstruction s1 .LDRB, ?_, ?_⟩
    · simp only [executeInst, DecodedInst.getOperation, h, ldrb2, DecodedInst.getRegisterNumber,
        DecodedInst.getRegisterData, DecodedInst.getImmediate, e, Except.map]
    · simp only [singleAccess, h]
      exact q
  · obtain ⟨s1, e, q⟩ := ldr_ok s (d.regsNumber .RT) (d.regsData .RN) (shl32 d.im 1) .UHALFWORD hfree
    refine ⟨addInstruction s1 .LDRH, ?_, ?_⟩
    · simp only [executeInst, DecodedInst.getOperation, h, ldrh1, DecodedInst.getRegisterNumber,
        DecodedInst.getRegisterData, DecodedInst.getImmediate, e, Except.map]
    · simp only [singleAccess, h]
      exact q
  · obtain ⟨s1, e, q⟩ := ldr_ok s (d.regsNumber .RT) (d.regsData .RN) (d.regsData .RM) .UHALFWORD hfree
    refine ⟨addInstruction s1 .LDRH, ?_, ?_⟩
    · simp only [executeInst, DecodedInst.getOperation, h, ldrh2, DecodedInst.getRegisterNumber,
        DecodedInst.getRegisterData, DecodedInst.getImmediate, e, Except.map]
    · simp only [singleAccess, h]
      exact q
  · obtain ⟨s1, e, q⟩ := ldr_ok s (d.regsNumber .RT) (d.regsData .RN) (d.regsData .RM) .SBYTE hfree
    refine ⟨addInstruction s1 .LDRSB, ?_, ?_⟩
    · simp only [executeInst, DecodedInst.getOperation, h, ldrsb, DecodedInst.getRegisterNumber,
        DecodedInst.getRegisterData, DecodedInst.getImmediate, e, Except.map]
    · simp only [singleAccess, h]
      exact q
  · obtain ⟨s1, e, q⟩ := ldr_ok s (d.regsNumber .RT) (d.regsData .RN) (d.regsData .RM) .SHALFWORD hfree
    refine ⟨addInstruction s1 .LDRSH, ?_, ?_⟩
    · simp only [executeInst, DecodedInst.getOperation, h, ldrsh, DecodedInst.getRegisterNumber,
        DecodedInst.getRegisterData, DecodedInst.getImmediate, e, Except.map]
    · simp only [singleAccess, h]
      exact q

/-- The routine of a single store, on a memory whose slot under the cursor is
free and for an address inside the memory: it returns with the request issued
and execute in STORE_MEM_RESP. -/
theorem executeInst_store (s : Processor) (d : DecodedInst) (hop : d.op ∈ singleStores)
    (hfree : (s.mem.pipeline s.mem.nextReqIndex).issuer = .NONE)
    (hin : GET_WORD_INDEX (accessAddr (singleAccess d).1 (singleAccess d).2.1) <
      s.mem.memSizeWords) :
    ∃ s1 v, executeInst s d = .ok s1 ∧
      s1.execute.execState = .STORE_MEM_RESP ∧
      s.mem.requestStore .EXECUTE (accessAddr (singleAccess d).1 (singleAccess d).2.1) v =
        some (s.mem.nextToken, s1.mem) ∧
      s1.execute.storeTmps.memToken = s.mem.nextToken ∧
      s1.execute.curExecState = s.execute.curExecState ∧
      s1.execute.decodedInst = s.execute.decodedInst ∧
      s1.regFile = s.regFile ∧ s1.fetch = s.fetch ∧ s1.decode = s.decode := by
  simp only [singleStores, List.mem_cons, List.mem_singleton, List.mem_nil_iff, or_false] at hop
  rcases hop with h | h | h | h | h | h | h
  · simp only [singleAccess, h] at hin ⊢
    obtain ⟨s1, v, e, q⟩ := str_ok s (d.regsNumber .RT) (d.regsNumber .RN) (d.regsData .RT)
      (d.regsData .RN) (shl32 d.im 2) .WORD hfree hin (by simp)
    refine ⟨addInstruction s1 .STR, v, ?_, q⟩
    simp only [executeInst, DecodedInst.getOperation, h, str1Str3, DecodedInst.getRegisterNumber,
      DecodedInst.getRegisterData, DecodedInst.getImmediate, e, Except.map]
  · simp only [singleAccess, h] at hin ⊢
    obtain ⟨s1, v, e, q⟩ := str_ok s (d.regsNumber .RT) (d.regsNumber .RN) (d.regsData .RT)
      (d.regsData .RN) (d.regsData .RM) .WORD hfree hin (by simp)
    refine ⟨addInstruction s1 .STR, v, ?_, q⟩
    simp only [executeInst, DecodedInst.getOperation, h, str2, DecodedInst.getRegisterNumber,
      DecodedInst.getRegisterData, DecodedInst.getImmediate, e, Except.map]
  · simp only [singleAccess, h] at hin ⊢
    obtain ⟨s1, v, e, q⟩ := str_ok s (d.regsNumber .RT) (d.regsNumber .RN) (d.regsData .RT)
      (d.regsData .RN) (shl32 d.im 2) .WORD hfree hin (by simp)
    refine ⟨addInstruction s1 .STR, v, ?_, q⟩
    simp only [executeInst, DecodedInst.getOperation, h, str1Str3, DecodedInst.getRegisterNumber,
      DecodedInst.getRegisterData, DecodedInst.getImmediate, e, Except.map]
  · simp only [singleAccess, h] at hin ⊢
    obtain ⟨s1, v, e, q⟩ := str_ok s (d.regsNumber .RT) (d.regsNumber .RN) (d.regsData .RT)
      (d.regsData .RN) d.im .UBYTE hfree hin (by simp)
    refine ⟨addInstruction s1 .STRB, v, ?_, q⟩
    simp only [executeInst, DecodedInst.getOperation, h, strb1, DecodedInst.getRegisterNumber,
      DecodedInst.getRegisterData, DecodedInst.getImmediate, e, Except.map]
  · simp only [singleAccess, h] at hin ⊢
    obtain ⟨s1, v, e, q⟩ := str_ok s (d.regsNumber .RT) (d.regsNumber .RN) (d.regsData .RT)
      (d.regsData .RN) (d.regsData .RM) .UBYTE hfree hin (by simp)
    refine ⟨addInstruction s1 .STRB, v, ?_, q⟩
    simp only [executeInst, DecodedInst.getOperation, h, strb2, DecodedInst.getRegisterNumber,
      DecodedInst.getRegisterData, DecodedInst.getImmediate, e, Except.map]
  · simp only [singleAccess, h] at hin ⊢
    obtain ⟨s1, v, e, q⟩ := str_ok s (d.regsNumber .RT) (d.regsNumber .RN) (d.regsData .RT)
      (d.regsData .RN) (shl32 d.im 1) .UHALFWORD hfree hin (by simp)
    refine ⟨addInstruction s1 .STRH, v, ?_, q⟩
    simp only [executeInst, DecodedInst.getOperation, h, strh1, DecodedInst.getRegisterNumber,
      DecodedInst.getRegisterData, DecodedInst.getImmediate, e, Except.map]
  · simp only [singleAccess, h] at hin ⊢
    obtain ⟨s1, v, e, q⟩ := str_ok s (d.regsNumber .RT) (d.regsNumber .RN) (d.regsData .RT)
      (d.regsData .RN) (d.regsData .RM) .UHALFWORD hfree hin (by simp)
    refine ⟨addInstruction s1 .STRH, v, ?_, q⟩
    simp only [executeInst, DecodedInst.getOperation, h, strh2, DecodedInst.getRegisterNumber,
      DecodedInst.getRegisterData, DecodedInst.getImmediate, e, Except.map]

/-- The statistics step after a tick that went from NEXT_INST to a state of a
memory access counts an execute cycle. -/
theorem calculateExecCycles_access (t : Processor)
    (hc : t.execute.curExecState = .NEXT_INST)
    (he : t.execute.execState = .LOAD_MEM_RESP ∨ t.execute.execState = .STORE_MEM_RESP) :
    calculateExecCycles t = .ok { t with stats := t.stats.addExecuteCycle } := by
  unfold calculateExecCycles
  rcases he with h | h <;> simp only [hc, h]

/-- The execute tick in a response state of a single access ends in
NEXT_INST and hands no request to the memory. -/
theorem execute_resp (s1 s2 : Processor)
    (hst : s1.execute.execState = .LOAD_MEM_RESP ∨ s1.execute.execState = .STORE_MEM_RESP)
    (h : Execute.run s1 = .ok s2) :
    s2.execute.execState = .NEXT_INST ∧ s2.mem = s1.mem := by
  unfold Execute.run at h
  simp only [] at h
  split at h
  · exact Except.noConfusion h
  · rename_i t ht
    obtain ⟨c1, _, _⟩ := calculateExecCycles_ok _ _ h
    simp only [Processor.pipe, Prod.mk.injEq] at c1
    rw [c1.1, c1.2.2.2]
    rcases hst with hst | hst
    · rw [hst] at ht
      simp only [executeLoadMemResp] at ht
      split at ht
      · exact Except.noConfusion ht
      · split_ifs at ht
        simp only [Except.ok.injEq] at ht
        rw [← ht]
        exact ⟨rfl, rfl⟩
    · rw [hst] at ht
      simp only [executeStoreMemResp] at ht
      split_ifs at ht
      simp only [Except.ok.injEq] at ht
      rw [← ht]
      exact ⟨rfl, rfl⟩

/-- C34, amended: the execute tick that pulls a single load from decode, on a
memory whose slot under the cursor is free, stages the temporaries and issues
the request in the same tick: it ends in LOAD_MEM_RESP with the request for
the address of the access in the slot under the cursor. Likewise a single
store (for an address inside the memory) ends its first tick in
STORE_MEM_RESP with its request issued. The following tick, in LOAD_MEM_RESP
or STORE_MEM_RESP, issues no request and ends in NEXT_INST. -/
theorem C34_single_access_same_tick (s : Processor) (d : DecodedInst)
    (hst : s.execute.execState = .NEXT_INST) (hnone : s.execute.decodedInst = none)
    (hd : s.decode.decodedInst = some d) (hhalf : s.decode.decodedHalfInst = false)
    (hfree : (s.mem.pipeline s.mem.nextReqIndex).issuer = .NONE) :
    (d.op ∈ singleLoads →
      ∃ s1, Execute.run s = .ok s1 ∧ s1.execute.execState = .LOAD_MEM_RESP ∧
        s.mem.requestLoad .EXECUTE (accessAddr (singleAccess d).1 (singleAccess d).2.1) =
          some (s.mem.nextToken, s1.mem) ∧
        s1.execute.loadTmps.memToken = s.mem.nextToken ∧
        s1.execute.loadTmps.destReg = d.regsNumber .RT ∧
        s1.execute.loadTmps.type = (singleAccess d).2.2 ∧
        s1.regFile = s.regFile ∧ s1.execute.decodedInst = none ∧
        s1.decode.decodedInst = none) ∧
    (d.op ∈ singleStores →
      GET_WORD_INDEX (accessAddr (singleAccess d).1 (singleAccess d).2.1) <
        s.mem.memSizeWords →
      ∃ s1 v, Execute.run s = .ok s1 ∧ s1.execute.execState = .STORE_MEM_RESP ∧
        s.mem.requestStore .EXECUTE (accessAddr (singleAccess d).1 (singleAccess d).2.1) v =
          some (s.mem.nextToken, s1.mem) ∧
        s1.execute.storeTmps.memToken = s.mem.nextToken ∧
        s1.regFile = s.regFile ∧ s1.execute.decodedInst = none ∧
        s1.decode.decodedInst = none) ∧
    (∀ s1 s2, s1.execute.execState = .LOAD_MEM_RESP ∨ s1.execute.execState = .STORE_MEM_RESP →
      Execute.run s1 = .ok s2 → s2.execute.execState = .NEXT_INST ∧ s2.mem = s1.mem) := by
  have hp := execute_pull s d hst hnone hd hhalf
  refine ⟨?_, ?_, fun s1 s2 h1 h2 => execute_resp s1 s2 h1 h2⟩
  · intro hop
    obtain ⟨t, e, q1, q2, q3, q4, q5, q6, q7, q8, q9, q10⟩ := executeInst_load
      { s with
        decode := { s.decode with decodedInst := none }
        execute := { s.execute with curExecState := .NEXT_INST, decodedInst := some d } }
      d hop hfree
    rw [e] at hp
    simp only [] at hp
    have hc := calculateExecCycles_access
      { t with execute := { t.execute with decodedInst := none } } q6 (Or.inl q1)
    refine ⟨_, hp.trans hc, q1, q2, q3, q4, q5, q8, rfl, ?_⟩
    show t.decode.decodedInst = none
    rw [q10]
  · intro hop hin
    obtain ⟨t, v, e, q1, q2, q3, q6, q7, q8, q9, q10⟩ := executeInst_store
      { s with
        decode := { s.decode with decodedInst := none }
        execute := { s.execute with curExecState := .NEXT_INST, decodedInst := some d } }
      d hop hfree hin
    rw [e] at hp
    simp only [] at hp
    have hc := calculateExecCycles_access
      { t with execute := { t.execute with decodedInst := none } } q6 (Or.inr q1)
    refine ⟨_, v, hp.trans hc, q1, q2, q3, q8, rfl, ?_⟩
    show t.decode.decodedInst = none
    rw [q10]

/-- Witness of C34 on the image `ldrUseImage`: after three cycles decode holds
`LDR R0, [PC, #4]`; the execute tick that pulls it ends in LOAD_MEM_RESP with
the request for byte 16 in the memory. -/
theorem C34_single_access_same_tick_witness :
    ∃ s s1, Simulator.run (some ldrUseImage) 64 1 3 = .ok s ∧
      s.execute.execState = .NEXT_INST ∧ Execute.run s = .ok s1 ∧
      s1.execute.execState = .LOAD_MEM_RESP ∧
      s.mem.requestLoad .EXECUTE 16 = some (s.mem.nextToken, s1.mem) := by
  obtain ⟨s, hs, hp⟩ := ok_of_map (Simulator.run (some ldrUseImage) 64 1 3)
    (fun s => (s.execute.execState, s.execute.decodedInst.isNone, s.decode.decodedHalfInst,
      (s.mem.pipeline s.mem.nextReqIndex).issuer))
    (.NEXT_INST, true, false, Component.NONE) (by decide)
  obtain ⟨s', hs', p5⟩ := ok_of_map (Simulator.run (some ldrUseImage) 64 1 3)
    (fun s => s.decode.decodedInst.map (fun d => (d.op, d.regsData .RN, d.im)))
    (some (.LDR3, 12, 1)) (by decide)
  obtain rfl : s = s' := Except.ok.inj (hs.symm.trans hs')
  simp only [Prod.mk.injEq] at hp
  obtain ⟨p1, p2, p3, p4⟩ := hp
  have hnone : s.execute.decodedInst = none := by
    cases h : s.execute.decodedInst with
    | none => rfl
    | some d => rw [h] at p2; exact Bool.noConfusion p2
  obtain ⟨d, hd, hf⟩ : ∃ d, s.decode.decodedInst = some d ∧
      (d.op, d.regsData .RN, d.im) = (.LDR3, 12, 1) := by
    cases h : s.decode.decodedInst with
    | none => rw [h] at p5; exact Option.noConfusion p5
    | some d => rw [h] at p5; exact ⟨d, rfl, Option.some.inj p5⟩
  simp only [Prod.mk.injEq] at hf
  obtain ⟨s1, h1, h2, h3, _⟩ :=
    (C34_single_access_same_tick s d p1 hnone hd p3 p4).1 (by rw [hf.1]; decide)
  have ha : accessAddr (singleAccess d).1 (singleAccess d).2.1 = 16 := by
    simp only [singleAccess, hf.1, hf.2.1, hf.2.2]
    decide
  rw [ha] at h3
  exact ⟨s, s1, hs, p1, h1, h2, h3⟩

/-- Counterexample to C34 as stated: on the image `ldrUseImage` the cycle in
which execute pulls the LDR (the fourth) ends with execute in LOAD_MEM_RESP,
not in LOAD_MEM_REQ, and with the request of execute already served by the
memory tick of that cycle. -/
theorem C34_load_state_counterexample :
    ∃ s s', Simulator.run (some ldrUseImage) 64 1 3 = .ok s ∧
      s.execute.execState = .NEXT_INST ∧ s.stats.instCount .LDR = 0 ∧
      Simulator.run (some ldrUseImage) 64 1 4 = .ok s' ∧ s'.stats.instCount .LDR = 1 ∧
      s'.execute.execState ≠ .LOAD_MEM_REQ ∧ s'.execute.execState = .LOAD_MEM_RESP ∧
      s'.mem.retrieveLoad s'.execute.loadTmps.memToken = some 0x12345678 := by
  obtain ⟨s, hs, hp⟩ := ok_of_map (Simulator.run (some ldrUseImage) 64 1 3)
    (fun s => (s.execute.execState, s.stats.instCount .LDR)) (.NEXT_INST, 0) (by decide)
  obtain ⟨s', hs', hp'⟩ := ok_of_map (Simulator.run (some ldrUseImage) 64 1 4)
    (fun s => (s.execute.execState, s.stats.instCount .LDR,
      s.mem.retrieveLoad s.execute.loadTmps.memToken))
    (.LOAD_MEM_RESP, 1, some 0x12345678) (by decide)
  simp only [Prod.mk.injEq] at hp hp'
  exact ⟨s, s', hs, hp.1, hp.2, hs', hp'.2.1, by rw [hp'.1]; decide, hp'.1, hp'.2.2⟩


/-! ## The retrieve methods compare tokens only: C37 -/

/-- The memory tick moves the cursor on by one slot, so that the slot it has
just looked at is the one the retrieve methods read, keeps the issuer and the
token of that slot, and keeps cleared slots at token 0. -/
theorem Memory.run_prev (m m' : Memory) (h2 : 2 ≤ m.pipelineSize)
    (hlt : m.pipelineSize < 4294967296) (hi : m.nextReqIndex < m.pipelineSize)
    (h : m.run = .ok m') :
    m'.prevRespIndex = m.nextReqIndex ∧
    (m'.pipeline m'.prevRespIndex).token = (m.pipeline m.nextReqIndex).token ∧
    (m'.pipeline m'.prevRespIndex).issuer = (m.pipeline m.nextReqIndex).issuer ∧
    (m.Cleared → m'.Cleared) := by
  have hne : add32 m.nextReqIndex 1 % m.pipelineSize ≠ m.nextReqIndex := by
    unfold add32
    rw [Nat.mod_eq_of_lt (by omega : m.nextReqIndex + 1 < 4294967296)]
    rcases Nat.lt_or_ge (m.nextReqIndex + 1) m.pipelineSize with h1 | h1
    · rw [Nat.mod_eq_of_lt h1]
      omega
    · have : m.nextReqIndex + 1 = m.pipelineSize := by omega
      rw [this, Nat.mod_self]
      omega
  have hprev : ∀ x : Memory, x.nextReqIndex = add32 m.nextReqIndex 1 % m.pipelineSize →
      x.pipelineSize = m.pipelineSize → x.prevRespIndex = m.nextReqIndex := by
    intro x hx hp
    unfold Memory.prevRespIndex
    rw [hx, hp]
    unfold add32 sub32
    rw [Nat.mod_eq_of_lt (by omega : m.nextReqIndex + 1 < 4294967296)]
    rcases Nat.lt_or_ge (m.nextReqIndex + 1) m.pipelineSize with h1 | h1
    · rw [Nat.mod_eq_of_lt h1, if_neg (by omega)]
      omega
    · have : m.nextReqIndex + 1 = m.pipelineSize := by omega
      rw [this, Nat.mod_self, if_pos rfl]
      omega
  suffices H : m'.nextReqIndex = add32 m.nextReqIndex 1 % m.pipelineSize ∧
      m'.pipelineSize = m.pipelineSize ∧
      (m'.pipeline m.nextReqIndex).token = (m.pipeline m.nextReqIndex).token ∧
      (m'.pipeline m.nextReqIndex).issuer = (m.pipeline m.nextReqIndex).issuer ∧
      (m.Cleared → m'.Cleared) by
    obtain ⟨a, b, c, d, e⟩ := H
    rw [hprev m' a b]
    exact ⟨rfl, c, d, e⟩
  unfold Memory.run at h
  simp only [] at h
  split_ifs at h with c1 c2
  · simp only [Except.ok.injEq] at h
    subst h
    refine ⟨rfl, rfl, ?_, ?_, ?_⟩
    · simp only [Memory.setSlot, if_neg (Ne.symm hne)]
    · simp only [Memory.setSlot, if_neg (Ne.symm hne)]
    · intro hc i
      simp only [Memory.setSlot]
      split_ifs
      · intro _; rfl
      · exact hc i
  · split at h
    · simp only [Except.ok.injEq] at h
      subst h
      refine ⟨rfl, rfl, ?_, ?_, ?_⟩
      · simp [Memory.setSlot, Ne.symm hne]
      · simp [Memory.setSlot, Ne.symm hne]
      · intro hc i
        simp only [Memory.setSlot]
        split_ifs with e1 e2 e2
        · exact absurd e2.symm hne
        · simp only [if_neg (Ne.symm hne)]
          exact hc _
        · intro _; rfl
        · exact hc i
    · simp only [Except.ok.injEq] at h
      subst h
      refine ⟨rfl, rfl, ?_, ?_, ?_⟩
      · simp only [Memory.setSlot, if_neg (Ne.symm hne)]
      · simp only [Memory.setSlot, if_neg (Ne.symm hne)]
      · intro hc i
        simp only [Memory.setSlot]
        split_ifs
        · intro _; rfl
        · exact hc i
    · exact Except.noConfusion h

/-- C37: each of `retrieveLoad`, `retrieveWideLoad` and `retrieveStore`
succeeds exactly when the token stored in the slot before the cursor equals
the token asked for; the issuer of the slot is not looked at. On a freshly
constructed memory that slot holds no request and the token 0, so a retrieve
of token 0 succeeds there. A slot without a request can only be matched by
token 0: in a memory whose cleared slots carry token 0 (the constructor
gives one, requests by a component and the memory tick keep it so) a
successful retrieve of a token other than 0 finds a request in the slot, and
after a memory tick the slot read is the one that tick has served. -/
theorem C37_retrieve_compares_token_only :
    (∀ (m : Memory) (token : Nat),
      ((m.retrieveLoad token).isSome = true ↔ (m.pipeline m.prevRespIndex).token = token) ∧
      ((m.retrieveWideLoad token).isSome = true ↔
        (m.pipeline m.prevRespIndex).token = token) ∧
      (m.retrieveStore token = true ↔ (m.pipeline m.prevRespIndex).token = token)) ∧
    (∀ a w p : Nat,
      ((Memory.new a w p).pipeline (Memory.new a w p).prevRespIndex).issuer = Component.NONE ∧
      (Memory.new a w p).retrieveLoad 0 = some 0 ∧
      (Memory.new a w p).retrieveWideLoad 0 = some ((List.range w).map (fun _ => 0)) ∧
      (Memory.new a w p).retrieveStore 0 = true ∧
      (Memory.new a w p).Cleared) ∧
    (∀ (m : Memory) (token : Nat), m.Cleared → token ≠ 0 →
      (m.pipeline m.prevRespIndex).token = token →
      (m.pipeline m.prevRespIndex).issuer ≠ Component.NONE) ∧
    (∀ (m : Memory) (c : Component) (a v : Nat) (r : Nat × Memory), m.Cleared →
      c ≠ Component.NONE → m.requestLoad c a = some r ∨ m.requestStore c a v = some r →
      r.2.Cleared) ∧
    (∀ m m' : Memory, 2 ≤ m.pipelineSize → m.pipelineSize < 4294967296 →
      m.nextReqIndex < m.pipelineSize → m.run = .ok m' →
      m'.prevRespIndex = m.nextReqIndex ∧
      (m'.pipeline m'.prevRespIndex).token = (m.pipeline m.nextReqIndex).token ∧
      (m'.pipeline m'.prevRespIndex).issuer = (m.pipeline m.nextReqIndex).issuer ∧
      (m.Cleared → m'.Cleared)) := by
  refine ⟨?_, ?_, ?_, ?_, fun m m' h2 hlt hi h => Memory.run_prev m m' h2 hlt hi h⟩
  · intro m token
    refine ⟨?_, ?_, ?_⟩
    · unfold Memory.retrieveLoad
      split_ifs with h <;> simp [h]
    · unfold Memory.retrieveWideLoad
      split_ifs with h <;> simp [h]
    · unfold Memory.retrieveStore
      simp
  · intro a w p
    refine ⟨rfl, ?_, ?_, ?_, ?_⟩
    · simp [Memory.retrieveLoad, Memory.new]
    · simp [Memory.retrieveWideLoad, Memory.new]
    · simp [Memory.retrieveStore, Memory.new]
    · intro i _
      rfl
  · intro m token hc ht he hn
    exact ht (he.symm.trans (hc _ hn))
  · intro m c a v r hc hne h
    rcases h with h | h
    · unfold Memory.requestLoad at h
      split_ifs at h
      simp only [Option.some.injEq] at h
      subst h
      intro i
      simp only [Memory.setSlot]
      split_ifs
      · intro hx
        exact absurd hx hne
      · exact hc i
    · unfold Memory.requestStore at h
      split_ifs at h
      simp only [Option.some.injEq] at h
      subst h
      intro i
      simp only [Memory.setSlot]
      split_ifs
      · intro hx
        exact absurd hx hne
      · exact hc i


/-! ## MOV2 is shadowed by LSL1: C38 -/

theorem all_ite (Q : DecodedInst → Prop) (c : Prop) [Decidable c]
    (a b : Except Exit (DecodedInst × Bool))
    (ha : c → Decode.ResultAll Q a) (hb : ¬ c → Decode.ResultAll Q b) :
    Decode.ResultAll Q (if c then a else b) := by
  by_cases h : c
  · rw [if_pos h]
    exact ha h
  · rw [if_neg h]
    exact hb h

theorem all_bind (Q : DecodedInst → Prop) (d : DecodedInst) (idx : DecodedInstRegIndex)
    (n v : Nat) (f : DecodedInst → Except Exit (DecodedInst × Bool))
    (h : n < 19 → Decode.ResultAll Q (f (d.setRegister idx (Reg.fromNat n) v))) :
    Decode.ResultAll Q (d.setRegisterN idx n v >>= f) := by
  unfold DecodedInst.setRegisterN uint32ToReg
  by_cases hn : n < REGFILE_SIZE
  · simp only [hn, if_true]
    exact h hn
  · simp only [hn, if_false]
    intro d' half h'
    exact Except.noConfusion h'

theorem all_bind_cond (Q : DecodedInst → Prop) (d : DecodedInst) (c : Nat)
    (f : DecodedInst → Except Exit (DecodedInst × Bool))
    (h : ∀ c', Decode.ResultAll Q (f { d with cond := c' })) :
    Decode.ResultAll Q (d.setCondition c >>= f) := by
  unfold DecodedInst.setCondition
  by_cases hn : c ≥ 16
  · simp only [hn, if_true]
    intro d' half h'
    exact Except.noConfusion h'
  · simp only [hn, if_false]
    exact h _

theorem all_pure (Q : DecodedInst → Prop) (d : DecodedInst) (half : Bool) (h : Q d) :
    Decode.ResultAll Q (pure (d, half)) := by
  intro d' half' h'
  simp only [pure, Except.pure, Except.ok.injEq, Prod.mk.injEq] at h'
  rw [← h'.1]
  exact h

theorem all_throw (Q : DecodedInst → Prop) (e : Exit) : Decode.ResultAll Q (throw e) := by
  intro d half h
  exact Except.noConfusion h

/-- A halfword whose bits 6 to 15 are clear has its bits 11 to 15 clear. -/
theorem and_ffc0_f800 (x : Nat) (h : x &&& 0xFFC0 = 0x0000) : x &&& 0xF800 = 0x0000 := by
  have e : x &&& 0xF800 = x &&& 0xFFC0 &&& 0xF800 := by
    rw [Nat.and_assoc]
    rfl
  rw [e, h]
  rfl

theorem notMov2_fromStmia (inst pc : Nat) (activeSp : Reg) (rf : RegFile) (d : DecodedInst) :
    Decode.ResultAll (fun r => r.op ≠ .MOV2) (Decode.decodeFromStmia inst pc activeSp rf d) := by
  unfold Decode.decodeFromStmia
  repeat' (with_reducible apply all_ite <;> intro _)
  all_goals repeat (first
    | (with_reducible apply all_bind; intro _)
    | (with_reducible apply all_bind_cond; intro _))
  all_goals first
    | exact all_throw _ _
    | with_reducible apply all_pure
  all_goals (simp [Decode.issuePlaceholderInst, DecodedInst.setOperation,
    DecodedInst.setImmediate, DecodedInst.setRegisterList, DecodedInst.setRegister]; done)

theorem notMov2_fromMov1 (inst pc : Nat) (activeSp : Reg) (rf : RegFile) (d : DecodedInst)
    (hne : ¬ inst &&& 0xF800 = 0x0000) :
    Decode.ResultAll (fun r => r.op ≠ .MOV2) (Decode.decodeFromMov1 inst pc activeSp rf d) := by
  unfold Decode.decodeFromMov1
  repeat' (with_reducible apply all_ite <;> intro _)
  all_goals repeat (first
    | (with_reducible apply all_bind; intro _)
    | (with_reducible apply all_bind_cond; intro _))
  all_goals first
    | exact notMov2_fromStmia inst pc activeSp rf d
    | exact all_throw _ _
    | with_reducible apply all_pure
  all_goals first
    | (simp [Decode.issuePlaceholderInst, DecodedInst.setOperation,
        DecodedInst.setImmediate, DecodedInst.setRegisterList, DecodedInst.setRegister]; done)
    | exact absurd (and_ffc0_f800 inst (by assumption)) hne

theorem notMov2_fromLdr1 (inst pc : Nat) (activeSp : Reg) (rf : RegFile) (d : DecodedInst) :
    Decode.ResultAll (fun r => r.op ≠ .MOV2) (Decode.decodeFromLdr1 inst pc activeSp rf d) := by
  unfold Decode.decodeFromLdr1
  repeat' (with_reducible apply all_ite <;> intro _)
  all_goals repeat (first
    | (with_reducible apply all_bind; intro _)
    | (with_reducible apply all_bind_cond; intro _))
  all_goals first
    | exact notMov2_fromMov1 inst pc activeSp rf d (by assumption)
    | exact all_throw _ _
    | with_reducible apply all_pure
  all_goals (simp [Decode.issuePlaceholderInst, DecodedInst.setOperation,
    DecodedInst.setImmediate, DecodedInst.setRegisterList, DecodedInst.setRegister]; done)

theorem notMov2_fromB2 (inst pc : Nat) (activeSp : Reg) (rf : RegFile) (d : DecodedInst) :
    Decode.ResultAll (fun r => r.op ≠ .MOV2) (Decode.decodeFromB2 inst pc activeSp rf d) := by
  unfold Decode.decodeFromB2
  repeat' (with_reducible apply all_ite <;> intro _)
  all_goals repeat (first
    | (with_reducible apply all_bind; intro _)
    | (with_reducible apply all_bind_cond; intro _))
  all_goals first
    | exact notMov2_fromLdr1 inst pc activeSp rf d
    | exact all_throw _ _
    | with_reducible apply all_pure
  all_goals (simp [Decode.issuePlaceholderInst, DecodedInst.setOperation,
    DecodedInst.setImmediate, DecodedInst.setRegisterList, DecodedInst.setRegister]; done)

theorem notMov2_fromAdc (inst pc : Nat) (activeSp : Reg) (rf : RegFile) (d : DecodedInst) :
    Decode.ResultAll (fun r => r.op ≠ .MOV2) (Decode.decodeFromAdc inst pc activeSp rf d) := by
  unfold Decode.decodeFromAdc
  repeat' (with_reducible apply all_ite <;> intro _)
  all_goals repeat (first
    | (with_reducible apply all_bind; intro _)
    | (with_reducible apply all_bind_cond; intro _))
  all_goals first
    | exact notMov2_fromB2 inst pc activeSp rf d
    | exact all_throw _ _
    | with_reducible apply all_pure
  all_goals (simp [Decode.issuePlaceholderInst, DecodedInst.setOperation,
    DecodedInst.setImmediate, DecodedInst.setRegisterList, DecodedInst.setRegister]; done)

/-- The N and Z updates of the xPSR commute. -/
theorem setXpsr_nz_comm (x n z : Nat) :
    setXpsrZ (setXpsrN x n) z = setXpsrN (setXpsrZ x z) n := by
  apply Nat.eq_of_testBit_eq
  intro j
  unfold setXpsrZ setXpsrN
  rw [setXpsrBit_testBit _ _ _ _ (by decide), setXpsrBit_testBit _ _ _ _ (by decide),
    setXpsrBit_testBit _ _ _ _ (by decide), setXpsrBit_testBit _ _ _ _ (by decide)]
  simp only [XPSR_ZBIT_INDEX, XPSR_NBIT_INDEX]
  by_cases h1 : j = 30
  · subst h1
    simp
  · by_cases h2 : j = 31
    · subst h2
      simp
    · simp [h1, h2]

/-- The routine `lsl1` with immediate 0 leaves the same register file as
`mov2`, and every other component of the state but the statistics. -/
theorem lsl1_zero_mov2 (s : Processor) (rd : Reg) (drm : Nat) :
    ∃ s1, lsl1 s rd drm 0 = .ok s1 ∧ s1.regFile = (mov2 s rd drm).regFile ∧
      s1.pipe = (mov2 s rd drm).pipe ∧ s1.output = (mov2 s rd drm).output ∧
      s1.stats = s.stats.addInstruction .LSL ∧
      (mov2 s rd drm).stats = s.stats.addInstruction .MOV := by
  refine ⟨addInstruction (writeReg (calculateXpsrN (calculateXpsrZ s drm) drm BITS_PER_WORD)
    rd drm) .LSL, by simp [lsl1, BITS_PER_WORD], ?_, rfl, rfl, rfl, rfl⟩
  simp only [mov2, addInstruction, writeReg, calculateXpsrN, calculateXpsrZ, BITS_PER_WORD,
    RegFile.write, RegFile.readData]
  have e : ∀ n z : Nat, setXpsrZ (setXpsrN (s.regFile.regs .XPSR) n) z =
      setXpsrN (setXpsrZ (s.regFile.regs .XPSR) z) n := fun n z => setXpsr_nz_comm _ n z
  congr 1
  funext r
  by_cases hr : r = rd
  · simp [hr]
  · by_cases hx : r = .XPSR
    · subst hx
      simp [hr]
      split_ifs <;> simp [e]
    · simp [hr, hx]

/-- The decoder on a halfword with `(h & 0xFFC0) = 0x0000`, the pattern of
MOV2: the block of LSL1, which comes first, takes it with immediate 0. -/
theorem decodeAt_LSL1_zero (inst pc : Nat) (activeSp : Reg) (rf : RegFile) (d : DecodedInst)
    (e : inst &&& 0xFFC0 = 0x0000) :
    Decode.decodeFromAdc inst pc activeSp rf d = .ok
      ((((d.setOperation .LSL1).setRegister .RD (Reg.fromNat ((inst >>> 0) &&& 0x7)) 0).setRegister
        .RM (Reg.fromNat ((inst >>> 3) &&& 0x7)) (rf.readDataN ((inst >>> 3) &&& 0x7))).setImmediate 0,
        false) := by
  rw [decodeFromAdc_skip _ _ _ _ _ (matches_none_of inst _ _ _ e (by decide)),
    decodeFromB2_skip _ _ _ _ _ (matches_none_of inst _ _ _ e (by decide))]
  have h2 := matches_none_of inst 0xFFC0 0x0000 (Decode.patternsFromLdr1.take 10) e (by decide)
  have p0 : inst &&& 0xF800 ≠ 0x6800 := h2 (0xF800, 0x6800) (by decide)
  have p1 : inst &&& 0xFE00 ≠ 0x5800 := h2 (0xFE00, 0x5800) (by decide)
  have p2 : inst &&& 0xF800 ≠ 0x4800 := h2 (0xF800, 0x4800) (by decide)
  have p3 : inst &&& 0xF800 ≠ 0x9800 := h2 (0xF800, 0x9800) (by decide)
  have p4 : inst &&& 0xF800 ≠ 0x7800 := h2 (0xF800, 0x7800) (by decide)
  have p5 : inst &&& 0xFE00 ≠ 0x5C00 := h2 (0xFE00, 0x5C00) (by decide)
  have p6 : inst &&& 0xF800 ≠ 0x8800 := h2 (0xF800, 0x8800) (by decide)
  have p7 : inst &&& 0xFE00 ≠ 0x5A00 := h2 (0xFE00, 0x5A00) (by decide)
  have p8 : inst &&& 0xFE00 ≠ 0x5600 := h2 (0xFE00, 0x5600) (by decide)
  have p9 : inst &&& 0xFE00 ≠ 0x5E00 := h2 (0xFE00, 0x5E00) (by decide)
  have e5 : (inst >>> 6) &&& 0x1F = 0 := by
    apply Nat.eq_of_testBit_eq
    intro j
    rw [Nat.testBit_and, Nat.testBit_shiftRight, Nat.zero_testBit]
    by_cases hj : j < 5
    · have hb := congrArg (fun x => Nat.testBit x (6 + j)) e
      simp only [Nat.testBit_and, Nat.zero_testBit] at hb
      have hm : Nat.testBit 0xFFC0 (6 + j) = true := by
        interval_cases j <;> decide
      rw [hm, Bool.and_true] at hb
      rw [hb, Bool.false_and]
    · have hm : Nat.testBit 0x1F j = false := by
        apply Nat.testBit_lt_two_pow
        calc 0x1F < 2 ^ 5 := by norm_num
          _ ≤ 2 ^ j := Nat.pow_le_pow_right (by norm_num) (by omega)
      rw [hm, Bool.and_false]
  unfold Decode.decodeFromLdr1
  rw [if_neg p0, if_neg p1, if_neg p2, if_neg p3, if_neg p4, if_neg p5, if_neg p6, if_neg p7,
    if_neg p8, if_neg p9, if_pos (and_ffc0_f800 inst e)]
  simp only [e5]
  rw [setRegisterN_ok _ _ _ _ (lt_of_lt_of_le (and_seven_lt _) (by norm_num))]
  simp only [bind, Except.bind]
  rw [setRegisterN_ok _ _ _ _ (lt_of_lt_of_le (and_seven_lt _) (by norm_num))]
  rfl

/-- The block of MOV2, had the halfword reached it: the same RD and RM slots
as the block of LSL1 fills. -/
theorem decodeFromMov1_mov2 (inst pc : Nat) (activeSp : Reg) (rf : RegFile) (d : DecodedInst)
    (e : inst &&& 0xFFC0 = 0x0000) :
    Decode.decodeFromMov1 inst pc activeSp rf d = .ok
      (((d.setOperation .MOV2).setRegister .RD (Reg.fromNat ((inst >>> 0) &&& 0x7)) 0).setRegister
        .RM (Reg.fromNat ((inst >>> 3) &&& 0x7)) (rf.readDataN ((inst >>> 3) &&& 0x7)), false) := by
  have p0 : inst &&& 0xF800 ≠ 0x2000 := by
    rw [and_ffc0_f800 inst e]
    decide
  unfold Decode.decodeFromMov1
  rw [if_neg p0, if_pos e]
  simp only []
  rw [setRegisterN_ok _ _ _ _ (lt_of_lt_of_le (and_seven_lt _) (by norm_num))]
  simp only [bind, Except.bind]
  rw [setRegisterN_ok _ _ _ _ (lt_of_lt_of_le (and_seven_lt _) (by norm_num))]
  rfl

/-- A decode tick puts no MOV2 record into the decode stage. -/
theorem decode_tick_notMov2 (s s' : Processor) (h : Decode.run s = .ok s')
    (hd : ∀ d, s.decode.decodedInst = some d → d.op ≠ .MOV2) :
    ∀ d, s'.decode.decodedInst = some d → d.op ≠ .MOV2 := by
  unfold Decode.run at h
  split_ifs at h with hfl hstall
  · simp only [Except.ok.injEq] at h
    rw [← h]
    intro d hx
    exact Option.noConfusion hx
  · simp only [Except.ok.injEq] at h
    rw [← h]
    intro d hx
    simp only [Option.map_eq_some'] at hx
    obtain ⟨d0, h0, rfl⟩ := hx
    rw [(updateRegs_slots s.regFile d0).1]
    exact hd d0 h0
  · unfold Fetch.getNextInst at h
    simp only [] at h
    split_ifs at h with hstarved hsync
    · simp only [Except.ok.injEq] at h
      rw [← h]
      exact hd
    · simp only [] at h
      split_ifs at h with hhalf
      · simp only [Except.ok.injEq] at h
        rw [← h]
        intro d hx
        simp only [Option.some.injEq] at hx
        rw [← hx]
        unfold Decode.decodeSecondHalf
        split_ifs
        · cases hdi : s.decode.decodedInst with
          | none => simp [DecodedInst.setImmediate, DecodedInst.new]
          | some d0 =>
            simp only [DecodedInst.setImmediate]
            exact hd d0 hdi
        · simp [Decode.issuePlaceholderInst, DecodedInst.setOperation, DecodedInst.setImmediate]
      · split at h
        · exact Except.noConfusion h
        · rename_i d1 half hr
          simp only [Except.ok.injEq] at h
          rw [← h]
          intro d hx
          simp only [Option.some.injEq] at hx
          rw [← hx]
          exact notMov2_fromAdc _ _ _ _ _ d1 half hr

/-- The flags after `lsl1` with immediate 0 into a register other than the
xPSR: N and Z from the value moved, C and V as before. -/
theorem lsl1_zero_flags (s : Processor) (rd : Reg) (drm : Nat) (hrd : rd ≠ .XPSR) :
    ∃ s1, lsl1 s rd drm 0 = .ok s1 ∧ s1.regFile.regs rd = drm ∧
      getXpsrN (s1.regFile.regs .XPSR) = (if drm >>> 31 = 0 then 0 else 1) ∧
      getXpsrZ (s1.regFile.regs .XPSR) = (if drm = 0 then 1 else 0) ∧
      getXpsrC (s1.regFile.regs .XPSR) = getXpsrC (s.regFile.regs .XPSR) ∧
      getXpsrV (s1.regFile.regs .XPSR) = getXpsrV (s.regFile.regs .XPSR) := by
  refine ⟨addInstruction (writeReg (calculateXpsrN (calculateXpsrZ s drm) drm BITS_PER_WORD)
    rd drm) .LSL, by simp [lsl1, BITS_PER_WORD], ?_, ?_, ?_, ?_, ?_⟩
  · simp [addInstruction, writeReg, RegFile.write]
  all_goals
    simp only [addInstruction, writeReg, calculateXpsrN, calculateXpsrZ, BITS_PER_WORD,
      if_neg (by decide : ¬ ((32 : Nat) > 32 ∨ (32 : Nat) < 1)),
      RegFile.write, RegFile.readData, if_neg (Ne.symm hrd), if_true, getXpsrN, getXpsrZ,
      getXpsrC, getXpsrV, setXpsrN, setXpsrZ, XPSR_NBIT_INDEX, XPSR_ZBIT_INDEX, XPSR_CBIT_INDEX,
      XPSR_VBIT_INDEX]
    split_ifs <;>
      simp [getXpsrBit_setXpsrBit_same, getXpsrBit_setXpsrBit_other]

/-- C38: no halfword decodes to MOV2. The decoder never returns a record with
operation MOV2, so a decode tick never puts one into the decode stage; every
halfword with `(h & 0xFFC0) = 0`, the pattern of MOV2, is taken by the block
of LSL1 with immediate 0 and the RD and RM slots that the block of MOV2 fills;
and executing such an LSL1 record leaves the register file and the pipeline
state of `mov2` on the same operands (Rd holds the value of Rm, N and Z are
set from it, C and V are kept), counted as LSL where `mov2` counts MOV. -/
theorem C38_mov2_shadowed_by_lsl1 :
    (∀ (inst pc : Nat) (activeSp : Reg) (rf : RegFile) (d d' : DecodedInst) (half : Bool),
      Decode.decodeFromAdc inst pc activeSp rf d = .ok (d', half) → d'.op ≠ .MOV2) ∧
    (∀ s s' : Processor, Decode.run s = .ok s' →
      (∀ d, s.decode.decodedInst = some d → d.op ≠ .MOV2) →
      ∀ d, s'.decode.decodedInst = some d → d.op ≠ .MOV2) ∧
    (∀ (inst pc : Nat) (activeSp : Reg) (rf : RegFile) (d : DecodedInst),
      inst &&& 0xFFC0 = 0x0000 →
      Decode.decodeFromAdc inst pc activeSp rf d = .ok
        ((((d.setOperation .LSL1).setRegister .RD (Reg.fromNat ((inst >>> 0) &&& 0x7))
          0).setRegister .RM (Reg.fromNat ((inst >>> 3) &&& 0x7))
          (rf.readDataN ((inst >>> 3) &&& 0x7))).setImmediate 0, false) ∧
      Decode.decodeFromMov1 inst pc activeSp rf d = .ok
        (((d.setOperation .MOV2).setRegister .RD (Reg.fromNat ((inst >>> 0) &&& 0x7))
          0).setRegister .RM (Reg.fromNat ((inst >>> 3) &&& 0x7))
          (rf.readDataN ((inst >>> 3) &&& 0x7)), false)) ∧
    (∀ (s : Processor) (d : DecodedInst), d.op = .LSL1 → d.im = 0 →
      ∃ s1, executeInst s d = .ok s1 ∧
        executeInst s (d.setOperation .MOV2) =
          .ok (mov2 s (d.regsNumber .RD) (d.regsData .RM)) ∧
        s1.regFile = (mov2 s (d.regsNumber .RD) (d.regsData .RM)).regFile ∧
        s1.pipe = (mov2 s (d.regsNumber .RD) (d.regsData .RM)).pipe ∧
        s1.output = (mov2 s (d.regsNumber .RD) (d.regsData .RM)).output ∧
        s1.stats = s.stats.addInstruction .LSL ∧
        (mov2 s (d.regsNumber .RD) (d.regsData .RM)).stats = s.stats.addInstruction .MOV ∧
        s1.regFile.regs (d.regsNumber .RD) = d.regsData .RM ∧
        (d.regsNumber .RD ≠ .XPSR →
          getXpsrN (s1.regFile.regs .XPSR) = (if d.regsData .RM >>> 31 = 0 then 0 else 1) ∧
          getXpsrZ (s1.regFile.regs .XPSR) = (if d.regsData .RM = 0 then 1 else 0) ∧
          getXpsrC (s1.regFile.regs .XPSR) = getXpsrC (s.regFile.regs .XPSR) ∧
          getXpsrV (s1.regFile.regs .XPSR) = getXpsrV (s.regFile.regs .XPSR))) := by
  refine ⟨fun inst pc sp rf d d' half h => notMov2_fromAdc inst pc sp rf d d' half h,
    fun s s' h hd => decode_tick_notMov2 s s' h hd,
    fun inst pc sp rf d e => ⟨decodeAt_LSL1_zero inst pc sp rf d e,
      decodeFromMov1_mov2 inst pc sp rf d e⟩, ?_⟩
  intro s d hop him
  obtain ⟨s1, e1, q1, q2, q3, q4, q5⟩ := lsl1_zero_mov2 s (d.regsNumber .RD) (d.regsData .RM)
  have he : executeInst s d = lsl1 s (d.regsNumber .RD) (d.regsData .RM) 0 := by
    simp only [executeInst, DecodedInst.getOperation, hop, DecodedInst.getRegisterNumber,
      DecodedInst.getRegisterData, DecodedInst.getImmediate, him]
  refine ⟨s1, he.trans e1, ?_, q1, q2, q3, q4, q5, ?_, ?_⟩
  · simp only [executeInst, DecodedInst.getOperation, DecodedInst.setOperation,
      DecodedInst.getRegisterNumber, DecodedInst.getRegisterData]
  · rw [q1]
    simp [mov2, addInstruction, writeReg, RegFile.write]
  · intro hrd
    obtain ⟨s2, e2, _, f1, f2, f3, f4⟩ :=
      lsl1_zero_flags s (d.regsNumber .RD) (d.regsData .RM) hrd
    obtain rfl : s1 = s2 := Except.ok.inj (e1.symm.trans e2)
    exact ⟨f1, f2, f3, f4⟩


/-! ## The condition codes after CMP: C35 -/

/-- The four flags after CMP on `(a, b)`, in terms of `a` and `b`. -/
theorem cmp_flags (s : Processor) (a b : Nat) (ha : a < 4294967296) (hb : b < 4294967296) :
    getXpsrZ ((cmp2Cmp3 s a b).regFile.regs .XPSR) = (if a = b then 1 else 0) ∧
    getXpsrN ((cmp2Cmp3 s a b).regFile.regs .XPSR) = sub32 a b / 2147483648 ∧
    getXpsrC ((cmp2Cmp3 s a b).regFile.regs .XPSR) = (if b ≤ a then 1 else 0) ∧
    getXpsrV ((cmp2Cmp3 s a b).regFile.regs .XPSR) =
      (if -2147483648 ≤ toSigned32 a - toSigned32 b ∧
        toSigned32 a - toSigned32 b < 2147483648 then 0 else 1) ∧
    sub32 a b = (a + 4294967296 - b) % 4294967296 := by
  have e := sub32_eq_add_not a b ha hb
  have hn := not32_lt b
  have hcmp : (cmp2Cmp3 s a b).regFile.regs .XPSR =
      (calculateXpsrFlags s ((a + not32 b + 1) % 4294967296) a (not32 b) 1 32).regFile.regs
        .XPSR := by
    simp only [cmp2Cmp3, addInstruction_regs, BITS_PER_WORD, e]
  obtain ⟨z, n, c, v⟩ := calculateXpsrFlags_addFlags s a (not32 b) 1 ha hn (by norm_num)
  rw [← hcmp] at z n c v
  have hnot : not32 b = 4294967295 - b := by
    unfold not32
    rw [Nat.mod_eq_of_lt hb]
  have hs : sub32 a b = (a + 4294967296 - b) % 4294967296 := by
    unfold sub32
    rw [Nat.mod_eq_of_lt ha, Nat.mod_eq_of_lt hb]
    congr 1
    omega
  have hsn : toSigned32 (not32 b) = -toSigned32 b - 1 := by
    rw [toSigned32_lt _ hn, toSigned32_lt _ hb, hnot]
    omega
  refine ⟨?_, ?_, ?_, ?_, hs⟩
  · rw [z, hnot]
    split_ifs <;> omega
  · rw [n, hs, hnot]
    omega
  · rw [c, hnot]
    split_ifs <;> omega
  · rw [v, hsn]
    have e2 : toSigned32 a + (-toSigned32 b - 1) + ((1 : Nat) : Int) =
        toSigned32 a - toSigned32 b := by
      push_cast
      ring
    rw [e2]

/-- The signed reading of 32-bit words, by halves of the range. -/
theorem toSigned32_cases (a : Nat) (ha : a < 4294967296) :
    (a < 2147483648 ∧ toSigned32 a = (a : Int)) ∨
    (2147483648 ≤ a ∧ toSigned32 a = (a : Int) - 4294967296) := by
  unfold toSigned32
  rw [Nat.mod_eq_of_lt ha]
  split_ifs with h
  · exact Or.inl ⟨h, rfl⟩
  · exact Or.inr ⟨by omega, rfl⟩

/-- Bit 31 of a 32-bit word is set exactly from `2^31` on. -/
theorem testBit31 (x : Nat) (hx : x < 4294967296) :
    x.testBit 31 = decide (2147483648 ≤ x) := by
  have h := Nat.toNat_testBit x 31
  cases hb : x.testBit 31
  · rw [hb] at h
    simp only [Bool.toNat_false] at h
    symm
    rw [decide_eq_false_iff_not]
    omega
  · rw [hb] at h
    simp only [Bool.toNat_true] at h
    symm
    rw [decide_eq_true_eq]
    omega

/-- The four flags after CMP as numbers, each with its reading in terms of
`a` and `b`. -/
theorem cmp_flags_cases (s : Processor) (a b : Nat) (ha : a < 4294967296)
    (hb : b < 4294967296) :
    ∃ (zf nf cf vf : Nat) (sa sb : Int),
      getXpsrZ ((cmp2Cmp3 s a b).regFile.regs .XPSR) = zf ∧
      getXpsrN ((cmp2Cmp3 s a b).regFile.regs .XPSR) = nf ∧
      getXpsrC ((cmp2Cmp3 s a b).regFile.regs .XPSR) = cf ∧
      getXpsrV ((cmp2Cmp3 s a b).regFile.regs .XPSR) = vf ∧
      toSigned32 a = sa ∧ toSigned32 b = sb ∧
      (sub32 a b).testBit 31 = decide (nf = 1) ∧
      ((a < 2147483648 ∧ sa = (a : Int)) ∨ (2147483648 ≤ a ∧ sa = (a : Int) - 4294967296)) ∧
      ((b < 2147483648 ∧ sb = (b : Int)) ∨ (2147483648 ≤ b ∧ sb = (b : Int) - 4294967296)) ∧
      ((zf = 1 ∧ a = b) ∨ (zf = 0 ∧ a ≠ b)) ∧
      ((nf = 1 ∧ 2147483648 ≤ (a + 4294967296 - b) % 4294967296) ∨
        (nf = 0 ∧ (a + 4294967296 - b) % 4294967296 < 2147483648)) ∧
      ((cf = 1 ∧ b ≤ a) ∨ (cf = 0 ∧ a < b)) ∧
      ((vf = 1 ∧ (sa - sb < -2147483648 ∨ 2147483648 ≤ sa - sb)) ∨
        (vf = 0 ∧ -2147483648 ≤ sa - sb ∧ sa - sb < 2147483648)) := by
  obtain ⟨z, n, c, v, hs⟩ := cmp_flags s a b ha hb
  refine ⟨_, _, _, _, _, _, z, n, c, v, rfl, rfl, ?_, toSigned32_cases a ha,
    toSigned32_cases b hb, ?_, ?_, ?_, ?_⟩
  · rw [testBit31 _ (by rw [hs]; omega), hs, decide_eq_decide]
    omega
  · split_ifs with h
    · exact Or.inl ⟨rfl, h⟩
    · exact Or.inr ⟨rfl, h⟩
  · rw [hs]
    omega
  · split_ifs with h
    · exact Or.inl ⟨rfl, h⟩
    · exact Or.inr ⟨rfl, by omega⟩
  · split_ifs with h
    · exact Or.inr ⟨rfl, h⟩
    · refine Or.inl ⟨rfl, ?_⟩
      omega

/-- C35: after CMP on the 32-bit words `a` and `b` (either routine),
`checkCondition` on the resulting xPSR returns, for each of the fourteen
condition codes, the truth value that the specification gives it: EQ iff
a = b, NE iff a != b, CS, CC, HI, LS by the unsigned order, GE, LT, GT, LE by
the signed order, MI and PL by bit 31 of (a - b) mod 2^32, VS and VC by
overflow of the signed subtraction. -/
theorem C35_cmp_condition_codes (s : Processor) (a b : Nat) (cond : DecodedCondition)
    (r : Bool) (ha : a < 4294967296) (hb : b < 4294967296)
    (hr : cmpConditionSpec cond a b = some r) :
    checkCondition cond ((cmp2Cmp3 s a b).regFile.regs .XPSR) = .ok r ∧
    checkCondition cond ((cmp1 s a b).regFile.regs .XPSR) = .ok r := by
  have h1 : (cmp1 s a b).regFile.regs .XPSR = (cmp2Cmp3 s a b).regFile.regs .XPSR := rfl
  rw [h1, and_self]
  obtain ⟨zf, nf, cf, vf, sa, sb, z, n, c, v, esa, esb, hbit, ra, rb, hz, hn, hc, hv⟩ :=
    cmp_flags_cases s a b ha hb
  cases cond <;>
    simp only [cmpConditionSpec, Option.some.injEq] at hr <;>
    first
    | exact Option.noConfusion hr
    | (subst hr
       simp only [checkCondition, z, n, c, v, hbit, esa, esb, Except.ok.injEq,
         decide_eq_decide, ← decide_not]
       try omega)

/-- Witness of C35 on the freshly constructed processor: after CMP of
`0xFFFFFFFF` with 1 the code LT holds (signed, -1 < 1) and so does HI
(unsigned). -/
theorem C35_cmp_condition_codes_witness :
    checkCondition .LT ((cmp2Cmp3 (Processor.new 1024 1) 0xFFFFFFFF 1).regFile.regs .XPSR) =
      .ok true ∧
    checkCondition .HI ((cmp1 (Processor.new 1024 1) 0xFFFFFFFF 1).regFile.regs .XPSR) =
      .ok true :=
  ⟨(C35_cmp_condition_codes (Processor.new 1024 1) 0xFFFFFFFF 1 .LT true (by norm_num)
      (by norm_num) (by decide)).1,
    (C35_cmp_condition_codes (Processor.new 1024 1) 0xFFFFFFFF 1 .HI true (by norm_num)
      (by norm_num) (by decide)).2⟩


/-! ## The states of execute: C36 -/

/-- The execute tick is the dispatch on the state followed by
`calculateExecCycles`. -/
theorem run_eq_dispatch (s : Processor) :
    Execute.run s =
      match dispatch { s with execute := { s.execute with curExecState := s.execute.execState } }
        with
      | .error e => .error e
      | .ok t => calculateExecCycles t := rfl

/-- Membership in the list of entered states, by cases. -/
theorem entered_of_eq (st : ExecuteState)
    (h : st = .NEXT_INST ∨ st = .LOAD_MEM_RESP ∨ st = .STORE_MEM_RESP ∨
      st = .MULTIPLE_LOAD_MEM_REQ ∨ st = .MULTIPLE_STORE_MEM_REQ ∨ st = .FLUSH_PIPELINE) :
    st ∈ enteredStates := by
  rcases h with e | e | e | e | e | e <;> rw [e] <;> decide

/-- One of the four waiting states of `Issued` is an entered state other than
FLUSH_PIPELINE. -/
theorem issued_state (s t : Processor) (h : Issued s t) :
    t.execute.curExecState = s.execute.curExecState ∧
    t.execute.execState ∈ enteredStates ∧ t.execute.execState ≠ .FLUSH_PIPELINE := by
  obtain ⟨_, _, _, _, hc, hs⟩ := h
  refine ⟨hc, ?_, ?_⟩
  · rcases hs with e | e | e | e <;> rw [e] <;> decide
  · rcases hs with e | e | e | e <;> rw [e] <;> decide

/-- The state that the routines called in NEXT_INST leave. -/
theorem nextInst_state (s t : Processor) (hst : s.execute.execState = .NEXT_INST)
    (h : executeNextInst s = .ok t) :
    t.execute.curExecState = s.execute.curExecState ∧
    t.execute.execState ∈ enteredStates ∧ t.execute.execState ≠ .FLUSH_PIPELINE := by
  unfold executeNextInst at h
  split_ifs at h with hsome
  split at h
  · simp only [Except.ok.injEq] at h
    rw [← h]
    refine ⟨rfl, ?_, ?_⟩
    · show s.execute.execState ∈ enteredStates
      rw [hst]
      decide
    · show s.execute.execState ≠ .FLUSH_PIPELINE
      rw [hst]
      decide
  · rename_i inst dc hget
    simp only [] at h
    split at h
    · exact Except.noConfusion h
    · rename_i u hu
      simp only [Except.ok.injEq] at h
      rw [← h]
      show u.execute.curExecState = s.execute.curExecState ∧
        u.execute.execState ∈ enteredStates ∧ u.execute.execState ≠ .FLUSH_PIPELINE
      rcases executeInst_frame _ _ _ hu with e | e | e
      · have he : u.execute = _ := congrArg (fun p => p.2.2.2) e
        simp only [Processor.pipe] at he
        rw [he]
        refine ⟨rfl, ?_, ?_⟩
        · show s.execute.execState ∈ enteredStates
          rw [hst]
          decide
        · show s.execute.execState ≠ .FLUSH_PIPELINE
          rw [hst]
          decide
      · have he : u.execute = _ := congrArg (fun p => p.2.2.2) e
        simp only [Processor.pipe, flushPipeline] at he
        rw [he]
        refine ⟨rfl, ?_, ?_⟩
        · show s.execute.execState ∈ enteredStates
          rw [hst]
          decide
        · show s.execute.execState ≠ .FLUSH_PIPELINE
          rw [hst]
          decide
      · have hi := issued_state _ _ e
        exact hi

/-- The state that the dispatch of an execute tick leaves: the state at the
start of the tick is kept in `curExecState`, the new state is one of the six
entered states, and it is FLUSH_PIPELINE only after MULTIPLE_LOAD_MEM_REQ. -/
theorem dispatch_state (s t : Processor) (h : dispatch s = .ok t) :
    t.execute.curExecState = s.execute.curExecState ∧
    t.execute.execState ∈ enteredStates ∧
    (t.execute.execState = .FLUSH_PIPELINE →
      s.execute.execState = .MULTIPLE_LOAD_MEM_REQ) := by
  unfold dispatch at h
  cases hst : s.execute.execState <;> rw [hst] at h <;> simp only [] at h
  · obtain ⟨a, b, c⟩ := nextInst_state s t hst h
    exact ⟨a, b, fun e => absurd e c⟩
  · obtain ⟨a, b, c⟩ := issued_state s t (issued_loadMemReq s t h)
    exact ⟨a, b, fun e => absurd e c⟩
  · unfold executeLoadMemResp at h
    split at h
    · exact Except.noConfusion h
    · simp only [] at h
      split_ifs at h
      simp only [Except.ok.injEq] at h
      rw [← h]
      exact ⟨rfl, entered_of_eq _ (Or.inl rfl), fun e => ExecuteState.noConfusion e⟩
  · obtain ⟨a, b, c⟩ := issued_state s t (issued_storeMemReq s t h)
    exact ⟨a, b, fun e => absurd e c⟩
  · unfold executeStoreMemResp at h
    split_ifs at h
    simp only [Except.ok.injEq] at h
    rw [← h]
    exact ⟨rfl, entered_of_eq _ (Or.inl rfl), fun e => ExecuteState.noConfusion e⟩
  · obtain ⟨a, b, c⟩ := issued_state s t (issued_mloadFirst s t h)
    exact ⟨a, b, fun e => absurd e c⟩
  · unfold executeMultipleLoadMemReq at h
    simp only [] at h
    split at h
    · exact Except.noConfusion h
    · split at h
      · exact Except.noConfusion h
      · split_ifs at h
        · simp only [Except.ok.injEq] at h
          rw [← h]
          exact ⟨rfl, entered_of_eq _ (Or.inr (Or.inr (Or.inr (Or.inr (Or.inr rfl))))), fun _ => rfl⟩
        · split at h
          · exact Except.noConfusion h
          · simp only [Except.ok.injEq] at h
            rw [← h]
            exact ⟨rfl, entered_of_eq _ (Or.inr (Or.inr (Or.inr (Or.inl rfl)))),
              fun e => ExecuteState.noConfusion e⟩
        · simp only [Except.ok.injEq] at h
          rw [← h]
          exact ⟨rfl, entered_of_eq _ (Or.inl rfl), fun e => ExecuteState.noConfusion e⟩
  · obtain ⟨a, b, c⟩ := issued_state s t (issued_mstoreFirst s t h)
    exact ⟨a, b, fun e => absurd e c⟩
  · unfold executeMultipleStoreMemReq at h
    split_ifs at h
    · split at h
      · exact Except.noConfusion h
      · rename_i u hu
        simp only [Except.ok.injEq] at h
        rw [← h]
        obtain ⟨_, _, _, _, q5, _⟩ := requestNextStore_ok _ _ hu
        exact ⟨q5, entered_of_eq _ (Or.inr (Or.inr (Or.inr (Or.inr (Or.inl rfl))))), fun e => ExecuteState.noConfusion e⟩
    · simp only [Except.ok.injEq] at h
      rw [← h]
      exact ⟨rfl, entered_of_eq _ (Or.inl rfl), fun e => ExecuteState.noConfusion e⟩
  · simp only [Except.ok.injEq] at h
    rw [← h]
    exact ⟨rfl, entered_of_eq _ (Or.inl rfl), fun e => ExecuteState.noConfusion e⟩

/-- After the dispatch of an execute tick `calculateExecCycles` returns: its
check of the transition NEXT_INST -> FLUSH_PIPELINE does not fire. -/
theorem calc_after_dispatch (s t : Processor)
    (h : dispatch { s with execute := { s.execute with curExecState := s.execute.execState } } =
      .ok t) :
    ∃ s1, calculateExecCycles t = .ok s1 ∧ s1.execute.execState = t.execute.execState := by
  obtain ⟨hc, _, hf⟩ := dispatch_state _ t h
  have hc' : t.execute.curExecState = s.execute.execState := hc
  have hf' : t.execute.execState = .FLUSH_PIPELINE →
      s.execute.execState = .MULTIPLE_LOAD_MEM_REQ := hf
  unfold calculateExecCycles
  cases hcur : t.execute.curExecState <;> simp only [] <;>
    first
    | exact ⟨_, rfl, rfl⟩
    | (cases hnew : t.execute.execState <;> simp only [] <;>
        first
        | exact ⟨_, rfl, hnew⟩
        | (have e1 := hf' hnew
           rw [hc'] at hcur
           rw [hcur] at e1
           exact ExecuteState.noConfusion e1))

/-- An execute tick that returns ends in one of the six entered states, and
in FLUSH_PIPELINE only when it started in MULTIPLE_LOAD_MEM_REQ. -/
theorem execute_state_step (s s1 : Processor) (h : Execute.run s = .ok s1) :
    s1.execute.execState ∈ enteredStates ∧
    (s1.execute.execState = .FLUSH_PIPELINE →
      s.execute.execState = .MULTIPLE_LOAD_MEM_REQ) := by
  rw [run_eq_dispatch] at h
  split at h
  · exact Except.noConfusion h
  · rename_i t ht
    obtain ⟨_, hin, hf⟩ := dispatch_state _ t ht
    obtain ⟨c1, _, _⟩ := calculateExecCycles_ok _ _ h
    have he : s1.execute = t.execute := congrArg (fun p => p.2.2.2) c1
    rw [he]
    exact ⟨hin, hf⟩

/-- A cycle that returns ends with execute in one of the six entered states,
and in FLUSH_PIPELINE only when it started in MULTIPLE_LOAD_MEM_REQ. -/
theorem cycle_state (s s' : Processor) (h : s.simulateCycle = .ok s') :
    s'.execute.execState ∈ enteredStates ∧
    (s'.execute.execState = .FLUSH_PIPELINE →
      s.execute.execState = .MULTIPLE_LOAD_MEM_REQ) := by
  unfold Processor.simulateCycle at h
  split at h
  · exact Except.noConfusion h
  · rename_i s1 hE
    split at h
    · exact Except.noConfusion h
    · rename_i s2 hD
      simp only [] at h
      split at h
      · exact Except.noConfusion h
      · rename_i m hM
        simp only [Except.ok.injEq] at h
        obtain ⟨_, _, d3, _⟩ := decode_tick_frame s1 s2 hD
        obtain ⟨_, _, f3, _⟩ := fetch_frame s2
        rw [← h]
        show (Fetch.run s2).execute.execState ∈ enteredStates ∧
          ((Fetch.run s2).execute.execState = .FLUSH_PIPELINE →
            s.execute.execState = .MULTIPLE_LOAD_MEM_REQ)
        rw [f3, d3]
        exact execute_state_step { s with stats := s.stats.addCycle } s1 hE

/-- Cycles keep execute in the entered states. -/
theorem cycles_state (n : Nat) : ∀ (s s' : Processor),
    s.execute.execState ∈ enteredStates → s.simulateCycles n = .ok s' →
    s'.execute.execState ∈ enteredStates := by
  induction n with
  | zero =>
    intro s s' hs h
    simp only [Processor.simulateCycles, Except.ok.injEq] at h
    rw [← h]
    exact hs
  | succ n ih =>
    intro s s' _ h
    simp only [Processor.simulateCycles] at h
    split at h
    · exact Except.noConfusion h
    · rename_i s1 h1
      exact ih s1 s' (cycle_state s s1 h1).1 h

/-- Every state that the simulator reaches has execute in an entered state. -/
theorem run_state (file : Option (List Nat)) (n w t : Nat) (s : Processor)
    (h : Simulator.run file n w t = .ok s) : s.execute.execState ∈ enteredStates := by
  unfold Simulator.run at h
  split at h
  · exact Except.noConfusion h
  · rename_i s0 h0
    obtain ⟨r1, _⟩ := reset_frame _ _ _ h0
    refine cycles_state t s0 s ?_ h
    rw [r1]
    exact entered_of_eq _ (Or.inl rfl)

theorem noInvalid_ok (s : Processor) : NoInvalidTransition (.ok s) := by
  intro m _ h
  exact Except.noConfusion h

theorem noInvalid_exit (c : Nat) : NoInvalidTransition (.error (.exit c)) := by
  intro m _ h
  simp at h

theorem noInvalid_fatal (m : String) (h : m ∉ invalidTransitionMessages) :
    NoInvalidTransition (.error (.fatal m)) := by
  intro m' hm' heq
  simp only [Except.error.injEq, Exit.fatal.injEq] at heq
  rw [heq] at h
  exact h hm'

theorem noInvalid_map (r : Except Exit Processor) (f : Processor → Processor)
    (h : NoInvalidTransition r) : NoInvalidTransition (r.map f) := by
  cases r with
  | ok s => exact noInvalid_ok _
  | error e => exact h

theorem noInvalid_loadMemReq (s : Processor)
    (hfree : (s.mem.pipeline s.mem.nextReqIndex).issuer = .NONE) :
    NoInvalidTransition (executeLoadMemReq s) := by
  obtain ⟨h1, h2, _⟩ := request_of_free s.mem hfree
  unfold executeLoadMemReq
  simp only [h1, not_true_eq_false, if_false]
  obtain ⟨r, hr⟩ := h2 .EXECUTE (add32 s.execute.loadTmps.ptr s.execute.loadTmps.byteOffset)
  rw [hr]
  exact noInvalid_ok _

theorem noInvalid_storeMemReq (s : Processor)
    (hfree : (s.mem.pipeline s.mem.nextReqIndex).issuer = .NONE) :
    NoInvalidTransition (executeStoreMemReq s) := by
  obtain ⟨h1, _, h3⟩ := request_of_free s.mem hfree
  unfold executeStoreMemReq
  simp only [h1, not_true_eq_false, if_false]
  split
  · rename_i e he
    unfold Memory.loadWord at he
    split_ifs at he
    simp only [Except.error.injEq] at he
    rw [← he]
    exact noInvalid_fatal _ (by decide)
  · split
    · rename_i e he
      unfold formatDataForMemStore at he
      split at he <;> first
        | exact Except.noConfusion he
        | (simp only [Except.error.injEq] at he
           rw [← he]
           exact noInvalid_fatal _ (by decide))
    · rename_i data _
      obtain ⟨r, hr⟩ := h3 .EXECUTE
        (add32 s.execute.storeTmps.ptr s.execute.storeTmps.byteOffset) data
      rw [hr]
      exact noInvalid_ok _

theorem noInvalid_ldr (s : Processor) (rt : Reg) (drn offset : Nat)
    (ty : MemoryInstructionType) (hfree : (s.mem.pipeline s.mem.nextReqIndex).issuer = .NONE) :
    NoInvalidTransition (ldr s rt drn offset ty) := by
  unfold ldr
  exact noInvalid_loadMemReq _ hfree

theorem noInvalid_str (s : Processor) (rt rn : Reg) (drt drn offset : Nat)
    (ty : MemoryInstructionType) (hfree : (s.mem.pipeline s.mem.nextReqIndex).issuer = .NONE) :
    NoInvalidTransition (str s rt drt rn drn offset ty) := by
  unfold str
  exact noInvalid_storeMemReq _ hfree

theorem noInvalid_mloadFirst (s : Processor)
    (hfree : (s.mem.pipeline s.mem.nextReqIndex).issuer = .NONE) :
    NoInvalidTransition (executeMultipleLoadFirstMemReq s) := by
  obtain ⟨h1, h2, _⟩ := request_of_free s.mem hfree
  unfold executeMultipleLoadFirstMemReq
  simp only [h1, not_true_eq_false, if_false, writeReg]
  obtain ⟨r, hr⟩ := h2 .EXECUTE (add32 s.execute.mloadTmps.ptr s.execute.mloadTmps.byteOffset)
  rw [hr]
  exact noInvalid_ok _

theorem noInvalid_nextStore (s : Processor)
    (hfree : (s.mem.pipeline s.mem.nextReqIndex).issuer = .NONE) :
    ∀ m ∈ invalidTransitionMessages, requestNextStore s ≠ .error (.fatal m) := by
  obtain ⟨_, _, h3⟩ := request_of_free s.mem hfree
  unfold requestNextStore
  simp only []
  split
  · intro m hm
    exact noInvalid_fatal _ (by decide) m hm
  · rename_i r rest _
    obtain ⟨x, hx⟩ := h3 .EXECUTE
      (add32 s.execute.mstoreTmps.ptr s.execute.mstoreTmps.byteOffset) (s.regFile.readData r)
    rw [hx]
    intro m _ h
    exact Except.noConfusion h

theorem noInvalid_of_nextStore (s : Processor)
    (hfree : (s.mem.pipeline s.mem.nextReqIndex).issuer = .NONE) :
    NoInvalidTransition (match requestNextStore s with
      | .error e => .error e
      | .ok s => .ok (setExecState s .MULTIPLE_STORE_MEM_REQ)) := by
  have h := noInvalid_nextStore s hfree
  split
  · rename_i e he
    rw [he] at h
    exact h
  · exact noInvalid_ok _

theorem noInvalid_mstoreFirst (s : Processor)
    (hfree : (s.mem.pipeline s.mem.nextReqIndex).issuer = .NONE) :
    NoInvalidTransition (executeMultipleStoreFirstMemReq s) := by
  obtain ⟨h1, _, _⟩ := request_of_free s.mem hfree
  unfold executeMultipleStoreFirstMemReq
  simp only [h1, not_true_eq_false, if_false]
  split_ifs
  · exact noInvalid_of_nextStore _ hfree
  · exact noInvalid_of_nextStore _ hfree
  · exact noInvalid_fatal _ (by decide)

theorem noInvalid_populate (l : List Reg) (rl : Nat) (e : Exit)
    (h : populateRegisterList l rl = .error e) : NoInvalidTransition (.error e) := by
  unfold populateRegisterList at h
  split at h
  · simp only [Except.error.injEq] at h
    subst h
    exact noInvalid_fatal _ (by decide)
  · simp only [] at h
    split at h
    · simp only [Except.error.injEq] at h
      subst h
      exact noInvalid_fatal _ (by decide)
    · exact Except.noConfusion h

theorem noInvalid_statsPrint (st : Statistics) (e : Exit)
    (h : statsPrint st = .error e) :
    NoInvalidTransition (.error e) := by
  unfold statsPrint at h
  split at h
  · simp only [Except.error.injEq] at h
    subst h
    exact noInvalid_fatal _ (by decide)
  · simp only [] at h
    split at h
    · simp only [Except.error.injEq] at h
      subst h
      exact noInvalid_fatal _ (by decide)
    · exact Except.noConfusion h

theorem noInvalid_checkCondition (c : DecodedCondition) (x : Nat) (e : Exit)
    (h : checkCondition c x = .error e) : NoInvalidTransition (.error e) := by
  unfold checkCondition at h
  simp only [] at h
  split at h <;> first
    | exact Except.noConfusion h
    | (simp only [Except.error.injEq] at h
       subst h
       exact noInvalid_fatal _ (by decide))

theorem noInvalid_popLdmia (s : Processor) (rn : Reg) (drn rl : Nat)
    (hfree : (s.mem.pipeline s.mem.nextReqIndex).issuer = .NONE) :
    NoInvalidTransition (popLdmia s rn drn rl) := by
  unfold popLdmia
  split
  · rename_i e he
    exact noInvalid_populate _ _ e he
  · exact noInvalid_map _ _ (noInvalid_mloadFirst _ hfree)

theorem noInvalid_push_stmia (s : Processor) (rn : Reg) (drn rl : Nat)
    (hfree : (s.mem.pipeline s.mem.nextReqIndex).issuer = .NONE) :
    NoInvalidTransition (push s rn drn rl) ∧ NoInvalidTransition (stmia s rn drn rl) := by
  refine ⟨?_, ?_⟩
  · unfold push
    split
    · rename_i e he
      exact noInvalid_populate _ _ e he
    · exact noInvalid_map _ _ (noInvalid_mstoreFirst _ hfree)
  · unfold stmia
    split
    · rename_i e he
      exact noInvalid_populate _ _ e he
    · exact noInvalid_map _ _ (noInvalid_mstoreFirst _ hfree)

theorem noInvalid_bx (s : Processor) (rd : Reg) (a : Nat) : NoInvalidTransition (bx s rd a) := by
  unfold bx
  split_ifs
  · exact noInvalid_fatal _ (by decide)
  · exact noInvalid_ok _

/-- No execute routine, started on a memory whose slot under the cursor is free,
takes a fatal exit with the message of the transition check. -/
theorem executeInst_noInvalid (s : Processor) (d : DecodedInst)
    (hfree : (s.mem.pipeline s.mem.nextReqIndex).issuer = .NONE) :
    NoInvalidTransition (executeInst s d) := by
  cases hop : d.op with
  | NOP =>
    simp only [executeInst, DecodedInst.getOperation, hop]
    exact noInvalid_ok _
  | ADC =>
    simp only [executeInst, DecodedInst.getOperation, hop]
    exact noInvalid_ok _
  | ADD1 =>
    simp only [executeInst, DecodedInst.getOperation, hop]
    exact noInvalid_ok _
  | ADD2 =>
    simp only [executeInst, DecodedInst.getOperation, hop]
    exact noInvalid_ok _
  | ADD3 =>
    simp only [executeInst, DecodedInst.getOperation, hop]
    exact noInvalid_ok _
  | ADD4 =>
    simp only [executeInst, DecodedInst.getOperation, hop]
    unfold add4
    simp only []
    split_ifs
    · exact noInvalid_fatal _ (by decide)
    · exact noInvalid_ok _
    · exact noInvalid_ok _
  | ADD5 =>
    simp only [executeInst, DecodedInst.getOperation, hop]
    exact noInvalid_ok _
  | ADD6 =>
    simp only [executeInst, DecodedInst.getOperation, hop]
    exact noInvalid_ok _
  | ADD7 =>
    simp only [executeInst, DecodedInst.getOperation, hop]
    exact noInvalid_ok _
  | AND =>
    simp only [executeInst, DecodedInst.getOperation, hop]
    exact noInvalid_ok _
  | ASR1 =>
    simp only [executeInst, DecodedInst.getOperation, hop]
    unfold asr1
    split
    · exact noInvalid_fatal _ (by decide)
    · exact noInvalid_ok _
  | ASR2 =>
    simp only [executeInst, DecodedInst.getOperation, hop]
    exact noInvalid_ok _
  | B1 =>
    simp only [executeInst, DecodedInst.getOperation, hop]
    unfold b1
    split
    · rename_i e he
      exact noInvalid_checkCondition _ _ e he
    · exact noInvalid_ok _
    · exact noInvalid_ok _
  | B2 =>
    simp only [executeInst, DecodedInst.getOperation, hop]
    exact noInvalid_ok _
  | BIC =>
    simp only [executeInst, DecodedInst.getOperation, hop]
    exact noInvalid_ok _
  | BKPT =>
    simp only [executeInst, DecodedInst.getOperation, hop]
    unfold bkpt
    split
    · rename_i e he
      exact noInvalid_statsPrint _ e he
    · exact noInvalid_exit _
  | BL =>
    simp only [executeInst, DecodedInst.getOperation, hop]
    exact noInvalid_ok _
  | BLX =>
    simp only [executeInst, DecodedInst.getOperation, hop]
    unfold blx
    split_ifs
    · exact noInvalid_fatal _ (by decide)
    · exact noInvalid_ok _
  | BX =>
    simp only [executeInst, DecodedInst.getOperation, hop]
    exact noInvalid_bx s _ _
  | CMN =>
    simp only [executeInst, DecodedInst.getOperation, hop]
    exact noInvalid_ok _
  | CMP1 =>
    simp only [executeInst, DecodedInst.getOperation, hop]
    exact noInvalid_ok _
  | CMP2 =>
    simp only [executeInst, DecodedInst.getOperation, hop]
    exact noInvalid_ok _
  | CMP3 =>
    simp only [executeInst, DecodedInst.getOperation, hop]
    exact noInvalid_ok _
  | CPS =>
    simp only [executeInst, DecodedInst.getOperation, hop]
    exact noInvalid_ok _
  | CPY =>
    simp only [executeInst, DecodedInst.getOperation, hop]
    unfold cpy
    split_ifs
    · exact noInvalid_bx s _ _
    · exact noInvalid_ok _
  | EOR =>
    simp only [executeInst, DecodedInst.getOperation, hop]
    exact noInvalid_ok _
  | LDMIA =>
    simp only [executeInst, DecodedInst.getOperation, hop]
    exact noInvalid_popLdmia s _ _ _ hfree
  | LDR1 =>
    simp only [executeInst, DecodedInst.getOperation, hop]
    unfold ldr1Ldr4
    exact noInvalid_map _ _ (noInvalid_ldr s _ _ _ _ hfree)
  | LDR2 =>
    simp only [executeInst, DecodedInst.getOperation, hop]
    unfold ldr2
    exact noInvalid_map _ _ (noInvalid_ldr s _ _ _ _ hfree)
  | LDR3 =>
    simp only [executeInst, DecodedInst.getOperation, hop]
    unfold ldr3
    exact noInvalid_map _ _ (noInvalid_ldr s _ _ _ _ hfree)
  | LDR4 =>
    simp only [executeInst, DecodedInst.getOperation, hop]
    unfold ldr1Ldr4
    exact noInvalid_map _ _ (noInvalid_ldr s _ _ _ _ hfree)
  | LDRB1 =>
    simp only [executeInst, DecodedInst.getOperation, hop]
    unfold ldrb1
    exact noInvalid_map _ _ (noInvalid_ldr s _ _ _ _ hfree)
  | LDRB2 =>
    simp only [executeInst, DecodedInst.getOperation, hop]
    unfold ldrb2
    exact noInvalid_map _ _ (noInvalid_ldr s _ _ _ _ hfree)
  | LDRH1 =>
    simp only [executeInst, DecodedInst.getOperation, hop]
    unfold ldrh1
    exact noInvalid_map _ _ (noInvalid_ldr s _ _ _ _ hfree)
  | LDRH2 =>
    simp only [executeInst, DecodedInst.getOperation, hop]
    unfold ldrh2
    exact noInvalid_map _ _ (noInvalid_ldr s _ _ _ _ hfree)
  | LDRSB =>
    simp only [executeInst, DecodedInst.getOperation, hop]
    unfold ldrsb
    exact noInvalid_map _ _ (noInvalid_ldr s _ _ _ _ hfree)
  | LDRSH =>
    simp only [executeInst, DecodedInst.getOperation, hop]
    unfold ldrsh
    exact noInvalid_map _ _ (noInvalid_ldr s _ _ _ _ hfree)
  | LSL1 =>
    simp only [executeInst, DecodedInst.getOperation, hop]
    unfold lsl1
    split
    · exact noInvalid_fatal _ (by decide)
    · exact noInvalid_ok _
  | LSL2 =>
    simp only [executeInst, DecodedInst.getOperation, hop]
    exact noInvalid_ok _
  | LSR1 =>
    simp only [executeInst, DecodedInst.getOperation, hop]
    unfold lsr1
    split
    · exact noInvalid_fatal _ (by decide)
    · exact noInvalid_ok _
  | LSR2 =>
    simp only [executeInst, DecodedInst.getOperation, hop]
    exact noInvalid_ok _
  | MOV1 =>
    simp only [executeInst, DecodedInst.getOperation, hop]
    exact noInvalid_ok _
  | MOV2 =>
    simp only [executeInst, DecodedInst.getOperation, hop]
    exact noInvalid_ok _
  | MUL =>
    simp only [executeInst, DecodedInst.getOperation, hop]
    exact noInvalid_ok _
  | MVN =>
    simp only [executeInst, DecodedInst.getOperation, hop]
    exact noInvalid_ok _
  | NEG =>
    simp only [executeInst, DecodedInst.getOperation, hop]
    exact noInvalid_ok _
  | ORR =>
    simp only [executeInst, DecodedInst.getOperation, hop]
    exact noInvalid_ok _
  | POP =>
    simp only [executeInst, DecodedInst.getOperation, hop]
    exact noInvalid_popLdmia s _ _ _ hfree
  | PUSH =>
    simp only [executeInst, DecodedInst.getOperation, hop]
    exact (noInvalid_push_stmia s _ _ _ hfree).1
  | REV =>
    simp only [executeInst, DecodedInst.getOperation, hop]
    exact noInvalid_ok _
  | REV16 =>
    simp only [executeInst, DecodedInst.getOperation, hop]
    exact noInvalid_ok _
  | REVSH =>
    simp only [executeInst, DecodedInst.getOperation, hop]
    exact noInvalid_ok _
  | ROR =>
    simp only [executeInst, DecodedInst.getOperation, hop]
    exact noInvalid_ok _
  | SBC =>
    simp only [executeInst, DecodedInst.getOperation, hop]
    exact noInvalid_ok _
  | STMIA =>
    simp only [executeInst, DecodedInst.getOperation, hop]
    exact (noInvalid_push_stmia s _ _ _ hfree).2
  | STR1 =>
    simp only [executeInst, DecodedInst.getOperation, hop]
    unfold str1Str3
    exact noInvalid_map _ _ (noInvalid_str s _ _ _ _ _ _ hfree)
  | STR2 =>
    simp only [executeInst, DecodedInst.getOperation, hop]
    unfold str2
    exact noInvalid_map _ _ (noInvalid_str s _ _ _ _ _ _ hfree)
  | STR3 =>
    simp only [executeInst, DecodedInst.getOperation, hop]
    unfold str1Str3
    exact noInvalid_map _ _ (noInvalid_str s _ _ _ _ _ _ hfree)
  | STRB1 =>
    simp only [executeInst, DecodedInst.getOperation, hop]
    unfold strb1
    exact noInvalid_map _ _ (noInvalid_str s _ _ _ _ _ _ hfree)
  | STRB2 =>
    simp only [executeInst, DecodedInst.getOperation, hop]
    unfold strb2
    exact noInvalid_map _ _ (noInvalid_str s _ _ _ _ _ _ hfree)
  | STRH1 =>
    simp only [executeInst, DecodedInst.getOperation, hop]
    unfold strh1
    exact noInvalid_map _ _ (noInvalid_str s _ _ _ _ _ _ hfree)
  | STRH2 =>
    simp only [executeInst, DecodedInst.getOperation, hop]
    unfold strh2
    exact noInvalid_map _ _ (noInvalid_str s _ _ _ _ _ _ hfree)
  | SUB1 =>
    simp only [executeInst, DecodedInst.getOperation, hop]
    exact noInvalid_ok _
  | SUB2 =>
    simp only [executeInst, DecodedInst.getOperation, hop]
    exact noInvalid_ok _
  | SUB3 =>
    simp only [executeInst, DecodedInst.getOperation, hop]
    exact noInvalid_ok _
  | SUB4 =>
    simp only [executeInst, DecodedInst.getOperation, hop]
    exact noInvalid_ok _
  | SVC =>
    simp only [executeInst, DecodedInst.getOperation, hop]
    exact noInvalid_exit _
  | SXTB =>
    simp only [executeInst, DecodedInst.getOperation, hop]
    exact noInvalid_ok _
  | SXTH =>
    simp only [executeInst, DecodedInst.getOperation, hop]
    exact noInvalid_ok _
  | TST =>
    simp only [executeInst, DecodedInst.getOperation, hop]
    exact noInvalid_ok _
  | UXTB =>
    simp only [executeInst, DecodedInst.getOperation, hop]
    exact noInvalid_ok _
  | UXTH =>
    simp only [executeInst, DecodedInst.getOperation, hop]
    exact noInvalid_ok _



theorem noInvalid_nextInst (s : Processor)
    (hfree : (s.mem.pipeline s.mem.nextReqIndex).issuer = .NONE) :
    NoInvalidTransition (executeNextInst s) := by
  unfold executeNextInst
  split_ifs
  · exact noInvalid_fatal _ (by decide)
  · split
    · exact noInvalid_ok _
    · rename_i inst dc _
      have h := executeInst_noInvalid
        { s with decode := dc, execute := { s.execute with decodedInst := some inst } } inst hfree
      simp only []
      split
      · rename_i e he
        rw [he] at h
        exact h
      · exact noInvalid_ok _

theorem noInvalid_mloadReq (s : Processor)
    (hfree : (s.mem.pipeline s.mem.nextReqIndex).issuer = .NONE) :
    NoInvalidTransition (executeMultipleLoadMemReq s) := by
  obtain ⟨h1, h2, _⟩ := request_of_free s.mem hfree
  unfold executeMultipleLoadMemReq
  simp only []
  split
  · exact noInvalid_fatal _ (by decide)
  · split
    · exact noInvalid_fatal _ (by decide)
    · simp only [writeReg, h1, not_true_eq_false, if_false]
      split_ifs
      · exact noInvalid_fatal _ (by decide)
      · exact noInvalid_ok _
      · obtain ⟨r, hr⟩ := h2 .EXECUTE
          (add32 s.execute.mloadTmps.ptr s.execute.mloadTmps.byteOffset)
        rw [hr]
        exact noInvalid_ok _
      · exact noInvalid_ok _

theorem noInvalid_mstoreReq (s : Processor)
    (hfree : (s.mem.pipeline s.mem.nextReqIndex).issuer = .NONE) :
    NoInvalidTransition (executeMultipleStoreMemReq s) := by
  obtain ⟨h1, _, _⟩ := request_of_free s.mem hfree
  unfold executeMultipleStoreMemReq
  simp only [h1, not_true_eq_false, if_false]
  split_ifs <;> first
    | exact noInvalid_of_nextStore _ hfree
    | exact noInvalid_ok _
    | exact noInvalid_fatal _ (by decide)

theorem noInvalid_loadMemResp (s : Processor) : NoInvalidTransition (executeLoadMemResp s) := by
  unfold executeLoadMemResp
  split
  · exact noInvalid_fatal _ (by decide)
  · simp only []
    split_ifs <;> first
      | exact noInvalid_ok _
      | exact noInvalid_fatal _ (by decide)

theorem noInvalid_storeMemResp (s : Processor) : NoInvalidTransition (executeStoreMemResp s) := by
  unfold executeStoreMemResp
  split_ifs <;> first
    | exact noInvalid_ok _
    | exact noInvalid_fatal _ (by decide)


/-- No execute tick, started on a memory whose slot under the cursor is free,
takes the fatal exit of the transition check: the routines have no exit with
its message, and after them the check does not fire. -/
theorem run_noInvalid (s : Processor)
    (hfree : (s.mem.pipeline s.mem.nextReqIndex).issuer = .NONE) :
    NoInvalidTransition (Execute.run s) := by
  intro m hm heq
  rw [run_eq_dispatch] at heq
  split at heq
  · rename_i e he
    simp only [Except.error.injEq] at heq
    rw [heq] at he
    unfold dispatch at he
    cases hst : s.execute.execState <;> rw [hst] at he <;> simp only [] at he
    · refine absurd he (noInvalid_nextInst _ ?_ m hm)
      exact hfree
    · refine absurd he (noInvalid_loadMemReq _ ?_ m hm)
      exact hfree
    · exact noInvalid_loadMemResp _ m hm he
    · refine absurd he (noInvalid_storeMemReq _ ?_ m hm)
      exact hfree
    · exact noInvalid_storeMemResp _ m hm he
    · refine absurd he (noInvalid_mloadFirst _ ?_ m hm)
      exact hfree
    · refine absurd he (noInvalid_mloadReq _ ?_ m hm)
      exact hfree
    · refine absurd he (noInvalid_mstoreFirst _ ?_ m hm)
      exact hfree
    · refine absurd he (noInvalid_mstoreReq _ ?_ m hm)
      exact hfree
    · exact Except.noConfusion he
  · rename_i t ht
    obtain ⟨s1, h1, _⟩ := calc_after_dispatch s t ht
    rw [h1] at heq
    exact Except.noConfusion heq

/-- One more round of the loop of the simulator is one more cycle. -/
theorem run_succ (file : Option (List Nat)) (n w t : Nat) (s : Processor)
    (h : Simulator.run file n w t = .ok s) :
    Simulator.run file n w (t + 1) = s.simulateCycle := by
  unfold Simulator.run at h ⊢
  cases h0 : (Processor.new n w).reset file with
  | error e => rw [h0] at h; exact Except.noConfusion h
  | ok s0 =>
    rw [h0] at h
    simp only [] at h ⊢
    rw [simulateCycles_add t 1 s0 s h, simulateCycles_one]

/-- C36: in every state that the simulator reaches, execute is in one of
NEXT_INST, LOAD_MEM_RESP, STORE_MEM_RESP, MULTIPLE_LOAD_MEM_REQ,
MULTIPLE_STORE_MEM_REQ and FLUSH_PIPELINE, never in LOAD_MEM_REQ,
STORE_MEM_REQ, MULTIPLE_LOAD_FIRST_MEM_REQ or MULTIPLE_STORE_FIRST_MEM_REQ; an
execute tick, and a whole cycle, ends in FLUSH_PIPELINE only if it started in
MULTIPLE_LOAD_MEM_REQ; after the routines of the tick `calculateExecCycles`
returns, and the execute tick does not end in the fatal exit 'Invalid state
transition NEXT_INST -> FLUSH_PIPELINE'. -/
theorem C36_execute_states (file : Option (List Nat)) (n w t : Nat) (s : Processor)
    (hrun : Simulator.run file n w t = .ok s) :
    (s.execute.execState = .NEXT_INST ∨ s.execute.execState = .LOAD_MEM_RESP ∨
      s.execute.execState = .STORE_MEM_RESP ∨ s.execute.execState = .MULTIPLE_LOAD_MEM_REQ ∨
      s.execute.execState = .MULTIPLE_STORE_MEM_REQ ∨
      s.execute.execState = .FLUSH_PIPELINE) ∧
    (s.execute.execState ≠ .LOAD_MEM_REQ ∧ s.execute.execState ≠ .STORE_MEM_REQ ∧
      s.execute.execState ≠ .MULTIPLE_LOAD_FIRST_MEM_REQ ∧
      s.execute.execState ≠ .MULTIPLE_STORE_FIRST_MEM_REQ) ∧
    (∀ s1, Execute.run { s with stats := s.stats.addCycle } = .ok s1 →
      s1.execute.execState ∈ enteredStates ∧
      (s1.execute.execState = .FLUSH_PIPELINE →
        s.execute.execState = .MULTIPLE_LOAD_MEM_REQ)) ∧
    (∀ s1, s.simulateCycle = .ok s1 → s1.execute.execState = .FLUSH_PIPELINE →
      s.execute.execState = .MULTIPLE_LOAD_MEM_REQ) ∧
    (∀ u, dispatch { s with
        stats := s.stats.addCycle
        execute := { s.execute with curExecState := s.execute.execState } } = .ok u →
      ∃ s1, calculateExecCycles u = .ok s1) ∧
    Execute.run { s with stats := s.stats.addCycle } ≠
      .error (.fatal "Invalid state transition NEXT_INST -> FLUSH_PIPELINE") := by
  have hin := run_state file n w t s hrun
  have hav := run_available file n w t s hrun
  have hcases : s.execute.execState = .NEXT_INST ∨ s.execute.execState = .LOAD_MEM_RESP ∨
      s.execute.execState = .STORE_MEM_RESP ∨ s.execute.execState = .MULTIPLE_LOAD_MEM_REQ ∨
      s.execute.execState = .MULTIPLE_STORE_MEM_REQ ∨
      s.execute.execState = .FLUSH_PIPELINE := by
    simpa [enteredStates] using hin
  refine ⟨hcases, ?_, fun s1 h1 => execute_state_step { s with stats := s.stats.addCycle } s1 h1,
    fun s1 h1 => (cycle_state s s1 h1).2, ?_, ?_⟩
  · rcases hcases with e | e | e | e | e | e <;> rw [e] <;> decide
  · intro u hu
    obtain ⟨s1, h1, _⟩ := calc_after_dispatch { s with stats := s.stats.addCycle } u hu
    exact ⟨s1, h1⟩
  · exact run_noInvalid { s with stats := s.stats.addCycle } hav.1 _
      (by simp [invalidTransitionMessages])

/-- Witness of C36 on the image `popPcImage`: after four cycles execute is in
MULTIPLE_LOAD_MEM_REQ, and the fifth cycle, in which `POP {PC}` receives its
word, ends in FLUSH_PIPELINE. -/
theorem C36_execute_states_witness :
    ∃ s s1, Simulator.run (some popPcImage) 64 1 4 = .ok s ∧
      s.simulateCycle = .ok s1 ∧ s1.execute.execState = .FLUSH_PIPELINE ∧
      s.execute.execState = .MULTIPLE_LOAD_MEM_REQ := by
  obtain ⟨s, hs, _⟩ := ok_of_map (Simulator.run (some popPcImage) 64 1 4)
    (fun s => s.execute.execState) .MULTIPLE_LOAD_MEM_REQ (by decide)
  obtain ⟨s1, h1, hp⟩ := ok_of_map (Simulator.run (some popPcImage) 64 1 5)
    (fun s => s.execute.execState) .FLUSH_PIPELINE (by decide)
  have hstep : s.simulateCycle = .ok s1 := by
    rw [← run_succ (some popPcImage) 64 1 4 s hs]
    exact h1
  exact ⟨s, s1, hs, hstep, hp,
    (C36_execute_states (some popPcImage) 64 1 4 s hs).2.2.2.1 s1 hstep hp⟩


/-! ## The sanity checks of the statistics: C39 -/

/-- Every decoded operation is executed by one of the routines. -/
theorem executeInst_routine (s : Processor) (d : DecodedInst) (s1 : Processor)
    (h : executeInst s d = .ok s1) : Routine s s1 := by
  cases hop : d.op with
  | POP =>
    simp only [executeInst, DecodedInst.getOperation, hop] at h
    exact .of_popLdmia s _ _ _ s1 h
  | LDMIA =>
    simp only [executeInst, DecodedInst.getOperation, hop] at h
    exact .of_popLdmia s _ _ _ s1 h
  | PUSH =>
    simp only [executeInst, DecodedInst.getOperation, hop] at h
    exact .of_push s _ _ _ s1 h
  | STMIA =>
    simp only [executeInst, DecodedInst.getOperation, hop] at h
    exact .of_stmia s _ _ _ s1 h
  | STR1 =>
    simp only [executeInst, DecodedInst.getOperation, hop] at h
    exact .of_str1Str3 s _ _ _ _ _ s1 h
  | STR3 =>
    simp only [executeInst, DecodedInst.getOperation, hop] at h
    exact .of_str1Str3 s _ _ _ _ _ s1 h
  | STR2 =>
    simp only [executeInst, DecodedInst.getOperation, hop] at h
    exact .of_str2 s _ _ _ _ _ s1 h
  | STRB1 =>
    simp only [executeInst, DecodedInst.getOperation, hop] at h
    exact .of_strb1 s _ _ _ _ _ s1 h
  | STRB2 =>
    simp only [executeInst, DecodedInst.getOperation, hop] at h
    exact .of_strb2 s _ _ _ _ _ s1 h
  | STRH1 =>
    simp only [executeInst, DecodedInst.getOperation, hop] at h
    exact .of_strh1 s _ _ _ _ _ s1 h
  | STRH2 =>
    simp only [executeInst, DecodedInst.getOperation, hop] at h
    exact .of_strh2 s _ _ _ _ _ s1 h
  | LDR1 =>
    simp only [executeInst, DecodedInst.getOperation, hop] at h
    exact .of_ldr1Ldr4 s _ _ _ s1 h
  | LDR4 =>
    simp only [executeInst, DecodedInst.getOperation, hop] at h
    exact .of_ldr1Ldr4 s _ _ _ s1 h
  | LDR2 =>
    simp only [executeInst, DecodedInst.getOperation, hop] at h
    exact .of_ldr2 s _ _ _ s1 h
  | LDR3 =>
    simp only [executeInst, DecodedInst.getOperation, hop] at h
    exact .of_ldr3 s _ _ _ s1 h
  | LDRB1 =>
    simp only [executeInst, DecodedInst.getOperation, hop] at h
    exact .of_ldrb1 s _ _ _ s1 h
  | LDRB2 =>
    simp only [executeInst, DecodedInst.getOperation, hop] at h
    exact .of_ldrb2 s _ _ _ s1 h
  | LDRH1 =>
    simp only [executeInst, DecodedInst.getOperation, hop] at h
    exact .of_ldrh1 s _ _ _ s1 h
  | LDRH2 =>
    simp only [executeInst, DecodedInst.getOperation, hop] at h
    exact .of_ldrh2 s _ _ _ s1 h
  | LDRSB =>
    simp only [executeInst, DecodedInst.getOperation, hop] at h
    exact .of_ldrsb s _ _ _ s1 h
  | LDRSH =>
    simp only [executeInst, DecodedInst.getOperation, hop] at h
    exact .of_ldrsh s _ _ _ s1 h
  | B1 =>
    simp only [executeInst, DecodedInst.getOperation, hop] at h
    exact .of_b1 s _ _ _ _ _ s1 h
  | B2 =>
    simp only [executeInst, DecodedInst.getOperation, hop] at h
    obtain rfl := Except.ok.inj h
    exact .of_b2 s _ _ _
  | BL =>
    simp only [executeInst, DecodedInst.getOperation, hop] at h
    obtain rfl := Except.ok.inj h
    exact .of_bl s _ _ _
  | BLX =>
    simp only [executeInst, DecodedInst.getOperation, hop] at h
    exact .of_blx s _ _ _ s1 h
  | BX =>
    simp only [executeInst, DecodedInst.getOperation, hop] at h
    exact .of_bx s _ _ s1 h
  | CPY =>
    simp only [executeInst, DecodedInst.getOperation, hop] at h
    exact .of_cpy s _ _ s1 h
  | ADC =>
    simp only [executeInst, DecodedInst.getOperation, hop] at h
    obtain rfl := Except.ok.inj h
    exact .of_adc s _ _ _ _
  | ADD1 =>
    simp only [executeInst, DecodedInst.getOperation, hop] at h
    obtain rfl := Except.ok.inj h
    exact .of_add1 s _ _ _
  | ADD2 =>
    simp only [executeInst, DecodedInst.getOperation, hop] at h
    obtain rfl := Except.ok.inj h
    exact .of_add2 s _ _ _
  | ADD3 =>
    simp only [executeInst, DecodedInst.getOperation, hop] at h
    obtain rfl := Except.ok.inj h
    exact .of_add3 s _ _ _
  | ADD4 =>
    simp only [executeInst, DecodedInst.getOperation, hop] at h
    exact .of_add4 s _ _ _ s1 h
  | ADD5 =>
    simp only [executeInst, DecodedInst.getOperation, hop] at h
    obtain rfl := Except.ok.inj h
    exact .of_add5 s _ _ _
  | ADD6 =>
    simp only [executeInst, DecodedInst.getOperation, hop] at h
    obtain rfl := Except.ok.inj h
    exact .of_add6Add7 s _ _ _
  | ADD7 =>
    simp only [executeInst, DecodedInst.getOperation, hop] at h
    obtain rfl := Except.ok.inj h
    exact .of_add6Add7 s _ _ _
  | AND =>
    simp only [executeInst, DecodedInst.getOperation, hop] at h
    obtain rfl := Except.ok.inj h
    exact .of_and0 s _ _ _
  | ASR1 =>
    simp only [executeInst, DecodedInst.getOperation, hop] at h
    exact .of_asr1 s _ _ _ s1 h
  | ASR2 =>
    simp only [executeInst, DecodedInst.getOperation, hop] at h
    obtain rfl := Except.ok.inj h
    exact .of_asr2 s _ _ _
  | BIC =>
    simp only [executeInst, DecodedInst.getOperation, hop] at h
    obtain rfl := Except.ok.inj h
    exact .of_bic s _ _ _
  | CMN =>
    simp only [executeInst, DecodedInst.getOperation, hop] at h
    obtain rfl := Except.ok.inj h
    exact .of_cmn s _ _
  | CMP1 =>
    simp only [executeInst, DecodedInst.getOperation, hop] at h
    obtain rfl := Except.ok.inj h
    exact .of_cmp1 s _ _
  | CMP2 =>
    simp only [executeInst, DecodedInst.getOperation, hop] at h
    obtain rfl := Except.ok.inj h
    exact .of_cmp2Cmp3 s _ _
  | CMP3 =>
    simp only [executeInst, DecodedInst.getOperation, hop] at h
    obtain rfl := Except.ok.inj h
    exact .of_cmp2Cmp3 s _ _
  | EOR =>
    simp only [executeInst, DecodedInst.getOperation, hop] at h
    obtain rfl := Except.ok.inj h
    exact .of_eor s _ _ _
  | LSL1 =>
    simp only [executeInst, DecodedInst.getOperation, hop] at h
    exact .of_lsl1 s _ _ _ s1 h
  | LSL2 =>
    simp only [executeInst, DecodedInst.getOperation, hop] at h
    obtain rfl := Except.ok.inj h
    exact .of_lsl2 s _ _ _
  | LSR1 =>
    simp only [executeInst, DecodedInst.getOperation, hop] at h
    exact .of_lsr1 s _ _ _ s1 h
  | LSR2 =>
    simp only [executeInst, DecodedInst.getOperation, hop] at h
    obtain rfl := Except.ok.inj h
    exact .of_lsr2 s _ _ _
  | MOV1 =>
    simp only [executeInst, DecodedInst.getOperation, hop] at h
    obtain rfl := Except.ok.inj h
    exact .of_mov1 s _ _
  | MOV2 =>
    simp only [executeInst, DecodedInst.getOperation, hop] at h
    obtain rfl := Except.ok.inj h
    exact .of_mov2 s _ _
  | MUL =>
    simp only [executeInst, DecodedInst.getOperation, hop] at h
    obtain rfl := Except.ok.inj h
    exact .of_mul s _ _ _
  | MVN =>
    simp only [executeInst, DecodedInst.getOperation, hop] at h
    obtain rfl := Except.ok.inj h
    exact .of_mvn s _ _
  | ORR =>
    simp only [executeInst, DecodedInst.getOperation, hop] at h
    obtain rfl := Except.ok.inj h
    exact .of_orr s _ _ _
  | REV =>
    simp only [executeInst, DecodedInst.getOperation, hop] at h
    obtain rfl := Except.ok.inj h
    exact .of_rev s _ _
  | REV16 =>
    simp only [executeInst, DecodedInst.getOperation, hop] at h
    obtain rfl := Except.ok.inj h
    exact .of_rev16 s _ _
  | REVSH =>
    simp only [executeInst, DecodedInst.getOperation, hop] at h
    obtain rfl := Except.ok.inj h
    exact .of_revsh s _ _
  | ROR =>
    simp only [executeInst, DecodedInst.getOperation, hop] at h
    obtain rfl := Except.ok.inj h
    exact .of_ror s _ _ _
  | NEG =>
    simp only [executeInst, DecodedInst.getOperation, hop] at h
    obtain rfl := Except.ok.inj h
    exact .of_neg s _ _ _
  | NOP =>
    simp only [executeInst, DecodedInst.getOperation, hop] at h
    obtain rfl := Except.ok.inj h
    exact .of_nop s
  | SBC =>
    simp only [executeInst, DecodedInst.getOperation, hop] at h
    obtain rfl := Except.ok.inj h
    exact .of_sbc s _ _ _ _
  | SUB1 =>
    simp only [executeInst, DecodedInst.getOperation, hop] at h
    obtain rfl := Except.ok.inj h
    exact .of_sub1 s _ _ _
  | SUB2 =>
    simp only [executeInst, DecodedInst.getOperation, hop] at h
    obtain rfl := Except.ok.inj h
    exact .of_sub2 s _ _ _
  | SUB3 =>
    simp only [executeInst, DecodedInst.getOperation, hop] at h
    obtain rfl := Except.ok.inj h
    exact .of_sub3 s _ _ _
  | SUB4 =>
    simp only [executeInst, DecodedInst.getOperation, hop] at h
    obtain rfl := Except.ok.inj h
    exact .of_sub4 s _ _ _
  | TST =>
    simp only [executeInst, DecodedInst.getOperation, hop] at h
    obtain rfl := Except.ok.inj h
    exact .of_tst s _ _
  | UXTB =>
    simp only [executeInst, DecodedInst.getOperation, hop] at h
    obtain rfl := Except.ok.inj h
    exact .of_uxtb s _ _
  | UXTH =>
    simp only [executeInst, DecodedInst.getOperation, hop] at h
    obtain rfl := Except.ok.inj h
    exact .of_uxth s _ _
  | SXTB =>
    simp only [executeInst, DecodedInst.getOperation, hop] at h
    obtain rfl := Except.ok.inj h
    exact .of_sxtb s _ _
  | SXTH =>
    simp only [executeInst, DecodedInst.getOperation, hop] at h
    obtain rfl := Except.ok.inj h
    exact .of_sxth s _ _
  | BKPT =>
    simp only [executeInst, DecodedInst.getOperation, hop] at h
    simp only [bkpt] at h; split at h <;> exact Except.noConfusion h
  | SVC =>
    simp only [executeInst, DecodedInst.getOperation, hop] at h
    exact Except.noConfusion h
  | CPS =>
    simp only [executeInst, DecodedInst.getOperation, hop] at h
    obtain rfl := Except.ok.inj h
    exact .of_cps s _


theorem branchInsts_add (st : Statistics) (i : Instruction) :
    st.branchInsts ≤ (st.addInstruction i).branchInsts ∧
    (i = .B ∨ i = .BL ∨ i = .BLX ∨ i = .BX ∨ i = .LDMIA →
      (st.addInstruction i).branchInsts = st.branchInsts + 1) := by
  unfold Statistics.branchInsts Statistics.addInstruction
  refine ⟨?_, ?_⟩
  · simp only []
    split_ifs <;> omega
  · intro h
    rcases h with e | e | e | e | e <;> subst e <;> simp <;> omega

theorem pendingLoad_le (s : Processor) : pendingLoad s ≤ 1 := by
  unfold pendingLoad
  split_ifs <;> omega

theorem pendingLoad_of_ne (s : Processor)
    (h : s.execute.execState ≠ .MULTIPLE_LOAD_MEM_REQ) : pendingLoad s = 0 := by
  unfold pendingLoad
  rw [if_neg h]

theorem statStep_same (s s1 : Processor) (hs : s1.stats = s.stats)
    (hp : s1.pipe = s.pipe) : StatStep s s1 := by
  have he : s1.execute = s.execute := congrArg (fun p => p.2.2.2) hp
  unfold StatStep pendingLoad
  rw [hs, he]
  exact ⟨rfl, rfl, by omega⟩

theorem statStep_count (s s1 : Processor) (i : Instruction)
    (hs : s1.stats = s.stats.addInstruction i) (hp : s1.pipe = s.pipe) :
    StatStep s s1 := by
  have he : s1.execute = s.execute := congrArg (fun p => p.2.2.2) hp
  have h := (branchInsts_add s.stats i).1
  unfold StatStep pendingLoad
  rw [hs, he]
  refine ⟨rfl, rfl, ?_⟩
  have e1 : (s.stats.addInstruction i).branchTaken = s.stats.branchTaken := rfl
  have e2 : (s.stats.addInstruction i).branchNotTaken = s.stats.branchNotTaken := rfl
  rw [e1, e2]
  omega

theorem statStep_branch (s s1 : Processor) (i : Instruction)
    (hi : i = .B ∨ i = .BL ∨ i = .BLX ∨ i = .BX)
    (hs : s1.stats = (s.stats.addInstruction i).addBranchTaken ∨
      s1.stats = (s.stats.addInstruction i).addBranchNotTaken)
    (he : s1.execute = s.execute) : StatStep s s1 := by
  have h := (branchInsts_add s.stats i).2 (by
    rcases hi with e | e | e | e
    · exact Or.inl e
    · exact Or.inr (Or.inl e)
    · exact Or.inr (Or.inr (Or.inl e))
    · exact Or.inr (Or.inr (Or.inr (Or.inl e))))
  unfold StatStep pendingLoad
  rw [he]
  rcases hs with hs | hs
  · rw [hs]
    refine ⟨rfl, rfl, ?_⟩
    have e1 : (s.stats.addInstruction i).addBranchTaken.branchTaken =
        s.stats.branchTaken + 1 := rfl
    have e2 : (s.stats.addInstruction i).addBranchTaken.branchNotTaken =
        s.stats.branchNotTaken := rfl
    have e3 : (s.stats.addInstruction i).addBranchTaken.branchInsts =
        (s.stats.addInstruction i).branchInsts := rfl
    rw [e1, e2, e3, h]
    omega
  · rw [hs]
    refine ⟨rfl, rfl, ?_⟩
    have e1 : (s.stats.addInstruction i).addBranchNotTaken.branchTaken =
        s.stats.branchTaken := rfl
    have e2 : (s.stats.addInstruction i).addBranchNotTaken.branchNotTaken =
        s.stats.branchNotTaken + 1 := rfl
    have e3 : (s.stats.addInstruction i).addBranchNotTaken.branchInsts =
        (s.stats.addInstruction i).branchInsts := rfl
    rw [e1, e2, e3, h]
    omega

/-- Counting the instruction of a memory access that has left the statistics
alone: a step, as long as the state is MULTIPLE_LOAD_MEM_REQ only for LDMIA. -/
theorem statStep_map (s : Processor) (r : Except Exit Processor) (i : Instruction)
    (s1 : Processor)
    (hr : ∀ t, r = .ok t → t.stats = s.stats ∧
      (t.execute.execState ≠ .MULTIPLE_LOAD_MEM_REQ ∨ i = .LDMIA))
    (h : (r.map fun s => addInstruction s i) = .ok s1) : StatStep s s1 := by
  cases r with
  | error e => exact Except.noConfusion h
  | ok t =>
    simp only [Except.map, Except.ok.injEq] at h
    obtain ⟨hs, hst⟩ := hr t rfl
    have hb := branchInsts_add s.stats i
    have hp := pendingLoad_le s1
    rw [← h]
    unfold StatStep
    have e0 : (addInstruction t i).stats = s.stats.addInstruction i := by
      simp only [addInstruction, hs]
    rw [e0]
    refine ⟨rfl, rfl, ?_⟩
    have e1 : (s.stats.addInstruction i).branchTaken = s.stats.branchTaken := rfl
    have e2 : (s.stats.addInstruction i).branchNotTaken = s.stats.branchNotTaken := rfl
    rw [e1, e2]
    rcases hst with hst | hst
    · have : pendingLoad (addInstruction t i) = 0 := pendingLoad_of_ne _ hst
      rw [this]
      omega
    · have := hb.2 (Or.inr (Or.inr (Or.inr (Or.inr hst))))
      rw [this]
      have hp' : pendingLoad (addInstruction t i) ≤ 1 := pendingLoad_le _
      omega

theorem stats_writeReg (s : Processor) (r : Reg) (v : Nat) :
    (writeReg s r v).stats = s.stats := rfl

theorem stats_addInstruction (s : Processor) (i : Instruction) :
    (addInstruction s i).stats = s.stats.addInstruction i := rfl

theorem stats_calculateXpsrZ (s : Processor) (res : Nat) :
    (calculateXpsrZ s res).stats = s.stats := rfl

theorem stats_calculateXpsrN (s : Processor) (res bits : Nat) :
    (calculateXpsrN s res bits).stats = s.stats := by
  unfold calculateXpsrN
  split <;> rfl

theorem stats_calculateXpsrQ (s : Processor) : (calculateXpsrQ s).stats = s.stats := rfl

theorem stats_calculateXpsrC (s : Processor) (res a b c bits : Nat) :
    (calculateXpsrC s res a b c bits).stats = s.stats := rfl

theorem stats_calculateXpsrFlags (s : Processor) (res a b c bits : Nat) :
    (calculateXpsrFlags s res a b c bits).stats = s.stats := by
  unfold calculateXpsrFlags
  split
  · rfl
  · change (calculateXpsrQ (calculateXpsrN (calculateXpsrZ s res) res bits)).stats = s.stats
    rw [stats_calculateXpsrQ, stats_calculateXpsrN, stats_calculateXpsrZ]

theorem stats_writeXpsrC (s : Processor) (f : Nat) : (writeXpsrC s f).stats = s.stats := rfl

/-- The statistics pass unchanged through the statements that write
registers and flags, and `addInstruction` counts its instruction. -/
theorem stats_prims (s : Processor) :
    (∀ r v, (writeReg s r v).stats = s.stats) ∧
    (∀ i, (addInstruction s i).stats = s.stats.addInstruction i) ∧
    (∀ res, (calculateXpsrZ s res).stats = s.stats) ∧
    (∀ res bits, (calculateXpsrN s res bits).stats = s.stats) ∧
    (calculateXpsrQ s).stats = s.stats ∧
    (∀ res a b c bits, (calculateXpsrC s res a b c bits).stats = s.stats) ∧
    (∀ res a b c bits, (calculateXpsrFlags s res a b c bits).stats = s.stats) ∧
    (∀ f, (writeXpsrC s f).stats = s.stats) :=
  ⟨stats_writeReg s, stats_addInstruction s, stats_calculateXpsrZ s, stats_calculateXpsrN s,
    stats_calculateXpsrQ s, stats_calculateXpsrC s, stats_calculateXpsrFlags s,
    stats_writeXpsrC s⟩

/-- Memory, fetch, decode and execute pass unchanged through the statements
that write registers, flags and counters. -/
theorem pipe_prims (s : Processor) :
    (∀ r v, (writeReg s r v).pipe = s.pipe) ∧
    (∀ i, (addInstruction s i).pipe = s.pipe) ∧
    (∀ res, (calculateXpsrZ s res).pipe = s.pipe) ∧
    (∀ res bits, (calculateXpsrN s res bits).pipe = s.pipe) ∧
    (calculateXpsrQ s).pipe = s.pipe ∧
    (∀ res a b c bits, (calculateXpsrC s res a b c bits).pipe = s.pipe) ∧
    (∀ res a b c bits, (calculateXpsrFlags s res a b c bits).pipe = s.pipe) ∧
    (∀ f, (writeXpsrC s f).pipe = s.pipe) :=
  ⟨pipe_writeReg s, pipe_addInstruction s, pipe_calculateXpsrZ s, pipe_calculateXpsrN s,
    pipe_calculateXpsrQ s, pipe_calculateXpsrC s, pipe_calculateXpsrFlags s,
    pipe_writeXpsrC s⟩

theorem ldr_stats (s : Processor) (rt : Reg) (drn offset : Nat) (ty : MemoryInstructionType)
    (t : Processor) (h : ldr s rt drn offset ty = .ok t) :
    t.stats = s.stats ∧ t.execute.execState = .LOAD_MEM_RESP := by
  simp only [ldr, executeLoadMemReq] at h
  split_ifs at h
  split at h
  · exact Except.noConfusion h
  · simp only [Except.ok.injEq] at h
    rw [← h]
    exact ⟨rfl, rfl⟩

theorem str_stats (s : Processor) (rt : Reg) (drt : Nat) (rn : Reg) (drn offset : Nat)
    (ty : MemoryInstructionType) (t : Processor)
    (h : str s rt drt rn drn offset ty = .ok t) :
    t.stats = s.stats ∧ t.execute.execState = .STORE_MEM_RESP := by
  simp only [str, executeStoreMemReq] at h
  split_ifs at h
  split at h
  · exact Except.noConfusion h
  · split at h
    · exact Except.noConfusion h
    · split at h
      · exact Except.noConfusion h
      · simp only [Except.ok.injEq] at h
        rw [← h]
        exact ⟨rfl, rfl⟩

theorem mloadFirst_stats (s t : Processor) (h : executeMultipleLoadFirstMemReq s = .ok t) :
    t.stats = s.stats := by
  simp only [executeMultipleLoadFirstMemReq] at h
  split_ifs at h
  split at h
  · exact Except.noConfusion h
  · simp only [Except.ok.injEq] at h
    rw [← h]
    rfl

theorem mstoreFirst_stats (s t : Processor) (h : executeMultipleStoreFirstMemReq s = .ok t) :
    t.stats = s.stats ∧ t.execute.execState = .MULTIPLE_STORE_MEM_REQ := by
  simp only [executeMultipleStoreFirstMemReq] at h
  split_ifs at h
  all_goals
    first
    | exact Except.noConfusion h
    | (simp only [] at h
       split at h
       · exact Except.noConfusion h
       · rename_i u hreq
         simp only [Except.ok.injEq] at h
         rw [← h]
         obtain ⟨_, _, _, _, _, _, _, q8, _⟩ := requestNextStore_ok _ _ hreq
         exact ⟨q8, rfl⟩)

theorem stat_popLdmia (s : Processor) (rn : Reg) (drn rl : Nat) (s1 : Processor)
    (h : popLdmia s rn drn rl = .ok s1) : StatStep s s1 := by
  unfold popLdmia at h
  split at h
  · exact Except.noConfusion h
  · refine statStep_map s _ .LDMIA s1 (fun t ht => ?_) h
    have hm := mloadFirst_stats _ t ht
    exact ⟨hm, Or.inr rfl⟩

theorem stat_push (s : Processor) (rn : Reg) (drn rl : Nat) (s1 : Processor)
    (h : push s rn drn rl = .ok s1) : StatStep s s1 := by
  unfold push at h
  split at h
  · exact Except.noConfusion h
  · refine statStep_map s _ .PUSH s1 (fun t ht => ?_) h
    obtain ⟨a, b⟩ := mstoreFirst_stats _ t ht
    exact ⟨a, Or.inl (by rw [b]; decide)⟩

theorem stat_stmia (s : Processor) (rn : Reg) (drn rl : Nat) (s1 : Processor)
    (h : stmia s rn drn rl = .ok s1) : StatStep s s1 := by
  unfold stmia at h
  split at h
  · exact Except.noConfusion h
  · refine statStep_map s _ .STMIA s1 (fun t ht => ?_) h
    obtain ⟨a, b⟩ := mstoreFirst_stats _ t ht
    exact ⟨a, Or.inl (by rw [b]; decide)⟩

theorem stat_b2 (s : Processor) (rm : Reg) (drm im : Nat) : StatStep s (b2 s rm drm im) :=
  statStep_branch s _ .B (Or.inl rfl) (Or.inl rfl) rfl

theorem stat_bl (s : Processor) (rdn : Reg) (drdn im : Nat) : StatStep s (bl s rdn drdn im) :=
  statStep_branch s _ .BL (Or.inr (Or.inl rfl)) (Or.inl rfl) rfl

theorem stat_bx (s : Processor) (rdn : Reg) (drm : Nat) (s1 : Processor)
    (h : bx s rdn drm = .ok s1) : StatStep s s1 := by
  simp only [bx] at h
  split_ifs at h
  simp only [Except.ok.injEq] at h
  rw [← h]
  exact statStep_branch s _ .BX (Or.inr (Or.inr (Or.inr rfl))) (Or.inl rfl) rfl

theorem stat_blx (s : Processor) (rdn : Reg) (drdn drm : Nat) (s1 : Processor)
    (h : blx s rdn drdn drm = .ok s1) : StatStep s s1 := by
  simp only [blx] at h
  split_ifs at h
  simp only [Except.ok.injEq] at h
  rw [← h]
  exact statStep_branch s _ .BLX (Or.inr (Or.inr (Or.inl rfl))) (Or.inl rfl) rfl

theorem stat_b1 (s : Processor) (rm : Reg) (drm im dxpsr : Nat) (cond : DecodedCondition)
    (s1 : Processor) (h : b1 s rm drm im dxpsr cond = .ok s1) : StatStep s s1 := by
  unfold b1 at h
  split at h
  · exact Except.noConfusion h
  · simp only [Except.ok.injEq] at h
    rw [← h]
    exact statStep_branch s _ .B (Or.inl rfl) (Or.inr rfl) rfl
  · simp only [Except.ok.injEq] at h
    rw [← h]
    exact statStep_branch s _ .B (Or.inl rfl) (Or.inl rfl) rfl

theorem stat_add4 (s : Processor) (rdn : Reg) (drdn drm : Nat) (s1 : Processor)
    (h : add4 s rdn drdn drm = .ok s1) : StatStep s s1 := by
  simp only [add4] at h
  split_ifs at h
  · simp only [Except.ok.injEq] at h
    rw [← h]
    exact statStep_branch s _ .B (Or.inl rfl) (Or.inl rfl) rfl
  · simp only [Except.ok.injEq] at h
    rw [← h]
    exact statStep_count s _ .ADD rfl rfl

theorem stat_cpy (s : Processor) (rd : Reg) (drm : Nat) (s1 : Processor)
    (h : cpy s rd drm = .ok s1) : StatStep s s1 := by
  simp only [cpy] at h
  split_ifs at h
  · exact stat_bx s rd drm s1 h
  · simp only [Except.ok.injEq] at h
    rw [← h]
    exact statStep_count s _ .MOV rfl rfl

theorem stat_adc (s : Processor) (rdn : Reg) (drdn drm cflag : Nat) :
    StatStep s (adc s rdn drdn drm cflag) := by
  refine statStep_count s _ .ADC ?_ ?_
  · simp only [adc, stats_prims]
  · simp only [adc, pipe_prims]

theorem stat_add1 (s : Processor) (rd : Reg) (drn im : Nat) :
    StatStep s (add1 s rd drn im) := by
  refine statStep_count s _ .ADD ?_ ?_
  · simp only [add1, stats_prims]
  · simp only [add1, pipe_prims]

theorem stat_add2 (s : Processor) (rdn : Reg) (drdn im : Nat) :
    StatStep s (add2 s rdn drdn im) := by
  refine statStep_count s _ .ADD ?_ ?_
  · simp only [add2, stats_prims]
  · simp only [add2, pipe_prims]

theorem stat_add3 (s : Processor) (rd : Reg) (drn drm : Nat) :
    StatStep s (add3 s rd drn drm) := by
  refine statStep_count s _ .ADD ?_ ?_
  · simp only [add3, stats_prims]
  · simp only [add3, pipe_prims]

theorem stat_add5 (s : Processor) (rd : Reg) (drm im : Nat) :
    StatStep s (add5 s rd drm im) := by
  refine statStep_count s _ .ADD ?_ ?_
  · simp only [add5, add6Add7, stats_prims]
  · simp only [add5, add6Add7, pipe_prims]

theorem stat_add6Add7 (s : Processor) (rd : Reg) (drm im : Nat) :
    StatStep s (add6Add7 s rd drm im) := by
  refine statStep_count s _ .ADD ?_ ?_
  · simp only [add6Add7, stats_prims]
  · simp only [add6Add7, pipe_prims]

theorem stat_and0 (s : Processor) (rdn : Reg) (drdn drm : Nat) :
    StatStep s (and0 s rdn drdn drm) := by
  refine statStep_count s _ .AND ?_ ?_
  · simp only [and0, stats_prims]
  · simp only [and0, pipe_prims]

theorem stat_asr1 (s : Processor) (rd : Reg) (drm im : Nat)
    (s1 : Processor) (h : asr1 s rd drm im = .ok s1) : StatStep s s1 := by
  simp only [asr1] at h
  split_ifs at h
  all_goals
    simp only [Except.ok.injEq] at h
    rw [← h]
    refine statStep_count s _ .ASR ?_ ?_
    · simp only [stats_prims]
    · simp only [pipe_prims]

theorem stat_asr2 (s : Processor) (rdn : Reg) (drdn drm : Nat) :
    StatStep s (asr2 s rdn drdn drm) := by
  refine statStep_count s _ .ASR ?_ ?_
  · simp only [asr2, stats_prims]
  · simp only [asr2, pipe_prims]

theorem stat_bic (s : Processor) (rdn : Reg) (drdn drm : Nat) :
    StatStep s (bic s rdn drdn drm) := by
  refine statStep_count s _ .BIC ?_ ?_
  · simp only [bic, stats_prims]
  · simp only [bic, pipe_prims]

theorem stat_cmn (s : Processor) (drn drm : Nat) :
    StatStep s (cmn s drn drm) := by
  refine statStep_count s _ .CMN ?_ ?_
  · simp only [cmn, stats_prims]
  · simp only [cmn, pipe_prims]

theorem stat_cmp1 (s : Processor) (drn im : Nat) :
    StatStep s (cmp1 s drn im) := by
  refine statStep_count s _ .CMP ?_ ?_
  · simp only [cmp1, stats_prims]
  · simp only [cmp1, pipe_prims]

theorem stat_cmp2Cmp3 (s : Processor) (drn drm : Nat) :
    StatStep s (cmp2Cmp3 s drn drm) := by
  refine statStep_count s _ .CMP ?_ ?_
  · simp only [cmp2Cmp3, stats_prims]
  · simp only [cmp2Cmp3, pipe_prims]

theorem stat_eor (s : Processor) (rdn : Reg) (drdn drm : Nat) :
    StatStep s (eor s rdn drdn drm) := by
  refine statStep_count s _ .EOR ?_ ?_
  · simp only [eor, stats_prims]
  · simp only [eor, pipe_prims]

theorem stat_lsl1 (s : Processor) (rd : Reg) (drm im : Nat)
    (s1 : Processor) (h : lsl1 s rd drm im = .ok s1) : StatStep s s1 := by
  simp only [lsl1] at h
  split_ifs at h
  all_goals
    simp only [Except.ok.injEq] at h
    rw [← h]
    refine statStep_count s _ .LSL ?_ ?_
    · simp only [stats_prims]
    · simp only [pipe_prims]

theorem stat_lsl2 (s : Processor) (rdn : Reg) (drdn drm : Nat) :
    StatStep s (lsl2 s rdn drdn drm) := by
  refine statStep_count s _ .LSL ?_ ?_
  · simp only [lsl2, stats_prims]
    split_ifs <;> simp only [stats_prims]
  · simp only [lsl2, pipe_prims]
    split_ifs <;> simp only [pipe_prims]

theorem stat_lsr1 (s : Processor) (rd : Reg) (drm im : Nat)
    (s1 : Processor) (h : lsr1 s rd drm im = .ok s1) : StatStep s s1 := by
  simp only [lsr1] at h
  split_ifs at h
  all_goals
    simp only [Except.ok.injEq] at h
    rw [← h]
    refine statStep_count s _ .LSR ?_ ?_
    · simp only [stats_prims]
    · simp only [pipe_prims]

theorem stat_lsr2 (s : Processor) (rdn : Reg) (drdn drm : Nat) :
    StatStep s (lsr2 s rdn drdn drm) := by
  refine statStep_count s _ .LSR ?_ ?_
  · simp only [lsr2, stats_prims]
    split_ifs <;> simp only [stats_prims]
  · simp only [lsr2, pipe_prims]
    split_ifs <;> simp only [pipe_prims]

theorem stat_mov1 (s : Processor) (rd : Reg) (im : Nat) :
    StatStep s (mov1 s rd im) := by
  refine statStep_count s _ .MOV ?_ ?_
  · simp only [mov1, stats_prims]
  · simp only [mov1, pipe_prims]

theorem stat_mov2 (s : Processor) (rd : Reg) (drm : Nat) :
    StatStep s (mov2 s rd drm) := by
  refine statStep_count s _ .MOV ?_ ?_
  · simp only [mov2, stats_prims]
  · simp only [mov2, pipe_prims]

theorem stat_mul (s : Processor) (rdn : Reg) (drdn drn : Nat) :
    StatStep s (mul s rdn drdn drn) := by
  refine statStep_count s _ .MUL ?_ ?_
  · simp only [mul, stats_prims]
  · simp only [mul, pipe_prims]

theorem stat_mvn (s : Processor) (rd : Reg) (drm : Nat) :
    StatStep s (mvn s rd drm) := by
  refine statStep_count s _ .MVN ?_ ?_
  · simp only [mvn, stats_prims]
  · simp only [mvn, pipe_prims]

theorem stat_orr (s : Processor) (rdn : Reg) (drdn drm : Nat) :
    StatStep s (orr s rdn drdn drm) := by
  refine statStep_count s _ .ORR ?_ ?_
  · simp only [orr, stats_prims]
  · simp only [orr, pipe_prims]

theorem stat_rev (s : Processor) (rd : Reg) (drm : Nat) :
    StatStep s (rev s rd drm) := by
  refine statStep_count s _ .REV ?_ ?_
  · simp only [rev, stats_prims]
  · simp only [rev, pipe_prims]

theorem stat_rev16 (s : Processor) (rd : Reg) (drm : Nat) :
    StatStep s (rev16 s rd drm) := by
  refine statStep_count s _ .REV16 ?_ ?_
  · simp only [rev16, stats_prims]
  · simp only [rev16, pipe_prims]

theorem stat_revsh (s : Processor) (rd : Reg) (drm : Nat) :
    StatStep s (revsh s rd drm) := by
  refine statStep_count s _ .REVSH ?_ ?_
  · simp only [revsh, stats_prims]
  · simp only [revsh, pipe_prims]

theorem stat_ror (s : Processor) (rdn : Reg) (drdn drm : Nat) :
    StatStep s (ror s rdn drdn drm) := by
  refine statStep_count s _ .ROR ?_ ?_
  · simp only [ror, stats_prims]
    split_ifs <;> simp only [stats_prims]
  · simp only [ror, pipe_prims]
    split_ifs <;> simp only [pipe_prims]

theorem stat_neg (s : Processor) (rd : Reg) (drn im : Nat) :
    StatStep s (neg s rd drn im) := by
  refine statStep_count s _ .NEG ?_ ?_
  · simp only [neg, stats_prims]
  · simp only [neg, pipe_prims]

theorem stat_nop (s : Processor)  :
    StatStep s (nop s) := by
  refine statStep_count s _ .NOP ?_ ?_
  · simp only [nop, stats_prims]
  · simp only [nop, pipe_prims]

theorem stat_sbc (s : Processor) (rdn : Reg) (drdn drm cflag : Nat) :
    StatStep s (sbc s rdn drdn drm cflag) := by
  refine statStep_count s _ .SBC ?_ ?_
  · simp only [sbc, stats_prims]
  · simp only [sbc, pipe_prims]

theorem stat_sub1 (s : Processor) (rd : Reg) (drn im : Nat) :
    StatStep s (sub1 s rd drn im) := by
  refine statStep_count s _ .SUB ?_ ?_
  · simp only [sub1, stats_prims]
  · simp only [sub1, pipe_prims]

theorem stat_sub2 (s : Processor) (rdn : Reg) (drdn im : Nat) :
    StatStep s (sub2 s rdn drdn im) := by
  refine statStep_count s _ .SUB ?_ ?_
  · simp only [sub2, stats_prims]
  · simp only [sub2, pipe_prims]

theorem stat_sub3 (s : Processor) (rd : Reg) (drm drn : Nat) :
    StatStep s (sub3 s rd drm drn) := by
  refine statStep_count s _ .SUB ?_ ?_
  · simp only [sub3, stats_prims]
  · simp only [sub3, pipe_prims]

theorem stat_sub4 (s : Processor) (rdn : Reg) (drdn im : Nat) :
    StatStep s (sub4 s rdn drdn im) := by
  refine statStep_count s _ .SUB ?_ ?_
  · simp only [sub4, stats_prims]
  · simp only [sub4, pipe_prims]

theorem stat_tst (s : Processor) (drm drn : Nat) :
    StatStep s (tst s drm drn) := by
  refine statStep_count s _ .TST ?_ ?_
  · simp only [tst, stats_prims]
  · simp only [tst, pipe_prims]

theorem stat_uxtb (s : Processor) (rd : Reg) (drm : Nat) :
    StatStep s (uxtb s rd drm) := by
  refine statStep_count s _ .UXTB ?_ ?_
  · simp only [uxtb, stats_prims]
  · simp only [uxtb, pipe_prims]

theorem stat_uxth (s : Processor) (rd : Reg) (drm : Nat) :
    StatStep s (uxth s rd drm) := by
  refine statStep_count s _ .UXTH ?_ ?_
  · simp only [uxth, stats_prims]
  · simp only [uxth, pipe_prims]

theorem stat_sxtb (s : Processor) (rd : Reg) (drm : Nat) :
    StatStep s (sxtb s rd drm) := by
  refine statStep_count s _ .SXTB ?_ ?_
  · simp only [sxtb, stats_prims]
  · simp only [sxtb, pipe_prims]

theorem stat_sxth (s : Processor) (rd : Reg) (drm : Nat) :
    StatStep s (sxth s rd drm) := by
  refine statStep_count s _ .SXTH ?_ ?_
  · simp only [sxth, stats_prims]
  · simp only [sxth, pipe_prims]

theorem stat_cps (s : Processor) (drm : Nat) :
    StatStep s (cps s drm) :=
  statStep_same s _ rfl rfl

theorem stat_str1Str3 (s : Processor) (rt : Reg) (drt : Nat) (rn : Reg) (drn im : Nat)
    (s1 : Processor) (h : str1Str3 s rt drt rn drn im = .ok s1) : StatStep s s1 := by
  unfold str1Str3 at h
  refine statStep_map s _ .STR s1 (fun t ht => ?_) h
  obtain ⟨a, b⟩ := str_stats _ _ _ _ _ _ _ t ht
  exact ⟨a, Or.inl (by rw [b]; decide)⟩

theorem stat_str2 (s : Processor) (rt : Reg) (drt : Nat) (rn : Reg) (drn drm : Nat)
    (s1 : Processor) (h : str2 s rt drt rn drn drm = .ok s1) : StatStep s s1 := by
  unfold str2 at h
  refine statStep_map s _ .STR s1 (fun t ht => ?_) h
  obtain ⟨a, b⟩ := str_stats _ _ _ _ _ _ _ t ht
  exact ⟨a, Or.inl (by rw [b]; decide)⟩

theorem stat_strb1 (s : Processor) (rt : Reg) (drt : Nat) (rn : Reg) (drn im : Nat)
    (s1 : Processor) (h : strb1 s rt drt rn drn im = .ok s1) : StatStep s s1 := by
  unfold strb1 at h
  refine statStep_map s _ .STRB s1 (fun t ht => ?_) h
  obtain ⟨a, b⟩ := str_stats _ _ _ _ _ _ _ t ht
  exact ⟨a, Or.inl (by rw [b]; decide)⟩

theorem stat_strb2 (s : Processor) (rt : Reg) (drt : Nat) (rn : Reg) (drn drm : Nat)
    (s1 : Processor) (h : strb2 s rt drt rn drn drm = .ok s1) : StatStep s s1 := by
  unfold strb2 at h
  refine statStep_map s _ .STRB s1 (fun t ht => ?_) h
  obtain ⟨a, b⟩ := str_stats _ _ _ _ _ _ _ t ht
  exact ⟨a, Or.inl (by rw [b]; decide)⟩

theorem stat_strh1 (s : Processor) (rt : Reg) (drt : Nat) (rn : Reg) (drn im : Nat)
    (s1 : Processor) (h : strh1 s rt drt rn drn im = .ok s1) : StatStep s s1 := by
  unfold strh1 at h
  refine statStep_map s _ .STRH s1 (fun t ht => ?_) h
  obtain ⟨a, b⟩ := str_stats _ _ _ _ _ _ _ t ht
  exact ⟨a, Or.inl (by rw [b]; decide)⟩

theorem stat_strh2 (s : Processor) (rt : Reg) (drt : Nat) (rn : Reg) (drn drm : Nat)
    (s1 : Processor) (h : strh2 s rt drt rn drn drm = .ok s1) : StatStep s s1 := by
  unfold strh2 at h
  refine statStep_map s _ .STRH s1 (fun t ht => ?_) h
  obtain ⟨a, b⟩ := str_stats _ _ _ _ _ _ _ t ht
  exact ⟨a, Or.inl (by rw [b]; decide)⟩

theorem stat_ldr1Ldr4 (s : Processor) (rt : Reg) (drn im : Nat)
    (s1 : Processor) (h : ldr1Ldr4 s rt drn im = .ok s1) : StatStep s s1 := by
  unfold ldr1Ldr4 at h
  refine statStep_map s _ .LDR s1 (fun t ht => ?_) h
  obtain ⟨a, b⟩ := ldr_stats _ _ _ _ _ t ht
  exact ⟨a, Or.inl (by rw [b]; decide)⟩

theorem stat_ldr2 (s : Processor) (rt : Reg) (drn drm : Nat)
    (s1 : Processor) (h : ldr2 s rt drn drm = .ok s1) : StatStep s s1 := by
  unfold ldr2 at h
  refine statStep_map s _ .LDR s1 (fun t ht => ?_) h
  obtain ⟨a, b⟩ := ldr_stats _ _ _ _ _ t ht
  exact ⟨a, Or.inl (by rw [b]; decide)⟩

theorem stat_ldr3 (s : Processor) (rt : Reg) (drn im : Nat)
    (s1 : Processor) (h : ldr3 s rt drn im = .ok s1) : StatStep s s1 := by
  unfold ldr3 at h
  refine statStep_map s _ .LDR s1 (fun t ht => ?_) h
  obtain ⟨a, b⟩ := ldr_stats _ _ _ _ _ t ht
  exact ⟨a, Or.inl (by rw [b]; decide)⟩

theorem stat_ldrb1 (s : Processor) (rt : Reg) (drn im : Nat)
    (s1 : Processor) (h : ldrb1 s rt drn im = .ok s1) : StatStep s s1 := by
  unfold ldrb1 at h
  refine statStep_map s _ .LDRB s1 (fun t ht => ?_) h
  obtain ⟨a, b⟩ := ldr_stats _ _ _ _ _ t ht
  exact ⟨a, Or.inl (by rw [b]; decide)⟩

theorem stat_ldrb2 (s : Processor) (rt : Reg) (drn drm : Nat)
    (s1 : Processor) (h : ldrb2 s rt drn drm = .ok s1) : StatStep s s1 := by
  unfold ldrb2 at h
  refine statStep_map s _ .LDRB s1 (fun t ht => ?_) h
  obtain ⟨a, b⟩ := ldr_stats _ _ _ _ _ t ht
  exact ⟨a, Or.inl (by rw [b]; decide)⟩

theorem stat_ldrh1 (s : Processor) (rt : Reg) (drn im : Nat)
    (s1 : Processor) (h : ldrh1 s rt drn im = .ok s1) : StatStep s s1 := by
  unfold ldrh1 at h
  refine statStep_map s _ .LDRH s1 (fun t ht => ?_) h
  obtain ⟨a, b⟩ := ldr_stats _ _ _ _ _ t ht
  exact ⟨a, Or.inl (by rw [b]; decide)⟩

theorem stat_ldrh2 (s : Processor) (rt : Reg) (drn drm : Nat)
    (s1 : Processor) (h : ldrh2 s rt drn drm = .ok s1) : StatStep s s1 := by
  unfold ldrh2 at h
  refine statStep_map s _ .LDRH s1 (fun t ht => ?_) h
  obtain ⟨a, b⟩ := ldr_stats _ _ _ _ _ t ht
  exact ⟨a, Or.inl (by rw [b]; decide)⟩

theorem stat_ldrsb (s : Processor) (rt : Reg) (drn drm : Nat)
    (s1 : Processor) (h : ldrsb s rt drn drm = .ok s1) : StatStep s s1 := by
  unfold ldrsb at h
  refine statStep_map s _ .LDRSB s1 (fun t ht => ?_) h
  obtain ⟨a, b⟩ := ldr_stats _ _ _ _ _ t ht
  exact ⟨a, Or.inl (by rw [b]; decide)⟩

theorem stat_ldrsh (s : Processor) (rt : Reg) (drn drm : Nat)
    (s1 : Processor) (h : ldrsh s rt drn drm = .ok s1) : StatStep s s1 := by
  unfold ldrsh at h
  refine statStep_map s _ .LDRSH s1 (fun t ht => ?_) h
  obtain ⟨a, b⟩ := ldr_stats _ _ _ _ _ t ht
  exact ⟨a, Or.inl (by rw [b]; decide)⟩

/-- What any routine of execute that returns does to the statistics. -/
theorem routine_stats (s s1 : Processor) (h : Routine s s1) : StatStep s s1 := by
  cases h with
  | of_popLdmia rn drn rl s1 h => exact stat_popLdmia s rn drn rl s1 h
  | of_push rn drn rl s1 h => exact stat_push s rn drn rl s1 h
  | of_stmia rn drn rl s1 h => exact stat_stmia s rn drn rl s1 h
  | of_str1Str3 rt drt rn drn im s1 h => exact stat_str1Str3 s rt drt rn drn im s1 h
  | of_str2 rt drt rn drn drm s1 h => exact stat_str2 s rt drt rn drn drm s1 h
  | of_strb1 rt drt rn drn im s1 h => exact stat_strb1 s rt drt rn drn im s1 h
  | of_strb2 rt drt rn drn drm s1 h => exact stat_strb2 s rt drt rn drn drm s1 h
  | of_strh1 rt drt rn drn im s1 h => exact stat_strh1 s rt drt rn drn im s1 h
  | of_strh2 rt drt rn drn drm s1 h => exact stat_strh2 s rt drt rn drn drm s1 h
  | of_ldr1Ldr4 rt drn im s1 h => exact stat_ldr1Ldr4 s rt drn im s1 h
  | of_ldr2 rt drn drm s1 h => exact stat_ldr2 s rt drn drm s1 h
  | of_ldr3 rt drn im s1 h => exact stat_ldr3 s rt drn im s1 h
  | of_ldrb1 rt drn im s1 h => exact stat_ldrb1 s rt drn im s1 h
  | of_ldrb2 rt drn drm s1 h => exact stat_ldrb2 s rt drn drm s1 h
  | of_ldrh1 rt drn im s1 h => exact stat_ldrh1 s rt drn im s1 h
  | of_ldrh2 rt drn drm s1 h => exact stat_ldrh2 s rt drn drm s1 h
  | of_ldrsb rt drn drm s1 h => exact stat_ldrsb s rt drn drm s1 h
  | of_ldrsh rt drn drm s1 h => exact stat_ldrsh s rt drn drm s1 h
  | of_b1 rm drm im dxpsr cond s1 h => exact stat_b1 s rm drm im dxpsr cond s1 h
  | of_b2 rm drm im => exact stat_b2 s rm drm im
  | of_bl rdn drdn im => exact stat_bl s rdn drdn im
  | of_blx rdn drdn drm s1 h => exact stat_blx s rdn drdn drm s1 h
  | of_bx rdn drm s1 h => exact stat_bx s rdn drm s1 h
  | of_cpy rd drm s1 h => exact stat_cpy s rd drm s1 h
  | of_adc rdn drdn drm cflag => exact stat_adc s rdn drdn drm cflag
  | of_add1 rd drn im => exact stat_add1 s rd drn im
  | of_add2 rdn drdn im => exact stat_add2 s rdn drdn im
  | of_add3 rd drn drm => exact stat_add3 s rd drn drm
  | of_add4 rdn drdn drm s1 h => exact stat_add4 s rdn drdn drm s1 h
  | of_add5 rd drm im => exact stat_add5 s rd drm im
  | of_add6Add7 rd drm im => exact stat_add6Add7 s rd drm im
  | of_and0 rdn drdn drm => exact stat_and0 s rdn drdn drm
  | of_asr1 rd drm im s1 h => exact stat_asr1 s rd drm im s1 h
  | of_asr2 rdn drdn drm => exact stat_asr2 s rdn drdn drm
  | of_bic rdn drdn drm => exact stat_bic s rdn drdn drm
  | of_cmn drn drm => exact stat_cmn s drn drm
  | of_cmp1 drn im => exact stat_cmp1 s drn im
  | of_cmp2Cmp3 drn drm => exact stat_cmp2Cmp3 s drn drm
  | of_eor rdn drdn drm => exact stat_eor s rdn drdn drm
  | of_lsl1 rd drm im s1 h => exact stat_lsl1 s rd drm im s1 h
  | of_lsl2 rdn drdn drm => exact stat_lsl2 s rdn drdn drm
  | of_lsr1 rd drm im s1 h => exact stat_lsr1 s rd drm im s1 h
  | of_lsr2 rdn drdn drm => exact stat_lsr2 s rdn drdn drm
  | of_mov1 rd im => exact stat_mov1 s rd im
  | of_mov2 rd drm => exact stat_mov2 s rd drm
  | of_mul rdn drdn drn => exact stat_mul s rdn drdn drn
  | of_mvn rd drm => exact stat_mvn s rd drm
  | of_orr rdn drdn drm => exact stat_orr s rdn drdn drm
  | of_rev rd drm => exact stat_rev s rd drm
  | of_rev16 rd drm => exact stat_rev16 s rd drm
  | of_revsh rd drm => exact stat_revsh s rd drm
  | of_ror rdn drdn drm => exact stat_ror s rdn drdn drm
  | of_neg rd drn im => exact stat_neg s rd drn im
  | of_nop => exact stat_nop s
  | of_sbc rdn drdn drm cflag => exact stat_sbc s rdn drdn drm cflag
  | of_sub1 rd drn im => exact stat_sub1 s rd drn im
  | of_sub2 rdn drdn im => exact stat_sub2 s rdn drdn im
  | of_sub3 rd drm drn => exact stat_sub3 s rd drm drn
  | of_sub4 rdn drdn im => exact stat_sub4 s rdn drdn im
  | of_tst drm drn => exact stat_tst s drm drn
  | of_uxtb rd drm => exact stat_uxtb s rd drm
  | of_uxth rd drm => exact stat_uxth s rd drm
  | of_sxtb rd drm => exact stat_sxtb s rd drm
  | of_sxth rd drm => exact stat_sxth s rd drm
  | of_cps drm => exact stat_cps s drm

/-- A step that leaves every counter alone and starts no multiple load. -/
theorem statStep_quiet (s t : Processor) (h1 : t.stats.cycles = s.stats.cycles)
    (h2 : t.stats.executeMemCycles = s.stats.executeMemCycles)
    (h3 : t.stats.branchTaken = s.stats.branchTaken)
    (h4 : t.stats.branchNotTaken = s.stats.branchNotTaken)
    (h5 : t.stats.instCount = s.stats.instCount)
    (hp : pendingLoad t ≤ pendingLoad s) : StatStep s t := by
  refine ⟨h1, h2, ?_⟩
  unfold Statistics.branchInsts
  rw [h3, h4, h5]
  omega

/-- The step of a multiple load that writes PC: one branch taken, and the load
is over. -/
theorem statStep_pop (s t : Processor) (h1 : t.stats.cycles = s.stats.cycles)
    (h2 : t.stats.executeMemCycles = s.stats.executeMemCycles)
    (h3 : t.stats.branchTaken = s.stats.branchTaken + 1)
    (h4 : t.stats.branchNotTaken = s.stats.branchNotTaken)
    (h5 : t.stats.instCount = s.stats.instCount)
    (hs : pendingLoad s = 1) (ht : pendingLoad t = 0) : StatStep s t := by
  refine ⟨h1, h2, ?_⟩
  unfold Statistics.branchInsts
  rw [h3, h4, h5, hs, ht]
  omega

/-- What the dispatch of an execute tick, started in an entered state, does to
the statistics. -/
theorem dispatch_stats (s t : Processor) (hin : s.execute.execState ∈ enteredStates)
    (h : dispatch s = .ok t) : StatStep s t := by
  unfold dispatch at h
  cases hst : s.execute.execState <;> rw [hst] at h hin <;> simp only [] at h
  · unfold executeNextInst at h
    split_ifs at h with hsome
    split at h
    · simp only [Except.ok.injEq] at h
      rw [← h]
      exact statStep_quiet s _ rfl rfl rfl rfl rfl (Nat.le_of_eq rfl)
    · simp only [] at h
      split at h
      · exact Except.noConfusion h
      · rename_i u hu
        simp only [Except.ok.injEq] at h
        rw [← h]
        have hr := routine_stats _ u (executeInst_routine _ _ u hu)
        exact hr
  · exact absurd hin (by decide)
  · unfold executeLoadMemResp at h
    split at h
    · exact Except.noConfusion h
    · simp only [] at h
      split_ifs at h
      simp only [Except.ok.injEq] at h
      rw [← h]
      exact statStep_quiet s _ rfl rfl rfl rfl rfl (Nat.zero_le _)
  · exact absurd hin (by decide)
  · unfold executeStoreMemResp at h
    split_ifs at h
    simp only [Except.ok.injEq] at h
    rw [← h]
    exact statStep_quiet s _ rfl rfl rfl rfl rfl (Nat.zero_le _)
  · exact absurd hin (by decide)
  · have e : pendingLoad s = 1 := by
      unfold pendingLoad
      rw [if_pos hst]
    unfold executeMultipleLoadMemReq at h
    simp only [] at h
    split at h
    · exact Except.noConfusion h
    · split at h
      · exact Except.noConfusion h
      · split_ifs at h
        · simp only [Except.ok.injEq] at h
          rw [← h]
          exact statStep_pop s _ rfl rfl rfl rfl rfl e rfl
        · split at h
          · exact Except.noConfusion h
          · simp only [Except.ok.injEq] at h
            rw [← h]
            exact statStep_quiet s _ rfl rfl rfl rfl rfl (by rw [e]; exact pendingLoad_le _)
        · simp only [Except.ok.injEq] at h
          rw [← h]
          exact statStep_quiet s _ rfl rfl rfl rfl rfl (Nat.zero_le _)
  · exact absurd hin (by decide)
  · unfold executeMultipleStoreMemReq at h
    split_ifs at h
    · split at h
      · exact Except.noConfusion h
      · rename_i u hu
        simp only [Except.ok.injEq] at h
        rw [← h]
        obtain ⟨_, _, _, _, _, _, _, q8, _⟩ := requestNextStore_ok _ _ hu
        have q : (setExecState u .MULTIPLE_STORE_MEM_REQ).stats = s.stats := q8
        exact statStep_quiet s _ (by rw [q]) (by rw [q]) (by rw [q]) (by rw [q]) (by rw [q])
          (Nat.zero_le _)
    · simp only [Except.ok.injEq] at h
      rw [← h]
      exact statStep_quiet s _ rfl rfl rfl rfl rfl (Nat.zero_le _)
  · simp only [Except.ok.injEq] at h
    rw [← h]
    exact statStep_quiet s _ rfl rfl rfl rfl rfl (Nat.zero_le _)

/-- What an execute tick, started in an entered state, does to the statistics:
at most one execute cycle is counted, and the branch events grow by no more
than the branch instructions. -/
theorem run_stats (s s1 : Processor) (hin : s.execute.execState ∈ enteredStates)
    (h : Execute.run s = .ok s1) :
    s1.stats.cycles = s.stats.cycles ∧
    s1.stats.executeMemCycles ≤ s.stats.executeMemCycles + 1 ∧
    s1.stats.branchTaken + s1.stats.branchNotTaken + pendingLoad s1 + s.stats.branchInsts ≤
      s1.stats.branchInsts + s.stats.branchTaken + s.stats.branchNotTaken + pendingLoad s := by
  rw [run_eq_dispatch] at h
  split at h
  · exact Except.noConfusion h
  · rename_i t ht
    have hd := dispatch_stats _ t (by exact hin) ht
    obtain ⟨a, b, c⟩ := hd
    have a' : t.stats.cycles = s.stats.cycles := a
    have b' : t.stats.executeMemCycles = s.stats.executeMemCycles := b
    have c' : t.stats.branchTaken + t.stats.branchNotTaken + pendingLoad t +
        s.stats.branchInsts ≤
        t.stats.branchInsts + s.stats.branchTaken + s.stats.branchNotTaken + pendingLoad s := c
    obtain ⟨c1, _, _⟩ := calculateExecCycles_ok _ _ h
    have he : s1.execute = t.execute := congrArg (fun p => p.2.2.2) c1
    have hp : pendingLoad s1 = pendingLoad t := by
      unfold pendingLoad
      rw [he]
    have hs : s1.stats = t.stats ∨ s1.stats = t.stats.addExecuteCycle := by
      unfold calculateExecCycles at h
      split at h
      · split at h
        · simp only [Except.ok.injEq] at h
          rw [← h]
          exact Or.inl rfl
        · exact Except.noConfusion h
        · simp only [Except.ok.injEq] at h
          rw [← h]
          exact Or.inr rfl
      · simp only [Except.ok.injEq] at h
        rw [← h]
        exact Or.inl rfl
      · simp only [Except.ok.injEq] at h
        rw [← h]
        exact Or.inr rfl
    rw [hp]
    rcases hs with e | e
    · rw [e]
      exact ⟨a', by omega, c'⟩
    · rw [e]
      refine ⟨a', ?_, c'⟩
      show t.stats.executeMemCycles + 1 ≤ s.stats.executeMemCycles + 1
      omega

/-- A cycle keeps the statistics sane. -/
theorem cycle_stats (s s' : Processor) (hin : s.execute.execState ∈ enteredStates)
    (hs : s.StatsSane) (h : s.simulateCycle = .ok s') : s'.StatsSane := by
  unfold Processor.simulateCycle at h
  split at h
  · exact Except.noConfusion h
  · rename_i s1 hE
    split at h
    · exact Except.noConfusion h
    · rename_i s2 hD
      simp only [] at h
      split at h
      · exact Except.noConfusion h
      · rename_i m hM
        simp only [Except.ok.injEq] at h
        obtain ⟨a, b, c⟩ := run_stats { s with stats := s.stats.addCycle } s1 hin hE
        have a' : s1.stats.cycles = s.stats.cycles + 1 := a
        have b' : s1.stats.executeMemCycles ≤ s.stats.executeMemCycles + 1 := b
        have c' : s1.stats.branchTaken + s1.stats.branchNotTaken + pendingLoad s1 +
            s.stats.branchInsts ≤
            s1.stats.branchInsts + s.stats.branchTaken + s.stats.branchNotTaken +
              pendingLoad s := c
        obtain ⟨_, _, d3, d4, _⟩ := decode_tick_frame s1 s2 hD
        obtain ⟨_, _, f3, _, _, f6, f7, _, f9, f10, f11, _⟩ := fetch_frame s2
        obtain ⟨h1, h2⟩ := hs
        rw [← h]
        unfold Processor.StatsSane pendingLoad Statistics.branchInsts
        show (Fetch.run s2).stats.executeMemCycles ≤ (Fetch.run s2).stats.cycles ∧
          (Fetch.run s2).stats.branchTaken + (Fetch.run s2).stats.branchNotTaken +
            (if (Fetch.run s2).execute.execState = .MULTIPLE_LOAD_MEM_REQ then 1 else 0) ≤
          (Fetch.run s2).stats.instCount .B + (Fetch.run s2).stats.instCount .BL +
            (Fetch.run s2).stats.instCount .BLX + (Fetch.run s2).stats.instCount .BX +
            (Fetch.run s2).stats.instCount .LDMIA
        rw [f3, f6, f7, f9, f10, f11, d3, d4]
        unfold pendingLoad Statistics.branchInsts at c' h2
        exact ⟨by omega, by omega⟩

/-- Cycles keep execute in the entered states and the statistics sane. -/
theorem cycles_stats (n : Nat) : ∀ (s s' : Processor),
    s.execute.execState ∈ enteredStates → s.StatsSane → s.simulateCycles n = .ok s' →
    s'.StatsSane := by
  induction n with
  | zero =>
    intro s s' _ hs h
    simp only [Processor.simulateCycles, Except.ok.injEq] at h
    rw [← h]
    exact hs
  | succ n ih =>
    intro s s' hin hs h
    simp only [Processor.simulateCycles] at h
    split at h
    · exact Except.noConfusion h
    · rename_i s1 h1
      exact ih s1 s' (cycle_state s s1 h1).1 (cycle_stats s s1 hin hs h1) h

/-- Every state that the simulator reaches has sane statistics. -/
theorem run_stats_sane (file : Option (List Nat)) (n w t : Nat) (s : Processor)
    (h : Simulator.run file n w t = .ok s) : s.StatsSane := by
  unfold Simulator.run at h
  split at h
  · exact Except.noConfusion h
  · rename_i s0 h0
    obtain ⟨r1, _, _, _, _, _, _, _, _, _, r11, r12, r13⟩ := reset_frame _ _ _ h0
    refine cycles_stats t s0 s ?_ ?_ h
    · rw [r1]
      exact entered_of_eq _ (Or.inl rfl)
    · unfold Processor.StatsSane pendingLoad Statistics.branchInsts
      rw [r1, r11, r12, r13]
      have e : s0.stats.branchNotTaken = 0 := by
        unfold Processor.reset at h0
        split at h0
        · exact Except.noConfusion h0
        · split_ifs at h0
          simp only [] at h0
          split at h0
          · exact Except.noConfusion h0
          · simp only [Except.ok.injEq] at h0
            rw [← h0]
            rfl
      have e2 : s0.stats.executeMemCycles = 0 := by
        unfold Processor.reset at h0
        split at h0
        · exact Except.noConfusion h0
        · split_ifs at h0
          simp only [] at h0
          split at h0
          · exact Except.noConfusion h0
          · simp only [Except.ok.injEq] at h0
            rw [← h0]
            rfl
      rw [e, e2]
      exact ⟨Nat.zero_le _, Nat.zero_le _⟩

/-- C39: in every state that the simulator reaches the statistics satisfy
`branchTaken + branchNotTaken <= count(B) + count(BL) + count(BLX) + count(BX)
+ count(LDMIA)` (and so the weaker bound of `Statistics::print`, which adds
the counts of the single loads) and `executeMemCycles <= cycles`; both checks
of `Statistics::print` pass, also after the cycle count of the coming tick,
and a BKPT pulled by execute in the coming tick ends the run with `exit(im)`,
not with a fatal exit of the report. -/
theorem C39_statistics_sane (file : Option (List Nat)) (n w t : Nat) (s : Processor)
    (hrun : Simulator.run file n w t = .ok s) :
    s.stats.branchTaken + s.stats.branchNotTaken ≤
      s.stats.instCount .B + s.stats.instCount .BL + s.stats.instCount .BLX +
        s.stats.instCount .BX + s.stats.instCount .LDMIA ∧
    s.stats.branchTaken + s.stats.branchNotTaken ≤ s.stats.branchesAndLoads ∧
    s.stats.executeMemCycles ≤ s.stats.cycles ∧
    statsPrint s.stats = .ok () ∧ statsPrint s.stats.addCycle = .ok () ∧
    (∀ d, s.execute.execState = .NEXT_INST → s.execute.decodedInst = none →
      s.decode.decodedInst = some d → s.decode.decodedHalfInst = false → d.op = .BKPT →
      Execute.run { s with stats := s.stats.addCycle } = .error (.exit d.im)) := by
  obtain ⟨h1, h2⟩ := run_stats_sane file n w t s hrun
  unfold Statistics.branchInsts at h2
  have hb : s.stats.branchTaken + s.stats.branchNotTaken ≤
      s.stats.instCount .B + s.stats.instCount .BL + s.stats.instCount .BLX +
        s.stats.instCount .BX + s.stats.instCount .LDMIA := by omega
  have hl : s.stats.branchTaken + s.stats.branchNotTaken ≤ s.stats.branchesAndLoads := by
    unfold Statistics.branchesAndLoads
    omega
  have hp : ∀ st : Statistics, st.executeMemCycles ≤ st.cycles →
      st.branchTaken + st.branchNotTaken ≤ st.branchesAndLoads → statsPrint st = .ok () := by
    intro st a b
    unfold Statistics.branchesAndLoads at b
    unfold statsPrint
    rw [if_neg (by omega)]
    simp only []
    rw [if_neg (by omega)]
  have hp1 := hp s.stats h1 hl
  have hp2 : statsPrint s.stats.addCycle = .ok () :=
    hp _ (Nat.le_succ_of_le h1) hl
  refine ⟨hb, hl, h1, hp1, hp2, ?_⟩
  intro d hst hnone hd hhalf hop
  rw [execute_pull { s with stats := s.stats.addCycle } d hst hnone hd hhalf]
  have he : ∀ u : Processor, u.stats = s.stats.addCycle →
      executeInst u d = .error (.exit d.im) := by
    intro u hu
    simp only [executeInst, DecodedInst.getOperation, hop, bkpt, hu, hp2,
      DecodedInst.getImmediate]
  rw [he _ rfl]

/-- Witness of C39 on the image `ldrUseImage`: after six cycles decode holds
the BKPT; the statistics pass both checks and the execute tick that pulls the
BKPT ends the run with `exit(0)`. -/
theorem C39_statistics_sane_witness :
    ∃ s, Simulator.run (some ldrUseImage) 64 1 6 = .ok s ∧
      statsPrint s.stats.addCycle = .ok () ∧
      Execute.run { s with stats := s.stats.addCycle } = .error (.exit 0) := by
  obtain ⟨s, hs, hp⟩ := ok_of_map (Simulator.run (some ldrUseImage) 64 1 6)
    (fun s => (s.execute.execState, s.execute.decodedInst.isNone, s.decode.decodedHalfInst,
      s.decode.decodedInst.map (fun d => (d.op, d.im))))
    (.NEXT_INST, true, false, some (.BKPT, 0)) (by decide)
  simp only [Prod.mk.injEq] at hp
  obtain ⟨p1, p2, p3, p4⟩ := hp
  have hnone : s.execute.decodedInst = none := by
    cases h : s.execute.decodedInst with
    | none => rfl
    | some d => rw [h] at p2; exact Bool.noConfusion p2
  obtain ⟨d, hd, hf⟩ : ∃ d, s.decode.decodedInst = some d ∧ (d.op, d.im) = (.BKPT, 0) := by
    cases h : s.decode.decodedInst with
    | none => rw [h] at p4; exact Option.noConfusion p4
    | some d => rw [h] at p4; exact ⟨d, rfl, Option.some.inj p4⟩
  simp only [Prod.mk.injEq] at hf
  obtain ⟨_, _, _, _, q5, q6⟩ := C39_statistics_sane (some ldrUseImage) 64 1 6 s hs
  have h6 := q6 d p1 hnone hd p3 hf.1
  rw [hf.2] at h6
  exact ⟨s, hs, q5, h6⟩


/-! ## Coherence of the instruction buffer: C31 -/

/-- The fatal exit of `Fetch::getNextInst` is taken exactly on a valid buffer,
without a flush pending, whose base is not the base of the block of PC; the
method has no other error. -/
theorem getNextInst_fatal_iff (t : Processor) :
    (Fetch.getNextInst t = .error (.fatal
        "Unpredictable state: instruction buffer is valid and out of sync with pc") ↔
      t.fetch.instBufferValid = true ∧ t.fetch.flushPending = false ∧
        t.mem.getMemAccessWidthBaseByteAddr (t.regFile.regs .PC) ≠
          t.fetch.instBufferBaseAddr) ∧
    (∀ e, Fetch.getNextInst t = .error e → e = .fatal
      "Unpredictable state: instruction buffer is valid and out of sync with pc") := by
  unfold Fetch.getNextInst
  simp only [RegFile.readData]
  cases hv : t.fetch.instBufferValid <;> cases hf : t.fetch.flushPending <;>
    simp
  by_cases hb : t.mem.getMemAccessWidthBaseByteAddr (t.regFile.regs .PC) =
      t.fetch.instBufferBaseAddr
  · simp [hb]
  · simp [hb]

/-- The execute tick of the multiple load that delivers the word `w` for PC:
PC is written, execute goes to FLUSH_PIPELINE, and decode, fetch and memory
are left as they are. -/
theorem pop_pc_tick (s : Processor) (w : Nat)
    (hst : s.execute.execState = .MULTIPLE_LOAD_MEM_REQ)
    (hl : s.execute.mloadTmps.regList = [.PC])
    (hresp : s.mem.retrieveLoad s.execute.mloadTmps.memToken = some w) :
    ∃ s1, Execute.run s = .ok s1 ∧ s1.regFile.regs .PC = w &&& not32 1 ∧
      s1.execute.execState = .FLUSH_PIPELINE ∧
      s1.decode = s.decode ∧ s1.fetch = s.fetch ∧ s1.mem = s.mem := by
  simp only [Execute.run, hst, executeMultipleLoadMemReq, hresp, hl, if_true, writeReg,
    RegFile.write, setExecState, addBranchTaken, List.length_nil, gt_iff_lt, lt_self_iff_false,
    if_false, calculateExecCycles, Statistics.addBranchTaken, Statistics.addExecuteCycle]
  refine ⟨_, rfl, ?_, rfl, rfl, rfl, rfl⟩
  simp

/-- The decode tick on a complete record, without a flush pending, only
replaces the record. -/
theorem decode_keeps (s : Processor) (d : DecodedInst)
    (hd : s.decode.decodedInst = some d) (hhalf : s.decode.decodedHalfInst = false)
    (hdf : s.decode.flushPending = false) :
    ∃ s2, Decode.run s = .ok s2 ∧ s2.regFile = s.regFile ∧ s2.fetch = s.fetch ∧
      s2.mem = s.mem ∧ s2.execute = s.execute := by
  simp only [Decode.run, hdf, hd, hhalf, Option.isSome_some, Bool.false_eq_true, if_false,
    not_false_eq_true, and_self, if_true]
  exact ⟨_, rfl, rfl, rfl, rfl, rfl⟩

/-- The fetch tick on a valid buffer, without a flush or a request pending,
while execute is in FLUSH_PIPELINE, changes nothing. -/
theorem fetch_idle (u : Processor) (hvalid : u.fetch.instBufferValid = true)
    (hfl : u.fetch.flushPending = false) (hiss : u.fetch.issuedMemAccess = false)
    (he : u.execute.execState = .FLUSH_PIPELINE) : Fetch.run u = u := by
  have hs : isStalled u = true := by
    simp [isStalled, he]
  simp only [Fetch.run, hfl, hiss, hvalid, hs, Bool.false_eq_true, if_false, if_true,
    not_true_eq_false, false_and, or_self]

/-- For an error result, a run of the simulator is determined by its message. -/
theorem fatal_of_message (r : Except Exit Processor) (m : String)
    (h : (match r with
      | .error (.fatal x) => some x
      | _ => none) = some m) : r = .error (.fatal m) := by
  cases r with
  | ok s => exact Option.noConfusion h
  | error e =>
    cases e with
    | fatal x =>
      simp only [Option.some.injEq] at h
      rw [h]
    | exit k => exact Option.noConfusion h


/-! ## Coherence of the instruction buffer with PC -/

theorem fromNat_ne_pc (n : Nat) (h : n < 15) : Reg.fromNat n ≠ .PC := by
  interval_cases n <;> decide

theorem fromNat_low_ne_pc (x : Nat) : Reg.fromNat (x &&& 7) ≠ .PC :=
  fromNat_ne_pc _ (lt_of_le_of_lt Nat.and_le_right (by norm_num))

theorem keeps_placeholder (d : DecodedInst) : (Decode.issuePlaceholderInst d).KeepsPc := by
  intro idx hidx
  simp [Decode.issuePlaceholderInst, DecodedInst.setOperation, DecodedInst.setImmediate,
    writeSlots] at hidx

theorem keeps_fromStmia (inst pc : Nat) (activeSp : Reg) (rf : RegFile) (d : DecodedInst)
    (hsp : activeSp ≠ .PC) :
    Decode.ResultAll DecodedInst.KeepsPc (Decode.decodeFromStmia inst pc activeSp rf d) := by
  unfold Decode.decodeFromStmia
  repeat' (with_reducible apply all_ite <;> intro _)
  all_goals repeat (first
    | (with_reducible apply all_bind; intro _)
    | (with_reducible apply all_bind_cond; intro _))
  all_goals first
    | exact all_throw _ _
    | with_reducible apply all_pure
  all_goals first
    | exact keeps_placeholder _
    | (simp [DecodedInst.KeepsPc, DecodedInst.setOperation, DecodedInst.setImmediate,
        DecodedInst.setRegisterList, DecodedInst.setRegister, writeSlots,
        fromNat_low_ne_pc, hsp]; done)

theorem keeps_fromMov1 (inst pc : Nat) (activeSp : Reg) (rf : RegFile) (d : DecodedInst)
    (hsp : activeSp ≠ .PC) :
    Decode.ResultAll DecodedInst.KeepsPc (Decode.decodeFromMov1 inst pc activeSp rf d) := by
  unfold Decode.decodeFromMov1
  repeat' (with_reducible apply all_ite <;> intro _)
  all_goals repeat (first
    | (with_reducible apply all_bind; intro _)
    | (with_reducible apply all_bind_cond; intro _))
  all_goals first
    | exact keeps_fromStmia inst pc activeSp rf d hsp
    | exact all_throw _ _
    | with_reducible apply all_pure
  all_goals first
    | exact keeps_placeholder _
    | (simp [DecodedInst.KeepsPc, DecodedInst.setOperation, DecodedInst.setImmediate,
        DecodedInst.setRegisterList, DecodedInst.setRegister, writeSlots,
        fromNat_low_ne_pc, hsp]; done)

theorem keeps_fromLdr1 (inst pc : Nat) (activeSp : Reg) (rf : RegFile) (d : DecodedInst)
    (hsp : activeSp ≠ .PC) :
    Decode.ResultAll DecodedInst.KeepsPc (Decode.decodeFromLdr1 inst pc activeSp rf d) := by
  unfold Decode.decodeFromLdr1
  repeat' (with_reducible apply all_ite <;> intro _)
  all_goals repeat (first
    | (with_reducible apply all_bind; intro _)
    | (with_reducible apply all_bind_cond; intro _))
  all_goals first
    | exact keeps_fromMov1 inst pc activeSp rf d hsp
    | exact all_throw _ _
    | with_reducible apply all_pure
  all_goals first
    | exact keeps_placeholder _
    | (simp [DecodedInst.KeepsPc, DecodedInst.setOperation, DecodedInst.setImmediate,
        DecodedInst.setRegisterList, DecodedInst.setRegister, writeSlots,
        fromNat_low_ne_pc, hsp]; done)

theorem keeps_fromB2 (inst pc : Nat) (activeSp : Reg) (rf : RegFile) (d : DecodedInst)
    (hsp : activeSp ≠ .PC) :
    Decode.ResultAll DecodedInst.KeepsPc (Decode.decodeFromB2 inst pc activeSp rf d) := by
  unfold Decode.decodeFromB2
  repeat' (with_reducible apply all_ite <;> intro _)
  all_goals repeat (first
    | (with_reducible apply all_bind; intro _)
    | (with_reducible apply all_bind_cond; intro _))
  all_goals first
    | exact keeps_fromLdr1 inst pc activeSp rf d hsp
    | exact all_throw _ _
    | with_reducible apply all_pure
  all_goals first
    | exact keeps_placeholder _
    | (simp [DecodedInst.KeepsPc, DecodedInst.setOperation, DecodedInst.setImmediate,
        DecodedInst.setRegisterList, DecodedInst.setRegister, writeSlots,
        fromNat_low_ne_pc, hsp]; done)

theorem keeps_fromAdc (inst pc : Nat) (activeSp : Reg) (rf : RegFile) (d : DecodedInst)
    (hsp : activeSp ≠ .PC) :
    Decode.ResultAll DecodedInst.KeepsPc (Decode.decodeFromAdc inst pc activeSp rf d) := by
  unfold Decode.decodeFromAdc
  repeat' (with_reducible apply all_ite <;> intro _)
  all_goals repeat (first
    | (with_reducible apply all_bind; intro _)
    | (with_reducible apply all_bind_cond; intro _))
  all_goals first
    | exact keeps_fromB2 inst pc activeSp rf d hsp
    | exact all_throw _ _
    | with_reducible apply all_pure
  all_goals first
    | exact keeps_placeholder _
    | (simp [DecodedInst.KeepsPc, DecodedInst.setOperation, DecodedInst.setImmediate,
        DecodedInst.setRegisterList, DecodedInst.setRegister, writeSlots,
        fromNat_low_ne_pc, hsp]; done)

/-- The record after `Decode::updateDecodedInstRegs` names PC in the slots in
which the record before named it. -/
theorem keeps_update (rf : RegFile) (d : DecodedInst) (h : d.KeepsPc) :
    (Decode.updateDecodedInstRegs rf d).KeepsPc := by
  intro idx hidx
  obtain ⟨e1, _, _, _, e5⟩ := updateRegs_slots rf d
  rw [e1] at hidx
  exact fun hx => h idx hidx (((e5 idx).2.1).1 hx)

/-- The second halfword of a BL changes the immediate of the record only. -/
theorem keeps_second_half (inst : Nat) (d : DecodedInst) (h : d.KeepsPc) :
    (Decode.decodeSecondHalf inst d).KeepsPc := by
  unfold Decode.decodeSecondHalf
  split_ifs
  · exact h
  · exact keeps_placeholder d

theorem keeps_new : DecodedInst.new.KeepsPc := by
  intro idx hidx
  simp [DecodedInst.new, writeSlots] at hidx

/-- A decode tick that returns: every record it leaves in the decode stage
names PC in none of its written slots, if the record before did; and PC is
either as before, or the tick has taken a halfword from a valid buffer in
step with PC, with no flush pending, and moved PC to the next halfword. -/
theorem decode_tick_pc (s s' : Processor) (h : Decode.run s = .ok s')
    (hd : ∀ d, s.decode.decodedInst = some d → d.KeepsPc) :
    (∀ d, s'.decode.decodedInst = some d → d.KeepsPc) ∧
    (s'.regFile.regs .PC = s.regFile.regs .PC ∨
      (s.fetch.instBufferValid = true ∧ s.fetch.flushPending = false ∧
        s.decode.flushPending = false ∧
        s.mem.getMemAccessWidthBaseByteAddr (s.regFile.regs .PC) = s.fetch.instBufferBaseAddr ∧
        s'.regFile.regs .PC = NEXT_THUMB_INST (s.regFile.regs .PC))) := by
  have hsp : s.regFile.getActiveSp ≠ .PC := by
    rcases getActiveSp_stack s.regFile with e | e <;> rw [e] <;> decide
  unfold Decode.run at h
  split_ifs at h with hfl hstall
  · simp only [Except.ok.injEq] at h
    rw [← h]
    exact ⟨fun d hx => Option.noConfusion hx, Or.inl rfl⟩
  · simp only [Except.ok.injEq] at h
    rw [← h]
    refine ⟨?_, Or.inl rfl⟩
    intro d hx
    simp only [Option.map_eq_some'] at hx
    obtain ⟨d0, h0, rfl⟩ := hx
    exact keeps_update _ _ (hd d0 h0)
  · have hf : s.decode.flushPending = false := by
      cases hx : s.decode.flushPending with
      | false => rfl
      | true => exact absurd hx hfl
    unfold Fetch.getNextInst at h
    simp only [] at h
    split_ifs at h with hstarved hsync
    · simp only [Except.ok.injEq] at h
      rw [← h]
      exact ⟨hd, Or.inl rfl⟩
    · have hv : s.fetch.instBufferValid = true ∧ s.fetch.flushPending = false := by
        cases hx : s.fetch.instBufferValid <;> cases hy : s.fetch.flushPending <;>
          simp [hx, hy] at hstarved ⊢
      have hb : s.mem.getMemAccessWidthBaseByteAddr (s.regFile.regs .PC) =
          s.fetch.instBufferBaseAddr := by
        by_contra hne
        exact hsync hne
      simp only [] at h
      split_ifs at h with hhalf
      · simp only [Except.ok.injEq] at h
        rw [← h]
        refine ⟨?_, Or.inr ⟨hv.1, hv.2, hf, hb, by simp [RegFile.write, RegFile.readData]⟩⟩
        intro d hx
        simp only [Option.some.injEq] at hx
        rw [← hx]
        cases hdi : s.decode.decodedInst with
        | none => exact keeps_second_half _ _ keeps_new
        | some d0 => exact keeps_second_half _ _ (hd d0 hdi)
      · split at h
        · exact Except.noConfusion h
        · rename_i d1 half hr
          simp only [Except.ok.injEq] at h
          rw [← h]
          refine ⟨?_, Or.inr ⟨hv.1, hv.2, hf, hb, by simp [RegFile.write, RegFile.readData]⟩⟩
          intro d hx
          simp only [Option.some.injEq] at hx
          rw [← hx]
          exact keeps_fromAdc _ _ _ _ _ hsp d1 half hr

/-- The statements that write a register other than PC, the flags or a
counter leave PC alone. -/
theorem pc_prims (s : Processor) :
    (∀ r v, r ≠ .PC → (writeReg s r v).regFile.regs .PC = s.regFile.regs .PC) ∧
    (∀ i, (addInstruction s i).regFile.regs .PC = s.regFile.regs .PC) ∧
    (∀ res, (calculateXpsrZ s res).regFile.regs .PC = s.regFile.regs .PC) ∧
    (∀ res bits, (calculateXpsrN s res bits).regFile.regs .PC = s.regFile.regs .PC) ∧
    (calculateXpsrQ s).regFile.regs .PC = s.regFile.regs .PC ∧
    (∀ res a b c bits, (calculateXpsrC s res a b c bits).regFile.regs .PC =
      s.regFile.regs .PC) ∧
    (∀ res a b c bits, (calculateXpsrFlags s res a b c bits).regFile.regs .PC =
      s.regFile.regs .PC) ∧
    (∀ f, (writeXpsrC s f).regFile.regs .PC = s.regFile.regs .PC) ∧
    (∀ v, (writeReg s .XPSR v).regFile.regs .PC = s.regFile.regs .PC) := by
  have hN : ∀ (u : Processor) res bits,
      (calculateXpsrN u res bits).regFile.regs .PC = u.regFile.regs .PC := by
    intro u res bits
    unfold calculateXpsrN
    split <;> rfl
  refine ⟨?_, fun _ => rfl, fun _ => rfl, hN s, rfl, fun _ _ _ _ _ => rfl, ?_, fun _ => rfl,
    fun _ => rfl⟩
  · intro r v hr
    simp only [writeReg, RegFile.write, if_neg (Ne.symm hr)]
  · intro res a b c bits
    unfold calculateXpsrFlags
    split
    · rfl
    · change (calculateXpsrQ (calculateXpsrN (calculateXpsrZ s res) res bits)).regFile.regs .PC =
        s.regFile.regs .PC
      exact (hN _ _ _).trans rfl

theorem pc_adc (s : Processor) (rdn : Reg) (drdn drm cflag : Nat) (hr : rdn ≠ .PC) :
    (adc s rdn drdn drm cflag).regFile.regs .PC = s.regFile.regs .PC := by
  simp only [adc, pc_prims, hr, ne_eq, not_false_eq_true]

theorem pc_add1 (s : Processor) (rd : Reg) (drn im : Nat) (hr : rd ≠ .PC) :
    (add1 s rd drn im).regFile.regs .PC = s.regFile.regs .PC := by
  simp only [add1, pc_prims, hr, ne_eq, not_false_eq_true]

theorem pc_add2 (s : Processor) (rdn : Reg) (drdn im : Nat) (hr : rdn ≠ .PC) :
    (add2 s rdn drdn im).regFile.regs .PC = s.regFile.regs .PC := by
  simp only [add2, pc_prims, hr, ne_eq, not_false_eq_true]

theorem pc_add3 (s : Processor) (rd : Reg) (drn drm : Nat) (hr : rd ≠ .PC) :
    (add3 s rd drn drm).regFile.regs .PC = s.regFile.regs .PC := by
  simp only [add3, pc_prims, hr, ne_eq, not_false_eq_true]

theorem pc_add5 (s : Processor) (rd : Reg) (drm im : Nat) (hr : rd ≠ .PC) :
    (add5 s rd drm im).regFile.regs .PC = s.regFile.regs .PC := by
  simp only [add5, add6Add7, pc_prims, hr, ne_eq, not_false_eq_true]

theorem pc_add6Add7 (s : Processor) (rd : Reg) (drm im : Nat) (hr : rd ≠ .PC) :
    (add6Add7 s rd drm im).regFile.regs .PC = s.regFile.regs .PC := by
  simp only [add6Add7, pc_prims, hr, ne_eq, not_false_eq_true]

theorem pc_and0 (s : Processor) (rdn : Reg) (drdn drm : Nat) (hr : rdn ≠ .PC) :
    (and0 s rdn drdn drm).regFile.regs .PC = s.regFile.regs .PC := by
  simp only [and0, pc_prims, hr, ne_eq, not_false_eq_true]

theorem pc_asr1 (s : Processor) (rd : Reg) (drm im : Nat)
    (s1 : Processor) (hr : rd ≠ .PC) (h : asr1 s rd drm im = .ok s1) :
    s1.regFile.regs .PC = s.regFile.regs .PC := by
  simp only [asr1] at h
  split_ifs at h
  all_goals
    simp only [Except.ok.injEq] at h
    rw [← h]
    simp only [pc_prims, hr, ne_eq, not_false_eq_true]

theorem pc_asr2 (s : Processor) (rdn : Reg) (drdn drm : Nat) (hr : rdn ≠ .PC) :
    (asr2 s rdn drdn drm).regFile.regs .PC = s.regFile.regs .PC := by
  simp only [asr2, pc_prims, hr, ne_eq, not_false_eq_true]

theorem pc_bic (s : Processor) (rdn : Reg) (drdn drm : Nat) (hr : rdn ≠ .PC) :
    (bic s rdn drdn drm).regFile.regs .PC = s.regFile.regs .PC := by
  simp only [bic, pc_prims, hr, ne_eq, not_false_eq_true]

theorem pc_cmn (s : Processor) (drn drm : Nat) :
    (cmn s drn drm).regFile.regs .PC = s.regFile.regs .PC := by
  simp only [cmn, pc_prims]

theorem pc_cmp1 (s : Processor) (drn im : Nat) :
    (cmp1 s drn im).regFile.regs .PC = s.regFile.regs .PC := by
  simp only [cmp1, pc_prims]

theorem pc_cmp2Cmp3 (s : Processor) (drn drm : Nat) :
    (cmp2Cmp3 s drn drm).regFile.regs .PC = s.regFile.regs .PC := by
  simp only [cmp2Cmp3, pc_prims]

theorem pc_eor (s : Processor) (rdn : Reg) (drdn drm : Nat) (hr : rdn ≠ .PC) :
    (eor s rdn drdn drm).regFile.regs .PC = s.regFile.regs .PC := by
  simp only [eor, pc_prims, hr, ne_eq, not_false_eq_true]

theorem pc_lsl1 (s : Processor) (rd : Reg) (drm im : Nat)
    (s1 : Processor) (hr : rd ≠ .PC) (h : lsl1 s rd drm im = .ok s1) :
    s1.regFile.regs .PC = s.regFile.regs .PC := by
  simp only [lsl1] at h
  split_ifs at h
  all_goals
    simp only [Except.ok.injEq] at h
    rw [← h]
    simp only [pc_prims, hr, ne_eq, not_false_eq_true]

theorem pc_lsl2 (s : Processor) (rdn : Reg) (drdn drm : Nat) (hr : rdn ≠ .PC) :
    (lsl2 s rdn drdn drm).regFile.regs .PC = s.regFile.regs .PC := by
  simp only [lsl2, pc_prims, hr, ne_eq, not_false_eq_true]
  split_ifs <;> simp only [pc_prims, hr, ne_eq, not_false_eq_true]

theorem pc_lsr1 (s : Processor) (rd : Reg) (drm im : Nat)
    (s1 : Processor) (hr : rd ≠ .PC) (h : lsr1 s rd drm im = .ok s1) :
    s1.regFile.regs .PC = s.regFile.regs .PC := by
  simp only [lsr1] at h
  split_ifs at h
  all_goals
    simp only [Except.ok.injEq] at h
    rw [← h]
    simp only [pc_prims, hr, ne_eq, not_false_eq_true]

theorem pc_lsr2 (s : Processor) (rdn : Reg) (drdn drm : Nat) (hr : rdn ≠ .PC) :
    (lsr2 s rdn drdn drm).regFile.regs .PC = s.regFile.regs .PC := by
  simp only [lsr2, pc_prims, hr, ne_eq, not_false_eq_true]
  split_ifs <;> simp only [pc_prims, hr, ne_eq, not_false_eq_true]

theorem pc_mov1 (s : Processor) (rd : Reg) (im : Nat) (hr : rd ≠ .PC) :
    (mov1 s rd im).regFile.regs .PC = s.regFile.regs .PC := by
  simp only [mov1, pc_prims, hr, ne_eq, not_false_eq_true]

theorem pc_mov2 (s : Processor) (rd : Reg) (drm : Nat) (hr : rd ≠ .PC) :
    (mov2 s rd drm).regFile.regs .PC = s.regFile.regs .PC := by
  simp only [mov2, pc_prims, hr, ne_eq, not_false_eq_true]

theorem pc_mul (s : Processor) (rdn : Reg) (drdn drn : Nat) (hr : rdn ≠ .PC) :
    (mul s rdn drdn drn).regFile.regs .PC = s.regFile.regs .PC := by
  simp only [mul, pc_prims, hr, ne_eq, not_false_eq_true]

theorem pc_mvn (s : Processor) (rd : Reg) (drm : Nat) (hr : rd ≠ .PC) :
    (mvn s rd drm).regFile.regs .PC = s.regFile.regs .PC := by
  simp only [mvn, pc_prims, hr, ne_eq, not_false_eq_true]

theorem pc_orr (s : Processor) (rdn : Reg) (drdn drm : Nat) (hr : rdn ≠ .PC) :
    (orr s rdn drdn drm).regFile.regs .PC = s.regFile.regs .PC := by
  simp only [orr, pc_prims, hr, ne_eq, not_false_eq_true]

theorem pc_rev (s : Processor) (rd : Reg) (drm : Nat) (hr : rd ≠ .PC) :
    (rev s rd drm).regFile.regs .PC = s.regFile.regs .PC := by
  simp only [rev, pc_prims, hr, ne_eq, not_false_eq_true]

theorem pc_rev16 (s : Processor) (rd : Reg) (drm : Nat) (hr : rd ≠ .PC) :
    (rev16 s rd drm).regFile.regs .PC = s.regFile.regs .PC := by
  simp only [rev16, pc_prims, hr, ne_eq, not_false_eq_true]

theorem pc_revsh (s : Processor) (rd : Reg) (drm : Nat) (hr : rd ≠ .PC) :
    (revsh s rd drm).regFile.regs .PC = s.regFile.regs .PC := by
  simp only [revsh, pc_prims, hr, ne_eq, not_false_eq_true]

theorem pc_ror (s : Processor) (rdn : Reg) (drdn drm : Nat) (hr : rdn ≠ .PC) :
    (ror s rdn drdn drm).regFile.regs .PC = s.regFile.regs .PC := by
  simp only [ror, pc_prims, hr, ne_eq, not_false_eq_true]
  split_ifs <;> simp only [pc_prims, hr, ne_eq, not_false_eq_true]

theorem pc_neg (s : Processor) (rd : Reg) (drn im : Nat) (hr : rd ≠ .PC) :
    (neg s rd drn im).regFile.regs .PC = s.regFile.regs .PC := by
  simp only [neg, pc_prims, hr, ne_eq, not_false_eq_true]

theorem pc_nop (s : Processor)  :
    (nop s).regFile.regs .PC = s.regFile.regs .PC := by
  simp only [nop, pc_prims]

theorem pc_sbc (s : Processor) (rdn : Reg) (drdn drm cflag : Nat) (hr : rdn ≠ .PC) :
    (sbc s rdn drdn drm cflag).regFile.regs .PC = s.regFile.regs .PC := by
  simp only [sbc, pc_prims, hr, ne_eq, not_false_eq_true]

theorem pc_sub1 (s : Processor) (rd : Reg) (drn im : Nat) (hr : rd ≠ .PC) :
    (sub1 s rd drn im).regFile.regs .PC = s.regFile.regs .PC := by
  simp only [sub1, pc_prims, hr, ne_eq, not_false_eq_true]

theorem pc_sub2 (s : Processor) (rdn : Reg) (drdn im : Nat) (hr : rdn ≠ .PC) :
    (sub2 s rdn drdn im).regFile.regs .PC = s.regFile.regs .PC := by
  simp only [sub2, pc_prims, hr, ne_eq, not_false_eq_true]

theorem pc_sub3 (s : Processor) (rd : Reg) (drm drn : Nat) (hr : rd ≠ .PC) :
    (sub3 s rd drm drn).regFile.regs .PC = s.regFile.regs .PC := by
  simp only [sub3, pc_prims, hr, ne_eq, not_false_eq_true]

theorem pc_sub4 (s : Processor) (rdn : Reg) (drdn im : Nat) (hr : rdn ≠ .PC) :
    (sub4 s rdn drdn im).regFile.regs .PC = s.regFile.regs .PC := by
  simp only [sub4, pc_prims, hr, ne_eq, not_false_eq_true]

theorem pc_tst (s : Processor) (drm drn : Nat) :
    (tst s drm drn).regFile.regs .PC = s.regFile.regs .PC := by
  simp only [tst, pc_prims]

theorem pc_uxtb (s : Processor) (rd : Reg) (drm : Nat) (hr : rd ≠ .PC) :
    (uxtb s rd drm).regFile.regs .PC = s.regFile.regs .PC := by
  simp only [uxtb, pc_prims, hr, ne_eq, not_false_eq_true]

theorem pc_uxth (s : Processor) (rd : Reg) (drm : Nat) (hr : rd ≠ .PC) :
    (uxth s rd drm).regFile.regs .PC = s.regFile.regs .PC := by
  simp only [uxth, pc_prims, hr, ne_eq, not_false_eq_true]

theorem pc_sxtb (s : Processor) (rd : Reg) (drm : Nat) (hr : rd ≠ .PC) :
    (sxtb s rd drm).regFile.regs .PC = s.regFile.regs .PC := by
  simp only [sxtb, pc_prims, hr, ne_eq, not_false_eq_true]

theorem pc_sxth (s : Processor) (rd : Reg) (drm : Nat) (hr : rd ≠ .PC) :
    (sxth s rd drm).regFile.regs .PC = s.regFile.regs .PC := by
  simp only [sxth, pc_prims, hr, ne_eq, not_false_eq_true]

theorem pc_cps (s : Processor) (drm : Nat) :
    (cps s drm).regFile.regs .PC = s.regFile.regs .PC := by
  simp only [cps, pc_prims]

theorem pc_map (s : Processor) (r : Except Exit Processor) (i : Instruction) (s1 : Processor)
    (hr : ∀ t, r = .ok t → t.regFile.regs .PC = s.regFile.regs .PC)
    (h : (r.map fun s => addInstruction s i) = .ok s1) :
    s1.regFile.regs .PC = s.regFile.regs .PC ∨ s1.fetch.flushPending = true := by
  cases r with
  | error e => exact Except.noConfusion h
  | ok t =>
    simp only [Except.map, Except.ok.injEq] at h
    rw [← h]
    exact Or.inl (hr t rfl)

theorem ldr_regs (s : Processor) (rt : Reg) (drn offset : Nat) (ty : MemoryInstructionType)
    (t : Processor) (h : ldr s rt drn offset ty = .ok t) : t.regFile = s.regFile := by
  simp only [ldr, executeLoadMemReq] at h
  split_ifs at h
  split at h
  · exact Except.noConfusion h
  · simp only [Except.ok.injEq] at h
    rw [← h]
    rfl

theorem str_regs (s : Processor) (rt : Reg) (drt : Nat) (rn : Reg) (drn offset : Nat)
    (ty : MemoryInstructionType) (t : Processor)
    (h : str s rt drt rn drn offset ty = .ok t) : t.regFile = s.regFile := by
  simp only [str, executeStoreMemReq] at h
  split_ifs at h
  split at h
  · exact Except.noConfusion h
  · split at h
    · exact Except.noConfusion h
    · split at h
      · exact Except.noConfusion h
      · simp only [Except.ok.injEq] at h
        rw [← h]
        rfl

theorem pc_str1Str3 (s : Processor) (rt : Reg) (drt : Nat) (rn : Reg) (drn im : Nat)
    (s1 : Processor) (h : str1Str3 s rt drt rn drn im = .ok s1) :
    s1.regFile.regs .PC = s.regFile.regs .PC ∨ s1.fetch.flushPending = true := by
  unfold str1Str3 at h
  refine pc_map s _ _ s1 (fun t ht => ?_) h
  have hm := str_regs _ _ _ _ _ _ _ t ht
  rw [hm]

theorem pc_str2 (s : Processor) (rt : Reg) (drt : Nat) (rn : Reg) (drn drm : Nat)
    (s1 : Processor) (h : str2 s rt drt rn drn drm = .ok s1) :
    s1.regFile.regs .PC = s.regFile.regs .PC ∨ s1.fetch.flushPending = true := by
  unfold str2 at h
  refine pc_map s _ _ s1 (fun t ht => ?_) h
  have hm := str_regs _ _ _ _ _ _ _ t ht
  rw [hm]

theorem pc_strb1 (s : Processor) (rt : Reg) (drt : Nat) (rn : Reg) (drn im : Nat)
    (s1 : Processor) (h : strb1 s rt drt rn drn im = .ok s1) :
    s1.regFile.regs .PC = s.regFile.regs .PC ∨ s1.fetch.flushPending = true := by
  unfold strb1 at h
  refine pc_map s _ _ s1 (fun t ht => ?_) h
  have hm := str_regs _ _ _ _ _ _ _ t ht
  rw [hm]

theorem pc_strb2 (s : Processor) (rt : Reg) (drt : Nat) (rn : Reg) (drn drm : Nat)
    (s1 : Processor) (h : strb2 s rt drt rn drn drm = .ok s1) :
    s1.regFile.regs .PC = s.regFile.regs .PC ∨ s1.fetch.flushPending = true := by
  unfold strb2 at h
  refine pc_map s _ _ s1 (fun t ht => ?_) h
  have hm := str_regs _ _ _ _ _ _ _ t ht
  rw [hm]

theorem pc_strh1 (s : Processor) (rt : Reg) (drt : Nat) (rn : Reg) (drn im : Nat)
    (s1 : Processor) (h : strh1 s rt drt rn drn im = .ok s1) :
    s1.regFile.regs .PC = s.regFile.regs .PC ∨ s1.fetch.flushPending = true := by
  unfold strh1 at h
  refine pc_map s _ _ s1 (fun t ht => ?_) h
  have hm := str_regs _ _ _ _ _ _ _ t ht
  rw [hm]

theorem pc_strh2 (s : Processor) (rt : Reg) (drt : Nat) (rn : Reg) (drn drm : Nat)
    (s1 : Processor) (h : strh2 s rt drt rn drn drm = .ok s1) :
    s1.regFile.regs .PC = s.regFile.regs .PC ∨ s1.fetch.flushPending = true := by
  unfold strh2 at h
  refine pc_map s _ _ s1 (fun t ht => ?_) h
  have hm := str_regs _ _ _ _ _ _ _ t ht
  rw [hm]

theorem pc_ldr1Ldr4 (s : Processor) (rt : Reg) (drn im : Nat)
    (s1 : Processor) (h : ldr1Ldr4 s rt drn im = .ok s1) :
    s1.regFile.regs .PC = s.regFile.regs .PC ∨ s1.fetch.flushPending = true := by
  unfold ldr1Ldr4 at h
  refine pc_map s _ _ s1 (fun t ht => ?_) h
  have hm := ldr_regs _ _ _ _ _ t ht
  rw [hm]

theorem pc_ldr2 (s : Processor) (rt : Reg) (drn drm : Nat)
    (s1 : Processor) (h : ldr2 s rt drn drm = .ok s1) :
    s1.regFile.regs .PC = s.regFile.regs .PC ∨ s1.fetch.flushPending = true := by
  unfold ldr2 at h
  refine pc_map s _ _ s1 (fun t ht => ?_) h
  have hm := ldr_regs _ _ _ _ _ t ht
  rw [hm]

theorem pc_ldr3 (s : Processor) (rt : Reg) (drn im : Nat)
    (s1 : Processor) (h : ldr3 s rt drn im = .ok s1) :
    s1.regFile.regs .PC = s.regFile.regs .PC ∨ s1.fetch.flushPending = true := by
  unfold ldr3 at h
  refine pc_map s _ _ s1 (fun t ht => ?_) h
  have hm := ldr_regs _ _ _ _ _ t ht
  rw [hm]

theorem pc_ldrb1 (s : Processor) (rt : Reg) (drn im : Nat)
    (s1 : Processor) (h : ldrb1 s rt drn im = .ok s1) :
    s1.regFile.regs .PC = s.regFile.regs .PC ∨ s1.fetch.flushPending = true := by
  unfold ldrb1 at h
  refine pc_map s _ _ s1 (fun t ht => ?_) h
  have hm := ldr_regs _ _ _ _ _ t ht
  rw [hm]

theorem pc_ldrb2 (s : Processor) (rt : Reg) (drn drm : Nat)
    (s1 : Processor) (h : ldrb2 s rt drn drm = .ok s1) :
    s1.regFile.regs .PC = s.regFile.regs .PC ∨ s1.fetch.flushPending = true := by
  unfold ldrb2 at h
  refine pc_map s _ _ s1 (fun t ht => ?_) h
  have hm := ldr_regs _ _ _ _ _ t ht
  rw [hm]

theorem pc_ldrh1 (s : Processor) (rt : Reg) (drn im : Nat)
    (s1 : Processor) (h : ldrh1 s rt drn im = .ok s1) :
    s1.regFile.regs .PC = s.regFile.regs .PC ∨ s1.fetch.flushPending = true := by
  unfold ldrh1 at h
  refine pc_map s _ _ s1 (fun t ht => ?_) h
  have hm := ldr_regs _ _ _ _ _ t ht
  rw [hm]

theorem pc_ldrh2 (s : Processor) (rt : Reg) (drn drm : Nat)
    (s1 : Processor) (h : ldrh2 s rt drn drm = .ok s1) :
    s1.regFile.regs .PC = s.regFile.regs .PC ∨ s1.fetch.flushPending = true := by
  unfold ldrh2 at h
  refine pc_map s _ _ s1 (fun t ht => ?_) h
  have hm := ldr_regs _ _ _ _ _ t ht
  rw [hm]

theorem pc_ldrsb (s : Processor) (rt : Reg) (drn drm : Nat)
    (s1 : Processor) (h : ldrsb s rt drn drm = .ok s1) :
    s1.regFile.regs .PC = s.regFile.regs .PC ∨ s1.fetch.flushPending = true := by
  unfold ldrsb at h
  refine pc_map s _ _ s1 (fun t ht => ?_) h
  have hm := ldr_regs _ _ _ _ _ t ht
  rw [hm]

theorem pc_ldrsh (s : Processor) (rt : Reg) (drn drm : Nat)
    (s1 : Processor) (h : ldrsh s rt drn drm = .ok s1) :
    s1.regFile.regs .PC = s.regFile.regs .PC ∨ s1.fetch.flushPending = true := by
  unfold ldrsh at h
  refine pc_map s _ _ s1 (fun t ht => ?_) h
  have hm := ldr_regs _ _ _ _ _ t ht
  rw [hm]

theorem pc_popLdmia (s : Processor) (rn : Reg) (drn rl : Nat) (s1 : Processor)
    (hr : rn ≠ .PC) (h : popLdmia s rn drn rl = .ok s1) :
    s1.regFile.regs .PC = s.regFile.regs .PC ∨ s1.fetch.flushPending = true := by
  unfold popLdmia at h
  split at h
  · exact Except.noConfusion h
  · refine pc_map s _ _ s1 (fun t ht => ?_) h
    simp only [executeMultipleLoadFirstMemReq] at ht
    split_ifs at ht
    split at ht
    · exact Except.noConfusion ht
    · simp only [Except.ok.injEq] at ht
      rw [← ht]
      simp only [setExecState, writeReg, RegFile.write, if_neg (Ne.symm hr)]

theorem mstoreFirst_pc (s t : Processor) (hr : s.execute.mstoreTmps.baseReg ≠ .PC)
    (h : executeMultipleStoreFirstMemReq s = .ok t) :
    t.regFile.regs .PC = s.regFile.regs .PC := by
  simp only [executeMultipleStoreFirstMemReq] at h
  split_ifs at h
  all_goals
    first
    | exact Except.noConfusion h
    | (simp only [] at h
       split at h
       · exact Except.noConfusion h
       · rename_i u hreq
         simp only [Except.ok.injEq] at h
         rw [← h]
         obtain ⟨_, _, _, _, _, _, q7, _⟩ := requestNextStore_ok _ _ hreq
         show u.regFile.regs .PC = s.regFile.regs .PC
         rw [q7]
         simp only [writeReg, RegFile.write]
         exact if_neg (Ne.symm hr))

theorem pc_push (s : Processor) (rn : Reg) (drn rl : Nat) (s1 : Processor)
    (hr : rn ≠ .PC) (h : push s rn drn rl = .ok s1) :
    s1.regFile.regs .PC = s.regFile.regs .PC ∨ s1.fetch.flushPending = true := by
  unfold push at h
  split at h
  · exact Except.noConfusion h
  · refine pc_map s _ _ s1 (fun t ht => ?_) h
    have hm := mstoreFirst_pc _ t hr ht
    exact hm

theorem pc_stmia (s : Processor) (rn : Reg) (drn rl : Nat) (s1 : Processor)
    (hr : rn ≠ .PC) (h : stmia s rn drn rl = .ok s1) :
    s1.regFile.regs .PC = s.regFile.regs .PC ∨ s1.fetch.flushPending = true := by
  unfold stmia at h
  split at h
  · exact Except.noConfusion h
  · refine pc_map s _ _ s1 (fun t ht => ?_) h
    have hm := mstoreFirst_pc _ t hr ht
    exact hm

theorem pc_b2 (s : Processor) (rm : Reg) (drm im : Nat) :
    (b2 s rm drm im).regFile.regs .PC = s.regFile.regs .PC ∨
      (b2 s rm drm im).fetch.flushPending = true := Or.inr rfl

theorem pc_bl (s : Processor) (rdn : Reg) (drdn im : Nat) :
    (bl s rdn drdn im).regFile.regs .PC = s.regFile.regs .PC ∨
      (bl s rdn drdn im).fetch.flushPending = true := Or.inr rfl

theorem pc_b1 (s : Processor) (rm : Reg) (drm im dxpsr : Nat) (cond : DecodedCondition)
    (s1 : Processor) (h : b1 s rm drm im dxpsr cond = .ok s1) :
    s1.regFile.regs .PC = s.regFile.regs .PC ∨ s1.fetch.flushPending = true := by
  unfold b1 at h
  split at h
  · exact Except.noConfusion h
  · simp only [Except.ok.injEq] at h
    rw [← h]
    exact Or.inl rfl
  · simp only [Except.ok.injEq] at h
    rw [← h]
    exact Or.inr rfl

theorem pc_blx (s : Processor) (rdn : Reg) (drdn drm : Nat) (s1 : Processor)
    (h : blx s rdn drdn drm = .ok s1) :
    s1.regFile.regs .PC = s.regFile.regs .PC ∨ s1.fetch.flushPending = true := by
  simp only [blx] at h
  split_ifs at h
  simp only [Except.ok.injEq] at h
  rw [← h]
  exact Or.inr rfl

theorem pc_bx (s : Processor) (rdn : Reg) (drm : Nat) (s1 : Processor)
    (h : bx s rdn drm = .ok s1) :
    s1.regFile.regs .PC = s.regFile.regs .PC ∨ s1.fetch.flushPending = true := by
  simp only [bx] at h
  split_ifs at h
  simp only [Except.ok.injEq] at h
  rw [← h]
  exact Or.inr rfl

theorem pc_add4 (s : Processor) (rdn : Reg) (drdn drm : Nat) (s1 : Processor)
    (h : add4 s rdn drdn drm = .ok s1) :
    s1.regFile.regs .PC = s.regFile.regs .PC ∨ s1.fetch.flushPending = true := by
  simp only [add4] at h
  split_ifs at h with hpc
  · simp only [Except.ok.injEq] at h
    rw [← h]
    exact Or.inr rfl
  · simp only [Except.ok.injEq] at h
    rw [← h]
    left
    simp only [addInstruction, writeReg, RegFile.write]
    exact if_neg (Ne.symm hpc)

theorem pc_cpy (s : Processor) (rd : Reg) (drm : Nat) (s1 : Processor)
    (h : cpy s rd drm = .ok s1) :
    s1.regFile.regs .PC = s.regFile.regs .PC ∨ s1.fetch.flushPending = true := by
  simp only [cpy] at h
  split_ifs at h with hpc
  · exact pc_bx s rd drm s1 h
  · simp only [Except.ok.injEq] at h
    rw [← h]
    left
    simp only [addInstruction, writeReg, RegFile.write]
    exact if_neg (Ne.symm hpc)

/-- An execute routine that returns, on a record that names PC in none of its
written slots, has left PC alone or raised the flush flag of fetch. -/
theorem executeInst_pc (s : Processor) (d : DecodedInst) (s1 : Processor)
    (hk : d.KeepsPc) (h : executeInst s d = .ok s1) :
    s1.regFile.regs .PC = s.regFile.regs .PC ∨ s1.fetch.flushPending = true := by
  unfold DecodedInst.KeepsPc at hk
  revert hk
  cases hop : d.op with
  | POP =>
    intro hk
    simp only [executeInst, DecodedInst.getOperation, hop] at h
    exact pc_popLdmia s _ _ _ s1 (hk .RN (List.mem_cons_self _ _)) h
  | LDMIA =>
    intro hk
    simp only [executeInst, DecodedInst.getOperation, hop] at h
    exact pc_popLdmia s _ _ _ s1 (hk .RN (List.mem_cons_self _ _)) h
  | PUSH =>
    intro hk
    simp only [executeInst, DecodedInst.getOperation, hop] at h
    exact pc_push s _ _ _ s1 (hk .RN (List.mem_cons_self _ _)) h
  | STMIA =>
    intro hk
    simp only [executeInst, DecodedInst.getOperation, hop] at h
    exact pc_stmia s _ _ _ s1 (hk .RN (List.mem_cons_self _ _)) h
  | STR1 =>
    intro _
    simp only [executeInst, DecodedInst.getOperation, hop] at h
    exact pc_str1Str3 s _ _ _ _ _ s1 h
  | STR3 =>
    intro _
    simp only [executeInst, DecodedInst.getOperation, hop] at h
    exact pc_str1Str3 s _ _ _ _ _ s1 h
  | STR2 =>
    intro _
    simp only [executeInst, DecodedInst.getOperation, hop] at h
    exact pc_str2 s _ _ _ _ _ s1 h
  | STRB1 =>
    intro _
    simp only [executeInst, DecodedInst.getOperation, hop] at h
    exact pc_strb1 s _ _ _ _ _ s1 h
  | STRB2 =>
    intro _
    simp only [executeInst, DecodedInst.getOperation, hop] at h
    exact pc_strb2 s _ _ _ _ _ s1 h
  | STRH1 =>
    intro _
    simp only [executeInst, DecodedInst.getOperation, hop] at h
    exact pc_strh1 s _ _ _ _ _ s1 h
  | STRH2 =>
    intro _
    simp only [executeInst, DecodedInst.getOperation, hop] at h
    exact pc_strh2 s _ _ _ _ _ s1 h
  | LDR1 =>
    intro _
    simp only [executeInst, DecodedInst.getOperation, hop] at h
    exact pc_ldr1Ldr4 s _ _ _ s1 h
  | LDR4 =>
    intro _
    simp only [executeInst, DecodedInst.getOperation, hop] at h
    exact pc_ldr1Ldr4 s _ _ _ s1 h
  | LDR2 =>
    intro _
    simp only [executeInst, DecodedInst.getOperation, hop] at h
    exact pc_ldr2 s _ _ _ s1 h
  | LDR3 =>
    intro _
    simp only [executeInst, DecodedInst.getOperation, hop] at h
    exact pc_ldr3 s _ _ _ s1 h
  | LDRB1 =>
    intro _
    simp only [executeInst, DecodedInst.getOperation, hop] at h
    exact pc_ldrb1 s _ _ _ s1 h
  | LDRB2 =>
    intro _
    simp only [executeInst, DecodedInst.getOperation, hop] at h
    exact pc_ldrb2 s _ _ _ s1 h
  | LDRH1 =>
    intro _
    simp only [executeInst, DecodedInst.getOperation, hop] at h
    exact pc_ldrh1 s _ _ _ s1 h
  | LDRH2 =>
    intro _
    simp only [executeInst, DecodedInst.getOperation, hop] at h
    exact pc_ldrh2 s _ _ _ s1 h
  | LDRSB =>
    intro _
    simp only [executeInst, DecodedInst.getOperation, hop] at h
    exact pc_ldrsb s _ _ _ s1 h
  | LDRSH =>
    intro _
    simp only [executeInst, DecodedInst.getOperation, hop] at h
    exact pc_ldrsh s _ _ _ s1 h
  | B1 =>
    intro _
    simp only [executeInst, DecodedInst.getOperation, hop] at h
    exact pc_b1 s _ _ _ _ _ s1 h
  | B2 =>
    intro _
    simp only [executeInst, DecodedInst.getOperation, hop] at h
    obtain rfl := Except.ok.inj h
    exact pc_b2 s _ _ _
  | BL =>
    intro _
    simp only [executeInst, DecodedInst.getOperation, hop] at h
    obtain rfl := Except.ok.inj h
    exact pc_bl s _ _ _
  | BLX =>
    intro _
    simp only [executeInst, DecodedInst.getOperation, hop] at h
    exact pc_blx s _ _ _ s1 h
  | BX =>
    intro _
    simp only [executeInst, DecodedInst.getOperation, hop] at h
    exact pc_bx s _ _ s1 h
  | CPY =>
    intro _
    simp only [executeInst, DecodedInst.getOperation, hop] at h
    exact pc_cpy s _ _ s1 h
  | ADC =>
    intro hk
    simp only [executeInst, DecodedInst.getOperation, hop] at h
    obtain rfl := Except.ok.inj h
    exact Or.inl (pc_adc s _ _ _ _ (hk .RDN (List.mem_cons_self _ _)))
  | ADD1 =>
    intro hk
    simp only [executeInst, DecodedInst.getOperation, hop] at h
    obtain rfl := Except.ok.inj h
    exact Or.inl (pc_add1 s _ _ _ (hk .RD (List.mem_cons_self _ _)))
  | ADD2 =>
    intro hk
    simp only [executeInst, DecodedInst.getOperation, hop] at h
    obtain rfl := Except.ok.inj h
    exact Or.inl (pc_add2 s _ _ _ (hk .RDN (List.mem_cons_self _ _)))
  | ADD3 =>
    intro hk
    simp only [executeInst, DecodedInst.getOperation, hop] at h
    obtain rfl := Except.ok.inj h
    exact Or.inl (pc_add3 s _ _ _ (hk .RD (List.mem_cons_self _ _)))
  | ADD4 =>
    intro _
    simp only [executeInst, DecodedInst.getOperation, hop] at h
    exact pc_add4 s _ _ _ s1 h
  | ADD5 =>
    intro hk
    simp only [executeInst, DecodedInst.getOperation, hop] at h
    obtain rfl := Except.ok.inj h
    exact Or.inl (pc_add5 s _ _ _ (hk .RD (List.mem_cons_self _ _)))
  | ADD6 =>
    intro hk
    simp only [executeInst, DecodedInst.getOperation, hop] at h
    obtain rfl := Except.ok.inj h
    exact Or.inl (pc_add6Add7 s _ _ _ (hk .RD (List.mem_cons_self _ _)))
  | ADD7 =>
    intro hk
    simp only [executeInst, DecodedInst.getOperation, hop] at h
    obtain rfl := Except.ok.inj h
    exact Or.inl (pc_add6Add7 s _ _ _ (hk .RD (List.mem_cons_self _ _)))
  | AND =>
    intro hk
    simp only [executeInst, DecodedInst.getOperation, hop] at h
    obtain rfl := Except.ok.inj h
    exact Or.inl (pc_and0 s _ _ _ (hk .RDN (List.mem_cons_self _ _)))
  | ASR1 =>
    intro hk
    simp only [executeInst, DecodedInst.getOperation, hop] at h
    exact Or.inl (pc_asr1 s _ _ _ s1 (hk .RD (List.mem_cons_self _ _)) h)
  | ASR2 =>
    intro hk
    simp only [executeInst, DecodedInst.getOperation, hop] at h
    obtain rfl := Except.ok.inj h
    exact Or.inl (pc_asr2 s _ _ _ (hk .RDN (List.mem_cons_self _ _)))
  | BIC =>
    intro hk
    simp only [executeInst, DecodedInst.getOperation, hop] at h
    obtain rfl := Except.ok.inj h
    exact Or.inl (pc_bic s _ _ _ (hk .RDN (List.mem_cons_self _ _)))
  | CMN =>
    intro _
    simp only [executeInst, DecodedInst.getOperation, hop] at h
    obtain rfl := Except.ok.inj h
    exact Or.inl (pc_cmn s _ _)
  | CMP1 =>
    intro _
    simp only [executeInst, DecodedInst.getOperation, hop] at h
    obtain rfl := Except.ok.inj h
    exact Or.inl (pc_cmp1 s _ _)
  | CMP2 =>
    intro _
    simp only [executeInst, DecodedInst.getOperation, hop] at h
    obtain rfl := Except.ok.inj h
    exact Or.inl (pc_cmp2Cmp3 s _ _)
  | CMP3 =>
    intro _
    simp only [executeInst, DecodedInst.getOperation, hop] at h
    obtain rfl := Except.ok.inj h
    exact Or.inl (pc_cmp2Cmp3 s _ _)
  | EOR =>
    intro hk
    simp only [executeInst, DecodedInst.getOperation, hop] at h
    obtain rfl := Except.ok.inj h
    exact Or.inl (pc_eor s _ _ _ (hk .RDN (List.mem_cons_self _ _)))
  | LSL1 =>
    intro hk
    simp only [executeInst, DecodedInst.getOperation, hop] at h
    exact Or.inl (pc_lsl1 s _ _ _ s1 (hk .RD (List.mem_cons_self _ _)) h)
  | LSL2 =>
    intro hk
    simp only [executeInst, DecodedInst.getOperation, hop] at h
    obtain rfl := Except.ok.inj h
    exact Or.inl (pc_lsl2 s _ _ _ (hk .RDN (List.mem_cons_self _ _)))
  | LSR1 =>
    intro hk
    simp only [executeInst, DecodedInst.getOperation, hop] at h
    exact Or.inl (pc_lsr1 s _ _ _ s1 (hk .RD (List.mem_cons_self _ _)) h)
  | LSR2 =>
    intro hk
    simp only [executeInst, DecodedInst.getOperation, hop] at h
    obtain rfl := Except.ok.inj h
    exact Or.inl (pc_lsr2 s _ _ _ (hk .RDN (List.mem_cons_self _ _)))
  | MOV1 =>
    intro hk
    simp only [executeInst, DecodedInst.getOperation, hop] at h
    obtain rfl := Except.ok.inj h
    exact Or.inl (pc_mov1 s _ _ (hk .RD (List.mem_cons_self _ _)))
  | MOV2 =>
    intro hk
    simp only [executeInst, DecodedInst.getOperation, hop] at h
    obtain rfl := Except.ok.inj h
    exact Or.inl (pc_mov2 s _ _ (hk .RD (List.mem_cons_self _ _)))
  | MUL =>
    intro hk
    simp only [executeInst, DecodedInst.getOperation, hop] at h
    obtain rfl := Except.ok.inj h
    exact Or.inl (pc_mul s _ _ _ (hk .RDN (List.mem_cons_self _ _)))
  | MVN =>
    intro hk
    simp only [executeInst, DecodedInst.getOperation, hop] at h
    obtain rfl := Except.ok.inj h
    exact Or.inl (pc_mvn s _ _ (hk .RD (List.mem_cons_self _ _)))
  | ORR =>
    intro hk
    simp only [executeInst, DecodedInst.getOperation, hop] at h
    obtain rfl := Except.ok.inj h
    exact Or.inl (pc_orr s _ _ _ (hk .RDN (List.mem_cons_self _ _)))
  | REV =>
    intro hk
    simp only [executeInst, DecodedInst.getOperation, hop] at h
    obtain rfl := Except.ok.inj h
    exact Or.inl (pc_rev s _ _ (hk .RD (List.mem_cons_self _ _)))
  | REV16 =>
    intro hk
    simp only [executeInst, DecodedInst.getOperation, hop] at h
    obtain rfl := Except.ok.inj h
    exact Or.inl (pc_rev16 s _ _ (hk .RD (List.mem_cons_self _ _)))
  | REVSH =>
    intro hk
    simp only [executeInst, DecodedInst.getOperation, hop] at h
    obtain rfl := Except.ok.inj h
    exact Or.inl (pc_revsh s _ _ (hk .RD (List.mem_cons_self _ _)))
  | ROR =>
    intro hk
    simp only [executeInst, DecodedInst.getOperation, hop] at h
    obtain rfl := Except.ok.inj h
    exact Or.inl (pc_ror s _ _ _ (hk .RDN (List.mem_cons_self _ _)))
  | NEG =>
    intro hk
    simp only [executeInst, DecodedInst.getOperation, hop] at h
    obtain rfl := Except.ok.inj h
    exact Or.inl (pc_neg s _ _ _ (hk .RD (List.mem_cons_self _ _)))
  | NOP =>
    intro _
    simp only [executeInst, DecodedInst.getOperation, hop] at h
    obtain rfl := Except.ok.inj h
    exact Or.inl (pc_nop s )
  | SBC =>
    intro hk
    simp only [executeInst, DecodedInst.getOperation, hop] at h
    obtain rfl := Except.ok.inj h
    exact Or.inl (pc_sbc s _ _ _ _ (hk .RDN (List.mem_cons_self _ _)))
  | SUB1 =>
    intro hk
    simp only [executeInst, DecodedInst.getOperation, hop] at h
    obtain rfl := Except.ok.inj h
    exact Or.inl (pc_sub1 s _ _ _ (hk .RD (List.mem_cons_self _ _)))
  | SUB2 =>
    intro hk
    simp only [executeInst, DecodedInst.getOperation, hop] at h
    obtain rfl := Except.ok.inj h
    exact Or.inl (pc_sub2 s _ _ _ (hk .RDN (List.mem_cons_self _ _)))
  | SUB3 =>
    intro hk
    simp only [executeInst, DecodedInst.getOperation, hop] at h
    obtain rfl := Except.ok.inj h
    exact Or.inl (pc_sub3 s _ _ _ (hk .RD (List.mem_cons_self _ _)))
  | SUB4 =>
    intro hk
    simp only [executeInst, DecodedInst.getOperation, hop] at h
    obtain rfl := Except.ok.inj h
    exact Or.inl (pc_sub4 s _ _ _ (hk .RDN (List.mem_cons_self _ _)))
  | TST =>
    intro _
    simp only [executeInst, DecodedInst.getOperation, hop] at h
    obtain rfl := Except.ok.inj h
    exact Or.inl (pc_tst s _ _)
  | UXTB =>
    intro hk
    simp only [executeInst, DecodedInst.getOperation, hop] at h
    obtain rfl := Except.ok.inj h
    exact Or.inl (pc_uxtb s _ _ (hk .RD (List.mem_cons_self _ _)))
  | UXTH =>
    intro hk
    simp only [executeInst, DecodedInst.getOperation, hop] at h
    obtain rfl := Except.ok.inj h
    exact Or.inl (pc_uxth s _ _ (hk .RD (List.mem_cons_self _ _)))
  | SXTB =>
    intro hk
    simp only [executeInst, DecodedInst.getOperation, hop] at h
    obtain rfl := Except.ok.inj h
    exact Or.inl (pc_sxtb s _ _ (hk .RD (List.mem_cons_self _ _)))
  | SXTH =>
    intro hk
    simp only [executeInst, DecodedInst.getOperation, hop] at h
    obtain rfl := Except.ok.inj h
    exact Or.inl (pc_sxth s _ _ (hk .RD (List.mem_cons_self _ _)))
  | BKPT =>
    intro _
    simp only [executeInst, DecodedInst.getOperation, hop] at h
    simp only [bkpt] at h; split at h <;> exact Except.noConfusion h
  | SVC =>
    intro _
    simp only [executeInst, DecodedInst.getOperation, hop] at h
    exact Except.noConfusion h
  | CPS =>
    intro _
    simp only [executeInst, DecodedInst.getOperation, hop] at h
    obtain rfl := Except.ok.inj h
    exact Or.inl (pc_cps s _)


theorem getNextInst_some (dc : Decode) (inst : DecodedInst) (dc1 : Decode)
    (h : dc.getNextInst = (some inst, dc1)) : dc.decodedInst = some inst := by
  unfold Decode.getNextInst at h
  split_ifs at h
  · simp only [Prod.mk.injEq] at h
    exact Option.noConfusion h.1
  · simp only [Prod.mk.injEq] at h
    exact h.1

/-- The dispatch of an execute tick, started in an entered state with a
record in decode that names PC in none of its written slots: PC is left alone,
or the flush flag of fetch is raised, or execute ends in FLUSH_PIPELINE. -/
theorem dispatch_pc (s t : Processor) (hin : s.execute.execState ∈ enteredStates)
    (hk : ∀ d, s.decode.decodedInst = some d → d.KeepsPc)
    (h : dispatch s = .ok t) :
    t.regFile.regs .PC = s.regFile.regs .PC ∨ t.fetch.flushPending = true ∨
      t.execute.execState = .FLUSH_PIPELINE := by
  unfold dispatch at h
  cases hst : s.execute.execState <;> rw [hst] at h hin <;> simp only [] at h
  · unfold executeNextInst at h
    split_ifs at h with hsome
    split at h
    · simp only [Except.ok.injEq] at h
      rw [← h]
      exact Or.inl rfl
    · rename_i inst decode hg
      simp only [] at h
      split at h
      · exact Except.noConfusion h
      · rename_i u hu
        simp only [Except.ok.injEq] at h
        rw [← h]
        have hr := executeInst_pc _ inst u (hk inst (getNextInst_some _ _ _ hg)) hu
        rcases hr with e | e
        · exact Or.inl e
        · exact Or.inr (Or.inl e)
  · exact absurd hin (by decide)
  · unfold executeLoadMemResp at h
    split at h
    · exact Except.noConfusion h
    · simp only [] at h
      split_ifs at h with hpc
      simp only [Except.ok.injEq] at h
      rw [← h]
      left
      simp only [setExecState, writeReg, RegFile.write]
      exact if_neg (Ne.symm hpc)
  · exact absurd hin (by decide)
  · unfold executeStoreMemResp at h
    split_ifs at h
    simp only [Except.ok.injEq] at h
    rw [← h]
    exact Or.inl rfl
  · exact absurd hin (by decide)
  · unfold executeMultipleLoadMemReq at h
    simp only [] at h
    split at h
    · exact Except.noConfusion h
    · split at h
      · exact Except.noConfusion h
      · split_ifs at h with hpc h1 h2 h3
        · simp only [Except.ok.injEq] at h
          rw [← h]
          exact Or.inr (Or.inr rfl)
        · split at h
          · exact Except.noConfusion h
          · simp only [Except.ok.injEq] at h
            rw [← h]
            left
            simp only [setExecState, writeReg, RegFile.write]
            exact if_neg (Ne.symm hpc)
        · simp only [Except.ok.injEq] at h
          rw [← h]
          left
          simp only [setExecState, writeReg, RegFile.write]
          exact if_neg (Ne.symm hpc)
  · exact absurd hin (by decide)
  · unfold executeMultipleStoreMemReq at h
    split_ifs at h
    · split at h
      · exact Except.noConfusion h
      · rename_i u hu
        simp only [Except.ok.injEq] at h
        rw [← h]
        obtain ⟨_, _, _, _, _, _, q7, _⟩ := requestNextStore_ok _ _ hu
        left
        show u.regFile.regs .PC = s.regFile.regs .PC
        rw [q7]
    · simp only [Except.ok.injEq] at h
      rw [← h]
      exact Or.inl rfl
  · simp only [Except.ok.injEq] at h
    rw [← h]
    exact Or.inr (Or.inl rfl)

/-- An execute tick, started in an entered state with a record in decode that
names PC in none of its written slots: PC is left alone, or the flush flag of
fetch is raised, or execute ends in FLUSH_PIPELINE; started in FLUSH_PIPELINE
it raises the flush flag of fetch. -/
theorem run_pc (s s1 : Processor) (hin : s.execute.execState ∈ enteredStates)
    (hk : ∀ d, s.decode.decodedInst = some d → d.KeepsPc)
    (h : Execute.run s = .ok s1) :
    (s1.regFile.regs .PC = s.regFile.regs .PC ∨ s1.fetch.flushPending = true ∨
      s1.execute.execState = .FLUSH_PIPELINE) ∧
    (s.execute.execState = .FLUSH_PIPELINE → s1.fetch.flushPending = true) := by
  rw [run_eq_dispatch] at h
  split at h
  · exact Except.noConfusion h
  · rename_i t ht
    obtain ⟨c1, c2, _⟩ := calculateExecCycles_ok _ _ h
    have hf : s1.fetch = t.fetch := congrArg (fun p => p.2.1) c1
    have he : s1.execute = t.execute := congrArg (fun p => p.2.2.2) c1
    have hd := dispatch_pc _ t (by exact hin) (by exact hk) ht
    refine ⟨?_, ?_⟩
    · rw [c2, hf, he]
      exact hd
    · intro hst
      rw [hf]
      unfold dispatch at ht
      simp only [hst] at ht
      simp only [Except.ok.injEq] at ht
      rw [← ht]
      rfl

theorem requestLoad_width (m : Memory) (c : Component) (a tok : Nat) (m1 : Memory)
    (h : m.requestLoad c a = some (tok, m1)) :
    m1.memAccessWidthWords = m.memAccessWidthWords := by
  unfold Memory.requestLoad at h
  split_ifs at h
  simp only [Option.some.injEq, Prod.mk.injEq] at h
  rw [← h.2]
  rfl

theorem requestStore_width (m : Memory) (c : Component) (a v tok : Nat) (m1 : Memory)
    (h : m.requestStore c a v = some (tok, m1)) :
    m1.memAccessWidthWords = m.memAccessWidthWords := by
  unfold Memory.requestStore at h
  split_ifs at h
  simp only [Option.some.injEq, Prod.mk.injEq] at h
  rw [← h.2]
  rfl

/-- The base address of the block of an address depends on the access width
of the memory only. -/
theorem base_congr (m m1 : Memory) (h : m1.memAccessWidthWords = m.memAccessWidthWords)
    (a : Nat) : m1.getMemAccessWidthBaseByteAddr a = m.getMemAccessWidthBaseByteAddr a := by
  unfold Memory.getMemAccessWidthBaseByteAddr Memory.widthMask
  rw [h]

/-- An execute tick keeps the access width of the memory. -/
theorem outcome_width (s s1 : Processor) (h : TickOutcome s s1) :
    s1.mem.memAccessWidthWords = s.mem.memAccessWidthWords := by
  obtain ⟨_, _, _, _, h5, _⟩ := h
  rcases h5 with ⟨e, _⟩ | ⟨e, _⟩ | ⟨e, _⟩
  · rw [e]
  · rw [e]
  · rcases e with ⟨a, tok, e⟩ | ⟨a, v, tok, e⟩
    · exact requestLoad_width _ _ _ _ _ e
    · exact requestStore_width _ _ _ _ _ _ e

/-- The block of the halfword before the next halfword is the block of the
halfword. -/
theorem base_prev_next (m : Memory) (p : Nat) :
    m.getMemAccessWidthBaseByteAddr (PREV_THUMB_INST (NEXT_THUMB_INST p)) =
      m.getMemAccessWidthBaseByteAddr p := by
  have e : PREV_THUMB_INST (NEXT_THUMB_INST p) = p % 4294967296 := by
    unfold PREV_THUMB_INST NEXT_THUMB_INST sub32 add32 THUMB_INST_BYTES
    omega
  have e2 : 4294967295 &&& not32 m.widthMask = not32 m.widthMask := by
    rw [Nat.and_comm, and_mask32]
    exact Nat.mod_eq_of_lt (not32_lt _)
  unfold Memory.getMemAccessWidthBaseByteAddr
  rw [e, ← and_mask32 p, Nat.and_assoc, e2]

/-- The buffer after a fetch tick, when valid: it has been filled for the
block of PC, or it is the valid buffer of before, no flush pending. -/
theorem fetch_tick_base (u : Processor) (hv : (Fetch.run u).fetch.instBufferValid = true) :
    (Fetch.run u).fetch.instBufferBaseAddr =
        u.mem.getMemAccessWidthBaseByteAddr (u.regFile.regs .PC) ∨
      (u.fetch.flushPending = false ∧ u.fetch.instBufferValid = true ∧
        (Fetch.run u).fetch.instBufferBaseAddr = u.fetch.instBufferBaseAddr) := by
  unfold Fetch.run at hv ⊢
  simp only [RegFile.readData] at hv ⊢
  cases hfl : u.fetch.flushPending <;> cases hiss : u.fetch.issuedMemAccess <;>
    cases hret : u.mem.retrieveWideLoad u.fetch.memToken <;>
    simp only [hfl, hiss, hret, Bool.false_eq_true, if_false, if_true] at hv ⊢ <;>
    split_ifs at hv ⊢ <;> (try split at hv) <;> (try split) <;> simp_all


/-- A cycle that returns, from an available state with execute in an entered
state: the record left in decode names PC in none of its written slots, and
unless execute ends in FLUSH_PIPELINE the buffer is in step with PC. -/
theorem cycle_instep (s s1 : Processor) (ha : s.Available)
    (hin : s.execute.execState ∈ enteredStates)
    (hk : ∀ d, s.decode.decodedInst = some d → d.KeepsPc)
    (hi : s.execute.execState ≠ .FLUSH_PIPELINE → s.InStep)
    (h : s.simulateCycle = .ok s1) :
    (∀ d, s1.decode.decodedInst = some d → d.KeepsPc) ∧
    (s1.execute.execState ≠ .FLUSH_PIPELINE → s1.InStep) := by
  unfold Processor.simulateCycle at h
  split at h
  · exact Except.noConfusion h
  · rename_i t1 hE
    split at h
    · exact Except.noConfusion h
    · rename_i t2 hD
      simp only [] at h
      split at h
      · exact Except.noConfusion h
      · rename_i m hM
        simp only [Except.ok.injEq] at h
        obtain ⟨_, _, _, a4, _⟩ := ha
        have hT := execute_tick { s with stats := s.stats.addCycle } t1 a4 hE
        have hw1 : t1.mem.memAccessWidthWords = s.mem.memAccessWidthWords :=
          outcome_width _ _ hT
        obtain ⟨_, _, o3, o4, _, _⟩ := hT
        have o3a : t1.decode.decodedInst = s.decode.decodedInst ∨
            t1.decode.decodedInst = none := o3
        have o4a : t1.fetch = { s.fetch with flushPending := t1.fetch.flushPending } := o4
        obtain ⟨p1, p2⟩ := run_pc { s with stats := s.stats.addCycle } t1 hin hk hE
        have p1a : t1.regFile.regs .PC = s.regFile.regs .PC ∨ t1.fetch.flushPending = true ∨
            t1.execute.execState = .FLUSH_PIPELINE := p1
        have p2a : s.execute.execState = .FLUSH_PIPELINE → t1.fetch.flushPending = true := p2
        have hk1 : ∀ d, t1.decode.decodedInst = some d → d.KeepsPc := by
          intro d hd
          rcases o3a with e | e
          · exact hk d (by rw [← e]; exact hd)
          · rw [e] at hd
            exact Option.noConfusion hd
        obtain ⟨hk2, hpc2⟩ := decode_tick_pc t1 t2 hD hk1
        obtain ⟨d1, d2, d3, _⟩ := decode_tick_frame t1 t2 hD
        obtain ⟨f1, f2, f3, _, _, _, _, _, _, _, _, f12⟩ := fetch_frame t2
        have hw3 : (Fetch.run t2).mem.memAccessWidthWords = t2.mem.memAccessWidthWords := by
          rcases f12 with e | ⟨tok, e⟩ | ⟨tok, e⟩
          · rw [e]
          · exact requestLoad_width _ _ _ _ _ e
          · exact requestLoad_width _ _ _ _ _ e
        have hw4 : m.memAccessWidthWords = (Fetch.run t2).mem.memAccessWidthWords :=
          (run_ring _ _ hM).2.2.2.2.1
        have hw : m.memAccessWidthWords = s.mem.memAccessWidthWords := by
          rw [hw4, hw3, d1, hw1]
        have hw2 : t2.mem.memAccessWidthWords = s.mem.memAccessWidthWords := by
          rw [d1, hw1]
        rw [← h]
        refine ⟨?_, ?_⟩
        · show ∀ d, (Fetch.run t2).decode.decodedInst = some d → d.KeepsPc
          rw [f2]
          exact hk2
        · intro hst hv
          have hst1 : t1.execute.execState ≠ .FLUSH_PIPELINE := by
            have e : (Fetch.run t2).execute.execState ≠ .FLUSH_PIPELINE := hst
            rw [f3, d3] at e
            exact e
          have hv1 : (Fetch.run t2).fetch.instBufferValid = true := hv
          show (Fetch.run t2).fetch.instBufferBaseAddr =
              m.getMemAccessWidthBaseByteAddr ((Fetch.run t2).regFile.regs .PC) ∨
            (Fetch.run t2).fetch.instBufferBaseAddr =
              m.getMemAccessWidthBaseByteAddr (PREV_THUMB_INST ((Fetch.run t2).regFile.regs .PC))
          rw [f1, base_congr s.mem m hw, base_congr s.mem m hw]
          rcases fetch_tick_base t2 hv1 with e | ⟨e1, e2, e3⟩
          · left
            rw [e, base_congr s.mem t2.mem hw2]
          · rw [e3, d2]
            rw [d2] at e1 e2
            have hb : t1.fetch.instBufferBaseAddr = s.fetch.instBufferBaseAddr := by
              rw [o4a]
            have hvs : s.fetch.instBufferValid = true := by
              rw [o4a] at e2
              exact e2
            have hpc1 : t1.regFile.regs .PC = s.regFile.regs .PC := by
              rcases p1a with e | e | e
              · exact e
              · rw [e1] at e
                exact absurd e (by decide)
              · exact absurd e hst1
            have hs0 : s.execute.execState ≠ .FLUSH_PIPELINE := by
              intro e
              have := p2a e
              rw [e1] at this
              exact absurd this (by decide)
            rcases hpc2 with e | ⟨_, _, _, e4, e5⟩
            · rw [e, hpc1, hb]
              exact hi hs0 hvs
            · right
              rw [e5, base_prev_next, ← e4, base_congr s.mem t1.mem hw1]

/-- Cycles keep the buffer in step with PC outside FLUSH_PIPELINE. -/
theorem cycles_instep (n : Nat) : ∀ (s s1 : Processor), s.Available →
    s.execute.execState ∈ enteredStates →
    (∀ d, s.decode.decodedInst = some d → d.KeepsPc) →
    (s.execute.execState ≠ .FLUSH_PIPELINE → s.InStep) →
    s.simulateCycles n = .ok s1 →
    (s1.execute.execState ≠ .FLUSH_PIPELINE → s1.InStep) := by
  induction n with
  | zero =>
    intro s s1 _ _ _ hi h
    simp only [Processor.simulateCycles, Except.ok.injEq] at h
    rw [← h]
    exact hi
  | succ n ih =>
    intro s s1 ha hin hk hi h
    simp only [Processor.simulateCycles] at h
    split at h
    · exact Except.noConfusion h
    · rename_i t ht
      obtain ⟨c1, c2⟩ := cycle_instep s t ha hin hk hi ht
      exact ih t s1 (cycle_available s t ha ht) (cycle_state s t ht).1 c1 c2 h

/-- Every state that the simulator reaches with execute outside FLUSH_PIPELINE
has the buffer in step with PC. -/
theorem run_instep (file : Option (List Nat)) (n w t : Nat) (s : Processor)
    (h : Simulator.run file n w t = .ok s) (hst : s.execute.execState ≠ .FLUSH_PIPELINE) :
    s.InStep := by
  unfold Simulator.run at h
  split at h
  · exact Except.noConfusion h
  · rename_i s0 h0
    obtain ⟨r1, r2, r3, _, r5, _, r7, _⟩ := reset_frame _ _ _ h0
    refine cycles_instep t s0 s ⟨?_, ?_, ?_, ?_, ?_⟩ ?_ ?_ ?_ h hst
    · rw [r5, r7]
      rfl
    · rw [r3]
      rfl
    · rw [r2]
      rfl
    · rw [r1]
      rfl
    · intro _
      rw [r2, r1]
      exact ⟨rfl, rfl⟩
    · rw [r1]
      exact entered_of_eq _ (Or.inl rfl)
    · intro d hd
      rw [r2] at hd
      exact Option.noConfusion hd
    · intro _ hv
      rw [r3] at hv
      have e : (Processor.new n w).fetch.instBufferValid = false := rfl
      rw [e] at hv
      exact Bool.noConfusion hv


/-- C31: in every state that the simulator reaches with execute outside
FLUSH_PIPELINE, a valid instruction buffer has the base address of the block
of PC or of the block of PC - 2; and `Fetch::getNextInst` ends fatally exactly
on a valid buffer, without a flush pending, whose base is not the base of the
block of PC, and has no other error. In the reached states with execute in
FLUSH_PIPELINE the coherence is broken: from a reached state in which the
multiple load of POP with PC is about to deliver the word `x` for PC, the
execute tick writes PC without raising the flush flags, decode (holding a
complete record) only refreshes it, and fetch, execute being busy, leaves its
valid buffer and the base alone: the ticks end with the buffer valid at its
old base and PC at `x & ~1`, wherever that is, and a call of `getNextInst` in
that state is fatal when the target lies in another block. -/
theorem C31_buffer_coherence (file : Option (List Nat)) (n w t : Nat) (s : Processor)
    (hrun : Simulator.run file n w t = .ok s) :
    (s.execute.execState ≠ .FLUSH_PIPELINE → s.fetch.instBufferValid = true →
      s.fetch.instBufferBaseAddr = s.mem.getMemAccessWidthBaseByteAddr (s.regFile.regs .PC) ∨
      s.fetch.instBufferBaseAddr =
        s.mem.getMemAccessWidthBaseByteAddr (PREV_THUMB_INST (s.regFile.regs .PC))) ∧
    (∀ u : Processor,
      (Fetch.getNextInst u = .error (.fatal
          "Unpredictable state: instruction buffer is valid and out of sync with pc") ↔
        u.fetch.instBufferValid = true ∧ u.fetch.flushPending = false ∧
          u.mem.getMemAccessWidthBaseByteAddr (u.regFile.regs .PC) ≠
            u.fetch.instBufferBaseAddr) ∧
      (∀ e, Fetch.getNextInst u = .error e → e = .fatal
        "Unpredictable state: instruction buffer is valid and out of sync with pc")) ∧
    (∀ (x : Nat) (d : DecodedInst),
      s.execute.execState = .MULTIPLE_LOAD_MEM_REQ → s.execute.mloadTmps.regList = [.PC] →
      s.mem.retrieveLoad s.execute.mloadTmps.memToken = some x →
      s.decode.decodedInst = some d → s.decode.decodedHalfInst = false →
      s.fetch.instBufferValid = true → s.fetch.issuedMemAccess = false →
      ∃ s1 s2, Execute.run { s with stats := s.stats.addCycle } = .ok s1 ∧
        Decode.run s1 = .ok s2 ∧
        (Fetch.run s2).fetch = s.fetch ∧ (Fetch.run s2).mem = s.mem ∧
        (Fetch.run s2).regFile.regs .PC = x &&& not32 1 ∧
        (Fetch.run s2).execute.execState = .FLUSH_PIPELINE ∧
        (s.mem.getMemAccessWidthBaseByteAddr (x &&& not32 1) ≠ s.fetch.instBufferBaseAddr →
          Fetch.getNextInst (Fetch.run s2) = .error (.fatal
            "Unpredictable state: instruction buffer is valid and out of sync with pc"))) := by
  refine ⟨fun hst => run_instep file n w t s hrun hst, fun u => getNextInst_fatal_iff u, ?_⟩
  intro x d hst hl hresp hd hhalf hvalid hiss
  obtain ⟨_, hfl, hdf, _, _⟩ := run_available file n w t s hrun
  obtain ⟨s1, h1, p1, p2, p3, p4, p5⟩ :=
    pop_pc_tick { s with stats := s.stats.addCycle } x hst hl hresp
  have p3a : s1.decode = s.decode := p3
  have p4a : s1.fetch = s.fetch := p4
  have p5a : s1.mem = s.mem := p5
  obtain ⟨s2, h2, q1, q2, q3, q4⟩ := decode_keeps s1 d (by rw [p3a]; exact hd)
    (by rw [p3a]; exact hhalf) (by rw [p3a]; exact hdf)
  have hF := fetch_idle s2 (by rw [q2, p4a]; exact hvalid) (by rw [q2, p4a]; exact hfl)
    (by rw [q2, p4a]; exact hiss) (by rw [q4]; exact p2)
  refine ⟨s1, s2, h1, h2, ?_, ?_, ?_, ?_, ?_⟩
  · rw [hF, q2, p4a]
  · rw [hF, q3, p5a]
  · rw [hF, q1]
    exact p1
  · rw [hF, q4]
    exact p2
  · intro hne
    rw [hF]
    refine ((getNextInst_fatal_iff s2).1).2 ⟨?_, ?_, ?_⟩
    · rw [q2, p4a]
      exact hvalid
    · rw [q2, p4a]
      exact hfl
    · rw [q1, q2, q3, p1, p4a, p5a]
      exact hne

/-- Witness of C31 on the image `popPcFarImage` (64 words, blocks of one
word): after four cycles execute is in MULTIPLE_LOAD_MEM_REQ, the buffer is
valid at base 12 and in step with PC, and `POP {PC}` receives the word `0x21`;
after the fifth cycle execute is in FLUSH_PIPELINE and the buffer is still
valid at base 12 with PC = 32, and 12 is the base neither of the block of 32
nor of the block of 30. On the image `popPcBlFarImage`, where the first half
of a BL follows the POP, decode calls `getNextInst` in the fifth cycle and the
run ends with the fatal exit. -/
theorem C31_buffer_coherence_witness :
    ∃ s s5, Simulator.run (some popPcFarImage) 64 1 4 = .ok s ∧
      s.fetch.instBufferValid = true ∧ s.fetch.instBufferBaseAddr = 12 ∧
      (s.fetch.instBufferBaseAddr = s.mem.getMemAccessWidthBaseByteAddr (s.regFile.regs .PC) ∨
        s.fetch.instBufferBaseAddr =
          s.mem.getMemAccessWidthBaseByteAddr (PREV_THUMB_INST (s.regFile.regs .PC))) ∧
      (∃ s1 s2, Execute.run { s with stats := s.stats.addCycle } = .ok s1 ∧
        Decode.run s1 = .ok s2 ∧
        (Fetch.run s2).fetch = s.fetch ∧ (Fetch.run s2).regFile.regs .PC = 32) ∧
      Simulator.run (some popPcFarImage) 64 1 5 = .ok s5 ∧
      s5.execute.execState = .FLUSH_PIPELINE ∧
      s5.fetch.instBufferValid = true ∧ s5.fetch.instBufferBaseAddr = 12 ∧
      s5.regFile.regs .PC = 32 ∧
      s5.mem.getMemAccessWidthBaseByteAddr (s5.regFile.regs .PC) = 32 ∧
      s5.mem.getMemAccessWidthBaseByteAddr (PREV_THUMB_INST (s5.regFile.regs .PC)) = 28 ∧
      Simulator.run (some popPcBlFarImage) 64 1 5 = .error (.fatal
        "Unpredictable state: instruction buffer is valid and out of sync with pc") := by
  obtain ⟨s, hs, hp⟩ := ok_of_map (Simulator.run (some popPcFarImage) 64 1 4)
    (fun s => (s.execute.execState, s.execute.mloadTmps.regList,
      s.mem.retrieveLoad s.execute.mloadTmps.memToken))
    (.MULTIPLE_LOAD_MEM_REQ, [.PC], some 0x21) (by decide)
  obtain ⟨t, ht, hq⟩ := ok_of_map (Simulator.run (some popPcFarImage) 64 1 4)
    (fun s => (s.decode.decodedInst.isSome, s.decode.decodedHalfInst,
      s.fetch.instBufferValid))
    (true, false, true) (by decide)
  obtain ⟨u, hu, hr⟩ := ok_of_map (Simulator.run (some popPcFarImage) 64 1 4)
    (fun s => (s.fetch.issuedMemAccess, s.fetch.instBufferBaseAddr)) (false, 12) (by decide)
  obtain rfl : s = t := Except.ok.inj (hs.symm.trans ht)
  obtain rfl : s = u := Except.ok.inj (hs.symm.trans hu)
  simp only [Prod.mk.injEq] at hp hq hr
  obtain ⟨d, hd⟩ : ∃ d, s.decode.decodedInst = some d := by
    cases h : s.decode.decodedInst with
    | none => rw [h] at hq; exact Bool.noConfusion hq.1
    | some d => exact ⟨d, rfl⟩
  have hw : (0x21 : Nat) &&& not32 1 = 32 := by decide
  obtain ⟨c1, _, c3⟩ := C31_buffer_coherence (some popPcFarImage) 64 1 4 s hs
  obtain ⟨s1, s2, h1, h2, h3, _, h5, _⟩ := c3 0x21 d hp.1 hp.2.1 hp.2.2 hd hq.2.1 hq.2.2 hr.1
  rw [hw] at h5
  obtain ⟨s5, hs5, hp5⟩ := ok_of_map (Simulator.run (some popPcFarImage) 64 1 5)
    (fun s => (s.fetch.instBufferValid, s.fetch.instBufferBaseAddr, s.regFile.regs .PC,
      s.mem.getMemAccessWidthBaseByteAddr (s.regFile.regs .PC),
      s.mem.getMemAccessWidthBaseByteAddr (PREV_THUMB_INST (s.regFile.regs .PC))))
    (true, 12, 32, 32, 28) (by decide)
  obtain ⟨t5, ht5, hq5⟩ := ok_of_map (Simulator.run (some popPcFarImage) 64 1 5)
    (fun s => s.execute.execState) .FLUSH_PIPELINE (by decide)
  obtain rfl : s5 = t5 := Except.ok.inj (hs5.symm.trans ht5)
  simp only [Prod.mk.injEq] at hp5
  exact ⟨s, s5, hs, hq.2.2, hr.2, c1 (by rw [hp.1]; decide) hq.2.2, ⟨s1, s2, h1, h2, h3, h5⟩,
    hs5, hq5, hp5.1, hp5.2.1, hp5.2.2.1, hp5.2.2.2.1, hp5.2.2.2.2,
    fatal_of_message _ _ (by decide)⟩


/-! ## The conditional branch on the flags: C5 -/

/-- `Execute::checkCondition` returns the reading of the condition table on
the flags of the status word. -/
theorem checkCondition_spec (cond : DecodedCondition) (xpsr : Nat)
    (h0 : cond ≠ .U0) (h1 : cond ≠ .U1) :
    ∃ t, conditionSpec cond xpsr = some t ∧ checkCondition cond xpsr = .ok t := by
  have hn : getXpsrN xpsr = (xpsr.testBit 31).toNat := getXpsrBit_eq 31 xpsr
  have hz : getXpsrZ xpsr = (xpsr.testBit 30).toNat := getXpsrBit_eq 30 xpsr
  have hc : getXpsrC xpsr = (xpsr.testBit 29).toNat := getXpsrBit_eq 29 xpsr
  have hv : getXpsrV xpsr = (xpsr.testBit 28).toNat := getXpsrBit_eq 28 xpsr
  unfold conditionSpec checkCondition
  simp only [hn, hz, hc, hv]
  generalize xpsr.testBit 31 = n
  generalize xpsr.testBit 30 = z
  generalize xpsr.testBit 29 = c
  generalize xpsr.testBit 28 = v
  cases cond <;>
    first
    | exact absurd rfl h0
    | exact absurd rfl h1
    | (cases n <;> cases z <;> cases c <;> cases v <;> exact ⟨_, rfl, rfl⟩)

/-- C5: for every condition EQ..LE, captured xPSR, 8-bit immediate and
captured pc, the condition is evaluated on the flags N, Z, C, V of the
captured xPSR (bits 31..28, condition table of ARMv6-M: `conditionSpec`); if
it holds, `b1` writes `PC = (pc + (SignExtend8(imm) << 1)) mod 2^32`, sets both
flush requests and bumps `branchTaken`; otherwise it leaves the registers and
the flush requests alone and bumps `branchNotTaken`; in both cases the count
of B rises by one and no other count changes. -/
theorem C5_b1_branches_on_flags (s : Processor) (pc imm dxpsr : Nat) (cond : DecodedCondition)
    (himm : imm < 256) (h0 : cond ≠ .U0) (h1 : cond ≠ .U1) :
    ∃ taken s', conditionSpec cond dxpsr = some taken ∧
      checkCondition cond dxpsr = .ok taken ∧
      b1 s .PC pc imm dxpsr cond = .ok s' ∧
      s'.stats.instCount .B = s.stats.instCount .B + 1 ∧
      (∀ i, i ≠ .B → s'.stats.instCount i = s.stats.instCount i) ∧
      (taken = true →
        ((s'.regFile.regs .PC : Nat) : Int) = ((pc : Int) + 2 * signExtend 8 imm) % 4294967296 ∧
        (∀ r, r ≠ .PC → s'.regFile.regs r = s.regFile.regs r) ∧
        s'.decode.flushPending = true ∧ s'.fetch.flushPending = true ∧
        s'.stats.branchTaken = s.stats.branchTaken + 1 ∧
        s'.stats.branchNotTaken = s.stats.branchNotTaken) ∧
      (taken = false →
        s'.regFile = s.regFile ∧ s'.decode = s.decode ∧ s'.fetch = s.fetch ∧
        s'.stats.branchNotTaken = s.stats.branchNotTaken + 1 ∧
        s'.stats.branchTaken = s.stats.branchTaken) := by
  obtain ⟨t, hspec, ht⟩ := checkCondition_spec cond dxpsr h0 h1
  cases t with
  | false =>
    refine ⟨false, addInstruction (addBranchNotTaken s) .B, hspec, ht, by simp only [b1, ht],
      ?_, ?_, ?_, ?_⟩
    · simp [addInstruction, addBranchNotTaken, Statistics.addInstruction,
        Statistics.addBranchNotTaken]
    · intro i hi
      simp [addInstruction, addBranchNotTaken, Statistics.addInstruction,
        Statistics.addBranchNotTaken, hi]
    · intro h; cases h
    · intro _
      simp [addInstruction, addBranchNotTaken, Statistics.addInstruction,
        Statistics.addBranchNotTaken]
  | true =>
    refine ⟨true, addInstruction (flushPipeline (writeReg (addBranchTaken s) .PC
      (add32 (shl32 (if GET_BIT_AT_POS imm 7 = 0 then imm else imm ||| shl32 (not32 0) 7) 1) pc)))
      .B, hspec, ht, by simp only [b1, ht], ?_, ?_, ?_, ?_⟩
    · simp [addInstruction, addBranchTaken, flushPipeline, writeReg, Statistics.addInstruction,
        Statistics.addBranchTaken]
    · intro i hi
      simp [addInstruction, addBranchTaken, flushPipeline, writeReg, Statistics.addInstruction,
        Statistics.addBranchTaken, hi]
    · intro _
      refine ⟨?_, ?_, ?_, ?_, ?_, ?_⟩
      · have := b1_target pc imm himm
        simpa [addInstruction, addBranchTaken, flushPipeline, writeReg, RegFile.write] using this
      · intro r hr
        simp [addInstruction, addBranchTaken, flushPipeline, writeReg, RegFile.write, hr]
      · simp [addInstruction, addBranchTaken, flushPipeline, writeReg]
      · simp [addInstruction, addBranchTaken, flushPipeline, writeReg]
      · simp [addInstruction, addBranchTaken, flushPipeline, writeReg, Statistics.addInstruction,
          Statistics.addBranchTaken]
      · simp [addInstruction, addBranchTaken, flushPipeline, writeReg, Statistics.addInstruction,
          Statistics.addBranchTaken]
    · intro h; cases h

/-- Witness of C5 on the fresh processor: BEQ with immediate 0xFE and captured
pc 12 on a status word with Z set (bit 30) is taken, writes PC = 8 and raises
both flush flags; on the status word 0 (Z clear) it is not taken and leaves
the register file alone; BNE, on the same words the other way round, is not
taken on the first. -/
theorem C5_b1_branches_on_flags_witness :
    (∃ s', b1 (Processor.new 1024 1) .PC 12 254 0x40000000 .EQ = .ok s' ∧
      s'.regFile.regs .PC = 8 ∧ s'.fetch.flushPending = true ∧
      s'.stats.branchTaken = 1 ∧ s'.stats.instCount .B = 1) ∧
    (∃ s', b1 (Processor.new 1024 1) .PC 12 254 0 .EQ = .ok s' ∧
      s'.regFile = (Processor.new 1024 1).regFile ∧ s'.fetch.flushPending = false ∧
      s'.stats.branchNotTaken = 1 ∧ s'.stats.instCount .B = 1) ∧
    (∃ s', b1 (Processor.new 1024 1) .PC 12 254 0x40000000 .NE = .ok s' ∧
      s'.regFile = (Processor.new 1024 1).regFile ∧ s'.stats.branchNotTaken = 1) := by
  refine ⟨?_, ?_, ?_⟩
  · obtain ⟨t, s', h1, _, h3, h4, _, h6, _⟩ := C5_b1_branches_on_flags (Processor.new 1024 1)
      12 254 0x40000000 .EQ (by norm_num) (by decide) (by decide)
    have ht : t = true := by
      have e : conditionSpec .EQ 0x40000000 = some true := by decide
      rw [e] at h1
      exact (Option.some.inj h1).symm
    obtain ⟨a, _, _, d, e, _⟩ := h6 ht
    refine ⟨s', h3, ?_, d, by rw [e]; rfl, by rw [h4]; rfl⟩
    have e8 : (((12 : Nat) : Int) + 2 * signExtend 8 254) % 4294967296 = ((8 : Nat) : Int) := by
      decide
    exact Int.ofNat.inj (a.trans e8)
  · obtain ⟨t, s', h1, _, h3, h4, _, _, h7⟩ := C5_b1_branches_on_flags (Processor.new 1024 1)
      12 254 0 .EQ (by norm_num) (by decide) (by decide)
    have ht : t = false := by
      have e : conditionSpec .EQ 0 = some false := by decide
      rw [e] at h1
      exact (Option.some.inj h1).symm
    obtain ⟨a, _, c, d, _⟩ := h7 ht
    exact ⟨s', h3, a, by rw [c]; rfl, by rw [d]; rfl, by rw [h4]; rfl⟩
  · obtain ⟨t, s', h1, _, h3, _, _, _, h7⟩ := C5_b1_branches_on_flags (Processor.new 1024 1)
      12 254 0x40000000 .NE (by norm_num) (by decide) (by decide)
    have ht : t = false := by
      have e : conditionSpec .NE 0x40000000 = some false := by decide
      rw [e] at h1
      exact (Option.some.inj h1).symm
    obtain ⟨a, _, _, d, _⟩ := h7 ht
    exact ⟨s', h3, a, by rw [d]; rfl⟩


/-! ## Register lists of the multi-register encodings: C22 -/

/-- C22: the main decoder on the four multi-register encodings returns a
complete record `r`. For POP the list `L` is bits 0..7 of the halfword plus
bit 15 (PC) iff bit 8 is set, for PUSH bits 0..7 plus bit 14 (LR) iff bit 8 is
set, for LDMIA and STMIA bits 0..7. When `L` is not empty the record has the
operation of the encoding, the register list `L` and, in RN, the base register
(the active stack pointer for POP and PUSH, the register in bits 8..10 for
LDMIA and STMIA) with its current value; when `L` is empty the record is the
placeholder: operation SVC with immediate 66, and its register list is the
one the decoder started with. -/
theorem C22_register_list_fields (inst pc : Nat) (activeSp : Reg) (rf : RegFile)
    (d : DecodedInst) :
    (inst &&& 0xFE00 = 0xBC00 → ∃ r,
      Decode.decodeFromAdc inst pc activeSp rf d = .ok (r, false) ∧
      (inst % 256 + 32768 * (inst / 256 % 2) ≠ 0 →
        r.op = .POP ∧ r.regList = inst % 256 + 32768 * (inst / 256 % 2) ∧
        r.regList.testBit 15 = inst.testBit 8 ∧
        (∀ i, i < 8 → r.regList.testBit i = inst.testBit i) ∧
        r.regsNumber .RN = activeSp ∧ r.regsData .RN = rf.regs activeSp ∧
        r = ((d.setOperation .POP).setRegister .RN activeSp (rf.regs activeSp)).setRegisterList
          (inst % 256 + 32768 * (inst / 256 % 2))) ∧
      (inst % 256 + 32768 * (inst / 256 % 2) = 0 →
        r.op = .SVC ∧ r.im = 66 ∧ r.regList = d.regList ∧
        r = Decode.issuePlaceholderInst d)) ∧
    (inst &&& 0xFE00 = 0xB400 → ∃ r,
      Decode.decodeFromAdc inst pc activeSp rf d = .ok (r, false) ∧
      (inst % 256 + 16384 * (inst / 256 % 2) ≠ 0 →
        r.op = .PUSH ∧ r.regList = inst % 256 + 16384 * (inst / 256 % 2) ∧
        r.regList.testBit 14 = inst.testBit 8 ∧
        (∀ i, i < 8 → r.regList.testBit i = inst.testBit i) ∧
        r.regsNumber .RN = activeSp ∧ r.regsData .RN = rf.regs activeSp ∧
        r = ((d.setOperation .PUSH).setRegister .RN activeSp (rf.regs activeSp)).setRegisterList
          (inst % 256 + 16384 * (inst / 256 % 2))) ∧
      (inst % 256 + 16384 * (inst / 256 % 2) = 0 →
        r.op = .SVC ∧ r.im = 66 ∧ r.regList = d.regList ∧
        r = Decode.issuePlaceholderInst d)) ∧
    (inst &&& 0xF800 = 0xC800 → ∃ r,
      Decode.decodeFromAdc inst pc activeSp rf d = .ok (r, false) ∧
      (inst % 256 ≠ 0 →
        r.op = .LDMIA ∧ r.regList = inst % 256 ∧
        (∀ i, i < 8 → r.regList.testBit i = inst.testBit i) ∧
        r.regsNumber .RN = Reg.fromNat ((inst >>> 8) &&& 0x7) ∧
        r.regsData .RN = rf.regs (Reg.fromNat ((inst >>> 8) &&& 0x7)) ∧
        r = ((d.setOperation .LDMIA).setRegister .RN (Reg.fromNat ((inst >>> 8) &&& 0x7))
          (rf.regs (Reg.fromNat ((inst >>> 8) &&& 0x7)))).setRegisterList (inst % 256)) ∧
      (inst % 256 = 0 →
        r.op = .SVC ∧ r.im = 66 ∧ r.regList = d.regList ∧
        r = Decode.issuePlaceholderInst d)) ∧
    (inst &&& 0xF800 = 0xC000 → ∃ r,
      Decode.decodeFromAdc inst pc activeSp rf d = .ok (r, false) ∧
      (inst % 256 ≠ 0 →
        r.op = .STMIA ∧ r.regList = inst % 256 ∧
        (∀ i, i < 8 → r.regList.testBit i = inst.testBit i) ∧
        r.regsNumber .RN = Reg.fromNat ((inst >>> 8) &&& 0x7) ∧
        r.regsData .RN = rf.regs (Reg.fromNat ((inst >>> 8) &&& 0x7)) ∧
        r = ((d.setOperation .STMIA).setRegister .RN (Reg.fromNat ((inst >>> 8) &&& 0x7))
          (rf.regs (Reg.fromNat ((inst >>> 8) &&& 0x7)))).setRegisterList (inst % 256)) ∧
      (inst % 256 = 0 →
        r.op = .SVC ∧ r.im = 66 ∧ r.regList = d.regList ∧
        r = Decode.issuePlaceholderInst d)) := by
  have h8 : (inst >>> 0) &&& 0xFF = inst % 256 := by
    rw [Nat.shiftRight_zero]
    exact and_mask8 inst
  have hlow : ∀ i, i < 8 → (inst % 256).testBit i = inst.testBit i := by
    intro i hi
    have e : (256 : Nat) = 2 ^ 8 := by norm_num
    rw [e, Nat.testBit_mod_two_pow]
    simp [hi]
  have hbit8 : inst / 256 % 2 = (inst.testBit 8).toNat := by
    have e : (256 : Nat) = 2 ^ 8 := by norm_num
    rw [e, Nat.toNat_testBit]
  have hstack : ∀ b, 8 ≤ b → b < 32 →
      (inst % 256 + 2 ^ b * (inst / 256 % 2)).testBit b = inst.testBit 8 ∧
      ∀ i, i < 8 → (inst % 256 + 2 ^ b * (inst / 256 % 2)).testBit i = inst.testBit i := by
    intro b hb hb'
    have hlt : inst % 256 < 2 ^ b :=
      lt_of_lt_of_le (Nat.mod_lt _ (by norm_num))
        (le_trans (by norm_num : 256 ≤ 2 ^ 8) (Nat.pow_le_pow_right (by norm_num) hb))
    have hor : inst % 256 + 2 ^ b * (inst / 256 % 2) =
        2 ^ b * (inst / 256 % 2) ||| inst % 256 := by
      rw [Nat.add_comm]
      exact Nat.mul_add_lt_is_or hlt _
    rw [hor, hbit8]
    refine ⟨?_, ?_⟩
    · rw [Nat.testBit_or, Nat.testBit_lt_two_pow hlt, Bool.or_false,
        Nat.testBit_mul_pow_two]
      cases inst.testBit 8 <;> simp
    · intro i hi
      rw [Nat.testBit_or, hlow i hi, Nat.testBit_mul_pow_two]
      have : ¬ b ≤ i := by omega
      simp [this]
  refine ⟨?_, ?_, ?_, ?_⟩
  · intro e
    rw [decodeAt_POP inst pc activeSp rf d e]
    have hl := stack_list_eq inst 15 (by norm_num) (by norm_num)
    have hs := hstack 15 (by norm_num) (by norm_num)
    norm_num only at hl hs
    simp only [Reg.toNat]
    rw [hl]
    by_cases hz : inst % 256 + 32768 * (inst / 256 % 2) = 0
    · rw [if_pos hz]
      exact ⟨_, rfl, fun hne => absurd hz hne, fun _ => ⟨rfl, rfl, rfl, rfl⟩⟩
    · rw [if_neg hz]
      exact ⟨_, rfl, fun _ => ⟨rfl, rfl, hs.1, hs.2, by simp [DecodedInst.setRegister,
        DecodedInst.setRegisterList], by simp [DecodedInst.setRegister,
        DecodedInst.setRegisterList, RegFile.readData], rfl⟩, fun h0 => absurd h0 hz⟩
  · intro e
    rw [decodeAt_PUSH inst pc activeSp rf d e]
    have hl := stack_list_eq inst 14 (by norm_num) (by norm_num)
    have hs := hstack 14 (by norm_num) (by norm_num)
    norm_num only at hl hs
    simp only [Reg.toNat]
    rw [hl]
    by_cases hz : inst % 256 + 16384 * (inst / 256 % 2) = 0
    · rw [if_pos hz]
      exact ⟨_, rfl, fun hne => absurd hz hne, fun _ => ⟨rfl, rfl, rfl, rfl⟩⟩
    · rw [if_neg hz]
      exact ⟨_, rfl, fun _ => ⟨rfl, rfl, hs.1, hs.2, by simp [DecodedInst.setRegister,
        DecodedInst.setRegisterList], by simp [DecodedInst.setRegister,
        DecodedInst.setRegisterList, RegFile.readData], rfl⟩, fun h0 => absurd h0 hz⟩
  · intro e
    rw [decodeAt_LDMIA inst pc activeSp rf d e]
    simp only [h8, setRegisterN_ok _ _ _ _ (and_seven_lt _)]
    by_cases hz : inst % 256 = 0
    · rw [if_pos hz]
      exact ⟨_, rfl, fun hne => absurd hz hne, fun _ => ⟨rfl, rfl, rfl, rfl⟩⟩
    · rw [if_neg hz]
      exact ⟨_, rfl, fun _ => ⟨rfl, rfl, hlow, by simp [DecodedInst.setRegister,
        DecodedInst.setRegisterList], by simp [DecodedInst.setRegister,
        DecodedInst.setRegisterList, RegFile.readDataN], rfl⟩, fun h0 => absurd h0 hz⟩
  · intro e
    rw [decodeAt_STMIA inst pc activeSp rf d e]
    simp only [h8, setRegisterN_ok _ _ _ _ (and_seven_lt _)]
    by_cases hz : inst % 256 = 0
    · rw [if_pos hz]
      exact ⟨_, rfl, fun hne => absurd hz hne, fun _ => ⟨rfl, rfl, rfl, rfl⟩⟩
    · rw [if_neg hz]
      exact ⟨_, rfl, fun _ => ⟨rfl, rfl, hlow, by simp [DecodedInst.setRegister,
        DecodedInst.setRegisterList], by simp [DecodedInst.setRegister,
        DecodedInst.setRegisterList, RegFile.readDataN], rfl⟩, fun h0 => absurd h0 hz⟩

/-- Witness of C22: `0xBD01` (POP {R0, PC}) gives operation POP with the list
`0x8001`, `0xB500` (PUSH {LR}) operation PUSH with the list `0x4000`, `0xC906`
(LDMIA R1, {R1, R2}) operation LDMIA with the list 6 and base R1, and `0xC800`
(LDMIA with no register) the placeholder SVC 66. -/
theorem C22_register_list_fields_witness :
    (∃ r, Decode.decodeFromAdc 0xBD01 0 .MSP RegFile.new DecodedInst.new = .ok (r, false) ∧
      r.op = .POP ∧ r.regList = 0x8001 ∧ r.regsNumber .RN = .MSP) ∧
    (∃ r, Decode.decodeFromAdc 0xB500 0 .MSP RegFile.new DecodedInst.new = .ok (r, false) ∧
      r.op = .PUSH ∧ r.regList = 0x4000) ∧
    (∃ r, Decode.decodeFromAdc 0xC906 0 .MSP RegFile.new DecodedInst.new = .ok (r, false) ∧
      r.op = .LDMIA ∧ r.regList = 6 ∧ r.regsNumber .RN = .R1) ∧
    (∃ r, Decode.decodeFromAdc 0xC800 0 .MSP RegFile.new DecodedInst.new = .ok (r, false) ∧
      r.op = .SVC ∧ r.im = 66) := by
  obtain ⟨r1, a1, b1, _⟩ :=
    (C22_register_list_fields 0xBD01 0 .MSP RegFile.new DecodedInst.new).1 (by decide)
  obtain ⟨r2, a2, b2, _⟩ :=
    (C22_register_list_fields 0xB500 0 .MSP RegFile.new DecodedInst.new).2.1 (by decide)
  obtain ⟨r3, a3, b3, _⟩ :=
    (C22_register_list_fields 0xC906 0 .MSP RegFile.new DecodedInst.new).2.2.1 (by decide)
  obtain ⟨r4, a4, _, b4⟩ :=
    (C22_register_list_fields 0xC800 0 .MSP RegFile.new DecodedInst.new).2.2.1 (by decide)
  obtain ⟨c1, c2, _, _, c5, _⟩ := b1 (by decide)
  obtain ⟨d1, d2, _⟩ := b2 (by decide)
  obtain ⟨e1, e2, _, e4, _⟩ := b3 (by decide)
  obtain ⟨f1, f2, _⟩ := b4 (by decide)
  exact ⟨⟨r1, a1, c1, c2, c5⟩, ⟨r2, a2, d1, d2⟩, ⟨r3, a3, e1, e2, by rw [e4]; decide⟩,
    ⟨r4, a4, f1, f2⟩⟩


/-! ## Latency of the memory by token: C11 -/

theorem notRevsh_fromStmia (inst pc : Nat) (activeSp : Reg) (rf : RegFile) (d : DecodedInst) :
    Decode.ResultAll (fun r => r.op ≠ .REVSH) (Decode.decodeFromStmia inst pc activeSp rf d) := by
  unfold Decode.decodeFromStmia
  repeat' (with_reducible apply all_ite <;> intro _)
  all_goals repeat (first
    | (with_reducible apply all_bind; intro _)
    | (with_reducible apply all_bind_cond; intro _))
  all_goals first
    | exact all_throw _ _
    | with_reducible apply all_pure
  all_goals (simp [Decode.issuePlaceholderInst, DecodedInst.setOperation,
    DecodedInst.setImmediate, DecodedInst.setRegisterList, DecodedInst.setRegister]; done)

theorem notRevsh_fromMov1 (inst pc : Nat) (activeSp : Reg) (rf : RegFile) (d : DecodedInst) :
    Decode.ResultAll (fun r => r.op ≠ .REVSH) (Decode.decodeFromMov1 inst pc activeSp rf d) := by
  unfold Decode.decodeFromMov1
  repeat' (with_reducible apply all_ite <;> intro _)
  all_goals repeat (first
    | (with_reducible apply all_bind; intro _)
    | (with_reducible apply all_bind_cond; intro _))
  all_goals first
    | exact notRevsh_fromStmia inst pc activeSp rf d
    | exact all_throw _ _
    | with_reducible apply all_pure
  all_goals (simp [Decode.issuePlaceholderInst, DecodedInst.setOperation,
    DecodedInst.setImmediate, DecodedInst.setRegisterList, DecodedInst.setRegister]; done)

theorem notRevsh_fromLdr1 (inst pc : Nat) (activeSp : Reg) (rf : RegFile) (d : DecodedInst) :
    Decode.ResultAll (fun r => r.op ≠ .REVSH) (Decode.decodeFromLdr1 inst pc activeSp rf d) := by
  unfold Decode.decodeFromLdr1
  repeat' (with_reducible apply all_ite <;> intro _)
  all_goals repeat (first
    | (with_reducible apply all_bind; intro _)
    | (with_reducible apply all_bind_cond; intro _))
  all_goals first
    | exact notRevsh_fromMov1 inst pc activeSp rf d
    | exact all_throw _ _
    | with_reducible apply all_pure
  all_goals (simp [Decode.issuePlaceholderInst, DecodedInst.setOperation,
    DecodedInst.setImmediate, DecodedInst.setRegisterList, DecodedInst.setRegister]; done)

theorem notRevsh_fromB2 (inst pc : Nat) (activeSp : Reg) (rf : RegFile) (d : DecodedInst) :
    Decode.ResultAll (fun r => r.op ≠ .REVSH) (Decode.decodeFromB2 inst pc activeSp rf d) := by
  unfold Decode.decodeFromB2
  repeat' (with_reducible apply all_ite <;> intro _)
  all_goals repeat (first
    | (with_reducible apply all_bind; intro _)
    | (with_reducible apply all_bind_cond; intro _))
  all_goals first
    | exact notRevsh_fromLdr1 inst pc activeSp rf d
    | exact all_throw _ _
    | with_reducible apply all_pure
  all_goals (simp [Decode.issuePlaceholderInst, DecodedInst.setOperation,
    DecodedInst.setImmediate, DecodedInst.setRegisterList, DecodedInst.setRegister]; done)

theorem notRevsh_fromAdc (inst pc : Nat) (activeSp : Reg) (rf : RegFile) (d : DecodedInst) :
    Decode.ResultAll (fun r => r.op ≠ .REVSH) (Decode.decodeFromAdc inst pc activeSp rf d) := by
  unfold Decode.decodeFromAdc
  repeat' (with_reducible apply all_ite <;> intro _)
  all_goals repeat (first
    | (with_reducible apply all_bind; intro _)
    | (with_reducible apply all_bind_cond; intro _))
  all_goals first
    | exact notRevsh_fromB2 inst pc activeSp rf d
    | exact all_throw _ _
    | with_reducible apply all_pure
  all_goals (simp [Decode.issuePlaceholderInst, DecodedInst.setOperation,
    DecodedInst.setImmediate, DecodedInst.setRegisterList, DecodedInst.setRegister]; done)

/-- The decoder on a halfword with `(h & 0xFFC0) = 0xBAC0`, the encoding of
REVSH: the block sets the operation REV16. -/
theorem decodeAt_REVSH (inst pc : Nat) (activeSp : Reg) (rf : RegFile) (d : DecodedInst)
    (e : inst &&& 0xFFC0 = 0xBAC0) :
    Decode.decodeFromAdc inst pc activeSp rf d = .ok
      (((d.setOperation .REV16).setRegister .RD (Reg.fromNat ((inst >>> 0) &&& 7))
        0).setRegister
        .RM (Reg.fromNat ((inst >>> 3) &&& 7)) (rf.regs (Reg.fromNat ((inst >>> 3) &&& 7))),
        false) := by
  have e1 : inst &&& 0xFF00 = 0xBA00 := by
    have := and_narrow inst 0xFFC0 0xBAC0 0xFF00 e (by decide)
    rw [this]
    decide
  obtain ⟨h1, h2⟩ := decode_reach_rev inst pc activeSp rf d e1
  have p0 : inst &&& 0xF800 ≠ 0x2000 := h2 (0xF800, 0x2000) (by decide)
  have p1 : inst &&& 0xFFC0 ≠ 0x0000 := h2 (0xFFC0, 0x0000) (by decide)
  have p2 : inst &&& 0xFFC0 ≠ 0x4340 := h2 (0xFFC0, 0x4340) (by decide)
  have p3 : inst &&& 0xFFC0 ≠ 0x43C0 := h2 (0xFFC0, 0x43C0) (by decide)
  have p4 : inst &&& 0xFFC0 ≠ 0x4240 := h2 (0xFFC0, 0x4240) (by decide)
  have p5 : inst &&& 0xFFFF ≠ 0xBF00 := h2 (0xFFFF, 0xBF00) (by decide)
  have p6 : inst &&& 0xFFC0 ≠ 0x4300 := h2 (0xFFC0, 0x4300) (by decide)
  have p7 : inst &&& 0xFE00 ≠ 0xBC00 := h2 (0xFE00, 0xBC00) (by decide)
  have p8 : inst &&& 0xFE00 ≠ 0xB400 := h2 (0xFE00, 0xB400) (by decide)
  rw [h1]
  unfold Decode.decodeFromMov1
  simp only [p0, p1, p2, p3, p4, p5, p6, p7, p8, e, if_false, if_true,
    setRegisterN_ok _ _ _ _ (and_seven_lt _), bind, Except.bind, pure, Except.pure,
    RegFile.readDataN, Nat.reduceEqDiff]

/-- The value that `rev16` writes for a 32-bit word: the bytes of each
halfword swapped. -/
theorem rev16_value (s : Processor) (rd : Reg) (v : Nat) (hv : v < 4294967296) :
    (rev16 s rd v).regFile.regs rd =
      v % 256 * 256 + v / 256 % 256 + 65536 * (v / 65536 % 256 * 256 + v / 16777216 % 256) := by
  have e0 : (v >>> 0) &&& 255 = v % 256 := by rw [Nat.shiftRight_zero, and_mask8]
  have e1 : (v >>> 8) &&& 255 = v / 256 % 256 := by
    rw [and_mask8, Nat.shiftRight_eq_div_pow]
  have e2 : (v >>> 16) &&& 255 = v / 65536 % 256 := by
    rw [and_mask8, Nat.shiftRight_eq_div_pow]
  have e3 : (v >>> 24) &&& 255 = v / 16777216 % 256 := by
    rw [and_mask8, Nat.shiftRight_eq_div_pow]
  have b0 : v % 256 < 256 := Nat.mod_lt _ (by norm_num)
  have b1 : v / 256 % 256 < 256 := Nat.mod_lt _ (by norm_num)
  have b2 : v / 65536 % 256 < 256 := Nat.mod_lt _ (by norm_num)
  have b3 : v / 16777216 % 256 < 256 := Nat.mod_lt _ (by norm_num)
  have s0 : shl32 (v % 256) 8 = 2 ^ 8 * (v % 256) := by
    rw [shl32_eq]
    omega
  have s1 : shl32 (v / 256 % 256) 0 = v / 256 % 256 := by
    rw [shl32_eq]
    omega
  have s2 : shl32 (v / 65536 % 256) 24 = 2 ^ 24 * (v / 65536 % 256) := by
    rw [shl32_eq]
    omega
  have s3 : shl32 (v / 16777216 % 256) 16 = 2 ^ 16 * (v / 16777216 % 256) := by
    rw [shl32_eq]
    omega
  have o1 : 2 ^ 8 * (v % 256) ||| v / 256 % 256 = 2 ^ 8 * (v % 256) + v / 256 % 256 :=
    (Nat.mul_add_lt_is_or (by omega) _).symm
  have o2 : 2 ^ 16 * (v / 16777216 % 256) ||| (2 ^ 8 * (v % 256) + v / 256 % 256) =
      2 ^ 16 * (v / 16777216 % 256) + (2 ^ 8 * (v % 256) + v / 256 % 256) :=
    (Nat.mul_add_lt_is_or (by omega) _).symm
  have o3 : 2 ^ 24 * (v / 65536 % 256) |||
      (2 ^ 16 * (v / 16777216 % 256) + (2 ^ 8 * (v % 256) + v / 256 % 256)) =
      2 ^ 24 * (v / 65536 % 256) +
        (2 ^ 16 * (v / 16777216 % 256) + (2 ^ 8 * (v % 256) + v / 256 % 256)) :=
    (Nat.mul_add_lt_is_or (by omega) _).symm
  have e : (rev16 s rd v).regFile.regs rd =
      2 ^ 8 * (v % 256) ||| v / 256 % 256 ||| 2 ^ 24 * (v / 65536 % 256) |||
        2 ^ 16 * (v / 16777216 % 256) := by
    simp only [rev16, e0, e1, e2, e3, s0, s1, s2, s3, addInstruction_regs, writeReg_regs_same]
  rw [e, o1, Nat.or_assoc, Nat.or_comm (2 ^ 24 * (v / 65536 % 256)), ← Nat.or_assoc,
    Nat.or_comm _ (2 ^ 16 * (v / 16777216 % 256)), o2, Nat.or_comm, o3]
  omega

/-- The value of REVSH in the words of the specification, in arithmetic. -/
theorem revshValue_eq (v : Nat) :
    revshValue v = v % 256 * 256 + v / 256 % 256 + (if v / 128 % 2 = 1 then 4294901760 else 0) := by
  have ha : v % 256 < 256 := Nat.mod_lt _ (by norm_num)
  have hb : v / 256 % 256 < 256 := Nat.mod_lt _ (by norm_num)
  have hx : v % 256 * 256 + v / 256 % 256 < 65536 := by omega
  have hbit : GET_BIT_AT_POS (v % 256 * 256 + v / 256 % 256) 15 = v / 128 % 2 := by
    rw [getBit_eq]
    have : (2 : Nat) ^ 15 = 32768 := by norm_num
    rw [this]
    have h1 : (v % 256 * 256 + v / 256 % 256) / 32768 = v % 256 / 128 := by omega
    have h2 : v / 128 % 2 = v % 256 / 128 := (Nat.mod_mul_right_div_self v 128 2).symm
    rw [h1, h2]
    omega
  have hs := sext_half _ hx
  rw [hbit] at hs
  rw [revshValue, ← hs]
  by_cases h1 : v / 128 % 2 = 1
  · simp only [if_pos h1]
    have ho := or_high_disjoint (v % 256 * 256 + v / 256 % 256) 65535 16 (by omega)
    have e : (2 : Nat) ^ 16 * 65535 = 4294901760 := by norm_num
    rw [e] at ho
    rw [ho]
    omega
  · simp only [if_neg h1, Nat.or_zero, Nat.add_zero]

/-- C18: the REVSH instruction, through decode and execute. Every halfword
with the encoding of REVSH, `(h & 0xFFC0) = 0xBAC0`, is decoded to a record
with the operation REV16, which `executeInst` hands to `rev16`; no halfword is
decoded to the operation REVSH, so the routine `revsh` is never run. For a
32-bit `v` the instruction therefore writes to Rd the word with the bytes of
each halfword of `v` swapped: its low halfword is the one of the
specification, its high halfword holds the swapped bytes of the high halfword
of `v` instead of sixteen copies of bit 7 of `v`. It is the value of the
specification if and only if the high halfword of `v` is already that sign
fill (0 when bit 7 is clear, 0xFFFF when it is set). The routine `revsh`
itself, were it run, would write the value of the specification when bit 7 of
`v` is set and `0x0000FFFF` otherwise. -/
theorem C18_revsh_runs_rev16 (s : Processor) (inst pc : Nat) (activeSp : Reg) (rf : RegFile)
    (d0 : DecodedInst) (rd : Reg) (v : Nat) (hv : v < 4294967296) :
    (inst &&& 0xFFC0 = 0xBAC0 → ∃ d,
      Decode.decodeFromAdc inst pc activeSp rf d0 = .ok (d, false) ∧ d.op = .REV16 ∧
      d.regsNumber .RD = Reg.fromNat (inst &&& 7) ∧
      d.regsNumber .RM = Reg.fromNat ((inst >>> 3) &&& 7) ∧
      d.regsData .RM = rf.regs (Reg.fromNat ((inst >>> 3) &&& 7)) ∧
      executeInst s d = .ok (rev16 s (Reg.fromNat (inst &&& 7))
        (rf.regs (Reg.fromNat ((inst >>> 3) &&& 7))))) ∧
    (∀ d half, Decode.decodeFromAdc inst pc activeSp rf d0 = .ok (d, half) → d.op ≠ .REVSH) ∧
    (rev16 s rd v).regFile.regs rd =
      v % 256 * 256 + v / 256 % 256 + 65536 * (v / 65536 % 256 * 256 + v / 16777216 % 256) ∧
    revshValue v =
      v % 256 * 256 + v / 256 % 256 + (if v / 128 % 2 = 1 then 4294901760 else 0) ∧
    ((rev16 s rd v).regFile.regs rd = revshValue v ↔
      v / 65536 = if v / 128 % 2 = 1 then 65535 else 0) ∧
    (v / 128 % 2 = 1 → (revsh s rd v).regFile.regs rd = revshValue v) ∧
    (v / 128 % 2 = 0 → (revsh s rd v).regFile.regs rd = 65535 ∧ revshValue v ≠ 65535) := by
  have hr := rev16_value s rd v hv
  have hs := revshValue_eq v
  have ha : v % 256 < 256 := Nat.mod_lt _ (by norm_num)
  have hb : v / 256 % 256 < 256 := Nat.mod_lt _ (by norm_num)
  have hx : v % 256 * 256 + v / 256 % 256 < 65536 := by omega
  have hbit : GET_BIT_AT_POS (v % 256 * 256 + v / 256 % 256) 15 = v / 128 % 2 := by
    rw [getBit_eq]
    have : (2 : Nat) ^ 15 = 32768 := by norm_num
    rw [this]
    have h1 : (v % 256 * 256 + v / 256 % 256) / 32768 = v % 256 / 128 := by omega
    have h2 : v / 128 % 2 = v % 256 / 128 := (Nat.mod_mul_right_div_self v 128 2).symm
    rw [h1, h2]
    omega
  have e : (revsh s rd v).regFile.regs rd =
      if v / 128 % 2 = 1 then (v % 256 * 256 + v / 256 % 256) ||| 4294901760
      else (v % 256 * 256 + v / 256 % 256) ||| 65535 := by
    simp only [revsh, revsh_swap, hbit, addInstruction_regs, writeReg_regs_same]
  refine ⟨?_, ?_, hr, hs, ?_, ?_, ?_⟩
  · intro he
    refine ⟨_, decodeAt_REVSH inst pc activeSp rf d0 he, rfl, ?_, ?_, ?_, ?_⟩
    · simp [DecodedInst.setRegister]
    · simp [DecodedInst.setRegister]
    · simp [DecodedInst.setRegister]
    · simp [executeInst, DecodedInst.getOperation, DecodedInst.getRegisterNumber,
        DecodedInst.getRegisterData, DecodedInst.setRegister, DecodedInst.setOperation]
  · intro d half hd
    exact notRevsh_fromAdc inst pc activeSp rf d0 d half hd
  · clear e hbit
    have e3 : v / 16777216 = v / 65536 / 256 := by
      rw [Nat.div_div_eq_div_mul]
    rw [hr, hs, e3]
    have hlt : v / 65536 < 65536 := by omega
    generalize v / 65536 = hi at hlt ⊢
    split_ifs with h1
    · omega
    · omega
  · intro h1
    have ho := or_high_disjoint (v % 256 * 256 + v / 256 % 256) 65535 16 (by omega)
    have e16 : (2 : Nat) ^ 16 * 65535 = 4294901760 := by norm_num
    rw [e16] at ho
    rw [e, if_pos h1, hs, if_pos h1, ho]
    omega
  · intro h0
    have h1 : ¬ v / 128 % 2 = 1 := by omega
    rw [e, if_neg h1, hs, if_neg h1]
    refine ⟨or_ones16 _ hx, ?_⟩
    omega

/-- Witness of C18 on the image `revshImage` (64 words, blocks of one word):
`MOVS R1, 0x80; REVSH R0, R1`. After four cycles R1 holds `0x80`; after the
fifth R0 holds `0x00008000`, one REV16 and no REVSH has been counted, and the
sixth cycle ends the run at the BKPT. The specification gives `0xFFFF8000`.
The halfword `0xBAC8` of the REVSH decodes to a REV16 record. -/
theorem C18_revsh_runs_rev16_witness :
    (∃ s4 s5, Simulator.run (some revshImage) 64 1 4 = .ok s4 ∧ s4.regFile.regs .R1 = 0x80 ∧
      Simulator.run (some revshImage) 64 1 5 = .ok s5 ∧ s5.regFile.regs .R0 = 0x8000 ∧
      s5.stats.instCount .REV16 = 1 ∧ s5.stats.instCount .REVSH = 0) ∧
    Simulator.run (some revshImage) 64 1 6 = .error (.exit 0) ∧
    revshValue 0x80 = 0xFFFF8000 ∧
    (rev16 (Processor.new 64 1) .R0 0x80).regFile.regs .R0 = 0x8000 ∧
    (rev16 (Processor.new 64 1) .R0 0x80).regFile.regs .R0 ≠ revshValue 0x80 ∧
    (∃ d, Decode.decodeFromAdc 0xBAC8 0 .MSP RegFile.new DecodedInst.new = .ok (d, false) ∧
      d.op = .REV16 ∧ d.regsNumber .RD = .R0 ∧ d.regsNumber .RM = .R1) := by
  obtain ⟨c1, _, c3, c4, c5, _, _⟩ := C18_revsh_runs_rev16 (Processor.new 64 1) 0xBAC8 0 .MSP
    RegFile.new DecodedInst.new .R0 0x80 (by norm_num)
  obtain ⟨d, d1, d2, d3, d4, _⟩ := c1 (by decide)
  obtain ⟨s4, h4, p4⟩ := ok_of_map (Simulator.run (some revshImage) 64 1 4)
    (fun s => s.regFile.regs .R1) 0x80 (by decide)
  obtain ⟨s5, h5, p5⟩ := ok_of_map (Simulator.run (some revshImage) 64 1 5)
    (fun s => (s.regFile.regs .R0, s.stats.instCount .REV16, s.stats.instCount .REVSH))
    (0x8000, 1, 0) (by decide)
  simp only [Prod.mk.injEq] at p5
  have hval : revshValue 0x80 = 0xFFFF8000 := by
    rw [c4]
    norm_num
  have hrev : (rev16 (Processor.new 64 1) .R0 0x80).regFile.regs .R0 = 0x8000 := by
    rw [c3]
  refine ⟨⟨s4, s5, h4, p4, h5, p5.1, p5.2.1, p5.2.2⟩, exit_of_code _ _ (by decide), hval, hrev,
    ?_, ⟨d, d1, d2, by rw [d3]; decide, by rw [d4]; decide⟩⟩
  intro h
  have := c5.1 h
  norm_num at this


/-! ## The CONTROL register in a run: C23 -/

end ThumbSim
